import Mathlib

/-!
TAL-SH argument-buffer memory manager: a shallow embedding.

The definitions below follow `src/TALSH/mem_manager.cpp` function by function.

Modelling conventions.
* A C `int` is an `Int`; `/` and `%` on `int` are `Int.tdiv` and `Int.tmod`
  (truncation towards zero). The sums, differences and products of the index
  functions `ab_get_2d_pos`, `ab_get_1d_pos` and `ab_get_1st_child`, which grow with
  the number of entries of the buffer, are reduced to 32 bits (`int_wrap`), as a
  32-bit two's complement machine does. The other `int` sums of `get_buf_entry`
  (`l+j`, `j+n`, `i+1`) add a level, an index into a group of siblings or an offset
  within a level; they are not reduced, and stay below `2^31` when the buffer has
  fewer than `2^31` entries.
* A C `size_t` is a `Nat` below `2^64`; every `size_t` operation is reduced modulo
  `2^64`. The conversions between `int` and `size_t` are `int_of_size_t` (keeps the
  low 32 bits, two's complement) and `size_t_of_int` (reduction modulo `2^64`).
* A C array is a `List`; indexing outside of the list has no defined result
  (`none`, and `exec.undef` for a whole call).
* The two `while` loops of `get_buf_entry` are driven by a fuel counter; running
  out of fuel is reported as `exec.timeout`, never as a result of the call.
* `TRY_LATER`, `DEVICE_UNABLE`, `MAX_GPU_ARGS`, `MAX_GPUS_PER_NODE` and
  `gpu_is_mine` come from `tensor_algebra.h`, which is not among the sources; they
  are parameters of the functions that use them.
-/

set_option autoImplicit false

namespace TALSH

/-! ## Machine integers and arrays -/

/-- Number of values of a `size_t` (64 bit). -/
def SIZE_T_RANGE : Nat := 2 ^ 64

/-- Conversion `size_t -> int` as done by `k=blck_sizes[i]`: the low 32 bits, read as
a two's complement number. -/
def int_of_size_t (x : Nat) : Int :=
  ((((x + 2 ^ 31) % 2 ^ 32 : Nat) : Int)) - 2 ^ 31

/-- Value of an `int` sum, difference or product whose mathematical value is `x`:
the low 32 bits, read as a two's complement number. -/
def int_wrap (x : Int) : Int :=
  (x + 2 ^ 31) % 2 ^ 32 - 2 ^ 31

/-- Conversion `int -> size_t` (usual arithmetic conversion): reduction modulo `2^64`. -/
def size_t_of_int (k : Int) : Nat :=
  (k % ((2 ^ 64 : Nat) : Int)).toNat

/-- Sum of two `size_t` values. -/
def size_t_add (a b : Nat) : Nat := (a + b) % SIZE_T_RANGE

/-- Difference of two `size_t` values (wraps around below zero). -/
def size_t_sub (a b : Nat) : Nat := (a + (SIZE_T_RANGE - b % SIZE_T_RANGE)) % SIZE_T_RANGE

/-- Product of two `size_t` values. -/
def size_t_mul (a b : Nat) : Nat := (a * b) % SIZE_T_RANGE

/-- Read `a[i]` for an `int` index; `none` outside of the array. -/
def arr_get (a : List Nat) (i : Int) : Option Nat :=
  if 0 ≤ i then a.get? i.toNat else none

/-- Write `a[i]=v` for an `int` index; `none` outside of the array. -/
def arr_set (a : List Nat) (i : Int) (v : Nat) : Option (List Nat) :=
  if 0 ≤ i ∧ i.toNat < a.length then some (a.set i.toNat v) else none

/-- Result of running a function of the program. -/
inductive exec (α : Type) where
  /-- The call returned. -/
  | ret : α → exec α
  /-- The call indexed an array outside of its bounds. -/
  | undef : exec α
  /-- The fuel of the model ran out before the call returned. -/
  | timeout : exec α
  deriving DecidableEq

/-! ## Argument buffer configuration and index arithmetic -/

/-- Argument buffer configuration (`ab_conf_t`). -/
structure ab_conf_t where
  /-- amount of top-level blocks (of the largest size) -/
  buf_top : Int
  /-- number of levels -/
  buf_depth : Int
  /-- branching factor for each subsequent level -/
  buf_branch : Int
  deriving DecidableEq

/-- The `for` loop of `ab_get_2d_pos`; the first argument counts the iterations that
are left (`buf_depth - i`). -/
def ab_get_2d_pos_loop (ab_conf : ab_conf_t) (entry_num : Int) :
    Nat → Int → Int → Int → Int → Option (Int × Int)
  | 0, _, _, _, _ => none
  | rem + 1, i, m, k, j =>
    if entry_num < j then some (i, int_wrap (entry_num - k))
    else ab_get_2d_pos_loop ab_conf entry_num rem (i + 1)
      (int_wrap (m * ab_conf.buf_branch)) j
      (int_wrap (j + int_wrap (m * ab_conf.buf_branch)))

/-- Given an argument buffer entry number, returns the status and, on status 0, the
buffer level and the offset within that level. -/
def ab_get_2d_pos (ab_conf : ab_conf_t) (entry_num : Int) : Int × Option (Int × Int) :=
  if entry_num ≥ 0 then
    match ab_get_2d_pos_loop ab_conf entry_num ab_conf.buf_depth.toNat 0 ab_conf.buf_top 0
        ab_conf.buf_top with
    | some p => (0, some p)
    | none => (1, none)
  else (2, none)

/-- The `for` loop of `ab_get_1d_pos`, returning the final `(j, k)`; the first
argument counts the iterations that are left (`buf_depth - i`). -/
def ab_get_1d_pos_loop (ab_conf : ab_conf_t) (level : Int) :
    Nat → Int → Int → Int → Int × Int
  | 0, _, j, k => (j, k)
  | rem + 1, i, j, k =>
    if i = level then (j, int_wrap (k * ab_conf.buf_branch))
    else ab_get_1d_pos_loop ab_conf level rem (i + 1)
      (int_wrap (j + int_wrap (k * ab_conf.buf_branch)))
      (int_wrap (k * ab_conf.buf_branch))

/-- Given a buffer level and offset within it, returns the plain buffer entry number
(negative on error). -/
def ab_get_1d_pos (ab_conf : ab_conf_t) (level offset : Int) : Int :=
  if level ≥ 0 ∧ level < ab_conf.buf_depth ∧ offset ≥ 0 then
    if level = 0 then offset
    else
      let jk := ab_get_1d_pos_loop ab_conf level (ab_conf.buf_depth - 1).toNat 1
        ab_conf.buf_top ab_conf.buf_top
      if offset < jk.2 then int_wrap (jk.1 + offset) else -1
  else -2

/-- Offset of the parent of a given buffer entry. -/
def ab_get_parent (ab_conf : ab_conf_t) (level offset : Int) : Int :=
  if level ≥ 0 ∧ level < ab_conf.buf_depth ∧ offset ≥ 0 ∧ ab_conf.buf_branch > 0 then
    offset.tdiv ab_conf.buf_branch
  else -1

/-- Offset of the first child of a given buffer entry. -/
def ab_get_1st_child (ab_conf : ab_conf_t) (level offset : Int) : Int :=
  if level ≥ 0 ∧ level < ab_conf.buf_depth ∧ offset ≥ 0 ∧ ab_conf.buf_branch > 0 then
    int_wrap (offset * ab_conf.buf_branch)
  else -1

/-- The `for` loop of `ab_get_offset`; the first argument counts the iterations that
are left (`i`). -/
def ab_get_offset_loop (ab_conf : ab_conf_t) (blck_sizes : List Nat) :
    Nat → Int → Int → Nat → Option Nat
  | 0, _, _, ab_offset => some ab_offset
  | rem + 1, i, j, ab_offset =>
    let j1 := ab_get_parent ab_conf i j
    match arr_get blck_sizes (i - 1) with
    | none => none
    | some s =>
      ab_get_offset_loop ab_conf blck_sizes rem (i - 1) j1
        (size_t_add ab_offset
          (size_t_mul (s % size_t_of_int ab_conf.buf_branch) (size_t_of_int j1)))

/-- Byte offset in the argument buffer space of a buffer entry `(level, offset)`. -/
def ab_get_offset (ab_conf : ab_conf_t) (level offset : Int) (blck_sizes : List Nat) :
    Option Nat :=
  match arr_get blck_sizes level with
  | none => none
  | some s =>
    ab_get_offset_loop ab_conf blck_sizes level.toNat level offset
      (size_t_mul (size_t_of_int offset) s)

/-! ## The pool allocator: `get_buf_entry` and `free_buf_entry` -/

/-- What one pass through the body of the inner `while(j<k)` loop of `get_buf_entry`
decides for the entry `(i, off)`, `off = l+j`. -/
inductive probe_t where
  /-- `return 1` -/
  | fail : probe_t
  /-- an array was indexed outside of its bounds -/
  | undef : probe_t
  /-- entry found: `*entry_num=m`, `*entry_ptr` is `ptr` bytes into the buffer, `break` -/
  | found (m : Int) (ptr : Nat) : probe_t
  /-- `break` with no entry found (initiate passing to the next level) -/
  | descend : probe_t
  /-- `j++` (horizontal shift) -/
  | shift : probe_t
  deriving DecidableEq

/-- Body of the inner `while(j<k)` loop of `get_buf_entry` at the entry `(i, off)`. -/
def probe (ab_conf : ab_conf_t) (bsize : Nat) (ab_occ : List Nat) (ab_occ_size : Nat)
    (blck_sizes : List Nat) (i off : Int) : probe_t :=
  let m := ab_get_1d_pos ab_conf i off
  if m < 0 ∨ m ≥ (ab_occ_size : Int) then probe_t.fail
  else
    match arr_get blck_sizes i, arr_get ab_occ m with
    | some s, some o =>
      if bsize ≤ size_t_sub s o then
        if i = ab_conf.buf_depth - 1 ∧ o = 0 then
          match ab_get_offset ab_conf i off blck_sizes with
          | some p => probe_t.found m p
          | none => probe_t.undef
        else
          match arr_get blck_sizes (i + 1) with
          | none => probe_t.undef
          | some s1 =>
            if s1 < bsize ∧ o = 0 then
              match ab_get_offset ab_conf i off blck_sizes with
              | some p => probe_t.found m p
              | none => probe_t.undef
            else if i < ab_conf.buf_depth - 1 then
              (if s1 ≥ bsize then probe_t.descend else probe_t.shift)
            else probe_t.shift
      else probe_t.shift
    | _, _ => probe_t.undef

/-- How the inner `while(j<k)` loop of `get_buf_entry` is left. -/
inductive scan_t where
  /-- `return 1` -/
  | fail : scan_t
  /-- an array was indexed outside of its bounds -/
  | undef : scan_t
  /-- the fuel ran out -/
  | timeout : scan_t
  /-- the loop was left (by `break` or because `j>=k`) with these values of `j`,
  `*entry_num` and `*entry_ptr` (`none` is `NULL`); `m` equals `*entry_num` when an
  entry was found -/
  | exit (j : Int) (entry_num : Int) (entry_ptr : Option Nat) : scan_t
  deriving DecidableEq

/-- The inner `while(j<k)` loop of `get_buf_entry` at level `i` with base offset `l`;
the first argument is the fuel (`k-j` iterations suffice). -/
def scan (ab_conf : ab_conf_t) (bsize : Nat) (ab_occ : List Nat) (ab_occ_size : Nat)
    (blck_sizes : List Nat) (i l k : Int) : Nat → Int → scan_t
  | 0, j => if j < k then scan_t.timeout else scan_t.exit j (-1) none
  | rem + 1, j =>
    if j < k then
      match probe ab_conf bsize ab_occ ab_occ_size blck_sizes i (l + j) with
      | probe_t.fail => scan_t.fail
      | probe_t.undef => scan_t.undef
      | probe_t.found m p => scan_t.exit j m (some p)
      | probe_t.descend => scan_t.exit j (-1) none
      | probe_t.shift => scan ab_conf bsize ab_occ ab_occ_size blck_sizes i l k rem (j + 1)
    else scan_t.exit j (-1) none

/-- How the outer `while(i<ab_conf.buf_depth)` loop of `get_buf_entry` is left. -/
inductive search_t where
  /-- `return code` from inside the loop (codes 1, 2, 3) -/
  | fail (code : Int) : search_t
  /-- the loop was left with these values of `i`, `l`, `*entry_num`, `*entry_ptr` -/
  | exit (i l : Int) (entry_num : Int) (entry_ptr : Option Nat) : search_t
  deriving DecidableEq

/-- The outer `while(i<ab_conf.buf_depth)` loop of `get_buf_entry`, entered with the
values `i`, `l`, `n`; the first argument is the fuel. -/
def search (ab_conf : ab_conf_t) (bsize : Nat) (ab_occ : List Nat) (ab_occ_size : Nat)
    (blck_sizes : List Nat) : Nat → Int → Int → Int → exec search_t
  | 0, _, _, _ => exec.timeout
  | fuel + 1, i, l, n =>
    if i < ab_conf.buf_depth then
      let k := if i > 0 then ab_conf.buf_branch else ab_conf.buf_top
      let j0 := l.tmod k
      let l1 := l - j0
      let j1 := j0 + n
      match scan ab_conf bsize ab_occ ab_occ_size blck_sizes i l1 k (k - j1).toNat j1 with
      | scan_t.fail => exec.ret (search_t.fail 1)
      | scan_t.undef => exec.undef
      | scan_t.timeout => exec.timeout
      | scan_t.exit j entry_num entry_ptr =>
        if entry_num ≥ 0 then exec.ret (search_t.exit i l1 entry_num entry_ptr)
        else if j < k then
          let l2 := ab_get_1st_child ab_conf i (l1 + j)
          if l2 < 0 ∨ l2 ≥ (ab_occ_size : Int) then exec.ret (search_t.fail 2)
          else search ab_conf bsize ab_occ ab_occ_size blck_sizes fuel (i + 1) l2 0
        else if i > 0 then
          let l2 := ab_get_parent ab_conf i l1
          if l2 < 0 ∨ l2 ≥ (ab_occ_size : Int) then exec.ret (search_t.fail 3)
          else search ab_conf bsize ab_occ ab_occ_size blck_sizes fuel (i - 1) l2 1
        else exec.ret (search_t.exit i l1 entry_num entry_ptr)
    else exec.ret (search_t.exit i l (-1) none)

/-- Values handed back by `get_buf_entry`. -/
structure get_buf_t where
  /-- returned status -/
  status : Int
  /-- the occupancy table after the call -/
  ab_occ : List Nat
  /-- `*entry_ptr` as a byte offset from `arg_buf_ptr`; `none` is `NULL` -/
  entry_ptr : Option Nat
  /-- `*entry_num` -/
  entry_num : Int
  deriving DecidableEq

/-- The loop `while(i>0)` of `get_buf_entry` that modifies the occupancy of the
upper-level parental entries by `k`; the first argument counts the iterations
that are left (`i`). Returns the status (0 or 4) and the table. -/
def occupy_parents (ab_conf : ab_conf_t) (ab_occ_size : Nat) (k : Int) :
    Nat → Int → Int → List Nat → Option (Int × List Nat)
  | 0, _, _, ab_occ => some (0, ab_occ)
  | rem + 1, i, l, ab_occ =>
    let l1 := ab_get_parent ab_conf i l
    let m := ab_get_1d_pos ab_conf (i - 1) l1
    if m < 0 ∨ m ≥ (ab_occ_size : Int) then some (4, ab_occ)
    else
      match arr_get ab_occ m with
      | none => none
      | some o =>
        match arr_set ab_occ m (size_t_add o (size_t_of_int k)) with
        | none => none
        | some ab_occ1 => occupy_parents ab_conf ab_occ_size k rem (i - 1) l1 ab_occ1

/-- Finds an appropriate argument buffer entry in any given argument buffer
(`get_buf_entry`), with an explicit amount of fuel for the search loop. -/
def get_buf_entry_fuel (TRY_LATER DEVICE_UNABLE : Int) (fuel : Nat) (ab_conf : ab_conf_t)
    (bsize : Nat) (ab_occ : List Nat) (ab_occ_size : Nat) (blck_sizes : List Nat) :
    exec get_buf_t :=
  match search ab_conf bsize ab_occ ab_occ_size blck_sizes fuel 0 0 0 with
  | exec.timeout => exec.timeout
  | exec.undef => exec.undef
  | exec.ret (search_t.fail code) => exec.ret ⟨code, ab_occ, none, -1⟩
  | exec.ret (search_t.exit i l entry_num entry_ptr) =>
    if entry_num ≥ 0 ∧ entry_num < (ab_occ_size : Int) then
      match arr_get blck_sizes i with
      | none => exec.undef
      | some s =>
        let k := int_of_size_t s
        match arr_set ab_occ entry_num (size_t_of_int k) with
        | none => exec.undef
        | some ab_occ1 =>
          match occupy_parents ab_conf ab_occ_size k i.toNat i l ab_occ1 with
          | none => exec.undef
          | some (st, ab_occ2) => exec.ret ⟨st, ab_occ2, entry_ptr, entry_num⟩
    else
      match arr_get blck_sizes 0 with
      | none => exec.undef
      | some s0 =>
        if bsize > s0 then exec.ret ⟨DEVICE_UNABLE, ab_occ, entry_ptr, entry_num⟩
        else exec.ret ⟨TRY_LATER, ab_occ, entry_ptr, entry_num⟩

/-- Iterations of the search loop that suffice to leave a group of `b` sibling
entries with `d` levels below it. -/
def group_iters (b : Nat) : Nat → Nat
  | 0 => 1
  | d + 1 => b * (1 + group_iters b d) + 1

/-- Iterations of the search loop of `get_buf_entry` that always suffice. -/
def search_fuel (ab_conf : ab_conf_t) : Nat :=
  ab_conf.buf_top.toNat * (1 + group_iters ab_conf.buf_branch.toNat
    (ab_conf.buf_depth.toNat - 1)) + 1

/-- The function `get_buf_entry`: the search loop is given `search_fuel` iterations,
which is enough for it to finish (`get_buf_entry_fuel_enough`). -/
def get_buf_entry (TRY_LATER DEVICE_UNABLE : Int) (ab_conf : ab_conf_t) (bsize : Nat)
    (ab_occ : List Nat) (ab_occ_size : Nat) (blck_sizes : List Nat) : exec get_buf_t :=
  get_buf_entry_fuel TRY_LATER DEVICE_UNABLE (search_fuel ab_conf) ab_conf bsize ab_occ
    ab_occ_size blck_sizes

/-- The loop `while(i>0)` of `free_buf_entry` that modifies the occupancy of the
upper-level parental entries by `k`; the first argument counts the iterations
that are left (`i`). Returns the status (0 or 2) and the table. -/
def release_parents (ab_conf : ab_conf_t) (ab_occ_size : Nat) (k : Int) :
    Nat → Int → Int → List Nat → Option (Int × List Nat)
  | 0, _, _, ab_occ => some (0, ab_occ)
  | rem + 1, i, j, ab_occ =>
    let j1 := ab_get_parent ab_conf i j
    let m := ab_get_1d_pos ab_conf (i - 1) j1
    if m < 0 ∨ m ≥ (ab_occ_size : Int) then some (2, ab_occ)
    else
      match arr_get ab_occ m with
      | none => none
      | some o =>
        match arr_set ab_occ m (size_t_sub o (size_t_of_int k)) with
        | none => none
        | some ab_occ1 => release_parents ab_conf ab_occ_size k rem (i - 1) j1 ab_occ1

/-- Releases an argument buffer entry in any given argument buffer
(`free_buf_entry`): the returned status and the occupancy table after the call;
`none` when an array is indexed outside of its bounds. -/
def free_buf_entry (ab_conf : ab_conf_t) (ab_occ : List Nat) (ab_occ_size : Nat)
    (blck_sizes : List Nat) (entry_num : Int) : Option (Int × List Nat) :=
  match ab_get_2d_pos ab_conf entry_num with
  | (0, some (i, j)) =>
    match arr_get ab_occ entry_num, arr_get blck_sizes i with
    | some o, some s =>
      if o = s then
        let k := int_of_size_t s
        match arr_set ab_occ entry_num 0 with
        | none => none
        | some ab_occ1 => release_parents ab_conf ab_occ_size k i.toNat i j ab_occ1
      else some (3, ab_occ)
    | _, _ => none
  | _ => some (1, ab_occ)

/-! ## A recursive description of the search of `get_buf_entry`

The functions of this section are not part of the program: they describe the
depth-first traversal that the search loop performs, and the theorem
`search_eq_dfs` proves that the loop computes exactly this. -/

/-- Result of the recursive description of the search. -/
inductive dfs_t where
  /-- `return code` (codes 1, 2, 3) -/
  | fail (code : Int) : dfs_t
  /-- an array was indexed outside of its bounds -/
  | undef : dfs_t
  /-- an entry was found in the group with base offset `base` of level `lev` -/
  | found (lev base : Nat) (entry_num : Int) (ptr : Nat) : dfs_t
  /-- all the entries were passed without finding one -/
  | none : dfs_t
  deriving DecidableEq

/-- Search the entries `base+j, base+j+1, ...` (`rem` of them) of level `lev` from
left to right; `child` searches the group of children of an entry. -/
def dfs_group (ab_conf : ab_conf_t) (bsize : Nat) (ab_occ : List Nat) (ab_occ_size : Nat)
    (blck_sizes : List Nat) (child : Nat → Nat → dfs_t) (lev base : Nat) :
    Nat → Nat → dfs_t
  | 0, _ => dfs_t.none
  | rem + 1, j =>
    match probe ab_conf bsize ab_occ ab_occ_size blck_sizes (lev : Int)
        ((base : Int) + (j : Int)) with
    | probe_t.fail => dfs_t.fail 1
    | probe_t.undef => dfs_t.undef
    | probe_t.found m p => dfs_t.found lev base m p
    | probe_t.shift =>
      dfs_group ab_conf bsize ab_occ ab_occ_size blck_sizes child lev base rem (j + 1)
    | probe_t.descend =>
      if ab_get_1st_child ab_conf (lev : Int) ((base : Int) + (j : Int)) < 0 ∨
          ab_get_1st_child ab_conf (lev : Int) ((base : Int) + (j : Int)) ≥
            (ab_occ_size : Int) then dfs_t.fail 2
      else
        match child (lev + 1) ((base + j) * ab_conf.buf_branch.toNat) with
        | dfs_t.none =>
          if ab_get_parent ab_conf ((lev : Int) + 1)
                (((base + j) * ab_conf.buf_branch.toNat : Nat) : Int) < 0 ∨
              ab_get_parent ab_conf ((lev : Int) + 1)
                (((base + j) * ab_conf.buf_branch.toNat : Nat) : Int) ≥
                (ab_occ_size : Int) then dfs_t.fail 3
          else
            dfs_group ab_conf bsize ab_occ ab_occ_size blck_sizes child lev base rem (j + 1)
        | r => r

/-- Search a whole group of children when `d` levels lie below the parent. -/
def dfs_child (ab_conf : ab_conf_t) (bsize : Nat) (ab_occ : List Nat) (ab_occ_size : Nat)
    (blck_sizes : List Nat) : Nat → Nat → Nat → dfs_t
  | 0 => fun _ _ => dfs_t.none
  | d + 1 => fun lev base =>
    dfs_group ab_conf bsize ab_occ ab_occ_size blck_sizes
      (dfs_child ab_conf bsize ab_occ ab_occ_size blck_sizes d) lev base
      ab_conf.buf_branch.toNat 0

/-- The whole search: the group of the top-level entries. -/
def dfs_top (ab_conf : ab_conf_t) (bsize : Nat) (ab_occ : List Nat) (ab_occ_size : Nat)
    (blck_sizes : List Nat) : dfs_t :=
  dfs_group ab_conf bsize ab_occ ab_occ_size blck_sizes
    (dfs_child ab_conf bsize ab_occ ab_occ_size blck_sizes (ab_conf.buf_depth.toNat - 1))
    0 0 ab_conf.buf_top.toNat 0

/-- The part of one iteration of the outer loop of `get_buf_entry` that follows the
inner loop. -/
def after_scan (ab_conf : ab_conf_t) (bsize : Nat) (ab_occ : List Nat) (ab_occ_size : Nat)
    (blck_sizes : List Nat) (fuel : Nat) (i l1 k : Int) : scan_t → exec search_t
  | scan_t.fail => exec.ret (search_t.fail 1)
  | scan_t.undef => exec.undef
  | scan_t.timeout => exec.timeout
  | scan_t.exit j entry_num entry_ptr =>
    if entry_num ≥ 0 then exec.ret (search_t.exit i l1 entry_num entry_ptr)
    else if j < k then
      if ab_get_1st_child ab_conf i (l1 + j) < 0 ∨
          ab_get_1st_child ab_conf i (l1 + j) ≥ (ab_occ_size : Int) then
        exec.ret (search_t.fail 2)
      else search ab_conf bsize ab_occ ab_occ_size blck_sizes fuel (i + 1)
        (ab_get_1st_child ab_conf i (l1 + j)) 0
    else if i > 0 then
      if ab_get_parent ab_conf i l1 < 0 ∨ ab_get_parent ab_conf i l1 ≥ (ab_occ_size : Int) then
        exec.ret (search_t.fail 3)
      else search ab_conf bsize ab_occ ab_occ_size blck_sizes fuel (i - 1)
        (ab_get_parent ab_conf i l1) 1
    else exec.ret (search_t.exit i l1 entry_num entry_ptr)

/-- How the search loop goes on once the recursive description has dealt with the
rest of the group with base offset `base` of level `lev`. -/
def dfs_finish (ab_conf : ab_conf_t) (bsize : Nat) (ab_occ : List Nat) (ab_occ_size : Nat)
    (blck_sizes : List Nat) (fuel : Nat) (lev base : Nat) : dfs_t → exec search_t
  | dfs_t.fail code => exec.ret (search_t.fail code)
  | dfs_t.undef => exec.undef
  | dfs_t.found lev1 base1 m p => exec.ret (search_t.exit lev1 base1 m (some p))
  | dfs_t.none =>
    if (lev : Int) > 0 then
      if ab_get_parent ab_conf lev base < 0 ∨
          ab_get_parent ab_conf lev base ≥ (ab_occ_size : Int) then
        exec.ret (search_t.fail 3)
      else search ab_conf bsize ab_occ ab_occ_size blck_sizes fuel (lev - 1)
        (ab_get_parent ab_conf lev base) 1
    else exec.ret (search_t.exit lev base (-1) none)

/-- Number of entries of a group of siblings of level `lev`. -/
def group_size (ab_conf : ab_conf_t) (lev : Nat) : Nat :=
  if lev = 0 then ab_conf.buf_top.toNat else ab_conf.buf_branch.toNat

/-- What `get_buf_entry` does after the search loop was left with the values `i`,
`l`, `*entry_num`, `*entry_ptr`. -/
def get_buf_finish (TRY_LATER DEVICE_UNABLE : Int) (ab_conf : ab_conf_t) (bsize : Nat)
    (ab_occ : List Nat) (ab_occ_size : Nat) (blck_sizes : List Nat) (i l entry_num : Int)
    (entry_ptr : Option Nat) : exec get_buf_t :=
  if entry_num ≥ 0 ∧ entry_num < (ab_occ_size : Int) then
    match arr_get blck_sizes i with
    | none => exec.undef
    | some s =>
      match arr_set ab_occ entry_num (size_t_of_int (int_of_size_t s)) with
      | none => exec.undef
      | some ab_occ1 =>
        match occupy_parents ab_conf ab_occ_size (int_of_size_t s) i.toNat i l ab_occ1 with
        | none => exec.undef
        | some (st, ab_occ2) => exec.ret ⟨st, ab_occ2, entry_ptr, entry_num⟩
  else
    match arr_get blck_sizes 0 with
    | none => exec.undef
    | some s0 =>
      if bsize > s0 then exec.ret ⟨DEVICE_UNABLE, ab_occ, entry_ptr, entry_num⟩
      else exec.ret ⟨TRY_LATER, ab_occ, entry_ptr, entry_num⟩

/-! ## The free list of constant memory entries -/

/-- Module data of the constant memory banks: `bufs_ready`, `const_args_link` (one
row of `MAX_GPU_ARGS` links per GPU) and `const_args_ffe` (first free entry per
GPU). -/
structure const_args_t where
  /-- status of the Host and GPU argument buffers -/
  bufs_ready : Int
  /-- linked list of free entries in constant memory banks for each GPU -/
  const_args_link : List (List Int)
  /-- FFE of the `const_args_link[]` for each GPU -/
  const_args_ffe : List Int
  deriving DecidableEq

/-- The loop `for(int i=0;i<MAX_GPU_ARGS;i++) const_args_link[gpu_num][i]=i+1` on
the row of one GPU; the first argument counts the iterations that are left. -/
def const_args_row_init : Nat → Int → List Int → List Int
  | 0, _, row => row
  | rem + 1, i, row => const_args_row_init rem (i + 1) (row.set i.toNat (i + 1))

/-- The loop over `gpu_num` of `const_args_link_init`; the first argument counts the
iterations that are left (`gpu_end - gpu_num + 1`). -/
def const_args_link_init_loop (MAX_GPUS_PER_NODE MAX_GPU_ARGS : Int) :
    Nat → Int → const_args_t → Int × const_args_t
  | 0, _, st => (0, st)
  | rem + 1, gpu_num, st =>
    if gpu_num < MAX_GPUS_PER_NODE then
      const_args_link_init_loop MAX_GPUS_PER_NODE MAX_GPU_ARGS rem (gpu_num + 1)
        { st with
          const_args_ffe := st.const_args_ffe.set gpu_num.toNat 0
          const_args_link := st.const_args_link.set gpu_num.toNat
            (const_args_row_init MAX_GPU_ARGS.toNat 0
              (st.const_args_link.getD gpu_num.toNat [])) }
    else (1, st)

/-- Initializes the linked list `const_args_link[]` for each GPU in the range
`[gpu_beg..gpu_end]`; returns the status and the module data. -/
def const_args_link_init (MAX_GPUS_PER_NODE MAX_GPU_ARGS : Int) (gpu_beg gpu_end : Int)
    (st : const_args_t) : Int × const_args_t :=
  if gpu_beg ≥ 0 ∧ gpu_end ≥ gpu_beg then
    const_args_link_init_loop MAX_GPUS_PER_NODE MAX_GPU_ARGS (gpu_end - gpu_beg + 1).toNat
      gpu_beg st
  else (0, st)

/-- Returns the number of a free `const_args[]` entry for GPU `gpu_num`: the status,
`*entry_num` and the module data after the call. -/
def const_args_entry_get (TRY_LATER MAX_GPUS_PER_NODE MAX_GPU_ARGS : Int)
    (gpu_is_mine : Int → Int) (st : const_args_t) (gpu_num : Int) :
    Int × Int × const_args_t :=
  if st.bufs_ready = 0 then (-1, -1, st)
  else if gpu_num ≥ 0 ∧ gpu_num < MAX_GPUS_PER_NODE then
    if gpu_is_mine gpu_num ≠ 0 then
      let ffe := st.const_args_ffe.getD gpu_num.toNat 0
      if ffe ≥ 0 ∧ ffe < MAX_GPU_ARGS then
        (0, ffe, { st with
          const_args_ffe := st.const_args_ffe.set gpu_num.toNat
            ((st.const_args_link.getD gpu_num.toNat []).getD ffe.toNat 0) })
      else (TRY_LATER, -1, st)
    else (-2, -1, st)
  else (-3, -1, st)

/-- Frees an entry of `const_args[]` for GPU `gpu_num`: the status and the module
data after the call. -/
def const_args_entry_free (MAX_GPUS_PER_NODE MAX_GPU_ARGS : Int) (gpu_is_mine : Int → Int)
    (st : const_args_t) (gpu_num entry_num : Int) : Int × const_args_t :=
  if st.bufs_ready = 0 then (-1, st)
  else if gpu_num ≥ 0 ∧ gpu_num < MAX_GPUS_PER_NODE then
    if gpu_is_mine gpu_num ≠ 0 then
      if entry_num ≥ 0 ∧ entry_num < MAX_GPU_ARGS then
        let ffe := st.const_args_ffe.getD gpu_num.toNat 0
        let link1 :=
          if ffe < MAX_GPU_ARGS ∧ ffe ≥ 0 then
            st.const_args_link.set gpu_num.toNat
              ((st.const_args_link.getD gpu_num.toNat []).set entry_num.toNat ffe)
          else st.const_args_link
        (0, { st with
          const_args_link := link1
          const_args_ffe := st.const_args_ffe.set gpu_num.toNat entry_num })
      else (1, st)
    else (-2, st)
  else (-3, st)

/-- The module data after `n` successive calls of `const_args_entry_get`. -/
def const_args_get_n (TRY_LATER MAX_GPUS_PER_NODE MAX_GPU_ARGS : Int)
    (gpu_is_mine : Int → Int) (gpu_num : Int) : Nat → const_args_t → const_args_t
  | 0, st => st
  | n + 1, st =>
    const_args_get_n TRY_LATER MAX_GPUS_PER_NODE MAX_GPU_ARGS gpu_is_mine gpu_num n
      (const_args_entry_get TRY_LATER MAX_GPUS_PER_NODE MAX_GPU_ARGS gpu_is_mine st
        gpu_num).2.2

/-- The arrays `const_args_link` and `const_args_ffe` have their declared
dimensions `[MAX_GPUS_PER_NODE][MAX_GPU_ARGS]` and `[MAX_GPUS_PER_NODE]`. -/
def const_args_shape (MAX_GPUS_PER_NODE MAX_GPU_ARGS : Int) (st : const_args_t) : Prop :=
  st.const_args_ffe.length = MAX_GPUS_PER_NODE.toNat ∧
  st.const_args_link.length = MAX_GPUS_PER_NODE.toNat ∧
  ∀ row ∈ st.const_args_link, row.length = MAX_GPU_ARGS.toNat

/-- What `const_args_link_init` establishes for the GPU `g`: the first free entry is
0 and entry `j` is linked to entry `j+1`. -/
def const_args_fresh (MAX_GPU_ARGS : Int) (g : Nat) (st : const_args_t) : Prop :=
  st.const_args_ffe.getD g 0 = 0 ∧
  ∀ j : Nat, (j : Int) < MAX_GPU_ARGS →
    (st.const_args_link.getD g []).getD j 0 = (j : Int) + 1

/-! ## Specification vocabulary for the pool allocator -/

/-- Number of entries of level `lev`: `buf_top * buf_branch ^ lev`. -/
def level_width (ab_conf : ab_conf_t) (lev : Nat) : Nat :=
  ab_conf.buf_top.toNat * ab_conf.buf_branch.toNat ^ lev

/-- Number of entries of the levels above `lev`, which is the plain entry number of
the first entry of level `lev`. -/
def level_base (ab_conf : ab_conf_t) : Nat → Nat
  | 0 => 0
  | lev + 1 => level_base ab_conf lev + level_width ab_conf lev

/-- Total number of entries of the occupancy table. -/
def total_entries (ab_conf : ab_conf_t) : Nat :=
  level_base ab_conf ab_conf.buf_depth.toNat

/-- Plain entry number of the entry `(lev, off)`. -/
def entry_index (ab_conf : ab_conf_t) (lev off : Nat) : Nat :=
  level_base ab_conf lev + off

/-- The configuration is usable: at least one top-level entry, one level and a
branching factor of at least 1, and every entry number is a value of an `int`
(fewer than `2^31` entries). -/
def conf_ok (ab_conf : ab_conf_t) : Prop :=
  1 ≤ ab_conf.buf_top ∧ 1 ≤ ab_conf.buf_branch ∧ 1 ≤ ab_conf.buf_depth ∧
    total_entries ab_conf < 2 ^ 31

instance (ab_conf : ab_conf_t) : Decidable (conf_ok ab_conf) := by
  unfold conf_ok; exact inferInstance

/-- Size class of level `lev`. -/
def blck_size (blck_sizes : List Nat) (lev : Nat) : Nat := blck_sizes.getD lev 0

/-- Occupancy counter of the entry `(lev, off)`. -/
def occ_at (ab_conf : ab_conf_t) (ab_occ : List Nat) (lev off : Nat) : Nat :=
  ab_occ.getD (entry_index ab_conf lev off) 0

/-- A well-formed pool of `pool_size` bytes: `top >= 1`, `branch >= 2`, `depth >= 1`,
one size class per level, `s[0] = pool_size/top`, `s[i+1] = s[i]/branch`, and all
size classes in `[1, 2^31)`. -/
def well_formed (ab_conf : ab_conf_t) (pool_size : Nat) (blck_sizes : List Nat) : Prop :=
  1 ≤ ab_conf.buf_top ∧ 2 ≤ ab_conf.buf_branch ∧ 1 ≤ ab_conf.buf_depth ∧
  pool_size < SIZE_T_RANGE ∧
  blck_sizes.length = ab_conf.buf_depth.toNat ∧
  blck_size blck_sizes 0 = pool_size / ab_conf.buf_top.toNat ∧
  (∀ lev < ab_conf.buf_depth.toNat, lev + 1 < ab_conf.buf_depth.toNat →
    blck_size blck_sizes (lev + 1) = blck_size blck_sizes lev / ab_conf.buf_branch.toNat) ∧
  (∀ lev < ab_conf.buf_depth.toNat,
    1 ≤ blck_size blck_sizes lev ∧ blck_size blck_sizes lev < 2 ^ 31)

instance (ab_conf : ab_conf_t) (pool_size : Nat) (blck_sizes : List Nat) :
    Decidable (well_formed ab_conf pool_size blck_sizes) := by
  unfold well_formed; exact inferInstance

/-- A well-formed pool whose entry numbers are values of an `int`: the occupancy
table has fewer than `2^31` entries. -/
def pool_ok (ab_conf : ab_conf_t) (pool_size : Nat) (blck_sizes : List Nat) : Prop :=
  well_formed ab_conf pool_size blck_sizes ∧ total_entries ab_conf < 2 ^ 31

instance (ab_conf : ab_conf_t) (pool_size : Nat) (blck_sizes : List Nat) :
    Decidable (pool_ok ab_conf pool_size blck_sizes) := by
  unfold pool_ok; exact inferInstance

/-- Sum of the occupancy counters of the children of the entry `(lev, off)`. -/
def children_sum (ab_conf : ab_conf_t) (ab_occ : List Nat) (lev off : Nat) : Nat :=
  ∑ r ∈ Finset.range ab_conf.buf_branch.toNat,
    occ_at ab_conf ab_occ (lev + 1) (off * ab_conf.buf_branch.toNat + r)

/-- Every descendant of the entry `(lev, off)` has occupancy counter 0. The
descendants `d` levels down are the entries `off * branch^d + r`, `r < branch^d`. -/
def descendants_free (ab_conf : ab_conf_t) (ab_occ : List Nat) (lev off : Nat) : Prop :=
  ∀ d < ab_conf.buf_depth.toNat, 1 ≤ d → lev + d < ab_conf.buf_depth.toNat →
    ∀ r < ab_conf.buf_branch.toNat ^ d,
      occ_at ab_conf ab_occ (lev + d) (off * ab_conf.buf_branch.toNat ^ d + r) = 0

instance (ab_conf : ab_conf_t) (ab_occ : List Nat) (lev off : Nat) :
    Decidable (descendants_free ab_conf ab_occ lev off) := by
  unfold descendants_free; exact inferInstance

/-- The entry `(lev, off)` is occupied as a whole: its counter equals its level size
and every descendant's counter is 0. -/
def whole_occupied (ab_conf : ab_conf_t) (blck_sizes ab_occ : List Nat) (lev off : Nat) :
    Prop :=
  occ_at ab_conf ab_occ lev off = blck_size blck_sizes lev ∧
    descendants_free ab_conf ab_occ lev off

instance (ab_conf : ab_conf_t) (blck_sizes ab_occ : List Nat) (lev off : Nat) :
    Decidable (whole_occupied ab_conf blck_sizes ab_occ lev off) := by
  unfold whole_occupied; exact inferInstance

/-- The occupancy invariant: each entry is either occupied as a whole or its counter
equals the sum of its children's counters (0 at the deepest level). -/
def occupancy_invariant (ab_conf : ab_conf_t) (blck_sizes ab_occ : List Nat) : Prop :=
  ∀ lev < ab_conf.buf_depth.toNat, ∀ off < level_width ab_conf lev,
    whole_occupied ab_conf blck_sizes ab_occ lev off ∨
    occ_at ab_conf ab_occ lev off =
      (if lev + 1 < ab_conf.buf_depth.toNat then children_sum ab_conf ab_occ lev off else 0)

instance (ab_conf : ab_conf_t) (blck_sizes ab_occ : List Nat) :
    Decidable (occupancy_invariant ab_conf blck_sizes ab_occ) := by
  unfold occupancy_invariant; exact inferInstance

/-- The request fits into the free capacity of the entry `(lev, off)`: the test
`bsize <= blck_sizes[i]-ab_occ[m]` of `get_buf_entry`. -/
def fits (ab_conf : ab_conf_t) (blck_sizes ab_occ : List Nat) (bsize lev off : Nat) : Prop :=
  bsize ≤ size_t_sub (blck_size blck_sizes lev) (occ_at ab_conf ab_occ lev off)

instance (ab_conf : ab_conf_t) (blck_sizes ab_occ : List Nat) (bsize lev off : Nat) :
    Decidable (fits ab_conf blck_sizes ab_occ bsize lev off) := by
  unfold fits; exact inferInstance

/-- Level `t` is the target level of a request of `bsize` bytes: the deepest level
whose size class is at least `bsize`. -/
def target_level (ab_conf : ab_conf_t) (blck_sizes : List Nat) (bsize t : Nat) : Prop :=
  t < ab_conf.buf_depth.toNat ∧ bsize ≤ blck_size blck_sizes t ∧
    (t + 1 < ab_conf.buf_depth.toNat → blck_size blck_sizes (t + 1) < bsize)

instance (ab_conf : ab_conf_t) (blck_sizes : List Nat) (bsize t : Nat) :
    Decidable (target_level ab_conf blck_sizes bsize t) := by
  unfold target_level; exact inferInstance

/-- The entry `(t, off)` can be reached by the search from level `lev` on: its
counter is 0 and the request fits into each of its ancestors at the levels
`lev, ..., t-1`. -/
def avail_from (ab_conf : ab_conf_t) (blck_sizes ab_occ : List Nat) (bsize t lev off : Nat) :
    Prop :=
  occ_at ab_conf ab_occ t off = 0 ∧
    ∀ l < t, lev ≤ l →
      fits ab_conf blck_sizes ab_occ bsize l (off / ab_conf.buf_branch.toNat ^ (t - l))

instance (ab_conf : ab_conf_t) (blck_sizes ab_occ : List Nat) (bsize t lev off : Nat) :
    Decidable (avail_from ab_conf blck_sizes ab_occ bsize t lev off) := by
  unfold avail_from; exact inferInstance

/-- Byte offset of the entry `(lev, off)` in the buffer: an entry of level 0 starts at
`off * s[0]`, and the child number `r` of an entry starts `r * s[lev+1]` bytes after
its parent. -/
def entry_start (ab_conf : ab_conf_t) (blck_sizes : List Nat) : Nat → Nat → Nat
  | 0, off => off * blck_size blck_sizes 0
  | lev + 1, off =>
    entry_start ab_conf blck_sizes lev (off / ab_conf.buf_branch.toNat) +
      (off % ab_conf.buf_branch.toNat) * blck_size blck_sizes (lev + 1)

/-- The sum that the loop of `ab_get_offset` adds to `offset*blck_sizes[level]` when it
walks from level `i` up to level 0, starting at the entry `j`. -/
def parent_sum (ab_conf : ab_conf_t) (blck_sizes : List Nat) : Nat → Nat → Nat
  | 0, _ => 0
  | i + 1, j =>
    (blck_size blck_sizes i % ab_conf.buf_branch.toNat) * (j / ab_conf.buf_branch.toNat) +
      parent_sum ab_conf blck_sizes i (j / ab_conf.buf_branch.toNat)

/-- Apply `f` to the counter of every ancestor of the entry `(lev, off)`, the parent
first. -/
def update_parents (f : Nat → Nat) (ab_conf : ab_conf_t) : Nat → Nat → List Nat → List Nat
  | 0, _, ab_occ => ab_occ
  | lev + 1, off, ab_occ =>
    update_parents f ab_conf lev (off / ab_conf.buf_branch.toNat)
      (ab_occ.set (entry_index ab_conf lev (off / ab_conf.buf_branch.toNat))
        (f (ab_occ.getD (entry_index ab_conf lev (off / ab_conf.buf_branch.toNat)) 0)))

/-- The value that `get_buf_entry` and `free_buf_entry` keep in the `int` variable `k`
for an entry of level `lev`, converted back to `size_t`. -/
def level_k (blck_sizes : List Nat) (lev : Nat) : Nat :=
  size_t_of_int (int_of_size_t (blck_size blck_sizes lev))

/-- The occupancy table after `get_buf_entry` has accepted the entry `(lev, off)`. -/
def table_after_get (ab_conf : ab_conf_t) (blck_sizes ab_occ : List Nat) (lev off : Nat) :
    List Nat :=
  update_parents (fun v => size_t_add v (level_k blck_sizes lev)) ab_conf lev off
    (ab_occ.set (entry_index ab_conf lev off) (level_k blck_sizes lev))

/-- The occupancy table after `free_buf_entry` has released the entry `(lev, off)`. -/
def table_after_free (ab_conf : ab_conf_t) (blck_sizes ab_occ : List Nat) (lev off : Nat) :
    List Nat :=
  update_parents (fun v => size_t_sub v (level_k blck_sizes lev)) ab_conf lev off
    (ab_occ.set (entry_index ab_conf lev off) 0)

/-- The entry `(l, x)` is the entry `(lev, off)` or one of its ancestors. -/
def on_path (ab_conf : ab_conf_t) (lev off l x : Nat) : Prop :=
  l ≤ lev ∧ x = off / ab_conf.buf_branch.toNat ^ (lev - l)

instance (ab_conf : ab_conf_t) (lev off l x : Nat) : Decidable (on_path ab_conf lev off l x) := by
  unfold on_path; exact inferInstance

/-! ## Sequences of allocator calls -/

/-- A call of the allocator. -/
inductive pool_op where
  /-- `get_buf_entry` with request size `bsize` -/
  | get (bsize : Nat) : pool_op
  /-- `free_buf_entry` of entry `entry_num` -/
  | free (entry_num : Int) : pool_op
  deriving DecidableEq

/-- The occupancy table together with the entries that are live: returned by an
earlier successful `get_buf_entry` and not freed since. -/
structure pool_t where
  /-- the occupancy table -/
  ab_occ : List Nat
  /-- the live entries, most recent first -/
  live : List Int
  deriving DecidableEq

/-- The contract of a call: request sizes are at least 1, only live entries are
freed. -/
def op_allowed (st : pool_t) : pool_op → Prop
  | pool_op.get bsize => 1 ≤ bsize
  | pool_op.free entry_num => entry_num ∈ st.live

instance (st : pool_t) (op : pool_op) : Decidable (op_allowed st op) := by
  cases op <;> unfold op_allowed <;> exact inferInstance

/-- One call of the allocator on a pool whose table has `ab_occ_size` entries. -/
def pool_step (TRY_LATER DEVICE_UNABLE : Int) (ab_conf : ab_conf_t) (blck_sizes : List Nat)
    (st : pool_t) : pool_op → exec pool_t
  | pool_op.get bsize =>
    match get_buf_entry TRY_LATER DEVICE_UNABLE ab_conf bsize st.ab_occ st.ab_occ.length
        blck_sizes with
    | exec.ret r =>
      exec.ret ⟨r.ab_occ, if r.status = 0 then r.entry_num :: st.live else st.live⟩
    | exec.undef => exec.undef
    | exec.timeout => exec.timeout
  | pool_op.free entry_num =>
    match free_buf_entry ab_conf st.ab_occ st.ab_occ.length blck_sizes entry_num with
    | some (status, ab_occ1) =>
      exec.ret ⟨ab_occ1, if status = 0 then st.live.erase entry_num else st.live⟩
    | none => exec.undef

/-- A sequence of calls, the first call first. -/
def pool_run (TRY_LATER DEVICE_UNABLE : Int) (ab_conf : ab_conf_t) (blck_sizes : List Nat) :
    List pool_op → pool_t → exec pool_t
  | [], st => exec.ret st
  | op :: ops, st =>
    match pool_step TRY_LATER DEVICE_UNABLE ab_conf blck_sizes st op with
    | exec.ret st1 => pool_run TRY_LATER DEVICE_UNABLE ab_conf blck_sizes ops st1
    | exec.undef => exec.undef
    | exec.timeout => exec.timeout

/-- Every call of the sequence respects the contract in the state it is made in. -/
def pool_respects (TRY_LATER DEVICE_UNABLE : Int) (ab_conf : ab_conf_t)
    (blck_sizes : List Nat) : List pool_op → pool_t → Prop
  | [], _ => True
  | op :: ops, st =>
    op_allowed st op ∧
    match pool_step TRY_LATER DEVICE_UNABLE ab_conf blck_sizes st op with
    | exec.ret st1 => pool_respects TRY_LATER DEVICE_UNABLE ab_conf blck_sizes ops st1
    | _ => True

/-- The pool right after its creation: all-zero occupancy table, no live entry. -/
def pool_init (ab_conf : ab_conf_t) : pool_t :=
  ⟨List.replicate (total_entries ab_conf) 0, []⟩

/-- The table `T1` is the table `T` with `delta` added to the counter of the entry
`(lev, off)` and of each of its ancestors. -/
def path_add (ab_conf : ab_conf_t) (T T1 : List Nat) (lev off delta : Nat) : Prop :=
  ∀ l < ab_conf.buf_depth.toNat, ∀ x < level_width ab_conf l,
    occ_at ab_conf T1 l x =
      occ_at ab_conf T l x + (if on_path ab_conf lev off l x then delta else 0)

/-- The invariant of a pool state that the allocator maintains: the table has one
counter per entry, satisfies the occupancy invariant, and the live entries are
distinct entries that are occupied as a whole. -/
def pool_inv (ab_conf : ab_conf_t) (blck_sizes : List Nat) (st : pool_t) : Prop :=
  st.ab_occ.length = total_entries ab_conf ∧
  occupancy_invariant ab_conf blck_sizes st.ab_occ ∧
  (∀ e ∈ st.live, ∃ lev off, lev < ab_conf.buf_depth.toNat ∧ off < level_width ab_conf lev ∧
    e = ((entry_index ab_conf lev off : Nat) : Int) ∧
    whole_occupied ab_conf blck_sizes st.ab_occ lev off) ∧
  st.live.Nodup

/-- The entry `(t, off)` has counter 0 and no ancestor that is occupied as a whole. -/
def reachable_free (ab_conf : ab_conf_t) (blck_sizes ab_occ : List Nat) (t off : Nat) : Prop :=
  occ_at ab_conf ab_occ t off = 0 ∧
    ∀ l < t, ¬ whole_occupied ab_conf blck_sizes ab_occ l
      (off / ab_conf.buf_branch.toNat ^ (t - l))

instance (ab_conf : ab_conf_t) (blck_sizes ab_occ : List Nat) (t off : Nat) :
    Decidable (reachable_free ab_conf blck_sizes ab_occ t off) := by
  unfold reachable_free; exact inferInstance

/-- Whether a sequence of calls respects the contract can be computed. -/
def pool_respects_dec (TRY_LATER DEVICE_UNABLE : Int) (ab_conf : ab_conf_t)
    (blck_sizes : List Nat) :
    (ops : List pool_op) → (st : pool_t) →
      Decidable (pool_respects TRY_LATER DEVICE_UNABLE ab_conf blck_sizes ops st)
  | [], _ => isTrue trivial
  | op :: ops, st =>
    match h : pool_step TRY_LATER DEVICE_UNABLE ab_conf blck_sizes st op with
    | exec.ret st1 =>
      have := pool_respects_dec TRY_LATER DEVICE_UNABLE ab_conf blck_sizes ops st1
      decidable_of_iff
        (op_allowed st op ∧ pool_respects TRY_LATER DEVICE_UNABLE ab_conf blck_sizes ops st1)
        (by simp [pool_respects, h])
    | exec.undef => decidable_of_iff (op_allowed st op) (by simp [pool_respects, h])
    | exec.timeout => decidable_of_iff (op_allowed st op) (by simp [pool_respects, h])

instance (TRY_LATER DEVICE_UNABLE : Int) (ab_conf : ab_conf_t) (blck_sizes : List Nat)
    (ops : List pool_op) (st : pool_t) :
    Decidable (pool_respects TRY_LATER DEVICE_UNABLE ab_conf blck_sizes ops st) :=
  pool_respects_dec TRY_LATER DEVICE_UNABLE ab_conf blck_sizes ops st

/-! ## Sequences of calls on the free list of constant memory entries -/

/-- The calls `const_args_entry_free(gpu_num,e)` for the entries `e` of a list, in the
order of the list: the statuses returned and the module data after the last call. -/
def const_args_free_seq (MAX_GPUS_PER_NODE MAX_GPU_ARGS : Int) (gpu_is_mine : Int → Int)
    (gpu_num : Int) : List Int → const_args_t → List Int × const_args_t
  | [], st => ([], st)
  | e :: es, st =>
    let r := const_args_entry_free MAX_GPUS_PER_NODE MAX_GPU_ARGS gpu_is_mine st gpu_num e
    let rs := const_args_free_seq MAX_GPUS_PER_NODE MAX_GPU_ARGS gpu_is_mine gpu_num es r.2
    (r.1 :: rs.1, rs.2)

/-- The outcome of `n` successive calls `const_args_entry_get(gpu_num,&entry_num)`:
the pairs (status, `entry_num`) in the order of the calls and the module data after
the last call. -/
def const_args_get_seq (TRY_LATER MAX_GPUS_PER_NODE MAX_GPU_ARGS : Int)
    (gpu_is_mine : Int → Int) (gpu_num : Int) :
    Nat → const_args_t → List (Int × Int) × const_args_t
  | 0, st => ([], st)
  | n + 1, st =>
    let r := const_args_entry_get TRY_LATER MAX_GPUS_PER_NODE MAX_GPU_ARGS gpu_is_mine st
      gpu_num
    let rs := const_args_get_seq TRY_LATER MAX_GPUS_PER_NODE MAX_GPU_ARGS gpu_is_mine
      gpu_num n r.2.2
    ((r.1, r.2.1) :: rs.1, rs.2)

/-! ## The device-unified API: constants, types and the lower-level runtimes

The definitions below follow `src/TALSH/talshc.cpp` function by function.

Modelling conventions.
* The headers `talsh.h` and `tensor_algebra.h` are not among the sources. Their
  constants and the build options (`NO_GPU`, `NO_PHI`, `NO_AMD`) are the fields of
  `talsh_h`; a `switch` is the chain of comparisons with its `case` labels, in
  the order of the source.
* A pointer is an `Option`: `none` is `NULL`. A pointer to an array is an optional
  `List`. A pointer to a tensor block held by a task is an index into a list of
  tensor blocks (the store).
* The functions of the lower-level runtimes that `talshc.cpp` calls are the fields of
  `nvtal`. Whatever they change outside of their arguments is the state `W`, which is
  passed through every call.
* Dereferencing `NULL`, indexing an array outside of its bounds and using `task_p`
  for the wrong kind of task have no defined result: `exec.undef`.
-/

/-- Read `a[i]` for an `int` index; `none` outside of the array. -/
def elem_get {α : Type} (a : List α) (i : Int) : Option α :=
  if 0 ≤ i then a.get? i.toNat else none

/-- Write `a[i]=v` for an `int` index; `none` outside of the array. -/
def elem_set {α : Type} (a : List α) (i : Int) (v : α) : Option (List α) :=
  if 0 ≤ i ∧ i.toNat < a.length then some (a.set i.toNat v) else none

/-- Constants and build options that `talshc.cpp` takes from `talsh.h` and
`tensor_algebra.h`. -/
structure talsh_h where
  TALSH_SUCCESS : Int
  TALSH_FAILURE : Int
  TALSH_NOT_AVAILABLE : Int
  TALSH_NOT_IMPLEMENTED : Int
  TALSH_NOT_INITIALIZED : Int
  TALSH_INVALID_ARGS : Int
  TALSH_INTEGER_OVERFLOW : Int
  TALSH_OBJECT_NOT_EMPTY : Int
  TALSH_OBJECT_IS_EMPTY : Int
  TALSH_NOT_ALLOWED : Int
  TALSH_TASK_ERROR : Int
  TALSH_TASK_EMPTY : Int
  TALSH_TASK_SCHEDULED : Int
  TALSH_TASK_STARTED : Int
  TALSH_TASK_INPUT_READY : Int
  TALSH_TASK_OUTPUT_READY : Int
  TALSH_TASK_COMPLETED : Int
  CUDA_TASK_ERROR : Int
  CUDA_TASK_EMPTY : Int
  CUDA_TASK_SCHEDULED : Int
  CUDA_TASK_STARTED : Int
  CUDA_TASK_INPUT_THERE : Int
  CUDA_TASK_OUTPUT_THERE : Int
  CUDA_TASK_COMPLETED : Int
  YEP : Int
  NOPE : Int
  NOT_CLEAN : Int
  TRY_LATER : Int
  DEVICE_UNABLE : Int
  DEV_NULL : Int
  DEV_HOST : Int
  DEV_NVIDIA_GPU : Int
  DEV_INTEL_MIC : Int
  DEV_AMD_GPU : Int
  DEV_MAX : Int
  NO_TYPE : Int
  R4 : Int
  R8 : Int
  COPY_D : Int
  COPY_M : Int
  TALSH_MAX_DEV_PRESENT : Int
  MAX_TENSOR_OPERANDS : Int
  /-- the build option `NO_GPU` is defined -/
  NO_GPU : Bool
  /-- the build option `NO_PHI` is defined -/
  NO_PHI : Bool
  /-- the build option `NO_AMD` is defined -/
  NO_AMD : Bool
  deriving DecidableEq

/-- Device resource record (`talsh_dev_rsc_t`), with the fields that `talshc.cpp`
reads. -/
structure talsh_dev_rsc_t where
  /-- flat device id -/
  dev_id : Int
  /-- global memory pointer -/
  gmem_p : Option Nat
  /-- argument buffer entry holding the image (-1: none) -/
  buf_entry : Int
  deriving DecidableEq

/-- Tensor shape (`talsh_tens_shape_t`), with the fields that `talshc.cpp` reads. -/
structure talsh_tens_shape_t where
  num_dim : Int
  dims : List Int
  divs : List Int
  grps : List Int
  deriving DecidableEq

/-- Tensor block (`talsh_tens_t`), with the fields that `talshTensorClean` sets. -/
structure talsh_tens_t where
  shape_p : Option talsh_tens_shape_t
  /-- device resources of the images -/
  dev_rsc : Option (List talsh_dev_rsc_t)
  /-- data kind of each image -/
  data_kind : Option (List Int)
  /-- availability flag of each image -/
  avail : Option (List Int)
  /-- capacity of the three arrays -/
  dev_rsc_len : Int
  /-- number of images -/
  ndev : Int
  deriving DecidableEq

/-- The functions of the lower-level runtimes that `talshc.cpp` calls. A function that
changes something outside of its arguments takes the outside state `W` and returns
it. -/
structure nvtal (W : Type) where
  /-- The call `valid_device_kind(dev_kind)` -/
  valid_device_kind : Int → Int
  /-- The call `tens_valid_data_kind(data_kind,&dksize)`: the status and `dksize` -/
  tens_valid_data_kind : Int → Int × Int
  /-- The call `encode_device_id(dev_kind,dev_num)` -/
  encode_device_id : Int → Int → Int
  /-- The call `decode_device_id(dev_id,&dev_kind)`: the value returned and `dev_kind` -/
  decode_device_id : Int → Int × Int
  /-- The call `tensDevRsc_clean(&drsc)`: the record after the call -/
  tensDevRsc_clean : talsh_dev_rsc_t → talsh_dev_rsc_t
  /-- The call `tensDevRsc_release_all(&drsc)`: the status and the record after the call -/
  tensDevRsc_release_all : W → talsh_dev_rsc_t → Int × talsh_dev_rsc_t × W
  /-- The call `tensDevRsc_attach_mem(&drsc,dev_id,mem_p,buf_entry)` -/
  tensDevRsc_attach_mem : W → talsh_dev_rsc_t → Int → Option Nat → Int →
    Int × talsh_dev_rsc_t × W
  /-- The call `tensDevRsc_allocate_mem(&drsc,dev_id,mem_size,in_arg_buf)` -/
  tensDevRsc_allocate_mem : W → talsh_dev_rsc_t → Int → Nat → Int →
    Int × talsh_dev_rsc_t × W
  /-- The call `tensShape_create(&shape_p)`: the status and the pointer stored in `shape_p` -/
  tensShape_create : W → Int × Option talsh_tens_shape_t × W
  /-- The call `tensShape_construct(shape_p,pinned,rank,dims)` -/
  tensShape_construct : W → talsh_tens_shape_t → Int → Int → List Int →
    Int × talsh_tens_shape_t × W
  /-- The call `tensShape_destroy(shape_p)` -/
  tensShape_destroy : W → talsh_tens_shape_t → Int × W
  /-- The call `tensShape_volume(shape_p)` -/
  tensShape_volume : talsh_tens_shape_t → Nat
  /-- The call `malloc`: whether the block was obtained -/
  malloc : W → Bool × W
  /-- The call `cuda_task_status(cuda_task_p)` -/
  cuda_task_status : W → Nat → Int × W
  /-- The call `cuda_task_completed(cuda_task_p)` -/
  cuda_task_completed : W → Nat → Int × W

/-! ## Tensor block API -/

/-- Cleans an undefined tensor block (default ctor) making it defined-empty: the
status and the tensor block. -/
def talshTensorClean (K : talsh_h) (tens_block : Option talsh_tens_t) :
    Int × Option talsh_tens_t :=
  match tens_block with
  | none => (K.TALSH_INVALID_ARGS, none)
  | some _ => (K.TALSH_SUCCESS, some ⟨none, none, none, none, 0, 0⟩)

/-- Returns `YEP` if the tensor block is empty, `NOPE` otherwise. -/
def talshTensorIsEmpty (K : talsh_h) (tens_block : Option talsh_tens_t) : Int :=
  match tens_block with
  | none => K.TALSH_INVALID_ARGS
  | some t =>
    match t.shape_p with
    | none => K.YEP
    | some _ => K.NOPE

/-- The loop `n=0; for(i=0;i<ndev;++i){if(i != image_id && avail[i] == YEP) ++n;}` of
`talsh_tensor_image_discard`; the first argument counts the iterations that are left
(`ndev - i`). -/
def talsh_tensor_image_discard_count (K : talsh_h) (avail : List Int) (image_id : Int) :
    Nat → Int → Int → exec Int
  | 0, _, n => exec.ret n
  | rem + 1, i, n =>
    if i ≠ image_id then
      match elem_get avail i with
      | none => exec.undef
      | some a =>
        talsh_tensor_image_discard_count K avail image_id rem (i + 1)
          (if a = K.YEP then n + 1 else n)
    else talsh_tensor_image_discard_count K avail image_id rem (i + 1) n

/-- Discards a specific tensor body image. A return status `TALSH_NOT_ALLOWED`
indicates that this is the last available image and it cannot be released. The result
is the status, the tensor block and the outside state after the call. -/
def talsh_tensor_image_discard {W : Type} (K : talsh_h) (E : nvtal W) (w : W)
    (talsh_tens : Option talsh_tens_t) (image_id : Int) :
    exec (Int × Option talsh_tens_t × W) :=
  match talsh_tens with
  | none => exec.ret (K.TALSH_INVALID_ARGS, none, w)
  | some t =>
    if talshTensorIsEmpty K (some t) ≠ K.NOPE then
      exec.ret (K.TALSH_OBJECT_IS_EMPTY, some t, w)
    else
      match t.dev_rsc, t.data_kind, t.avail with
      | some rsc, some dk, some av =>
        if t.ndev ≤ 0 ∨ t.ndev > t.dev_rsc_len then exec.ret (K.TALSH_FAILURE, some t, w)
        else if image_id < 0 ∨ image_id ≥ t.ndev then
          exec.ret (K.TALSH_INVALID_ARGS, some t, w)
        else
          match talsh_tensor_image_discard_count K av image_id t.ndev.toNat 0 0 with
          | exec.ret n =>
            if n = 0 then exec.ret (K.TALSH_NOT_ALLOWED, some t, w)
            else
              match elem_get rsc image_id with
              | none => exec.undef
              | some r =>
                let rel := E.tensDevRsc_release_all w r
                let errc :=
                  if rel.1 ≠ 0 ∧ rel.1 ≠ K.NOT_CLEAN then K.TALSH_FAILURE else rel.1
                let rsc1 := rsc.set image_id.toNat rel.2.1
                if image_id < t.ndev - 1 then
                  match elem_get rsc1 (t.ndev - 1), elem_get dk (t.ndev - 1),
                      elem_get av (t.ndev - 1) with
                  | some r9, some d9, some a9 =>
                    exec.ret (errc, some { t with
                      dev_rsc := some (rsc1.set image_id.toNat r9)
                      data_kind := some (dk.set image_id.toNat d9)
                      avail := some (av.set image_id.toNat a9)
                      ndev := t.ndev - 1 }, rel.2.2)
                  | _, _, _ => exec.undef
                else
                  exec.ret (errc, some { t with dev_rsc := some rsc1, ndev := t.ndev - 1 },
                    rel.2.2)
          | _ => exec.undef
      | _, _, _ => exec.ret (K.TALSH_FAILURE, some t, w)

/-- State of the loop of `talshTensorDiscard`. -/
structure discard_t (W : Type) where
  k : Int
  errc : Int
  dev_rsc : List talsh_dev_rsc_t
  data_kind : List Int
  avail : List Int
  /-- the outside state -/
  world : W

/-- The loop `for(i=0;i<tens->ndev;++i)` of `talshTensorDiscard`; the first argument
counts the iterations that are left (`ndev - i`). -/
def talshTensorDiscard_loop {W : Type} (K : talsh_h) (E : nvtal W) (devid : Int) :
    Nat → Int → discard_t W → exec (discard_t W)
  | 0, _, s => exec.ret s
  | rem + 1, i, s =>
    match elem_get s.avail i with
    | none => exec.undef
    | some a =>
      if a = K.YEP then
        match elem_get s.dev_rsc i with
        | none => exec.undef
        | some r =>
          if r.dev_id = devid then
            let rel := E.tensDevRsc_release_all s.world r
            let errc1 :=
              if rel.1 ≠ 0 ∧ s.errc ≠ K.TALSH_FAILURE then
                (if rel.1 = K.NOT_CLEAN then K.NOT_CLEAN else K.TALSH_FAILURE)
              else s.errc
            talshTensorDiscard_loop K E devid rem (i + 1)
              { s with errc := errc1, dev_rsc := s.dev_rsc.set i.toNat rel.2.1,
                       world := rel.2.2 }
          else
            if i > s.k then
              match elem_get s.data_kind i, elem_set s.dev_rsc s.k r with
              | some d, some rsc1 =>
                match elem_set s.data_kind s.k d, elem_set s.avail s.k a with
                | some dk1, some av1 =>
                  talshTensorDiscard_loop K E devid rem (i + 1)
                    { s with k := s.k + 1, dev_rsc := rsc1, data_kind := dk1, avail := av1 }
                | _, _ => exec.undef
              | _, _ => exec.undef
            else talshTensorDiscard_loop K E devid rem (i + 1) { s with k := s.k + 1 }
      else talshTensorDiscard_loop K E devid rem (i + 1) { s with k := s.k + 1 }

/-- Converts a kind-specific device Id into the flat device Id. -/
def talshFlatDevId {W : Type} (E : nvtal W) (dev_kind dev_num : Int) : Int :=
  E.encode_device_id dev_kind dev_num

/-- Converts a flat device Id into the kind specific device Id: the value returned and
`dev_kind`. -/
def talshKindDevId {W : Type} (E : nvtal W) (dev_id : Int) : Int × Int :=
  E.decode_device_id dev_id

/-- Discards a tensor block body image on a specific device: the status, the tensor
block and the outside state after the call. -/
def talshTensorDiscard {W : Type} (K : talsh_h) (E : nvtal W) (talsh_on : Int) (w : W)
    (tens : Option talsh_tens_t) (dev_id dev_kind : Int) :
    exec (Int × Option talsh_tens_t × W) :=
  if talsh_on = 0 then exec.ret (K.TALSH_NOT_INITIALIZED, tens, w)
  else
    match tens with
    | none => exec.ret (K.TALSH_INVALID_ARGS, none, w)
    | some t =>
      if talshTensorIsEmpty K (some t) ≠ K.NOPE then
        exec.ret (K.TALSH_OBJECT_IS_EMPTY, some t, w)
      else
        match t.dev_rsc, t.data_kind, t.avail with
        | some rsc, some dk, some av =>
          if t.ndev ≤ 0 ∨ t.ndev > t.dev_rsc_len then exec.ret (K.TALSH_FAILURE, some t, w)
          else
            let devid := if dev_kind = K.DEV_NULL then dev_id
              else talshFlatDevId E dev_kind dev_id
            if devid < 0 ∨ devid ≥ K.DEV_MAX then exec.ret (K.TALSH_INVALID_ARGS, some t, w)
            else
              match talshTensorDiscard_loop K E devid t.ndev.toNat 0
                  ⟨0, K.TALSH_SUCCESS, rsc, dk, av, w⟩ with
              | exec.ret s =>
                exec.ret (s.errc, some { t with
                  dev_rsc := some s.dev_rsc
                  data_kind := some s.data_kind
                  avail := some s.avail
                  ndev := s.k }, s.world)
              | _ => exec.undef
        | _, _, _ => exec.ret (K.TALSH_FAILURE, some t, w)

/-- The statement `if(i == 0 || i == NOT_CLEAN){if(errc == 0) errc=i;}else{errc=TALSH_FAILURE;}`
of `talshTensorDestruct`: the new value of `errc`. -/
def talshTensorDestruct_errc (K : talsh_h) (errc i : Int) : Int :=
  if i = 0 ∨ i = K.NOT_CLEAN then (if errc = 0 then i else errc) else K.TALSH_FAILURE

/-- The loop `for(j=0;j<tens_block->ndev;++j)` of `talshTensorDestruct`: `errc`, the
array of device resources and the outside state after the loop; the first argument
counts the iterations that are left (`ndev - j`). -/
def talshTensorDestruct_loop {W : Type} (K : talsh_h) (E : nvtal W) :
    Nat → Int → Int → List talsh_dev_rsc_t → W → exec (Int × List talsh_dev_rsc_t × W)
  | 0, _, errc, rsc, w => exec.ret (errc, rsc, w)
  | rem + 1, j, errc, rsc, w =>
    match elem_get rsc j with
    | none => exec.undef
    | some r =>
      let rel := E.tensDevRsc_release_all w r
      talshTensorDestruct_loop K E rem (j + 1) (talshTensorDestruct_errc K errc rel.1)
        (rsc.set j.toNat rel.2.1) rel.2.2

/-- Destructs a tensor block and sets its status to empty: the status, the tensor block
and the outside state after the call. The calls of `free` leave no trace in the
result. -/
def talshTensorDestruct {W : Type} (K : talsh_h) (E : nvtal W) (talsh_on : Int) (w : W)
    (tens_block : Option talsh_tens_t) : exec (Int × Option talsh_tens_t × W) :=
  if talsh_on = 0 then exec.ret (K.TALSH_NOT_INITIALIZED, tens_block, w)
  else
    match tens_block with
    | none => exec.ret (K.TALSH_INVALID_ARGS, none, w)
    | some t =>
      let s1 : Int × W :=
        match t.shape_p with
        | some sh =>
          let d := E.tensShape_destroy w sh
          (talshTensorDestruct_errc K K.TALSH_SUCCESS d.1, d.2)
        | none => (K.TALSH_SUCCESS, w)
      let s2 : Int × Int :=
        if t.ndev > t.dev_rsc_len then (t.dev_rsc_len, K.TALSH_FAILURE) else (t.ndev, s1.1)
      match t.dev_rsc with
      | some rsc =>
        match talshTensorDestruct_loop K E s2.1.toNat 0 s2.2 rsc s1.2 with
        | exec.ret s3 =>
          exec.ret (s3.1, (talshTensorClean K (some t)).2, s3.2.2)
        | _ => exec.undef
      | none => exec.ret (s2.2, (talshTensorClean K (some t)).2, s1.2)

/-- Returns the total number of elements in the tensor block (a `size_t`); 0 means
that the tensor block is empty. -/
def talshTensorVolume {W : Type} (K : talsh_h) (E : nvtal W)
    (tens_block : Option talsh_tens_t) : Nat :=
  match tens_block with
  | none => size_t_of_int K.TALSH_INVALID_ARGS
  | some t =>
    match t.shape_p with
    | none => 0
    | some sh => E.tensShape_volume sh

/-- The statement `i=talshTensorDestruct(tens_block); return errc;` of
`talshTensorConstruct`. -/
def talshTensorConstruct_abort {W : Type} (K : talsh_h) (E : nvtal W) (talsh_on : Int)
    (w : W) (t : talsh_tens_t) (errc : Int) : exec (Int × Option talsh_tens_t × W) :=
  match talshTensorDestruct K E talsh_on w (some t) with
  | exec.ret r => exec.ret (errc, r.2.1, r.2.2)
  | _ => exec.undef

/-- The statement `tens_block->data_kind[0]=data_kind; tens_block->avail[0]=YEP;
tens_block->ndev=1;` of `talshTensorConstruct`, on a tensor block whose first device
resource is `r`. -/
def talshTensorConstruct_image (K : talsh_h) (t : talsh_tens_t) (rsc : List talsh_dev_rsc_t)
    (r : talsh_dev_rsc_t) (data_kind : Int) : Option talsh_tens_t :=
  match t.data_kind, t.avail with
  | some dk, some av =>
    match elem_set rsc 0 r, elem_set dk 0 data_kind, elem_set av 0 K.YEP with
    | some rsc1, some dk1, some av1 =>
      some { t with dev_rsc := some rsc1, data_kind := some dk1, avail := some av1, ndev := 1 }
    | _, _, _ => none
  | _, _ => none

/-- The part `//Tensor body:` of `talshTensorConstruct`, entered with the shape and the
three arrays in place. The user-defined initialization method takes the outside state,
the arguments of the call and the value of `errc`, and returns the value it leaves in
`errc`. The values stored in the tensor body are not part of the result. -/
def talshTensorConstruct_body {W : Type} (K : talsh_h) (E : nvtal W) (talsh_on : Int)
    (w : W) (t : talsh_tens_t) (data_kind dksize tens_rank : Int) (tens_dims : List Int)
    (dev_id dev_kind : Int) (ext_mem : Option Nat) (in_hab use_hab : Int)
    (init_method : Option (W → Option Nat → Int → Int → List Int → Int → Int × W)) :
    exec (Int × Option talsh_tens_t × W) :=
  match t.dev_rsc with
  | none => exec.undef
  | some rsc =>
    match elem_get rsc 0 with
    | none => exec.undef
    | some r0 =>
      match ext_mem with
      | some _ =>
        let a := E.tensDevRsc_attach_mem w r0 dev_id ext_mem in_hab
        if a.1 ≠ 0 then
          talshTensorConstruct_abort K E talsh_on a.2.2
            { t with dev_rsc := some (rsc.set 0 a.2.1) } K.TALSH_FAILURE
        else
          match talshTensorConstruct_image K t rsc a.2.1 data_kind with
          | some t1 => exec.ret (a.1, some t1, a.2.2)
          | none => exec.undef
      | none =>
        if data_kind ≠ K.NO_TYPE then
          let tvol := talshTensorVolume K E (some t)
          if tvol > 0 then
            let tsize := size_t_mul tvol (size_t_of_int dksize)
            if tsize ≤ 0 then talshTensorConstruct_abort K E talsh_on w t K.TALSH_INTEGER_OVERFLOW
            else
              let a := E.tensDevRsc_allocate_mem w r0 dev_id tsize use_hab
              let errc :=
                if a.1 ≠ 0 ∧ a.1 ≠ K.TRY_LATER ∧ a.1 ≠ K.DEVICE_UNABLE then K.TALSH_FAILURE
                else a.1
              if errc ≠ 0 then
                talshTensorConstruct_abort K E talsh_on a.2.2
                  { t with dev_rsc := some (rsc.set 0 a.2.1) } errc
              else
                match talshTensorConstruct_image K t rsc a.2.1 data_kind with
                | none => exec.undef
                | some t1 =>
                  if t1.ndev > 0 then
                    if dev_kind = K.DEV_HOST then
                      match init_method with
                      | some f =>
                        let e := f a.2.2 a.2.1.gmem_p data_kind tens_rank tens_dims errc
                        exec.ret (if e.1 ≠ 0 then K.NOT_CLEAN else e.1, some t1, e.2)
                      | none =>
                        if data_kind = K.R4 then exec.ret (errc, some t1, a.2.2)
                        else if data_kind = K.R8 then exec.ret (errc, some t1, a.2.2)
                        else exec.ret (K.NOT_CLEAN, some t1, a.2.2)
                    else exec.ret (K.TALSH_NOT_IMPLEMENTED, some t1, a.2.2)
                  else exec.ret (errc, some t1, a.2.2)
          else talshTensorConstruct_abort K E talsh_on w t K.TALSH_FAILURE
        else exec.ret (K.TALSH_SUCCESS, some t, w)

/-- The part `//Device resource storage:` of `talshTensorConstruct`, followed by the
tensor body part. A block obtained from `malloc` for the device resources holds the
records `(0, NULL, 0)` until `tensDevRsc_clean` overwrites them. -/
def talshTensorConstruct_storage {W : Type} (K : talsh_h) (E : nvtal W) (talsh_on : Int)
    (w : W) (t : talsh_tens_t) (data_kind dksize tens_rank : Int) (tens_dims : List Int)
    (dev_id dev_kind : Int) (ext_mem : Option Nat) (in_hab use_hab : Int)
    (init_method : Option (W → Option Nat → Int → Int → List Int → Int → Int × W)) :
    exec (Int × Option talsh_tens_t × W) :=
  match t.dev_rsc, t.data_kind, t.avail with
  | none, none, none =>
    if t.dev_rsc_len = 0 then
      let m1 := E.malloc w
      if m1.1 then
        let t1 : talsh_tens_t := { t with
          dev_rsc := some (List.replicate K.TALSH_MAX_DEV_PRESENT.toNat
            (E.tensDevRsc_clean ⟨0, none, 0⟩))
          dev_rsc_len := K.TALSH_MAX_DEV_PRESENT
          ndev := 0 }
        let m2 := E.malloc m1.2
        if m2.1 then
          let t2 : talsh_tens_t := { t1 with
            data_kind := some (List.replicate K.TALSH_MAX_DEV_PRESENT.toNat K.NO_TYPE) }
          let m3 := E.malloc m2.2
          if m3.1 then
            talshTensorConstruct_body K E talsh_on m3.2
              { t2 with avail := some (List.replicate K.TALSH_MAX_DEV_PRESENT.toNat K.NOPE) }
              data_kind dksize tens_rank tens_dims dev_id dev_kind ext_mem in_hab use_hab
              init_method
          else talshTensorConstruct_abort K E talsh_on m3.2 t2 K.TRY_LATER
        else talshTensorConstruct_abort K E talsh_on m2.2 t1 K.TRY_LATER
      else talshTensorConstruct_abort K E talsh_on m1.2 t K.TRY_LATER
    else talshTensorConstruct_abort K E talsh_on w t K.TALSH_INVALID_ARGS
  | _, _, _ => talshTensorConstruct_abort K E talsh_on w t K.TALSH_INVALID_ARGS

/-- Constructs a tensor block: the status, the tensor block and the outside state after
the call. The initialization values `init_val_real` and `init_val_imag` only determine
the contents of the tensor body and are left out. -/
def talshTensorConstruct {W : Type} (K : talsh_h) (E : nvtal W) (talsh_on : Int) (w : W)
    (tens_block : Option talsh_tens_t) (data_kind tens_rank : Int) (tens_dims : List Int)
    (dev_id : Int) (ext_mem : Option Nat) (in_hab : Int)
    (init_method : Option (W → Option Nat → Int → Int → List Int → Int → Int × W)) :
    exec (Int × Option talsh_tens_t × W) :=
  if talsh_on = 0 then exec.ret (K.TALSH_NOT_INITIALIZED, tens_block, w)
  else
    match tens_block with
    | none => exec.ret (K.TALSH_INVALID_ARGS, none, w)
    | some t =>
      if talshTensorIsEmpty K (some t) ≠ K.YEP then
        exec.ret (K.TALSH_OBJECT_NOT_EMPTY, some t, w)
      else if (E.tens_valid_data_kind data_kind).1 ≠ K.YEP then
        exec.ret (K.TALSH_INVALID_ARGS, some t, w)
      else if (talshKindDevId E dev_id).1 < 0 then exec.ret (K.TALSH_INVALID_ARGS, some t, w)
      else
        let dksize := (E.tens_valid_data_kind data_kind).2
        let dev_kind := (talshKindDevId E dev_id).2
        let in_hab1 : Int := if in_hab ≥ 0 then in_hab else -1
        let use_hab : Int := if in_hab ≥ 0 then K.YEP else K.NOPE
        let c := E.tensShape_create w
        let t1 : talsh_tens_t := { t with shape_p := c.2.1 }
        if c.1 = K.TRY_LATER ∨ c.1 = K.DEVICE_UNABLE then exec.ret (c.1, some t1, c.2.2)
        else
          match c.2.1 with
          | none => exec.ret (K.TALSH_FAILURE, some t1, c.2.2)
          | some sh =>
            if c.1 ≠ 0 then exec.ret (K.TALSH_FAILURE, some t1, c.2.2)
            else
              let s := E.tensShape_construct c.2.2 sh K.NOPE tens_rank tens_dims
              let t2 : talsh_tens_t := { t with shape_p := some s.2.1 }
              let errc :=
                if s.1 ≠ 0 ∧ s.1 ≠ K.TRY_LATER ∧ s.1 ≠ K.DEVICE_UNABLE then K.TALSH_FAILURE
                else s.1
              if errc ≠ 0 then talshTensorConstruct_abort K E talsh_on s.2.2 t2 errc
              else
                talshTensorConstruct_storage K E talsh_on s.2.2 t2 data_kind dksize tens_rank
                  tens_dims dev_id dev_kind ext_mem in_hab1 use_hab init_method

/-- State of the loop of `talshTensorPresence`: the status of an early `return`, if
any, and the output arguments. -/
structure presence_t where
  /-- status of the `return` inside of the loop -/
  returned : Option Int
  ncopies : Int
  copies : List Int
  data_kinds : List Int
  deriving DecidableEq

/-- The loop `for(i=0;i<tens_block->ndev;++i)` of `talshTensorPresence`; the first
argument counts the iterations that are left (`ndev - i`). -/
def talshTensorPresence_loop {W : Type} (K : talsh_h) (E : nvtal W)
    (rsc : List talsh_dev_rsc_t) (dk av : List Int)
    (devk devnum specific_kind specific_device : Int) :
    Nat → Int → presence_t → exec presence_t
  | 0, _, s => exec.ret s
  | rem + 1, i, s =>
    match elem_get rsc i with
    | none => exec.undef
    | some r =>
      let jm := talshKindDevId E r.dev_id
      if jm.1 < 0 then exec.ret { s with returned := some K.TALSH_FAILURE }
      else
        match elem_get av i with
        | none => exec.undef
        | some a =>
          if a = K.YEP then
            if (jm.2 = devk ∨ specific_kind = 0) ∧ (jm.1 = devnum ∨ specific_device = 0) then
              match elem_get dk i, elem_set s.copies (s.ncopies + 1) r.dev_id with
              | some d, some copies1 =>
                match elem_set s.data_kinds (s.ncopies + 1) d with
                | some kinds1 =>
                  talshTensorPresence_loop K E rsc dk av devk devnum specific_kind
                    specific_device rem (i + 1)
                    { s with ncopies := s.ncopies + 1, copies := copies1, data_kinds := kinds1 }
                | none => exec.undef
              | _, _ => exec.undef
            else
              talshTensorPresence_loop K E rsc dk av devk devnum specific_kind specific_device
                rem (i + 1) s
          else
            talshTensorPresence_loop K E rsc dk av devk devnum specific_kind specific_device
              rem (i + 1) s

/-- The part of `talshTensorPresence` that follows the choice of the filter
`devk`, `devnum`, `specific_kind`, `specific_device`. -/
def talshTensorPresence_scan {W : Type} (K : talsh_h) (E : nvtal W) (t : talsh_tens_t)
    (copies data_kinds : List Int) (devk devnum specific_kind specific_device : Int) :
    exec (Int × Int × List Int × List Int) :=
  if t.ndev > 0 then
    if t.ndev > t.dev_rsc_len then exec.ret (K.TALSH_FAILURE, 0, copies, data_kinds)
    else
      match t.dev_rsc, t.data_kind, t.avail with
      | some rsc, some dk, some av =>
        match talshTensorPresence_loop K E rsc dk av devk devnum specific_kind
            specific_device t.ndev.toNat 0 ⟨none, 0, copies, data_kinds⟩ with
        | exec.ret s =>
          match s.returned with
          | some e => exec.ret (e, s.ncopies, s.copies, s.data_kinds)
          | none => exec.ret (K.TALSH_SUCCESS, s.ncopies, s.copies, s.data_kinds)
        | _ => exec.undef
      | _, _, _ => exec.ret (K.TALSH_FAILURE, 0, copies, data_kinds)
  else exec.ret (K.TALSH_SUCCESS, 0, copies, data_kinds)

/-- Returns the list of devices on which a copy of the tensor block resides, together
with the data kind: the status and the output arguments `*ncopies`, `copies[]` and
`data_kinds[]` after the call. -/
def talshTensorPresence {W : Type} (K : talsh_h) (E : nvtal W) (talsh_on : Int)
    (tens_block : Option talsh_tens_t) (ncopies : Int) (copies data_kinds : List Int)
    (dev_kind dev_id : Int) : exec (Int × Int × List Int × List Int) :=
  if talsh_on = 0 then exec.ret (K.TALSH_NOT_INITIALIZED, ncopies, copies, data_kinds)
  else
    match tens_block with
    | none => exec.ret (K.TALSH_INVALID_ARGS, 0, copies, data_kinds)
    | some t =>
      if talshTensorIsEmpty K (some t) = K.YEP then
        exec.ret (K.TALSH_OBJECT_IS_EMPTY, 0, copies, data_kinds)
      else if E.valid_device_kind dev_kind ≠ K.YEP then
        exec.ret (K.TALSH_INVALID_ARGS, 0, copies, data_kinds)
      else if dev_kind = K.DEV_NULL then
        if dev_id ≥ 0 then
          if (talshKindDevId E dev_id).1 < 0 then
            exec.ret (K.TALSH_INVALID_ARGS, 0, copies, data_kinds)
          else
            talshTensorPresence_scan K E t copies data_kinds (talshKindDevId E dev_id).2
              (talshKindDevId E dev_id).1 1 1
        else talshTensorPresence_scan K E t copies data_kinds K.DEV_NULL (-1) 0 0
      else
        if dev_id ≥ 0 then
          if talshFlatDevId E dev_kind dev_id ≥ K.DEV_MAX then
            exec.ret (K.TALSH_INVALID_ARGS, 0, copies, data_kinds)
          else talshTensorPresence_scan K E t copies data_kinds dev_kind dev_id 1 1
        else talshTensorPresence_scan K E t copies data_kinds dev_kind (-1) 1 0

/-! ## Task API -/

/-- Host task (`host_task_t`). -/
structure host_task_t where
  /-- task error code (-1: empty or in progress; 0: success; >0: error code) -/
  task_error : Int
  /-- initialization mark: -1 uninitialized (empty task); 0 initialized (non-empty) -/
  host_id : Int
  /-- coherence control value (an `unsigned int`) -/
  coherence : Nat
  deriving DecidableEq

/-- What `task_p` of a TAL-SH task points to: a host task, or a CUDA task of the
NV-TAL runtime, which is known by its address only. -/
inductive task_ref where
  | host : host_task_t → task_ref
  | cuda : Nat → task_ref
  deriving DecidableEq

/-- One entry of `tens_args[]`. -/
structure talsh_tens_arg_t where
  /-- the tensor block: its place in the store of tensor blocks -/
  tens_p : Option Nat
  source_image : Int
  deriving DecidableEq

/-- TAL-SH task (`talsh_task_t`), with the fields that `talshTaskClean` sets. The three
`double` fields are kept as their bit patterns. -/
structure talsh_task_t where
  task_p : Option task_ref
  dev_kind : Int
  data_kind : Int
  coherence : Int
  num_args : Int
  tens_args : List talsh_tens_arg_t
  data_vol : Nat
  flops : Nat
  exec_time : Nat
  deriving DecidableEq

/-- Conversion `int -> unsigned int`: reduction modulo `2^32`. -/
def uint_of_int (x : Int) : Nat := (x % ((2 ^ 32 : Nat) : Int)).toNat

/-- Whether a host task is empty (`host_task_is_empty`): `YEP`, `NOPE` or an error
status. -/
def host_task_is_empty (K : talsh_h) (host_task : Option host_task_t) : Int :=
  match host_task with
  | none => K.TALSH_INVALID_ARGS
  | some h =>
    if h.host_id < 0 then
      if h.task_error ≥ 0 then K.TALSH_FAILURE else K.YEP
    else K.NOPE

/-- Status of a host task (`host_task_status`). -/
def host_task_status (K : talsh_h) (host_task : Option host_task_t) : Int :=
  match host_task with
  | none => K.TALSH_INVALID_ARGS
  | some h =>
    let errc := host_task_is_empty K (some h)
    if errc = K.NOPE then
      if h.task_error = 0 then K.TALSH_TASK_COMPLETED
      else if h.task_error > 0 then K.TALSH_TASK_ERROR
      else K.TALSH_TASK_SCHEDULED
    else if errc = K.YEP then K.TALSH_TASK_EMPTY
    else K.TALSH_FAILURE

/-- Sets up a tensor argument for a given TAL-SH task: the status and the task after
the call. `store` holds the tensor blocks that pointers refer to. -/
def talshTaskSetArg (K : talsh_h) (talsh_on : Int) (store : List talsh_tens_t)
    (talsh_task : Option talsh_task_t) (talsh_tens_p : Option Nat) (image_id : Int) :
    exec (Int × Option talsh_task_t) :=
  if talsh_on = 0 then exec.ret (K.TALSH_NOT_INITIALIZED, talsh_task)
  else
    match talsh_task with
    | none => exec.ret (K.TALSH_INVALID_ARGS, none)
    | some task =>
      match talsh_tens_p with
      | none => exec.ret (K.TALSH_INVALID_ARGS, some task)
      | some p =>
        match store.get? p with
        | none => exec.undef
        | some tens =>
          if image_id < 0 ∨ image_id ≥ tens.ndev then exec.ret (K.TALSH_INVALID_ARGS, some task)
          else if task.num_args < 0 ∨ task.num_args ≥ K.MAX_TENSOR_OPERANDS then
            exec.ret (K.TALSH_FAILURE, some task)
          else
            match elem_set task.tens_args task.num_args ⟨some p, image_id⟩ with
            | none => exec.undef
            | some args1 =>
              exec.ret (K.TALSH_SUCCESS,
                some { task with tens_args := args1, num_args := task.num_args + 1 })

/-- The loop `for(i=talsh_task->num_args-1;i>=0;--i)` of `talshTaskFinalize`: the
status that the function returns, the store of tensor blocks and the outside state.
The first argument counts the iterations that are left (`i + 1`); `coh` is the
coherence control value that is left and `errc` the current status. -/
def talshTaskFinalize_loop {W : Type} (K : talsh_h) (E : nvtal W) (task_status : Int)
    (tens_args : List talsh_tens_arg_t) :
    Nat → Int → Nat → Int → List talsh_tens_t → W → exec (Int × List talsh_tens_t × W)
  | 0, _, _, errc, store, w => exec.ret (errc, store, w)
  | rem + 1, i, coh, errc, store, w =>
    match elem_get tens_args i with
    | none => exec.undef
    | some a =>
      match a.tens_p with
      | none => exec.ret (K.TALSH_FAILURE, store, w)
      | some p =>
        match store.get? p with
        | none => exec.undef
        | some tens =>
          let cc := coh % 4
          let coh1 := coh / 4
          if cc = uint_of_int K.COPY_D ∨ cc = uint_of_int K.COPY_M then
            match tens.avail with
            | none => exec.undef
            | some av =>
              match elem_get av a.source_image with
              | none => exec.undef
              | some v =>
                if v = K.NOPE then
                  if task_status = K.TALSH_TASK_COMPLETED then
                    match talsh_tensor_image_discard K E w (some tens) a.source_image with
                    | exec.ret d =>
                      talshTaskFinalize_loop K E task_status tens_args rem (i - 1) coh1 d.1
                        (store.set p (d.2.1.getD tens)) d.2.2
                    | _ => exec.undef
                  else
                    talshTaskFinalize_loop K E task_status tens_args rem (i - 1) coh1 errc
                      (store.set p { tens with avail := some (av.set a.source_image.toNat K.YEP) })
                      w
                else exec.ret (K.TALSH_FAILURE, store, w)
          else talshTaskFinalize_loop K E task_status tens_args rem (i - 1) coh1 errc store w

/-- Applies coherence control to a TAL-SH task: the status, the store of tensor blocks
and the outside state after the call. -/
def talshTaskFinalize {W : Type} (K : talsh_h) (E : nvtal W) (w : W)
    (store : List talsh_tens_t) (talsh_task : Option talsh_task_t) (task_status : Int) :
    exec (Int × List talsh_tens_t × W) :=
  match talsh_task with
  | none => exec.ret (K.TALSH_INVALID_ARGS, store, w)
  | some task =>
    if task_status ≠ K.TALSH_TASK_COMPLETED ∧ task_status ≠ K.TALSH_TASK_ERROR then
      exec.ret (K.TALSH_INVALID_ARGS, store, w)
    else if task.dev_kind = K.DEV_HOST then exec.ret (K.TALSH_SUCCESS, store, w)
    else if task.dev_kind = K.DEV_NVIDIA_GPU then
      if K.NO_GPU then exec.ret (K.TALSH_NOT_AVAILABLE, store, w)
      else
        match task.task_p with
        | none => exec.ret (K.TALSH_FAILURE, store, w)
        | some _ =>
          talshTaskFinalize_loop K E task_status task.tens_args task.num_args.toNat
            (task.num_args - 1) (uint_of_int task.coherence) K.TALSH_SUCCESS store w
    else if task.dev_kind = K.DEV_INTEL_MIC then
      if K.NO_PHI then exec.ret (K.TALSH_NOT_AVAILABLE, store, w)
      else exec.ret (K.TALSH_NOT_IMPLEMENTED, store, w)
    else if task.dev_kind = K.DEV_AMD_GPU then
      if K.NO_AMD then exec.ret (K.TALSH_NOT_AVAILABLE, store, w)
      else exec.ret (K.TALSH_NOT_IMPLEMENTED, store, w)
    else exec.ret (K.TALSH_FAILURE, store, w)

/-- The `switch(i)` of `talshTaskStatus` over the status of the CUDA task. -/
def talshTaskStatus_cuda (K : talsh_h) (i : Int) : Int :=
  if i = K.CUDA_TASK_ERROR then K.TALSH_TASK_ERROR
  else if i = K.CUDA_TASK_EMPTY then K.TALSH_TASK_EMPTY
  else if i = K.CUDA_TASK_SCHEDULED then K.TALSH_TASK_SCHEDULED
  else if i = K.CUDA_TASK_STARTED then K.TALSH_TASK_STARTED
  else if i = K.CUDA_TASK_INPUT_THERE then K.TALSH_TASK_INPUT_READY
  else if i = K.CUDA_TASK_OUTPUT_THERE then K.TALSH_TASK_OUTPUT_READY
  else if i = K.CUDA_TASK_COMPLETED then K.TALSH_TASK_COMPLETED
  else K.TALSH_FAILURE

/-- The end of `talshTaskStatus`: `if(errc == TALSH_TASK_COMPLETED || errc ==
TALSH_TASK_ERROR){i=talshTaskFinalize(talsh_task,errc); if(i) errc=TALSH_TASK_ERROR;}
return errc;`. -/
def talshTaskStatus_finish {W : Type} (K : talsh_h) (E : nvtal W) (w : W)
    (store : List talsh_tens_t) (task : talsh_task_t) (errc : Int) :
    exec (Int × List talsh_tens_t × W) :=
  if errc = K.TALSH_TASK_COMPLETED ∨ errc = K.TALSH_TASK_ERROR then
    match talshTaskFinalize K E w store (some task) errc with
    | exec.ret f => exec.ret (if f.1 ≠ 0 then K.TALSH_TASK_ERROR else errc, f.2.1, f.2.2)
    | _ => exec.undef
  else exec.ret (errc, store, w)

/-- Returns the current status of the TAL-SH task or an error status, together with the
store of tensor blocks and the outside state after the call. -/
def talshTaskStatus {W : Type} (K : talsh_h) (E : nvtal W) (talsh_on : Int) (w : W)
    (store : List talsh_tens_t) (talsh_task : Option talsh_task_t) :
    exec (Int × List talsh_tens_t × W) :=
  if talsh_on = 0 then exec.ret (K.TALSH_NOT_INITIALIZED, store, w)
  else
    match talsh_task with
    | none => exec.ret (K.TALSH_INVALID_ARGS, store, w)
    | some task =>
      if task.dev_kind = K.DEV_NULL then exec.ret (K.TALSH_TASK_EMPTY, store, w)
      else
        match task.task_p with
        | none => exec.ret (K.TALSH_INVALID_ARGS, store, w)
        | some ref =>
          if task.dev_kind = K.DEV_HOST then
            match ref with
            | task_ref.host h =>
              if host_task_is_empty K (some h) ≠ K.NOPE then
                exec.ret (K.TALSH_OBJECT_IS_EMPTY, store, w)
              else talshTaskStatus_finish K E w store task (host_task_status K (some h))
            | task_ref.cuda _ => exec.undef
          else if task.dev_kind = K.DEV_NVIDIA_GPU then
            if K.NO_GPU then exec.ret (K.TALSH_NOT_AVAILABLE, store, w)
            else
              match ref with
              | task_ref.cuda c =>
                let i := E.cuda_task_status w c
                talshTaskStatus_finish K E i.2 store task (talshTaskStatus_cuda K i.1)
              | task_ref.host _ => exec.undef
          else if task.dev_kind = K.DEV_INTEL_MIC then
            if K.NO_PHI then exec.ret (K.TALSH_NOT_AVAILABLE, store, w)
            else exec.ret (K.TALSH_NOT_IMPLEMENTED, store, w)
          else if task.dev_kind = K.DEV_AMD_GPU then
            if K.NO_AMD then exec.ret (K.TALSH_NOT_AVAILABLE, store, w)
            else exec.ret (K.TALSH_NOT_IMPLEMENTED, store, w)
          else exec.ret (K.TALSH_INVALID_ARGS, store, w)

/-- Result of `talshTaskCompleted`: the value returned, the integers that `stats` and
`ierr` point to, the store of tensor blocks and the outside state. -/
structure completed_t (W : Type) where
  value : Int
  stats : Option Int
  ierr : Option Int
  store : List talsh_tens_t
  /-- the outside state -/
  world : W

/-- The `switch(*stats)` of `talshTaskCompleted` over the status of the CUDA task:
`*stats`, `errc` and `*ierr` after it. -/
def talshTaskCompleted_cuda (K : talsh_h) (i errc ierr : Int) : Int × Int × Int :=
  if i = K.CUDA_TASK_ERROR then (K.TALSH_TASK_ERROR, K.YEP, ierr)
  else if i = K.CUDA_TASK_EMPTY then (K.TALSH_TASK_EMPTY, errc, ierr)
  else if i = K.CUDA_TASK_SCHEDULED then (K.TALSH_TASK_SCHEDULED, errc, ierr)
  else if i = K.CUDA_TASK_STARTED then (K.TALSH_TASK_STARTED, errc, ierr)
  else if i = K.CUDA_TASK_INPUT_THERE then (K.TALSH_TASK_INPUT_READY, errc, ierr)
  else if i = K.CUDA_TASK_OUTPUT_THERE then (K.TALSH_TASK_OUTPUT_READY, errc, ierr)
  else if i = K.CUDA_TASK_COMPLETED then (K.TALSH_TASK_COMPLETED, K.YEP, ierr)
  else (K.TALSH_FAILURE, errc, K.TALSH_FAILURE)

/-- The end of `talshTaskCompleted`: `if(errc == YEP){i=talshTaskFinalize(talsh_task,
*stats); if(i) *ierr=NOT_CLEAN;} return errc;`. -/
def talshTaskCompleted_finish {W : Type} (K : talsh_h) (E : nvtal W) (w : W)
    (store : List talsh_tens_t) (task : talsh_task_t) (errc stats ierr : Int) :
    exec (completed_t W) :=
  if errc = K.YEP then
    match talshTaskFinalize K E w store (some task) stats with
    | exec.ret f =>
      exec.ret ⟨errc, some stats, some (if f.1 ≠ 0 then K.NOT_CLEAN else ierr), f.2.1, f.2.2⟩
    | _ => exec.undef
  else exec.ret ⟨errc, some stats, some ierr, store, w⟩

/-- Returns `YEP` if the TAL-SH task has completed, `NOPE` otherwise; the TAL-SH task
status is returned in `stats`. The arguments `stats` and `ierr` are pointers to
integers. -/
def talshTaskCompleted {W : Type} (K : talsh_h) (E : nvtal W) (talsh_on : Int) (w : W)
    (store : List talsh_tens_t) (talsh_task : Option talsh_task_t)
    (stats ierr : Option Int) : exec (completed_t W) :=
  if talsh_on = 0 then
    match ierr with
    | none => exec.undef
    | some _ => exec.ret ⟨K.NOPE, stats, some K.TALSH_NOT_INITIALIZED, store, w⟩
  else
    match ierr with
    | none => exec.ret ⟨K.TALSH_INVALID_ARGS, stats, none, store, w⟩
    | some _ =>
      match talsh_task, stats with
      | some task, some st0 =>
        match task.task_p with
        | none => exec.ret ⟨K.NOPE, stats, some K.TALSH_OBJECT_IS_EMPTY, store, w⟩
        | some ref =>
          if task.dev_kind = K.DEV_HOST then
            match ref with
            | task_ref.host h =>
              if host_task_is_empty K (some h) ≠ K.NOPE then
                exec.ret ⟨K.TALSH_OBJECT_IS_EMPTY, stats, some K.TALSH_SUCCESS, store, w⟩
              else
                let s := host_task_status K (some h)
                talshTaskCompleted_finish K E w store task
                  (if s = K.TALSH_TASK_COMPLETED ∨ s = K.TALSH_TASK_ERROR then K.YEP
                   else K.NOPE) s K.TALSH_SUCCESS
            | task_ref.cuda _ => exec.undef
          else if task.dev_kind = K.DEV_NVIDIA_GPU then
            if K.NO_GPU then
              talshTaskCompleted_finish K E w store task K.NOPE st0 K.TALSH_NOT_AVAILABLE
            else
              match ref with
              | task_ref.cuda c =>
                let i := E.cuda_task_completed w c
                let r := talshTaskCompleted_cuda K i.1 K.NOPE K.TALSH_SUCCESS
                talshTaskCompleted_finish K E i.2 store task r.2.1 r.1 r.2.2
              | task_ref.host _ => exec.undef
          else if task.dev_kind = K.DEV_INTEL_MIC then
            talshTaskCompleted_finish K E w store task K.NOPE st0
              (if K.NO_PHI then K.TALSH_NOT_AVAILABLE else K.TALSH_NOT_IMPLEMENTED)
          else if task.dev_kind = K.DEV_AMD_GPU then
            talshTaskCompleted_finish K E w store task K.NOPE st0
              (if K.NO_AMD then K.TALSH_NOT_AVAILABLE else K.TALSH_NOT_IMPLEMENTED)
          else talshTaskCompleted_finish K E w store task K.NOPE st0 K.TALSH_INVALID_ARGS
      | _, _ => exec.ret ⟨K.NOPE, stats, some K.TALSH_INVALID_ARGS, store, w⟩

/-! ## Concrete constants and a concrete lower-level runtime

Used to evaluate the functions above on concrete inputs. -/

/-- A choice of values for the constants of `talsh.h` and `tensor_algebra.h`, for a
build with GPU support: `TALSH_SUCCESS` is 0, the other status codes are pairwise
distinct and not 0. -/
def talsh_h_values : talsh_h where
  TALSH_SUCCESS := 0
  TALSH_FAILURE := -666
  TALSH_NOT_AVAILABLE := -888
  TALSH_NOT_IMPLEMENTED := -999
  TALSH_NOT_INITIALIZED := 1000000
  TALSH_INVALID_ARGS := 1000002
  TALSH_INTEGER_OVERFLOW := 1000003
  TALSH_OBJECT_NOT_EMPTY := 1000004
  TALSH_OBJECT_IS_EMPTY := 1000005
  TALSH_NOT_ALLOWED := 1000007
  TALSH_TASK_ERROR := 1999999
  TALSH_TASK_EMPTY := 2000000
  TALSH_TASK_SCHEDULED := 2000001
  TALSH_TASK_STARTED := 2000002
  TALSH_TASK_INPUT_READY := 2000003
  TALSH_TASK_OUTPUT_READY := 2000004
  TALSH_TASK_COMPLETED := 2000005
  CUDA_TASK_ERROR := -1
  CUDA_TASK_EMPTY := 0
  CUDA_TASK_SCHEDULED := 1
  CUDA_TASK_STARTED := 2
  CUDA_TASK_INPUT_THERE := 3
  CUDA_TASK_OUTPUT_THERE := 4
  CUDA_TASK_COMPLETED := 5
  YEP := 1
  NOPE := 0
  NOT_CLEAN := -192837465
  TRY_LATER := -918273645
  DEVICE_UNABLE := -546372819
  DEV_NULL := -1
  DEV_HOST := 0
  DEV_NVIDIA_GPU := 1
  DEV_INTEL_MIC := 2
  DEV_AMD_GPU := 3
  DEV_MAX := 25
  NO_TYPE := 0
  R4 := 4
  R8 := 8
  COPY_D := 0
  COPY_M := 1
  TALSH_MAX_DEV_PRESENT := 16
  MAX_TENSOR_OPERANDS := 4
  NO_GPU := false
  NO_PHI := false
  NO_AMD := false

/-- A lower-level runtime for `talsh_h_values`. The flat device id 0 is the Host, the
ids 1 to 8 are the GPUs 0 to 7, 9 to 16 the MICs and 17 to 24 the AMD GPUs. Every
allocation succeeds. The outside state is the list of the device resources released
so far, latest first; every release returns `release_status` and every look at a CUDA
task returns `cuda_status`. -/
def nvtal_values (release_status cuda_status : Int) : nvtal (List talsh_dev_rsc_t) where
  valid_device_kind := fun k => if -1 ≤ k ∧ k ≤ 3 then 1 else 0
  tens_valid_data_kind := fun k =>
    if k = 0 ∨ k = 4 ∨ k = 8 ∨ k = 16 then (1, k) else (0, 0)
  encode_device_id := fun kind num =>
    if kind = 0 ∧ num = 0 then 0
    else if 1 ≤ kind ∧ kind ≤ 3 ∧ 0 ≤ num ∧ num < 8 then 1 + 8 * (kind - 1) + num
    else 25
  decode_device_id := fun id =>
    if id = 0 then (0, 0)
    else if 1 ≤ id ∧ id < 25 then ((id - 1) % 8, 1 + (id - 1) / 8)
    else (-1, -1)
  tensDevRsc_clean := fun _ => ⟨-1, none, -1⟩
  tensDevRsc_release_all := fun w r => (release_status, ⟨-1, none, -1⟩, r :: w)
  tensDevRsc_attach_mem := fun w _ dev mem buf => (0, ⟨dev, mem, buf⟩, w)
  tensDevRsc_allocate_mem := fun w _ dev _ hab => (0, ⟨dev, some 4096, if hab = 1 then 0 else -1⟩, w)
  tensShape_create := fun w => (0, some ⟨-1, [], [], []⟩, w)
  tensShape_construct := fun w _ _ rank dims => (0, ⟨rank, dims, [], []⟩, w)
  tensShape_destroy := fun w _ => (0, w)
  tensShape_volume := fun sh => (sh.dims.map Int.toNat).prod
  malloc := fun w => (true, w)
  cuda_task_status := fun w _ => (cuda_status, w)
  cuda_task_completed := fun w _ => (cuda_status, w)

/-! ## Specification vocabulary for tensor blocks and tasks -/

/-- The image table of the tensor block is consistent: the three arrays `rsc`, `dk`
and `av` are in place, each with `dev_rsc_len` entries, and `0 < ndev <= dev_rsc_len`. -/
def image_table_ok (t : talsh_tens_t) (rsc : List talsh_dev_rsc_t) (dk av : List Int) : Prop :=
  t.dev_rsc = some rsc ∧ t.data_kind = some dk ∧ t.avail = some av ∧
  (rsc.length : Int) = t.dev_rsc_len ∧ (dk.length : Int) = t.dev_rsc_len ∧
  (av.length : Int) = t.dev_rsc_len ∧ 0 < t.ndev ∧ t.ndev ≤ t.dev_rsc_len

/-- The image `j` of an availability array is marked available. -/
def image_avail (K : talsh_h) (av : List Int) (j : Nat) : Prop := av.get? j = some K.YEP

instance (K : talsh_h) (av : List Int) (j : Nat) : Decidable (image_avail K av j) := by
  unfold image_avail; exact inferInstance

/-- The tensor block has at least one available image among its `ndev` images. -/
def has_avail_image (K : talsh_h) (t : talsh_tens_t) : Prop :=
  ∃ av, t.avail = some av ∧ ∃ j : Nat, (j : Int) < t.ndev ∧ image_avail K av j

/-- The releases of the device resources of a list of images, one after the other: the
statuses returned, in this order, and the outside state after the last release. -/
def release_images {W : Type} (E : nvtal W) : List talsh_dev_rsc_t → W → List Int × W
  | [], w => ([], w)
  | r :: rs, w =>
    let rel := E.tensDevRsc_release_all w r
    let rest := release_images E rs rel.2.2
    (rel.1 :: rest.1, rest.2)

/-- The releases that destructing a tensor block consists of: the shape, if there is
one, and then the device resource of each of the `ndev` images, whatever the earlier
releases returned. The result is the list of the statuses returned and the outside
state after the last release; `rsc` is the array of device resources. -/
def release_everything {W : Type} (E : nvtal W) (t : talsh_tens_t)
    (rsc : List talsh_dev_rsc_t) (w : W) : List Int × W :=
  match t.shape_p with
  | some sh =>
    let d := E.tensShape_destroy w sh
    let r := release_images E (rsc.take t.ndev.toNat) d.2
    (d.1 :: r.1, r.2)
  | none => release_images E (rsc.take t.ndev.toNat) w

/-- The array of device resources of the tensor block is `rsc` and has `dev_rsc_len`
entries; a tensor block without the array has capacity 0 and `rsc` is empty. -/
def image_storage (t : talsh_tens_t) (rsc : List talsh_dev_rsc_t) : Prop :=
  (t.dev_rsc = some rsc ∧ (rsc.length : Int) = t.dev_rsc_len) ∨
  (t.dev_rsc = none ∧ rsc = [] ∧ t.dev_rsc_len = 0)

/-- The status codes that aggregate statuses are compared with are told apart:
`TALSH_SUCCESS` is 0, and `NOT_CLEAN` and `TALSH_FAILURE` are two other values. -/
def aggregate_codes (K : talsh_h) : Prop :=
  K.TALSH_SUCCESS = 0 ∧ K.NOT_CLEAN ≠ 0 ∧ K.TALSH_FAILURE ≠ 0 ∧ K.TALSH_FAILURE ≠ K.NOT_CLEAN

instance (K : talsh_h) : Decidable (aggregate_codes K) := by
  unfold aggregate_codes; exact inferInstance

/-- Modelled from the spec: the functions `tensDevRsc_attach_mem` and
`tensDevRsc_allocate_mem` are missing from the sources. The spec says of them that the
construction of a device resource record "binds a device id either to (a) a slot
obtained from that device's Pool Allocator (owned) or (b) an externally supplied
pointer": a record that one of them returns with status 0 carries the device id that
was asked for. -/
def rsc_binds_device {W : Type} (E : nvtal W) : Prop :=
  (∀ w r dev mem buf, (E.tensDevRsc_attach_mem w r dev mem buf).1 = 0 →
    (E.tensDevRsc_attach_mem w r dev mem buf).2.1.dev_id = dev) ∧
  (∀ w r dev size hab, (E.tensDevRsc_allocate_mem w r dev size hab).1 = 0 →
    (E.tensDevRsc_allocate_mem w r dev size hab).2.1.dev_id = dev)

/-- The status codes with which `talshTensorConstruct` gives up are not
`TALSH_SUCCESS`, which is 0. -/
def construct_codes (K : talsh_h) : Prop :=
  K.TALSH_SUCCESS = 0 ∧ K.TALSH_NOT_INITIALIZED ≠ 0 ∧ K.TALSH_INVALID_ARGS ≠ 0 ∧
  K.TALSH_OBJECT_NOT_EMPTY ≠ 0 ∧ K.TRY_LATER ≠ 0 ∧ K.DEVICE_UNABLE ≠ 0 ∧
  K.TALSH_FAILURE ≠ 0 ∧ K.TALSH_INTEGER_OVERFLOW ≠ 0

instance (K : talsh_h) : Decidable (construct_codes K) := by
  unfold construct_codes; exact inferInstance

/-- What a tensor block looks like right after a construction that made its first
image for the data kind `data_kind` on the device `dev_id`: it is non-empty, has
capacity `TALSH_MAX_DEV_PRESENT` and `ndev = 1`, and image 0 is marked available,
carries the data kind and resides on the device. -/
def one_image (K : talsh_h) (t : talsh_tens_t) (data_kind dev_id : Int) : Prop :=
  t.shape_p ≠ none ∧ t.dev_rsc_len = K.TALSH_MAX_DEV_PRESENT ∧ t.ndev = 1 ∧
  ∃ rsc dk av r, t.dev_rsc = some rsc ∧ t.data_kind = some dk ∧ t.avail = some av ∧
    av.get? 0 = some K.YEP ∧ dk.get? 0 = some data_kind ∧ rsc.get? 0 = some r ∧
    r.dev_id = dev_id

/-- The images of a tensor block, in the order of the image list: the device resource,
the data kind and the availability flag of each of the `ndev` images. -/
def images (t : talsh_tens_t) : List (talsh_dev_rsc_t × Int × Int) :=
  match t.dev_rsc, t.data_kind, t.avail with
  | some rsc, some dk, some av => (List.zip rsc (List.zip dk av)).take t.ndev.toNat
  | _, _, _ => []

/-- The constants that `talshTaskFinalize` and `talshTaskStatus` tell apart: the GPU
kind is neither the Host kind nor `DEV_NULL`, a completed task is not a task in
error, `YEP` is not `NOPE`, and `TALSH_SUCCESS` is 0. -/
def finalize_codes (K : talsh_h) : Prop :=
  K.DEV_NVIDIA_GPU ≠ K.DEV_HOST ∧ K.DEV_NVIDIA_GPU ≠ K.DEV_NULL ∧
  K.TALSH_TASK_COMPLETED ≠ K.TALSH_TASK_ERROR ∧ K.YEP ≠ K.NOPE ∧ K.TALSH_SUCCESS = 0

instance (K : talsh_h) : Decidable (finalize_codes K) := by
  unfold finalize_codes; exact inferInstance

/-- The 2-bit field of the coherence control value `coherence` that `talshTaskFinalize`
uses for the argument `k` of a task with `num_args` arguments: the last argument has
the lowest two bits. -/
def coherence_field (coherence num_args : Int) (k : Nat) : Nat :=
  uint_of_int coherence / 4 ^ (num_args.toNat - 1 - k) % 4

/-- The 2-bit code `cc` asks for the image to be discarded (`COPY_D` or `COPY_M`). -/
def discard_code (K : talsh_h) (cc : Nat) : Prop :=
  cc = uint_of_int K.COPY_D ∨ cc = uint_of_int K.COPY_M

instance (K : talsh_h) (cc : Nat) : Decidable (discard_code K cc) := by
  unfold discard_code; exact inferInstance

/-- The store `s1` of tensor blocks is the store `s` in which some availability flags
that were `NOPE` are `YEP`: every tensor block of `s` has a counterpart at the same
place in `s1`, and every flag is the same or has changed from `NOPE` to `YEP`. -/
def flags_raised (K : talsh_h) (s s1 : List talsh_tens_t) : Prop :=
  ∀ p t, s.get? p = some t → ∃ t1, s1.get? p = some t1 ∧
    ∀ av, t.avail = some av → ∃ av1, t1.avail = some av1 ∧
      ∀ j : Nat, av1.get? j = av.get? j ∨ (av.get? j = some K.NOPE ∧ av1.get? j = some K.YEP)

/-- No argument of the task carries a discard code (`COPY_D` or `COPY_M`). -/
def no_discard_codes (K : talsh_h) (task : talsh_task_t) : Prop :=
  ∀ k : Nat, (k : Int) < task.num_args →
    ¬ discard_code K (coherence_field task.coherence task.num_args k)

/-- The status `CUDA_TASK_COMPLETED` differs from the six other statuses of a CUDA
task. -/
def cuda_completed_apart (K : talsh_h) : Prop :=
  K.CUDA_TASK_COMPLETED ≠ K.CUDA_TASK_ERROR ∧ K.CUDA_TASK_COMPLETED ≠ K.CUDA_TASK_EMPTY ∧
  K.CUDA_TASK_COMPLETED ≠ K.CUDA_TASK_SCHEDULED ∧ K.CUDA_TASK_COMPLETED ≠ K.CUDA_TASK_STARTED ∧
  K.CUDA_TASK_COMPLETED ≠ K.CUDA_TASK_INPUT_THERE ∧
  K.CUDA_TASK_COMPLETED ≠ K.CUDA_TASK_OUTPUT_THERE

instance (K : talsh_h) : Decidable (cuda_completed_apart K) := by
  unfold cuda_completed_apart; exact inferInstance

/-- What the backend reports for the task on two consecutive looks, `x`, is a terminal
state for which looking twice is the same as looking once: the task is in error, or it
has completed and no argument carries a discard code. -/
def settled_state (K : talsh_h) (task : talsh_task_t) (x : Int) : Prop :=
  x = K.CUDA_TASK_ERROR ∨
  (x = K.CUDA_TASK_COMPLETED ∧ cuda_completed_apart K ∧ no_discard_codes K task)

/-! # Task construction, waiting and tensor placement (`talshc.cpp`)

The functions below follow the conventions of the task API above. The task that a
pointer `talsh_task_t *` refers to is passed as an optional value and handed back
with the result. The counter `not_clean_count` of `talsh_raise_not_clean` is read by
no function and is not part of the model.
-/

/-- Further functions of the lower-level runtimes and of the C library that
`talshc.cpp` calls when it constructs, destroys and runs tasks. -/
structure nvtal_task (W : Type) where
  /-- The call `malloc(sizeof(host_task_t))`: the block obtained, read as a host task
  with whatever the block holds; `none` when there is no memory -/
  malloc_host_task : W → Option host_task_t × W
  /-- The call `malloc(sizeof(talsh_task_t))`: the block obtained, read as a TAL-SH
  task; `none` when there is no memory -/
  malloc_talsh_task : W → Option talsh_task_t × W
  /-- The call `free(ptr)` for a block that is not `NULL` -/
  free : W → W
  /-- The call `cuda_task_create(&cuda_task)`: the status and the pointer stored -/
  cuda_task_create : W → Int × Option Nat × W
  /-- The call `cuda_task_destroy(cuda_task)` -/
  cuda_task_destroy : W → Nat → Int × W
  /-- The call `tensBlck_create(&ctens)`: the status and the pointer stored -/
  tensBlck_create : W → Int × Option Nat × W
  /-- The call `tensBlck_construct(ctens,pinned,num_dim,dims,divs,grps)` -/
  tensBlck_construct : W → Option Nat → Int → Int → List Int → List Int → List Int → Int × W
  /-- The call `tensBlck_attach_body(ctens,data_kind,dev_id,gmem_p,buf_entry)` -/
  tensBlck_attach_body : W → Option Nat → Int → Int → Option Nat → Int → Int × W
  /-- The call `tensBlck_destroy(ctens)` -/
  tensBlck_destroy : W → Option Nat → Int × W
  /-- The call `tensBlck_volume(ctens)` -/
  tensBlck_volume : W → Nat → Nat
  /-- The call `gpu_tensor_block_place(ctens,gpu_id,coh_ctrl,cuda_task)` -/
  gpu_tensor_block_place : W → Nat → Int → Nat → Option Nat → Int × W

/-- Conversion `unsigned int -> int` of a value below `2^32`. -/
def int_of_uint (x : Nat) : Int :=
  if x % 2 ^ 32 < 2 ^ 31 then ((x % 2 ^ 32 : Nat) : Int) else ((x % 2 ^ 32 : Nat) : Int) - 2 ^ 32

/-- Cleans a host task (`host_task_clean`): the status and the host task. -/
def host_task_clean (K : talsh_h) (host_task : Option host_task_t) :
    Int × Option host_task_t :=
  match host_task with
  | none => (K.TALSH_INVALID_ARGS, none)
  | some h => (K.TALSH_SUCCESS, some { h with task_error := -1, host_id := -1 })

/-- Creates a host task (`host_task_create`): the status, the pointer stored in
`*host_task` and the outside state. -/
def host_task_create {W : Type} (K : talsh_h) (T : nvtal_task W) (w : W) :
    Int × Option host_task_t × W :=
  let m := T.malloc_host_task w
  match m.1 with
  | none => (K.TRY_LATER, none, m.2)
  | some h => ((host_task_clean K (some h)).1, (host_task_clean K (some h)).2, m.2)

/-- Records the outcome of a host task (`host_task_record`): the status and the host
task. -/
def host_task_record (K : talsh_h) (host_task : Option host_task_t)
    (coh_ctrl error_code : Nat) : Int × Option host_task_t :=
  match host_task with
  | none => (K.TALSH_INVALID_ARGS, none)
  | some h =>
    if host_task_is_empty K (some h) = K.YEP then
      (K.TALSH_SUCCESS, some ⟨int_of_uint error_code, 0, coh_ctrl⟩)
    else (K.TALSH_OBJECT_NOT_EMPTY, some h)

/-- Destroys a host task (`host_task_destroy`): the status and the outside state. -/
def host_task_destroy {W : Type} (K : talsh_h) (T : nvtal_task W) (w : W)
    (host_task : Option host_task_t) : Int × W :=
  match host_task with
  | none => (K.TALSH_INVALID_ARGS, w)
  | some _ => (K.TALSH_SUCCESS, T.free w)

/-- The defined-empty task that `talshTaskClean` leaves: the array `tens_args` has
`MAX_TENSOR_OPERANDS` entries, all of which are reset. -/
def talsh_task_empty (K : talsh_h) : talsh_task_t :=
  ⟨none, K.DEV_NULL, K.NO_TYPE, -1, 0,
    List.replicate K.MAX_TENSOR_OPERANDS.toNat ⟨none, -1⟩, 0, 0, 0⟩

/-- Cleans an undefined task object making it defined-empty (`talshTaskClean`): the
status and the task. The function does not check its argument for `NULL`. -/
def talshTaskClean (K : talsh_h) (talsh_task : Option talsh_task_t) :
    exec (Int × talsh_task_t) :=
  match talsh_task with
  | none => exec.undef
  | some _ => exec.ret (K.TALSH_SUCCESS, talsh_task_empty K)

/-- Creates a clean task object on heap (`talshTaskCreate`): the status, the pointer
stored in `*talsh_task` and the outside state. -/
def talshTaskCreate {W : Type} (K : talsh_h) (T : nvtal_task W) (w : W) :
    exec (Int × Option talsh_task_t × W) :=
  let m := T.malloc_talsh_task w
  match m.1 with
  | none => exec.ret (K.TRY_LATER, none, m.2)
  | some t =>
    match talshTaskClean K (some t) with
    | exec.ret c => exec.ret (c.1, some c.2, m.2)
    | exec.undef => exec.undef
    | exec.timeout => exec.timeout

/-- The end of `talshTaskDestruct` for a host or a CUDA task whose destruction has
returned `errc`: `if(errc != 0 && errc != TRY_LATER && errc != NOT_CLEAN)
errc=TALSH_FAILURE;`, then `talshTaskClean`. -/
def talshTaskDestruct_finish {W : Type} (K : talsh_h) (task : talsh_task_t) (errc : Int)
    (w : W) : exec (Int × Option talsh_task_t × W) :=
  match talshTaskClean K (some task) with
  | exec.ret c =>
    exec.ret (if errc ≠ 0 ∧ errc ≠ K.TRY_LATER ∧ errc ≠ K.NOT_CLEAN then K.TALSH_FAILURE
      else errc, some c.2, w)
  | exec.undef => exec.undef
  | exec.timeout => exec.timeout

/-- Destructs a TAL-SH task, putting it back into the defined-empty (clean) state
(`talshTaskDestruct`): the status, the task and the outside state. -/
def talshTaskDestruct {W : Type} (K : talsh_h) (T : nvtal_task W) (talsh_on : Int) (w : W)
    (talsh_task : Option talsh_task_t) : exec (Int × Option talsh_task_t × W) :=
  if talsh_on = 0 then exec.ret (K.TALSH_NOT_INITIALIZED, talsh_task, w)
  else
    match talsh_task with
    | none => exec.ret (K.TALSH_INVALID_ARGS, none, w)
    | some task =>
      if task.dev_kind = K.DEV_HOST then
        match task.task_p with
        | none => exec.ret (K.TALSH_INVALID_ARGS, some task, w)
        | some (task_ref.host h) =>
          talshTaskDestruct_finish K task (host_task_destroy K T w (some h)).1
            (host_task_destroy K T w (some h)).2
        | some (task_ref.cuda _) => exec.undef
      else if task.dev_kind = K.DEV_NVIDIA_GPU then
        if K.NO_GPU then exec.ret (K.TALSH_NOT_AVAILABLE, some task, w)
        else
          match task.task_p with
          | none => exec.ret (K.TALSH_INVALID_ARGS, some task, w)
          | some (task_ref.cuda c) =>
            talshTaskDestruct_finish K task (T.cuda_task_destroy w c).1
              (T.cuda_task_destroy w c).2
          | some (task_ref.host _) => exec.undef
      else if task.dev_kind = K.DEV_INTEL_MIC then
        if K.NO_PHI then exec.ret (K.TALSH_NOT_AVAILABLE, some task, w)
        else exec.ret (K.TALSH_NOT_IMPLEMENTED, some task, w)
      else if task.dev_kind = K.DEV_AMD_GPU then
        if K.NO_AMD then exec.ret (K.TALSH_NOT_AVAILABLE, some task, w)
        else exec.ret (K.TALSH_NOT_IMPLEMENTED, some task, w)
      else if task.dev_kind = K.DEV_NULL then
        match talshTaskClean K (some task) with
        | exec.ret c => exec.ret (K.TALSH_SUCCESS, some c.2, w)
        | exec.undef => exec.undef
        | exec.timeout => exec.timeout
      else exec.ret (K.TALSH_INVALID_ARGS, some task, w)

/-- Completely destroys a task object (`talshTaskDestroy`): the status and the outside
state; the object is gone. -/
def talshTaskDestroy {W : Type} (K : talsh_h) (T : nvtal_task W) (talsh_on : Int) (w : W)
    (talsh_task : Option talsh_task_t) : exec (Int × W) :=
  match talsh_task with
  | none => exec.ret (K.TALSH_INVALID_ARGS, w)
  | some task =>
    match talshTaskDestruct K T talsh_on w (some task) with
    | exec.ret d => exec.ret (d.1, T.free d.2.2)
    | exec.undef => exec.undef
    | exec.timeout => exec.timeout

/-- The part of `talshTaskConstruct` that starts at `switch(dev_kind)`: `task` is the
task after the destruction of what it held and `errc` the status so far. -/
def talshTaskConstruct_switch {W : Type} (K : talsh_h) (T : nvtal_task W) (w : W)
    (task : talsh_task_t) (errc dev_kind coh_ctrl data_kind : Int) :
    exec (Int × Option talsh_task_t × W) :=
  if dev_kind = K.DEV_HOST then
    let c := host_task_create K T w
    if c.1 ≠ 0 then
      match talshTaskClean K (some task) with
      | exec.ret e =>
        exec.ret (if c.1 = K.TRY_LATER ∨ c.1 = K.DEVICE_UNABLE then c.1 else K.TALSH_FAILURE,
          some e.2, c.2.2)
      | exec.undef => exec.undef
      | exec.timeout => exec.timeout
    else
      exec.ret (errc,
        some { task with
               task_p := (c.2.1.map task_ref.host)
               dev_kind := dev_kind
               data_kind := data_kind
               coherence := coh_ctrl },
        c.2.2)
  else if dev_kind = K.DEV_NVIDIA_GPU then
    if K.NO_GPU then exec.ret (K.TALSH_NOT_AVAILABLE, some task, w)
    else
      let c := T.cuda_task_create w
      if c.1 ≠ 0 then
        match talshTaskClean K (some task) with
        | exec.ret e =>
          exec.ret (if c.1 = K.TRY_LATER ∨ c.1 = K.DEVICE_UNABLE then c.1
            else K.TALSH_FAILURE, some e.2, c.2.2)
        | exec.undef => exec.undef
        | exec.timeout => exec.timeout
      else
        exec.ret (errc,
          some { task with
                 task_p := (c.2.1.map task_ref.cuda)
                 dev_kind := dev_kind
                 data_kind := data_kind
                 coherence := coh_ctrl },
          c.2.2)
  else if dev_kind = K.DEV_INTEL_MIC then
    if K.NO_PHI then exec.ret (K.TALSH_NOT_AVAILABLE, some task, w)
    else exec.ret (K.TALSH_NOT_IMPLEMENTED, some task, w)
  else if dev_kind = K.DEV_AMD_GPU then
    if K.NO_AMD then exec.ret (K.TALSH_NOT_AVAILABLE, some task, w)
    else exec.ret (K.TALSH_NOT_IMPLEMENTED, some task, w)
  else exec.ret (K.TALSH_INVALID_ARGS, some task, w)

/-- Constructs a TAL-SH task (`talshTaskConstruct`): the status, the task and the
outside state. A value-defined task is destructed before the new construction. -/
def talshTaskConstruct {W : Type} (K : talsh_h) (E : nvtal W) (T : nvtal_task W)
    (talsh_on : Int) (w : W) (talsh_task : Option talsh_task_t)
    (dev_kind coh_ctrl data_kind : Int) : exec (Int × Option talsh_task_t × W) :=
  if talsh_on = 0 then exec.ret (K.TALSH_NOT_INITIALIZED, talsh_task, w)
  else
    match talsh_task with
    | none => exec.ret (K.TALSH_INVALID_ARGS, none, w)
    | some task =>
      if E.valid_device_kind dev_kind ≠ K.YEP then
        exec.ret (K.TALSH_INVALID_ARGS, some task, w)
      else if data_kind ≠ K.NO_TYPE ∧ (E.tens_valid_data_kind data_kind).1 ≠ K.YEP then
        exec.ret (K.TALSH_INVALID_ARGS, some task, w)
      else if task.dev_kind ≠ K.DEV_NULL then
        match talshTaskDestruct K T talsh_on w (some task) with
        | exec.ret d =>
          if d.1 ≠ K.TALSH_SUCCESS ∧ d.1 ≠ K.NOT_CLEAN then
            exec.ret (K.TALSH_FAILURE, d.2.1, d.2.2)
          else
            match d.2.1 with
            | none => exec.undef
            | some task1 =>
              talshTaskConstruct_switch K T d.2.2 task1 d.1 dev_kind coh_ctrl data_kind
        | exec.undef => exec.undef
        | exec.timeout => exec.timeout
      else talshTaskConstruct_switch K T w task K.TALSH_SUCCESS dev_kind coh_ctrl data_kind

/-! ## Waiting for tasks -/

/-- The loop `while(talshTaskCompleted(talsh_task,stats,&errc) == NOPE){if(errc !=
TALSH_SUCCESS) break;}` of `talshTaskWait`, run for at most as many calls of
`talshTaskCompleted` as the first argument says: `errc`, `*stats`, the store of tensor
blocks and the outside state after the loop. -/
def talshTaskWait_loop {W : Type} (K : talsh_h) (E : nvtal W) (talsh_on : Int)
    (talsh_task : Option talsh_task_t) :
    Nat → W → List talsh_tens_t → Option Int → Int →
      exec (Int × Option Int × List talsh_tens_t × W)
  | 0, _, _, _, _ => exec.timeout
  | fuel + 1, w, store, stats, errc =>
    match talshTaskCompleted K E talsh_on w store talsh_task stats (some errc) with
    | exec.ret r =>
      match r.ierr with
      | none => exec.undef
      | some e =>
        if r.value = K.NOPE then
          if e ≠ K.TALSH_SUCCESS then exec.ret (e, r.stats, r.store, r.world)
          else talshTaskWait_loop K E talsh_on talsh_task fuel r.world r.store r.stats e
        else exec.ret (e, r.stats, r.store, r.world)
    | exec.undef => exec.undef
    | exec.timeout => exec.timeout

/-- Returns upon completion of a TAL-SH task (`talshTaskWait`), with `fuel` calls of
`talshTaskCompleted` at most: the status, `*stats`, the store of tensor blocks and
the outside state. -/
def talshTaskWait {W : Type} (K : talsh_h) (E : nvtal W) (talsh_on : Int) (fuel : Nat)
    (w : W) (store : List talsh_tens_t) (talsh_task : Option talsh_task_t)
    (stats : Option Int) : exec (Int × Option Int × List talsh_tens_t × W) :=
  if talsh_on = 0 then exec.ret (K.TALSH_NOT_INITIALIZED, stats, store, w)
  else
    match talsh_task, stats with
    | some task, some s =>
      talshTaskWait_loop K E talsh_on (some task) fuel w store (some s) K.TALSH_SUCCESS
    | _, _ => exec.ret (K.TALSH_INVALID_ARGS, stats, store, w)

/-- The loop `for(i=0;i<ntasks;++i) stats[i]=TALSH_TASK_EMPTY;` of `talshTasksWait`. -/
def talshTasksWait_init (K : talsh_h) : Nat → Int → List Int → Option (List Int)
  | 0, _, stats => some stats
  | rem + 1, i, stats =>
    match elem_set stats i K.TALSH_TASK_EMPTY with
    | none => none
    | some stats1 => talshTasksWait_init K rem (i + 1) stats1

/-- State of the loops of `talshTasksWait`. -/
structure tasks_wait_t (W : Type) where
  /-- the status with which the function has returned from inside the loop, if it
  has -/
  returned : Option Int
  /-- number of tasks that are not known to have completed -/
  tc : Int
  errc : Int
  stats : List Int
  store : List talsh_tens_t
  /-- the outside state -/
  world : W
  deriving DecidableEq

/-- One pass `for(i=0;i<ntasks;++i){...}` of `talshTasksWait`; the first argument
counts the iterations that are left (`ntasks - i`). -/
def talshTasksWait_pass {W : Type} (K : talsh_h) (E : nvtal W) (talsh_on : Int)
    (talsh_tasks : List talsh_task_t) : Nat → Int → tasks_wait_t W → exec (tasks_wait_t W)
  | 0, _, s => exec.ret s
  | rem + 1, i, s =>
    match elem_get talsh_tasks i with
    | none => exec.undef
    | some t =>
      if t.task_p = none ∨ t.dev_kind = K.DEV_NULL then
        exec.ret { s with returned := some K.TALSH_OBJECT_IS_EMPTY }
      else
        match elem_get s.stats i with
        | none => exec.undef
        | some v =>
          if v = K.TALSH_TASK_EMPTY then
            match talshTaskCompleted K E talsh_on s.world s.store (some t) (some v)
                (some s.errc) with
            | exec.ret r =>
              match r.stats, r.ierr with
              | some v1, some e1 =>
                if e1 ≠ K.TALSH_SUCCESS then
                  exec.ret ⟨some K.TALSH_FAILURE, if r.value = K.YEP then s.tc - 1 else s.tc,
                    e1, s.stats.set i.toNat v1, r.store, r.world⟩
                else
                  talshTasksWait_pass K E talsh_on talsh_tasks rem (i + 1)
                    ⟨none, if r.value = K.YEP then s.tc - 1 else s.tc, e1,
                      s.stats.set i.toNat v1, r.store, r.world⟩
              | _, _ => exec.undef
            | exec.undef => exec.undef
            | exec.timeout => exec.timeout
          else if s.errc ≠ K.TALSH_SUCCESS then
            exec.ret { s with returned := some K.TALSH_FAILURE }
          else talshTasksWait_pass K E talsh_on talsh_tasks rem (i + 1) s

/-- The loop `while(tc > 0){...}` of `talshTasksWait`, run for at most as many passes
as the first argument says (the test `tc > 0` that ends the loop counts as a pass): the
status, the array `stats`, the store of tensor blocks and the outside state. -/
def talshTasksWait_loop {W : Type} (K : talsh_h) (E : nvtal W) (talsh_on : Int)
    (ntasks : Int) (talsh_tasks : List talsh_task_t) :
    Nat → tasks_wait_t W → exec (Int × List Int × List talsh_tens_t × W)
  | 0, _ => exec.timeout
  | fuel + 1, s =>
    if s.tc > 0 then
      match talshTasksWait_pass K E talsh_on talsh_tasks ntasks.toNat 0 s with
      | exec.ret s1 =>
        match s1.returned with
        | some status => exec.ret (status, s1.stats, s1.store, s1.world)
        | none => talshTasksWait_loop K E talsh_on ntasks talsh_tasks fuel s1
      | exec.undef => exec.undef
      | exec.timeout => exec.timeout
    else exec.ret (K.TALSH_SUCCESS, s.stats, s.store, s.world)

/-- Returns upon completion of a number of TAL-SH tasks (`talshTasksWait`), with
`fuel` passes over the tasks at most: the status, the array `stats`, the store of
tensor blocks and the outside state. -/
def talshTasksWait {W : Type} (K : talsh_h) (E : nvtal W) (talsh_on : Int) (fuel : Nat)
    (w : W) (store : List talsh_tens_t) (ntasks : Int)
    (talsh_tasks : Option (List talsh_task_t)) (stats : Option (List Int)) :
    exec (Int × Option (List Int) × List talsh_tens_t × W) :=
  if talsh_on = 0 then exec.ret (K.TALSH_NOT_INITIALIZED, stats, store, w)
  else
    match talsh_tasks, stats with
    | some tasks, some st =>
      if ntasks ≤ 0 then exec.ret (K.TALSH_INVALID_ARGS, stats, store, w)
      else
        match talshTasksWait_init K ntasks.toNat 0 st with
        | none => exec.undef
        | some st1 =>
          match talshTasksWait_loop K E talsh_on ntasks tasks fuel
              ⟨none, ntasks, K.TALSH_SUCCESS, st1, store, w⟩ with
          | exec.ret r => exec.ret (r.1, some r.2.1, r.2.2.1, r.2.2.2)
          | exec.undef => exec.undef
          | exec.timeout => exec.timeout
    | _, _ => exec.ret (K.TALSH_INVALID_ARGS, stats, store, w)

/-! ## C tensor block aliasing -/

/-- Creates a `tensBlck_t` object for a specific image of a tensor block
(`talsh_tensor_c_assoc`): the status and the outside state. The new object is stored
in the local variable `ctens` of the function and the statement `tensC=&ctens;` makes
the parameter point to it: nothing is stored in what the argument `tensC` points
to. -/
def talsh_tensor_c_assoc {W : Type} (K : talsh_h) (E : nvtal W) (T : nvtal_task W)
    (talsh_on : Int) (w : W) (talsh_tens : Option talsh_tens_t) (image_id : Int) :
    exec (Int × W) :=
  if talsh_on = 0 then exec.ret (K.TALSH_NOT_INITIALIZED, w)
  else
    match talsh_tens with
    | none => exec.ret (K.TALSH_INVALID_ARGS, w)
    | some t =>
      if talshTensorIsEmpty K (some t) = K.YEP then exec.ret (K.TALSH_INVALID_ARGS, w)
      else if image_id < 0 ∨ image_id ≥ t.ndev then exec.ret (K.TALSH_INVALID_ARGS, w)
      else
        match t.dev_rsc, t.data_kind, t.avail with
        | some rsc, some dk, some av =>
          match elem_get dk image_id with
          | none => exec.undef
          | some k =>
            if (E.tens_valid_data_kind k).1 ≠ K.YEP then exec.ret (K.TALSH_FAILURE, w)
            else
              match elem_get av image_id with
              | none => exec.undef
              | some a =>
                if a = K.YEP then
                  let c := T.tensBlck_create w
                  if c.1 ≠ 0 then
                    exec.ret (if c.1 ≠ K.TRY_LATER then K.TALSH_FAILURE else c.1, c.2.2)
                  else
                    match t.shape_p with
                    | none => exec.undef
                    | some sh =>
                      let s := T.tensBlck_construct c.2.2 c.2.1 K.YEP sh.num_dim sh.dims
                        sh.divs sh.grps
                      if s.1 ≠ 0 then
                        exec.ret (if s.1 ≠ K.TRY_LATER then K.TALSH_FAILURE else s.1,
                          (T.tensBlck_destroy s.2 c.2.1).2)
                      else
                        match elem_get rsc image_id with
                        | none => exec.undef
                        | some r =>
                          let b := T.tensBlck_attach_body s.2 c.2.1 k r.dev_id r.gmem_p
                            r.buf_entry
                          if b.1 ≠ 0 then
                            exec.ret (if b.1 ≠ K.TRY_LATER then K.TALSH_FAILURE else b.1,
                              (T.tensBlck_destroy b.2 c.2.1).2)
                          else exec.ret (K.TALSH_SUCCESS, b.2)
                else exec.ret (K.TALSH_NOT_ALLOWED, w)
        | _, _, _ => exec.ret (K.TALSH_FAILURE, w)

/-- Destroys the `tensBlck_t` object created by `talsh_tensor_c_assoc`
(`talsh_tensor_c_dissoc`): the status and the outside state. -/
def talsh_tensor_c_dissoc {W : Type} (K : talsh_h) (T : nvtal_task W) (talsh_on : Int)
    (w : W) (tensC : Option Nat) : Int × W :=
  if talsh_on = 0 then (K.TALSH_NOT_INITIALIZED, w)
  else
    match tensC with
    | none => (K.TALSH_INVALID_ARGS, w)
    | some c =>
      if T.tensBlck_volume w c = 0 then (K.TALSH_OBJECT_IS_EMPTY, w)
      else
        let d := T.tensBlck_destroy w (some c)
        (if d.1 ≠ 0 then (if d.1 ≠ K.NOT_CLEAN then K.TALSH_FAILURE else d.1) else d.1, d.2)

/-! ## Tensor placement

`talshTensorPlace` is split at its comments: the search for the image to clone
(`talshTensorPlace_find`), the construction of the task (`talshTensorPlace_transfer`,
`talshTensorPlace_task`) and the call of the data transfer runtime
(`talshTensorPlace_switch`). The tensor block is given by its place `tens` in the store
of tensor blocks. The function calls itself once, with the Host as the destination:
the depth of the calls is bounded by a first argument.

The local variable `ctens` of `talshTensorPlace` is declared without a value and is
never assigned (see `talsh_tensor_c_assoc`): the value that it happens to hold is a
parameter, `ctens 0` for the call of the function by its caller and `ctens 1` for the
call of the function by itself.
-/

/-- Result of `talshTensorPlace`: the status, the store of tensor blocks, the task
object of the caller (`none` if `talsh_task` is `NULL`) and the outside state. -/
structure place_t (W : Type) where
  status : Int
  store : List talsh_tens_t
  task : Option talsh_task_t
  /-- the outside state -/
  world : W
  deriving DecidableEq

/-- The loop of `talshTensorPlace` that finds the tensor body image to clone, for the
destination device `[dvk,dvn]`; the first argument counts the iterations that are
left (`ndev - i`). The result is `image_id` and `host_image` after the loop, or `none`
for `return TALSH_FAILURE`. -/
def talshTensorPlace_find {W : Type} (K : talsh_h) (E : nvtal W)
    (dev_rsc : List talsh_dev_rsc_t) (avail : List Int) (dvk dvn : Int) :
    Nat → Int → Int → Int → exec (Option (Int × Int))
  | 0, _, image_id, host_image => exec.ret (some (image_id, host_image))
  | rem + 1, i, image_id, host_image =>
    match elem_get avail i with
    | none => exec.undef
    | some a =>
      if a = K.YEP then
        match elem_get dev_rsc i with
        | none => exec.undef
        | some r =>
          if (talshKindDevId E r.dev_id).1 < 0 then exec.ret none
          else if (talshKindDevId E r.dev_id).2 = dvk then
            if (talshKindDevId E r.dev_id).1 = dvn then exec.ret (some (i, host_image))
            else
              talshTensorPlace_find K E dev_rsc avail dvk dvn rem (i + 1) i
                (if (talshKindDevId E r.dev_id).2 = K.DEV_HOST then i else host_image)
          else
            talshTensorPlace_find K E dev_rsc avail dvk dvn rem (i + 1) image_id
              (if (talshKindDevId E r.dev_id).2 = K.DEV_HOST then i else host_image)
      else talshTensorPlace_find K E dev_rsc avail dvk dvn rem (i + 1) image_id host_image

/-- The data transferring runtime that `talshTensorPlace` chooses for the source
device kind `dk` and the destination device kind `dvk`. -/
def talshTensorPlace_runtime (K : talsh_h) (dvk dk : Int) : Int :=
  if dvk = K.DEV_HOST then dk else dvk

/-- The statements `if(talsh_task == NULL) j=talshTaskDestroy(tsk); return status;` of
`talshTensorPlace`; `tsk` is the task that the function works with. -/
def talshTensorPlace_leave {W : Type} (K : talsh_h) (T : nvtal_task W) (talsh_on : Int)
    (talsh_task : Option talsh_task_t) (tsk : talsh_task_t) (status : Int)
    (store : List talsh_tens_t) (w : W) : exec (place_t W) :=
  match talsh_task with
  | none =>
    match talshTaskDestroy K T talsh_on w (some tsk) with
    | exec.ret d => exec.ret ⟨status, store, none, d.2⟩
    | exec.undef => exec.undef
    | exec.timeout => exec.timeout
  | some _ => exec.ret ⟨status, store, some tsk, w⟩

/-- The case `DEV_HOST` of `switch(runtime)` in `talshTensorPlace`. -/
def talshTensorPlace_host {W : Type} (K : talsh_h) (T : nvtal_task W) (talsh_on : Int)
    (w : W) (store : List talsh_tens_t) (copy_ctrl : Int)
    (talsh_task : Option talsh_task_t) (tsk : talsh_task_t) : exec (place_t W) :=
  match tsk.task_p with
  | some (task_ref.cuda _) => exec.undef
  | some (task_ref.host h) =>
    let r := host_task_record K (some h) (uint_of_int copy_ctrl) 0
    if r.1 ≠ 0 then talshTensorPlace_leave K T talsh_on talsh_task tsk K.TALSH_FAILURE store w
    else
      exec.ret ⟨r.1, store,
        talsh_task.map (fun _ => { tsk with task_p := (r.2.map task_ref.host) }), w⟩
  | none =>
    if (host_task_record K none (uint_of_int copy_ctrl) 0).1 ≠ 0 then
      talshTensorPlace_leave K T talsh_on talsh_task tsk K.TALSH_FAILURE store w
    else
      exec.ret ⟨(host_task_record K none (uint_of_int copy_ctrl) 0).1, store,
        talsh_task.map (fun _ => tsk), w⟩

/-- The end of the case `DEV_NVIDIA_GPU` of `switch(runtime)` in `talshTensorPlace`,
from the call of `gpu_tensor_block_place` on; `ct` is the value of `ctens` and `j` the
device that the call is given. -/
def talshTensorPlace_run {W : Type} (K : talsh_h) (E : nvtal W) (T : nvtal_task W)
    (talsh_on : Int) (wait_fuel : Nat) (w : W) (store : List talsh_tens_t) (tens : Nat)
    (image_id copy_ctrl : Int) (talsh_task : Option talsh_task_t) (tsk : talsh_task_t)
    (ct : Nat) (j : Int) : exec (place_t W) :=
  match tsk.task_p with
  | some (task_ref.host _) => exec.undef
  | tp =>
    let g := T.gpu_tensor_block_place w ct j (uint_of_int copy_ctrl)
      (match tp with
       | some (task_ref.cuda c) => some c
       | _ => none)
    if g.1 ≠ 0 then
      exec.ret ⟨if g.1 ≠ K.TRY_LATER ∧ g.1 ≠ K.DEVICE_UNABLE then K.TALSH_FAILURE else g.1,
        store, talsh_task.map (fun _ => tsk),
        (talsh_tensor_c_dissoc K T talsh_on g.2 (some ct)).2⟩
    else
      match (if copy_ctrl = K.COPY_M then
          match store.get? tens with
          | none => none
          | some t =>
            match t.avail with
            | none => none
            | some av =>
              match elem_set av image_id K.NOPE with
              | none => none
              | some av1 => some (store.set tens { t with avail := some av1 })
        else some store) with
      | none => exec.undef
      | some store1 =>
        match talsh_task with
        | some _ => exec.ret ⟨g.1, store1, some tsk, g.2⟩
        | none =>
          match talshTaskWait K E talsh_on wait_fuel g.2 store1 (some tsk) (some j) with
          | exec.ret x =>
            match talshTaskDestroy K T talsh_on x.2.2.2 (some tsk) with
            | exec.ret d =>
              exec.ret ⟨
                if d.1 ≠ K.TALSH_SUCCESS ∧
                    (if x.1 = 0 ∧ x.2.1 ≠ some K.TALSH_TASK_COMPLETED then K.TALSH_TASK_ERROR
                     else x.1) = 0 then d.1
                else if x.1 = 0 ∧ x.2.1 ≠ some K.TALSH_TASK_COMPLETED then K.TALSH_TASK_ERROR
                else x.1,
                x.2.2.1, none, d.2⟩
            | exec.undef => exec.undef
            | exec.timeout => exec.timeout
          | exec.undef => exec.undef
          | exec.timeout => exec.timeout

/-- The case `DEV_NVIDIA_GPU` of `switch(runtime)` in `talshTensorPlace`; `ctens` is the
value that the local variable of this name holds. -/
def talshTensorPlace_gpu {W : Type} (K : talsh_h) (E : nvtal W) (T : nvtal_task W)
    (talsh_on : Int) (ctens : Option Nat) (wait_fuel : Nat) (w : W)
    (store : List talsh_tens_t) (tens : Nat) (dvk dvn image_id copy_ctrl : Int)
    (talsh_task : Option talsh_task_t) (tsk : talsh_task_t) : exec (place_t W) :=
  if K.NO_GPU then
    talshTensorPlace_leave K T talsh_on talsh_task tsk K.TALSH_NOT_AVAILABLE store w
  else
    match store.get? tens with
    | none => exec.undef
    | some t =>
      match talsh_tensor_c_assoc K E T talsh_on w (some t) image_id with
      | exec.ret a =>
        if a.1 ≠ 0 then
          talshTensorPlace_leave K T talsh_on talsh_task tsk K.TALSH_FAILURE store a.2
        else
          match ctens with
          | none =>
            talshTensorPlace_leave K T talsh_on talsh_task tsk K.TALSH_FAILURE store a.2
          | some ct =>
            if dvk = K.DEV_HOST ∧ dvn = 0 then
              talshTensorPlace_run K E T talsh_on wait_fuel a.2 store tens image_id copy_ctrl
                talsh_task tsk ct (-1)
            else if dvk = K.DEV_NVIDIA_GPU then
              talshTensorPlace_run K E T talsh_on wait_fuel a.2 store tens image_id copy_ctrl
                talsh_task tsk ct dvn
            else
              talshTensorPlace_leave K T talsh_on talsh_task tsk K.TALSH_FAILURE store
                (talsh_tensor_c_dissoc K T talsh_on a.2 (some ct)).2
      | exec.undef => exec.undef
      | exec.timeout => exec.timeout

/-- The statement `switch(runtime)` of `talshTensorPlace`, which calls the device-kind
specific data transfer runtime function, and the `return errc;` after it. -/
def talshTensorPlace_switch {W : Type} (K : talsh_h) (E : nvtal W) (T : nvtal_task W)
    (talsh_on : Int) (ctens : Option Nat) (wait_fuel : Nat) (w : W)
    (store : List talsh_tens_t) (tens : Nat) (dvk dvn image_id copy_ctrl runtime : Int)
    (talsh_task : Option talsh_task_t) (tsk : talsh_task_t) : exec (place_t W) :=
  if runtime = K.DEV_HOST then
    talshTensorPlace_host K T talsh_on w store copy_ctrl talsh_task tsk
  else if runtime = K.DEV_NVIDIA_GPU then
    talshTensorPlace_gpu K E T talsh_on ctens wait_fuel w store tens dvk dvn image_id
      copy_ctrl talsh_task tsk
  else if runtime = K.DEV_INTEL_MIC then
    talshTensorPlace_leave K T talsh_on talsh_task tsk
      (if K.NO_PHI then K.TALSH_NOT_AVAILABLE else K.TALSH_NOT_IMPLEMENTED) store w
  else if runtime = K.DEV_AMD_GPU then
    talshTensorPlace_leave K T talsh_on talsh_task tsk
      (if K.NO_AMD then K.TALSH_NOT_AVAILABLE else K.TALSH_NOT_IMPLEMENTED) store w
  else talshTensorPlace_leave K T talsh_on talsh_task tsk K.TALSH_INVALID_ARGS store w

/-- The part of `talshTensorPlace` from `if(talshTaskStatus(tsk) == TALSH_TASK_EMPTY)`
on: the task `tsk` is constructed for the device kind `dvk`, the image `image_id` is
set as its argument and the data transfer runtime `runtime` is called. -/
def talshTensorPlace_task {W : Type} (K : talsh_h) (E : nvtal W) (T : nvtal_task W)
    (talsh_on : Int) (ctens : Option Nat) (wait_fuel : Nat) (w : W)
    (store : List talsh_tens_t) (tens : Nat) (dvk dvn image_id copy_ctrl runtime : Int)
    (talsh_task : Option talsh_task_t) (tsk : talsh_task_t) : exec (place_t W) :=
  match talshTaskStatus K E talsh_on w store (some tsk) with
  | exec.ret s =>
    if s.1 = K.TALSH_TASK_EMPTY then
      match s.2.1.get? tens with
      | none => exec.undef
      | some t =>
        match t.data_kind with
        | none => exec.undef
        | some dk =>
          match elem_get dk image_id with
          | none => exec.undef
          | some k =>
            match talshTaskConstruct K E T talsh_on s.2.2 (some tsk) dvk copy_ctrl k with
            | exec.ret c =>
              match c.2.1 with
              | none => exec.undef
              | some tsk1 =>
                if c.1 ≠ 0 then
                  talshTensorPlace_leave K T talsh_on talsh_task tsk1 c.1 s.2.1 c.2.2
                else
                  match talshTaskSetArg K talsh_on s.2.1 (some tsk1) (some tens)
                      image_id with
                  | exec.ret a =>
                    match a.2 with
                    | none => exec.undef
                    | some tsk2 =>
                      if a.1 ≠ 0 then
                        talshTensorPlace_leave K T talsh_on talsh_task tsk2 a.1 s.2.1 c.2.2
                      else
                        talshTensorPlace_switch K E T talsh_on ctens wait_fuel c.2.2 s.2.1
                          tens dvk dvn image_id copy_ctrl runtime talsh_task tsk2
                  | exec.undef => exec.undef
                  | exec.timeout => exec.timeout
            | exec.undef => exec.undef
            | exec.timeout => exec.timeout
    else
      talshTensorPlace_leave K T talsh_on talsh_task tsk K.TALSH_OBJECT_NOT_EMPTY s.2.1 s.2.2
  | exec.undef => exec.undef
  | exec.timeout => exec.timeout

/-- The part of `talshTensorPlace` that follows the choice of the image to clone,
`image_id`: the source device and the data transferring runtime are determined, the
task is created if the caller gave none, and `talshTensorPlace_task` does the rest. -/
def talshTensorPlace_transfer {W : Type} (K : talsh_h) (E : nvtal W) (T : nvtal_task W)
    (talsh_on : Int) (ctens : Option Nat) (wait_fuel : Nat) (w : W)
    (store : List talsh_tens_t) (tens : Nat) (dvk dvn image_id copy_ctrl : Int)
    (talsh_task : Option talsh_task_t) : exec (place_t W) :=
  match store.get? tens with
  | none => exec.undef
  | some t =>
    match t.dev_rsc with
    | none => exec.undef
    | some rsc =>
      match elem_get rsc image_id with
      | none => exec.undef
      | some r =>
        match talsh_task with
        | none =>
          match talshTaskCreate K T w with
          | exec.ret c =>
            if c.1 ≠ 0 then exec.ret ⟨c.1, store, none, c.2.2⟩
            else
              match c.2.1 with
              | none => exec.ret ⟨K.TALSH_FAILURE, store, none, c.2.2⟩
              | some tsk =>
                talshTensorPlace_task K E T talsh_on ctens wait_fuel c.2.2 store tens dvk dvn
                  image_id copy_ctrl
                  (talshTensorPlace_runtime K dvk (talshKindDevId E r.dev_id).2) none tsk
          | exec.undef => exec.undef
          | exec.timeout => exec.timeout
        | some tsk =>
          talshTensorPlace_task K E T talsh_on ctens wait_fuel w store tens dvk dvn
            image_id copy_ctrl
            (talshTensorPlace_runtime K dvk (talshKindDevId E r.dev_id).2) (some tsk) tsk

/-- The branch of `talshTensorPlace` for a destination on an accelerator when no
available image is on a device of the requested kind or on the Host: `r` is the
result of the blocking call `talshTensorPlace(tens,0,DEV_HOST,copy_ctrl)`, after which
the last image is taken as the image to clone. -/
def talshTensorPlace_via_host {W : Type} (K : talsh_h) (E : nvtal W) (T : nvtal_task W)
    (COPY_K : Int) (talsh_on : Int) (ctens : Option Nat) (wait_fuel : Nat)
    (r : exec (place_t W)) (tens : Nat) (dvk dvn copy_ctrl : Int)
    (talsh_task : Option talsh_task_t) : exec (place_t W) :=
  match r with
  | exec.ret r1 =>
    if r1.status ≠ K.TALSH_SUCCESS then exec.ret ⟨r1.status, r1.store, talsh_task, r1.world⟩
    else
      match r1.store.get? tens with
      | none => exec.undef
      | some t =>
        match t.dev_rsc with
        | none => exec.undef
        | some rsc =>
          match elem_get rsc (t.ndev - 1) with
          | none => exec.undef
          | some x =>
            if x.dev_id ≠ talshFlatDevId E K.DEV_HOST 0 then
              exec.ret ⟨K.TALSH_FAILURE, r1.store, talsh_task, r1.world⟩
            else
              talshTensorPlace_transfer K E T talsh_on ctens wait_fuel r1.world r1.store tens
                dvk dvn (t.ndev - 1) (if copy_ctrl = COPY_K then K.COPY_M else copy_ctrl)
                talsh_task
  | exec.undef => exec.undef
  | exec.timeout => exec.timeout

/-- Places a tensor block body image on a specific device (`talshTensorPlace`), with a
bound on the depth of the calls of the function by itself (first argument) and with
`wait_fuel` calls of `talshTaskCompleted` at most in each blocking wait. `COPY_T` and
`COPY_K` are the two constants of `tensor_algebra.h` of these names. -/
def talshTensorPlace_fuel {W : Type} (K : talsh_h) (E : nvtal W) (T : nvtal_task W)
    (COPY_T COPY_K : Int) (talsh_on : Int) (wait_fuel : Nat) :
    Nat → (Nat → Option Nat) → W → List talsh_tens_t → Option Nat → Int → Int → Int →
      Option talsh_task_t → exec (place_t W)
  | 0, _, _, _, _, _, _, _, _ => exec.timeout
  | depth + 1, ctens, w, store, tens, dev_id, dev_kind, copy_ctrl, talsh_task =>
    if talsh_on = 0 then exec.ret ⟨K.TALSH_NOT_INITIALIZED, store, talsh_task, w⟩
    else
      match tens with
      | none => exec.ret ⟨K.TALSH_INVALID_ARGS, store, talsh_task, w⟩
      | some p =>
        match store.get? p with
        | none => exec.undef
        | some t =>
          if talshTensorIsEmpty K (some t) ≠ K.NOPE then
            exec.ret ⟨K.TALSH_OBJECT_IS_EMPTY, store, talsh_task, w⟩
          else
            match t.dev_rsc, t.data_kind, t.avail with
            | some rsc, some _, some av =>
              if t.ndev ≤ 0 ∨ t.ndev > t.dev_rsc_len then
                exec.ret ⟨K.TALSH_FAILURE, store, talsh_task, w⟩
              else if (talshKindDevId E (if dev_kind = K.DEV_NULL then dev_id
                  else talshFlatDevId E dev_kind dev_id)).1 < 0 then
                exec.ret ⟨K.TALSH_INVALID_ARGS, store, talsh_task, w⟩
              else if copy_ctrl < 0 ∨ copy_ctrl = K.COPY_D ∨ copy_ctrl = COPY_T then
                exec.ret ⟨K.TALSH_INVALID_ARGS, store, talsh_task, w⟩
              else
                let dvn := (talshKindDevId E (if dev_kind = K.DEV_NULL then dev_id
                  else talshFlatDevId E dev_kind dev_id)).1
                let dvk := (talshKindDevId E (if dev_kind = K.DEV_NULL then dev_id
                  else talshFlatDevId E dev_kind dev_id)).2
                match talshTensorPlace_find K E rsc av dvk dvn t.ndev.toNat 0 (-1) (-1) with
                | exec.ret none => exec.ret ⟨K.TALSH_FAILURE, store, talsh_task, w⟩
                | exec.ret (some f) =>
                  if dvk ≠ K.DEV_HOST then
                    if f.1 < 0 then
                      if f.2 < 0 then
                        talshTensorPlace_via_host K E T COPY_K talsh_on (ctens 0) wait_fuel
                          (talshTensorPlace_fuel K E T COPY_T COPY_K talsh_on wait_fuel depth
                            (fun k => ctens (k + 1)) w store (some p) 0 K.DEV_HOST copy_ctrl
                            none)
                          p dvk dvn copy_ctrl talsh_task
                      else
                        talshTensorPlace_transfer K E T talsh_on (ctens 0) wait_fuel w store
                          p dvk dvn f.2 copy_ctrl talsh_task
                    else
                      talshTensorPlace_transfer K E T talsh_on (ctens 0) wait_fuel w store
                        p dvk dvn f.1 copy_ctrl talsh_task
                  else
                    talshTensorPlace_transfer K E T talsh_on (ctens 0) wait_fuel w store
                      p dvk dvn (if f.2 < 0 then 0 else f.2) copy_ctrl talsh_task
                | exec.undef => exec.undef
                | exec.timeout => exec.timeout
            | _, _, _ => exec.ret ⟨K.TALSH_FAILURE, store, talsh_task, w⟩

/-- Places a tensor block body image on a specific device (`talshTensorPlace`). A call
for the Host does not call the function again, so that two levels of calls are
enough when `talshFlatDevId(DEV_HOST,0)` is a device of the kind `DEV_HOST`
(`talshTensorPlace_depth`). -/
def talshTensorPlace {W : Type} (K : talsh_h) (E : nvtal W) (T : nvtal_task W)
    (COPY_T COPY_K : Int) (talsh_on : Int) (ctens : Nat → Option Nat) (wait_fuel : Nat)
    (w : W) (store : List talsh_tens_t) (tens : Option Nat)
    (dev_id dev_kind copy_ctrl : Int) (talsh_task : Option talsh_task_t) :
    exec (place_t W) :=
  talshTensorPlace_fuel K E T COPY_T COPY_K talsh_on wait_fuel 2 ctens w store tens dev_id
    dev_kind copy_ctrl talsh_task

/-! # Argument buffers of the Host and of the GPUs (`mem_manager.cpp`)

The module data of `mem_manager.cpp` is the record `mem_manager_t`; each function takes
it and hands it back. The arrays with one entry per GPU are lists. The base address
of the Host buffer counts as a pointer only (`NULL` or not); entries are known by
their byte offset from it, as in `get_buf_entry`.
-/

/-- Further constants and build options of `tensor_algebra.h`. -/
structure tensor_algebra_h where
  MAX_GPUS_PER_NODE : Int
  MAX_MICS_PER_NODE : Int
  MAX_AMDS_PER_NODE : Int
  DEV_OFF : Int
  /-- the build option `NO_MIC` is defined -/
  NO_MIC : Bool
  deriving DecidableEq

/-- The module data of `mem_manager.cpp` (the constant memory banks apart). -/
structure mem_manager_t where
  /-- status of the Host and GPU argument buffers -/
  bufs_ready : Int
  /-- base address of the argument buffer in Host memory -/
  arg_buf_host : Option Nat
  /-- base addresses of argument buffers in GPUs Global memories -/
  arg_buf_gpu : List (Option Nat)
  /-- total size of the Host argument buffer in bytes -/
  arg_buf_host_size : Nat
  /-- total sizes of each GPU argument buffer in bytes -/
  arg_buf_gpu_size : List Nat
  max_args_host : Int
  max_args_gpu : List Int
  /-- distinct tensor block buffered sizes (in bytes) on Host -/
  blck_sizes_host : List Nat
  /-- occupation status for each buffer entry in Host argument buffer -/
  abh_occ : Option (List Nat)
  /-- occupation status for each buffer entry in GPU argument buffers -/
  abg_occ : List (Option (List Nat))
  /-- total number of entries in the Host argument buffer occupancy table -/
  abh_occ_size : Nat
  abg_occ_size : List Nat
  /-- number of occupied entries in the Host argument buffer -/
  num_args_host : Int
  num_args_gpu : List Int
  /-- total size (bytes) of all occupied entries in the Host argument buffer -/
  occ_size_host : Nat
  occ_size_gpu : List Nat
  args_size_host : Nat
  args_size_gpu : List Nat
  deriving DecidableEq

/-- The functions of the CUDA runtime, of the GPU management and of the C library that
the deallocation of the argument buffers calls. -/
structure cuda_rt (W : Type) where
  /-- The call `free(ptr)` for a block that is not `NULL` -/
  free : W → W
  /-- The call `cudaFreeHost(ptr)`: whether it returned `cudaSuccess` -/
  cudaFreeHost : W → Option Nat → Bool × W
  /-- The call `gpu_is_mine(gpu_num)` -/
  gpu_is_mine : W → Int → Int
  /-- The call `cudaSetDevice(gpu_num)`: whether it returned `cudaSuccess` -/
  cudaSetDevice : W → Int → Bool × W
  /-- The call `cudaFree(ptr)`: whether it returned `cudaSuccess` -/
  cudaFree : W → Option Nat → Bool × W
  /-- The call `free_gpus(gpu_beg,gpu_end)` -/
  free_gpus : W → Int → Int → Int × W

/-- Configuration of the Host argument buffer: `BLCK_BUF_TOP_HOST`,
`BLCK_BUF_DEPTH_HOST` and `BLCK_BUF_BRANCH_HOST`. -/
def host_conf : ab_conf_t := ⟨3, 7, 2⟩

/-- Values handed back by `get_buf_entry_host`. -/
structure get_host_t where
  /-- returned status -/
  status : Int
  /-- the module data after the call -/
  state : mem_manager_t
  /-- what `entry_ptr` points to, as a byte offset from the base address; `none` is `NULL` -/
  entry_ptr : Option Nat
  /-- what `entry_num` points to -/
  entry_num : Int
  deriving DecidableEq

/-- Returns a pointer to a free argument buffer space in the Host argument buffer
(`get_buf_entry_host`); `entry_ptr` and `entry_num` are what the two output arguments
point to before the call. -/
def get_buf_entry_host (TRY_LATER DEVICE_UNABLE : Int) (st : mem_manager_t) (bsize : Nat)
    (entry_ptr : Option Nat) (entry_num : Int) : exec get_host_t :=
  if st.bufs_ready = 0 then exec.ret ⟨-1, st, entry_ptr, entry_num⟩
  else
    match st.abh_occ with
    | none => exec.undef
    | some occ =>
      match get_buf_entry TRY_LATER DEVICE_UNABLE host_conf bsize occ st.abh_occ_size
          st.blck_sizes_host with
      | exec.ret r =>
        if r.status = 0 then
          match ab_get_2d_pos host_conf r.entry_num with
          | (0, some (i, _)) =>
            match arr_get st.blck_sizes_host i with
            | none => exec.undef
            | some s =>
              exec.ret ⟨0,
                { st with
                  abh_occ := some r.ab_occ
                  num_args_host := st.num_args_host + 1
                  occ_size_host := size_t_add st.occ_size_host s
                  args_size_host := size_t_add st.args_size_host bsize },
                r.entry_ptr, r.entry_num⟩
          | (e, _) => exec.ret ⟨e, { st with abh_occ := some r.ab_occ }, r.entry_ptr, r.entry_num⟩
        else exec.ret ⟨r.status, { st with abh_occ := some r.ab_occ }, r.entry_ptr, r.entry_num⟩
      | exec.undef => exec.undef
      | exec.timeout => exec.timeout

/-- Releases a Host argument buffer entry (`free_buf_entry_host`): the status and the
module data after the call. -/
def free_buf_entry_host (st : mem_manager_t) (entry_num : Int) : exec (Int × mem_manager_t) :=
  if st.bufs_ready = 0 then exec.ret (-1, st)
  else
    match st.abh_occ with
    | none => exec.undef
    | some occ =>
      match free_buf_entry host_conf occ st.abh_occ_size st.blck_sizes_host entry_num with
      | none => exec.undef
      | some r =>
        if r.1 = 0 then
          match ab_get_2d_pos host_conf entry_num with
          | (0, some (i, _)) =>
            match arr_get st.blck_sizes_host i with
            | none => exec.undef
            | some s =>
              exec.ret (0,
                { st with
                  abh_occ := some r.2
                  num_args_host := st.num_args_host - 1
                  occ_size_host := size_t_sub st.occ_size_host s
                  args_size_host := 0 })
          | (e, _) => exec.ret (e, { st with abh_occ := some r.2 })
        else exec.ret (r.1, { st with abh_occ := some r.2 })

/-- Returns free buffer space in bytes (`mem_free_left`): the status and `*free_mem`.
The function `decode_device_id` is not part of the sources: `decode` gives the value
that it returns and the device kind. -/
def mem_free_left (K : talsh_h) (A : tensor_algebra_h) (decode : Int → Int × Int)
    (st : mem_manager_t) (dev_id : Int) : exec (Int × Nat) :=
  if st.bufs_ready = 0 then exec.ret (-1, 0)
  else if (decode dev_id).1 ≥ 0 then
    if (decode dev_id).2 = K.DEV_HOST then
      exec.ret (0, size_t_sub st.arg_buf_host_size st.occ_size_host)
    else if K.NO_GPU = false ∧ (decode dev_id).2 = K.DEV_NVIDIA_GPU then
      match arr_get st.arg_buf_gpu_size (decode dev_id).1,
        arr_get st.occ_size_gpu (decode dev_id).1 with
      | some a, some o => exec.ret (0, size_t_sub a o)
      | _, _ => exec.undef
    else if A.NO_MIC = false ∧ (decode dev_id).2 = K.DEV_INTEL_MIC then exec.ret (0, 0)
    else if K.NO_AMD = false ∧ (decode dev_id).2 = K.DEV_AMD_GPU then exec.ret (0, 0)
    else exec.ret (-3, 0)
  else exec.ret (-2, 0)

/-- The loop of `arg_buf_clean_host` over the occupancy table; the first argument
counts the iterations that are left (`abh_occ_size - i`). -/
def arg_buf_clean_host_loop (abh_occ : List Nat) : Nat → Nat → Option Int
  | 0, _ => some 0
  | rem + 1, i =>
    match abh_occ.get? i with
    | none => none
    | some v => if v ≠ 0 then some (int_of_size_t (size_t_add i 1))
      else arg_buf_clean_host_loop abh_occ rem (i + 1)

/-- Returns zero if all entries of the Host argument buffer are free; the first
buffer entry which is not free causes a positive return status (`arg_buf_clean_host`). -/
def arg_buf_clean_host (st : mem_manager_t) : exec Int :=
  if st.bufs_ready = 0 then exec.ret (-1)
  else
    match arg_buf_clean_host_loop (st.abh_occ.getD []) st.abh_occ_size 0 with
    | none => exec.undef
    | some r => exec.ret r

/-- The loop `for(i=0;i<MAX_GPUS_PER_NODE;i++)` of `arg_buf_deallocate` that frees the
occupancy tables of the GPU argument buffers; the first argument counts the
iterations that are left. -/
def arg_buf_deallocate_tables {W : Type} (X : cuda_rt W) :
    Nat → Int → mem_manager_t → W → Option (mem_manager_t × W)
  | 0, _, st, w => some (st, w)
  | rem + 1, i, st, w =>
    match elem_get st.abg_occ i with
    | none => none
    | some o =>
      match elem_set st.abg_occ i none, arr_set st.abg_occ_size i 0,
        elem_set st.max_args_gpu i 0 with
      | some a, some b, some c =>
        arg_buf_deallocate_tables X rem (i + 1)
          { st with
            abg_occ := a
            abg_occ_size := b
            max_args_gpu := c }
          (match o with
           | some _ => X.free w
           | none => w)
      | _, _, _ => none

/-- The loop `for(i=gpu_beg;i<=gpu_end;i++)` of `arg_buf_deallocate` that frees the GPU
argument buffers; the first argument counts the iterations that are left. The result
is `err_code` with the module data and the outside state. -/
def arg_buf_deallocate_gpus {W : Type} (A : tensor_algebra_h) (X : cuda_rt W) :
    Nat → Int → Int → mem_manager_t → W → Option (Int × mem_manager_t × W)
  | 0, _, err_code, st, w => some (err_code, st, w)
  | rem + 1, i, err_code, st, w =>
    if i < A.MAX_GPUS_PER_NODE then
      if X.gpu_is_mine w i ≠ 0 then
        if (X.cudaSetDevice w i).1 then
          match arr_set st.arg_buf_gpu_size i 0, elem_set st.num_args_gpu i 0,
            arr_set st.occ_size_gpu i 0, arr_set st.args_size_gpu i 0,
            elem_get st.arg_buf_gpu i with
          | some a, some b, some c, some d, some p =>
            arg_buf_deallocate_gpus A X rem (i + 1)
              (if (X.cudaFree (X.cudaSetDevice w i).2 p).1 then err_code else err_code + 1)
              { st with
                arg_buf_gpu_size := a
                num_args_gpu := b
                occ_size_gpu := c
                args_size_gpu := d }
              (X.cudaFree (X.cudaSetDevice w i).2 p).2
          | _, _, _, _, _ => none
        else arg_buf_deallocate_gpus A X rem (i + 1) (err_code + 1) st (X.cudaSetDevice w i).2
      else arg_buf_deallocate_gpus A X rem (i + 1) err_code st w
    else arg_buf_deallocate_gpus A X rem (i + 1) (err_code + 1) st w

/-- Deallocates all argument buffers on the Host and GPUs in the range
`[gpu_beg..gpu_end]` (`arg_buf_deallocate`): the status, the module data and the outside
state. -/
def arg_buf_deallocate {W : Type} (K : talsh_h) (A : tensor_algebra_h) (X : cuda_rt W)
    (w : W) (st : mem_manager_t) (gpu_beg gpu_end : Int) :
    exec (Int × mem_manager_t × W) :=
  if st.bufs_ready = 0 then exec.ret (-1, st, w)
  else
    match arg_buf_deallocate_tables X A.MAX_GPUS_PER_NODE.toNat 0
        { st with
          abh_occ := none
          abh_occ_size := 0
          max_args_host := 0 }
        (match st.abh_occ with
         | some _ => X.free w
         | none => w) with
    | none => exec.undef
    | some s =>
      if K.NO_GPU then
        exec.ret (0,
          { s.1 with
            arg_buf_host_size := 0
            num_args_host := 0
            occ_size_host := 0
            args_size_host := 0
            arg_buf_host := none
            bufs_ready := 0 },
          match s.1.arg_buf_host with
          | some _ => X.free s.2
          | none => s.2)
      else if gpu_beg ≥ 0 ∧ gpu_end ≥ gpu_beg then
        match arg_buf_deallocate_gpus A X (gpu_end - gpu_beg + 1).toNat gpu_beg
            (if (X.cudaFreeHost s.2 s.1.arg_buf_host).1 then 0 else 1)
            { s.1 with
              arg_buf_host_size := 0
              num_args_host := 0
              occ_size_host := 0
              args_size_host := 0 }
            (X.cudaFreeHost s.2 s.1.arg_buf_host).2 with
        | none => exec.undef
        | some g =>
          exec.ret (if (X.free_gpus g.2.2 gpu_beg gpu_end).1 ≠ 0 then g.1 + 1000 else g.1,
            { g.2.1 with bufs_ready := 0 }, (X.free_gpus g.2.2 gpu_beg gpu_end).2)
      else
        exec.ret (if (X.cudaFreeHost s.2 s.1.arg_buf_host).1 then 0 else 1,
          { s.1 with
            arg_buf_host_size := 0
            num_args_host := 0
            occ_size_host := 0
            args_size_host := 0
            bufs_ready := 0 },
          (X.cudaFreeHost s.2 s.1.arg_buf_host).2)

/-- The global variables of `talshc.cpp`, the time reference and the failure
statistics apart. -/
structure talsh_t where
  /-- TAL-SH initialization flag (1: initalized; 0: not) -/
  talsh_on : Int
  talsh_gpu_beg : Int
  talsh_gpu_end : Int
  talsh_cpu : Int
  /-- current GPU status, `MAX_GPUS_PER_NODE` entries -/
  talsh_gpu : List Int
  /-- current MIC status, `MAX_MICS_PER_NODE` entries -/
  talsh_mic : List Int
  /-- current AMD status, `MAX_AMDS_PER_NODE` entries -/
  talsh_amd : List Int
  deriving DecidableEq

/-- Shuts down the TAL-SH runtime (`talshShutdown`): the status, the global variables
of `talshc.cpp`, the module data of `mem_manager.cpp` and the outside state. -/
def talshShutdown {W : Type} (K : talsh_h) (A : tensor_algebra_h) (X : cuda_rt W) (w : W)
    (ts : talsh_t) (st : mem_manager_t) : exec (Int × talsh_t × mem_manager_t × W) :=
  if ts.talsh_on = 0 then exec.ret (K.TALSH_NOT_INITIALIZED, ts, st, w)
  else
    match arg_buf_deallocate K A X w st ts.talsh_gpu_beg ts.talsh_gpu_end with
    | exec.ret d =>
      exec.ret (if d.1 ≠ 0 then K.TALSH_FAILURE else K.TALSH_SUCCESS,
        ⟨0, 0, -1, A.DEV_OFF, List.replicate A.MAX_GPUS_PER_NODE.toNat A.DEV_OFF,
          List.replicate A.MAX_MICS_PER_NODE.toNat A.DEV_OFF,
          List.replicate A.MAX_AMDS_PER_NODE.toNat A.DEV_OFF⟩, d.2.1, d.2.2)
    | exec.undef => exec.undef
    | exec.timeout => exec.timeout

/-! ## Concrete lower-level runtimes

Used to evaluate the functions above on concrete inputs, together with
`talsh_h_values` and `nvtal_values`. -/

/-- Two results of `talshTaskCompleted` can be compared. -/
instance {W : Type} [DecidableEq W] : DecidableEq (completed_t W) := fun a b =>
  decidable_of_iff (a.value = b.value ∧ a.stats = b.stats ∧ a.ierr = b.ierr ∧
    a.store = b.store ∧ a.world = b.world)
    (by cases a; cases b; simp)

/-- A choice of values for `COPY_T`, for `talsh_h_values`. -/
def COPY_T_value : Int := 2

/-- A choice of values for `COPY_K`, for `talsh_h_values`. -/
def COPY_K_value : Int := 3

/-- Task functions of a lower-level runtime for `talsh_h_values`, with the outside
state of `nvtal_values`, which they leave as it is: every allocation and every call
succeeds, a new block holds zeros, the CUDA task created has the address 0 and the
`tensBlck_t` object created has the address 1. -/
def nvtal_task_values : nvtal_task (List talsh_dev_rsc_t) where
  malloc_host_task := fun w => (some ⟨0, 0, 0⟩, w)
  malloc_talsh_task := fun w => (some ⟨none, 0, 0, 0, 0, [], 0, 0, 0⟩, w)
  free := fun w => w
  cuda_task_create := fun w => (0, some 0, w)
  cuda_task_destroy := fun w _ => (0, w)
  tensBlck_create := fun w => (0, some 1, w)
  tensBlck_construct := fun w _ _ _ _ _ _ => (0, w)
  tensBlck_attach_body := fun w _ _ _ _ _ => (0, w)
  tensBlck_destroy := fun w _ => (0, w)
  tensBlck_volume := fun _ _ => 1
  gpu_tensor_block_place := fun w _ _ _ _ => (0, w)

/-- A lower-level runtime for `talsh_h_values` whose outside state is the number of
looks at a CUDA task so far: the first look finds the task scheduled
(`CUDA_TASK_SCHEDULED`), every later look finds it completed (`CUDA_TASK_COMPLETED`).
The device ids are those of `nvtal_values`. -/
def nvtal_polling : nvtal Nat where
  valid_device_kind := fun k => if -1 ≤ k ∧ k ≤ 3 then 1 else 0
  tens_valid_data_kind := fun k =>
    if k = 0 ∨ k = 4 ∨ k = 8 ∨ k = 16 then (1, k) else (0, 0)
  encode_device_id := fun kind num =>
    if kind = 0 ∧ num = 0 then 0
    else if 1 ≤ kind ∧ kind ≤ 3 ∧ 0 ≤ num ∧ num < 8 then 1 + 8 * (kind - 1) + num
    else 25
  decode_device_id := fun id =>
    if id = 0 then (0, 0)
    else if 1 ≤ id ∧ id < 25 then ((id - 1) % 8, 1 + (id - 1) / 8)
    else (-1, -1)
  tensDevRsc_clean := fun _ => ⟨-1, none, -1⟩
  tensDevRsc_release_all := fun w _ => (0, ⟨-1, none, -1⟩, w)
  tensDevRsc_attach_mem := fun w _ dev mem buf => (0, ⟨dev, mem, buf⟩, w)
  tensDevRsc_allocate_mem := fun w _ dev _ hab =>
    (0, ⟨dev, some 4096, if hab = 1 then 0 else -1⟩, w)
  tensShape_create := fun w => (0, some ⟨-1, [], [], []⟩, w)
  tensShape_construct := fun w _ _ rank dims => (0, ⟨rank, dims, [], []⟩, w)
  tensShape_destroy := fun w _ => (0, w)
  tensShape_volume := fun sh => (sh.dims.map Int.toNat).prod
  malloc := fun w => (true, w)
  cuda_task_status := fun w _ => (if w = 0 then 1 else 5, w + 1)
  cuda_task_completed := fun w _ => (if w = 0 then 1 else 5, w + 1)

/-- A choice of values for the further constants of `tensor_algebra.h`, for a build
with support for all the device kinds. -/
def tensor_algebra_h_values : tensor_algebra_h where
  MAX_GPUS_PER_NODE := 8
  MAX_MICS_PER_NODE := 8
  MAX_AMDS_PER_NODE := 8
  DEV_OFF := 0
  NO_MIC := false

/-- A CUDA runtime in which every call succeeds and every GPU belongs to the process;
the outside state is the number of blocks released so far. -/
def cuda_rt_values : cuda_rt Nat where
  free := fun w => w + 1
  cudaFreeHost := fun w _ => (true, w + 1)
  gpu_is_mine := fun _ _ => 1
  cudaSetDevice := fun w _ => (true, w)
  cudaFree := fun w _ => (true, w + 1)
  free_gpus := fun w _ _ => (0, w)

/-! ## Specification vocabulary for coherence control, placement and the Host buffer -/

/-- Coherence control of a GPU task described argument by argument: the first
argument is the number of tensor arguments that are still to be looked at, and the
argument at position `k` is looked at when `k + 1` are left, so that the argument
attached last comes first. What is done with the argument at position `k` depends on
the 2-bit field `coherence_field coherence num_args k` of the coherence control value:
for `COPY_D` and `COPY_M` its image is discarded (completed task) or marked
available again (task in error), for the other codes nothing is done. The result is
the status, the store of tensor blocks and the outside state. -/
def coherence_by_position {W : Type} (K : talsh_h) (E : nvtal W) (task_status : Int)
    (task : talsh_task_t) :
    Nat → Int → List talsh_tens_t → W → exec (Int × List talsh_tens_t × W)
  | 0, errc, store, w => exec.ret (errc, store, w)
  | k + 1, errc, store, w =>
    match task.tens_args.get? k with
    | none => exec.undef
    | some a =>
      match a.tens_p with
      | none => exec.ret (K.TALSH_FAILURE, store, w)
      | some p =>
        match store.get? p with
        | none => exec.undef
        | some tens =>
          if discard_code K (coherence_field task.coherence task.num_args k) then
            match tens.avail with
            | none => exec.undef
            | some av =>
              match elem_get av a.source_image with
              | none => exec.undef
              | some v =>
                if v = K.NOPE then
                  if task_status = K.TALSH_TASK_COMPLETED then
                    match talsh_tensor_image_discard K E w (some tens) a.source_image with
                    | exec.ret d =>
                      coherence_by_position K E task_status task k d.1
                        (store.set p (d.2.1.getD tens)) d.2.2
                    | _ => exec.undef
                  else
                    coherence_by_position K E task_status task k errc
                      (store.set p { tens with avail := some (av.set a.source_image.toNat K.YEP) })
                      w
                else exec.ret (K.TALSH_FAILURE, store, w)
          else coherence_by_position K E task_status task k errc store w

/-- The image `j` is marked available and resides on a device of the kind `kind`. -/
def avail_on {W : Type} (K : talsh_h) (E : nvtal W) (rsc : List talsh_dev_rsc_t)
    (av : List Int) (kind : Int) (j : Nat) : Prop :=
  av.get? j = some K.YEP ∧
    (rsc.get? j).map (fun r => (talshKindDevId E r.dev_id).2) = some kind

instance {W : Type} (K : talsh_h) (E : nvtal W) (rsc : List talsh_dev_rsc_t)
    (av : List Int) (kind : Int) (j : Nat) : Decidable (avail_on K E rsc av kind j) := by
  unfold avail_on; exact inferInstance

/-- The image `j` is marked available and resides on the device number `num` of the
kind `kind`. -/
def avail_at {W : Type} (K : talsh_h) (E : nvtal W) (rsc : List talsh_dev_rsc_t)
    (av : List Int) (kind num : Int) (j : Nat) : Prop :=
  av.get? j = some K.YEP ∧
    (rsc.get? j).map (fun r => talshKindDevId E r.dev_id) = some (num, kind)

instance {W : Type} (K : talsh_h) (E : nvtal W) (rsc : List talsh_dev_rsc_t)
    (av : List Int) (kind num : Int) (j : Nat) : Decidable (avail_at K E rsc av kind num j) := by
  unfold avail_at; exact inferInstance

/-- Every image among the first `n` that is marked available carries a valid flat
device id: `talshKindDevId` does not return a negative value for it. -/
def avail_ids_valid {W : Type} (K : talsh_h) (E : nvtal W) (rsc : List talsh_dev_rsc_t)
    (av : List Int) (n : Nat) : Prop :=
  ∀ j < n, av.get? j = some K.YEP → ∀ r, rsc.get? j = some r →
    0 ≤ (talshKindDevId E r.dev_id).1

/-- The value of `image_id` or `host_image` after the images `i, ..., i + rem - 1`
have been looked at without a `break`, when the value was `cur` before: the last of
these images that satisfies `P`, if there is one. -/
def last_image (P : Nat → Bool) : Nat → Nat → Int → Int
  | 0, _, cur => cur
  | rem + 1, i, cur => last_image P rem (i + 1) (if P i then (i : Int) else cur)

/-- The size class of the level of the entry `e` of the Host argument buffer; 0 if
there is no such entry. -/
def entry_size_class (blck_sizes : List Nat) (e : Int) : Nat :=
  match ab_get_2d_pos host_conf e with
  | (0, some (i, _)) => blck_size blck_sizes i.toNat
  | _ => 0

/-- The sum of the occupancy counters of the entries of level 0 of the Host argument
buffer. -/
def level0_sum (abh_occ : List Nat) : Nat :=
  ∑ off ∈ Finset.range host_conf.buf_top.toNat, occ_at host_conf abh_occ 0 off

/-- The module data together with the entries of the Host argument buffer that are
live: returned by an earlier successful `get_buf_entry_host` and not freed since. -/
structure host_run_t where
  /-- the module data -/
  state : mem_manager_t
  /-- the live entries, most recent first -/
  live : List Int
  deriving DecidableEq

/-- One call of `get_buf_entry_host` or `free_buf_entry_host`. -/
def host_step (TRY_LATER DEVICE_UNABLE : Int) (s : host_run_t) : pool_op → exec host_run_t
  | pool_op.get bsize =>
    match get_buf_entry_host TRY_LATER DEVICE_UNABLE s.state bsize none (-1) with
    | exec.ret r => exec.ret ⟨r.state, if r.status = 0 then r.entry_num :: s.live else s.live⟩
    | exec.undef => exec.undef
    | exec.timeout => exec.timeout
  | pool_op.free entry_num =>
    match free_buf_entry_host s.state entry_num with
    | exec.ret r => exec.ret ⟨r.2, if r.1 = 0 then s.live.erase entry_num else s.live⟩
    | exec.undef => exec.undef
    | exec.timeout => exec.timeout

/-- A sequence of calls of `get_buf_entry_host` and `free_buf_entry_host`, the first
call first. -/
def host_run (TRY_LATER DEVICE_UNABLE : Int) : List pool_op → host_run_t → exec host_run_t
  | [], s => exec.ret s
  | op :: ops, s =>
    match host_step TRY_LATER DEVICE_UNABLE s op with
    | exec.ret s1 => host_run TRY_LATER DEVICE_UNABLE ops s1
    | exec.undef => exec.undef
    | exec.timeout => exec.timeout

/-- Every call of the sequence respects the contract in the state it is made in:
request sizes are at least 1 and only live entries are freed. -/
def host_respects (TRY_LATER DEVICE_UNABLE : Int) : List pool_op → host_run_t → Prop
  | [], _ => True
  | op :: ops, s =>
    op_allowed ⟨s.state.abh_occ.getD [], s.live⟩ op ∧
    match host_step TRY_LATER DEVICE_UNABLE s op with
    | exec.ret s1 => host_respects TRY_LATER DEVICE_UNABLE ops s1
    | _ => True

/-- The Host argument buffer as `arg_buf_allocate` leaves it for a buffer of
`pool_size` bytes: the buffers are marked as ready, the occupancy table has one zero
counter per entry and the statistics are cleared. -/
def host_pool_ready (st : mem_manager_t) (pool_size : Nat) : Prop :=
  st.bufs_ready ≠ 0 ∧ st.arg_buf_host_size = pool_size ∧
  st.abh_occ = some (List.replicate (total_entries host_conf) 0) ∧
  st.abh_occ_size = total_entries host_conf ∧
  st.num_args_host = 0 ∧ st.occ_size_host = 0

instance (st : mem_manager_t) (pool_size : Nat) : Decidable (host_pool_ready st pool_size) := by
  unfold host_pool_ready; exact inferInstance

/-- What the calls of `get_buf_entry_host` and `free_buf_entry_host` maintain, for a
Host argument buffer of `pool_size` bytes with the size classes `blck_sizes`: the
buffers are ready, the occupancy table has one counter per entry and satisfies the
invariant of the pool with the live entries, `num_args_host` is the number of live
entries, and `occ_size_host` is the sum of the size classes of the live entries and
the sum of the counters of level 0. -/
def host_stats_inv (pool_size : Nat) (blck_sizes : List Nat) (s : host_run_t) : Prop :=
  s.state.bufs_ready ≠ 0 ∧ s.state.arg_buf_host_size = pool_size ∧
  s.state.blck_sizes_host = blck_sizes ∧
  s.state.abh_occ_size = total_entries host_conf ∧
  ∃ T, s.state.abh_occ = some T ∧ pool_inv host_conf blck_sizes ⟨T, s.live⟩ ∧
    s.state.num_args_host = (s.live.length : Int) ∧
    s.state.occ_size_host = (s.live.map (entry_size_class blck_sizes)).sum ∧
    s.state.occ_size_host = level0_sum T

/-- Whether a sequence of calls of `get_buf_entry_host` and `free_buf_entry_host`
respects the contract can be computed. -/
def host_respects_dec (TRY_LATER DEVICE_UNABLE : Int) :
    (ops : List pool_op) → (s : host_run_t) →
      Decidable (host_respects TRY_LATER DEVICE_UNABLE ops s)
  | [], _ => isTrue trivial
  | op :: ops, s =>
    match h : host_step TRY_LATER DEVICE_UNABLE s op with
    | exec.ret s1 =>
      have := host_respects_dec TRY_LATER DEVICE_UNABLE ops s1
      decidable_of_iff
        (op_allowed ⟨s.state.abh_occ.getD [], s.live⟩ op ∧
          host_respects TRY_LATER DEVICE_UNABLE ops s1)
        (by simp [host_respects, h])
    | exec.undef =>
      decidable_of_iff (op_allowed ⟨s.state.abh_occ.getD [], s.live⟩ op)
        (by simp [host_respects, h])
    | exec.timeout =>
      decidable_of_iff (op_allowed ⟨s.state.abh_occ.getD [], s.live⟩ op)
        (by simp [host_respects, h])

instance (TRY_LATER DEVICE_UNABLE : Int) (ops : List pool_op) (s : host_run_t) :
    Decidable (host_respects TRY_LATER DEVICE_UNABLE ops s) :=
  host_respects_dec TRY_LATER DEVICE_UNABLE ops s

/-! ## A Host argument buffer for evaluations -/

/-- The module data of `mem_manager.cpp` right after `arg_buf_allocate` has set up a
Host argument buffer of 2457600 bytes (no GPU): the size classes of the seven levels
are 819200, 409600, ..., 12800 bytes, the occupancy table has 381 zero counters and
the statistics are cleared. -/
def host_pool_values : mem_manager_t :=
  ⟨1, some 0, List.replicate 8 none, 2457600, List.replicate 8 0, 192,
    List.replicate 8 0, [819200, 409600, 204800, 102400, 51200, 25600, 12800],
    some (List.replicate 381 0), List.replicate 8 none, 381, List.replicate 8 0, 0,
    List.replicate 8 0, 0, List.replicate 8 0, 0, List.replicate 8 0⟩

/-! ## Level sizes obtained by integer division -/

/-- The level-size array has one size per level and every size is the size of the
level above divided by the branching factor: `s[i+1] = s[i] / branch` (integer
division, remainders allowed). -/
def sizes_divide (ab_conf : ab_conf_t) (blck_sizes : List Nat) : Prop :=
  blck_sizes.length = ab_conf.buf_depth.toNat ∧
  ∀ lev < ab_conf.buf_depth.toNat, lev + 1 < ab_conf.buf_depth.toNat →
    blck_size blck_sizes (lev + 1) = blck_size blck_sizes lev / ab_conf.buf_branch.toNat

instance (ab_conf : ab_conf_t) (blck_sizes : List Nat) :
    Decidable (sizes_divide ab_conf blck_sizes) := by
  unfold sizes_divide; exact inferInstance

/-! ## The entries that the search of `get_buf_entry` visits

The functions of this section follow the two loops of `get_buf_entry` (`scan` and
`search`) step by step and list the entries `(i, l+j)` for which the body of the inner
loop runs, in the order in which it runs for them. -/

/-- The entries for which the body of the inner `while(j<k)` loop runs, when the loop
is entered at level `i` with base offset `l` and index `j`; the control flow is the
one of `scan`. -/
def scan_visits (ab_conf : ab_conf_t) (bsize : Nat) (ab_occ : List Nat) (ab_occ_size : Nat)
    (blck_sizes : List Nat) (i l k : Int) : Nat → Int → List (Int × Int)
  | 0, _ => []
  | rem + 1, j =>
    if j < k then
      (i, l + j) ::
        match probe ab_conf bsize ab_occ ab_occ_size blck_sizes i (l + j) with
        | probe_t.shift =>
          scan_visits ab_conf bsize ab_occ ab_occ_size blck_sizes i l k rem (j + 1)
        | _ => []
    else []

/-- The entries for which the body of the inner loop runs during the outer
`while(i<ab_conf.buf_depth)` loop, entered with the values `i`, `l`, `n`; the control
flow is the one of `search`, with the same fuel. -/
def search_visits (ab_conf : ab_conf_t) (bsize : Nat) (ab_occ : List Nat) (ab_occ_size : Nat)
    (blck_sizes : List Nat) : Nat → Int → Int → Int → List (Int × Int)
  | 0, _, _, _ => []
  | fuel + 1, i, l, n =>
    if i < ab_conf.buf_depth then
      let k := if i > 0 then ab_conf.buf_branch else ab_conf.buf_top
      let j0 := l.tmod k
      let l1 := l - j0
      let j1 := j0 + n
      scan_visits ab_conf bsize ab_occ ab_occ_size blck_sizes i l1 k (k - j1).toNat j1 ++
        match scan ab_conf bsize ab_occ ab_occ_size blck_sizes i l1 k (k - j1).toNat j1 with
        | scan_t.exit j entry_num _ =>
          if entry_num ≥ 0 then []
          else if j < k then
            let l2 := ab_get_1st_child ab_conf i (l1 + j)
            if l2 < 0 ∨ l2 ≥ (ab_occ_size : Int) then []
            else search_visits ab_conf bsize ab_occ ab_occ_size blck_sizes fuel (i + 1) l2 0
          else if i > 0 then
            let l2 := ab_get_parent ab_conf i l1
            if l2 < 0 ∨ l2 ≥ (ab_occ_size : Int) then []
            else search_visits ab_conf bsize ab_occ ab_occ_size blck_sizes fuel (i - 1) l2 1
          else []
        | _ => []
    else []

/-- The entries visited in the part of one iteration of the outer loop that follows
the inner loop (the counterpart of `after_scan`). -/
def after_scan_visits (ab_conf : ab_conf_t) (bsize : Nat) (ab_occ : List Nat)
    (ab_occ_size : Nat) (blck_sizes : List Nat) (fuel : Nat) (i l1 k : Int) :
    scan_t → List (Int × Int)
  | scan_t.exit j entry_num _ =>
    if entry_num ≥ 0 then []
    else if j < k then
      if ab_get_1st_child ab_conf i (l1 + j) < 0 ∨
          ab_get_1st_child ab_conf i (l1 + j) ≥ (ab_occ_size : Int) then []
      else search_visits ab_conf bsize ab_occ ab_occ_size blck_sizes fuel (i + 1)
        (ab_get_1st_child ab_conf i (l1 + j)) 0
    else if i > 0 then
      if ab_get_parent ab_conf i l1 < 0 ∨ ab_get_parent ab_conf i l1 ≥ (ab_occ_size : Int) then []
      else search_visits ab_conf bsize ab_occ ab_occ_size blck_sizes fuel (i - 1)
        (ab_get_parent ab_conf i l1) 1
    else []
  | _ => []

/-- The entries visited once the recursive description has dealt with the rest of the
group with base offset `base` of level `lev` (the counterpart of `dfs_finish`). -/
def finish_visits (ab_conf : ab_conf_t) (bsize : Nat) (ab_occ : List Nat) (ab_occ_size : Nat)
    (blck_sizes : List Nat) (fuel : Nat) (lev base : Nat) : dfs_t → List (Int × Int)
  | dfs_t.none =>
    if (lev : Int) > 0 then
      if ab_get_parent ab_conf lev base < 0 ∨
          ab_get_parent ab_conf lev base ≥ (ab_occ_size : Int) then []
      else search_visits ab_conf bsize ab_occ ab_occ_size blck_sizes fuel (lev - 1)
        (ab_get_parent ab_conf lev base) 1
    else []
  | _ => []

/-- The pair `x` is an entry of the subtrees below the `n` entries `a, ..., a+n-1` of
level `lev`, these entries included: an entry `(lev+e, o)` of the tree with
`a * branch^e <= o < (a+n) * branch^e`. -/
def in_subtrees (ab_conf : ab_conf_t) (lev a n : Nat) (x : Int × Int) : Prop :=
  ∃ e o : Nat, x = (((lev + e : Nat) : Int), (o : Int)) ∧ lev + e < ab_conf.buf_depth.toNat ∧
    a * ab_conf.buf_branch.toNat ^ e ≤ o ∧ o < (a + n) * ab_conf.buf_branch.toNat ^ e

/-! ## The search of `get_buf_entry` with a log of the visited entries

`scan_traced` and `search_traced` are the two loops of `get_buf_entry` once more, with
the one addition that each pass through the body of the inner loop appends the entry
`(i, l+j)` it works on to a log. Without the log they are `scan` and `search`
(`scan_traced_fst`, `search_traced_fst`). -/

/-- The inner `while(j<k)` loop of `get_buf_entry` (see `scan`), returning also the
entries `(i, l+j)` for which the body of the loop ran, in this order. -/
def scan_traced (ab_conf : ab_conf_t) (bsize : Nat) (ab_occ : List Nat) (ab_occ_size : Nat)
    (blck_sizes : List Nat) (i l k : Int) : Nat → Int → scan_t × List (Int × Int)
  | 0, j => (if j < k then scan_t.timeout else scan_t.exit j (-1) none, [])
  | rem + 1, j =>
    if j < k then
      match probe ab_conf bsize ab_occ ab_occ_size blck_sizes i (l + j) with
      | probe_t.fail => (scan_t.fail, [(i, l + j)])
      | probe_t.undef => (scan_t.undef, [(i, l + j)])
      | probe_t.found m p => (scan_t.exit j m (some p), [(i, l + j)])
      | probe_t.descend => (scan_t.exit j (-1) none, [(i, l + j)])
      | probe_t.shift =>
        ((scan_traced ab_conf bsize ab_occ ab_occ_size blck_sizes i l k rem (j + 1)).1,
          (i, l + j) ::
            (scan_traced ab_conf bsize ab_occ ab_occ_size blck_sizes i l k rem (j + 1)).2)
    else (scan_t.exit j (-1) none, [])

/-- The outer `while(i<ab_conf.buf_depth)` loop of `get_buf_entry` (see `search`),
returning also the entries for which the body of the inner loop ran, in this
order. -/
def search_traced (ab_conf : ab_conf_t) (bsize : Nat) (ab_occ : List Nat)
    (ab_occ_size : Nat) (blck_sizes : List Nat) :
    Nat → Int → Int → Int → exec search_t × List (Int × Int)
  | 0, _, _, _ => (exec.timeout, [])
  | fuel + 1, i, l, n =>
    if i < ab_conf.buf_depth then
      let k := if i > 0 then ab_conf.buf_branch else ab_conf.buf_top
      let j0 := l.tmod k
      let l1 := l - j0
      let j1 := j0 + n
      let s := scan_traced ab_conf bsize ab_occ ab_occ_size blck_sizes i l1 k (k - j1).toNat j1
      match s.1 with
      | scan_t.fail => (exec.ret (search_t.fail 1), s.2)
      | scan_t.undef => (exec.undef, s.2)
      | scan_t.timeout => (exec.timeout, s.2)
      | scan_t.exit j entry_num entry_ptr =>
        if entry_num ≥ 0 then (exec.ret (search_t.exit i l1 entry_num entry_ptr), s.2)
        else if j < k then
          let l2 := ab_get_1st_child ab_conf i (l1 + j)
          if l2 < 0 ∨ l2 ≥ (ab_occ_size : Int) then (exec.ret (search_t.fail 2), s.2)
          else
            ((search_traced ab_conf bsize ab_occ ab_occ_size blck_sizes fuel (i + 1) l2 0).1,
              s.2 ++
                (search_traced ab_conf bsize ab_occ ab_occ_size blck_sizes fuel (i + 1) l2
                  0).2)
        else if i > 0 then
          let l2 := ab_get_parent ab_conf i l1
          if l2 < 0 ∨ l2 ≥ (ab_occ_size : Int) then (exec.ret (search_t.fail 3), s.2)
          else
            ((search_traced ab_conf bsize ab_occ ab_occ_size blck_sizes fuel (i - 1) l2 1).1,
              s.2 ++
                (search_traced ab_conf bsize ab_occ ab_occ_size blck_sizes fuel (i - 1) l2
                  1).2)
        else (exec.ret (search_t.exit i l1 entry_num entry_ptr), s.2)
    else (exec.ret (search_t.exit i l (-1) none), [])

/-! ## Occupancy tables given by their non-zero counters -/

/-- The table of `n` counters that are all 0, with the listed writes `ab_occ[m]=v`
made, the last of the list first. -/
def table_of (n : Nat) : List (Nat × Nat) → List Nat
  | [] => List.replicate n 0
  | (m, v) :: u => (table_of n u).set m v

/-- The counter that the table `table_of n u` holds at the entry `m`. -/
def counter_of : List (Nat × Nat) → Nat → Nat
  | [], _ => 0
  | (a, v) :: u, m => if m = a then v else counter_of u m

/-! ## A table on which the search of `get_buf_entry` does not end -/

/-- An occupancy table of 4295163907 counters for the configuration `top = 1`,
`depth = 3`, `branch = 65537`: the counters of the entries `(1, 0), ..., (1, 65535)`
(plain entry numbers 1 to 65536) are 2, the counter of the plain entry number 131074
is 1, all the other counters are 0. -/
def looping_table : List Nat :=
  0 :: (List.replicate 65536 2 ++ 0 :: (List.replicate 65536 0 ++
    1 :: List.replicate 4295032832 0))

theorem const_args_row_init_length (rem : Nat) (i : Int) (row : List Int) :
    (const_args_row_init rem i row).length = row.length := by
  induction rem generalizing i row with
  | zero => rfl
  | succ n ih => simp [const_args_row_init, ih]

theorem const_args_row_init_getD (rem : Nat) (i : Nat) (row : List Int) (j : Nat)
    (hlen : i + rem ≤ row.length) :
    (const_args_row_init rem (i : Int) row).getD j 0 =
      if i ≤ j ∧ j < i + rem then (j : Int) + 1 else row.getD j 0 := by
  induction rem generalizing i row with
  | zero =>
    have : ¬ (i ≤ j ∧ j < i) := by omega
    simp [const_args_row_init, this]
  | succ n ih =>
    simp only [const_args_row_init]
    have h := ih (i + 1) (row.set i ((i : Int) + 1)) (by simp; omega)
    push_cast at h
    simp only [Int.toNat_ofNat]
    rw [h]
    by_cases hj : i = j
    · subst hj
      have : ¬ (i + 1 ≤ i ∧ i < i + 1 + n) := by omega
      rw [if_neg this]
      have h2 : (i ≤ i ∧ i < i + (n + 1)) := by omega
      rw [if_pos h2]
      rw [List.getD_eq_getElem _ _ (by simp; omega)]
      simp
    · have h3 : (row.set i ((i : Int) + 1)).getD j 0 = row.getD j 0 := by
        simp [List.getD_eq_getElem?_getD, List.getElem?_set_ne hj]
      rw [h3]
      by_cases hc : i + 1 ≤ j ∧ j < i + 1 + n
      · rw [if_pos hc, if_pos (by omega)]
      · rw [if_neg hc, if_neg (by omega)]

theorem const_args_link_init_loop_spec (MAXG MAXA : Int) (rem : Nat) (g0 : Nat)
    (st : const_args_t) (hs : const_args_shape MAXG MAXA st) :
    const_args_shape MAXG MAXA (const_args_link_init_loop MAXG MAXA rem (g0 : Int) st).2 ∧
    (const_args_link_init_loop MAXG MAXA rem (g0 : Int) st).2.bufs_ready = st.bufs_ready ∧
    (∀ g : Nat, (g : Int) < MAXG → g < g0 + rem →
      (g0 ≤ g → const_args_fresh MAXA g
        (const_args_link_init_loop MAXG MAXA rem (g0 : Int) st).2) ∧
      (const_args_fresh MAXA g st → const_args_fresh MAXA g
        (const_args_link_init_loop MAXG MAXA rem (g0 : Int) st).2)) := by
  induction rem generalizing g0 st with
  | zero =>
    simp only [const_args_link_init_loop]
    refine ⟨hs, trivial, ?_⟩
    intro g _ hg
    exact ⟨fun h => by omega, fun h => h⟩
  | succ n ih =>
    simp only [const_args_link_init_loop]
    by_cases hlt : (g0 : Int) < MAXG
    · rw [if_pos hlt]
      simp only [Int.toNat_ofNat]
      obtain ⟨hs1, hs2, hs3⟩ := hs
      have hg0 : g0 < MAXG.toNat := by omega
      set st1 : const_args_t :=
        { bufs_ready := st.bufs_ready
          const_args_link := st.const_args_link.set g0
            (const_args_row_init MAXA.toNat 0 (st.const_args_link.getD g0 []))
          const_args_ffe := st.const_args_ffe.set g0 0 } with hst1
      have hrow : (st.const_args_link.getD g0 []).length = MAXA.toNat := by
        rw [List.getD_eq_getElem _ _ (by omega)]
        exact hs3 _ (List.getElem_mem _)
      have hshape1 : const_args_shape MAXG MAXA st1 := by
        refine ⟨by simp [hst1, hs1], by simp [hst1, hs2], ?_⟩
        intro row hrow1
        rw [hst1] at hrow1
        simp only at hrow1
        rcases List.mem_or_eq_of_mem_set hrow1 with h | h
        · exact hs3 _ h
        · rw [h, const_args_row_init_length, hrow]
      have hfresh1 : const_args_fresh MAXA g0 st1 := by
        constructor
        · simp only [hst1]
          rw [List.getD_eq_getElem _ _ (by simp; omega)]
          simp
        · intro j hj
          simp only [hst1]
          have erow : ∀ v : List Int, (st.const_args_link.set g0 v).getD g0 [] = v := by
            intro v
            rw [List.getD_eq_getElem _ _ (by simp; omega)]
            simp
          rw [erow]
          have := const_args_row_init_getD MAXA.toNat 0 (st.const_args_link.getD g0 []) j
            (by omega)
          simp only [Nat.cast_zero] at this
          rw [this, if_pos (by omega)]
      have hkeep : ∀ g : Nat, g ≠ g0 → const_args_fresh MAXA g st →
          const_args_fresh MAXA g st1 := by
        intro g hne hf
        unfold const_args_fresh at hf ⊢
        simp only [hst1]
        have e1 : (st.const_args_ffe.set g0 0).getD g 0 = st.const_args_ffe.getD g 0 := by
          simp [List.getD_eq_getElem?_getD, List.getElem?_set_ne (Ne.symm hne)]
        have e2 : ∀ v, (st.const_args_link.set g0 v).getD g [] = st.const_args_link.getD g [] := by
          intro v
          simp [List.getD_eq_getElem?_getD, List.getElem?_set_ne (Ne.symm hne)]
        rw [e1, e2]; exact hf
      have h := ih (g0 + 1) st1 hshape1
      push_cast at h
      obtain ⟨h1, h2, h3⟩ := h
      refine ⟨h1, h2, ?_⟩
      intro g hgm hg
      obtain ⟨h4, h5⟩ := h3 g hgm (by omega)
      constructor
      · intro hge
        by_cases he : g = g0
        · subst he; exact h5 hfresh1
        · exact h4 (by omega)
      · intro hf
        by_cases he : g = g0
        · subst he; exact h5 hfresh1
        · exact h5 (hkeep g he hf)
    · rw [if_neg hlt]
      refine ⟨hs, rfl, ?_⟩
      intro g hgm hg
      exact ⟨fun h => by omega, fun h => h⟩



theorem const_args_entry_get_step (TL MAXG MAXA : Int) (mine : Int → Int) (g : Nat)
    (st : const_args_t) (f : Nat)
    (hs : const_args_shape MAXG MAXA st) (hr : st.bufs_ready ≠ 0)
    (hg : (g : Int) < MAXG) (hm : mine g ≠ 0)
    (hf : st.const_args_ffe.getD g 0 = (f : Int))
    (hl : ∀ j : Nat, (j : Int) < MAXA →
      (st.const_args_link.getD g []).getD j 0 = (j : Int) + 1) :
    ((f : Int) < MAXA →
      ∃ st1, const_args_entry_get TL MAXG MAXA mine st g = (0, (f : Int), st1) ∧
        const_args_shape MAXG MAXA st1 ∧ st1.bufs_ready = st.bufs_ready ∧
        st1.const_args_link = st.const_args_link ∧
        st1.const_args_ffe.getD g 0 = ((f + 1 : Nat) : Int)) ∧
    (¬ (f : Int) < MAXA → const_args_entry_get TL MAXG MAXA mine st g = (TL, -1, st)) := by
  have hg0 : (0 : Int) ≤ (g : Int) := Int.ofNat_nonneg g
  constructor
  · intro hlt
    have e : const_args_entry_get TL MAXG MAXA mine st g = (0, (f : Int),
        { st with const_args_ffe :=
            (st.const_args_ffe.set g ((st.const_args_link.getD g []).getD f 0)) }) := by
      unfold const_args_entry_get
      rw [if_neg hr, if_pos ⟨hg0, hg⟩, if_pos hm]
      simp only [Int.toNat_ofNat, hf]
      rw [if_pos ⟨Int.ofNat_nonneg f, hlt⟩]
    refine ⟨_, e, ?_⟩
    obtain ⟨hs1, hs2, hs3⟩ := hs
    refine ⟨⟨by simp [hs1], hs2, hs3⟩, rfl, rfl, ?_⟩
    simp only
    rw [List.getD_eq_getElem _ _ (by simp; omega)]
    simp only [List.getElem_set_self]
    rw [hl f hlt]; push_cast; rfl
  · intro hge
    unfold const_args_entry_get
    rw [if_neg hr, if_pos ⟨hg0, hg⟩, if_pos hm]
    simp only [Int.toNat_ofNat, hf]
    rw [if_neg (by omega)]

theorem const_args_get_n_spec (TL MAXG MAXA : Int) (mine : Int → Int) (g : Nat) (k : Nat) :
    ∀ (st : const_args_t) (f : Nat),
    const_args_shape MAXG MAXA st → st.bufs_ready ≠ 0 →
    (g : Int) < MAXG → mine g ≠ 0 →
    st.const_args_ffe.getD g 0 = (f : Int) →
    (∀ j : Nat, (j : Int) < MAXA →
      (st.const_args_link.getD g []).getD j 0 = (j : Int) + 1) →
    ((f + k : Nat) : Int) ≤ MAXA →
    const_args_shape MAXG MAXA (const_args_get_n TL MAXG MAXA mine g k st) ∧
    (const_args_get_n TL MAXG MAXA mine g k st).bufs_ready ≠ 0 ∧
    (const_args_get_n TL MAXG MAXA mine g k st).const_args_ffe.getD g 0 = ((f + k : Nat) : Int) ∧
    (const_args_get_n TL MAXG MAXA mine g k st).const_args_link = st.const_args_link := by
  induction k with
  | zero =>
    intro st f hs hr _ _ hf _ _
    exact ⟨hs, hr, by simpa using hf, rfl⟩
  | succ n ih =>
    intro st f hs hr hg hm hf hl hle
    simp only [const_args_get_n]
    obtain ⟨h1, _⟩ := const_args_entry_get_step TL MAXG MAXA mine g st f hs hr hg hm hf hl
    obtain ⟨st1, e1, hs1, hr1, hl1, hf1⟩ := h1 (by push_cast at hle ⊢; omega)
    rw [e1]
    simp only
    have := ih st1 (f + 1) hs1 (by rw [hr1]; exact hr) hg hm hf1 (by rw [hl1]; exact hl)
      (by push_cast at hle ⊢; omega)
    obtain ⟨a, b, c, d⟩ := this
    refine ⟨a, b, ?_, by rw [d, hl1]⟩
    rw [c]; push_cast; omega

/-- C10 (freelist order and exhaustion): after `const_args_link_init`, on an owned
GPU with the buffers ready, the `(k+1)`-th call of `const_args_entry_get`
(`k < MAX_GPU_ARGS`) returns status 0 with entry `k`; the call after `MAX_GPU_ARGS`
acquisitions returns `TRY_LATER` with `*entry_num = -1` and leaves the module data
unchanged. With capacity 4 the acquisitions return 0, 1, 2, 3, the fifth returns
`TRY_LATER`, and after `const_args_entry_free(2)` the next acquisition returns 2. -/
theorem const_args_order_and_exhaustion (TRY_LATER MAX_GPUS_PER_NODE MAX_GPU_ARGS : Int)
    (gpu_is_mine : Int → Int) (st : const_args_t) (gpu_beg gpu_end gpu_num : Int)
    (hN : 1 ≤ MAX_GPU_ARGS)
    (hshape : const_args_shape MAX_GPUS_PER_NODE MAX_GPU_ARGS st)
    (hready : st.bufs_ready ≠ 0)
    (hbeg : 0 ≤ gpu_beg) (hlo : gpu_beg ≤ gpu_num) (hhi : gpu_num ≤ gpu_end)
    (hnode : gpu_num < MAX_GPUS_PER_NODE) (hmine : gpu_is_mine gpu_num ≠ 0) :
    (∀ k : Nat, (k : Int) < MAX_GPU_ARGS →
      ∃ st1, const_args_entry_get TRY_LATER MAX_GPUS_PER_NODE MAX_GPU_ARGS gpu_is_mine
        (const_args_get_n TRY_LATER MAX_GPUS_PER_NODE MAX_GPU_ARGS gpu_is_mine gpu_num k
          (const_args_link_init MAX_GPUS_PER_NODE MAX_GPU_ARGS gpu_beg gpu_end st).2)
        gpu_num = (0, (k : Int), st1)) ∧
    const_args_entry_get TRY_LATER MAX_GPUS_PER_NODE MAX_GPU_ARGS gpu_is_mine
        (const_args_get_n TRY_LATER MAX_GPUS_PER_NODE MAX_GPU_ARGS gpu_is_mine gpu_num
          MAX_GPU_ARGS.toNat
          (const_args_link_init MAX_GPUS_PER_NODE MAX_GPU_ARGS gpu_beg gpu_end st).2)
        gpu_num =
      (TRY_LATER, -1,
        const_args_get_n TRY_LATER MAX_GPUS_PER_NODE MAX_GPU_ARGS gpu_is_mine gpu_num
          MAX_GPU_ARGS.toNat
          (const_args_link_init MAX_GPUS_PER_NODE MAX_GPU_ARGS gpu_beg gpu_end st).2) ∧
    (∃ s1 s2 s3 s4 s5 : const_args_t,
      const_args_entry_get TRY_LATER 1 4 (fun _ => 1)
        (const_args_link_init 1 4 0 0 ⟨1, [[0, 0, 0, 0]], [0]⟩).2 0 = (0, 0, s1) ∧
      const_args_entry_get TRY_LATER 1 4 (fun _ => 1) s1 0 = (0, 1, s2) ∧
      const_args_entry_get TRY_LATER 1 4 (fun _ => 1) s2 0 = (0, 2, s3) ∧
      const_args_entry_get TRY_LATER 1 4 (fun _ => 1) s3 0 = (0, 3, s4) ∧
      const_args_entry_get TRY_LATER 1 4 (fun _ => 1) s4 0 = (TRY_LATER, -1, s4) ∧
      const_args_entry_free 1 4 (fun _ => 1) s4 0 2 = (0, s5) ∧
      (const_args_entry_get TRY_LATER 1 4 (fun _ => 1) s5 0).1 = 0 ∧
      (const_args_entry_get TRY_LATER 1 4 (fun _ => 1) s5 0).2.1 = 2) := by
  have hnum0 : 0 ≤ gpu_num := by omega
  obtain ⟨g, rfl⟩ := Int.eq_ofNat_of_zero_le hnum0
  obtain ⟨g0, rfl⟩ := Int.eq_ofNat_of_zero_le hbeg
  have hinit := const_args_link_init_loop_spec MAX_GPUS_PER_NODE MAX_GPU_ARGS
    (gpu_end - (g0 : Int) + 1).toNat g0 st hshape
  have hdef : const_args_link_init MAX_GPUS_PER_NODE MAX_GPU_ARGS (g0 : Int) gpu_end st =
      const_args_link_init_loop MAX_GPUS_PER_NODE MAX_GPU_ARGS
        (gpu_end - (g0 : Int) + 1).toNat (g0 : Int) st := by
    unfold const_args_link_init
    rw [if_pos ⟨by omega, by omega⟩]
  rw [hdef]
  have hcast : ((0 + MAX_GPU_ARGS.toNat : Nat) : Int) = MAX_GPU_ARGS := by
    have := Int.toNat_of_nonneg (by omega : 0 ≤ MAX_GPU_ARGS)
    push_cast; omega
  obtain ⟨hs0, hr0, hfr⟩ := hinit
  obtain ⟨hfresh, _⟩ := hfr g hnode (by omega)
  obtain ⟨hf0, hl0⟩ := hfresh (by omega)
  have hr0' : (const_args_link_init_loop MAX_GPUS_PER_NODE MAX_GPU_ARGS
      (gpu_end - (g0 : Int) + 1).toNat (g0 : Int) st).2.bufs_ready ≠ 0 := by
    rw [hr0]; exact hready
  refine ⟨?_, ?_, ?_⟩
  · intro k hk
    obtain ⟨a, b, c, d⟩ := const_args_get_n_spec TRY_LATER MAX_GPUS_PER_NODE MAX_GPU_ARGS
      gpu_is_mine g k _ 0 hs0 hr0' hnode hmine (by simpa using hf0) hl0
      (by push_cast; omega)
    obtain ⟨h1, _⟩ := const_args_entry_get_step TRY_LATER MAX_GPUS_PER_NODE MAX_GPU_ARGS
      gpu_is_mine g _ (0 + k) a b hnode hmine c (by rw [d]; exact hl0)
    obtain ⟨st1, e1, _⟩ := h1 (by push_cast; omega)
    exact ⟨st1, by simpa using e1⟩
  · obtain ⟨a, b, c, d⟩ := const_args_get_n_spec TRY_LATER MAX_GPUS_PER_NODE MAX_GPU_ARGS
      gpu_is_mine g MAX_GPU_ARGS.toNat _ 0 hs0 hr0' hnode hmine (by simpa using hf0) hl0
      (le_of_eq hcast)
    obtain ⟨_, h2⟩ := const_args_entry_get_step TRY_LATER MAX_GPUS_PER_NODE MAX_GPU_ARGS
      gpu_is_mine g _ (0 + MAX_GPU_ARGS.toNat) a b hnode hmine c (by rw [d]; exact hl0)
    exact h2 (by rw [hcast]; exact lt_irrefl _)
  · exact ⟨_, _, _, _, _, rfl, rfl, rfl, rfl, rfl, rfl, rfl, rfl⟩

/-- Instance of `const_args_order_and_exhaustion`: one GPU, capacity 4. -/
theorem const_args_order_and_exhaustion_witness :
    (1 : Int) ≤ 4 ∧
    const_args_entry_get (-5) 1 4 (fun _ => 1)
      (const_args_get_n (-5) 1 4 (fun _ => 1) 0 4
        (const_args_link_init 1 4 0 0 ⟨1, [[7, 7, 7, 7]], [9]⟩).2) 0 =
      (-5, -1, const_args_get_n (-5) 1 4 (fun _ => 1) 0 4
        (const_args_link_init 1 4 0 0 ⟨1, [[7, 7, 7, 7]], [9]⟩).2) :=
  ⟨by decide,
   (const_args_order_and_exhaustion (-5) 1 4 (fun _ => 1) ⟨1, [[7, 7, 7, 7]], [9]⟩ 0 0 0
      (by decide) (by simp [const_args_shape]) (by decide) (by decide) (by decide)
      (by decide) (by decide) (by decide)).2.1⟩

/-! ## Index arithmetic -/

theorem int_wrap_eq (x : Int) (h0 : -2 ^ 31 ≤ x) (h1 : x < 2 ^ 31) : int_wrap x = x := by
  unfold int_wrap
  rw [Int.emod_eq_of_lt (by omega) (by omega)]
  omega

theorem int_wrap_natCast (n : Nat) (h : n < 2 ^ 31) : int_wrap (n : Int) = (n : Int) :=
  int_wrap_eq _ (by omega) (by omega)

theorem level_width_succ (c : ab_conf_t) (lev : Nat) :
    level_width c (lev + 1) = level_width c lev * c.buf_branch.toNat := by
  unfold level_width; rw [pow_succ, mul_assoc]

theorem level_width_pos (c : ab_conf_t) (h : conf_ok c) (lev : Nat) :
    0 < level_width c lev := by
  obtain ⟨h1, h2, _⟩ := h
  unfold level_width
  have : 0 < c.buf_top.toNat := by omega
  have : 0 < c.buf_branch.toNat := by omega
  positivity

theorem level_base_mono (c : ab_conf_t) {a b : Nat} (h : a ≤ b) :
    level_base c a ≤ level_base c b := by
  induction h with
  | refl => exact le_refl _
  | step _ ih => exact le_trans ih (by simp [level_base])

theorem level_base_succ_le (c : ab_conf_t) {a b : Nat} (h : a < b) :
    level_base c a + level_width c a ≤ level_base c b :=
  level_base_mono c (Nat.succ_le_of_lt h)

theorem entry_index_lt_total (c : ab_conf_t) (lev off : Nat)
    (hl : lev < c.buf_depth.toNat) (ho : off < level_width c lev) :
    entry_index c lev off < total_entries c := by
  have := level_base_succ_le c hl
  unfold entry_index total_entries; omega

theorem level_base_lt_int (c : ab_conf_t) (hc : conf_ok c) (lev : Nat)
    (hl : lev ≤ c.buf_depth.toNat) : level_base c lev < 2 ^ 31 := by
  have := level_base_mono c hl
  have := hc.2.2.2
  unfold total_entries at this
  omega

theorem level_width_lt_int (c : ab_conf_t) (hc : conf_ok c) (lev : Nat)
    (hl : lev < c.buf_depth.toNat) : level_width c lev < 2 ^ 31 := by
  have := level_base_lt_int c hc (lev + 1) (by omega)
  simp only [level_base] at this
  omega

theorem entry_index_inj (c : ab_conf_t) (l1 o1 l2 o2 : Nat)
    (h1 : o1 < level_width c l1) (h2 : o2 < level_width c l2)
    (h : entry_index c l1 o1 = entry_index c l2 o2) : l1 = l2 ∧ o1 = o2 := by
  unfold entry_index at h
  rcases Nat.lt_trichotomy l1 l2 with hlt | heq | hgt
  · have := level_base_succ_le c hlt; omega
  · subst heq; exact ⟨rfl, by omega⟩
  · have := level_base_succ_le c hgt; omega

theorem child_lt_width (c : ab_conf_t) (lev off r : Nat)
    (ho : off < level_width c lev) (hr : r < c.buf_branch.toNat) :
    off * c.buf_branch.toNat + r < level_width c (lev + 1) := by
  rw [level_width_succ]
  calc off * c.buf_branch.toNat + r < off * c.buf_branch.toNat + c.buf_branch.toNat := by omega
    _ = (off + 1) * c.buf_branch.toNat := by ring
    _ ≤ level_width c lev * c.buf_branch.toNat := Nat.mul_le_mul_right _ ho

theorem parent_lt_width (c : ab_conf_t) (lev off : Nat)
    (ho : off < level_width c (lev + 1)) :
    off / c.buf_branch.toNat < level_width c lev := by
  rw [level_width_succ] at ho
  rcases Nat.eq_zero_or_pos c.buf_branch.toNat with h0 | hp
  · rw [h0] at ho; omega
  · exact Nat.div_lt_of_lt_mul (by rw [mul_comm]; exact ho)

theorem ab_get_1d_pos_loop_spec (c : ab_conf_t) (hc : conf_ok c) (lev : Nat)
    (hlev : lev < c.buf_depth.toNat) :
    ∀ rem i : Nat, 1 ≤ i → i ≤ lev → lev < i + rem →
    ab_get_1d_pos_loop c (lev : Int) rem (i : Int) ((level_base c i : Nat) : Int)
      ((level_width c (i - 1) : Nat) : Int) =
    (((level_base c lev : Nat) : Int), ((level_width c lev : Nat) : Int)) := by
  have h1 := hc.1
  have h2 := hc.2.1
  have hb : ((c.buf_branch.toNat : Nat) : Int) = c.buf_branch := Int.toNat_of_nonneg (by omega)
  intro rem
  induction rem with
  | zero => intro i _ h3 h4; omega
  | succ n ih =>
    intro i hi1 hi2 hi3
    simp only [ab_get_1d_pos_loop]
    have hw : ((level_width c (i - 1) : Nat) : Int) * c.buf_branch =
        ((level_width c i : Nat) : Int) := by
      obtain ⟨i', rfl⟩ : ∃ i', i = i' + 1 := ⟨i - 1, by omega⟩
      simp only [Nat.add_sub_cancel]
      rw [level_width_succ]; push_cast; rw [hb]
    rw [hw, int_wrap_natCast _ (level_width_lt_int c hc i (by omega))]
    by_cases he : (i : Int) = (lev : Int)
    · rw [if_pos he]
      have : i = lev := by exact_mod_cast he
      subst this; rfl
    · rw [if_neg he]
      have hne : i ≠ lev := fun h => he (by rw [h])
      have := ih (i + 1) (by omega) (by omega) (by omega)
      simp only [Nat.add_sub_cancel] at this
      rw [← this]
      have hsum : ((level_base c i : Nat) : Int) + ((level_width c i : Nat) : Int) =
          ((level_base c (i + 1) : Nat) : Int) := by
        simp only [level_base]; push_cast; rfl
      rw [hsum, int_wrap_natCast _ (level_base_lt_int c hc (i + 1) (by omega))]
      congr 1

theorem ab_get_1d_pos_eq (c : ab_conf_t) (hc : conf_ok c) (lev off : Nat)
    (hl : lev < c.buf_depth.toNat) (ho : off < level_width c lev) :
    ab_get_1d_pos c (lev : Int) (off : Int) = ((entry_index c lev off : Nat) : Int) := by
  unfold ab_get_1d_pos
  have hd : (lev : Int) < c.buf_depth := by omega
  rw [if_pos ⟨by omega, hd, by omega⟩]
  by_cases h0 : lev = 0
  · subst h0; simp [entry_index, level_base]
  · rw [if_neg (by omega)]
    have hrem : (c.buf_depth - 1).toNat = c.buf_depth.toNat - 1 := by omega
    have hs := ab_get_1d_pos_loop_spec c hc lev hl (c.buf_depth.toNat - 1) 1 (le_refl _)
      (by omega) (by omega)
    have htop : ((c.buf_top.toNat : Nat) : Int) = c.buf_top :=
      Int.toNat_of_nonneg (by have := hc.1; omega)
    simp only [level_base, level_width, Nat.sub_self, pow_zero, mul_one, zero_add,
      Nat.cast_one, htop] at hs
    rw [hrem]
    simp only [hs]
    rw [if_pos (by exact_mod_cast ho)]
    have hidx := entry_index_lt_total c lev off hl ho
    have hlt := hc.2.2.2
    have hsum : ((level_base c lev : Nat) : Int) + (off : Int) =
        ((entry_index c lev off : Nat) : Int) := by
      unfold entry_index; push_cast; rfl
    rw [hsum, int_wrap_natCast _ (by omega)]

theorem ab_get_1d_pos_range (c : ab_conf_t) (hc : conf_ok c) (lev off : Nat)
    (hl : lev < c.buf_depth.toNat) (ho : off < level_width c lev) :
    ¬ (ab_get_1d_pos c (lev : Int) (off : Int) < 0 ∨
      ab_get_1d_pos c (lev : Int) (off : Int) ≥ ((total_entries c : Nat) : Int)) := by
  rw [ab_get_1d_pos_eq c hc lev off hl ho]
  have := entry_index_lt_total c lev off hl ho
  omega

theorem ab_get_2d_pos_loop_spec (c : ab_conf_t) (hc : conf_ok c) (e : Int) (lev : Nat)
    (hlev : lev < c.buf_depth.toNat)
    (hlo : ((level_base c lev : Nat) : Int) ≤ e)
    (hhi : e < ((level_base c (lev + 1) : Nat) : Int)) :
    ∀ rem i : Nat, i ≤ lev → lev < i + rem →
    ab_get_2d_pos_loop c e rem (i : Int) ((level_width c i : Nat) : Int)
      ((level_base c i : Nat) : Int) ((level_base c (i + 1) : Nat) : Int) =
    some ((lev : Int), e - ((level_base c lev : Nat) : Int)) := by
  have h1 := hc.1
  have h2 := hc.2.1
  have hb : ((c.buf_branch.toNat : Nat) : Int) = c.buf_branch := Int.toNat_of_nonneg (by omega)
  intro rem
  induction rem with
  | zero => intro i h3 h4; omega
  | succ n ih =>
    intro i hi1 hi2
    simp only [ab_get_2d_pos_loop]
    by_cases he : i = lev
    · subst he
      rw [if_pos hhi]
      have hb31 := level_base_lt_int c hc (i + 1) (by omega)
      rw [int_wrap_eq _ (by omega) (by omega)]
    · have hlt : i + 1 ≤ lev := by omega
      have hm := level_base_mono c hlt
      rw [if_neg (by omega)]
      have := ih (i + 1) (by omega) (by omega)
      rw [← this]
      have hw : ((level_width c i : Nat) : Int) * c.buf_branch =
          ((level_width c (i + 1) : Nat) : Int) := by
        rw [level_width_succ]; push_cast; rw [hb]
      have hsum : ((level_base c (i + 1) : Nat) : Int) + ((level_width c (i + 1) : Nat) : Int) =
          ((level_base c (i + 1 + 1) : Nat) : Int) := by
        simp only [level_base]; push_cast; rfl
      rw [hw, int_wrap_natCast _ (level_width_lt_int c hc (i + 1) (by omega)), hsum,
        int_wrap_natCast _ (level_base_lt_int c hc (i + 1 + 1) (by omega))]
      congr 1

theorem ab_get_2d_pos_eq (c : ab_conf_t) (hc : conf_ok c) (lev off : Nat)
    (hl : lev < c.buf_depth.toNat) (ho : off < level_width c lev) :
    ab_get_2d_pos c ((entry_index c lev off : Nat) : Int) =
      (0, some ((lev : Int), (off : Int))) := by
  unfold ab_get_2d_pos
  rw [if_pos (by omega)]
  have htop : ((c.buf_top.toNat : Nat) : Int) = c.buf_top :=
    Int.toNat_of_nonneg (by have := hc.1; omega)
  have hs := ab_get_2d_pos_loop_spec c hc ((entry_index c lev off : Nat) : Int) lev hl
    (by unfold entry_index; push_cast; omega)
    (by unfold entry_index; simp only [level_base]; push_cast; omega)
    c.buf_depth.toNat 0 (Nat.zero_le _) (by omega)
  simp only [level_base, level_width, pow_zero, mul_one, zero_add, Nat.cast_zero, htop]
    at hs
  rw [hs]
  simp [entry_index]

theorem ab_get_2d_pos_loop_none (c : ab_conf_t) (hc : conf_ok c) (e : Int) :
    ∀ rem i : Nat, i + rem ≤ c.buf_depth.toNat → ((level_base c (i + rem) : Nat) : Int) ≤ e →
    ab_get_2d_pos_loop c e rem (i : Int) ((level_width c i : Nat) : Int)
      ((level_base c i : Nat) : Int) ((level_base c (i + 1) : Nat) : Int) = none := by
  have h1 := hc.1
  have h2 := hc.2.1
  have hb : ((c.buf_branch.toNat : Nat) : Int) = c.buf_branch := Int.toNat_of_nonneg (by omega)
  intro rem
  induction rem with
  | zero => intro i _ _; rfl
  | succ n ih =>
    intro i hid hi
    simp only [ab_get_2d_pos_loop]
    have hm := level_base_mono c (show i + 1 ≤ i + (n + 1) by omega)
    rw [if_neg (by omega)]
    rcases Nat.eq_zero_or_pos n with hn | hn
    · subst hn; rfl
    · have := ih (i + 1) (by omega) (by rw [show i + 1 + n = i + (n + 1) by omega]; exact hi)
      rw [← this]
      have hw : ((level_width c i : Nat) : Int) * c.buf_branch =
          ((level_width c (i + 1) : Nat) : Int) := by
        rw [level_width_succ]; push_cast; rw [hb]
      have hsum : ((level_base c (i + 1) : Nat) : Int) + ((level_width c (i + 1) : Nat) : Int) =
          ((level_base c (i + 1 + 1) : Nat) : Int) := by
        simp only [level_base]; push_cast; rfl
      rw [hw, int_wrap_natCast _ (level_width_lt_int c hc (i + 1) (by omega)), hsum,
        int_wrap_natCast _ (level_base_lt_int c hc (i + 1 + 1) (by omega))]
      congr 1

theorem ab_get_2d_pos_out_of_range (c : ab_conf_t) (hc : conf_ok c) (e : Int)
    (h : e < 0 ∨ ((total_entries c : Nat) : Int) ≤ e) :
    (ab_get_2d_pos c e).1 ≠ 0 ∧ (ab_get_2d_pos c e).2 = none := by
  unfold ab_get_2d_pos
  by_cases h0 : e ≥ 0
  · rw [if_pos h0]
    have htop : ((c.buf_top.toNat : Nat) : Int) = c.buf_top :=
      Int.toNat_of_nonneg (by have := hc.1; omega)
    have hs := ab_get_2d_pos_loop_none c hc e c.buf_depth.toNat 0 (by omega)
      (by rw [zero_add]; unfold total_entries at h; omega)
    simp only [level_base, level_width, pow_zero, mul_one, zero_add, Nat.cast_zero, htop]
      at hs
    rw [hs]; simp
  · rw [if_neg h0]; simp

/-- Every plain entry number below the total is the number of exactly one
`(level, offset)` pair. -/
theorem entry_index_surj (c : ab_conf_t) (e : Nat) (he : e < total_entries c) :
    ∃ lev off, lev < c.buf_depth.toNat ∧ off < level_width c lev ∧
      e = entry_index c lev off := by
  unfold total_entries at he
  generalize c.buf_depth.toNat = D at he ⊢
  induction D with
  | zero => simp [level_base] at he
  | succ n ih =>
    by_cases h : e < level_base c n
    · obtain ⟨lev, off, h1, h2, h3⟩ := ih h
      exact ⟨lev, off, by omega, h2, h3⟩
    · refine ⟨n, e - level_base c n, by omega, ?_, ?_⟩
      · simp only [level_base] at he; omega
      · unfold entry_index; omega



/-! ## Array access -/

theorem arr_get_natCast (a : List Nat) (n : Nat) : arr_get a (n : Int) = a.get? n := by
  unfold arr_get; rw [if_pos (Int.ofNat_nonneg n)]; simp

theorem arr_get_of_lt (a : List Nat) (n : Nat) (h : n < a.length) :
    arr_get a (n : Int) = some (a.getD n 0) := by
  rw [arr_get_natCast, List.getD_eq_getElem _ _ h]
  simp [List.getElem?_eq_getElem h]

theorem arr_set_of_lt (a : List Nat) (n : Nat) (v : Nat) (h : n < a.length) :
    arr_set a (n : Int) v = some (a.set n v) := by
  unfold arr_set
  rw [if_pos ⟨Int.ofNat_nonneg n, by simpa using h⟩]; simp

theorem getD_set_eq (a : List Nat) (n m v : Nat) (h : n < a.length) :
    (a.set n v).getD m 0 = if m = n then v else a.getD m 0 := by
  by_cases hm : m = n
  · subst hm
    rw [if_pos rfl, List.getD_eq_getElem _ _ (by simpa using h)]
    simp
  · rw [if_neg hm]
    simp [List.getD_eq_getElem?_getD, List.getElem?_set_ne (Ne.symm hm)]

theorem occ_at_set (c : ab_conf_t) (T : List Nat) (l o l1 o1 v : Nat)
    (ho : o < level_width c l) (ho1 : o1 < level_width c l1)
    (hlen : entry_index c l o < T.length) :
    occ_at c (T.set (entry_index c l o) v) l1 o1 =
      if l1 = l ∧ o1 = o then v else occ_at c T l1 o1 := by
  unfold occ_at
  rw [getD_set_eq _ _ _ _ hlen]
  by_cases h : l1 = l ∧ o1 = o
  · rw [if_pos h, if_pos (by rw [h.1, h.2])]
  · rw [if_neg h, if_neg]
    intro he
    exact h (entry_index_inj c l1 o1 l o ho1 ho he)

/-- Two tables of the right length with the same counter at every entry are equal. -/
theorem table_ext (c : ab_conf_t) (T1 T2 : List Nat)
    (h1 : T1.length = total_entries c) (h2 : T2.length = total_entries c)
    (h : ∀ lev off, lev < c.buf_depth.toNat → off < level_width c lev →
      occ_at c T1 lev off = occ_at c T2 lev off) : T1 = T2 := by
  apply List.ext_getElem (by rw [h1, h2])
  intro n hn1 hn2
  obtain ⟨lev, off, hl, ho, rfl⟩ := entry_index_surj c n (by omega)
  have := h lev off hl ho
  unfold occ_at at this
  rw [List.getD_eq_getElem _ _ hn1, List.getD_eq_getElem _ _ hn2] at this
  exact this

/-! ## The search loop computes the recursive description -/

theorem search_succ (c : ab_conf_t) (bsize : Nat) (occ : List Nat) (size : Nat)
    (sizes : List Nat) (fuel : Nat) (i l n : Int) :
    search c bsize occ size sizes (fuel + 1) i l n =
      if i < c.buf_depth then
        after_scan c bsize occ size sizes fuel i
          (l - l.tmod (if i > 0 then c.buf_branch else c.buf_top))
          (if i > 0 then c.buf_branch else c.buf_top)
          (scan c bsize occ size sizes i
            (l - l.tmod (if i > 0 then c.buf_branch else c.buf_top))
            (if i > 0 then c.buf_branch else c.buf_top)
            ((if i > 0 then c.buf_branch else c.buf_top) -
              (l.tmod (if i > 0 then c.buf_branch else c.buf_top) + n)).toNat
            (l.tmod (if i > 0 then c.buf_branch else c.buf_top) + n))
      else exec.ret (search_t.exit i l (-1) none) := by
  rw [search]
  split
  · simp only
    split <;> simp_all [after_scan]
  · rfl

theorem probe_found_range (c : ab_conf_t) (bsize : Nat) (occ : List Nat) (size : Nat)
    (sizes : List Nat) (i off m : Int) (p : Nat)
    (h : probe c bsize occ size sizes i off = probe_t.found m p) :
    m = ab_get_1d_pos c i off ∧ 0 ≤ m ∧ m < (size : Int) := by
  unfold probe at h
  simp only at h
  split at h
  · cases h
  · rename_i hm
    have hm' : 0 ≤ ab_get_1d_pos c i off ∧ ab_get_1d_pos c i off < (size : Int) := by omega
    split at h
    · split at h
      · split at h
        · split at h
          · cases h; exact ⟨rfl, hm'⟩
          · cases h
        · split at h
          · cases h
          · split at h
            · split at h
              · cases h; exact ⟨rfl, hm'⟩
              · cases h
            · split at h
              · split at h <;> cases h
              · cases h
      · cases h
    · cases h

theorem probe_descend_level (c : ab_conf_t) (bsize : Nat) (occ : List Nat) (size : Nat)
    (sizes : List Nat) (i off : Int)
    (h : probe c bsize occ size sizes i off = probe_t.descend) :
    i < c.buf_depth - 1 := by
  unfold probe at h
  simp only at h
  split at h
  · cases h
  · split at h
    · split at h
      · split at h
        · split at h <;> cases h
        · split at h
          · cases h
          · split at h
            · split at h <;> cases h
            · split at h
              · assumption
              · cases h
      · cases h
    · cases h



theorem group_size_cast (c : ab_conf_t) (hc : conf_ok c) (lev : Nat) :
    ((group_size c lev : Nat) : Int) =
      if (lev : Int) > 0 then c.buf_branch else c.buf_top := by
  have h1 := hc.1
  have h2 := hc.2.1
  unfold group_size
  by_cases h : lev = 0
  · subst h; simp; omega
  · rw [if_neg h, if_pos (by omega)]; omega

theorem group_size_pos (c : ab_conf_t) (hc : conf_ok c) (lev : Nat) :
    0 < group_size c lev := by
  have h1 := hc.1
  have h2 := hc.2.1
  unfold group_size
  split <;> omega

/-- At the head of the outer loop with `l = base + j0`, where `base` is the base
offset of a group and `j0` an index into the group, one iteration runs the inner
loop from `j0 + n` on. -/
theorem search_head (c : ab_conf_t) (hc : conf_ok c) (bsize : Nat) (occ : List Nat)
    (size : Nat) (sizes : List Nat) (fuel lev base j0 n : Nat)
    (hl : lev < c.buf_depth.toNat) (hdiv : group_size c lev ∣ base)
    (hj : j0 < group_size c lev) :
    search c bsize occ size sizes (fuel + 1) (lev : Int) ((base : Int) + (j0 : Int)) (n : Int) =
      after_scan c bsize occ size sizes fuel (lev : Int) (base : Int)
        ((group_size c lev : Nat) : Int)
        (scan c bsize occ size sizes (lev : Int) (base : Int) ((group_size c lev : Nat) : Int)
          (group_size c lev - (j0 + n)) (((j0 + n : Nat)) : Int)) := by
  rw [search_succ, if_pos (by omega), ← group_size_cast c hc lev]
  have hmod : ((base : Int) + (j0 : Int)).tmod ((group_size c lev : Nat) : Int) = (j0 : Int) := by
    rw [Int.tmod_eq_emod (by omega) (by omega)]
    obtain ⟨q, hq⟩ := hdiv
    rw [hq]
    push_cast
    rw [add_comm, Int.add_mul_emod_self_left]
    exact Int.emod_eq_of_lt (by omega) (by exact_mod_cast hj)
  rw [hmod]
  have e1 : (base : Int) + (j0 : Int) - (j0 : Int) = (base : Int) := by omega
  have e2 : (((group_size c lev : Nat) : Int) - ((j0 : Int) + (n : Int))).toNat =
      group_size c lev - (j0 + n) := by omega
  have e3 : (j0 : Int) + (n : Int) = ((j0 + n : Nat) : Int) := by push_cast; rfl
  rw [e1, e2, e3]

theorem group_iters_succ (b d : Nat) :
    group_iters b (d + 1) = b * (1 + group_iters b d) + 1 := rfl

theorem scan_dfs (c : ab_conf_t) (hc : conf_ok c) (bsize : Nat) (occ : List Nat)
    (size : Nat) (sizes : List Nat) :
    ∀ d rem lev base j : Nat, lev + d + 1 = c.buf_depth.toNat →
      j + rem = group_size c lev → group_size c lev ∣ base →
      base + group_size c lev ≤ level_width c lev →
      ∃ cst, cst ≤ rem * (1 + group_iters c.buf_branch.toNat d) ∧ ∀ fuel,
        after_scan c bsize occ size sizes (fuel + cst) (lev : Int) (base : Int)
          ((group_size c lev : Nat) : Int)
          (scan c bsize occ size sizes (lev : Int) (base : Int)
            ((group_size c lev : Nat) : Int) rem (j : Int)) =
        dfs_finish c bsize occ size sizes fuel lev base
          (dfs_group c bsize occ size sizes (dfs_child c bsize occ size sizes d) lev base
            rem j) := by
  have hB : ((c.buf_branch.toNat : Nat) : Int) = c.buf_branch :=
    Int.toNat_of_nonneg (by have := hc.2.1; omega)
  have hBpos : 0 < c.buf_branch := by have := hc.2.1; omega
  intro d
  induction d using Nat.strong_induction_on with
  | _ d ihd =>
  intro rem
  induction rem with
  | zero =>
    intro lev base j hd hj _ _
    refine ⟨0, Nat.zero_le _, ?_⟩
    intro fuel
    have hjk : ¬ ((j : Int) < ((group_size c lev : Nat) : Int)) := by omega
    simp only [scan, if_neg hjk, after_scan, dfs_group, dfs_finish, add_zero]
    rfl
  | succ r ihr =>
    intro lev base j hd hj hdiv hwid
    have hjk : (j : Int) < ((group_size c lev : Nat) : Int) := by omega
    have hnext := ihr lev base (j + 1) hd (by omega) hdiv hwid
    simp only [scan, if_pos hjk, dfs_group]
    cases hp : probe c bsize occ size sizes (lev : Int) ((base : Int) + (j : Int)) with
    | fail =>
      exact ⟨0, Nat.zero_le _, fun fuel => by simp [after_scan, dfs_finish]⟩
    | undef =>
      exact ⟨0, Nat.zero_le _, fun fuel => by simp [after_scan, dfs_finish]⟩
    | found m p =>
      obtain ⟨_, hm0, _⟩ := probe_found_range c bsize occ size sizes _ _ m p hp
      refine ⟨0, Nat.zero_le _, fun fuel => ?_⟩
      simp only [after_scan, dfs_finish]
      rw [if_pos (by omega)]
    | shift =>
      obtain ⟨cst, hcst, h⟩ := hnext
      refine ⟨cst, le_trans hcst (Nat.mul_le_mul_right _ (by omega)), fun fuel => ?_⟩
      have := h fuel
      push_cast at this
      simp only
      exact this
    | descend =>
      have hlev := probe_descend_level c bsize occ size sizes _ _ hp
      obtain ⟨d1, rfl⟩ : ∃ d1, d = d1 + 1 := ⟨d - 1, by omega⟩
      simp only
      by_cases hchk : ab_get_1st_child c (lev : Int) ((base : Int) + (j : Int)) < 0 ∨
          ab_get_1st_child c (lev : Int) ((base : Int) + (j : Int)) ≥ (size : Int)
      · refine ⟨0, Nat.zero_le _, fun fuel => ?_⟩
        simp only [after_scan, dfs_finish]
        rw [if_neg (by omega), if_pos hjk, if_pos hchk, if_pos hchk]
      · rw [if_neg hchk]
        have hchild_val : ab_get_1st_child c (lev : Int) ((base : Int) + (j : Int)) =
            ((((base + j) * c.buf_branch.toNat : Nat) : Int)) + ((0 : Nat) : Int) := by
          unfold ab_get_1st_child
          rw [if_pos ⟨by omega, by omega, by omega, hBpos⟩]
          have hcw := child_lt_width c lev (base + j) 0 (by omega) (by omega)
          have hw31 := level_width_lt_int c hc (lev + 1) (by omega)
          have e : ((base : Int) + (j : Int)) * c.buf_branch =
              (((base + j) * c.buf_branch.toNat : Nat) : Int) := by
            push_cast; rw [hB]
          rw [e, int_wrap_natCast _ (by omega)]
          simp
        have hgs1 : group_size c (lev + 1) = c.buf_branch.toNat := by
          unfold group_size; rw [if_neg (by omega)]
        have hchild := ihd d1 (by omega) c.buf_branch.toNat (lev + 1)
          ((base + j) * c.buf_branch.toNat) 0 (by omega) (by rw [hgs1]; omega)
          (by rw [hgs1]; exact Dvd.intro_left _ rfl)
          (by
            rw [hgs1, level_width_succ]
            calc (base + j) * c.buf_branch.toNat + c.buf_branch.toNat
                = (base + j + 1) * c.buf_branch.toNat := by ring
              _ ≤ level_width c lev * c.buf_branch.toNat :=
                Nat.mul_le_mul_right _ (by omega))
        obtain ⟨c1, hc1, h1⟩ := hchild
        have hdesc : ∀ f, after_scan c bsize occ size sizes (f + 1) (lev : Int) (base : Int)
            ((group_size c lev : Nat) : Int) (scan_t.exit (j : Int) (-1) none) =
            after_scan c bsize occ size sizes f ((lev + 1 : Nat) : Int)
              ((((base + j) * c.buf_branch.toNat : Nat)) : Int)
              ((group_size c (lev + 1) : Nat) : Int)
              (scan c bsize occ size sizes ((lev + 1 : Nat) : Int)
                ((((base + j) * c.buf_branch.toNat : Nat)) : Int)
                ((group_size c (lev + 1) : Nat) : Int) c.buf_branch.toNat ((0 : Nat) : Int)) := by
          intro f
          simp only [after_scan]
          rw [if_neg (by omega), if_pos hjk, if_neg hchk, hchild_val]
          have := search_head c hc bsize occ size sizes f (lev + 1)
            ((base + j) * c.buf_branch.toNat) 0 0 (by omega)
            (by rw [hgs1]; exact Dvd.intro_left _ rfl) (by rw [hgs1]; omega)
          rw [hgs1] at this ⊢
          simp only [add_zero, Nat.sub_zero] at this
          push_cast at this ⊢
          exact this
        have hchild_def : dfs_child c bsize occ size sizes (d1 + 1) (lev + 1)
            ((base + j) * c.buf_branch.toNat) =
            dfs_group c bsize occ size sizes (dfs_child c bsize occ size sizes d1) (lev + 1)
              ((base + j) * c.buf_branch.toNat) c.buf_branch.toNat 0 := rfl
        rw [← hchild_def] at h1
        have hbound1 : c1 + 2 ≤ 1 + group_iters c.buf_branch.toNat (d1 + 1) := by
          rw [group_iters_succ]; omega
        cases hr : dfs_child c bsize occ size sizes (d1 + 1) (lev + 1)
            ((base + j) * c.buf_branch.toNat) with
        | none =>
          rw [hr] at h1
          simp only
          by_cases hchk2 : ab_get_parent c ((lev : Int) + 1)
              (((base + j) * c.buf_branch.toNat : Nat) : Int) < 0 ∨
              ab_get_parent c ((lev : Int) + 1)
                (((base + j) * c.buf_branch.toNat : Nat) : Int) ≥ (size : Int)
          · refine ⟨c1 + 1, ?_, fun fuel => ?_⟩
            · rw [Nat.succ_mul]; omega
            · rw [if_pos hchk2, ← add_assoc, hdesc, h1]
              have hfin : dfs_finish c bsize occ size sizes fuel (lev + 1)
                  ((base + j) * c.buf_branch.toNat) dfs_t.none =
                  exec.ret (search_t.fail 3) := by
                simp only [dfs_finish]
                push_cast at hchk2 ⊢
                rw [if_pos (by omega), if_pos hchk2]
              rw [hfin]; rfl
          · rw [if_neg hchk2]
            obtain ⟨c2, hc2, h2⟩ := hnext
            refine ⟨c2 + 1 + c1 + 1, ?_, fun fuel => ?_⟩
            · rw [Nat.succ_mul]; omega
            · have hfin : dfs_finish c bsize occ size sizes (fuel + c2 + 1) (lev + 1)
                  ((base + j) * c.buf_branch.toNat) dfs_t.none =
                  after_scan c bsize occ size sizes (fuel + c2) (lev : Int) (base : Int)
                    ((group_size c lev : Nat) : Int)
                    (scan c bsize occ size sizes (lev : Int) (base : Int)
                      ((group_size c lev : Nat) : Int) r ((j + 1 : Nat) : Int)) := by
                simp only [dfs_finish]
                push_cast at hchk2 ⊢
                rw [if_pos (by omega), if_neg hchk2]
                have hpar : ab_get_parent c ((lev : Int) + 1)
                    (((base : Int) + (j : Int)) * (c.buf_branch.toNat : Int)) =
                    (base : Int) + (j : Int) := by
                  unfold ab_get_parent
                  rw [if_pos ⟨by omega, by omega, by rw [hB]; positivity, hBpos⟩, hB]
                  exact Int.mul_tdiv_cancel _ (by omega)
                rw [hpar]
                have hh := search_head c hc bsize occ size sizes (fuel + c2) lev base j 1
                  (by omega) hdiv (by omega)
                have e : (lev : Int) + 1 - 1 = (lev : Int) := by omega
                have e2 : group_size c lev - (j + 1) = r := by omega
                rw [e]
                rw [e2] at hh
                push_cast at hh
                exact hh
              have ef : fuel + (c2 + 1 + c1 + 1) = (fuel + c2 + 1 + c1) + 1 := by omega
              rw [ef, hdesc, h1, hfin]
              exact h2 fuel
        | fail code =>
          rw [hr] at h1
          refine ⟨c1 + 1, by rw [Nat.succ_mul]; omega, fun fuel => ?_⟩
          rw [← add_assoc, hdesc, h1]
          simp only [dfs_finish]
        | undef =>
          rw [hr] at h1
          refine ⟨c1 + 1, by rw [Nat.succ_mul]; omega, fun fuel => ?_⟩
          rw [← add_assoc, hdesc, h1]
          simp only [dfs_finish]
        | found l1 b1 m1 p1 =>
          rw [hr] at h1
          refine ⟨c1 + 1, by rw [Nat.succ_mul]; omega, fun fuel => ?_⟩
          rw [← add_assoc, hdesc, h1]
          simp only [dfs_finish]



theorem group_size_zero (c : ab_conf_t) : group_size c 0 = c.buf_top.toNat := by
  unfold group_size; rw [if_pos rfl]

/-- The search loop of `get_buf_entry`, given `search_fuel` iterations or more,
finishes with the result of the recursive description. -/
theorem search_eq_dfs (c : ab_conf_t) (hc : conf_ok c) (bsize : Nat) (occ : List Nat)
    (size : Nat) (sizes : List Nat) (fuel : Nat) (hf : search_fuel c ≤ fuel) :
    search c bsize occ size sizes fuel 0 0 0 =
      match dfs_top c bsize occ size sizes with
      | dfs_t.fail code => exec.ret (search_t.fail code)
      | dfs_t.undef => exec.undef
      | dfs_t.found lev base m p => exec.ret (search_t.exit lev base m (some p))
      | dfs_t.none => exec.ret (search_t.exit 0 0 (-1) none) := by
  have hd : 1 ≤ c.buf_depth := hc.2.2.1
  obtain ⟨cst, hcst, h⟩ := scan_dfs c hc bsize occ size sizes (c.buf_depth.toNat - 1)
    c.buf_top.toNat 0 0 0 (by omega) (by rw [group_size_zero]; omega) (dvd_zero _)
    (by rw [group_size_zero]; simp [level_width])
  unfold search_fuel at hf
  obtain ⟨f1, rfl⟩ : ∃ f1, fuel = (f1 + cst) + 1 := ⟨fuel - cst - 1, by omega⟩
  have hh := search_head c hc bsize occ size sizes (f1 + cst) 0 0 0 0 (by omega)
    (dvd_zero _) (group_size_pos c hc 0)
  simp only [Nat.cast_zero, add_zero, Nat.sub_zero] at hh
  rw [hh]
  have h2 := h f1
  simp only [Nat.cast_zero] at h2
  rw [group_size_zero] at h2 ⊢
  rw [h2]
  unfold dfs_top
  cases dfs_group c bsize occ size sizes
    (dfs_child c bsize occ size sizes (c.buf_depth.toNat - 1)) 0 0 c.buf_top.toNat 0 <;>
    simp [dfs_finish]

theorem get_buf_entry_fuel_eq (TL DU : Int) (c : ab_conf_t) (hc : conf_ok c) (bsize : Nat)
    (occ : List Nat) (size : Nat) (sizes : List Nat) (fuel : Nat)
    (hf : search_fuel c ≤ fuel) :
    get_buf_entry_fuel TL DU fuel c bsize occ size sizes =
      match dfs_top c bsize occ size sizes with
      | dfs_t.fail code => exec.ret ⟨code, occ, none, -1⟩
      | dfs_t.undef => exec.undef
      | dfs_t.found lev base m p =>
        get_buf_finish TL DU c bsize occ size sizes lev base m (some p)
      | dfs_t.none => get_buf_finish TL DU c bsize occ size sizes 0 0 (-1) none := by
  unfold get_buf_entry_fuel
  rw [search_eq_dfs c hc bsize occ size sizes fuel hf]
  cases dfs_top c bsize occ size sizes <;> simp only [get_buf_finish]

/-- The search loop of `get_buf_entry` never runs out of fuel when it is given
`search_fuel` iterations, and more fuel does not change the result. -/
theorem get_buf_entry_fuel_enough (TL DU : Int) (c : ab_conf_t) (hc : conf_ok c)
    (bsize : Nat) (occ : List Nat) (size : Nat) (sizes : List Nat) (fuel : Nat)
    (hf : search_fuel c ≤ fuel) :
    get_buf_entry_fuel TL DU fuel c bsize occ size sizes =
      get_buf_entry TL DU c bsize occ size sizes := by
  unfold get_buf_entry
  rw [get_buf_entry_fuel_eq TL DU c hc bsize occ size sizes fuel hf,
    get_buf_entry_fuel_eq TL DU c hc bsize occ size sizes _ (le_refl _)]

theorem get_buf_entry_eq (TL DU : Int) (c : ab_conf_t) (hc : conf_ok c) (bsize : Nat)
    (occ : List Nat) (size : Nat) (sizes : List Nat) :
    get_buf_entry TL DU c bsize occ size sizes =
      match dfs_top c bsize occ size sizes with
      | dfs_t.fail code => exec.ret ⟨code, occ, none, -1⟩
      | dfs_t.undef => exec.undef
      | dfs_t.found lev base m p =>
        get_buf_finish TL DU c bsize occ size sizes lev base m (some p)
      | dfs_t.none => get_buf_finish TL DU c bsize occ size sizes 0 0 (-1) none :=
  get_buf_entry_fuel_eq TL DU c hc bsize occ size sizes _ (le_refl _)

/-! ## Size classes of a well-formed pool -/

theorem pool_ok_conf_ok (c : ab_conf_t) (pool_size : Nat) (sizes : List Nat)
    (h : pool_ok c pool_size sizes) : conf_ok c :=
  ⟨h.1.1, by have := h.1.2.1; omega, h.1.2.2.1, h.2⟩

theorem arr_get_sizes (sizes : List Nat) (lev : Nat) (h : lev < sizes.length) :
    arr_get sizes (lev : Int) = some (blck_size sizes lev) :=
  arr_get_of_lt sizes lev h

theorem arr_get_occ (c : ab_conf_t) (occ : List Nat) (lev off : Nat)
    (h : entry_index c lev off < occ.length) :
    arr_get occ ((entry_index c lev off : Nat) : Int) = some (occ_at c occ lev off) :=
  arr_get_of_lt occ _ h

theorem wf_size_succ (c : ab_conf_t) (pool_size : Nat) (sizes : List Nat)
    (h : pool_ok c pool_size sizes) (lev : Nat) (hl : lev + 1 < c.buf_depth.toNat) :
    blck_size sizes (lev + 1) = blck_size sizes lev / c.buf_branch.toNat :=
  h.1.2.2.2.2.2.2.1 lev (by omega) hl

theorem wf_size_pos (c : ab_conf_t) (pool_size : Nat) (sizes : List Nat)
    (h : pool_ok c pool_size sizes) (lev : Nat) (hl : lev < c.buf_depth.toNat) :
    1 ≤ blck_size sizes lev ∧ blck_size sizes lev < 2 ^ 31 :=
  h.1.2.2.2.2.2.2.2 lev hl

theorem wf_branch_mul_le (c : ab_conf_t) (pool_size : Nat) (sizes : List Nat)
    (h : pool_ok c pool_size sizes) (lev : Nat) (hl : lev + 1 < c.buf_depth.toNat) :
    c.buf_branch.toNat * blck_size sizes (lev + 1) ≤ blck_size sizes lev := by
  rw [wf_size_succ c pool_size sizes h lev hl]
  exact Nat.mul_div_le _ _

theorem wf_size_mono (c : ab_conf_t) (pool_size : Nat) (sizes : List Nat)
    (h : pool_ok c pool_size sizes) (l1 l2 : Nat) (h12 : l1 ≤ l2)
    (hl : l2 < c.buf_depth.toNat) : blck_size sizes l2 ≤ blck_size sizes l1 := by
  induction h12 with
  | refl => exact le_refl _
  | step hm ih =>
    rename_i m
    have := ih (by omega)
    have h2 := wf_size_succ c pool_size sizes h m (by omega)
    have h3 : blck_size sizes m / c.buf_branch.toNat ≤ blck_size sizes m := Nat.div_le_self _ _
    have e : m.succ = m + 1 := rfl
    rw [e]
    omega

theorem wf_branch_lt (c : ab_conf_t) (pool_size : Nat) (sizes : List Nat)
    (h : pool_ok c pool_size sizes) (hd : 2 ≤ c.buf_depth.toNat) :
    c.buf_branch.toNat < 2 ^ 31 := by
  have h1 := wf_branch_mul_le c pool_size sizes h 0 (by omega)
  have h2 := wf_size_pos c pool_size sizes h 1 (by omega)
  have h3 := wf_size_pos c pool_size sizes h 0 (by omega)
  have : c.buf_branch.toNat * 1 ≤ c.buf_branch.toNat * blck_size sizes (0 + 1) :=
    Nat.mul_le_mul_left _ h2.1
  omega

theorem wf_top_mul_le (c : ab_conf_t) (pool_size : Nat) (sizes : List Nat)
    (h : pool_ok c pool_size sizes) :
    c.buf_top.toNat * blck_size sizes 0 ≤ pool_size := by
  rw [h.1.2.2.2.2.2.1]
  exact Nat.mul_div_le _ _

/-! ## Byte offsets of the entries -/

/-- The sum that the loop of `ab_get_offset` adds to `offset*blck_sizes[level]`. -/
theorem entry_start_succ (c : ab_conf_t) (sizes : List Nat) (lev off : Nat) :
    entry_start c sizes (lev + 1) off =
      entry_start c sizes lev (off / c.buf_branch.toNat) +
        (off % c.buf_branch.toNat) * blck_size sizes (lev + 1) := rfl

theorem entry_start_bound (c : ab_conf_t) (pool_size : Nat) (sizes : List Nat)
    (h : pool_ok c pool_size sizes) :
    ∀ lev off, lev < c.buf_depth.toNat →
      entry_start c sizes lev off + blck_size sizes lev ≤
        (off / c.buf_branch.toNat ^ lev + 1) * blck_size sizes 0 := by
  have hB : 0 < c.buf_branch.toNat := by have := h.1.2.1; omega
  intro lev
  induction lev with
  | zero =>
    intro off _
    simp only [entry_start, pow_zero, Nat.div_one]
    ring_nf; exact le_refl _
  | succ n ih =>
    intro off hl
    rw [entry_start_succ]
    have h1 := ih (off / c.buf_branch.toNat) (by omega)
    have h2 := wf_branch_mul_le c pool_size sizes h n hl
    have h3 : off % c.buf_branch.toNat < c.buf_branch.toNat := Nat.mod_lt _ hB
    have h4 : (off % c.buf_branch.toNat + 1) * blck_size sizes (n + 1) ≤
        c.buf_branch.toNat * blck_size sizes (n + 1) := Nat.mul_le_mul_right _ h3
    have h5 : off / c.buf_branch.toNat / c.buf_branch.toNat ^ n =
        off / c.buf_branch.toNat ^ (n + 1) := by
      rw [Nat.div_div_eq_div_mul, pow_succ, mul_comm]
    rw [h5] at h1
    have h6 : (off % c.buf_branch.toNat + 1) * blck_size sizes (n + 1) =
        off % c.buf_branch.toNat * blck_size sizes (n + 1) + blck_size sizes (n + 1) := by ring
    omega

theorem entry_start_in_pool (c : ab_conf_t) (pool_size : Nat) (sizes : List Nat)
    (h : pool_ok c pool_size sizes) (lev off : Nat) (hl : lev < c.buf_depth.toNat)
    (ho : off < level_width c lev) :
    entry_start c sizes lev off + blck_size sizes lev ≤ pool_size := by
  have hB : 0 < c.buf_branch.toNat := by have := h.1.2.1; omega
  have h1 := entry_start_bound c pool_size sizes h lev off hl
  have h2 : off / c.buf_branch.toNat ^ lev < c.buf_top.toNat := by
    apply Nat.div_lt_of_lt_mul
    unfold level_width at ho
    rw [mul_comm]; exact ho
  have h3 : (off / c.buf_branch.toNat ^ lev + 1) * blck_size sizes 0 ≤
      c.buf_top.toNat * blck_size sizes 0 := Nat.mul_le_mul_right _ h2
  have h4 := wf_top_mul_le c pool_size sizes h
  omega



theorem size_t_of_int_natCast (n : Nat) : size_t_of_int (n : Int) = n % 2 ^ 64 := by
  unfold size_t_of_int
  rw [← Int.natCast_mod, Int.toNat_ofNat]

theorem size_t_of_int_of_lt (n : Nat) (h : n < 2 ^ 64) : size_t_of_int (n : Int) = n := by
  rw [size_t_of_int_natCast, Nat.mod_eq_of_lt h]

theorem ab_get_parent_natCast (c : ab_conf_t) (hc : conf_ok c) (lev off : Nat)
    (hl : lev < c.buf_depth.toNat) :
    ab_get_parent c (lev : Int) (off : Int) = ((off / c.buf_branch.toNat : Nat) : Int) := by
  have hB : ((c.buf_branch.toNat : Nat) : Int) = c.buf_branch :=
    Int.toNat_of_nonneg (by have := hc.2.1; omega)
  unfold ab_get_parent
  rw [if_pos ⟨by omega, by omega, by omega, by have := hc.2.1; omega⟩]
  rw [Int.tdiv_eq_ediv (by omega) (by have := hc.2.1; omega)]
  rw [← hB]; norm_cast

theorem ab_get_offset_loop_eq (c : ab_conf_t) (hc : conf_ok c) (sizes : List Nat)
    (hs : sizes.length = c.buf_depth.toNat) (hB64 : c.buf_branch.toNat < 2 ^ 64) :
    ∀ i j acc : Nat, i < c.buf_depth.toNat → j < 2 ^ 64 → acc < 2 ^ 64 →
      ab_get_offset_loop c sizes i (i : Int) (j : Int) acc =
        some ((acc + parent_sum c sizes i j) % 2 ^ 64) := by
  have hBcast : ((c.buf_branch.toNat : Nat) : Int) = c.buf_branch :=
    Int.toNat_of_nonneg (by have := hc.2.1; omega)
  intro i
  induction i with
  | zero =>
    intro j acc _ _ hacc
    simp only [ab_get_offset_loop, parent_sum, add_zero]
    rw [Nat.mod_eq_of_lt hacc]
  | succ n ih =>
    intro j acc hi hj hacc
    simp only [ab_get_offset_loop, parent_sum]
    have e1 : ((n + 1 : Nat) : Int) - 1 = (n : Int) := by push_cast; omega
    rw [e1, arr_get_sizes sizes n (by omega)]
    simp only
    rw [ab_get_parent_natCast c hc (n + 1) j hi]
    have hjB : j / c.buf_branch.toNat < 2 ^ 64 :=
      lt_of_le_of_lt (Nat.div_le_self _ _) hj
    rw [ih (j / c.buf_branch.toNat) _ (by omega) hjB
      (by unfold size_t_add SIZE_T_RANGE; exact Nat.mod_lt _ (by norm_num))]
    have hsz : size_t_of_int c.buf_branch = c.buf_branch.toNat := by
      conv_lhs => rw [← hBcast]
      exact size_t_of_int_of_lt _ hB64
    rw [hsz, size_t_of_int_of_lt _ hjB]
    unfold size_t_add size_t_mul SIZE_T_RANGE
    generalize blck_size sizes n % c.buf_branch.toNat * (j / c.buf_branch.toNat) = x
    generalize parent_sum c sizes n (j / c.buf_branch.toNat) = y
    congr 1
    omega



theorem parent_sum_entry_start (c : ab_conf_t) (pool_size : Nat) (sizes : List Nat)
    (h : pool_ok c pool_size sizes) :
    ∀ lev off, lev < c.buf_depth.toNat →
      off * blck_size sizes lev + parent_sum c sizes lev off = entry_start c sizes lev off := by
  intro lev
  induction lev with
  | zero => intro off _; simp [parent_sum, entry_start]
  | succ n ih =>
    intro off hl
    simp only [parent_sum, entry_start]
    rw [← ih (off / c.buf_branch.toNat) (by omega)]
    have hq := wf_size_succ c pool_size sizes h n hl
    have h1 := Nat.div_add_mod (blck_size sizes n) c.buf_branch.toNat
    have h2 := Nat.div_add_mod off c.buf_branch.toNat
    rw [← hq] at h1
    generalize blck_size sizes (n + 1) = q at *
    generalize blck_size sizes n % c.buf_branch.toNat = r at *
    generalize off / c.buf_branch.toNat = p at *
    generalize off % c.buf_branch.toNat = o at *
    generalize parent_sum c sizes n p = ps at *
    rw [← h1]
    nth_rewrite 1 [← h2]
    ring

/-- In a well-formed pool `ab_get_offset` returns the byte offset `entry_start` of
the entry (no `size_t` computation wraps around). -/
theorem ab_get_offset_eq (c : ab_conf_t) (pool_size : Nat) (sizes : List Nat)
    (h : pool_ok c pool_size sizes) (lev off : Nat) (hl : lev < c.buf_depth.toNat)
    (ho : off < level_width c lev) :
    ab_get_offset c (lev : Int) (off : Int) sizes = some (entry_start c sizes lev off) := by
  have hc := pool_ok_conf_ok c pool_size sizes h
  have hs : sizes.length = c.buf_depth.toNat := h.1.2.2.2.2.1
  have hpool : pool_size < 2 ^ 64 := h.1.2.2.2.1
  have hin := entry_start_in_pool c pool_size sizes h lev off hl ho
  have hps := parent_sum_entry_start c pool_size sizes h lev off hl
  have hpos := (wf_size_pos c pool_size sizes h lev hl).1
  have hoff : off < 2 ^ 64 := by
    have : off * 1 ≤ off * blck_size sizes lev := Nat.mul_le_mul_left _ hpos
    omega
  unfold ab_get_offset
  rw [arr_get_sizes sizes lev (by omega)]
  simp only [Int.toNat_ofNat]
  by_cases h0 : lev = 0
  · subst h0
    simp only [ab_get_offset_loop, Nat.cast_zero]
    have e : size_t_of_int ((off : Nat) : Int) = off := size_t_of_int_of_lt _ hoff
    simp only [parent_sum, add_zero] at hps
    rw [e]
    unfold size_t_mul SIZE_T_RANGE
    rw [hps, Nat.mod_eq_of_lt (by omega)]
  · have hB64 : c.buf_branch.toNat < 2 ^ 64 := by
      have := wf_branch_lt c pool_size sizes h (by omega)
      omega
    rw [ab_get_offset_loop_eq c hc sizes hs hB64 lev off _ hl hoff
      (by unfold size_t_mul SIZE_T_RANGE; exact Nat.mod_lt _ (by norm_num))]
    rw [size_t_of_int_of_lt _ hoff]
    unfold size_t_mul SIZE_T_RANGE
    congr 1
    rw [Nat.mod_eq_of_lt (a := off * blck_size sizes lev) (by omega), hps]
    exact Nat.mod_eq_of_lt (by omega)

/-! ## Running the allocator on a table given by its non-zero counters

The lemmas of this section evaluate `get_buf_entry` and `free_buf_entry` step by
step. They hold for every configuration, also for one whose entry numbers leave the
range of an `int`. -/

theorem table_of_length (n : Nat) (u : List (Nat × Nat)) : (table_of n u).length = n := by
  induction u with
  | nil => simp [table_of]
  | cons p u ih => simp [table_of, ih]

theorem getD_table_of (n : Nat) (u : List (Nat × Nat)) (m : Nat) (h : m < n) :
    (table_of n u).getD m 0 = counter_of u m := by
  induction u with
  | nil =>
    simp only [table_of, counter_of]
    rw [List.getD_eq_getElem _ _ (by simpa using h)]
    simp
  | cons p u ih =>
    obtain ⟨a, v⟩ := p
    simp only [table_of, counter_of]
    by_cases hma : m = a
    · subst hma
      rw [if_pos rfl, List.getD_eq_getElem _ _ (by simp [table_of_length, h])]
      simp
    · rw [if_neg hma, ← ih]
      simp [List.getD_eq_getElem?_getD, List.getElem?_set_ne (Ne.symm hma)]

theorem arr_get_table_of (n : Nat) (u : List (Nat × Nat)) (i : Int) (h0 : 0 ≤ i)
    (h1 : i < (n : Int)) : arr_get (table_of n u) i = some (counter_of u i.toNat) := by
  obtain ⟨m, rfl⟩ := Int.eq_ofNat_of_zero_le h0
  rw [arr_get_of_lt _ m (by rw [table_of_length]; omega), getD_table_of n u m (by omega)]
  simp

theorem arr_set_table_of (n : Nat) (u : List (Nat × Nat)) (i : Int) (v : Nat) (h0 : 0 ≤ i)
    (h1 : i < (n : Int)) :
    arr_set (table_of n u) i v = some (table_of n ((i.toNat, v) :: u)) := by
  obtain ⟨m, rfl⟩ := Int.eq_ofNat_of_zero_le h0
  rw [arr_set_of_lt _ m v (by rw [table_of_length]; omega)]
  simp [table_of]

/-! ### One pass through the body of the inner loop -/

theorem probe_fail_of (c : ab_conf_t) (bsize : Nat) (occ : List Nat) (size : Nat)
    (sizes : List Nat) (i off : Int)
    (h : ab_get_1d_pos c i off < 0 ∨ ab_get_1d_pos c i off ≥ (size : Int)) :
    probe c bsize occ size sizes i off = probe_t.fail := by
  unfold probe
  simp only
  rw [if_pos h]

theorem probe_shift_of (c : ab_conf_t) (bsize : Nat) (occ : List Nat) (size : Nat)
    (sizes : List Nat) (i off m : Int) (s o : Nat)
    (hm : ab_get_1d_pos c i off = m) (h0 : 0 ≤ m) (h1 : m < (size : Int))
    (hs : arr_get sizes i = some s) (ho : arr_get occ m = some o)
    (hfit : ¬ bsize ≤ size_t_sub s o) :
    probe c bsize occ size sizes i off = probe_t.shift := by
  unfold probe
  simp only [hm]
  rw [if_neg (by omega), hs, ho]
  simp only
  rw [if_neg hfit]

theorem probe_descend_of (c : ab_conf_t) (bsize : Nat) (occ : List Nat) (size : Nat)
    (sizes : List Nat) (i off m : Int) (s o s1 : Nat)
    (hm : ab_get_1d_pos c i off = m) (h0 : 0 ≤ m) (h1 : m < (size : Int))
    (hs : arr_get sizes i = some s) (ho : arr_get occ m = some o)
    (hfit : bsize ≤ size_t_sub s o) (hlev : i < c.buf_depth - 1)
    (hs1 : arr_get sizes (i + 1) = some s1) (hb : bsize ≤ s1) :
    probe c bsize occ size sizes i off = probe_t.descend := by
  unfold probe
  simp only [hm]
  rw [if_neg (by omega), hs, ho]
  simp only
  rw [if_pos hfit, if_neg (fun h => by omega), hs1]
  simp only
  rw [if_neg (fun h => by omega), if_pos hlev, if_pos (by omega)]

theorem probe_found_last (c : ab_conf_t) (bsize : Nat) (occ : List Nat) (size : Nat)
    (sizes : List Nat) (i off m : Int) (s p : Nat)
    (hm : ab_get_1d_pos c i off = m) (h0 : 0 ≤ m) (h1 : m < (size : Int))
    (hs : arr_get sizes i = some s) (ho : arr_get occ m = some 0)
    (hfit : bsize ≤ size_t_sub s 0) (hlev : i = c.buf_depth - 1)
    (hp : ab_get_offset c i off sizes = some p) :
    probe c bsize occ size sizes i off = probe_t.found m p := by
  unfold probe
  simp only [hm]
  rw [if_neg (by omega), hs, ho]
  simp only
  rw [if_pos hfit, if_pos ⟨hlev, trivial⟩, hp]

theorem probe_found_mid (c : ab_conf_t) (bsize : Nat) (occ : List Nat) (size : Nat)
    (sizes : List Nat) (i off m : Int) (s s1 p : Nat)
    (hm : ab_get_1d_pos c i off = m) (h0 : 0 ≤ m) (h1 : m < (size : Int))
    (hs : arr_get sizes i = some s) (ho : arr_get occ m = some 0)
    (hfit : bsize ≤ size_t_sub s 0) (hlev : i ≠ c.buf_depth - 1)
    (hs1 : arr_get sizes (i + 1) = some s1) (hb : s1 < bsize)
    (hp : ab_get_offset c i off sizes = some p) :
    probe c bsize occ size sizes i off = probe_t.found m p := by
  unfold probe
  simp only [hm]
  rw [if_neg (by omega), hs, ho]
  simp only
  rw [if_pos hfit, if_neg (fun h => hlev h.1), hs1]
  simp only
  rw [if_pos ⟨hb, trivial⟩, hp]

/-! ### The inner loop -/

theorem scan_skip (c : ab_conf_t) (bsize : Nat) (occ : List Nat) (size : Nat)
    (sizes : List Nat) (i l k : Int) :
    ∀ (n rem : Nat) (j : Int), n ≤ rem → j + (n : Int) ≤ k →
      (∀ d : Nat, d < n → probe c bsize occ size sizes i (l + (j + (d : Int))) =
        probe_t.shift) →
      scan c bsize occ size sizes i l k rem j =
        scan c bsize occ size sizes i l k (rem - n) (j + (n : Int)) := by
  intro n
  induction n with
  | zero => intro rem j _ _ _; simp
  | succ n ih =>
    intro rem j hrem hjk hsh
    obtain ⟨r, rfl⟩ : ∃ r, rem = r + 1 := ⟨rem - 1, by omega⟩
    have h0 := hsh 0 (by omega)
    simp only [Nat.cast_zero, add_zero] at h0
    rw [scan, if_pos (by omega), h0]
    simp only
    rw [ih r (j + 1) (by omega) (by push_cast at hjk ⊢; omega)
      (fun d hd => by
        have := hsh (d + 1) (by omega)
        push_cast at this
        rw [show j + 1 + (d : Int) = j + ((d : Int) + 1) by ring]
        exact this)]
    congr 1
    · omega
    · push_cast; ring

theorem scan_stop (c : ab_conf_t) (bsize : Nat) (occ : List Nat) (size : Nat)
    (sizes : List Nat) (i l k : Int) (rem : Nat) (j : Int) (hr : 0 < rem) (hj : j < k) :
    scan c bsize occ size sizes i l k rem j =
      match probe c bsize occ size sizes i (l + j) with
      | probe_t.fail => scan_t.fail
      | probe_t.undef => scan_t.undef
      | probe_t.found m p => scan_t.exit j m (some p)
      | probe_t.descend => scan_t.exit j (-1) none
      | probe_t.shift => scan c bsize occ size sizes i l k (rem - 1) (j + 1) := by
  obtain ⟨r, rfl⟩ : ∃ r, rem = r + 1 := ⟨rem - 1, by omega⟩
  rewrite [scan, if_pos hj]
  rfl

theorem scan_done (c : ab_conf_t) (bsize : Nat) (occ : List Nat) (size : Nat)
    (sizes : List Nat) (i l k : Int) (rem : Nat) (j : Int) (hj : ¬ j < k) :
    scan c bsize occ size sizes i l k rem j = scan_t.exit j (-1) none := by
  cases rem with
  | zero => rw [scan, if_neg hj]
  | succ r => rw [scan, if_neg hj]

/-- The inner loop passes `sh` entries and stops at the next one. -/
theorem scan_to (c : ab_conf_t) (bsize : Nat) (occ : List Nat) (size : Nat)
    (sizes : List Nat) (i l k j : Int) (sh : Nat) (hlt : j + (sh : Int) < k)
    (hsh : ∀ d : Nat, d < sh → probe c bsize occ size sizes i (l + (j + (d : Int))) =
      probe_t.shift) :
    scan c bsize occ size sizes i l k (k - j).toNat j =
      match probe c bsize occ size sizes i (l + (j + (sh : Int))) with
      | probe_t.fail => scan_t.fail
      | probe_t.undef => scan_t.undef
      | probe_t.found m p => scan_t.exit (j + (sh : Int)) m (some p)
      | probe_t.descend => scan_t.exit (j + (sh : Int)) (-1) none
      | probe_t.shift =>
        scan c bsize occ size sizes i l k ((k - j).toNat - sh - 1) (j + (sh : Int) + 1) := by
  rw [scan_skip c bsize occ size sizes i l k sh (k - j).toNat j (by omega) (by omega) hsh,
    scan_stop c bsize occ size sizes i l k _ _ (by omega) hlt]

/-- The inner loop passes all the entries that are left in the group. -/
theorem scan_to_end (c : ab_conf_t) (bsize : Nat) (occ : List Nat) (size : Nat)
    (sizes : List Nat) (i l k j : Int) (sh : Nat) (hlt : j + (sh : Int) = k)
    (hsh : ∀ d : Nat, d < sh → probe c bsize occ size sizes i (l + (j + (d : Int))) =
      probe_t.shift) :
    scan c bsize occ size sizes i l k (k - j).toNat j = scan_t.exit k (-1) none := by
  rw [scan_skip c bsize occ size sizes i l k sh (k - j).toNat j (by omega) (by omega) hsh,
    scan_done c bsize occ size sizes i l k _ _ (by omega), hlt]

/-! ### One iteration of the outer loop -/

theorem search_at (c : ab_conf_t) (bsize : Nat) (occ : List Nat) (size : Nat)
    (sizes : List Nat) (fuel : Nat) (i l n K : Int) (hf : 0 < fuel) (hi : i < c.buf_depth)
    (hK : (if i > 0 then c.buf_branch else c.buf_top) = K) :
    search c bsize occ size sizes fuel i l n =
      after_scan c bsize occ size sizes (fuel - 1) i (l - l.tmod K) K
        (scan c bsize occ size sizes i (l - l.tmod K) K (K - (l.tmod K + n)).toNat
          (l.tmod K + n)) := by
  obtain ⟨f, rfl⟩ : ∃ f, fuel = f + 1 := ⟨fuel - 1, by omega⟩
  rewrite [search_succ, if_pos hi, hK]
  rfl

/-- An iteration of the outer loop that passes `sh` entries and goes down to the
children of the next one. -/
theorem search_descend_at (c : ab_conf_t) (bsize : Nat) (occ : List Nat) (size : Nat)
    (sizes : List Nat) (fuel : Nat) (i l n K j0 l1 l2 : Int) (sh : Nat)
    (hf : 0 < fuel) (hi : i < c.buf_depth)
    (hK : (if i > 0 then c.buf_branch else c.buf_top) = K)
    (hj0 : l.tmod K = j0) (hl1 : l - j0 = l1) (hlt : j0 + n + (sh : Int) < K)
    (hsh : ∀ d : Nat, d < sh → probe c bsize occ size sizes i (l1 + (j0 + n + (d : Int))) =
      probe_t.shift)
    (hp : probe c bsize occ size sizes i (l1 + (j0 + n + (sh : Int))) = probe_t.descend)
    (hl2 : ab_get_1st_child c i (l1 + (j0 + n + (sh : Int))) = l2)
    (h0 : 0 ≤ l2) (h1 : l2 < (size : Int)) :
    search c bsize occ size sizes fuel i l n =
      search c bsize occ size sizes (fuel - 1) (i + 1) l2 0 := by
  rw [search_at c bsize occ size sizes fuel i l n K hf hi hK, hj0, hl1,
    scan_to c bsize occ size sizes i l1 K (j0 + n) sh hlt hsh, hp]
  simp only [after_scan]
  rw [if_neg (by omega), if_pos hlt, hl2, if_neg (by omega)]

/-- An iteration of the outer loop that passes `sh` entries and accepts the next
one. -/
theorem search_found_at (c : ab_conf_t) (bsize : Nat) (occ : List Nat) (size : Nat)
    (sizes : List Nat) (fuel : Nat) (i l n K j0 l1 m : Int) (p sh : Nat)
    (hf : 0 < fuel) (hi : i < c.buf_depth)
    (hK : (if i > 0 then c.buf_branch else c.buf_top) = K)
    (hj0 : l.tmod K = j0) (hl1 : l - j0 = l1) (hlt : j0 + n + (sh : Int) < K)
    (hsh : ∀ d : Nat, d < sh → probe c bsize occ size sizes i (l1 + (j0 + n + (d : Int))) =
      probe_t.shift)
    (hp : probe c bsize occ size sizes i (l1 + (j0 + n + (sh : Int))) = probe_t.found m p) :
    search c bsize occ size sizes fuel i l n =
      exec.ret (search_t.exit i l1 m (some p)) := by
  have hm := (probe_found_range c bsize occ size sizes _ _ m p hp).2.1
  rw [search_at c bsize occ size sizes fuel i l n K hf hi hK, hj0, hl1,
    scan_to c bsize occ size sizes i l1 K (j0 + n) sh hlt hsh, hp]
  simp only [after_scan]
  rw [if_pos (by omega)]

/-- An iteration of the outer loop that passes `sh` entries and gets a wrong entry
number for the next one: `return 1`. -/
theorem search_fail_at (c : ab_conf_t) (bsize : Nat) (occ : List Nat) (size : Nat)
    (sizes : List Nat) (fuel : Nat) (i l n K j0 l1 : Int) (sh : Nat)
    (hf : 0 < fuel) (hi : i < c.buf_depth)
    (hK : (if i > 0 then c.buf_branch else c.buf_top) = K)
    (hj0 : l.tmod K = j0) (hl1 : l - j0 = l1) (hlt : j0 + n + (sh : Int) < K)
    (hsh : ∀ d : Nat, d < sh → probe c bsize occ size sizes i (l1 + (j0 + n + (d : Int))) =
      probe_t.shift)
    (hp : probe c bsize occ size sizes i (l1 + (j0 + n + (sh : Int))) = probe_t.fail) :
    search c bsize occ size sizes fuel i l n = exec.ret (search_t.fail 1) := by
  rw [search_at c bsize occ size sizes fuel i l n K hf hi hK, hj0, hl1,
    scan_to c bsize occ size sizes i l1 K (j0 + n) sh hlt hsh, hp]
  simp only [after_scan]

/-- An iteration of the outer loop that passes the `sh` entries left in the group of
a level below the top and goes back to the parent. -/
theorem search_ascend_at (c : ab_conf_t) (bsize : Nat) (occ : List Nat) (size : Nat)
    (sizes : List Nat) (fuel : Nat) (i l n K j0 l1 l2 : Int) (sh : Nat)
    (hf : 0 < fuel) (hi : i < c.buf_depth) (hi0 : i > 0)
    (hK : (if i > 0 then c.buf_branch else c.buf_top) = K)
    (hj0 : l.tmod K = j0) (hl1 : l - j0 = l1) (hlt : j0 + n + (sh : Int) = K)
    (hsh : ∀ d : Nat, d < sh → probe c bsize occ size sizes i (l1 + (j0 + n + (d : Int))) =
      probe_t.shift)
    (hl2 : ab_get_parent c i l1 = l2) (h0 : 0 ≤ l2) (h1 : l2 < (size : Int)) :
    search c bsize occ size sizes fuel i l n =
      search c bsize occ size sizes (fuel - 1) (i - 1) l2 1 := by
  rw [search_at c bsize occ size sizes fuel i l n K hf hi hK, hj0, hl1,
    scan_to_end c bsize occ size sizes i l1 K (j0 + n) sh hlt hsh]
  simp only [after_scan]
  rw [if_neg (by omega), if_neg (by omega), if_pos hi0, hl2, if_neg (by omega)]

/-! ### The call as a whole -/

theorem get_buf_entry_of_exit (TL DU : Int) (c : ab_conf_t) (bsize : Nat) (occ : List Nat)
    (size : Nat) (sizes : List Nat) (i l m : Int) (p : Option Nat)
    (h : search c bsize occ size sizes (search_fuel c) 0 0 0 =
      exec.ret (search_t.exit i l m p)) :
    get_buf_entry TL DU c bsize occ size sizes =
      get_buf_finish TL DU c bsize occ size sizes i l m p := by
  unfold get_buf_entry get_buf_entry_fuel
  rewrite [h]
  rfl

theorem get_buf_entry_of_fail (TL DU : Int) (c : ab_conf_t) (bsize : Nat) (occ : List Nat)
    (size : Nat) (sizes : List Nat) (code : Int)
    (h : search c bsize occ size sizes (search_fuel c) 0 0 0 =
      exec.ret (search_t.fail code)) :
    get_buf_entry TL DU c bsize occ size sizes = exec.ret ⟨code, occ, none, -1⟩ := by
  unfold get_buf_entry get_buf_entry_fuel
  rw [h]

/-- One iteration of the loop that adds `k` to the counter of a parent. -/
theorem occupy_parents_step (c : ab_conf_t) (size : Nat) (k : Int) (rem : Nat) (i l l1 m : Int)
    (occ occ1 : List Nat) (o : Nat) (hr : 0 < rem)
    (hl1 : ab_get_parent c i l = l1) (hm : ab_get_1d_pos c (i - 1) l1 = m)
    (h0 : 0 ≤ m) (h1 : m < (size : Int)) (ho : arr_get occ m = some o)
    (hset : arr_set occ m (size_t_add o (size_t_of_int k)) = some occ1) :
    occupy_parents c size k rem i l occ = occupy_parents c size k (rem - 1) (i - 1) l1 occ1 := by
  obtain ⟨r, rfl⟩ : ∃ r, rem = r + 1 := ⟨rem - 1, by omega⟩
  rw [occupy_parents]
  simp only [hl1, hm]
  rw [if_neg (by omega), ho]
  simp only
  rewrite [hset]
  rfl

/-- One iteration of the loop that takes `k` from the counter of a parent. -/
theorem release_parents_step (c : ab_conf_t) (size : Nat) (k : Int) (rem : Nat)
    (i j j1 m : Int) (occ occ1 : List Nat) (o : Nat) (hr : 0 < rem)
    (hj1 : ab_get_parent c i j = j1) (hm : ab_get_1d_pos c (i - 1) j1 = m)
    (h0 : 0 ≤ m) (h1 : m < (size : Int)) (ho : arr_get occ m = some o)
    (hset : arr_set occ m (size_t_sub o (size_t_of_int k)) = some occ1) :
    release_parents c size k rem i j occ = release_parents c size k (rem - 1) (i - 1) j1 occ1 := by
  obtain ⟨r, rfl⟩ : ∃ r, rem = r + 1 := ⟨rem - 1, by omega⟩
  rw [release_parents]
  simp only [hj1, hm]
  rw [if_neg (by omega), ho]
  simp only
  rewrite [hset]
  rfl

/-! ### Sequences of calls -/

theorem pool_step_get_of (TL DU : Int) (c : ab_conf_t) (sizes : List Nat) (n : Nat)
    (u : List (Nat × Nat)) (live : List Int) (bsize : Nat) (occ1 : List Nat)
    (p : Option Nat) (e : Int)
    (h : get_buf_entry TL DU c bsize (table_of n u) n sizes = exec.ret ⟨0, occ1, p, e⟩) :
    pool_step TL DU c sizes ⟨table_of n u, live⟩ (pool_op.get bsize) =
      exec.ret ⟨occ1, e :: live⟩ := by
  simp only [pool_step, table_of_length, h, if_true]

theorem pool_run_cons_of (TL DU : Int) (c : ab_conf_t) (sizes : List Nat) (op : pool_op)
    (ops : List pool_op) (st st1 : pool_t)
    (h : pool_step TL DU c sizes st op = exec.ret st1) :
    pool_run TL DU c sizes (op :: ops) st = pool_run TL DU c sizes ops st1 := by
  simp only [pool_run, h]

theorem pool_respects_cons_of (TL DU : Int) (c : ab_conf_t) (sizes : List Nat) (op : pool_op)
    (ops : List pool_op) (st st1 : pool_t) (ha : op_allowed st op)
    (h : pool_step TL DU c sizes st op = exec.ret st1)
    (hr : pool_respects TL DU c sizes ops st1) :
    pool_respects TL DU c sizes (op :: ops) st := by
  simp only [pool_respects, h]
  exact ⟨ha, hr⟩

/-! ## Pools whose entry numbers leave the range of an `int`

The configurations of this section are well formed, but their occupancy tables have
`2^31` entries or more, so that sums and products of the index functions are reduced
to 32 bits. The lemmas run `get_buf_entry` and `free_buf_entry` on them. -/

theorem table_of_nil_invariant (c : ab_conf_t) (sizes : List Nat) (n : Nat) :
    occupancy_invariant c sizes (table_of n []) := by
  have hz : ∀ lev off, occ_at c (table_of n []) lev off = 0 := by
    intro lev off
    unfold occ_at table_of
    rw [List.getD_eq_getElem?_getD]
    rcases hlt : (List.replicate n 0)[entry_index c lev off]? with _ | v
    · rfl
    · have := List.getElem?_eq_some.1 hlt
      obtain ⟨_, h2⟩ := this
      simp at h2
      simp [← h2]
  intro lev _ off _
  right
  rw [hz]
  split
  · unfold children_sum
    symm
    exact Finset.sum_eq_zero (fun r _ => hz _ _)
  · rfl

theorem get_buf_finish_of (TL DU : Int) (c : ab_conf_t) (bsize : Nat) (occ : List Nat)
    (size : Nat) (sizes : List Nat) (i l m : Int) (p : Option Nat) (s : Nat)
    (occ1 occ2 : List Nat) (st : Int)
    (hm0 : 0 ≤ m) (hm1 : m < (size : Int)) (hs : arr_get sizes i = some s)
    (hset : arr_set occ m (size_t_of_int (int_of_size_t s)) = some occ1)
    (hpar : occupy_parents c size (int_of_size_t s) i.toNat i l occ1 = some (st, occ2)) :
    get_buf_finish TL DU c bsize occ size sizes i l m p = exec.ret ⟨st, occ2, p, m⟩ := by
  unfold get_buf_finish
  rw [if_pos ⟨hm0, hm1⟩, hs]
  simp only
  rw [hset]
  simp only
  rw [hpar]

theorem free_buf_entry_of (c : ab_conf_t) (occ : List Nat) (size : Nat) (sizes : List Nat)
    (e i j : Int) (s : Nat) (occ1 : List Nat) (r : Option (Int × List Nat))
    (h2d : ab_get_2d_pos c e = (0, some (i, j)))
    (ho : arr_get occ e = some s) (hs : arr_get sizes i = some s)
    (hset : arr_set occ e 0 = some occ1)
    (hpar : release_parents c size (int_of_size_t s) i.toNat i j occ1 = r) :
    free_buf_entry c occ size sizes e = r := by
  unfold free_buf_entry
  rw [h2d]
  simp only
  rw [ho, hs]
  simp only [if_true]
  rw [hset]
  simp only
  rw [hpar]

/-! ### `top = 2^30`, `depth = 3`, `branch = 2`: a pool of `2^32` bytes -/

/-- In the pool of `2^32` bytes with `top = 2^30`, `depth = 3`, `branch = 2` (size
classes 4, 2, 1; 7516192768 entries), all entries free, a request of one byte goes
down from the first entry of level 0; at level 1 the number of entries `2^31` of the
level is reduced to `-2^31`, `ab_get_1d_pos` returns -1 and `get_buf_entry` returns
the error code 1. -/
theorem get_error_one (TL DU : Int) :
    get_buf_entry TL DU ⟨1073741824, 3, 2⟩ 1
        (table_of 7516192768 []) 7516192768 [4, 2, 1] =
      exec.ret ⟨1, table_of 7516192768 [], none, -1⟩ := by
  apply get_buf_entry_of_fail
  rw [search_descend_at ⟨1073741824, 3, 2⟩ 1 (table_of 7516192768 []) 7516192768 [4, 2, 1]
    (search_fuel ⟨1073741824, 3, 2⟩) 0 0 0 1073741824 0 0 0 0 (by decide) (by decide)
    (by decide) (by decide) (by decide) (by decide) (fun d hd => absurd hd (by omega))
    (probe_descend_of _ _ _ _ _ _ _ 0 4 0 2 (by decide) (by decide) (by decide) (by decide)
      (arr_get_table_of _ _ 0 (by decide) (by decide)) (by decide) (by decide) (by decide)
      (by decide))
    (by decide) (by decide) (by decide)]
  rw [search_fail_at ⟨1073741824, 3, 2⟩ 1 (table_of 7516192768 []) 7516192768 [4, 2, 1]
    (search_fuel ⟨1073741824, 3, 2⟩ - 1) (0 + 1) 0 0 2 0 0 0 (by decide) (by decide)
    (by decide) (by decide) (by decide) (by decide) (fun d hd => absurd hd (by omega))
    (probe_fail_of _ _ _ _ _ _ _ (Or.inl (by decide)))]

/-! ### `top = 2^20`, `depth = 3`, `branch = 4097` -/

/-- In the pool with `top = 2^20`, `depth = 3`, `branch = 4097` (size classes
16785409, 4097, 1; 17605074092032 entries), all entries free, a request of one byte
is served by the first entry of level 2. The number of entries of level 1,
`2^20 * 4097 = 2^32 + 2^20`, is reduced to `2^20`, so `ab_get_1d_pos(2,0)` returns
`2^20 + 2^20 = 2097152`, which is the plain entry number of the entry `(1, 1048576)`:
this counter is set to 1, and the counters of the entries `(1, 0)` and `(0, 0)` grow
by 1. -/
theorem get_one_wrapped_level (TL DU : Int) :
    get_buf_entry TL DU ⟨1048576, 3, 4097⟩ 1
        (table_of 17605074092032 []) 17605074092032 [16785409, 4097, 1] =
      exec.ret ⟨0, table_of 17605074092032 [(0, 1), (1048576, 1), (2097152, 1)], some 0,
        2097152⟩ := by
  have s1 : search ⟨1048576, 3, 4097⟩ 1 (table_of 17605074092032 []) 17605074092032
      [16785409, 4097, 1] (search_fuel ⟨1048576, 3, 4097⟩) 0 0 0 =
      search ⟨1048576, 3, 4097⟩ 1 (table_of 17605074092032 []) 17605074092032
        [16785409, 4097, 1] (search_fuel ⟨1048576, 3, 4097⟩ - 1) 1 0 0 :=
    search_descend_at ⟨1048576, 3, 4097⟩ 1 (table_of 17605074092032 []) 17605074092032
      [16785409, 4097, 1] (search_fuel ⟨1048576, 3, 4097⟩) 0 0 0 1048576 0 0 0 0
      (by decide) (by decide) (by decide) (by decide) (by decide) (by decide)
      (fun d hd => absurd hd (by omega))
      (probe_descend_of _ _ _ _ _ _ _ 0 16785409 0 4097 (by decide) (by decide) (by decide)
        (by decide) (arr_get_table_of _ _ 0 (by decide) (by decide)) (by decide) (by decide)
        (by decide) (by decide))
      (by decide) (by decide) (by decide)
  have s2 : search ⟨1048576, 3, 4097⟩ 1 (table_of 17605074092032 []) 17605074092032
      [16785409, 4097, 1] (search_fuel ⟨1048576, 3, 4097⟩ - 1) 1 0 0 =
      search ⟨1048576, 3, 4097⟩ 1 (table_of 17605074092032 []) 17605074092032
        [16785409, 4097, 1] (search_fuel ⟨1048576, 3, 4097⟩ - 1 - 1) 2 0 0 :=
    search_descend_at ⟨1048576, 3, 4097⟩ 1 (table_of 17605074092032 []) 17605074092032
      [16785409, 4097, 1] (search_fuel ⟨1048576, 3, 4097⟩ - 1) 1 0 0 4097 0 0 0 0
      (by decide) (by decide) (by decide) (by decide) (by decide) (by decide)
      (fun d hd => absurd hd (by omega))
      (probe_descend_of _ _ _ _ _ _ _ 1048576 4097 0 1 (by decide) (by decide) (by decide)
        (by decide) (arr_get_table_of _ _ 1048576 (by decide) (by decide)) (by decide)
        (by decide) (by decide) (by decide))
      (by decide) (by decide) (by decide)
  have s3 : search ⟨1048576, 3, 4097⟩ 1 (table_of 17605074092032 []) 17605074092032
      [16785409, 4097, 1] (search_fuel ⟨1048576, 3, 4097⟩ - 1 - 1) 2 0 0 =
      exec.ret (search_t.exit 2 0 2097152 (some 0)) :=
    search_found_at ⟨1048576, 3, 4097⟩ 1 (table_of 17605074092032 []) 17605074092032
      [16785409, 4097, 1] (search_fuel ⟨1048576, 3, 4097⟩ - 1 - 1) 2 0 0 4097 0 0 2097152 0 0
      (by decide) (by decide) (by decide) (by decide) (by decide) (by decide)
      (fun d hd => absurd hd (by omega))
      (probe_found_last _ _ _ _ _ _ _ 2097152 1 0 (by decide) (by decide) (by decide)
        (by decide) (arr_get_table_of _ _ 2097152 (by decide) (by decide)) (by decide)
        (by decide) (by decide))
  rw [get_buf_entry_of_exit TL DU _ _ _ _ _ 2 0 2097152 (some 0) (s1.trans (s2.trans s3))]
  have p1 : occupy_parents ⟨1048576, 3, 4097⟩ 17605074092032 (int_of_size_t 1)
      (2 : Int).toNat 2 0 (table_of 17605074092032 [(2097152, 1)]) =
      occupy_parents ⟨1048576, 3, 4097⟩ 17605074092032 (int_of_size_t 1) 1 1 0
        (table_of 17605074092032 [(1048576, 1), (2097152, 1)]) :=
    occupy_parents_step ⟨1048576, 3, 4097⟩ 17605074092032 (int_of_size_t 1) _ 2 0 0 1048576
      _ _ 0 (by decide) (by decide) (by decide) (by decide) (by decide)
      (arr_get_table_of _ _ 1048576 (by decide) (by decide))
      (arr_set_table_of _ _ 1048576 _ (by decide) (by decide))
  have p2 : occupy_parents ⟨1048576, 3, 4097⟩ 17605074092032 (int_of_size_t 1) 1 1 0
      (table_of 17605074092032 [(1048576, 1), (2097152, 1)]) =
      occupy_parents ⟨1048576, 3, 4097⟩ 17605074092032 (int_of_size_t 1) 0 0 0
        (table_of 17605074092032 [(0, 1), (1048576, 1), (2097152, 1)]) :=
    occupy_parents_step ⟨1048576, 3, 4097⟩ 17605074092032 (int_of_size_t 1) _ 1 0 0 0
      _ _ 0 (by decide) (by decide) (by decide) (by decide) (by decide)
      (arr_get_table_of _ _ 0 (by decide) (by decide))
      (arr_set_table_of _ _ 0 _ (by decide) (by decide))
  exact get_buf_finish_of TL DU _ _ _ _ _ 2 0 2097152 _ 1 _ _ 0 (by decide) (by decide)
    (by decide) (arr_set_table_of _ _ 2097152 _ (by decide) (by decide))
    (p1.trans (p2.trans rfl))

theorem wrapped_level_counter : occ_at ⟨1048576, 3, 4097⟩ (table_of 17605074092032 [(0, 1), (1048576, 1), (2097152, 1)]) 1 1048576 = 1 := by
  have hidx : entry_index ⟨1048576, 3, 4097⟩ 1 1048576 = 2097152 := by decide
  unfold occ_at
  rewrite [hidx, getD_table_of _ _ _ (by decide)]
  rfl

theorem wrapped_level_children : children_sum ⟨1048576, 3, 4097⟩ (table_of 17605074092032 [(0, 1), (1048576, 1), (2097152, 1)]) 1 1048576 = 0 := by
  unfold children_sum
  apply Finset.sum_eq_zero
  intro r hr
  have hr1 : r < 4097 := by
    have := Finset.mem_range.1 hr
    exact this
  have hb : level_base ⟨1048576, 3, 4097⟩ 2 = 4297064448 := by decide
  have hB : (⟨1048576, 3, 4097⟩ : ab_conf_t).buf_branch.toNat = 4097 := rfl
  unfold occ_at entry_index
  rw [hb, hB, getD_table_of _ _ _ (by omega)]
  simp only [counter_of]
  rw [if_neg (by omega), if_neg (by omega), if_neg (by omega)]

/-- After that request the table does not satisfy the occupancy invariant: the entry
`(1, 1048576)` has the counter 1, which is not the size class 4097 of its level, and
the counters of its children are all 0. -/
theorem wrapped_level_not_invariant :
    ¬ occupancy_invariant ⟨1048576, 3, 4097⟩ [16785409, 4097, 1] (table_of 17605074092032 [(0, 1), (1048576, 1), (2097152, 1)]) := by
  intro hinv
  rcases hinv 1 (by decide) 1048576 (by decide) with hw | heq
  · have := hw.1
    rw [wrapped_level_counter] at this
    exact absurd this (by decide)
  · rw [wrapped_level_counter, if_pos (by decide), wrapped_level_children] at heq
    exact absurd heq (by decide)

theorem pool_init_wrapped : pool_init ⟨1048576, 3, 4097⟩ = ⟨table_of 17605074092032 [], []⟩ := by
  have h : total_entries ⟨1048576, 3, 4097⟩ = 17605074092032 := by decide
  unfold pool_init table_of
  rw [h]

/-- The request of one byte as the first call on the pool. -/
theorem wrapped_level_run (TL DU : Int) :
    pool_run TL DU ⟨1048576, 3, 4097⟩ [16785409, 4097, 1] [pool_op.get 1] (pool_init ⟨1048576, 3, 4097⟩) =
      exec.ret ⟨(table_of 17605074092032 [(0, 1), (1048576, 1), (2097152, 1)]), [2097152]⟩ := by
  rewrite [pool_init_wrapped,
    pool_run_cons_of TL DU _ _ _ _ _ _
      (pool_step_get_of TL DU _ _ _ _ _ _ _ _ _ (get_one_wrapped_level TL DU))]
  rfl

theorem wrapped_level_respects (TL DU : Int) :
    pool_respects TL DU ⟨1048576, 3, 4097⟩ [16785409, 4097, 1] [pool_op.get 1] (pool_init ⟨1048576, 3, 4097⟩) := by
  rw [pool_init_wrapped]
  exact pool_respects_cons_of TL DU _ _ _ _ _ _ (by decide)
    (pool_step_get_of TL DU _ _ _ _ _ _ _ _ _ (get_one_wrapped_level TL DU)) trivial

/-- On the same pool, with the table that holds the counter 1 at the plain entry number
2097152 (the entry `(1, 1048576)`, whose size class is 4097) and 0 elsewhere:
`ab_get_2d_pos(2097152)` returns level 2 and the offset 0, the counter equals the size
class 1 of level 2, and `free_buf_entry(2097152)` returns 0 after it has set this
counter to 0 and taken 1 from the counters of the entries `(1, 0)` and `(0, 0)`, which
were 0. -/
theorem free_wrapped_level :
    free_buf_entry ⟨1048576, 3, 4097⟩ (table_of 17605074092032 [(2097152, 1)]) 17605074092032 [16785409, 4097, 1] 2097152 =
      some (0, table_of 17605074092032 [(0, 18446744073709551615),
        (1048576, 18446744073709551615), (2097152, 0), (2097152, 1)]) := by
  have p1 : release_parents ⟨1048576, 3, 4097⟩ 17605074092032 (int_of_size_t 1) (2 : Int).toNat 2 0
      (table_of 17605074092032 [(2097152, 0), (2097152, 1)]) =
      release_parents ⟨1048576, 3, 4097⟩ 17605074092032 (int_of_size_t 1) 1 1 0
        (table_of 17605074092032 [(1048576, 18446744073709551615), (2097152, 0), (2097152, 1)]) :=
    release_parents_step ⟨1048576, 3, 4097⟩ 17605074092032 (int_of_size_t 1) _ 2 0 0 1048576
      _ _ 0 (by decide) (by decide) (by decide) (by decide) (by decide)
      (arr_get_table_of _ _ 1048576 (by decide) (by decide))
      (arr_set_table_of _ _ 1048576 _ (by decide) (by decide))
  have p2 : release_parents ⟨1048576, 3, 4097⟩ 17605074092032 (int_of_size_t 1) 1 1 0
      (table_of 17605074092032 [(1048576, 18446744073709551615), (2097152, 0), (2097152, 1)]) =
      release_parents ⟨1048576, 3, 4097⟩ 17605074092032 (int_of_size_t 1) 0 0 0
        (table_of 17605074092032 [(0, 18446744073709551615), (1048576, 18446744073709551615),
          (2097152, 0), (2097152, 1)]) :=
    release_parents_step ⟨1048576, 3, 4097⟩ 17605074092032 (int_of_size_t 1) _ 1 0 0 0
      _ _ 0 (by decide) (by decide) (by decide) (by decide) (by decide)
      (arr_get_table_of _ _ 0 (by decide) (by decide))
      (arr_set_table_of _ _ 0 _ (by decide) (by decide))
  exact free_buf_entry_of _ _ _ _ 2097152 2 0 1 _ _ (by decide)
    (arr_get_table_of _ _ 2097152 (by decide) (by decide)) (by decide)
    (arr_set_table_of _ _ 2097152 _ (by decide) (by decide))
    (p1.trans (p2.trans rfl))

/-! ### `top = 2^30 - 1`, `depth = 2`, `branch = 2` -/

/-- In the pool of 2147483646 bytes with `top = 2^30 - 1`, `depth = 2`, `branch = 2`
(size classes 2, 1; 3221225469 entries), all entries free, a request of one byte is
served by the first entry of level 1, whose plain entry number is 1073741823. -/
theorem get_one_last_level (TL DU : Int) :
    get_buf_entry TL DU ⟨1073741823, 2, 2⟩ 1 (table_of 3221225469 []) 3221225469 [2, 1] =
      exec.ret ⟨0, table_of 3221225469 [(0, 1), (1073741823, 1)], some 0, 1073741823⟩ := by
  have s1 : search ⟨1073741823, 2, 2⟩ 1 (table_of 3221225469 []) 3221225469 [2, 1] (search_fuel ⟨1073741823, 2, 2⟩) 0 0 0 =
      search ⟨1073741823, 2, 2⟩ 1 (table_of 3221225469 []) 3221225469 [2, 1] (search_fuel ⟨1073741823, 2, 2⟩ - 1) 1 0 0 :=
    search_descend_at ⟨1073741823, 2, 2⟩ 1 (table_of 3221225469 []) 3221225469 [2, 1] (search_fuel ⟨1073741823, 2, 2⟩)
      0 0 0 1073741823 0 0 0 0 (by decide) (by decide) (by decide) (by decide) (by decide) (by decide) (fun d hd => absurd hd (by omega))
      (probe_descend_of _ _ _ _ _ _ _ 0 2 0 1 (by decide) (by decide) (by decide) (by decide)
        (arr_get_table_of _ _ 0 (by decide) (by decide)) (by decide) (by decide) (by decide) (by decide))
      (by decide) (by decide) (by decide)
  have s2 : search ⟨1073741823, 2, 2⟩ 1 (table_of 3221225469 []) 3221225469 [2, 1] (search_fuel ⟨1073741823, 2, 2⟩ - 1) 1 0 0 =
      exec.ret (search_t.exit 1 0 1073741823 (some 0)) :=
    search_found_at ⟨1073741823, 2, 2⟩ 1 (table_of 3221225469 []) 3221225469 [2, 1] (search_fuel ⟨1073741823, 2, 2⟩ - 1)
      1 0 0 2 0 0 1073741823 0 0 (by decide) (by decide) (by decide) (by decide) (by decide) (by decide) (fun d hd => absurd hd (by omega))
      (probe_found_last _ _ _ _ _ _ _ 1073741823 1 0 (by decide) (by decide) (by decide) (by decide)
        (arr_get_table_of _ _ 1073741823 (by decide) (by decide)) (by decide) (by decide) (by decide))
  rw [get_buf_entry_of_exit TL DU _ _ _ _ _ 1 0 1073741823 (some 0) (s1.trans s2)]
  have p1 : occupy_parents ⟨1073741823, 2, 2⟩ 3221225469 (int_of_size_t 1) (1 : Int).toNat 1 0
      (table_of 3221225469 [(1073741823, 1)]) =
      occupy_parents ⟨1073741823, 2, 2⟩ 3221225469 (int_of_size_t 1) 0 0 0
        (table_of 3221225469 [(0, 1), (1073741823, 1)]) :=
    occupy_parents_step ⟨1073741823, 2, 2⟩ 3221225469 (int_of_size_t 1) _ 1 0 0 0
      _ _ 0 (by decide) (by decide) (by decide) (by decide) (by decide)
      (arr_get_table_of _ _ 0 (by decide) (by decide))
      (arr_set_table_of _ _ 0 _ (by decide) (by decide))
  exact get_buf_finish_of TL DU _ _ _ _ _ 1 0 1073741823 _ 1 _ _ 0 (by decide) (by decide) (by decide)
    (arr_set_table_of _ _ 1073741823 _ (by decide) (by decide)) (p1.trans rfl)

/-- On the same pool `ab_get_2d_pos(1073741823)` runs out of levels, because the sum
`top + 2*top = 3221225469` is reduced to a negative number; so `free_buf_entry` of
the entry that `get_buf_entry` has just returned gives the status 1 and leaves the
table as it is. -/
theorem free_last_level_rejected (T : List Nat) :
    free_buf_entry ⟨1073741823, 2, 2⟩ T 3221225469 [2, 1] 1073741823 = some (1, T) := by
  have h2d : ab_get_2d_pos ⟨1073741823, 2, 2⟩ 1073741823 = (1, none) := by decide
  unfold free_buf_entry
  rewrite [h2d]
  rfl

/-! ### `top = 4`, `depth = 3`, `branch = 37838`

The pool of 5726856976 bytes with `top = 4`, `depth = 3`, `branch = 37838` has the size
classes 1431714244, 37838, 1 and 5727008332 entries. The product `113514 * 37838` in
`ab_get_1st_child(1, 113514)` is `2^32 + 175436` and is reduced to 175436, the offset of
an entry below the entry `(0, 0)`. -/

/-- The first request of 1431714244 bytes is served by the entry `(0, 0)`. -/
theorem get_top_first (TL DU : Int) :
    get_buf_entry TL DU ⟨4, 3, 37838⟩ 1431714244 (table_of 5727008332 []) 5727008332 [1431714244, 37838, 1] =
      exec.ret ⟨0, (table_of 5727008332 [(0, 1431714244)]), some 0, 0⟩ := by
  have s1 : search ⟨4, 3, 37838⟩ 1431714244 (table_of 5727008332 []) 5727008332 [1431714244, 37838, 1] (search_fuel ⟨4, 3, 37838⟩) 0 0 0 =
      exec.ret (search_t.exit 0 0 0 (some 0)) :=
    search_found_at ⟨4, 3, 37838⟩ 1431714244 (table_of 5727008332 []) 5727008332 [1431714244, 37838, 1] (search_fuel ⟨4, 3, 37838⟩)
      0 0 0 4 0 0 0 0 0 (by decide) (by decide) (by decide) (by decide) (by decide) (by decide)
      (fun d hd => absurd hd (by omega))
      (probe_found_mid _ _ _ _ _ _ _ 0 1431714244 37838 0 (by decide) (by decide) (by decide) (by decide)
        (arr_get_table_of _ _ 0 (by decide) (by decide)) (by decide) (by decide) (by decide) (by decide) (by decide))
  rw [get_buf_entry_of_exit TL DU _ _ _ _ _ 0 0 0 (some 0) s1]
  exact get_buf_finish_of TL DU _ _ _ _ _ 0 0 0 _ 1431714244 _ _ 0 (by decide) (by decide) (by decide)
    (arr_set_table_of _ _ 0 _ (by decide) (by decide)) rfl

/-- The second request of 1431714244 bytes is served by the entry `(0, 1)`. -/
theorem get_top_second (TL DU : Int) :
    get_buf_entry TL DU ⟨4, 3, 37838⟩ 1431714244 (table_of 5727008332 [(0, 1431714244)]) 5727008332 [1431714244, 37838, 1] =
      exec.ret ⟨0, (table_of 5727008332 [(1, 1431714244), (0, 1431714244)]), some 1431714244, 1⟩ := by
  have s1 : search ⟨4, 3, 37838⟩ 1431714244 (table_of 5727008332 [(0, 1431714244)]) 5727008332 [1431714244, 37838, 1] (search_fuel ⟨4, 3, 37838⟩) 0 0 0 =
      exec.ret (search_t.exit 0 0 1 (some 1431714244)) :=
    search_found_at ⟨4, 3, 37838⟩ 1431714244 (table_of 5727008332 [(0, 1431714244)]) 5727008332 [1431714244, 37838, 1] (search_fuel ⟨4, 3, 37838⟩)
      0 0 0 4 0 0 1 1431714244 1 (by decide) (by decide) (by decide) (by decide) (by decide) (by decide)
      (fun d hd => by
        interval_cases d
        · exact probe_shift_of _ _ _ _ _ _ _ 0 1431714244 1431714244 (by decide) (by decide) (by decide) (by decide)
            (arr_get_table_of _ _ 0 (by decide) (by decide)) (by decide))
      (probe_found_mid _ _ _ _ _ _ _ 1 1431714244 37838 1431714244 (by decide) (by decide) (by decide) (by decide)
        (arr_get_table_of _ _ 1 (by decide) (by decide)) (by decide) (by decide) (by decide) (by decide) (by decide))
  rw [get_buf_entry_of_exit TL DU _ _ _ _ _ 0 0 1 (some 1431714244) s1]
  exact get_buf_finish_of TL DU _ _ _ _ _ 0 0 1 _ 1431714244 _ _ 0 (by decide) (by decide) (by decide)
    (arr_set_table_of _ _ 1 _ (by decide) (by decide)) rfl

/-- The third request of 1431714244 bytes is served by the entry `(0, 2)`. -/
theorem get_top_third (TL DU : Int) :
    get_buf_entry TL DU ⟨4, 3, 37838⟩ 1431714244 (table_of 5727008332 [(1, 1431714244), (0, 1431714244)]) 5727008332 [1431714244, 37838, 1] =
      exec.ret ⟨0, (table_of 5727008332 [(2, 1431714244), (1, 1431714244), (0, 1431714244)]), some 2863428488, 2⟩ := by
  have s1 : search ⟨4, 3, 37838⟩ 1431714244 (table_of 5727008332 [(1, 1431714244), (0, 1431714244)]) 5727008332 [1431714244, 37838, 1] (search_fuel ⟨4, 3, 37838⟩) 0 0 0 =
      exec.ret (search_t.exit 0 0 2 (some 2863428488)) :=
    search_found_at ⟨4, 3, 37838⟩ 1431714244 (table_of 5727008332 [(1, 1431714244), (0, 1431714244)]) 5727008332 [1431714244, 37838, 1] (search_fuel ⟨4, 3, 37838⟩)
      0 0 0 4 0 0 2 2863428488 2 (by decide) (by decide) (by decide) (by decide) (by decide) (by decide)
      (fun d hd => by
        interval_cases d
        · exact probe_shift_of _ _ _ _ _ _ _ 0 1431714244 1431714244 (by decide) (by decide) (by decide) (by decide)
            (arr_get_table_of _ _ 0 (by decide) (by decide)) (by decide)
        · exact probe_shift_of _ _ _ _ _ _ _ 1 1431714244 1431714244 (by decide) (by decide) (by decide) (by decide)
            (arr_get_table_of _ _ 1 (by decide) (by decide)) (by decide))
      (probe_found_mid _ _ _ _ _ _ _ 2 1431714244 37838 2863428488 (by decide) (by decide) (by decide) (by decide)
        (arr_get_table_of _ _ 2 (by decide) (by decide)) (by decide) (by decide) (by decide) (by decide) (by decide))
  rw [get_buf_entry_of_exit TL DU _ _ _ _ _ 0 0 2 (some 2863428488) s1]
  exact get_buf_finish_of TL DU _ _ _ _ _ 0 0 2 _ 1431714244 _ _ 0 (by decide) (by decide) (by decide)
    (arr_set_table_of _ _ 2 _ (by decide) (by decide)) rfl

/-- After the three entries of level 0 but the last have been occupied, a request of
one byte goes down from the entry `(0, 3)` to its first child `(1, 113514)` and from
there to the offset `113514 * 37838`, which is reduced to 175436: the request is served
by the entry `(2, 175436)`, 175436 bytes into the buffer, inside the entry `(0, 0)`. -/
theorem get_below_occupied (TL DU : Int) :
    get_buf_entry TL DU ⟨4, 3, 37838⟩ 1 (table_of 5727008332 [(2, 1431714244), (1, 1431714244), (0, 1431714244)]) 5727008332 [1431714244, 37838, 1] =
      exec.ret ⟨0, (table_of 5727008332 [(0, 1431714245), (8, 1), (326792, 1), (2, 1431714244), (1, 1431714244), (0, 1431714244)]),
        some 175436, 326792⟩ := by
  have s1 : search ⟨4, 3, 37838⟩ 1 (table_of 5727008332 [(2, 1431714244), (1, 1431714244), (0, 1431714244)]) 5727008332 [1431714244, 37838, 1] (search_fuel ⟨4, 3, 37838⟩) 0 0 0 =
      search ⟨4, 3, 37838⟩ 1 (table_of 5727008332 [(2, 1431714244), (1, 1431714244), (0, 1431714244)]) 5727008332 [1431714244, 37838, 1] (search_fuel ⟨4, 3, 37838⟩ - 1) 1 113514 0 :=
    search_descend_at ⟨4, 3, 37838⟩ 1 (table_of 5727008332 [(2, 1431714244), (1, 1431714244), (0, 1431714244)]) 5727008332 [1431714244, 37838, 1] (search_fuel ⟨4, 3, 37838⟩)
      0 0 0 4 0 0 113514 3 (by decide) (by decide) (by decide) (by decide) (by decide) (by decide)
      (fun d hd => by
        interval_cases d
        · exact probe_shift_of _ _ _ _ _ _ _ 0 1431714244 1431714244 (by decide) (by decide) (by decide) (by decide)
            (arr_get_table_of _ _ 0 (by decide) (by decide)) (by decide)
        · exact probe_shift_of _ _ _ _ _ _ _ 1 1431714244 1431714244 (by decide) (by decide) (by decide) (by decide)
            (arr_get_table_of _ _ 1 (by decide) (by decide)) (by decide)
        · exact probe_shift_of _ _ _ _ _ _ _ 2 1431714244 1431714244 (by decide) (by decide) (by decide) (by decide)
            (arr_get_table_of _ _ 2 (by decide) (by decide)) (by decide))
      (probe_descend_of _ _ _ _ _ _ _ 3 1431714244 0 37838 (by decide) (by decide) (by decide) (by decide)
        (arr_get_table_of _ _ 3 (by decide) (by decide)) (by decide) (by decide) (by decide) (by decide))
      (by decide) (by decide) (by decide)
  have s2 : search ⟨4, 3, 37838⟩ 1 (table_of 5727008332 [(2, 1431714244), (1, 1431714244), (0, 1431714244)]) 5727008332 [1431714244, 37838, 1] (search_fuel ⟨4, 3, 37838⟩ - 1) 1 113514 0 =
      search ⟨4, 3, 37838⟩ 1 (table_of 5727008332 [(2, 1431714244), (1, 1431714244), (0, 1431714244)]) 5727008332 [1431714244, 37838, 1] (search_fuel ⟨4, 3, 37838⟩ - 1 - 1) 2 175436 0 :=
    search_descend_at ⟨4, 3, 37838⟩ 1 (table_of 5727008332 [(2, 1431714244), (1, 1431714244), (0, 1431714244)]) 5727008332 [1431714244, 37838, 1] (search_fuel ⟨4, 3, 37838⟩ - 1)
      1 113514 0 37838 0 113514 175436 0 (by decide) (by decide) (by decide) (by decide) (by decide) (by decide) (fun d hd => absurd hd (by omega))
      (probe_descend_of _ _ _ _ _ _ _ 113518 37838 0 1 (by decide) (by decide) (by decide) (by decide)
        (arr_get_table_of _ _ 113518 (by decide) (by decide)) (by decide) (by decide) (by decide) (by decide))
      (by decide) (by decide) (by decide)
  have s3 : search ⟨4, 3, 37838⟩ 1 (table_of 5727008332 [(2, 1431714244), (1, 1431714244), (0, 1431714244)]) 5727008332 [1431714244, 37838, 1] (search_fuel ⟨4, 3, 37838⟩ - 1 - 1) 2 175436 0 =
      exec.ret (search_t.exit 2 151352 326792 (some 175436)) :=
    search_found_at ⟨4, 3, 37838⟩ 1 (table_of 5727008332 [(2, 1431714244), (1, 1431714244), (0, 1431714244)]) 5727008332 [1431714244, 37838, 1] (search_fuel ⟨4, 3, 37838⟩ - 1 - 1)
      2 175436 0 37838 24084 151352 326792 175436 0 (by decide) (by decide) (by decide) (by decide) (by decide) (by decide) (fun d hd => absurd hd (by omega))
      (probe_found_last _ _ _ _ _ _ _ 326792 1 175436 (by decide) (by decide) (by decide) (by decide)
        (arr_get_table_of _ _ 326792 (by decide) (by decide)) (by decide) (by decide) (by decide))
  rw [get_buf_entry_of_exit TL DU _ _ _ _ _ 2 151352 326792 (some 175436)
    (s1.trans (s2.trans s3))]
  have p1 : occupy_parents ⟨4, 3, 37838⟩ 5727008332 (int_of_size_t 1) (2 : Int).toNat 2 151352
      (table_of 5727008332 ((326792, 1) :: [(2, 1431714244), (1, 1431714244), (0, 1431714244)])) =
      occupy_parents ⟨4, 3, 37838⟩ 5727008332 (int_of_size_t 1) 1 1 4
        (table_of 5727008332 ((8, 1) :: (326792, 1) :: [(2, 1431714244), (1, 1431714244), (0, 1431714244)])) :=
    occupy_parents_step ⟨4, 3, 37838⟩ 5727008332 (int_of_size_t 1) _ 2 151352 4 8
      _ _ 0 (by decide) (by decide) (by decide) (by decide) (by decide)
      (arr_get_table_of _ _ 8 (by decide) (by decide))
      (arr_set_table_of _ _ 8 _ (by decide) (by decide))
  have p2 : occupy_parents ⟨4, 3, 37838⟩ 5727008332 (int_of_size_t 1) 1 1 4
      (table_of 5727008332 ((8, 1) :: (326792, 1) :: [(2, 1431714244), (1, 1431714244), (0, 1431714244)])) =
      occupy_parents ⟨4, 3, 37838⟩ 5727008332 (int_of_size_t 1) 0 0 0
        (table_of 5727008332 [(0, 1431714245), (8, 1), (326792, 1), (2, 1431714244), (1, 1431714244), (0, 1431714244)]) :=
    occupy_parents_step ⟨4, 3, 37838⟩ 5727008332 (int_of_size_t 1) _ 1 4 0 0
      _ _ 1431714244 (by decide) (by decide) (by decide) (by decide) (by decide)
      (arr_get_table_of _ _ 0 (by decide) (by decide))
      (arr_set_table_of _ _ 0 _ (by decide) (by decide))
  exact get_buf_finish_of TL DU _ _ _ _ _ 2 151352 326792 _ 1 _ _ 0 (by decide) (by decide) (by decide)
    (arr_set_table_of _ _ 326792 _ (by decide) (by decide)) (p1.trans (p2.trans rfl))

theorem pool_init_big : pool_init ⟨4, 3, 37838⟩ = ⟨table_of 5727008332 [], []⟩ := by
  have h : total_entries ⟨4, 3, 37838⟩ = 5727008332 := by decide
  unfold pool_init table_of
  rw [h]

/-- The four requests in a row, from the pool as it is created. -/
theorem four_gets_run (TL DU : Int) :
    pool_run TL DU ⟨4, 3, 37838⟩ [1431714244, 37838, 1]
        [pool_op.get 1431714244, pool_op.get 1431714244, pool_op.get 1431714244, pool_op.get 1]
        (pool_init ⟨4, 3, 37838⟩) =
      exec.ret ⟨table_of 5727008332 [(0, 1431714245), (8, 1), (326792, 1), (2, 1431714244), (1, 1431714244), (0, 1431714244)], [326792, 2, 1, 0]⟩ := by
  rewrite [pool_init_big,
    pool_run_cons_of TL DU _ _ _ _ _ _
      (pool_step_get_of TL DU _ _ _ _ _ _ _ _ _ (get_top_first TL DU)),
    pool_run_cons_of TL DU _ _ _ _ _ _
      (pool_step_get_of TL DU _ _ _ _ _ _ _ _ _ (get_top_second TL DU)),
    pool_run_cons_of TL DU _ _ _ _ _ _
      (pool_step_get_of TL DU _ _ _ _ _ _ _ _ _ (get_top_third TL DU)),
    pool_run_cons_of TL DU _ _ _ _ _ _
      (pool_step_get_of TL DU _ _ _ _ _ _ _ _ _ (get_below_occupied TL DU))]
  rfl

theorem four_gets_respect (TL DU : Int) :
    pool_respects TL DU ⟨4, 3, 37838⟩ [1431714244, 37838, 1]
      [pool_op.get 1431714244, pool_op.get 1431714244, pool_op.get 1431714244, pool_op.get 1]
      (pool_init ⟨4, 3, 37838⟩) := by
  rw [pool_init_big]
  exact pool_respects_cons_of TL DU _ _ _ _ _ _ (by decide)
    (pool_step_get_of TL DU _ _ _ _ _ _ _ _ _ (get_top_first TL DU))
    (pool_respects_cons_of TL DU _ _ _ _ _ _ (by decide)
      (pool_step_get_of TL DU _ _ _ _ _ _ _ _ _ (get_top_second TL DU))
      (pool_respects_cons_of TL DU _ _ _ _ _ _ (by decide)
        (pool_step_get_of TL DU _ _ _ _ _ _ _ _ _ (get_top_third TL DU))
        (pool_respects_cons_of TL DU _ _ _ _ _ _ (by decide)
          (pool_step_get_of TL DU _ _ _ _ _ _ _ _ _ (get_below_occupied TL DU))
          trivial)))

/-! ### `top = 1`, `depth = 3`, `branch = 65537`: a search that does not end

With 65537 entries at level 1 the product `65536 * 65537 = 2^32 + 65536` in
`ab_get_1st_child(1, 65536)` is reduced to 65536, the offset of the last child of the
entry `(1, 0)`. From there the search goes back to the entry `(1, 0)` and on to the
entry `(1, 1)`: it passes the entries of level 1 again and again. -/

theorem segments_length (a b c x y z : Nat) (n m k : Nat) :
    (a :: (List.replicate n x ++ b :: (List.replicate m y ++ c :: List.replicate k z))).length =
      n + m + k + 3 := by
  simp only [List.length_cons, List.length_append, List.length_replicate]
  omega

theorem segments_first (a b c x y z : Nat) (n m k d : Nat) (hd : d < n) :
    (a :: (List.replicate n x ++ b :: (List.replicate m y ++ c :: List.replicate k z))).get?
      (d + 1) = some x := by
  simp only [List.get?_eq_getElem?, List.getElem?_cons_succ]
  rw [List.getElem?_append_left (by simpa using hd)]
  simp [List.getElem?_replicate, hd]

theorem segments_middle (a b c x y z : Nat) (n m k : Nat) :
    (a :: (List.replicate n x ++ b :: (List.replicate m y ++ c :: List.replicate k z))).get?
      (n + 1) = some b := by
  simp only [List.get?_eq_getElem?, List.getElem?_cons_succ]
  rw [List.getElem?_append_right (by simp)]
  simp

theorem segments_last (a b c x y z : Nat) (n m k : Nat) :
    (a :: (List.replicate n x ++ b :: (List.replicate m y ++ c :: List.replicate k z))).get?
      (n + 1 + m + 1) = some c := by
  have e : n + 1 + m + 1 = (n + (m + 1)) + 1 := by omega
  rw [e]
  simp only [List.get?_eq_getElem?, List.getElem?_cons_succ]
  rw [List.getElem?_append_right (by simp)]
  simp only [List.length_replicate, Nat.add_sub_cancel_left, List.getElem?_cons_succ]
  rw [List.getElem?_append_right (by simp)]
  simp

theorem looping_table_length : looping_table.length = 4295163907 :=
  segments_length 0 0 1 2 0 0 65536 65536 4295032832

theorem looping_table_zero : arr_get looping_table 0 = some 0 := by
  unfold arr_get looping_table
  rfl

theorem looping_table_full (off : Int) (h0 : 0 ≤ off) (h1 : off < 65536) :
    arr_get looping_table (1 + off) = some 2 := by
  obtain ⟨d, rfl⟩ := Int.eq_ofNat_of_zero_le h0
  have hd : d < 65536 := by omega
  have e : (1 : Int) + ((d : Nat) : Int) = ((d + 1 : Nat) : Int) := by push_cast; ring
  rw [e, arr_get_natCast]
  exact segments_first 0 0 1 2 0 0 65536 65536 4295032832 d hd

theorem looping_table_last : arr_get looping_table 65537 = some 0 := by
  have h := segments_middle 0 0 1 2 0 0 65536 65536 4295032832
  have e : (65537 : Int) = ((65536 + 1 : Nat) : Int) := by norm_num
  rw [e, arr_get_natCast]
  exact h

theorem looping_table_child : arr_get looping_table 131074 = some 1 := by
  have h := segments_last 0 0 1 2 0 0 65536 65536 4295032832
  have e : (131074 : Int) = ((65536 + 1 + 65536 + 1 : Nat) : Int) := by norm_num
  rw [e, arr_get_natCast]
  exact h

theorem looping_pos_level1 (off : Int) (h0 : 0 ≤ off) (h1 : off < 65537) :
    ab_get_1d_pos ⟨1, 3, 65537⟩ 1 off = 1 + off := by
  have hl : ab_get_1d_pos_loop ⟨1, 3, 65537⟩ 1 ((3 : Int) - 1).toNat 1 1 1 = (1, 65537) := by
    decide
  unfold ab_get_1d_pos
  rw [if_pos ⟨by decide, by decide, h0⟩, if_neg (by decide)]
  simp only [hl]
  rw [if_pos h1, int_wrap_eq _ (by omega) (by omega)]

theorem looping_probe_top :
    probe ⟨1, 3, 65537⟩ 1 looping_table 4295163907 [3, 2, 1] 0 (0 + (0 + 0 + ((0 : Nat) : Int))) =
      probe_t.descend :=
  probe_descend_of _ _ _ _ _ _ _ 0 3 0 2 (by decide) (by decide) (by decide) (by decide)
    looping_table_zero (by decide) (by decide) (by decide) (by decide)

theorem looping_probe_full (off : Int) (h0 : 0 ≤ off) (h1 : off < 65536) :
    probe ⟨1, 3, 65537⟩ 1 looping_table 4295163907 [3, 2, 1] 1 off = probe_t.shift :=
  probe_shift_of _ _ _ _ _ _ _ (1 + off) 2 2 (looping_pos_level1 off h0 (by omega))
    (by omega) (by push_cast; omega) (by decide) (looping_table_full off h0 h1) (by decide)

theorem looping_probe_last (off : Int) (h : off = 65536) :
    probe ⟨1, 3, 65537⟩ 1 looping_table 4295163907 [3, 2, 1] 1 off = probe_t.descend := by
  subst h
  exact probe_descend_of _ _ _ _ _ _ _ 65537 2 0 1 (by decide) (by decide) (by decide)
    (by decide) looping_table_last (by decide) (by decide) (by decide) (by decide)

theorem looping_probe_child (off : Int) (h : off = 65536) :
    probe ⟨1, 3, 65537⟩ 1 looping_table 4295163907 [3, 2, 1] 2 off = probe_t.shift := by
  subst h
  exact probe_shift_of _ _ _ _ _ _ _ 131074 1 1 (by decide) (by decide) (by decide)
    (by decide) looping_table_child (by decide)

/-- From the head of the outer loop at level 2 with `l = 65536`, the loop comes back to
this point: it passes the last child of the entry `(1, 0)`, goes up to the entry
`(1, 0)`, passes the entries `(1, 1), ..., (1, 65535)` and goes down from the entry
`(1, 65536)` to the offset 65536 of level 2. -/
theorem looping_search_level1 :
    ∀ fuel : Nat, search ⟨1, 3, 65537⟩ 1 looping_table 4295163907 [3, 2, 1] fuel 1 0 1 =
      exec.timeout := by
  intro fuel
  induction fuel using Nat.strong_induction_on with
  | _ f ih =>
    rcases Nat.eq_zero_or_pos f with h0 | hpos
    · subst h0; rfl
    · have s1 : search ⟨1, 3, 65537⟩ 1 looping_table 4295163907 [3, 2, 1] f 1 0 1 =
          search ⟨1, 3, 65537⟩ 1 looping_table 4295163907 [3, 2, 1] (f - 1) 2 65536 0 :=
        search_descend_at ⟨1, 3, 65537⟩ 1 looping_table 4295163907 [3, 2, 1] f 1 0 1 65537 0
          0 65536 65535 hpos (by decide) (by decide) (by decide) (by decide) (by decide)
          (fun d hd => looping_probe_full _ (by omega) (by omega))
          (looping_probe_last _ (by decide)) (by decide) (by decide) (by decide)
      rw [s1]
      rcases Nat.eq_zero_or_pos (f - 1) with h1 | hpos1
      · rewrite [h1]; rfl
      · have s2 : search ⟨1, 3, 65537⟩ 1 looping_table 4295163907 [3, 2, 1] (f - 1) 2 65536 0 =
            search ⟨1, 3, 65537⟩ 1 looping_table 4295163907 [3, 2, 1] (f - 1 - 1) 1 0 1 :=
          search_ascend_at ⟨1, 3, 65537⟩ 1 looping_table 4295163907 [3, 2, 1] (f - 1) 2 65536
            0 65537 65536 0 0 1 hpos1 (by decide) (by decide) (by decide) (by decide)
            (by decide) (by decide)
            (fun d hd => looping_probe_child _ (by
              obtain rfl : d = 0 := by omega
              decide))
            (by decide) (by decide) (by decide)
        rw [s2]
        exact ih (f - 1 - 1) (by omega)

/-- The search loop of `get_buf_entry` on `looping_table` runs out of every amount of
fuel. -/
theorem looping_search :
    ∀ fuel : Nat, search ⟨1, 3, 65537⟩ 1 looping_table 4295163907 [3, 2, 1] fuel 0 0 0 =
      exec.timeout := by
  intro f
  rcases Nat.eq_zero_or_pos f with h0 | hpos
  · subst h0; rfl
  · have s1 : search ⟨1, 3, 65537⟩ 1 looping_table 4295163907 [3, 2, 1] f 0 0 0 =
        search ⟨1, 3, 65537⟩ 1 looping_table 4295163907 [3, 2, 1] (f - 1) 1 0 0 :=
      search_descend_at ⟨1, 3, 65537⟩ 1 looping_table 4295163907 [3, 2, 1] f 0 0 0 1 0
        0 0 0 hpos (by decide) (by decide) (by decide) (by decide) (by decide)
        (fun d hd => absurd hd (by omega)) looping_probe_top (by decide) (by decide)
        (by decide)
    rw [s1]
    rcases Nat.eq_zero_or_pos (f - 1) with h1 | hpos1
    · rewrite [h1]; rfl
    · have s2 : search ⟨1, 3, 65537⟩ 1 looping_table 4295163907 [3, 2, 1] (f - 1) 1 0 0 =
          search ⟨1, 3, 65537⟩ 1 looping_table 4295163907 [3, 2, 1] (f - 1 - 1) 2 65536 0 :=
        search_descend_at ⟨1, 3, 65537⟩ 1 looping_table 4295163907 [3, 2, 1] (f - 1) 1 0 0
          65537 0 0 65536 65536 hpos1 (by decide) (by decide) (by decide) (by decide)
          (by decide) (fun d hd => looping_probe_full _ (by omega) (by omega))
          (looping_probe_last _ (by decide)) (by decide) (by decide) (by decide)
      rw [s2]
      rcases Nat.eq_zero_or_pos (f - 1 - 1) with h2 | hpos2
      · rewrite [h2]; rfl
      · have s3 : search ⟨1, 3, 65537⟩ 1 looping_table 4295163907 [3, 2, 1] (f - 1 - 1) 2 65536
            0 =
            search ⟨1, 3, 65537⟩ 1 looping_table 4295163907 [3, 2, 1] (f - 1 - 1 - 1) 1 0 1 :=
          search_ascend_at ⟨1, 3, 65537⟩ 1 looping_table 4295163907 [3, 2, 1] (f - 1 - 1) 2
            65536 0 65537 65536 0 0 1 hpos2 (by decide) (by decide) (by decide) (by decide)
            (by decide) (by decide)
            (fun d hd => looping_probe_child _ (by
              obtain rfl : d = 0 := by omega
              decide))
            (by decide) (by decide) (by decide)
        rw [s3]
        exact looping_search_level1 _

/-! ## What the body of the search loop decides -/

theorem level_width_le_total (c : ab_conf_t) (lev : Nat) (hl : lev < c.buf_depth.toNat) :
    level_width c lev ≤ total_entries c := by
  have := level_base_succ_le c hl
  unfold total_entries; omega

theorem size_t_sub_of_le (a b : Nat) (ha : a < 2 ^ 64) (hb : b ≤ a) :
    size_t_sub a b = a - b := by
  unfold size_t_sub SIZE_T_RANGE
  omega

theorem probe_eq (c : ab_conf_t) (pool_size : Nat) (sizes occ : List Nat) (bsize : Nat)
    (h : pool_ok c pool_size sizes) (hocc : occ.length = total_entries c)
    (lev off : Nat) (hl : lev < c.buf_depth.toNat) (ho : off < level_width c lev) :
    probe c bsize occ (total_entries c) sizes (lev : Int) (off : Int) =
      if fits c sizes occ bsize lev off then
        if lev + 1 = c.buf_depth.toNat ∧ occ_at c occ lev off = 0 then
          probe_t.found (entry_index c lev off) (entry_start c sizes lev off)
        else if lev + 1 < c.buf_depth.toNat then
          if blck_size sizes (lev + 1) < bsize ∧ occ_at c occ lev off = 0 then
            probe_t.found (entry_index c lev off) (entry_start c sizes lev off)
          else if blck_size sizes (lev + 1) ≥ bsize then probe_t.descend
          else probe_t.shift
        else probe_t.undef
      else probe_t.shift := by
  have hc := pool_ok_conf_ok c pool_size sizes h
  have hs : sizes.length = c.buf_depth.toNat := h.1.2.2.2.2.1
  have hidx := entry_index_lt_total c lev off hl ho
  unfold probe
  simp only
  rw [if_neg (ab_get_1d_pos_range c hc lev off hl ho), ab_get_1d_pos_eq c hc lev off hl ho,
    arr_get_sizes sizes lev (by omega), arr_get_occ c occ lev off (by omega)]
  simp only
  unfold fits
  by_cases hfit : bsize ≤ size_t_sub (blck_size sizes lev) (occ_at c occ lev off)
  · rw [if_pos hfit, if_pos hfit, ab_get_offset_eq c pool_size sizes h lev off hl ho]
    simp only
    by_cases hdeep : lev + 1 = c.buf_depth.toNat
    · have e1 : (lev : Int) = c.buf_depth - 1 := by omega
      by_cases hz : occ_at c occ lev off = 0
      · rw [if_pos ⟨e1, hz⟩, if_pos ⟨hdeep, hz⟩]
      · rw [if_neg (fun hh => hz hh.2), if_neg (fun hh => hz hh.2), if_neg (by omega)]
        have : arr_get sizes ((lev : Int) + 1) = none := by
          have e : (lev : Int) + 1 = ((lev + 1 : Nat) : Int) := by push_cast; rfl
          rw [e, arr_get_natCast]
          have hlen : sizes.length ≤ lev + 1 := by omega
          simpa using hlen
        rw [this]
    · have e1 : ¬ ((lev : Int) = c.buf_depth - 1) := by omega
      rw [if_neg (fun hh => e1 hh.1), if_neg (fun hh => hdeep hh.1), if_pos (by omega)]
      have e : (lev : Int) + 1 = ((lev + 1 : Nat) : Int) := by push_cast; rfl
      rw [e, arr_get_sizes sizes (lev + 1) (by omega)]
      simp only
      rw [if_pos (show (lev : Int) < c.buf_depth - 1 by omega)]
  · rw [if_neg hfit, if_neg hfit]

theorem probe_below_target (c : ab_conf_t) (pool_size : Nat) (sizes occ : List Nat)
    (bsize t : Nat) (h : pool_ok c pool_size sizes) (hocc : occ.length = total_entries c)
    (ht : target_level c sizes bsize t)
    (lev off : Nat) (hl : lev < t) (ho : off < level_width c lev) :
    probe c bsize occ (total_entries c) sizes (lev : Int) (off : Int) =
      if fits c sizes occ bsize lev off then probe_t.descend else probe_t.shift := by
  obtain ⟨ht1, ht2, _⟩ := ht
  rw [probe_eq c pool_size sizes occ bsize h hocc lev off (by omega) ho]
  have hm := wf_size_mono c pool_size sizes h (lev + 1) t (by omega) ht1
  by_cases hfit : fits c sizes occ bsize lev off
  · rw [if_pos hfit, if_pos hfit, if_neg (by omega), if_pos (by omega),
      if_neg (by omega), if_pos (by omega)]
  · rw [if_neg hfit, if_neg hfit]

theorem fits_of_free (c : ab_conf_t) (pool_size : Nat) (sizes occ : List Nat)
    (bsize t : Nat) (h : pool_ok c pool_size sizes)
    (ht : target_level c sizes bsize t) (off : Nat)
    (hz : occ_at c occ t off = 0) : fits c sizes occ bsize t off := by
  obtain ⟨ht1, ht2, _⟩ := ht
  have := wf_size_pos c pool_size sizes h t ht1
  unfold fits
  rw [hz, size_t_sub_of_le _ _ (by omega) (Nat.zero_le _)]
  exact ht2

theorem probe_at_target (c : ab_conf_t) (pool_size : Nat) (sizes occ : List Nat)
    (bsize t : Nat) (h : pool_ok c pool_size sizes) (hocc : occ.length = total_entries c)
    (ht : target_level c sizes bsize t)
    (hdeep : t + 1 = c.buf_depth.toNat → ∀ off < level_width c t,
      occ_at c occ t off ≠ 0 → ¬ fits c sizes occ bsize t off)
    (off : Nat) (ho : off < level_width c t) :
    probe c bsize occ (total_entries c) sizes (t : Int) (off : Int) =
      if occ_at c occ t off = 0 then
        probe_t.found (entry_index c t off) (entry_start c sizes t off)
      else probe_t.shift := by
  have hfree := fits_of_free c pool_size sizes occ bsize t h ht off
  obtain ⟨ht1, ht2, ht3⟩ := ht
  rw [probe_eq c pool_size sizes occ bsize h hocc t off ht1 ho]
  by_cases hz : occ_at c occ t off = 0
  · rw [if_pos (hfree hz), if_pos hz]
    by_cases hd : t + 1 = c.buf_depth.toNat
    · rw [if_pos ⟨hd, hz⟩]
    · rw [if_neg (fun hh => hd hh.1), if_pos (by omega), if_pos ⟨ht3 (by omega), hz⟩]
  · rw [if_neg hz]
    by_cases hfit : fits c sizes occ bsize t off
    · rw [if_pos hfit]
      by_cases hd : t + 1 = c.buf_depth.toNat
      · exact absurd hfit (hdeep hd off ho hz)
      · have := ht3 (by omega)
        rw [if_neg (fun hh => hd hh.1), if_pos (by omega), if_neg (fun hh => hz hh.2),
          if_neg (by omega)]
    · rw [if_neg hfit]



/-! ## What the recursive search finds -/

theorem first_child_ok (c : ab_conf_t) (hc : conf_ok c) (lev off : Nat)
    (hl : lev + 1 < c.buf_depth.toNat) (ho : off < level_width c lev) :
    ¬ (ab_get_1st_child c (lev : Int) (off : Int) < 0 ∨
      ab_get_1st_child c (lev : Int) (off : Int) ≥ ((total_entries c : Nat) : Int)) := by
  have hB : ((c.buf_branch.toNat : Nat) : Int) = c.buf_branch :=
    Int.toNat_of_nonneg (by have := hc.2.1; omega)
  have hBp : 0 < c.buf_branch.toNat := by have := hc.2.1; omega
  unfold ab_get_1st_child
  rw [if_pos ⟨by omega, by omega, by omega, by have := hc.2.1; omega⟩, ← hB]
  have h1 := child_lt_width c lev off 0 ho hBp
  have h2 := level_width_le_total c (lev + 1) hl
  have h3 : ((off : Int)) * ((c.buf_branch.toNat : Nat) : Int) =
      ((off * c.buf_branch.toNat : Nat) : Int) := by push_cast; rfl
  have h4 := hc.2.2.2
  rw [h3, int_wrap_natCast _ (by omega)]
  omega

theorem parent_of_child_ok (c : ab_conf_t) (hc : conf_ok c) (lev off : Nat)
    (hl : lev + 1 < c.buf_depth.toNat) (ho : off < level_width c lev) :
    ¬ (ab_get_parent c ((lev : Int) + 1) (((off * c.buf_branch.toNat : Nat)) : Int) < 0 ∨
      ab_get_parent c ((lev : Int) + 1) (((off * c.buf_branch.toNat : Nat)) : Int) ≥
        ((total_entries c : Nat) : Int)) := by
  have hBp : 0 < c.buf_branch.toNat := by have := hc.2.1; omega
  have e : (lev : Int) + 1 = ((lev + 1 : Nat) : Int) := by push_cast; rfl
  rw [e, ab_get_parent_natCast c hc (lev + 1) _ hl, Nat.mul_div_cancel _ hBp]
  have h2 := level_width_le_total c lev (by omega)
  omega

theorem avail_from_step (c : ab_conf_t) (sizes occ : List Nat) (bsize t lev o : Nat)
    (hl : lev < t) :
    avail_from c sizes occ bsize t lev o ↔
      (fits c sizes occ bsize lev (o / c.buf_branch.toNat ^ (t - lev)) ∧
        avail_from c sizes occ bsize t (lev + 1) o) := by
  unfold avail_from
  constructor
  · rintro ⟨h1, h2⟩
    exact ⟨h2 lev hl (le_refl _), h1, fun l hlt hle => h2 l hlt (by omega)⟩
  · rintro ⟨h1, h2, h3⟩
    refine ⟨h2, fun l hlt hle => ?_⟩
    by_cases he : l = lev
    · subst he; exact h1
    · exact h3 l hlt (by omega)

theorem dfs_group_spec (c : ab_conf_t) (pool_size : Nat) (sizes occ : List Nat)
    (bsize t : Nat) (h : pool_ok c pool_size sizes) (hocc : occ.length = total_entries c)
    (ht : target_level c sizes bsize t)
    (hdeep : t + 1 = c.buf_depth.toNat → ∀ off < level_width c t,
      occ_at c occ t off ≠ 0 → ¬ fits c sizes occ bsize t off) :
    ∀ d rem lev base j : Nat, lev ≤ t → lev + d + 1 = c.buf_depth.toNat →
      j + rem = group_size c lev → group_size c lev ∣ base →
      base + group_size c lev ≤ level_width c lev →
      (∃ o b, dfs_group c bsize occ (total_entries c) sizes
            (dfs_child c bsize occ (total_entries c) sizes d) lev base rem j =
          dfs_t.found t b ((entry_index c t o : Nat) : Int) (entry_start c sizes t o) ∧
        (base + j) * c.buf_branch.toNat ^ (t - lev) ≤ o ∧
        o < (base + j + rem) * c.buf_branch.toNat ^ (t - lev) ∧
        avail_from c sizes occ bsize t lev o ∧
        (∀ o1, (base + j) * c.buf_branch.toNat ^ (t - lev) ≤ o1 → o1 < o →
          ¬ avail_from c sizes occ bsize t lev o1) ∧
        b ≤ o ∧ o < b + group_size c t ∧ group_size c t ∣ b) ∨
      (dfs_group c bsize occ (total_entries c) sizes
            (dfs_child c bsize occ (total_entries c) sizes d) lev base rem j = dfs_t.none ∧
        ∀ o1, (base + j) * c.buf_branch.toNat ^ (t - lev) ≤ o1 →
          o1 < (base + j + rem) * c.buf_branch.toNat ^ (t - lev) →
          ¬ avail_from c sizes occ bsize t lev o1) := by
  have hc := pool_ok_conf_ok c pool_size sizes h
  have hBp : 0 < c.buf_branch.toNat := by have := hc.2.1; omega
  intro d
  induction d using Nat.strong_induction_on with
  | _ d ihd =>
  intro rem
  induction rem with
  | zero =>
    intro lev base j _ _ _ _ _
    right
    refine ⟨rfl, fun o1 h1 h2 => ?_⟩
    simp only [add_zero] at h2
    omega
  | succ r ihr =>
    intro lev base j hlt hd hj hdiv hw
    have hoff : base + j < level_width c lev := by omega
    have hnext := ihr lev base (j + 1) hlt hd (by omega) hdiv hw
    have hpowpos : 0 < c.buf_branch.toNat ^ (t - lev) := Nat.pow_pos hBp
    have hrange : ∀ o1, (base + j) * c.buf_branch.toNat ^ (t - lev) ≤ o1 →
        o1 < (base + (j + 1)) * c.buf_branch.toNat ^ (t - lev) →
        o1 / c.buf_branch.toNat ^ (t - lev) = base + j := by
      intro o1 h1 h2
      exact Nat.div_eq_of_lt_le h1 (by rw [show base + j + 1 = base + (j + 1) by omega]; exact h2)
    have hmono : (base + (j + 1)) * c.buf_branch.toNat ^ (t - lev) =
        (base + j) * c.buf_branch.toNat ^ (t - lev) + c.buf_branch.toNat ^ (t - lev) := by ring
    have hsucc : (base + j + (r + 1)) = (base + (j + 1) + r) := by omega
    -- what remains once the entry `base + j` has been passed without success
    have hskip : (∀ o1, (base + j) * c.buf_branch.toNat ^ (t - lev) ≤ o1 →
          o1 < (base + (j + 1)) * c.buf_branch.toNat ^ (t - lev) →
          ¬ avail_from c sizes occ bsize t lev o1) →
        dfs_group c bsize occ (total_entries c) sizes
            (dfs_child c bsize occ (total_entries c) sizes d) lev base (r + 1) j =
          dfs_group c bsize occ (total_entries c) sizes
            (dfs_child c bsize occ (total_entries c) sizes d) lev base r (j + 1) →
        (∃ o b, dfs_group c bsize occ (total_entries c) sizes
              (dfs_child c bsize occ (total_entries c) sizes d) lev base (r + 1) j =
            dfs_t.found t b ((entry_index c t o : Nat) : Int) (entry_start c sizes t o) ∧
          (base + j) * c.buf_branch.toNat ^ (t - lev) ≤ o ∧
          o < (base + j + (r + 1)) * c.buf_branch.toNat ^ (t - lev) ∧
          avail_from c sizes occ bsize t lev o ∧
          (∀ o1, (base + j) * c.buf_branch.toNat ^ (t - lev) ≤ o1 → o1 < o →
            ¬ avail_from c sizes occ bsize t lev o1) ∧
          b ≤ o ∧ o < b + group_size c t ∧ group_size c t ∣ b) ∨
        (dfs_group c bsize occ (total_entries c) sizes
              (dfs_child c bsize occ (total_entries c) sizes d) lev base (r + 1) j =
            dfs_t.none ∧
          ∀ o1, (base + j) * c.buf_branch.toNat ^ (t - lev) ≤ o1 →
            o1 < (base + j + (r + 1)) * c.buf_branch.toNat ^ (t - lev) →
            ¬ avail_from c sizes occ bsize t lev o1) := by
      intro hno heq
      rw [heq, hsucc]
      rcases hnext with ⟨o, b, e, h1, h2, h3, h4, h5⟩ | ⟨e, h1⟩
      · left
        refine ⟨o, b, e, by omega, h2, h3, ?_, h5⟩
        intro o1 ha hb
        by_cases hcase : o1 < (base + (j + 1)) * c.buf_branch.toNat ^ (t - lev)
        · exact hno o1 ha hcase
        · exact h4 o1 (by omega) hb
      · right
        refine ⟨e, ?_⟩
        intro o1 ha hb
        by_cases hcase : o1 < (base + (j + 1)) * c.buf_branch.toNat ^ (t - lev)
        · exact hno o1 ha hcase
        · exact h1 o1 (by omega) hb
    by_cases hlev : lev = t
    · -- the target level: an entry is accepted iff its counter is 0
      subst hlev
      have hp := probe_at_target c pool_size sizes occ bsize lev h hocc ht hdeep (base + j) hoff
      push_cast at hp
      simp only [Nat.sub_self, pow_zero, mul_one] at hrange hmono hskip ⊢
      by_cases hz : occ_at c occ lev (base + j) = 0
      · left
        refine ⟨base + j, base, ?_, le_refl _, by omega, ⟨hz, fun l h1 h2 => by omega⟩,
          fun o1 h1 h2 => by omega, by omega, by omega, hdiv⟩
        simp only [dfs_group]
        rw [hp, if_pos hz]
      · apply hskip
        · intro o1 h1 h2 hav
          have : o1 = base + j := by omega
          subst this
          exact hz hav.1
        · simp only [dfs_group]
          rw [hp, if_neg hz]
    · have hlt2 : lev < t := by omega
      have hp := probe_below_target c pool_size sizes occ bsize t h hocc ht lev (base + j)
        hlt2 hoff
      push_cast at hp
      by_cases hfit : fits c sizes occ bsize lev (base + j)
      · -- descend into the children of `base + j`
        obtain ⟨d1, rfl⟩ : ∃ d1, d = d1 + 1 := ⟨d - 1, by have := ht.1; omega⟩
        have hgs1 : group_size c (lev + 1) = c.buf_branch.toNat := by
          unfold group_size; rw [if_neg (by omega)]
        have hchild := ihd d1 (by omega) c.buf_branch.toNat (lev + 1)
          ((base + j) * c.buf_branch.toNat) 0 (by omega) (by omega) (by rw [hgs1]; omega)
          (by rw [hgs1]; exact Dvd.intro_left _ rfl)
          (by
            rw [hgs1, level_width_succ]
            calc (base + j) * c.buf_branch.toNat + c.buf_branch.toNat
                = (base + j + 1) * c.buf_branch.toNat := by ring
              _ ≤ level_width c lev * c.buf_branch.toNat := Nat.mul_le_mul_right _ hoff)
        have hpow : c.buf_branch.toNat ^ (t - lev) =
            c.buf_branch.toNat * c.buf_branch.toNat ^ (t - (lev + 1)) := by
          rw [← pow_succ', show t - (lev + 1) + 1 = t - lev by omega]
        have hlo : ((base + j) * c.buf_branch.toNat + 0) * c.buf_branch.toNat ^ (t - (lev + 1)) =
            (base + j) * c.buf_branch.toNat ^ (t - lev) := by rw [hpow]; ring
        have hhi : ((base + j) * c.buf_branch.toNat + 0 + c.buf_branch.toNat) *
            c.buf_branch.toNat ^ (t - (lev + 1)) =
            (base + (j + 1)) * c.buf_branch.toNat ^ (t - lev) := by rw [hpow]; ring
        rw [hlo, hhi] at hchild
        have hchild_def : dfs_child c bsize occ (total_entries c) sizes (d1 + 1) (lev + 1)
            ((base + j) * c.buf_branch.toNat) =
            dfs_group c bsize occ (total_entries c) sizes
              (dfs_child c bsize occ (total_entries c) sizes d1) (lev + 1)
              ((base + j) * c.buf_branch.toNat) c.buf_branch.toNat 0 := rfl
        rw [← hchild_def] at hchild
        have hc1 := first_child_ok c hc lev (base + j) (by have := ht.1; omega) hoff
        have hc2 := parent_of_child_ok c hc lev (base + j) (by have := ht.1; omega) hoff
        push_cast at hc1
        have hiff : ∀ o1, (base + j) * c.buf_branch.toNat ^ (t - lev) ≤ o1 →
            o1 < (base + (j + 1)) * c.buf_branch.toNat ^ (t - lev) →
            (avail_from c sizes occ bsize t lev o1 ↔
              avail_from c sizes occ bsize t (lev + 1) o1) := by
          intro o1 h1 h2
          rw [avail_from_step c sizes occ bsize t lev o1 hlt2, hrange o1 h1 h2]
          exact ⟨fun hh => hh.2, fun hh => ⟨hfit, hh⟩⟩
        rcases hchild with ⟨o, b, e, h1, h2, h3, h4, h5⟩ | ⟨e, h1⟩
        · left
          refine ⟨o, b, ?_, h1, ?_, (hiff o h1 h2).2 h3, ?_, h5⟩
          · simp only [dfs_group]
            rw [hp, if_pos hfit]
            simp only
            rw [if_neg hc1, e]
          · rw [hmono] at h2
            have : (base + j + (r + 1)) * c.buf_branch.toNat ^ (t - lev) =
                (base + j) * c.buf_branch.toNat ^ (t - lev) +
                  (r + 1) * c.buf_branch.toNat ^ (t - lev) := by ring
            have : c.buf_branch.toNat ^ (t - lev) ≤ (r + 1) * c.buf_branch.toNat ^ (t - lev) :=
              Nat.le_mul_of_pos_left _ (by omega)
            omega
          · intro o1 ha hb
            rw [hiff o1 ha (by omega)]
            exact h4 o1 ha hb
        · apply hskip
          · intro o1 ha hb
            rw [hiff o1 ha hb]
            exact h1 o1 ha hb
          · simp only [dfs_group]
            rw [hp, if_pos hfit]
            simp only
            rw [if_neg hc1, e]
            simp only
            rw [if_neg hc2]
      · apply hskip
        · intro o1 h1 h2 hav
          rw [avail_from_step c sizes occ bsize t lev o1 hlt2, hrange o1 h1 h2] at hav
          exact hfit hav.1
        · simp only [dfs_group]
          rw [hp, if_neg hfit]

/-! ## The updates of the occupancy table -/

theorem update_parents_length (f : Nat → Nat) (c : ab_conf_t) :
    ∀ lev off (T : List Nat), (update_parents f c lev off T).length = T.length := by
  intro lev
  induction lev with
  | zero => intro off T; rfl
  | succ n ih => intro off T; simp [update_parents, ih]

theorem update_parents_congr (f : Nat → Nat) (c : ab_conf_t) (lev o1 o2 : Nat) (T : List Nat)
    (h : 1 ≤ lev → o1 / c.buf_branch.toNat = o2 / c.buf_branch.toNat) :
    update_parents f c lev o1 T = update_parents f c lev o2 T := by
  cases lev with
  | zero => rfl
  | succ n => simp only [update_parents]; rw [h (by omega)]

theorem occ_at_update_parents (f : Nat → Nat) (c : ab_conf_t) :
    ∀ lev off (T : List Nat), T.length = total_entries c → lev < c.buf_depth.toNat →
      off < level_width c lev →
      ∀ l x, l < c.buf_depth.toNat → x < level_width c l →
      occ_at c (update_parents f c lev off T) l x =
        if l < lev ∧ x = off / c.buf_branch.toNat ^ (lev - l) then f (occ_at c T l x)
        else occ_at c T l x := by
  intro lev
  induction lev with
  | zero =>
    intro off T _ _ _ l x _ _
    simp [update_parents]
  | succ n ih =>
    intro off T hT hl ho l x hl1 hx
    simp only [update_parents]
    have hpar := parent_lt_width c n off ho
    have hidx := entry_index_lt_total c n (off / c.buf_branch.toNat) (by omega) hpar
    rw [ih (off / c.buf_branch.toNat) _ (by simp [hT]) (by omega) hpar l x hl1 hx]
    rw [occ_at_set c T n _ l x _ hpar hx (by omega)]
    have hdiv : ∀ e, off / c.buf_branch.toNat / c.buf_branch.toNat ^ e =
        off / c.buf_branch.toNat ^ (e + 1) := by
      intro e; rw [Nat.div_div_eq_div_mul, pow_succ, mul_comm]
    by_cases h1 : l < n
    · have e1 : n + 1 - l = (n - l) + 1 := by omega
      rw [e1, ← hdiv]
      by_cases h2 : x = off / c.buf_branch.toNat / c.buf_branch.toNat ^ (n - l)
      · rw [if_pos ⟨h1, h2⟩, if_neg (by omega), if_pos ⟨by omega, h2⟩]
      · rw [if_neg (fun hh => h2 hh.2), if_neg (by omega), if_neg (fun hh => h2 hh.2)]
    · rw [if_neg (fun hh => h1 hh.1)]
      by_cases h2 : l = n ∧ x = off / c.buf_branch.toNat
      · obtain ⟨rfl, rfl⟩ := h2
        rw [if_pos ⟨rfl, rfl⟩, if_pos ⟨by omega, by simp⟩]
        rfl
      · rw [if_neg h2, if_neg]
        rintro ⟨h3, h4⟩
        have : l = n := by omega
        subst this
        simp only [Nat.add_sub_cancel_left, pow_one] at h4
        exact h2 ⟨rfl, h4⟩

theorem occupy_parents_eq (c : ab_conf_t) (hc : conf_ok c) (k : Int) :
    ∀ lev off (T : List Nat), T.length = total_entries c → lev < c.buf_depth.toNat →
      off < level_width c lev →
      occupy_parents c (total_entries c) k lev (lev : Int) (off : Int) T =
        some (0, update_parents (fun v => size_t_add v (size_t_of_int k)) c lev off T) := by
  intro lev
  induction lev with
  | zero => intro off T _ _ _; rfl
  | succ n ih =>
    intro off T hT hl ho
    have hpar := parent_lt_width c n off ho
    have hidx := entry_index_lt_total c n (off / c.buf_branch.toNat) (by omega) hpar
    simp only [occupy_parents, update_parents]
    rw [ab_get_parent_natCast c hc (n + 1) off hl]
    have e : ((n + 1 : Nat) : Int) - 1 = (n : Int) := by push_cast; omega
    rw [e, if_neg (ab_get_1d_pos_range c hc n _ (by omega) hpar),
      ab_get_1d_pos_eq c hc n _ (by omega) hpar, arr_get_of_lt T _ (by omega)]
    simp only
    rw [arr_set_of_lt T _ _ (by omega)]
    simp only
    rw [ih _ _ (by simp [hT]) (by omega) hpar]

theorem release_parents_eq (c : ab_conf_t) (hc : conf_ok c) (k : Int) :
    ∀ lev off (T : List Nat), T.length = total_entries c → lev < c.buf_depth.toNat →
      off < level_width c lev →
      release_parents c (total_entries c) k lev (lev : Int) (off : Int) T =
        some (0, update_parents (fun v => size_t_sub v (size_t_of_int k)) c lev off T) := by
  intro lev
  induction lev with
  | zero => intro off T _ _ _; rfl
  | succ n ih =>
    intro off T hT hl ho
    have hpar := parent_lt_width c n off ho
    have hidx := entry_index_lt_total c n (off / c.buf_branch.toNat) (by omega) hpar
    simp only [release_parents, update_parents]
    rw [ab_get_parent_natCast c hc (n + 1) off hl]
    have e : ((n + 1 : Nat) : Int) - 1 = (n : Int) := by push_cast; omega
    rw [e, if_neg (ab_get_1d_pos_range c hc n _ (by omega) hpar),
      ab_get_1d_pos_eq c hc n _ (by omega) hpar, arr_get_of_lt T _ (by omega)]
    simp only
    rw [arr_set_of_lt T _ _ (by omega)]
    simp only
    rw [ih _ _ (by simp [hT]) (by omega) hpar]

/-- `free_buf_entry` on the entry `(lev, off)`: status 3 and the table unchanged
unless the counter equals the size class of the level; then status 0 and the
table `table_after_free`. -/
theorem free_buf_entry_eq (c : ab_conf_t) (hc : conf_ok c) (sizes T : List Nat)
    (hs : sizes.length = c.buf_depth.toNat) (hT : T.length = total_entries c)
    (lev off : Nat) (hl : lev < c.buf_depth.toNat) (ho : off < level_width c lev) :
    free_buf_entry c T (total_entries c) sizes ((entry_index c lev off : Nat) : Int) =
      if occ_at c T lev off = blck_size sizes lev then
        some (0, table_after_free c sizes T lev off)
      else some (3, T) := by
  have hidx := entry_index_lt_total c lev off hl ho
  unfold free_buf_entry
  rw [ab_get_2d_pos_eq c hc lev off hl ho]
  simp only
  rw [arr_get_occ c T lev off (by omega), arr_get_sizes sizes lev (by omega)]
  simp only
  by_cases he : occ_at c T lev off = blck_size sizes lev
  · rw [if_pos he, if_pos he, arr_set_of_lt T _ _ (by omega)]
    simp only [Int.toNat_ofNat]
    rw [release_parents_eq c hc _ lev off _ (by simp [hT]) hl ho]
    rfl
  · rw [if_neg he, if_neg he]

theorem free_buf_entry_out_of_range (c : ab_conf_t) (hc : conf_ok c) (sizes T : List Nat)
    (size : Nat) (e : Int) (h : e < 0 ∨ ((total_entries c : Nat) : Int) ≤ e) :
    free_buf_entry c T size sizes e = some (1, T) := by
  obtain ⟨h1, h2⟩ := ab_get_2d_pos_out_of_range c hc e h
  unfold free_buf_entry
  rcases hp : ab_get_2d_pos c e with ⟨st, r⟩
  rw [hp] at h1 h2
  simp only at h1 h2
  subst h2
  split
  · rename_i heq
    cases heq
  · rfl

/-- What `get_buf_entry` does once the search has found the entry `(lev, off)` in
the group with base offset `base`. -/
theorem get_buf_finish_found (TL DU : Int) (c : ab_conf_t) (hc : conf_ok c) (bsize : Nat)
    (sizes T : List Nat) (hs : sizes.length = c.buf_depth.toNat)
    (hT : T.length = total_entries c) (lev off base : Nat) (p : Option Nat)
    (hl : lev < c.buf_depth.toNat) (ho : off < level_width c lev)
    (hb1 : base ≤ off) (hb2 : off < base + group_size c lev) (hb3 : group_size c lev ∣ base) :
    get_buf_finish TL DU c bsize T (total_entries c) sizes (lev : Int) (base : Int)
        ((entry_index c lev off : Nat) : Int) p =
      exec.ret ⟨0, table_after_get c sizes T lev off, p, ((entry_index c lev off : Nat) : Int)⟩ := by
  have hidx := entry_index_lt_total c lev off hl ho
  unfold get_buf_finish
  rw [if_pos ⟨by omega, by omega⟩, arr_get_sizes sizes lev (by omega)]
  simp only
  rw [arr_set_of_lt T _ _ (by omega)]
  simp only [Int.toNat_ofNat]
  rw [occupy_parents_eq c hc _ lev base _ (by simp [hT]) hl (by omega)]
  simp only
  unfold table_after_get level_k
  rw [update_parents_congr _ c lev base off]
  intro h1
  have hg : group_size c lev = c.buf_branch.toNat := by
    unfold group_size; rw [if_neg (by omega)]
  rw [hg] at hb2 hb3
  obtain ⟨q, rfl⟩ := hb3
  have hBp : 0 < c.buf_branch.toNat := by have := hc.2.1; omega
  rw [Nat.mul_div_cancel_left _ hBp]
  symm
  apply Nat.div_eq_of_lt_le
  · rw [mul_comm]; exact hb1
  · rw [Nat.add_mul, one_mul, mul_comm]; exact hb2

theorem get_buf_finish_none (TL DU : Int) (c : ab_conf_t) (hc : conf_ok c) (bsize : Nat)
    (sizes T : List Nat) (hs : sizes.length = c.buf_depth.toNat) (size : Nat) :
    get_buf_finish TL DU c bsize T size sizes 0 0 (-1) none =
      if bsize > blck_size sizes 0 then exec.ret ⟨DU, T, none, -1⟩
      else exec.ret ⟨TL, T, none, -1⟩ := by
  unfold get_buf_finish
  rw [if_neg (by omega)]
  have := arr_get_sizes sizes 0 (by have := hc.2.2.1; omega)
  simp only [Nat.cast_zero] at this
  rw [this]

/-! ## `get_buf_entry` as a whole -/

theorem dfs_group_all_shift (c : ab_conf_t) (bsize : Nat) (occ : List Nat) (size : Nat)
    (sizes : List Nat) (child : Nat → Nat → dfs_t) (lev base : Nat) :
    ∀ rem j : Nat, (∀ j1 : Nat, j ≤ j1 → j1 < j + rem →
        probe c bsize occ size sizes (lev : Int) ((base : Int) + (j1 : Int)) = probe_t.shift) →
      dfs_group c bsize occ size sizes child lev base rem j = dfs_t.none := by
  intro rem
  induction rem with
  | zero => intro j _; rfl
  | succ r ih =>
    intro j hj
    simp only [dfs_group]
    rw [hj j (le_refl _) (by omega)]
    exact ih (j + 1) (fun j1 h1 h2 => hj j1 (by omega) (by omega))

/-- The result of `get_buf_entry` for a request that has a target level `t`: either
the leftmost entry of level `t` that the search can reach is accepted, or no entry
of level `t` can be reached and the status is `TRY_LATER`. -/
theorem get_buf_entry_spec (TL DU : Int) (c : ab_conf_t) (pool_size : Nat)
    (sizes T : List Nat) (bsize t : Nat) (h : pool_ok c pool_size sizes)
    (hT : T.length = total_entries c) (ht : target_level c sizes bsize t)
    (hdeep : t + 1 = c.buf_depth.toNat → ∀ off < level_width c t,
      occ_at c T t off ≠ 0 → ¬ fits c sizes T bsize t off) :
    (∃ o, o < level_width c t ∧ avail_from c sizes T bsize t 0 o ∧
      (∀ o1 < o, ¬ avail_from c sizes T bsize t 0 o1) ∧
      get_buf_entry TL DU c bsize T (total_entries c) sizes =
        exec.ret ⟨0, table_after_get c sizes T t o, some (entry_start c sizes t o),
          ((entry_index c t o : Nat) : Int)⟩) ∨
    ((∀ o1 < level_width c t, ¬ avail_from c sizes T bsize t 0 o1) ∧
      get_buf_entry TL DU c bsize T (total_entries c) sizes = exec.ret ⟨TL, T, none, -1⟩) := by
  have hc := pool_ok_conf_ok c pool_size sizes h
  have hs : sizes.length = c.buf_depth.toNat := h.1.2.2.2.2.1
  have hd : 1 ≤ c.buf_depth := hc.2.2.1
  have hspec := dfs_group_spec c pool_size sizes T bsize t h hT ht hdeep
    (c.buf_depth.toNat - 1) c.buf_top.toNat 0 0 0 (Nat.zero_le _) (by omega)
    (by rw [group_size_zero]; omega) (dvd_zero _)
    (by rw [group_size_zero]; unfold level_width; simp)
  simp only [zero_add, Nat.sub_zero, zero_mul] at hspec
  have hw : c.buf_top.toNat * c.buf_branch.toNat ^ t = level_width c t := rfl
  rw [hw] at hspec
  rw [get_buf_entry_eq TL DU c hc]
  unfold dfs_top
  rcases hspec with ⟨o, b, e, _, h2, h3, h4, h5, h6, h7⟩ | ⟨e, h1⟩
  · left
    refine ⟨o, h2, h3, fun o1 ho1 => h4 o1 (Nat.zero_le _) ho1, ?_⟩
    rw [e]
    simp only
    exact get_buf_finish_found TL DU c hc bsize sizes T hs hT t o b _ ht.1 h2 h5 h6 h7
  · right
    refine ⟨fun o1 ho1 => h1 o1 (Nat.zero_le _) ho1, ?_⟩
    rw [e]
    simp only
    rw [get_buf_finish_none TL DU c hc bsize sizes T hs]
    have := wf_size_mono c pool_size sizes h 0 t (Nat.zero_le _) ht.1
    rw [if_neg (by have := ht.2.1; omega)]

/-- Every request of at least one byte up to the largest size class has a target
level. -/
theorem target_level_exists (c : ab_conf_t) (pool_size : Nat) (sizes : List Nat)
    (bsize : Nat) (h : pool_ok c pool_size sizes) (hb : bsize ≤ blck_size sizes 0) :
    ∃ t, target_level c sizes bsize t := by
  have hd : 1 ≤ c.buf_depth := h.1.2.2.1
  have key : ∀ n, n < c.buf_depth.toNat → bsize ≤ blck_size sizes (c.buf_depth.toNat - 1 - n) →
      ∃ t, target_level c sizes bsize t := by
    intro n
    induction n with
    | zero =>
      intro _ h2
      exact ⟨c.buf_depth.toNat - 1, by omega, h2, fun hh => by omega⟩
    | succ m ih =>
      intro h1 h2
      by_cases h3 : bsize ≤ blck_size sizes (c.buf_depth.toNat - 1 - m)
      · exact ih (by omega) h3
      · refine ⟨c.buf_depth.toNat - 1 - (m + 1), by omega, h2, fun _ => ?_⟩
        have e : c.buf_depth.toNat - 1 - (m + 1) + 1 = c.buf_depth.toNat - 1 - m := by omega
        rw [e]; omega
  exact key (c.buf_depth.toNat - 1) (by omega) (by
    have e : c.buf_depth.toNat - 1 - (c.buf_depth.toNat - 1) = 0 := by omega
    rw [e]; exact hb)

theorem target_level_unique (c : ab_conf_t) (pool_size : Nat) (sizes : List Nat)
    (bsize t1 t2 : Nat) (h : pool_ok c pool_size sizes)
    (h1 : target_level c sizes bsize t1) (h2 : target_level c sizes bsize t2) : t1 = t2 := by
  rcases Nat.lt_trichotomy t1 t2 with hlt | heq | hgt
  · have := wf_size_mono c pool_size sizes h (t1 + 1) t2 (by omega) h2.1
    have := h1.2.2 (by have := h2.1; omega)
    have := h2.2.1
    omega
  · exact heq
  · have := wf_size_mono c pool_size sizes h (t2 + 1) t1 (by omega) h1.1
    have := h2.2.2 (by have := h1.1; omega)
    have := h1.2.1
    omega

/-! ## Requests beyond the largest size class; rejected releases -/

theorem level_k_eq (c : ab_conf_t) (pool_size : Nat) (sizes : List Nat)
    (h : pool_ok c pool_size sizes) (lev : Nat) (hl : lev < c.buf_depth.toNat) :
    level_k sizes lev = blck_size sizes lev := by
  have := wf_size_pos c pool_size sizes h lev hl
  unfold level_k int_of_size_t
  have e : (blck_size sizes lev + 2 ^ 31) % 2 ^ 32 = blck_size sizes lev + 2 ^ 31 :=
    Nat.mod_eq_of_lt (by omega)
  rw [e]
  have e2 : (((blck_size sizes lev + 2 ^ 31 : Nat)) : Int) - 2 ^ 31 =
      ((blck_size sizes lev : Nat) : Int) := by push_cast; ring
  rw [e2, size_t_of_int_of_lt _ (by omega)]

theorem scan_all_shift (c : ab_conf_t) (bsize : Nat) (occ : List Nat) (size : Nat)
    (sizes : List Nat) (i l k : Int) :
    ∀ rem : Nat, ∀ j : Int, j ≤ k → (k - j).toNat ≤ rem →
      (∀ j1 : Int, j ≤ j1 → j1 < k →
        probe c bsize occ size sizes i (l + j1) = probe_t.shift) →
      scan c bsize occ size sizes i l k rem j = scan_t.exit k (-1) none := by
  intro rem
  induction rem with
  | zero =>
    intro j hjk hrem _
    have : j = k := by omega
    subst this
    simp [scan]
  | succ r ih =>
    intro j hjk hrem hp
    simp only [scan]
    by_cases hlt : j < k
    · rw [if_pos hlt, hp j (le_refl _) hlt]
      exact ih (j + 1) (by omega) (by omega) (fun j1 h1 h2 => hp j1 (by omega) h2)
    · have : j = k := by omega
      subst this
      rw [if_neg hlt]

/-- A level-0 entry whose counter is at most the level-0 size class is passed by a
request larger than that size class; no index arithmetic is involved at level 0. -/
theorem probe_level0_shift (c : ab_conf_t) (sizes T : List Nat) (bsize : Nat)
    (hd : 1 ≤ c.buf_depth) (hs : sizes.length = c.buf_depth.toNat)
    (hs0 : blck_size sizes 0 < 2 ^ 64) (hb : blck_size sizes 0 < bsize)
    (j : Nat) (hj : j < level_width c 0) (hT : level_width c 0 ≤ T.length)
    (hle : occ_at c T 0 j ≤ blck_size sizes 0) :
    probe c bsize T T.length sizes 0 (0 + (j : Int)) = probe_t.shift := by
  have hm : ab_get_1d_pos c 0 (0 + (j : Int)) = (j : Int) := by
    unfold ab_get_1d_pos
    rw [if_pos ⟨le_refl _, by omega, by omega⟩, if_pos rfl, zero_add]
  have hocc : arr_get T (j : Int) = some (occ_at c T 0 j) := by
    have := arr_get_of_lt T j (by omega)
    rw [this]
    simp [occ_at, entry_index, level_base]
  have hsz : arr_get sizes 0 = some (blck_size sizes 0) := by
    have := arr_get_sizes sizes 0 (by omega)
    simpa using this
  unfold probe
  simp only [hm]
  rw [if_neg (by omega), hsz, hocc]
  simp only
  rw [if_neg]
  rw [size_t_sub_of_le _ _ hs0 hle]
  omega

/-- With all counters at most the size class of their level, a request larger than
the level-0 size class passes all the level-0 entries and ends with
`DEVICE_UNABLE`. Only level-0 entries are looked at, so the number of entries of
the pool does not matter. -/
theorem get_buf_entry_beyond_top (TL DU : Int) (c : ab_conf_t)
    (pool_size : Nat) (sizes T : List Nat) (bsize : Nat)
    (h : well_formed c pool_size sizes) (hT : T.length = total_entries c)
    (hle : ∀ lev < c.buf_depth.toNat, ∀ off < level_width c lev,
      occ_at c T lev off ≤ blck_size sizes lev)
    (hb : blck_size sizes 0 < bsize) :
    get_buf_entry TL DU c bsize T (total_entries c) sizes = exec.ret ⟨DU, T, none, -1⟩ := by
  have hs : sizes.length = c.buf_depth.toNat := h.2.2.2.2.1
  have hd : 1 ≤ c.buf_depth := h.2.2.1
  have htop : 1 ≤ c.buf_top := h.1
  have hs0 : blck_size sizes 0 < 2 ^ 64 := by
    have := (h.2.2.2.2.2.2.2 0 (by omega)).2
    omega
  have hw0 : level_width c 0 ≤ T.length := by
    rw [hT]
    have := level_base_succ_le c (show 0 < c.buf_depth.toNat by omega)
    unfold total_entries
    simp only [level_base] at this
    omega
  have hwt : level_width c 0 = c.buf_top.toNat := by simp [level_width]
  have hscan : scan c bsize T T.length sizes 0 0 c.buf_top (c.buf_top - 0).toNat 0 =
      scan_t.exit c.buf_top (-1) none := by
    apply scan_all_shift c bsize T T.length sizes 0 0 c.buf_top _ 0 (by omega) (le_refl _)
    intro j1 h0 h1
    obtain ⟨j, rfl⟩ : ∃ j : Nat, j1 = (j : Int) := ⟨j1.toNat, by omega⟩
    have hj : j < level_width c 0 := by rw [hwt]; omega
    exact probe_level0_shift c sizes T bsize hd hs hs0 hb j hj hw0
      (hle 0 (by omega) j hj)
  have hsz : arr_get sizes 0 = some (blck_size sizes 0) := by
    have := arr_get_sizes sizes 0 (by omega)
    simpa using this
  unfold get_buf_entry get_buf_entry_fuel search_fuel
  rw [search_succ, ← hT]
  simp only [if_pos (show (0 : Int) < c.buf_depth by omega), gt_iff_lt, lt_self_iff_false,
    if_false, Int.zero_tmod, sub_zero, add_zero]
  rw [sub_zero] at hscan
  rw [hscan]
  simp only [after_scan]
  rw [if_neg (by omega), if_neg (by omega), if_neg (by omega)]
  simp only
  rw [if_neg (by omega), hsz]
  simp only
  rw [if_pos hb]

/-- C4 (size-class exhaustion): in a well-formed pool whose counters are at most the
size class of their level, a request larger than the level-0 size class makes
`get_buf_entry` return `DEVICE_UNABLE` (which is neither `TRY_LATER` nor 0 when the
three status values are distinct), with `*entry_num = -1`, `*entry_ptr = NULL` and the
occupancy table unchanged. -/
theorem get_buf_entry_device_unable (TRY_LATER DEVICE_UNABLE : Int) (c : ab_conf_t)
    (pool_size : Nat) (sizes T : List Nat) (bsize : Nat)
    (h : well_formed c pool_size sizes) (hT : T.length = total_entries c)
    (hle : ∀ lev < c.buf_depth.toNat, ∀ off < level_width c lev,
      occ_at c T lev off ≤ blck_size sizes lev)
    (hb : blck_size sizes 0 < bsize) :
    ∃ r, get_buf_entry TRY_LATER DEVICE_UNABLE c bsize T (total_entries c) sizes = exec.ret r ∧
      r.status = DEVICE_UNABLE ∧ (DEVICE_UNABLE ≠ TRY_LATER → r.status ≠ TRY_LATER) ∧
      (DEVICE_UNABLE ≠ 0 → r.status ≠ 0) ∧
      r.entry_num = -1 ∧ r.entry_ptr = none ∧ r.ab_occ = T := by
  refine ⟨⟨DEVICE_UNABLE, T, none, -1⟩, ?_, rfl, ?_, ?_, rfl, rfl, rfl⟩
  · exact get_buf_entry_beyond_top TRY_LATER DEVICE_UNABLE c pool_size sizes T bsize h hT hle hb
  · intro hne; exact hne
  · intro hne; exact hne

/-- Instance of `get_buf_entry_device_unable`: the pool of 5,760,000 bytes with
`top=3`, `branch=2`, `depth=4`, all entries free, and a request of 2,000,000 bytes. -/
theorem get_buf_entry_device_unable_witness :
    ∃ r, get_buf_entry (-1) (-2) ⟨3, 4, 2⟩ 2000000 (List.replicate 45 0)
        (total_entries ⟨3, 4, 2⟩) [1920000, 960000, 480000, 240000] = exec.ret r ∧
      r.status = -2 ∧ ((-2 : Int) ≠ -1 → r.status ≠ -1) ∧ ((-2 : Int) ≠ 0 → r.status ≠ 0) ∧
      r.entry_num = -1 ∧ r.entry_ptr = none ∧ r.ab_occ = List.replicate 45 0 :=
  get_buf_entry_device_unable (-1) (-2) ⟨3, 4, 2⟩ 5760000 [1920000, 960000, 480000, 240000]
    (List.replicate 45 0) 2000000 (by decide) (by decide) (by decide) (by decide)

theorem occ_at_table_after_free_self (c : ab_conf_t) (sizes T : List Nat)
    (hT : T.length = total_entries c) (lev off : Nat) (hl : lev < c.buf_depth.toNat)
    (ho : off < level_width c lev) :
    occ_at c (table_after_free c sizes T lev off) lev off = 0 := by
  have hidx := entry_index_lt_total c lev off hl ho
  unfold table_after_free
  rw [occ_at_update_parents _ c lev off _ (by simp [hT]) hl ho lev off hl ho,
    if_neg (by omega), occ_at_set c T lev off lev off 0 ho ho (by omega), if_pos ⟨rfl, rfl⟩]

/-- C6, amended (whole-entry free discipline): in a well-formed pool with fewer than
`2^31` entries, `free_buf_entry` on a
valid entry whose counter differs from the size class of its level returns a
non-zero status and leaves the table unchanged; this covers a free entry (counter
0) and an entry that has just been freed; an entry number that is negative or not
below the total number of entries is rejected with the table unchanged as well. -/
theorem free_buf_entry_rejects (c : ab_conf_t) (pool_size : Nat) (sizes T : List Nat)
    (hwf : well_formed c pool_size sizes) (hint : total_entries c < 2 ^ 31)
    (hT : T.length = total_entries c) :
    (∀ lev < c.buf_depth.toNat, ∀ off < level_width c lev,
      occ_at c T lev off ≠ blck_size sizes lev →
      ∃ st, st ≠ 0 ∧
        free_buf_entry c T (total_entries c) sizes ((entry_index c lev off : Nat) : Int) =
          some (st, T)) ∧
    (∀ lev < c.buf_depth.toNat, ∀ off < level_width c lev, occ_at c T lev off = 0 →
      ∃ st, st ≠ 0 ∧
        free_buf_entry c T (total_entries c) sizes ((entry_index c lev off : Nat) : Int) =
          some (st, T)) ∧
    (∀ lev < c.buf_depth.toNat, ∀ off < level_width c lev, ∀ T1,
      free_buf_entry c T (total_entries c) sizes ((entry_index c lev off : Nat) : Int) =
        some (0, T1) →
      ∃ st, st ≠ 0 ∧
        free_buf_entry c T1 (total_entries c) sizes ((entry_index c lev off : Nat) : Int) =
          some (st, T1)) ∧
    (∀ e : Int, e < 0 ∨ ((total_entries c : Nat) : Int) ≤ e →
      ∃ st, st ≠ 0 ∧ free_buf_entry c T (total_entries c) sizes e = some (st, T)) := by
  have h : pool_ok c pool_size sizes := ⟨hwf, hint⟩
  have hc := pool_ok_conf_ok c pool_size sizes h
  have hs : sizes.length = c.buf_depth.toNat := h.1.2.2.2.2.1
  have key : ∀ T0 : List Nat, T0.length = total_entries c →
      ∀ lev < c.buf_depth.toNat, ∀ off < level_width c lev,
      occ_at c T0 lev off ≠ blck_size sizes lev →
      ∃ st, st ≠ 0 ∧
        free_buf_entry c T0 (total_entries c) sizes ((entry_index c lev off : Nat) : Int) =
          some (st, T0) := by
    intro T0 hT0 lev hl off ho hne
    refine ⟨3, by decide, ?_⟩
    rw [free_buf_entry_eq c hc sizes T0 hs hT0 lev off hl ho, if_neg hne]
  refine ⟨key T hT, ?_, ?_, ?_⟩
  · intro lev hl off ho hz
    apply key T hT lev hl off ho
    have := wf_size_pos c pool_size sizes h lev hl
    omega
  · intro lev hl off ho T1 hfree
    rw [free_buf_entry_eq c hc sizes T hs hT lev off hl ho] at hfree
    split at hfree
    · simp only [Option.some.injEq, Prod.mk.injEq, true_and] at hfree
      subst hfree
      apply key _ (by unfold table_after_free; simp [update_parents_length, hT]) lev hl off ho
      rw [occ_at_table_after_free_self c sizes T hT lev off hl ho]
      have := wf_size_pos c pool_size sizes h lev hl
      omega
    · simp at hfree
  · intro e he
    exact ⟨1, by decide, free_buf_entry_out_of_range c hc sizes T _ e he⟩

/-- Instance of `free_buf_entry_rejects`: in the empty pool of 5,760,000 bytes
(`top=3`, `branch=2`, `depth=4`) releasing entry 9 is rejected. -/
theorem free_buf_entry_rejects_witness :
    ∃ st, st ≠ 0 ∧
      free_buf_entry ⟨3, 4, 2⟩ (List.replicate 45 0) (total_entries ⟨3, 4, 2⟩)
        [1920000, 960000, 480000, 240000] ((entry_index ⟨3, 4, 2⟩ 2 0 : Nat) : Int) =
        some (st, List.replicate 45 0) :=
  (free_buf_entry_rejects ⟨3, 4, 2⟩ 5760000 [1920000, 960000, 480000, 240000]
    (List.replicate 45 0) (by decide) (by decide) (by decide)).1 2 (by decide) 0 (by decide)
    (by decide)

/-- C6 as stated fails in a well-formed pool with `2^31` entries or more. In the pool
with `top = 2^20`, `depth = 3`, `branch = 4097` (size classes 16785409, 4097, 1) the
plain entry number 2097152 belongs to the entry `(1, 1048576)` of level 1, whose size
class is 4097. With the counter 1 at this entry and 0 elsewhere, the counter differs
from the size class, but `free_buf_entry(2097152)` returns 0 and changes three counters:
`ab_get_2d_pos`, in which the number of entries of level 1 is reduced to `2^20`, takes
the entry for the first entry of level 2, whose size class is 1. -/
theorem free_buf_entry_wrapped_counterexample :
    well_formed ⟨1048576, 3, 4097⟩ 17600777027584 [16785409, 4097, 1] ∧
    total_entries ⟨1048576, 3, 4097⟩ = 17605074092032 ∧
    (table_of 17605074092032 [(2097152, 1)]).length = 17605074092032 ∧
    1048576 < level_width ⟨1048576, 3, 4097⟩ 1 ∧ entry_index ⟨1048576, 3, 4097⟩ 1 1048576 = 2097152 ∧
    occ_at ⟨1048576, 3, 4097⟩ (table_of 17605074092032 [(2097152, 1)]) 1 1048576 = 1 ∧
    blck_size [16785409, 4097, 1] 1 = 4097 ∧
    ab_get_2d_pos ⟨1048576, 3, 4097⟩ 2097152 = (0, some (2, 0)) ∧
    free_buf_entry ⟨1048576, 3, 4097⟩ (table_of 17605074092032 [(2097152, 1)]) 17605074092032 [16785409, 4097, 1] 2097152 =
      some (0, table_of 17605074092032 [(0, 18446744073709551615),
        (1048576, 18446744073709551615), (2097152, 0), (2097152, 1)]) ∧
    (table_of 17605074092032 [(0, 18446744073709551615),
        (1048576, 18446744073709551615), (2097152, 0), (2097152, 1)]).getD 2097152 0 = 0 ∧
    (table_of 17605074092032 [(0, 18446744073709551615),
        (1048576, 18446744073709551615), (2097152, 0), (2097152, 1)]).getD 0 0 =
      18446744073709551615 ∧
    (table_of 17605074092032 [(2097152, 1)]).getD 2097152 0 = 1 ∧
    (table_of 17605074092032 [(2097152, 1)]).getD 0 0 = 0 := by
  have hidx : entry_index ⟨1048576, 3, 4097⟩ 1 1048576 = 2097152 := by decide
  refine ⟨by decide, by decide, table_of_length _ _, by decide, hidx, ?_, by decide, by decide,
    free_wrapped_level, ?_, ?_, ?_, ?_⟩
  · unfold occ_at
    rewrite [hidx, getD_table_of _ _ _ (by decide)]
    rfl
  · rw [getD_table_of _ _ _ (by decide)]
    rfl
  · rw [getD_table_of _ _ _ (by decide)]
    rfl
  · rw [getD_table_of _ _ _ (by decide)]
    rfl
  · rw [getD_table_of _ _ _ (by decide)]
    rfl

/-! ## Consequences of the occupancy invariant -/

theorem desc_lt_width (c : ab_conf_t) (lev off d r : Nat) (ho : off < level_width c lev)
    (hr : r < c.buf_branch.toNat ^ d) :
    off * c.buf_branch.toNat ^ d + r < level_width c (lev + d) := by
  have e : level_width c (lev + d) = level_width c lev * c.buf_branch.toNat ^ d := by
    unfold level_width; rw [pow_add, mul_assoc]
  rw [e]
  calc off * c.buf_branch.toNat ^ d + r < off * c.buf_branch.toNat ^ d + c.buf_branch.toNat ^ d := by
        omega
    _ = (off + 1) * c.buf_branch.toNat ^ d := by ring
    _ ≤ level_width c lev * c.buf_branch.toNat ^ d := Nat.mul_le_mul_right _ ho

theorem anc_lt_width (c : ab_conf_t) (hc : conf_ok c) (lev off d : Nat) (hd : d ≤ lev)
    (ho : off < level_width c lev) :
    off / c.buf_branch.toNat ^ d < level_width c (lev - d) := by
  have hBp : 0 < c.buf_branch.toNat := by have := hc.2.1; omega
  have e : level_width c lev = level_width c (lev - d) * c.buf_branch.toNat ^ d := by
    unfold level_width
    rw [mul_assoc, ← pow_add, show lev - d + d = lev by omega]
  rw [e] at ho
  exact (Nat.div_lt_iff_lt_mul (Nat.pow_pos hBp)).2 ho

theorem children_sum_le (c : ab_conf_t) (T : List Nat) (lev off bound : Nat)
    (h : ∀ r < c.buf_branch.toNat, occ_at c T (lev + 1) (off * c.buf_branch.toNat + r) ≤ bound) :
    children_sum c T lev off ≤ c.buf_branch.toNat * bound := by
  unfold children_sum
  calc ∑ r ∈ Finset.range c.buf_branch.toNat,
        occ_at c T (lev + 1) (off * c.buf_branch.toNat + r)
      ≤ ∑ _r ∈ Finset.range c.buf_branch.toNat, bound :=
        Finset.sum_le_sum (fun r hr => h r (Finset.mem_range.1 hr))
    _ = c.buf_branch.toNat * bound := by simp

/-- Under the occupancy invariant no counter exceeds the size class of its level. -/
theorem inv_le (c : ab_conf_t) (pool_size : Nat) (sizes T : List Nat)
    (h : pool_ok c pool_size sizes) (hinv : occupancy_invariant c sizes T) :
    ∀ lev < c.buf_depth.toNat, ∀ off < level_width c lev,
      occ_at c T lev off ≤ blck_size sizes lev := by
  have hBp : 0 < c.buf_branch.toNat := by have := h.1.2.1; omega
  have key : ∀ n lev, lev + n + 1 = c.buf_depth.toNat → ∀ off < level_width c lev,
      occ_at c T lev off ≤ blck_size sizes lev := by
    intro n
    induction n with
    | zero =>
      intro lev hl off ho
      rcases hinv lev (by omega) off ho with hw | hsum
      · exact le_of_eq hw.1
      · rw [if_neg (by omega)] at hsum; omega
    | succ m ih =>
      intro lev hl off ho
      rcases hinv lev (by omega) off ho with hw | hsum
      · exact le_of_eq hw.1
      · rw [if_pos (by omega)] at hsum
        rw [hsum]
        have h1 := children_sum_le c T lev off (blck_size sizes (lev + 1))
          (fun r hr => ih (lev + 1) (by omega) _ (child_lt_width c lev off r ho hr))
        have h2 := wf_branch_mul_le c pool_size sizes h lev (by omega)
        omega
  intro lev hl off ho
  exact key (c.buf_depth.toNat - 1 - lev) lev (by omega) off ho

/-- Under the occupancy invariant all the descendants of an entry with counter 0
have counter 0. -/
theorem zero_subtree (c : ab_conf_t) (pool_size : Nat) (sizes T : List Nat)
    (h : pool_ok c pool_size sizes) (hinv : occupancy_invariant c sizes T)
    (lev off : Nat) (ho : off < level_width c lev)
    (hz : occ_at c T lev off = 0) :
    ∀ d, lev + d < c.buf_depth.toNat → ∀ r < c.buf_branch.toNat ^ d,
      occ_at c T (lev + d) (off * c.buf_branch.toNat ^ d + r) = 0 := by
  have hBp : 0 < c.buf_branch.toNat := by have := h.1.2.1; omega
  intro d
  induction d with
  | zero =>
    intro _ r hr
    simp only [pow_zero, Nat.lt_one_iff] at hr
    subst hr
    simpa using hz
  | succ n ih =>
    intro hl r hr
    have hr2 : r / c.buf_branch.toNat < c.buf_branch.toNat ^ n := by
      apply Nat.div_lt_of_lt_mul
      rw [pow_succ, mul_comm] at hr; exact hr
    have hpar := ih (by omega) (r / c.buf_branch.toNat) hr2
    have hvalid := desc_lt_width c lev off n (r / c.buf_branch.toNat) ho hr2
    have hpos := (wf_size_pos c pool_size sizes h (lev + n) (by omega)).1
    rcases hinv (lev + n) (by omega) _ hvalid with hw | hsum
    · have := hw.1; omega
    · rw [if_pos (by omega), hpar] at hsum
      unfold children_sum at hsum
      have hall := (Finset.sum_eq_zero_iff.1 hsum.symm) (r % c.buf_branch.toNat)
        (Finset.mem_range.2 (Nat.mod_lt _ hBp))
      have e : (off * c.buf_branch.toNat ^ n + r / c.buf_branch.toNat) * c.buf_branch.toNat +
          r % c.buf_branch.toNat = off * c.buf_branch.toNat ^ (n + 1) + r := by
        have := Nat.div_add_mod r c.buf_branch.toNat
        rw [pow_succ]
        calc (off * c.buf_branch.toNat ^ n + r / c.buf_branch.toNat) * c.buf_branch.toNat +
              r % c.buf_branch.toNat
            = off * (c.buf_branch.toNat ^ n * c.buf_branch.toNat) +
                (c.buf_branch.toNat * (r / c.buf_branch.toNat) + r % c.buf_branch.toNat) := by
              ring
          _ = off * (c.buf_branch.toNat ^ n * c.buf_branch.toNat) + r := by rw [this]
      rw [e] at hall
      exact hall

theorem zero_descendants_free (c : ab_conf_t) (pool_size : Nat) (sizes T : List Nat)
    (h : pool_ok c pool_size sizes) (hinv : occupancy_invariant c sizes T)
    (lev off : Nat) (ho : off < level_width c lev)
    (hz : occ_at c T lev off = 0) : descendants_free c T lev off := by
  intro d _ _ hl r hr
  exact zero_subtree c pool_size sizes T h hinv lev off ho hz d hl r hr

/-- An entry at the deepest level is free or full, so a request of at least one
byte never fits into a partly used entry there. -/
theorem inv_deep (c : ab_conf_t) (pool_size : Nat) (sizes T : List Nat) (bsize t : Nat)
    (h : pool_ok c pool_size sizes) (hinv : occupancy_invariant c sizes T)
    (hb : 1 ≤ bsize) (ht : t < c.buf_depth.toNat) :
    t + 1 = c.buf_depth.toNat → ∀ off < level_width c t,
      occ_at c T t off ≠ 0 → ¬ fits c sizes T bsize t off := by
  intro hd off ho hne hfit
  have hpos := wf_size_pos c pool_size sizes h t ht
  rcases hinv t ht off ho with hw | hsum
  · unfold fits at hfit
    rw [hw.1, size_t_sub_of_le _ _ (by omega) (le_refl _)] at hfit
    omega
  · rw [if_neg (by omega)] at hsum
    exact hne hsum

/-- A proper descendant of `(l, x)` that lies on the path from `(lev, off)` to the
top makes `(l, x)` a proper ancestor of `(lev, off)`. -/
theorem on_path_of_desc (c : ab_conf_t) (hc : conf_ok c) (lev off l x d r : Nat)
    (hr : r < c.buf_branch.toNat ^ d)
    (h : on_path c lev off (l + d) (x * c.buf_branch.toNat ^ d + r)) :
    l + d ≤ lev ∧ x = off / c.buf_branch.toNat ^ (lev - l) := by
  have hBp : 0 < c.buf_branch.toNat := by have := hc.2.1; omega
  obtain ⟨h1, h2⟩ := h
  refine ⟨h1, ?_⟩
  have e : lev - l = (lev - (l + d)) + d := by omega
  rw [e, pow_add, ← Nat.div_div_eq_div_mul, ← h2]
  symm
  apply Nat.div_eq_of_lt_le
  · omega
  · rw [Nat.add_mul, one_mul]; omega

/-! ## The occupancy invariant is preserved -/

theorem on_path_child (c : ab_conf_t) (hc : conf_ok c) (lev off l x r : Nat)
    (hr : r < c.buf_branch.toNat)
    (h : on_path c lev off (l + 1) (x * c.buf_branch.toNat + r)) :
    l < lev ∧ x = off / c.buf_branch.toNat ^ (lev - l) := by
  have := on_path_of_desc c hc lev off l x 1 r (by simpa using hr) (by simpa using h)
  exact ⟨by omega, this.2⟩

theorem children_sum_path_add (c : ab_conf_t) (hc : conf_ok c) (T T1 : List Nat)
    (lev off delta : Nat) (hpa : path_add c T T1 lev off delta) (l x : Nat)
    (hl : l + 1 < c.buf_depth.toNat) (hx : x < level_width c l) :
    children_sum c T1 l x = children_sum c T l x +
      (if l < lev ∧ x = off / c.buf_branch.toNat ^ (lev - l) then delta else 0) := by
  have hBp : 0 < c.buf_branch.toNat := by have := hc.2.1; omega
  unfold children_sum
  have hterm : ∀ r ∈ Finset.range c.buf_branch.toNat,
      occ_at c T1 (l + 1) (x * c.buf_branch.toNat + r) =
        occ_at c T (l + 1) (x * c.buf_branch.toNat + r) +
          (if on_path c lev off (l + 1) (x * c.buf_branch.toNat + r) then delta else 0) :=
    fun r hr => hpa (l + 1) hl _ (child_lt_width c l x r hx (Finset.mem_range.1 hr))
  rw [Finset.sum_congr rfl hterm, Finset.sum_add_distrib]
  congr 1
  by_cases hcond : l < lev ∧ x = off / c.buf_branch.toNat ^ (lev - l)
  · rw [if_pos hcond]
    obtain ⟨h1, h2⟩ := hcond
    have hy : off / c.buf_branch.toNat ^ (lev - (l + 1)) / c.buf_branch.toNat = x := by
      rw [Nat.div_div_eq_div_mul, ← pow_succ, show lev - (l + 1) + 1 = lev - l by omega, h2]
    have hiff : ∀ r ∈ Finset.range c.buf_branch.toNat,
        (if on_path c lev off (l + 1) (x * c.buf_branch.toNat + r) then delta else 0) =
          if r = off / c.buf_branch.toNat ^ (lev - (l + 1)) % c.buf_branch.toNat then delta
          else 0 := by
      intro r hr
      have hr' := Finset.mem_range.1 hr
      have hdm := Nat.div_add_mod (off / c.buf_branch.toNat ^ (lev - (l + 1))) c.buf_branch.toNat
      rw [hy] at hdm
      have hmod := Nat.mod_lt (off / c.buf_branch.toNat ^ (lev - (l + 1))) hBp
      by_cases hr2 : r = off / c.buf_branch.toNat ^ (lev - (l + 1)) % c.buf_branch.toNat
      · rw [if_pos hr2, if_pos]
        refine ⟨by omega, ?_⟩
        rw [hr2, mul_comm]; exact hdm
      · rw [if_neg hr2, if_neg]
        rintro ⟨_, h4⟩
        apply hr2
        rw [mul_comm] at h4
        omega
    rw [Finset.sum_congr rfl hiff, Finset.sum_ite_eq', if_pos]
    exact Finset.mem_range.2 (Nat.mod_lt _ hBp)
  · rw [if_neg hcond]
    apply Finset.sum_eq_zero
    intro r hr
    rw [if_neg]
    intro hon
    exact hcond (on_path_child c hc lev off l x r (Finset.mem_range.1 hr) hon)

/-- An entry off the path keeps its counter and, when it is occupied as a whole,
stays occupied as a whole, whichever of the two tables is the one with the
larger counters. -/
theorem whole_occupied_off_path (c : ab_conf_t) (hc : conf_ok c) (sizes T T1 : List Nat)
    (lev off l x : Nat)
    (hsame : ∀ l1 < c.buf_depth.toNat, ∀ x1 < level_width c l1,
      ¬ on_path c lev off l1 x1 → occ_at c T1 l1 x1 = occ_at c T l1 x1)
    (hx : x < level_width c l) (hl : l < c.buf_depth.toNat)
    (hoff : ¬ on_path c lev off l x)
    (hw : whole_occupied c sizes T l x) : whole_occupied c sizes T1 l x := by
  obtain ⟨h1, h2⟩ := hw
  refine ⟨by rw [hsame l hl x hx hoff]; exact h1, ?_⟩
  intro d hd hd1 hld r hr
  rw [hsame (l + d) hld _ (desc_lt_width c l x d r hx hr)]
  · exact h2 d hd hd1 hld r hr
  · intro hon
    have := on_path_of_desc c hc lev off l x d r hr hon
    exact hoff ⟨by omega, this.2⟩

theorem path_add_same (c : ab_conf_t) (T T1 : List Nat) (lev off delta : Nat)
    (hpa : path_add c T T1 lev off delta) :
    ∀ l1 < c.buf_depth.toNat, ∀ x1 < level_width c l1,
      ¬ on_path c lev off l1 x1 → occ_at c T1 l1 x1 = occ_at c T l1 x1 := by
  intro l1 hl1 x1 hx1 hoff
  rw [hpa l1 hl1 x1 hx1, if_neg hoff, add_zero]

/-- Accepting a free entry whose ancestors are not full preserves the occupancy
invariant and makes the entry occupied as a whole. -/
theorem inv_after_get (c : ab_conf_t) (pool_size : Nat) (sizes T T1 : List Nat)
    (h : pool_ok c pool_size sizes) (hinv : occupancy_invariant c sizes T)
    (t o : Nat) (ht : t < c.buf_depth.toNat) (ho : o < level_width c t)
    (hz : occ_at c T t o = 0)
    (hanc : ∀ l < t, occ_at c T l (o / c.buf_branch.toNat ^ (t - l)) < blck_size sizes l)
    (hpa : path_add c T T1 t o (blck_size sizes t)) :
    occupancy_invariant c sizes T1 ∧ whole_occupied c sizes T1 t o := by
  have hc := pool_ok_conf_ok c pool_size sizes h
  have hsame := path_add_same c T T1 t o _ hpa
  have hwhole : whole_occupied c sizes T1 t o := by
    constructor
    · rw [hpa t ht o ho, if_pos ⟨le_refl _, by simp⟩, hz, zero_add]
    · intro d _ hd1 hld r hr
      rw [hsame (t + d) hld _ (desc_lt_width c t o d r ho hr) (fun hon => by
        have := hon.1; omega)]
      exact zero_subtree c pool_size sizes T h hinv t o ho hz d hld r hr
  refine ⟨?_, hwhole⟩
  intro l hl x hx
  by_cases hon : on_path c t o l x
  · obtain ⟨h1, h2⟩ := hon
    by_cases hlt : l = t
    · subst hlt
      simp only [Nat.sub_self, pow_zero, Nat.div_one] at h2
      subst h2
      exact Or.inl hwhole
    · right
      have hlt2 : l < t := by omega
      rw [if_pos (by omega), children_sum_path_add c hc T T1 t o _ hpa l x (by omega) hx,
        if_pos ⟨hlt2, h2⟩, hpa l hl x hx, if_pos ⟨h1, h2⟩]
      rcases hinv l hl x hx with hw | hsum
      · have := hanc l hlt2
        rw [← h2, hw.1] at this
        omega
      · rw [if_pos (by omega)] at hsum
        rw [hsum]
  · rcases hinv l hl x hx with hw | hsum
    · exact Or.inl (whole_occupied_off_path c hc sizes T T1 t o l x hsame hx hl hon hw)
    · right
      rw [hsame l hl x hx hon, hsum]
      by_cases hd : l + 1 < c.buf_depth.toNat
      · rw [if_pos hd, if_pos hd, children_sum_path_add c hc T T1 t o _ hpa l x hd hx,
          if_neg (fun hh => hon ⟨by omega, hh.2⟩), add_zero]
      · rw [if_neg hd, if_neg hd]

/-- The counter of every ancestor of a non-empty entry is at least the counter of
the entry. -/
theorem anc_ge (c : ab_conf_t) (pool_size : Nat) (sizes T : List Nat)
    (h : pool_ok c pool_size sizes) (hinv : occupancy_invariant c sizes T)
    (t o : Nat) (ht : t < c.buf_depth.toNat) (ho : o < level_width c t)
    (hpos : 0 < occ_at c T t o) :
    ∀ e ≤ t, occ_at c T t o ≤ occ_at c T (t - e) (o / c.buf_branch.toNat ^ e) ∧
      (1 ≤ e → ¬ whole_occupied c sizes T (t - e) (o / c.buf_branch.toNat ^ e)) := by
  have hc := pool_ok_conf_ok c pool_size sizes h
  have hBp : 0 < c.buf_branch.toNat := by have := hc.2.1; omega
  intro e
  induction e with
  | zero => intro _; simp
  | succ n ih =>
    intro hn
    obtain ⟨ih1, _⟩ := ih (by omega)
    have hvalid := anc_lt_width c hc t o (n + 1) hn ho
    have hnot : ¬ whole_occupied c sizes T (t - (n + 1)) (o / c.buf_branch.toNat ^ (n + 1)) := by
      intro hw
      have := hw.2 (n + 1) (by omega) (by omega) (by omega)
        (o % c.buf_branch.toNat ^ (n + 1)) (Nat.mod_lt _ (Nat.pow_pos hBp))
      have e1 : t - (n + 1) + (n + 1) = t := by omega
      have e2 : o / c.buf_branch.toNat ^ (n + 1) * c.buf_branch.toNat ^ (n + 1) +
          o % c.buf_branch.toNat ^ (n + 1) = o := by
        rw [mul_comm]; exact Nat.div_add_mod _ _
      rw [e1, e2] at this
      omega
    refine ⟨?_, fun _ => hnot⟩
    rcases hinv (t - (n + 1)) (by omega) _ hvalid with hw | hsum
    · exact absurd hw hnot
    · rw [if_pos (by omega)] at hsum
      rw [hsum]
      refine le_trans ih1 ?_
      unfold children_sum
      have hmem : o / c.buf_branch.toNat ^ n % c.buf_branch.toNat ∈
          Finset.range c.buf_branch.toNat := Finset.mem_range.2 (Nat.mod_lt _ hBp)
      have hle := Finset.single_le_sum
        (f := fun r => occ_at c T (t - (n + 1) + 1)
          (o / c.buf_branch.toNat ^ (n + 1) * c.buf_branch.toNat + r))
        (fun _ _ => Nat.zero_le _) hmem
      simp only at hle
      have e1 : t - (n + 1) + 1 = t - n := by omega
      have e2 : o / c.buf_branch.toNat ^ (n + 1) * c.buf_branch.toNat +
          o / c.buf_branch.toNat ^ n % c.buf_branch.toNat = o / c.buf_branch.toNat ^ n := by
        rw [pow_succ, ← Nat.div_div_eq_div_mul, mul_comm]
        exact Nat.div_add_mod _ _
      rw [e1, e2] at hle
      rw [e1]
      exact hle

/-- Releasing an entry that is occupied as a whole preserves the occupancy
invariant. -/
theorem inv_after_free (c : ab_conf_t) (pool_size : Nat) (sizes T T1 : List Nat)
    (h : pool_ok c pool_size sizes) (hinv : occupancy_invariant c sizes T)
    (t o : Nat) (ht : t < c.buf_depth.toNat) (ho : o < level_width c t)
    (hw : whole_occupied c sizes T t o)
    (hpa : path_add c T1 T t o (blck_size sizes t)) :
    occupancy_invariant c sizes T1 := by
  have hc := pool_ok_conf_ok c pool_size sizes h
  have hpos := (wf_size_pos c pool_size sizes h t ht).1
  have hsame : ∀ l1 < c.buf_depth.toNat, ∀ x1 < level_width c l1,
      ¬ on_path c t o l1 x1 → occ_at c T1 l1 x1 = occ_at c T l1 x1 :=
    fun l1 hl1 x1 hx1 hoff => (path_add_same c T1 T t o _ hpa l1 hl1 x1 hx1 hoff).symm
  have hanc := anc_ge c pool_size sizes T h hinv t o ht ho (by rw [hw.1]; omega)
  intro l hl x hx
  by_cases hon : on_path c t o l x
  · right
    obtain ⟨h1, h2⟩ := hon
    have hval := hpa l hl x hx
    rw [if_pos ⟨h1, h2⟩] at hval
    by_cases hlt : l = t
    · subst hlt
      simp only [Nat.sub_self, pow_zero, Nat.div_one] at h2
      subst h2
      rw [hw.1] at hval
      have hz : occ_at c T1 l x = 0 := by omega
      rw [hz]
      by_cases hd : l + 1 < c.buf_depth.toNat
      · rw [if_pos hd]
        have hcs := children_sum_path_add c hc T1 T l x _ hpa l x hd hx
        rw [if_neg (by omega), add_zero] at hcs
        rw [← hcs]
        unfold children_sum
        symm
        apply Finset.sum_eq_zero
        intro r hr
        have := hw.2 1 (by omega) (le_refl _) hd r (by simpa using Finset.mem_range.1 hr)
        simpa using this
      · rw [if_neg hd]
    · have hlt2 : l < t := by omega
      rw [if_pos (by omega)]
      have hcs := children_sum_path_add c hc T1 T t o _ hpa l x (by omega) hx
      rw [if_pos ⟨hlt2, h2⟩] at hcs
      have hnw := (hanc (t - l) (by omega)).2 (by omega)
      rw [show t - (t - l) = l by omega, ← h2] at hnw
      rcases hinv l hl x hx with hw2 | hsum
      · exact absurd hw2 hnw
      · rw [if_pos (by omega)] at hsum
        omega
  · rcases hinv l hl x hx with hw2 | hsum
    · exact Or.inl (whole_occupied_off_path c hc sizes T T1 t o l x hsame hx hl hon hw2)
    · right
      rw [hsame l hl x hx hon, hsum]
      by_cases hd : l + 1 < c.buf_depth.toNat
      · rw [if_pos hd, if_pos hd]
        have hcs := children_sum_path_add c hc T1 T t o _ hpa l x hd hx
        rw [if_neg (fun hh => hon ⟨by omega, hh.2⟩), add_zero] at hcs
        exact hcs
      · rw [if_neg hd, if_neg hd]

/-! ## The tables after `get_buf_entry` and `free_buf_entry` -/

theorem table_after_get_length (c : ab_conf_t) (sizes T : List Nat) (t o : Nat) :
    (table_after_get c sizes T t o).length = T.length := by
  unfold table_after_get; simp [update_parents_length]

theorem table_after_free_length (c : ab_conf_t) (sizes T : List Nat) (t o : Nat) :
    (table_after_free c sizes T t o).length = T.length := by
  unfold table_after_free; simp [update_parents_length]

theorem size_t_add_of_lt (a b : Nat) (h : a + b < 2 ^ 64) : size_t_add a b = a + b := by
  unfold size_t_add SIZE_T_RANGE; exact Nat.mod_eq_of_lt h

theorem occ_at_table_after_get (c : ab_conf_t) (sizes T : List Nat)
    (hT : T.length = total_entries c) (t o : Nat) (ht : t < c.buf_depth.toNat)
    (ho : o < level_width c t) (l x : Nat) (hl : l < c.buf_depth.toNat)
    (hx : x < level_width c l) :
    occ_at c (table_after_get c sizes T t o) l x =
      if l < t ∧ x = o / c.buf_branch.toNat ^ (t - l) then
        size_t_add (occ_at c T l x) (level_k sizes t)
      else if l = t ∧ x = o then level_k sizes t else occ_at c T l x := by
  have hidx := entry_index_lt_total c t o ht ho
  unfold table_after_get
  rw [occ_at_update_parents _ c t o _ (by simp [hT]) ht ho l x hl hx,
    occ_at_set c T t o l x _ ho hx (by omega)]
  by_cases h1 : l < t ∧ x = o / c.buf_branch.toNat ^ (t - l)
  · rw [if_pos h1, if_pos h1, if_neg (by omega)]
  · rw [if_neg h1, if_neg h1]

theorem occ_at_table_after_free (c : ab_conf_t) (sizes T : List Nat)
    (hT : T.length = total_entries c) (t o : Nat) (ht : t < c.buf_depth.toNat)
    (ho : o < level_width c t) (l x : Nat) (hl : l < c.buf_depth.toNat)
    (hx : x < level_width c l) :
    occ_at c (table_after_free c sizes T t o) l x =
      if l < t ∧ x = o / c.buf_branch.toNat ^ (t - l) then
        size_t_sub (occ_at c T l x) (level_k sizes t)
      else if l = t ∧ x = o then 0 else occ_at c T l x := by
  have hidx := entry_index_lt_total c t o ht ho
  unfold table_after_free
  rw [occ_at_update_parents _ c t o _ (by simp [hT]) ht ho l x hl hx,
    occ_at_set c T t o l x _ ho hx (by omega)]
  by_cases h1 : l < t ∧ x = o / c.buf_branch.toNat ^ (t - l)
  · rw [if_pos h1, if_pos h1, if_neg (by omega)]
  · rw [if_neg h1, if_neg h1]

theorem on_path_cases (c : ab_conf_t) (t o l x : Nat) :
    on_path c t o l x ↔ (l < t ∧ x = o / c.buf_branch.toNat ^ (t - l)) ∨ (l = t ∧ x = o) := by
  unfold on_path
  constructor
  · rintro ⟨h1, h2⟩
    by_cases h : l = t
    · subst h; right; simpa using h2
    · left; exact ⟨by omega, h2⟩
  · rintro (⟨h1, h2⟩ | ⟨h1, h2⟩)
    · exact ⟨by omega, h2⟩
    · subst h1; subst h2; exact ⟨le_refl _, by simp⟩

/-- The table after `get_buf_entry` has accepted the free entry `(t, o)`: the size
class of level `t` has been added along the path from `(t, o)` to the top. -/
theorem table_after_get_path_add (c : ab_conf_t) (pool_size : Nat) (sizes T : List Nat)
    (h : pool_ok c pool_size sizes) (hT : T.length = total_entries c)
    (hle : ∀ lev < c.buf_depth.toNat, ∀ off < level_width c lev,
      occ_at c T lev off ≤ blck_size sizes lev)
    (t o : Nat) (ht : t < c.buf_depth.toNat) (ho : o < level_width c t)
    (hz : occ_at c T t o = 0) :
    path_add c T (table_after_get c sizes T t o) t o (blck_size sizes t) := by
  intro l hl x hx
  rw [occ_at_table_after_get c sizes T hT t o ht ho l x hl hx,
    level_k_eq c pool_size sizes h t ht]
  have hb1 := wf_size_pos c pool_size sizes h t ht
  have hb2 := wf_size_pos c pool_size sizes h l hl
  have hb3 := hle l hl x hx
  by_cases h1 : l < t ∧ x = o / c.buf_branch.toNat ^ (t - l)
  · rw [if_pos h1, if_pos ((on_path_cases c t o l x).2 (Or.inl h1)),
      size_t_add_of_lt _ _ (by omega)]
  · rw [if_neg h1]
    by_cases h2 : l = t ∧ x = o
    · rw [if_pos h2, if_pos ((on_path_cases c t o l x).2 (Or.inr h2))]
      obtain ⟨rfl, rfl⟩ := h2
      rw [hz, zero_add]
    · rw [if_neg h2, if_neg, add_zero]
      intro hon
      rcases (on_path_cases c t o l x).1 hon with h3 | h3
      · exact h1 h3
      · exact h2 h3

/-- The table after `free_buf_entry` has released the entry `(t, o)`, which was
occupied as a whole: the size class of level `t` has been taken away along the path
from `(t, o)` to the top. -/
theorem table_after_free_path_add (c : ab_conf_t) (pool_size : Nat) (sizes T : List Nat)
    (h : pool_ok c pool_size sizes) (hT : T.length = total_entries c)
    (hinv : occupancy_invariant c sizes T)
    (t o : Nat) (ht : t < c.buf_depth.toNat) (ho : o < level_width c t)
    (hw : whole_occupied c sizes T t o) :
    path_add c (table_after_free c sizes T t o) T t o (blck_size sizes t) := by
  have hle := inv_le c pool_size sizes T h hinv
  have hpos := wf_size_pos c pool_size sizes h t ht
  have hanc := anc_ge c pool_size sizes T h hinv t o ht ho (by rw [hw.1]; omega)
  intro l hl x hx
  rw [occ_at_table_after_free c sizes T hT t o ht ho l x hl hx,
    level_k_eq c pool_size sizes h t ht]
  have hb2 := wf_size_pos c pool_size sizes h l hl
  have hb3 := hle l hl x hx
  by_cases h1 : l < t ∧ x = o / c.buf_branch.toNat ^ (t - l)
  · rw [if_pos h1, if_pos ((on_path_cases c t o l x).2 (Or.inl h1))]
    have := (hanc (t - l) (by omega)).1
    rw [show t - (t - l) = l by omega, ← h1.2, hw.1] at this
    rw [size_t_sub_of_le _ _ (by omega) this]
    omega
  · rw [if_neg h1]
    by_cases h2 : l = t ∧ x = o
    · rw [if_pos h2, if_pos ((on_path_cases c t o l x).2 (Or.inr h2))]
      obtain ⟨rfl, rfl⟩ := h2
      rw [hw.1, zero_add]
    · rw [if_neg h2, if_neg, add_zero]
      intro hon
      rcases (on_path_cases c t o l x).1 hon with h3 | h3
      · exact h1 h3
      · exact h2 h3

/-- The ancestors of an entry that the search can reach are not full. -/
theorem avail_anc_lt (c : ab_conf_t) (pool_size : Nat) (sizes T : List Nat) (bsize t o : Nat)
    (h : pool_ok c pool_size sizes)
    (hle : ∀ lev < c.buf_depth.toNat, ∀ off < level_width c lev,
      occ_at c T lev off ≤ blck_size sizes lev)
    (hb : 1 ≤ bsize) (ht : t < c.buf_depth.toNat) (ho : o < level_width c t)
    (hav : avail_from c sizes T bsize t 0 o) :
    ∀ l < t, occ_at c T l (o / c.buf_branch.toNat ^ (t - l)) < blck_size sizes l := by
  have hc := pool_ok_conf_ok c pool_size sizes h
  intro l hl
  have hfit := hav.2 l hl (Nat.zero_le _)
  have hval := anc_lt_width c hc t o (t - l) (by omega) ho
  rw [show t - (t - l) = l by omega] at hval
  have h1 := hle l (by omega) _ hval
  have h2 := wf_size_pos c pool_size sizes h l (by omega)
  unfold fits at hfit
  rw [size_t_sub_of_le _ _ (by omega) h1] at hfit
  omega

/-! ## Sequences of calls keep the pool invariant -/

theorem pool_init_inv (c : ab_conf_t) (sizes : List Nat) : pool_inv c sizes (pool_init c) := by
  have hz : ∀ lev off, occ_at c (List.replicate (total_entries c) 0) lev off = 0 := by
    intro lev off
    unfold occ_at
    rw [List.getD_eq_getElem?_getD]
    rcases hlt : (List.replicate (total_entries c) 0)[entry_index c lev off]? with _ | v
    · rfl
    · have := List.getElem?_eq_some.1 hlt
      obtain ⟨_, h2⟩ := this
      simp at h2
      simp [← h2]
  refine ⟨by simp [pool_init], ?_, by simp [pool_init], by simp [pool_init]⟩
  intro lev _ off _
  right
  simp only [pool_init]
  rw [hz]
  split
  · unfold children_sum
    symm
    exact Finset.sum_eq_zero (fun r _ => hz _ _)
  · rfl

theorem pool_step_get_ok (TL DU : Int) (c : ab_conf_t) (pool_size : Nat) (sizes : List Nat)
    (st : pool_t) (bsize : Nat) (h : pool_ok c pool_size sizes)
    (hTL : TL ≠ 0) (hDU : DU ≠ 0) (hinv : pool_inv c sizes st) (hb : 1 ≤ bsize) :
    ∃ st1, pool_step TL DU c sizes st (pool_op.get bsize) = exec.ret st1 ∧
      pool_inv c sizes st1 := by
  have hc := pool_ok_conf_ok c pool_size sizes h
  obtain ⟨hlen, hocc, hlive, hnd⟩ := hinv
  have hle := inv_le c pool_size sizes st.ab_occ h hocc
  simp only [pool_step]
  rw [hlen]
  by_cases hbig : blck_size sizes 0 < bsize
  · rw [get_buf_entry_beyond_top TL DU c pool_size sizes st.ab_occ bsize h.1 hlen hle hbig]
    refine ⟨_, rfl, ?_⟩
    show pool_inv c sizes ⟨st.ab_occ, if DU = 0 then (-1) :: st.live else st.live⟩
    rw [if_neg hDU]
    exact ⟨hlen, hocc, hlive, hnd⟩
  · obtain ⟨t, ht⟩ := target_level_exists c pool_size sizes bsize h (by omega)
    have hdeep := inv_deep c pool_size sizes st.ab_occ bsize t h hocc hb ht.1
    rcases get_buf_entry_spec TL DU c pool_size sizes st.ab_occ bsize t h hlen ht hdeep with
      ⟨o, ho, hav, _, hr⟩ | ⟨_, hr⟩
    · rw [hr]
      refine ⟨_, rfl, ?_⟩
      simp only [if_true]
      have hanc := avail_anc_lt c pool_size sizes st.ab_occ bsize t o h hle hb ht.1 ho hav
      have hpa := table_after_get_path_add c pool_size sizes st.ab_occ h hlen hle t o ht.1 ho
        hav.1
      obtain ⟨hinv1, hwhole⟩ := inv_after_get c pool_size sizes st.ab_occ _ h hocc t o ht.1 ho
        hav.1 hanc hpa
      have hsame := path_add_same c st.ab_occ _ t o _ hpa
      have hpos := (wf_size_pos c pool_size sizes h t ht.1).1
      refine ⟨by rw [table_after_get_length, hlen], hinv1, ?_, ?_⟩
      · intro e he
        rcases List.mem_cons.1 he with he1 | he1
        · exact ⟨t, o, ht.1, ho, he1, hwhole⟩
        · obtain ⟨l, x, hl, hx, hex, hw⟩ := hlive e he1
          refine ⟨l, x, hl, hx, hex, ?_⟩
          apply whole_occupied_off_path c hc sizes st.ab_occ _ t o l x hsame hx hl _ hw
          intro hon
          rcases (on_path_cases c t o l x).1 hon with h3 | h3
          · have := hanc l h3.1
            rw [← h3.2, hw.1] at this
            omega
          · obtain ⟨rfl, rfl⟩ := h3
            have := hw.1
            rw [hav.1] at this
            omega
      · refine List.nodup_cons.2 ⟨?_, hnd⟩
        intro hmem
        obtain ⟨l, x, hl, hx, hex, hw⟩ := hlive _ hmem
        have hidx : entry_index c t o = entry_index c l x := by exact_mod_cast hex
        obtain ⟨rfl, rfl⟩ := entry_index_inj c t o l x ho hx hidx
        have := hw.1
        rw [hav.1] at this
        omega
    · rw [hr]
      refine ⟨_, rfl, ?_⟩
      simp only
      rw [if_neg hTL]
      exact ⟨hlen, hocc, hlive, hnd⟩

theorem pool_step_free_ok (TL DU : Int) (c : ab_conf_t) (pool_size : Nat) (sizes : List Nat)
    (st : pool_t) (e : Int) (h : pool_ok c pool_size sizes)
    (hinv : pool_inv c sizes st) (he : e ∈ st.live) :
    ∃ st1, pool_step TL DU c sizes st (pool_op.free e) = exec.ret st1 ∧
      pool_inv c sizes st1 ∧ st1.live = st.live.erase e := by
  have hc := pool_ok_conf_ok c pool_size sizes h
  have hs : sizes.length = c.buf_depth.toNat := h.1.2.2.2.2.1
  obtain ⟨hlen, hocc, hlive, hnd⟩ := hinv
  obtain ⟨t, o, ht, ho, rfl, hw⟩ := hlive e he
  simp only [pool_step]
  rw [hlen, free_buf_entry_eq c hc sizes st.ab_occ hs hlen t o ht ho, if_pos hw.1]
  refine ⟨_, rfl, ?_, by simp⟩
  simp only [if_true]
  have hpa := table_after_free_path_add c pool_size sizes st.ab_occ h hlen hocc t o ht ho hw
  have hinv1 := inv_after_free c pool_size sizes st.ab_occ _ h hocc t o ht ho hw hpa
  have hpos := (wf_size_pos c pool_size sizes h t ht).1
  have hanc := anc_ge c pool_size sizes st.ab_occ h hocc t o ht ho (by rw [hw.1]; omega)
  have hsame : ∀ l1 < c.buf_depth.toNat, ∀ x1 < level_width c l1,
      ¬ on_path c t o l1 x1 →
      occ_at c (table_after_free c sizes st.ab_occ t o) l1 x1 = occ_at c st.ab_occ l1 x1 :=
    fun l1 hl1 x1 hx1 hoff => (path_add_same c _ st.ab_occ t o _ hpa l1 hl1 x1 hx1 hoff).symm
  refine ⟨by rw [table_after_free_length, hlen], hinv1, ?_, hnd.erase _⟩
  intro e1 he1
  have hmem := List.mem_of_mem_erase he1
  have hne : e1 ≠ ((entry_index c t o : Nat) : Int) := by
    intro heq
    rw [heq] at he1
    exact (List.Nodup.not_mem_erase hnd) he1
  obtain ⟨l, x, hl, hx, hex, hw1⟩ := hlive e1 hmem
  refine ⟨l, x, hl, hx, hex, ?_⟩
  apply whole_occupied_off_path c hc sizes st.ab_occ _ t o l x hsame hx hl _ hw1
  intro hon
  rcases (on_path_cases c t o l x).1 hon with h3 | h3
  · have := (hanc (t - l) (by omega)).2 (by omega)
    rw [show t - (t - l) = l by omega, ← h3.2] at this
    exact this hw1
  · obtain ⟨rfl, rfl⟩ := h3
    exact hne hex

theorem pool_run_inv (TL DU : Int) (c : ab_conf_t) (pool_size : Nat) (sizes : List Nat)
    (h : pool_ok c pool_size sizes) (hTL : TL ≠ 0) (hDU : DU ≠ 0) :
    ∀ (ops : List pool_op) (st : pool_t), pool_inv c sizes st →
      pool_respects TL DU c sizes ops st →
      ∃ st1, pool_run TL DU c sizes ops st = exec.ret st1 ∧ pool_inv c sizes st1 := by
  intro ops
  induction ops with
  | nil => intro st hinv _; exact ⟨st, rfl, hinv⟩
  | cons op ops ih =>
    intro st hinv hresp
    obtain ⟨hallow, hrest⟩ := hresp
    have hstep : ∃ st1, pool_step TL DU c sizes st op = exec.ret st1 ∧ pool_inv c sizes st1 := by
      cases op with
      | get bsize => exact pool_step_get_ok TL DU c pool_size sizes st bsize h hTL hDU hinv hallow
      | free e =>
        obtain ⟨st1, h1, h2, _⟩ := pool_step_free_ok TL DU c pool_size sizes st e h hinv hallow
        exact ⟨st1, h1, h2⟩
    obtain ⟨st1, hs1, hinv1⟩ := hstep
    rw [hs1] at hrest
    simp only [pool_run]
    rw [hs1]
    exact ih st1 hinv1 hrest

/-! ## Byte ranges of the entries -/

theorem entry_start_child_upper (c : ab_conf_t) (pool_size : Nat) (sizes : List Nat)
    (h : pool_ok c pool_size sizes) (l x : Nat) (hl : l + 1 < c.buf_depth.toNat) :
    entry_start c sizes (l + 1) x + blck_size sizes (l + 1) ≤
      entry_start c sizes l (x / c.buf_branch.toNat) + blck_size sizes l := by
  have hBp : 0 < c.buf_branch.toNat := by have := h.1.2.1; omega
  rw [entry_start_succ]
  have h2 := wf_branch_mul_le c pool_size sizes h l hl
  have h3 : x % c.buf_branch.toNat < c.buf_branch.toNat := Nat.mod_lt _ hBp
  have h4 : (x % c.buf_branch.toNat + 1) * blck_size sizes (l + 1) ≤
      c.buf_branch.toNat * blck_size sizes (l + 1) := Nat.mul_le_mul_right _ h3
  have h6 : (x % c.buf_branch.toNat + 1) * blck_size sizes (l + 1) =
      x % c.buf_branch.toNat * blck_size sizes (l + 1) + blck_size sizes (l + 1) := by ring
  omega

/-- The byte range of an entry lies inside the byte range of each of its
ancestors. -/
theorem entry_start_nested (c : ab_conf_t) (pool_size : Nat) (sizes : List Nat)
    (h : pool_ok c pool_size sizes) (l : Nat) :
    ∀ d x, l + d < c.buf_depth.toNat →
      entry_start c sizes l (x / c.buf_branch.toNat ^ d) ≤ entry_start c sizes (l + d) x ∧
      entry_start c sizes (l + d) x + blck_size sizes (l + d) ≤
        entry_start c sizes l (x / c.buf_branch.toNat ^ d) + blck_size sizes l := by
  intro d
  induction d with
  | zero => intro x _; simp
  | succ n ih =>
    intro x hl
    have h1 := ih (x / c.buf_branch.toNat) (by omega)
    have h2 := entry_start_child_upper c pool_size sizes h (l + n) x (by omega)
    have h3 : entry_start c sizes (l + n) (x / c.buf_branch.toNat) ≤
        entry_start c sizes (l + n + 1) x := by
      rw [entry_start_succ]; omega
    have e : x / c.buf_branch.toNat / c.buf_branch.toNat ^ n =
        x / c.buf_branch.toNat ^ (n + 1) := by
      rw [Nat.div_div_eq_div_mul, pow_succ, mul_comm]
    rw [e] at h1
    have e2 : l + (n + 1) = l + n + 1 := by omega
    rw [e2]
    omega

/-- The byte ranges of the entries of one level follow each other in the order of
the offsets. -/
theorem entry_start_ordered (c : ab_conf_t) (pool_size : Nat) (sizes : List Nat)
    (h : pool_ok c pool_size sizes) :
    ∀ l, l < c.buf_depth.toNat → ∀ x y, x < y →
      entry_start c sizes l x + blck_size sizes l ≤ entry_start c sizes l y := by
  have hBp : 0 < c.buf_branch.toNat := by have := h.1.2.1; omega
  intro l
  induction l with
  | zero =>
    intro _ x y hxy
    simp only [entry_start]
    calc x * blck_size sizes 0 + blck_size sizes 0 = (x + 1) * blck_size sizes 0 := by ring
      _ ≤ y * blck_size sizes 0 := Nat.mul_le_mul_right _ hxy
  | succ n ih =>
    intro hl x y hxy
    have hdiv : x / c.buf_branch.toNat ≤ y / c.buf_branch.toNat :=
      Nat.div_le_div_right (le_of_lt hxy)
    rcases Nat.lt_or_eq_of_le hdiv with hlt | heq
    · have h1 := entry_start_child_upper c pool_size sizes h n x hl
      have h2 := ih (by omega) _ _ hlt
      have h3 : entry_start c sizes n (y / c.buf_branch.toNat) ≤
          entry_start c sizes (n + 1) y := by
        rw [entry_start_succ]; omega
      omega
    · rw [entry_start_succ, entry_start_succ, heq]
      have hx := Nat.div_add_mod x c.buf_branch.toNat
      have hy := Nat.div_add_mod y c.buf_branch.toNat
      have hmod : x % c.buf_branch.toNat + 1 ≤ y % c.buf_branch.toNat := by
        rw [heq] at hx
        omega
      have := Nat.mul_le_mul_right (blck_size sizes (n + 1)) hmod
      have e : (x % c.buf_branch.toNat + 1) * blck_size sizes (n + 1) =
          x % c.buf_branch.toNat * blck_size sizes (n + 1) + blck_size sizes (n + 1) := by ring
      omega

/-- Two different entries that are both occupied as a whole have disjoint byte
ranges. -/
theorem whole_occupied_disjoint (c : ab_conf_t) (pool_size : Nat) (sizes T : List Nat)
    (h : pool_ok c pool_size sizes)
    (l1 x1 l2 x2 : Nat) (h12 : l1 ≤ l2) (hl2 : l2 < c.buf_depth.toNat)
    (hw1 : whole_occupied c sizes T l1 x1) (hw2 : whole_occupied c sizes T l2 x2)
    (hne : ¬ (l1 = l2 ∧ x1 = x2)) :
    entry_start c sizes l1 x1 + blck_size sizes l1 ≤ entry_start c sizes l2 x2 ∨
    entry_start c sizes l2 x2 + blck_size sizes l2 ≤ entry_start c sizes l1 x1 := by
  have hBp : 0 < c.buf_branch.toNat := by have := h.1.2.1; omega
  obtain ⟨d, rfl⟩ : ∃ d, l2 = l1 + d := ⟨l2 - l1, by omega⟩
  have hnest := entry_start_nested c pool_size sizes h l1 d x2 hl2
  have hpos := (wf_size_pos c pool_size sizes h (l1 + d) hl2).1
  have hanc : x2 / c.buf_branch.toNat ^ d ≠ x1 := by
    intro heq
    by_cases hd : d = 0
    · subst hd
      simp only [pow_zero, Nat.div_one] at heq
      exact hne ⟨rfl, heq.symm⟩
    · have := hw1.2 d (by omega) (by omega) hl2 (x2 % c.buf_branch.toNat ^ d)
        (Nat.mod_lt _ (Nat.pow_pos hBp))
      have e : x1 * c.buf_branch.toNat ^ d + x2 % c.buf_branch.toNat ^ d = x2 := by
        rw [← heq, mul_comm]; exact Nat.div_add_mod _ _
      rw [e, hw2.1] at this
      omega
  rcases Nat.lt_or_gt_of_ne hanc with hlt | hgt
  · right
    have := entry_start_ordered c pool_size sizes h l1 (by omega) _ _ hlt
    omega
  · left
    have := entry_start_ordered c pool_size sizes h l1 (by omega) _ _ hgt
    omega

/-! ## The claims about sequences of calls -/

theorem pool_respects_take (TL DU : Int) (c : ab_conf_t) (sizes : List Nat) :
    ∀ (ops : List pool_op) (st : pool_t) (n : Nat), pool_respects TL DU c sizes ops st →
      pool_respects TL DU c sizes (ops.take n) st := by
  intro ops
  induction ops with
  | nil => intro st n _; simp [pool_respects]
  | cons op ops ih =>
    intro st n hresp
    cases n with
    | zero => simp [pool_respects]
    | succ m =>
      simp only [List.take_succ_cons, pool_respects] at hresp ⊢
      refine ⟨hresp.1, ?_⟩
      have h2 := hresp.2
      cases hs : pool_step TL DU c sizes st op with
      | ret st1 =>
        rw [hs] at h2
        exact ih st1 m h2
      | undef => trivial
      | timeout => trivial

/-- C1, amended (occupancy invariant): in a well-formed pool (`top >= 1`, `branch >= 2`,
`depth >= 1`, `s[0] = pool_size/top`, `s[i+1] = s[i]/branch`, all size classes in
`[1, 2^31)`) with fewer than `2^31` entries, start from the all-zero occupancy table
and make any sequence of
`get_buf_entry` calls with request size at least 1 and of `free_buf_entry` calls on
live entries. Then every call returns, and after every call (after each prefix of
the sequence) each entry is either occupied as a whole (its counter equals its
level size and all its descendants have counter 0) or its counter equals the sum of
its children's counters (0 at the deepest level). -/
theorem occupancy_invariant_after_every_call (TRY_LATER DEVICE_UNABLE : Int) (c : ab_conf_t)
    (pool_size : Nat) (sizes : List Nat) (hwf : well_formed c pool_size sizes)
    (hint : total_entries c < 2 ^ 31)
    (hTL : TRY_LATER ≠ 0) (hDU : DEVICE_UNABLE ≠ 0) (ops : List pool_op)
    (hresp : pool_respects TRY_LATER DEVICE_UNABLE c sizes ops (pool_init c)) (n : Nat) :
    ∃ st, pool_run TRY_LATER DEVICE_UNABLE c sizes (ops.take n) (pool_init c) = exec.ret st ∧
      occupancy_invariant c sizes st.ab_occ := by
  have h : pool_ok c pool_size sizes := ⟨hwf, hint⟩
  obtain ⟨st, h1, h2⟩ := pool_run_inv TRY_LATER DEVICE_UNABLE c pool_size sizes h hTL hDU
    (ops.take n) (pool_init c) (pool_init_inv c sizes)
    (pool_respects_take TRY_LATER DEVICE_UNABLE c sizes ops _ n hresp)
  exact ⟨st, h1, h2.2.1⟩

/-- Instance of `occupancy_invariant_after_every_call`: the pool of 5,760,000 bytes
(`top=3`, `branch=2`, `depth=4`) and the calls get 300000, get 1000000, free 9,
get 100. -/
theorem occupancy_invariant_after_every_call_witness :
    ∃ st, pool_run (-1) (-2) ⟨3, 4, 2⟩ [1920000, 960000, 480000, 240000]
        ([pool_op.get 300000, pool_op.get 1000000, pool_op.free 9, pool_op.get 100].take 4)
        (pool_init ⟨3, 4, 2⟩) = exec.ret st ∧
      occupancy_invariant ⟨3, 4, 2⟩ [1920000, 960000, 480000, 240000] st.ab_occ :=
  occupancy_invariant_after_every_call (-1) (-2) ⟨3, 4, 2⟩ 5760000
    [1920000, 960000, 480000, 240000] (by decide) (by decide) (by decide) (by decide)
    [pool_op.get 300000, pool_op.get 1000000, pool_op.free 9, pool_op.get 100]
    (by decide) 4

/-- C1 as stated fails in a well-formed pool with `2^31` entries or more. In the pool
of 17600777027584 bytes with `top = 2^20`, `depth = 3`, `branch = 4097` (size classes
16785409, 4097, 1; 17605074092032 entries) the first call, a request of one byte,
returns 0 with the entry number 2097152 and leaves a table that does not satisfy the
occupancy invariant: 2097152 is the plain entry number of the entry `(1, 1048576)`,
whose counter is now 1, neither the size class 4097 of level 1 nor the sum of the
counters of its children, which are 0. -/
theorem occupancy_invariant_wrapped_counterexample :
    well_formed ⟨1048576, 3, 4097⟩ 17600777027584 [16785409, 4097, 1] ∧
    total_entries ⟨1048576, 3, 4097⟩ = 17605074092032 ∧
    pool_respects talsh_h_values.TRY_LATER talsh_h_values.DEVICE_UNABLE ⟨1048576, 3, 4097⟩ [16785409, 4097, 1] [pool_op.get 1]
      (pool_init ⟨1048576, 3, 4097⟩) ∧
    ∃ st, pool_run talsh_h_values.TRY_LATER talsh_h_values.DEVICE_UNABLE ⟨1048576, 3, 4097⟩ [16785409, 4097, 1] ([pool_op.get 1].take 1)
        (pool_init ⟨1048576, 3, 4097⟩) = exec.ret st ∧
      st.live = [2097152] ∧ entry_index ⟨1048576, 3, 4097⟩ 1 1048576 = 2097152 ∧
      occ_at ⟨1048576, 3, 4097⟩ st.ab_occ 1 1048576 = 1 ∧
      children_sum ⟨1048576, 3, 4097⟩ st.ab_occ 1 1048576 = 0 ∧
      ¬ occupancy_invariant ⟨1048576, 3, 4097⟩ [16785409, 4097, 1] st.ab_occ :=
  ⟨by decide, by decide, wrapped_level_respects talsh_h_values.TRY_LATER talsh_h_values.DEVICE_UNABLE,
    _, wrapped_level_run talsh_h_values.TRY_LATER talsh_h_values.DEVICE_UNABLE, rfl, by decide,
    wrapped_level_counter, wrapped_level_children, wrapped_level_not_invariant⟩

/-- C2, amended (no overlap): under the preconditions of the occupancy invariant, in a
pool with fewer than `2^31` entries, every live
entry has a byte range `[ab_get_offset(level, offset), ab_get_offset(level, offset) +
s[level])` inside `[0, pool_size)`, the byte ranges of two distinct live entries are
disjoint, and the pointer that a successful `get_buf_entry` hands out is the
`ab_get_offset` of the returned entry. -/
theorem live_ranges_disjoint (TRY_LATER DEVICE_UNABLE : Int) (c : ab_conf_t)
    (pool_size : Nat) (sizes : List Nat) (hwf : well_formed c pool_size sizes)
    (hint : total_entries c < 2 ^ 31)
    (hTL : TRY_LATER ≠ 0) (hDU : DEVICE_UNABLE ≠ 0) (ops : List pool_op)
    (hresp : pool_respects TRY_LATER DEVICE_UNABLE c sizes ops (pool_init c)) :
    ∃ st, pool_run TRY_LATER DEVICE_UNABLE c sizes ops (pool_init c) = exec.ret st ∧
      (∀ e ∈ st.live, ∃ lev off p : Nat,
        ab_get_2d_pos c e = (0, some ((lev : Int), (off : Int))) ∧
        ab_get_offset c (lev : Int) (off : Int) sizes = some p ∧
        p + blck_size sizes lev ≤ pool_size) ∧
      (∀ e1 ∈ st.live, ∀ e2 ∈ st.live, e1 ≠ e2 → ∃ l1 o1 p1 l2 o2 p2 : Nat,
        ab_get_2d_pos c e1 = (0, some ((l1 : Int), (o1 : Int))) ∧
        ab_get_offset c (l1 : Int) (o1 : Int) sizes = some p1 ∧
        ab_get_2d_pos c e2 = (0, some ((l2 : Int), (o2 : Int))) ∧
        ab_get_offset c (l2 : Int) (o2 : Int) sizes = some p2 ∧
        (p1 + blck_size sizes l1 ≤ p2 ∨ p2 + blck_size sizes l2 ≤ p1)) ∧
      (∀ bsize r, 1 ≤ bsize →
        get_buf_entry TRY_LATER DEVICE_UNABLE c bsize st.ab_occ (total_entries c) sizes =
          exec.ret r → r.status = 0 →
        ∃ lev off : Nat, ab_get_2d_pos c r.entry_num = (0, some ((lev : Int), (off : Int))) ∧
          r.entry_ptr = ab_get_offset c (lev : Int) (off : Int) sizes ∧
          r.entry_ptr ≠ none) := by
  have h : pool_ok c pool_size sizes := ⟨hwf, hint⟩
  have hc := pool_ok_conf_ok c pool_size sizes h
  obtain ⟨st, h1, hlen, hocc, hlive, hnd⟩ := pool_run_inv TRY_LATER DEVICE_UNABLE c pool_size
    sizes h hTL hDU ops (pool_init c) (pool_init_inv c sizes) hresp
  refine ⟨st, h1, ?_, ?_, ?_⟩
  · intro e he
    obtain ⟨l, x, hl, hx, rfl, _⟩ := hlive e he
    exact ⟨l, x, entry_start c sizes l x, ab_get_2d_pos_eq c hc l x hl hx,
      ab_get_offset_eq c pool_size sizes h l x hl hx,
      entry_start_in_pool c pool_size sizes h l x hl hx⟩
  · intro e1 he1 e2 he2 hne
    obtain ⟨l1, x1, hl1, hx1, rfl, hw1⟩ := hlive e1 he1
    obtain ⟨l2, x2, hl2, hx2, rfl, hw2⟩ := hlive e2 he2
    refine ⟨l1, x1, entry_start c sizes l1 x1, l2, x2, entry_start c sizes l2 x2,
      ab_get_2d_pos_eq c hc l1 x1 hl1 hx1, ab_get_offset_eq c pool_size sizes h l1 x1 hl1 hx1,
      ab_get_2d_pos_eq c hc l2 x2 hl2 hx2, ab_get_offset_eq c pool_size sizes h l2 x2 hl2 hx2,
      ?_⟩
    have hne2 : ¬ (l1 = l2 ∧ x1 = x2) := by
      rintro ⟨rfl, rfl⟩; exact hne rfl
    rcases Nat.le_total l1 l2 with h12 | h21
    · exact whole_occupied_disjoint c pool_size sizes st.ab_occ h l1 x1 l2 x2 h12 hl2
        hw1 hw2 hne2
    · exact (whole_occupied_disjoint c pool_size sizes st.ab_occ h l2 x2 l1 x1 h21 hl1
        hw2 hw1 (fun hh => hne2 ⟨hh.1.symm, hh.2.symm⟩)).symm
  · intro bsize r hb hr hs
    have hle := inv_le c pool_size sizes st.ab_occ h hocc
    by_cases hbig : blck_size sizes 0 < bsize
    · have hr1 := get_buf_entry_beyond_top TRY_LATER DEVICE_UNABLE c pool_size sizes st.ab_occ
        bsize h.1 hlen hle hbig
      rw [hr] at hr1
      cases hr1
      exact absurd hs hDU
    · obtain ⟨t, ht⟩ := target_level_exists c pool_size sizes bsize h (by omega)
      have hdeep := inv_deep c pool_size sizes st.ab_occ bsize t h hocc hb ht.1
      rcases get_buf_entry_spec TRY_LATER DEVICE_UNABLE c pool_size sizes st.ab_occ bsize t h
        hlen ht hdeep with ⟨o, ho, _, _, hr2⟩ | ⟨_, hr2⟩
      · rw [hr] at hr2
        cases hr2
        exact ⟨t, o, ab_get_2d_pos_eq c hc t o ht.1 ho,
          (ab_get_offset_eq c pool_size sizes h t o ht.1 ho).symm, by simp⟩
      · rw [hr] at hr2
        cases hr2
        exact absurd hs hTL

/-- Instance of `live_ranges_disjoint`: the pool of 5,760,000 bytes (`top=3`,
`branch=2`, `depth=4`) and the calls get 300000, get 1000000, get 100. -/
theorem live_ranges_disjoint_witness :
    ∃ st, pool_run (-1) (-2) ⟨3, 4, 2⟩ [1920000, 960000, 480000, 240000]
        [pool_op.get 300000, pool_op.get 1000000, pool_op.get 100] (pool_init ⟨3, 4, 2⟩) =
          exec.ret st ∧
      (∀ e1 ∈ st.live, ∀ e2 ∈ st.live, e1 ≠ e2 → ∃ l1 o1 p1 l2 o2 p2 : Nat,
        ab_get_2d_pos ⟨3, 4, 2⟩ e1 = (0, some ((l1 : Int), (o1 : Int))) ∧
        ab_get_offset ⟨3, 4, 2⟩ (l1 : Int) (o1 : Int) [1920000, 960000, 480000, 240000] =
          some p1 ∧
        ab_get_2d_pos ⟨3, 4, 2⟩ e2 = (0, some ((l2 : Int), (o2 : Int))) ∧
        ab_get_offset ⟨3, 4, 2⟩ (l2 : Int) (o2 : Int) [1920000, 960000, 480000, 240000] =
          some p2 ∧
        (p1 + blck_size [1920000, 960000, 480000, 240000] l1 ≤ p2 ∨
          p2 + blck_size [1920000, 960000, 480000, 240000] l2 ≤ p1)) := by
  obtain ⟨st, h1, _, h3, _⟩ := live_ranges_disjoint (-1) (-2) ⟨3, 4, 2⟩ 5760000
    [1920000, 960000, 480000, 240000] (by decide) (by decide) (by decide) (by decide)
    [pool_op.get 300000, pool_op.get 1000000, pool_op.get 100] (by decide)
  exact ⟨st, h1, h3⟩

/-- C2 as stated fails in a well-formed pool with `2^31` entries or more. In the pool
of 5726856976 bytes with `top = 4`, `depth = 3`, `branch = 37838` (size classes
1431714244, 37838, 1; 5727008332 entries) three requests of 1431714244 bytes are
served by the entries 0, 1 and 2 of level 0. The request of one byte that follows goes
down from the entry `(0, 3)` to the entry `(1, 113514)` and on to the offset
`113514 * 37838 = 2^32 + 175436`, which is reduced to 175436: it is served by the plain
entry number 326792, the entry `(2, 175436)`, at the byte offset 175436. The live
entries are then 326792, 2, 1 and 0, and the byte of the entry 326792 lies inside the
bytes `[0, 1431714244)` of the live entry 0. -/
theorem live_ranges_overlap_counterexample :
    well_formed ⟨4, 3, 37838⟩ 5726856976 [1431714244, 37838, 1] ∧
    total_entries ⟨4, 3, 37838⟩ = 5727008332 ∧
    pool_respects talsh_h_values.TRY_LATER talsh_h_values.DEVICE_UNABLE ⟨4, 3, 37838⟩ [1431714244, 37838, 1]
      [pool_op.get 1431714244, pool_op.get 1431714244, pool_op.get 1431714244, pool_op.get 1]
      (pool_init ⟨4, 3, 37838⟩) ∧
    get_buf_entry talsh_h_values.TRY_LATER talsh_h_values.DEVICE_UNABLE ⟨4, 3, 37838⟩ 1
        (table_of 5727008332 [(2, 1431714244), (1, 1431714244), (0, 1431714244)]) 5727008332 [1431714244, 37838, 1] =
      exec.ret ⟨0, table_of 5727008332 [(0, 1431714245), (8, 1), (326792, 1), (2, 1431714244), (1, 1431714244), (0, 1431714244)],
        some 175436, 326792⟩ ∧
    ∃ st, pool_run talsh_h_values.TRY_LATER talsh_h_values.DEVICE_UNABLE ⟨4, 3, 37838⟩ [1431714244, 37838, 1]
        [pool_op.get 1431714244, pool_op.get 1431714244, pool_op.get 1431714244, pool_op.get 1]
        (pool_init ⟨4, 3, 37838⟩) = exec.ret st ∧
      st.live = [326792, 2, 1, 0] ∧
      ab_get_2d_pos ⟨4, 3, 37838⟩ 0 = (0, some (0, 0)) ∧
      ab_get_offset ⟨4, 3, 37838⟩ 0 0 [1431714244, 37838, 1] = some 0 ∧
      blck_size [1431714244, 37838, 1] 0 = 1431714244 ∧
      ab_get_2d_pos ⟨4, 3, 37838⟩ 326792 = (0, some (2, 175436)) ∧
      ab_get_offset ⟨4, 3, 37838⟩ 2 175436 [1431714244, 37838, 1] = some 175436 ∧
      blck_size [1431714244, 37838, 1] 2 = 1 ∧
      ¬ (0 + 1431714244 ≤ 175436 ∨ 175436 + 1 ≤ 0) :=
  ⟨by decide, by decide, four_gets_respect talsh_h_values.TRY_LATER talsh_h_values.DEVICE_UNABLE,
    get_below_occupied talsh_h_values.TRY_LATER talsh_h_values.DEVICE_UNABLE,
    _, four_gets_run talsh_h_values.TRY_LATER talsh_h_values.DEVICE_UNABLE, rfl, by decide, by decide, by decide, by decide,
    by decide, by decide, by decide⟩

/-! ## The claims about one call of `get_buf_entry` -/

/-- Under the occupancy invariant, an entry with counter 0 whose ancestors are not
occupied as a whole leaves room for its whole size class in each ancestor. -/
theorem anc_capacity (c : ab_conf_t) (pool_size : Nat) (sizes T : List Nat)
    (h : pool_ok c pool_size sizes) (hinv : occupancy_invariant c sizes T)
    (t o : Nat) (ht : t < c.buf_depth.toNat) (ho : o < level_width c t)
    (hfree : reachable_free c sizes T t o) :
    ∀ e ≤ t, occ_at c T (t - e) (o / c.buf_branch.toNat ^ e) + blck_size sizes t ≤
      blck_size sizes (t - e) := by
  have hc := pool_ok_conf_ok c pool_size sizes h
  have hBp : 0 < c.buf_branch.toNat := by have := hc.2.1; omega
  have hle := inv_le c pool_size sizes T h hinv
  intro e
  induction e with
  | zero => intro _; simp [hfree.1]
  | succ n ih =>
    intro hn
    have ih1 := ih (by omega)
    have hvalid := anc_lt_width c hc t o (n + 1) hn ho
    have hnot := hfree.2 (t - (n + 1)) (by omega)
    rw [show t - (t - (n + 1)) = n + 1 by omega] at hnot
    rcases hinv (t - (n + 1)) (by omega) _ hvalid with hw | hsum
    · exact absurd hw hnot
    · rw [if_pos (by omega)] at hsum
      rw [hsum]
      unfold children_sum
      have e1 : t - (n + 1) + 1 = t - n := by omega
      have e2 : o / c.buf_branch.toNat ^ (n + 1) * c.buf_branch.toNat +
          o / c.buf_branch.toNat ^ n % c.buf_branch.toNat = o / c.buf_branch.toNat ^ n := by
        rw [pow_succ, ← Nat.div_div_eq_div_mul, mul_comm]
        exact Nat.div_add_mod _ _
      rw [e1]
      have hmem : o / c.buf_branch.toNat ^ n % c.buf_branch.toNat ∈
          Finset.range c.buf_branch.toNat := Finset.mem_range.2 (Nat.mod_lt _ hBp)
      have hsplit : ∑ r ∈ Finset.range c.buf_branch.toNat,
            occ_at c T (t - n) (o / c.buf_branch.toNat ^ (n + 1) * c.buf_branch.toNat + r) +
          blck_size sizes t =
          ∑ r ∈ Finset.range c.buf_branch.toNat,
            (occ_at c T (t - n) (o / c.buf_branch.toNat ^ (n + 1) * c.buf_branch.toNat + r) +
              (if r = o / c.buf_branch.toNat ^ n % c.buf_branch.toNat then blck_size sizes t
                else 0)) := by
        rw [Finset.sum_add_distrib, Finset.sum_ite_eq', if_pos hmem]
      rw [hsplit]
      have hbound : ∑ r ∈ Finset.range c.buf_branch.toNat,
            (occ_at c T (t - n) (o / c.buf_branch.toNat ^ (n + 1) * c.buf_branch.toNat + r) +
              (if r = o / c.buf_branch.toNat ^ n % c.buf_branch.toNat then blck_size sizes t
                else 0)) ≤
          ∑ _r ∈ Finset.range c.buf_branch.toNat, blck_size sizes (t - n) := by
        apply Finset.sum_le_sum
        intro r hr
        by_cases hr0 : r = o / c.buf_branch.toNat ^ n % c.buf_branch.toNat
        · rw [if_pos hr0, hr0, e2]
          exact ih1
        · rw [if_neg hr0, add_zero]
          have hv := child_lt_width c (t - (n + 1)) _ r hvalid (Finset.mem_range.1 hr)
          rw [e1] at hv
          exact hle (t - n) (by omega) _ hv
      refine le_trans hbound ?_
      simp only [Finset.sum_const, Finset.card_range, smul_eq_mul]
      have := wf_branch_mul_le c pool_size sizes h (t - (n + 1)) (by omega)
      rw [e1] at this
      exact this

/-- Under the occupancy invariant the entries of the target level that the search
can reach are the entries with counter 0 and no ancestor occupied as a whole. -/
theorem avail_iff_reachable_free (c : ab_conf_t) (pool_size : Nat) (sizes T : List Nat)
    (bsize t o : Nat) (h : pool_ok c pool_size sizes)
    (hinv : occupancy_invariant c sizes T) (hb : 1 ≤ bsize)
    (ht : target_level c sizes bsize t) (ho : o < level_width c t) :
    avail_from c sizes T bsize t 0 o ↔ reachable_free c sizes T t o := by
  have hc := pool_ok_conf_ok c pool_size sizes h
  have hle := inv_le c pool_size sizes T h hinv
  constructor
  · intro hav
    refine ⟨hav.1, fun l hl hw => ?_⟩
    have := avail_anc_lt c pool_size sizes T bsize t o h hle hb ht.1 ho hav l hl
    rw [hw.1] at this
    omega
  · intro hfree
    refine ⟨hfree.1, fun l hl _ => ?_⟩
    have hcap := anc_capacity c pool_size sizes T h hinv t o ht.1 ho hfree (t - l) (by omega)
    rw [show t - (t - l) = l by omega] at hcap
    have h2 := wf_size_pos c pool_size sizes h l (by have := ht.1; omega)
    unfold fits
    rw [size_t_sub_of_le _ _ (by omega) (by omega)]
    have := ht.2.1
    omega

theorem target_level_iff (c : ab_conf_t) (pool_size : Nat) (sizes : List Nat) (bsize t : Nat)
    (h : pool_ok c pool_size sizes) (ht : target_level c sizes bsize t) :
    ∀ l < c.buf_depth.toNat, (bsize ≤ blck_size sizes l ↔ l ≤ t) := by
  intro l hl
  constructor
  · intro hb
    by_contra hgt
    have h1 := wf_size_mono c pool_size sizes h (t + 1) l (by omega) hl
    have h2 := ht.2.2 (by omega)
    omega
  · intro hle
    have h1 := wf_size_mono c pool_size sizes h l t hle ht.1
    have := ht.2.1
    omega

/-- C3, amended (best fit): in a well-formed pool with fewer than `2^31` entries whose
table satisfies the occupancy invariant, a request of `1 <= bsize <= s[0]` bytes always returns, and when it
succeeds the returned entry lies at the level `t` such that the levels with size
class at least `bsize` are exactly the levels `0..t` (so never at a level whose size
class is smaller than `bsize`). In the pool of 5,760,000 bytes with `top=3`,
`branch=2`, `depth=4`, a request of 300,000 bytes on the empty pool returns entry 9,
the first entry of level 2. -/
theorem get_buf_entry_best_fit (TRY_LATER DEVICE_UNABLE : Int) (c : ab_conf_t)
    (pool_size : Nat) (sizes T : List Nat) (bsize : Nat)
    (hwf : well_formed c pool_size sizes) (hint : total_entries c < 2 ^ 31)
    (hT : T.length = total_entries c)
    (hinv : occupancy_invariant c sizes T) (hb1 : 1 ≤ bsize)
    (hb0 : bsize ≤ blck_size sizes 0) (hTL : TRY_LATER ≠ 0) :
    (∃ r, get_buf_entry TRY_LATER DEVICE_UNABLE c bsize T (total_entries c) sizes =
        exec.ret r ∧
      (r.status = 0 →
        ∃ t o, t < c.buf_depth.toNat ∧ o < level_width c t ∧
          r.entry_num = ((entry_index c t o : Nat) : Int) ∧
          bsize ≤ blck_size sizes t ∧
          (∀ l < c.buf_depth.toNat, (bsize ≤ blck_size sizes l ↔ l ≤ t)))) ∧
    get_buf_entry TRY_LATER DEVICE_UNABLE ⟨3, 4, 2⟩ 300000 (List.replicate 45 0) 45
        [1920000, 960000, 480000, 240000] =
      exec.ret ⟨0, (((List.replicate 45 0).set 9 480000).set 3 480000).set 0 480000,
        some 0, 9⟩ ∧
    entry_index ⟨3, 4, 2⟩ 2 0 = 9 := by
  refine ⟨?_, rfl, rfl⟩
  have h : pool_ok c pool_size sizes := ⟨hwf, hint⟩
  obtain ⟨t, ht⟩ := target_level_exists c pool_size sizes bsize h hb0
  have hdeep := inv_deep c pool_size sizes T bsize t h hinv hb1 ht.1
  rcases get_buf_entry_spec TRY_LATER DEVICE_UNABLE c pool_size sizes T bsize t h hT ht hdeep
    with ⟨o, ho, _, _, hr⟩ | ⟨_, hr⟩
  · exact ⟨_, hr, fun _ => ⟨t, o, ht.1, ho, rfl, ht.2.1,
      target_level_iff c pool_size sizes bsize t h ht⟩⟩
  · exact ⟨_, hr, fun hs => absurd hs hTL⟩

/-- Instance of `get_buf_entry_best_fit`: the pool of 5,760,000 bytes (`top=3`,
`branch=2`, `depth=4`) with entry 9 occupied, and a request of 300,000 bytes. -/
theorem get_buf_entry_best_fit_witness :
    ∃ r, get_buf_entry (-1) (-2) ⟨3, 4, 2⟩ 300000
        ((((List.replicate 45 0).set 9 480000).set 3 480000).set 0 480000)
        (total_entries ⟨3, 4, 2⟩) [1920000, 960000, 480000, 240000] = exec.ret r ∧
      (r.status = 0 →
        ∃ t o, t < (4 : Int).toNat ∧ o < level_width ⟨3, 4, 2⟩ t ∧
          r.entry_num = ((entry_index ⟨3, 4, 2⟩ t o : Nat) : Int) ∧
          300000 ≤ blck_size [1920000, 960000, 480000, 240000] t ∧
          (∀ l < (4 : Int).toNat,
            (300000 ≤ blck_size [1920000, 960000, 480000, 240000] l ↔ l ≤ t))) :=
  (get_buf_entry_best_fit (-1) (-2) ⟨3, 4, 2⟩ 5760000 [1920000, 960000, 480000, 240000]
    ((((List.replicate 45 0).set 9 480000).set 3 480000).set 0 480000) 300000
    (by decide) (by decide) (by decide) (by decide) (by decide) (by decide) (by decide)).1

/-- C3 as stated fails in a well-formed pool with `2^31` entries or more. In the pool
of 17600777027584 bytes with `top = 2^20`, `depth = 3`, `branch = 4097` (size classes
16785409, 4097, 1; 17605074092032 entries) a request of one byte on the empty table
succeeds with the entry number 2097152. The deepest level whose size class is at
least 1 is level 2, but no entry of level 2 has this number (the numbers of level 2
start at 4297064448): 2097152 is the number of the entry `(1, 1048576)`, of the size
class 4097. -/
theorem get_buf_entry_best_fit_counterexample :
    well_formed ⟨1048576, 3, 4097⟩ 17600777027584 [16785409, 4097, 1] ∧
    total_entries ⟨1048576, 3, 4097⟩ = 17605074092032 ∧
    (table_of 17605074092032 []).length = total_entries ⟨1048576, 3, 4097⟩ ∧
    occupancy_invariant ⟨1048576, 3, 4097⟩ [16785409, 4097, 1] (table_of 17605074092032 []) ∧
    1 ≤ blck_size [16785409, 4097, 1] 0 ∧
    get_buf_entry talsh_h_values.TRY_LATER talsh_h_values.DEVICE_UNABLE ⟨1048576, 3, 4097⟩ 1
        (table_of 17605074092032 []) (total_entries ⟨1048576, 3, 4097⟩) [16785409, 4097, 1] =
      exec.ret ⟨0, table_of 17605074092032 [(0, 1), (1048576, 1), (2097152, 1)], some 0,
        2097152⟩ ∧
    target_level ⟨1048576, 3, 4097⟩ [16785409, 4097, 1] 1 2 ∧
    (¬ ∃ o, o < level_width ⟨1048576, 3, 4097⟩ 2 ∧
      (2097152 : Int) = ((entry_index ⟨1048576, 3, 4097⟩ 2 o : Nat) : Int)) ∧
    1048576 < level_width ⟨1048576, 3, 4097⟩ 1 ∧
    (2097152 : Int) = ((entry_index ⟨1048576, 3, 4097⟩ 1 1048576 : Nat) : Int) ∧
    blck_size [16785409, 4097, 1] 1 = 4097 := by
  have hb : level_base ⟨1048576, 3, 4097⟩ 2 = 4297064448 := by decide
  refine ⟨by decide, by decide, ?_, table_of_nil_invariant _ _ _, by decide,
    get_one_wrapped_level _ _, by decide, ?_, by decide, by decide, by decide⟩
  · rw [table_of_length]
    decide
  · rintro ⟨o, _, ho⟩
    unfold entry_index at ho
    rw [hb] at ho
    omega

/-- C5, amended (`TRY_LATER` exactly when nothing fits): in a well-formed pool with
fewer than `2^31` entries whose table
satisfies the occupancy invariant, for a request of `1 <= bsize <= s[0]` bytes with
target level `t` (the deepest level whose size class is at least `bsize`):
if no entry of level `t` has counter 0 and no ancestor occupied as a whole,
`get_buf_entry` returns `TRY_LATER` with the table unchanged; otherwise it returns 0
with the leftmost such entry; so the status is `TRY_LATER` iff there is no such
entry. In the pool of 5,760,000 bytes (`top=3`, `branch=2`, `depth=4`) three
successive requests of 1,000,000 bytes return the level-0 entries 0, 1, 2 and the
fourth returns `TRY_LATER`. -/
theorem get_buf_entry_try_later_iff (TRY_LATER DEVICE_UNABLE : Int) (c : ab_conf_t)
    (pool_size : Nat) (sizes T : List Nat) (bsize : Nat)
    (hwf : well_formed c pool_size sizes) (hint : total_entries c < 2 ^ 31)
    (hT : T.length = total_entries c)
    (hinv : occupancy_invariant c sizes T) (hb1 : 1 ≤ bsize)
    (hb0 : bsize ≤ blck_size sizes 0) (hTL : TRY_LATER ≠ 0) :
    (∃ t r, target_level c sizes bsize t ∧
      get_buf_entry TRY_LATER DEVICE_UNABLE c bsize T (total_entries c) sizes = exec.ret r ∧
      (r.status = TRY_LATER ↔ ∀ o < level_width c t, ¬ reachable_free c sizes T t o) ∧
      (r.status = TRY_LATER → r.ab_occ = T ∧ r.entry_num = -1 ∧ r.entry_ptr = none) ∧
      (r.status ≠ TRY_LATER → r.status = 0 ∧
        ∃ o, o < level_width c t ∧ r.entry_num = ((entry_index c t o : Nat) : Int) ∧
          reachable_free c sizes T t o ∧ ∀ o1 < o, ¬ reachable_free c sizes T t o1)) ∧
    (∃ T1 T2 T3 p1 p2 p3,
      get_buf_entry TRY_LATER DEVICE_UNABLE ⟨3, 4, 2⟩ 1000000 (List.replicate 45 0) 45
        [1920000, 960000, 480000, 240000] = exec.ret ⟨0, T1, p1, 0⟩ ∧
      get_buf_entry TRY_LATER DEVICE_UNABLE ⟨3, 4, 2⟩ 1000000 T1 45
        [1920000, 960000, 480000, 240000] = exec.ret ⟨0, T2, p2, 1⟩ ∧
      get_buf_entry TRY_LATER DEVICE_UNABLE ⟨3, 4, 2⟩ 1000000 T2 45
        [1920000, 960000, 480000, 240000] = exec.ret ⟨0, T3, p3, 2⟩ ∧
      get_buf_entry TRY_LATER DEVICE_UNABLE ⟨3, 4, 2⟩ 1000000 T3 45
        [1920000, 960000, 480000, 240000] = exec.ret ⟨TRY_LATER, T3, none, -1⟩) := by
  refine ⟨?_, ⟨_, _, _, _, _, _, rfl, rfl, rfl, rfl⟩⟩
  have h : pool_ok c pool_size sizes := ⟨hwf, hint⟩
  obtain ⟨t, ht⟩ := target_level_exists c pool_size sizes bsize h hb0
  have hdeep := inv_deep c pool_size sizes T bsize t h hinv hb1 ht.1
  have hiff := fun o ho => avail_iff_reachable_free c pool_size sizes T bsize t o h hinv hb1 ht ho
  rcases get_buf_entry_spec TRY_LATER DEVICE_UNABLE c pool_size sizes T bsize t h hT ht hdeep
    with ⟨o, ho, hav, hmin, hr⟩ | ⟨hno, hr⟩
  · refine ⟨t, _, ht, hr, ?_, ?_, ?_⟩
    · constructor
      · intro hs
        exact absurd hs.symm hTL
      · intro hall
        exact absurd ((hiff o ho).1 hav) (hall o ho)
    · intro hs
      exact absurd hs.symm hTL
    · intro _
      refine ⟨rfl, o, ho, rfl, (hiff o ho).1 hav, fun o1 ho1 hfree => ?_⟩
      exact hmin o1 ho1 ((hiff o1 (by omega)).2 hfree)
  · refine ⟨t, _, ht, hr, ?_, ?_, ?_⟩
    · constructor
      · intro _ o ho hfree
        exact hno o ho ((hiff o ho).2 hfree)
      · intro _; rfl
    · intro _; exact ⟨rfl, rfl, rfl⟩
    · intro hs; exact absurd rfl hs

/-- Instance of `get_buf_entry_try_later_iff`: the pool of 5,760,000 bytes (`top=3`,
`branch=2`, `depth=4`) with the three level-0 entries occupied, and a request of
1,000,000 bytes. -/
theorem get_buf_entry_try_later_iff_witness :
    ∃ t r, target_level ⟨3, 4, 2⟩ [1920000, 960000, 480000, 240000] 1000000 t ∧
      get_buf_entry (-1) (-2) ⟨3, 4, 2⟩ 1000000
        ((((List.replicate 45 0).set 0 1920000).set 1 1920000).set 2 1920000)
        (total_entries ⟨3, 4, 2⟩) [1920000, 960000, 480000, 240000] = exec.ret r ∧
      (r.status = -1 ↔ ∀ o < level_width ⟨3, 4, 2⟩ t,
        ¬ reachable_free ⟨3, 4, 2⟩ [1920000, 960000, 480000, 240000]
          ((((List.replicate 45 0).set 0 1920000).set 1 1920000).set 2 1920000) t o) := by
  obtain ⟨t, r, h1, h2, h3, _⟩ := (get_buf_entry_try_later_iff (-1) (-2) ⟨3, 4, 2⟩ 5760000
    [1920000, 960000, 480000, 240000]
    ((((List.replicate 45 0).set 0 1920000).set 1 1920000).set 2 1920000) 1000000
    (by decide) (by decide) (by decide) (by decide) (by decide) (by decide) (by decide)).1
  exact ⟨t, r, h1, h2, h3⟩

/-- C5 as stated fails in a well-formed pool with `2^31` entries or more. In the pool
of 4294967296 bytes with `top = 2^30`, `depth = 3`, `branch = 2` (size classes 4, 2, 1;
7516192768 entries) a request of one byte on the empty table has the target level 2,
whose entry `(2, 0)` has counter 0 and no ancestor occupied as a whole; the call
returns neither 0 nor `TRY_LATER` but the error code 1, because the numbers of the
entries of level 2 leave the range of `int`. -/
theorem get_buf_entry_try_later_counterexample :
    well_formed ⟨1073741824, 3, 2⟩ 4294967296 [4, 2, 1] ∧
    total_entries ⟨1073741824, 3, 2⟩ = 7516192768 ∧
    (table_of 7516192768 []).length = total_entries ⟨1073741824, 3, 2⟩ ∧
    occupancy_invariant ⟨1073741824, 3, 2⟩ [4, 2, 1] (table_of 7516192768 []) ∧
    1 ≤ blck_size [4, 2, 1] 0 ∧
    target_level ⟨1073741824, 3, 2⟩ [4, 2, 1] 1 2 ∧
    0 < level_width ⟨1073741824, 3, 2⟩ 2 ∧
    reachable_free ⟨1073741824, 3, 2⟩ [4, 2, 1] (table_of 7516192768 []) 2 0 ∧
    get_buf_entry talsh_h_values.TRY_LATER talsh_h_values.DEVICE_UNABLE ⟨1073741824, 3, 2⟩ 1
        (table_of 7516192768 []) (total_entries ⟨1073741824, 3, 2⟩) [4, 2, 1] =
      exec.ret ⟨1, table_of 7516192768 [], none, -1⟩ ∧
    (1 : Int) ≠ 0 ∧ (1 : Int) ≠ talsh_h_values.TRY_LATER := by
  have hz : ∀ lev off, occ_at ⟨1073741824, 3, 2⟩ (table_of 7516192768 []) lev off = 0 := by
    intro lev off
    unfold occ_at
    by_cases hlt : entry_index ⟨1073741824, 3, 2⟩ lev off < 7516192768
    · rw [getD_table_of _ _ _ hlt]
      rfl
    · unfold table_of
      rw [List.getD_eq_default _ _ (by rw [List.length_replicate]; omega)]
  refine ⟨by decide, by decide, ?_, table_of_nil_invariant _ _ _, by decide, by decide,
    by decide, ⟨hz _ _, ?_⟩, get_error_one _ _, by decide, by decide⟩
  · rw [table_of_length]
    decide
  · intro l _ hw
    have := hw.1
    rw [hz] at this
    have h2 : 0 < blck_size [4, 2, 1] l := by
      have : l < 2 := by assumption
      interval_cases l <;> decide
    omega

/-! ## Round trip, large size classes, and the values of the counters -/

theorem size_t_sub_add_cancel (a b : Nat) (h : a + b < 2 ^ 64) :
    size_t_sub (a + b) b = a := by
  unfold size_t_sub SIZE_T_RANGE
  omega

/-- C7, amended (allocate/free round trip): in a well-formed pool (size classes below
`2^31`) with fewer than `2^31` entries whose table `T` satisfies the occupancy invariant, if `get_buf_entry` with a request
of at least one byte succeeds with entry `e = (t, o)`, then the counter of `e` is the
size class of level `t`, the counter of each ancestor of `e` has grown by exactly
that amount, no other counter has changed, and `free_buf_entry(e)` returns 0 and
restores the table to exactly `T`. -/
theorem get_free_round_trip (TRY_LATER DEVICE_UNABLE : Int) (c : ab_conf_t)
    (pool_size : Nat) (sizes T : List Nat) (bsize : Nat)
    (hwf : well_formed c pool_size sizes) (hint : total_entries c < 2 ^ 31)
    (hT : T.length = total_entries c)
    (hinv : occupancy_invariant c sizes T) (hb1 : 1 ≤ bsize)
    (hTL : TRY_LATER ≠ 0) (hDU : DEVICE_UNABLE ≠ 0) :
    ∃ r, get_buf_entry TRY_LATER DEVICE_UNABLE c bsize T (total_entries c) sizes =
        exec.ret r ∧
      (r.status = 0 →
        ∃ t o, t < c.buf_depth.toNat ∧ o < level_width c t ∧
          r.entry_num = ((entry_index c t o : Nat) : Int) ∧
          occ_at c r.ab_occ t o = blck_size sizes t ∧
          (∀ l < t, occ_at c r.ab_occ l (o / c.buf_branch.toNat ^ (t - l)) =
            occ_at c T l (o / c.buf_branch.toNat ^ (t - l)) + blck_size sizes t) ∧
          (∀ l < c.buf_depth.toNat, ∀ x < level_width c l, ¬ on_path c t o l x →
            occ_at c r.ab_occ l x = occ_at c T l x) ∧
          free_buf_entry c r.ab_occ (total_entries c) sizes r.entry_num = some (0, T)) := by
  have h : pool_ok c pool_size sizes := ⟨hwf, hint⟩
  have hc := pool_ok_conf_ok c pool_size sizes h
  have hs : sizes.length = c.buf_depth.toNat := h.1.2.2.2.2.1
  have hle := inv_le c pool_size sizes T h hinv
  by_cases hbig : blck_size sizes 0 < bsize
  · exact ⟨_, get_buf_entry_beyond_top TRY_LATER DEVICE_UNABLE c pool_size sizes T bsize h.1 hT
      hle hbig, fun hs0 => absurd hs0 hDU⟩
  · obtain ⟨t, ht⟩ := target_level_exists c pool_size sizes bsize h (by omega)
    have hdeep := inv_deep c pool_size sizes T bsize t h hinv hb1 ht.1
    rcases get_buf_entry_spec TRY_LATER DEVICE_UNABLE c pool_size sizes T bsize t h hT ht hdeep
      with ⟨o, ho, hav, _, hr⟩ | ⟨_, hr⟩
    · refine ⟨_, hr, fun _ => ⟨t, o, ht.1, ho, rfl, ?_⟩⟩
      have hpa := table_after_get_path_add c pool_size sizes T h hT hle t o ht.1 ho hav.1
      have hpos := wf_size_pos c pool_size sizes h t ht.1
      have hself : occ_at c (table_after_get c sizes T t o) t o = blck_size sizes t := by
        rw [hpa t ht.1 o ho, if_pos ((on_path_cases c t o t o).2 (Or.inr ⟨rfl, rfl⟩)), hav.1,
          zero_add]
      have hlen1 : (table_after_get c sizes T t o).length = total_entries c := by
        rw [table_after_get_length, hT]
      refine ⟨hself, ?_, ?_, ?_⟩
      · intro l hl
        have hval := anc_lt_width c hc t o (t - l) (by omega) ho
        rw [show t - (t - l) = l by omega] at hval
        rw [hpa l (by have := ht.1; omega) _ hval,
          if_pos ((on_path_cases c t o l _).2 (Or.inl ⟨hl, rfl⟩))]
      · intro l hl x hx hoff
        exact path_add_same c T _ t o _ hpa l hl x hx hoff
      · simp only
        rw [free_buf_entry_eq c hc sizes _ hs hlen1 t o ht.1 ho, if_pos hself]
        congr 2
        apply table_ext c _ T (by rw [table_after_free_length, hlen1]) hT
        intro l x hl hx
        rw [occ_at_table_after_free c sizes _ hlen1 t o ht.1 ho l x hl hx,
          level_k_eq c pool_size sizes h t ht.1]
        have hb2 := wf_size_pos c pool_size sizes h l hl
        have hb3 := hle l hl x hx
        by_cases h1 : l < t ∧ x = o / c.buf_branch.toNat ^ (t - l)
        · rw [if_pos h1, hpa l hl x hx, if_pos ((on_path_cases c t o l x).2 (Or.inl h1))]
          exact size_t_sub_add_cancel _ _ (by omega)
        · rw [if_neg h1]
          by_cases h2 : l = t ∧ x = o
          · rw [if_pos h2]
            obtain ⟨rfl, rfl⟩ := h2
            exact hav.1.symm
          · rw [if_neg h2]
            apply path_add_same c T _ t o _ hpa l hl x hx
            intro hon
            rcases (on_path_cases c t o l x).1 hon with h3 | h3
            · exact h1 h3
            · exact h2 h3
    · exact ⟨_, hr, fun hs0 => absurd hs0 hTL⟩

/-- Instance of `get_free_round_trip`: the pool of 5,760,000 bytes (`top=3`,
`branch=2`, `depth=4`) with entry 9 occupied, and a request of 100 bytes, which is
served by entry 23 and released again. -/
theorem get_free_round_trip_witness :
    ∃ r, get_buf_entry (-1) (-2) ⟨3, 4, 2⟩ 100
        ((((List.replicate 45 0).set 9 480000).set 3 480000).set 0 480000)
        (total_entries ⟨3, 4, 2⟩) [1920000, 960000, 480000, 240000] = exec.ret r ∧
      r.status = 0 ∧ r.entry_num = 23 ∧
      free_buf_entry ⟨3, 4, 2⟩ r.ab_occ (total_entries ⟨3, 4, 2⟩)
        [1920000, 960000, 480000, 240000] r.entry_num =
        some (0, (((List.replicate 45 0).set 9 480000).set 3 480000).set 0 480000) := by
  obtain ⟨r, h1, h2⟩ := get_free_round_trip (-1) (-2) ⟨3, 4, 2⟩ 5760000
    [1920000, 960000, 480000, 240000]
    ((((List.replicate 45 0).set 9 480000).set 3 480000).set 0 480000) 100
    (by decide) (by decide) (by decide) (by decide) (by decide) (by decide) (by decide)
  have h3 : get_buf_entry (-1) (-2) ⟨3, 4, 2⟩ 100
      ((((List.replicate 45 0).set 9 480000).set 3 480000).set 0 480000)
      (total_entries ⟨3, 4, 2⟩) [1920000, 960000, 480000, 240000] =
      exec.ret ⟨0, (((((List.replicate 45 0).set 9 480000).set 3 480000).set 0 720000).set 23
        240000).set 10 240000 |>.set 3 720000, some 480000, 23⟩ := by decide
  rw [h3] at h1
  cases h1
  obtain ⟨_, _, _, _, _, _, _, _, h4⟩ := h2 rfl
  exact ⟨_, h3, rfl, rfl, h4⟩

/-- C7 as stated fails in a well-formed pool with `2^31` entries or more. In the pool
of 2147483646 bytes with `top = 2^30 - 1`, `depth = 2`, `branch = 2` (size classes 2, 1;
3221225469 entries) a request of one byte on the empty table succeeds with the entry
1073741823, the first entry of level 1, and the `free_buf_entry(1073741823)` that
follows returns 1 and leaves the table as it is after the request: in
`ab_get_2d_pos` the end `3 * (2^30 - 1)` of level 1 leaves the range of `int`, and no
level is found for the entry. -/
theorem get_free_round_trip_counterexample :
    well_formed ⟨1073741823, 2, 2⟩ 2147483646 [2, 1] ∧
    total_entries ⟨1073741823, 2, 2⟩ = 3221225469 ∧
    (table_of 3221225469 []).length = total_entries ⟨1073741823, 2, 2⟩ ∧
    occupancy_invariant ⟨1073741823, 2, 2⟩ [2, 1] (table_of 3221225469 []) ∧
    get_buf_entry talsh_h_values.TRY_LATER talsh_h_values.DEVICE_UNABLE ⟨1073741823, 2, 2⟩ 1
        (table_of 3221225469 []) (total_entries ⟨1073741823, 2, 2⟩) [2, 1] =
      exec.ret ⟨0, table_of 3221225469 [(0, 1), (1073741823, 1)], some 0, 1073741823⟩ ∧
    entry_index ⟨1073741823, 2, 2⟩ 1 0 = 1073741823 ∧
    free_buf_entry ⟨1073741823, 2, 2⟩ (table_of 3221225469 [(0, 1), (1073741823, 1)])
        (total_entries ⟨1073741823, 2, 2⟩) [2, 1] 1073741823 =
      some (1, table_of 3221225469 [(0, 1), (1073741823, 1)]) ∧
    table_of 3221225469 [(0, 1), (1073741823, 1)] ≠ table_of 3221225469 [] := by
  refine ⟨by decide, by decide, ?_, table_of_nil_invariant _ _ _, get_one_last_level _ _,
    by decide, free_last_level_rejected _, ?_⟩
  · rw [table_of_length]
    decide
  · intro heq
    have h1 := getD_table_of 3221225469 [(0, 1), (1073741823, 1)] 0 (by decide)
    have h2 := getD_table_of 3221225469 [] 0 (by decide)
    rw [heq, h2] at h1
    exact absurd h1 (by decide)

set_option maxRecDepth 100000 in
/-- C8 (large size classes) does not hold for the code: in the Host configuration
(`top=3`, `depth=7`, `branch=2`) with a buffer of 6 GiB the level-0 size class is
`2^31`; a request of `2^31` bytes succeeds with entry 0, but the counter of entry 0
becomes `2^64 - 2^31` (the size class went through the `int` variable `k`), not
`2^31`, and the `free_buf_entry` that follows returns 3 instead of 0. -/
theorem large_size_class_counter (TRY_LATER DEVICE_UNABLE : Int) :
    get_buf_entry TRY_LATER DEVICE_UNABLE ⟨3, 7, 2⟩ 2147483648 (List.replicate 381 0) 381
      [2147483648, 1073741824, 536870912, 268435456, 134217728, 67108864, 33554432] =
      exec.ret ⟨0, (List.replicate 381 0).set 0 18446744071562067968, some 0, 0⟩ ∧
    blck_size [2147483648, 1073741824, 536870912, 268435456, 134217728, 67108864, 33554432] 0 =
      6442450944 / 3 ∧
    free_buf_entry ⟨3, 7, 2⟩ ((List.replicate 381 0).set 0 18446744071562067968) 381
      [2147483648, 1073741824, 536870912, 268435456, 134217728, 67108864, 33554432] 0 =
      some (3, (List.replicate 381 0).set 0 18446744071562067968) := by
  exact ⟨rfl, rfl, by decide⟩

/-- C9 as stated does not hold. In the pool of 5,760,000 bytes (`top=3`, `branch=2`,
`depth=4`, size classes 1,920,000; 960,000; 480,000; 240,000) one request of 300,000
bytes is served by entry 9 of level 2, and the counter of its parent, entry `(1, 0)`,
becomes 480,000, which is neither 0 nor the size class 960,000 of level 1.
Moreover a request of 0 bytes that follows a request of 1,920,000 bytes is served
below the occupied entry 0 and raises the counter of entry `(0, 0)` to 2,160,000,
above its size class.
And in a well-formed pool with `2^31` entries or more the counter of an entry can
differ from 0, from its size class and from the sum of its children's counters: in
the pool of 17600777027584 bytes with `top = 2^20`, `depth = 3`, `branch = 4097` (size
classes 16785409, 4097, 1) the first request, of one byte, is served by the entry
number 2097152, the number of the entry `(1, 1048576)`, whose counter becomes 1 while
the counters of its children stay 0. -/
theorem two_valued_counterexample :
    (pool_respects (-1) (-2) ⟨3, 4, 2⟩ [1920000, 960000, 480000, 240000]
        [pool_op.get 300000] (pool_init ⟨3, 4, 2⟩) ∧
      pool_run (-1) (-2) ⟨3, 4, 2⟩ [1920000, 960000, 480000, 240000] [pool_op.get 300000]
        (pool_init ⟨3, 4, 2⟩) =
        exec.ret ⟨(((List.replicate 45 0).set 9 480000).set 3 480000).set 0 480000, [9]⟩ ∧
      ¬ (∀ lev < 4, ∀ off < level_width ⟨3, 4, 2⟩ lev,
        occ_at ⟨3, 4, 2⟩ ((((List.replicate 45 0).set 9 480000).set 3 480000).set 0 480000)
            lev off = 0 ∨
        occ_at ⟨3, 4, 2⟩ ((((List.replicate 45 0).set 9 480000).set 3 480000).set 0 480000)
            lev off = blck_size [1920000, 960000, 480000, 240000] lev)) ∧
    (pool_run (-1) (-2) ⟨3, 4, 2⟩ [1920000, 960000, 480000, 240000]
        [pool_op.get 1920000, pool_op.get 0] (pool_init ⟨3, 4, 2⟩) =
        exec.ret ⟨((((List.replicate 45 0).set 0 2160000).set 3 240000).set 9 240000).set 21
          240000, [21, 0]⟩ ∧
      blck_size [1920000, 960000, 480000, 240000] 0 = 1920000) ∧
    (well_formed ⟨1048576, 3, 4097⟩ 17600777027584 [16785409, 4097, 1] ∧
      total_entries ⟨1048576, 3, 4097⟩ = 17605074092032 ∧
      pool_respects (-1) (-2) ⟨1048576, 3, 4097⟩ [16785409, 4097, 1] [pool_op.get 1] (pool_init ⟨1048576, 3, 4097⟩) ∧
      pool_run (-1) (-2) ⟨1048576, 3, 4097⟩ [16785409, 4097, 1] [pool_op.get 1] (pool_init ⟨1048576, 3, 4097⟩) =
        exec.ret ⟨table_of 17605074092032 [(0, 1), (1048576, 1), (2097152, 1)], [2097152]⟩ ∧
      1048576 < level_width ⟨1048576, 3, 4097⟩ 1 ∧
      entry_index ⟨1048576, 3, 4097⟩ 1 1048576 = 2097152 ∧
      occ_at ⟨1048576, 3, 4097⟩ (table_of 17605074092032 [(0, 1), (1048576, 1), (2097152, 1)]) 1 1048576 = 1 ∧
      blck_size [16785409, 4097, 1] 1 = 4097 ∧
      children_sum ⟨1048576, 3, 4097⟩ (table_of 17605074092032 [(0, 1), (1048576, 1), (2097152, 1)])
        1 1048576 = 0) := by
  refine ⟨⟨by decide, by decide, ?_⟩, ⟨by decide, by decide⟩,
    by decide, by decide, wrapped_level_respects _ _, wrapped_level_run _ _, by decide,
    by decide, wrapped_level_counter, by decide, wrapped_level_children⟩
  intro hall
  have := hall 1 (by decide) 0 (by decide)
  revert this
  decide

/-- C9 as amended: in every occupancy table reachable from the all-zero table of a
well-formed pool with fewer than `2^31` entries by `get_buf_entry` calls with request size at least 1 and by
`free_buf_entry` calls on live entries, the counter of every entry is 0, or exactly
the size class of its level, or (for an entry above the deepest level) the sum of
its children's counters, which is at most the size class of its level; the
counter of every entry of the deepest level is 0 or its size class, and the counter
of every live entry is exactly its size class. -/
theorem counters_zero_full_or_sum (TRY_LATER DEVICE_UNABLE : Int) (c : ab_conf_t)
    (pool_size : Nat) (sizes : List Nat) (hwf : well_formed c pool_size sizes)
    (hint : total_entries c < 2 ^ 31)
    (hTL : TRY_LATER ≠ 0) (hDU : DEVICE_UNABLE ≠ 0) (ops : List pool_op)
    (hresp : pool_respects TRY_LATER DEVICE_UNABLE c sizes ops (pool_init c)) :
    ∃ st, pool_run TRY_LATER DEVICE_UNABLE c sizes ops (pool_init c) = exec.ret st ∧
      (∀ lev < c.buf_depth.toNat, ∀ off < level_width c lev,
        occ_at c st.ab_occ lev off = 0 ∨
        occ_at c st.ab_occ lev off = blck_size sizes lev ∨
        (lev + 1 < c.buf_depth.toNat ∧
          occ_at c st.ab_occ lev off = children_sum c st.ab_occ lev off ∧
          occ_at c st.ab_occ lev off ≤ blck_size sizes lev)) ∧
      (∀ lev < c.buf_depth.toNat, lev + 1 = c.buf_depth.toNat → ∀ off < level_width c lev,
        occ_at c st.ab_occ lev off = 0 ∨ occ_at c st.ab_occ lev off = blck_size sizes lev) ∧
      (∀ e ∈ st.live, ∃ lev off, lev < c.buf_depth.toNat ∧ off < level_width c lev ∧
        e = ((entry_index c lev off : Nat) : Int) ∧
        occ_at c st.ab_occ lev off = blck_size sizes lev) := by
  have h : pool_ok c pool_size sizes := ⟨hwf, hint⟩
  obtain ⟨st, h1, _, hocc, hlive, _⟩ := pool_run_inv TRY_LATER DEVICE_UNABLE c pool_size
    sizes h hTL hDU ops (pool_init c) (pool_init_inv c sizes) hresp
  have hle := inv_le c pool_size sizes st.ab_occ h hocc
  refine ⟨st, h1, ?_, ?_, ?_⟩
  · intro lev hl off ho
    rcases hocc lev hl off ho with hw | hsum
    · exact Or.inr (Or.inl hw.1)
    · by_cases hd : lev + 1 < c.buf_depth.toNat
      · rw [if_pos hd] at hsum
        exact Or.inr (Or.inr ⟨hd, hsum, hle lev hl off ho⟩)
      · rw [if_neg hd] at hsum
        exact Or.inl hsum
  · intro lev hl hd off ho
    rcases hocc lev hl off ho with hw | hsum
    · exact Or.inr hw.1
    · rw [if_neg (by omega)] at hsum
      exact Or.inl hsum
  · intro e he
    obtain ⟨l, x, hl, hx, hex, hw⟩ := hlive e he
    exact ⟨l, x, hl, hx, hex, hw.1⟩

/-- Instance of `counters_zero_full_or_sum`: the pool of 5,760,000 bytes (`top=3`,
`branch=2`, `depth=4`) and the calls get 300000, get 1000000, free 9, get 100. -/
theorem counters_zero_full_or_sum_witness :
    ∃ st, pool_run (-1) (-2) ⟨3, 4, 2⟩ [1920000, 960000, 480000, 240000]
        [pool_op.get 300000, pool_op.get 1000000, pool_op.free 9, pool_op.get 100]
        (pool_init ⟨3, 4, 2⟩) = exec.ret st ∧
      (∀ e ∈ st.live, ∃ lev off, lev < (4 : Int).toNat ∧ off < level_width ⟨3, 4, 2⟩ lev ∧
        e = ((entry_index ⟨3, 4, 2⟩ lev off : Nat) : Int) ∧
        occ_at ⟨3, 4, 2⟩ st.ab_occ lev off = blck_size [1920000, 960000, 480000, 240000] lev) := by
  obtain ⟨st, h1, _, _, h4⟩ := counters_zero_full_or_sum (-1) (-2) ⟨3, 4, 2⟩ 5760000
    [1920000, 960000, 480000, 240000] (by decide) (by decide) (by decide) (by decide)
    [pool_op.get 300000, pool_op.get 1000000, pool_op.free 9, pool_op.get 100] (by decide)
  exact ⟨st, h1, h4⟩

/-! ## The free list is a stack -/

theorem const_args_entry_free_step (MAXG MAXA : Int) (mine : Int → Int) (g : Nat)
    (st : const_args_t) (e : Int)
    (hs : const_args_shape MAXG MAXA st) (hr : st.bufs_ready ≠ 0)
    (hg : (g : Int) < MAXG) (hm : mine g ≠ 0)
    (hf : 0 ≤ st.const_args_ffe.getD g 0 ∧ st.const_args_ffe.getD g 0 < MAXA)
    (he : 0 ≤ e ∧ e < MAXA) :
    ∃ st1, const_args_entry_free MAXG MAXA mine st g e = (0, st1) ∧
      const_args_shape MAXG MAXA st1 ∧ st1.bufs_ready = st.bufs_ready ∧
      st1.const_args_ffe.getD g 0 = e ∧
      st1.const_args_link.getD g [] =
        (st.const_args_link.getD g []).set e.toNat (st.const_args_ffe.getD g 0) := by
  have hg0 : (0 : Int) ≤ (g : Int) := Int.ofNat_nonneg g
  obtain ⟨hs1, hs2, hs3⟩ := hs
  have hgl : g < st.const_args_link.length := by rw [hs2]; omega
  have hgf : g < st.const_args_ffe.length := by rw [hs1]; omega
  refine ⟨{ st with
      const_args_link := st.const_args_link.set g
        ((st.const_args_link.getD g []).set e.toNat (st.const_args_ffe.getD g 0))
      const_args_ffe := st.const_args_ffe.set g e }, ?_, ?_, rfl, ?_, ?_⟩
  · unfold const_args_entry_free
    rw [if_neg hr, if_pos ⟨hg0, hg⟩, if_pos hm, if_pos he]
    simp only [Int.toNat_ofNat]
    rw [if_pos ⟨hf.2, hf.1⟩]
  · refine ⟨by simp [hs1], by simp [hs2], ?_⟩
    intro row hrow
    simp only at hrow
    rcases List.mem_or_eq_of_mem_set hrow with h | h
    · exact hs3 row h
    · rw [h, List.length_set]
      rw [List.getD_eq_getElem _ _ hgl]
      exact hs3 _ (List.getElem_mem _)
  · simp only
    rw [List.getD_eq_getElem _ _ (by simp; exact hgf)]
    simp
  · simp only
    rw [List.getD_eq_getElem _ _ (by simp; exact hgl)]
    simp

theorem const_args_entry_get_pop (TL MAXG MAXA : Int) (mine : Int → Int) (g : Nat)
    (st : const_args_t)
    (hs : const_args_shape MAXG MAXA st) (hr : st.bufs_ready ≠ 0)
    (hg : (g : Int) < MAXG) (hm : mine g ≠ 0)
    (hf : 0 ≤ st.const_args_ffe.getD g 0 ∧ st.const_args_ffe.getD g 0 < MAXA) :
    ∃ st1, const_args_entry_get TL MAXG MAXA mine st g =
        (0, st.const_args_ffe.getD g 0, st1) ∧
      const_args_shape MAXG MAXA st1 ∧ st1.bufs_ready = st.bufs_ready ∧
      st1.const_args_link = st.const_args_link ∧
      st1.const_args_ffe.getD g 0 =
        (st.const_args_link.getD g []).getD (st.const_args_ffe.getD g 0).toNat 0 := by
  have hg0 : (0 : Int) ≤ (g : Int) := Int.ofNat_nonneg g
  obtain ⟨hs1, hs2, hs3⟩ := hs
  have hgf : g < st.const_args_ffe.length := by rw [hs1]; omega
  refine ⟨{ st with const_args_ffe := (st.const_args_ffe.set g
      ((st.const_args_link.getD g []).getD (st.const_args_ffe.getD g 0).toNat 0)) },
    ?_, ⟨by simp [hs1], hs2, hs3⟩, rfl, rfl, ?_⟩
  · unfold const_args_entry_get
    rw [if_neg hr, if_pos ⟨hg0, hg⟩, if_pos hm]
    simp only [Int.toNat_ofNat]
    rw [if_pos hf]
  · simp only
    rw [List.getD_eq_getElem _ _ (by simp; exact hgf)]
    simp

theorem const_args_get_seq_succ (TL MAXG MAXA : Int) (mine : Int → Int) (g : Int) (n : Nat) :
    ∀ st : const_args_t,
    const_args_get_seq TL MAXG MAXA mine g (n + 1) st =
      ((const_args_get_seq TL MAXG MAXA mine g n st).1 ++
        [((const_args_entry_get TL MAXG MAXA mine
            (const_args_get_seq TL MAXG MAXA mine g n st).2 g).1,
          (const_args_entry_get TL MAXG MAXA mine
            (const_args_get_seq TL MAXG MAXA mine g n st).2 g).2.1)],
       (const_args_entry_get TL MAXG MAXA mine
          (const_args_get_seq TL MAXG MAXA mine g n st).2 g).2.2) := by
  induction n with
  | zero => intro st; simp [const_args_get_seq]
  | succ n ih =>
    intro st
    rw [const_args_get_seq]
    rw [ih]
    simp [const_args_get_seq]

theorem const_args_free_get_seq (TL MAXG MAXA : Int) (mine : Int → Int) (g : Nat)
    (hg : (g : Int) < MAXG) (hm : mine g ≠ 0) (es : List Int) :
    ∀ st : const_args_t, const_args_shape MAXG MAXA st → st.bufs_ready ≠ 0 →
      (0 ≤ st.const_args_ffe.getD g 0 ∧ st.const_args_ffe.getD g 0 < MAXA) →
      (∀ e ∈ es, 0 ≤ e ∧ e < MAXA) → es.Nodup →
      (const_args_free_seq MAXG MAXA mine g es st).1 = List.replicate es.length 0 ∧
      const_args_shape MAXG MAXA (const_args_free_seq MAXG MAXA mine g es st).2 ∧
      (const_args_free_seq MAXG MAXA mine g es st).2.bufs_ready = st.bufs_ready ∧
      (∀ j : Int, 0 ≤ j → j ∉ es →
        ((const_args_free_seq MAXG MAXA mine g es st).2.const_args_link.getD g []).getD
            j.toNat 0 = (st.const_args_link.getD g []).getD j.toNat 0) ∧
      (const_args_get_seq TL MAXG MAXA mine g es.length
          (const_args_free_seq MAXG MAXA mine g es st).2).1 =
        es.reverse.map (fun e => ((0 : Int), e)) ∧
      const_args_shape MAXG MAXA (const_args_get_seq TL MAXG MAXA mine g es.length
          (const_args_free_seq MAXG MAXA mine g es st).2).2 ∧
      (const_args_get_seq TL MAXG MAXA mine g es.length
          (const_args_free_seq MAXG MAXA mine g es st).2).2.bufs_ready = st.bufs_ready ∧
      (const_args_get_seq TL MAXG MAXA mine g es.length
          (const_args_free_seq MAXG MAXA mine g es st).2).2.const_args_link =
        (const_args_free_seq MAXG MAXA mine g es st).2.const_args_link ∧
      (const_args_get_seq TL MAXG MAXA mine g es.length
          (const_args_free_seq MAXG MAXA mine g es st).2).2.const_args_ffe.getD g 0 =
        st.const_args_ffe.getD g 0 := by
  induction es with
  | nil =>
    intro st hs hr hf _ _
    simp [const_args_free_seq, const_args_get_seq, hs]
  | cons e es ih =>
    intro st hs hr hf hrange hnd
    have he : 0 ≤ e ∧ e < MAXA := hrange e (List.mem_cons_self _ _)
    obtain ⟨st1, e1, hs1, hr1, hf1, hl1⟩ :=
      const_args_entry_free_step MAXG MAXA mine g st e hs hr hg hm hf he
    have hnd1 : es.Nodup := (List.nodup_cons.mp hnd).2
    have hnot : e ∉ es := (List.nodup_cons.mp hnd).1
    obtain ⟨a1, a2, a3, a4, a5, a6, a7, a8, a9⟩ := ih st1 hs1 (by rw [hr1]; exact hr)
      (by rw [hf1]; exact he) (fun x hx => hrange x (List.mem_cons_of_mem _ hx)) hnd1
    have hfs : const_args_free_seq MAXG MAXA mine g (e :: es) st =
        (0 :: (const_args_free_seq MAXG MAXA mine g es st1).1,
          (const_args_free_seq MAXG MAXA mine g es st1).2) := by
      rw [const_args_free_seq]; simp only [e1]
    rw [hfs]
    simp only [List.length_cons]
    rw [const_args_get_seq_succ]
    simp only
    have hrow : (st.const_args_link.getD g []).length = MAXA.toNat := by
      obtain ⟨_, h2, h3⟩ := hs
      rw [List.getD_eq_getElem _ _ (by rw [h2]; omega)]
      exact h3 _ (List.getElem_mem _)
    obtain ⟨st2, e2, hs2, hr2, hl2, hf2⟩ :=
      const_args_entry_get_pop TL MAXG MAXA mine g _ a6 (by rw [a7, hr1]; exact hr) hg hm
        (by rw [a9, hf1]; exact he)
    rw [e2]
    simp only
    refine ⟨by rw [a1]; rfl, a2, by rw [a3, hr1], ?_, ?_, hs2, by rw [hr2, a7, hr1],
      by rw [hl2, a8], ?_⟩
    · intro j hj0 hj
      have hj1 : j ≠ e := fun h => hj (by rw [h]; exact List.mem_cons_self _ _)
      have hj2 : j ∉ es := fun h => hj (List.mem_cons_of_mem _ h)
      rw [a4 j hj0 hj2, hl1]
      rw [List.getD_eq_getElem?_getD, List.getElem?_set_ne (by omega)]
      rw [← List.getD_eq_getElem?_getD]
    · rw [a5, a9, hf1]; simp
    · rw [hf2, a8, a9, hf1, a4 e he.1 hnot, hl1]
      rw [List.getD_eq_getElem _ _ (by rw [List.length_set, hrow]; omega)]
      simp

/-- C11 (freelist LIFO): in a state of the free list of an owned GPU whose cursor
`const_args_ffe` is a valid slot index, releasing the distinct slots `e1,...,en` in
this order returns status 0 each time, and the `n` acquisitions that follow return
`en,...,e1` in this order, each with status 0, and leave the cursor at the value it
had before the first release. -/
theorem const_args_release_acquire_lifo (TRY_LATER MAX_GPUS_PER_NODE MAX_GPU_ARGS : Int)
    (gpu_is_mine : Int → Int) (st : const_args_t) (gpu_num : Int) (es : List Int)
    (hshape : const_args_shape MAX_GPUS_PER_NODE MAX_GPU_ARGS st)
    (hready : st.bufs_ready ≠ 0)
    (hlo : 0 ≤ gpu_num) (hhi : gpu_num < MAX_GPUS_PER_NODE)
    (hmine : gpu_is_mine gpu_num ≠ 0)
    (hffe : 0 ≤ st.const_args_ffe.getD gpu_num.toNat 0 ∧
      st.const_args_ffe.getD gpu_num.toNat 0 < MAX_GPU_ARGS)
    (hslots : ∀ e ∈ es, 0 ≤ e ∧ e < MAX_GPU_ARGS) (hdistinct : es.Nodup) :
    (const_args_free_seq MAX_GPUS_PER_NODE MAX_GPU_ARGS gpu_is_mine gpu_num es st).1 =
      List.replicate es.length 0 ∧
    (const_args_get_seq TRY_LATER MAX_GPUS_PER_NODE MAX_GPU_ARGS gpu_is_mine gpu_num
        es.length
        (const_args_free_seq MAX_GPUS_PER_NODE MAX_GPU_ARGS gpu_is_mine gpu_num es st).2).1 =
      es.reverse.map (fun e => ((0 : Int), e)) ∧
    (const_args_get_seq TRY_LATER MAX_GPUS_PER_NODE MAX_GPU_ARGS gpu_is_mine gpu_num
        es.length
        (const_args_free_seq MAX_GPUS_PER_NODE MAX_GPU_ARGS gpu_is_mine gpu_num es
          st).2).2.const_args_ffe.getD gpu_num.toNat 0 =
      st.const_args_ffe.getD gpu_num.toNat 0 := by
  obtain ⟨g, rfl⟩ := Int.eq_ofNat_of_zero_le hlo
  simp only [Int.toNat_ofNat] at hffe ⊢
  obtain ⟨a1, _, _, _, a5, _, _, _, a9⟩ :=
    const_args_free_get_seq TRY_LATER MAX_GPUS_PER_NODE MAX_GPU_ARGS gpu_is_mine g hhi hmine
      es st hshape hready hffe hslots hdistinct
  exact ⟨a1, a5, a9⟩

/-- Instance of `const_args_release_acquire_lifo`: capacity 4, the slots 0, 1, 2 are
held and the cursor is at slot 3; the slots 2, 0, 1 are released in this order and come
back as 1, 0, 2, and the cursor is at slot 3 again. -/
theorem const_args_release_acquire_lifo_witness :
    (const_args_get_seq (-5) 1 4 (fun _ => 1) 0 3
        (const_args_free_seq 1 4 (fun _ => 1) 0 [2, 0, 1]
          ⟨1, [[1, 2, 3, 4]], [3]⟩).2).1 = [(0, 1), (0, 0), (0, 2)] ∧
    (const_args_get_seq (-5) 1 4 (fun _ => 1) 0 3
        (const_args_free_seq 1 4 (fun _ => 1) 0 [2, 0, 1]
          ⟨1, [[1, 2, 3, 4]], [3]⟩).2).2.const_args_ffe.getD 0 0 = 3 :=
  ⟨(const_args_release_acquire_lifo (-5) 1 4 (fun _ => 1) ⟨1, [[1, 2, 3, 4]], [3]⟩ 0
      [2, 0, 1] (by simp [const_args_shape]) (by decide) (by decide) (by decide)
      (by decide) (by decide) (by decide) (by decide)).2.1,
   (const_args_release_acquire_lifo (-5) 1 4 (fun _ => 1) ⟨1, [[1, 2, 3, 4]], [3]⟩ 0
      [2, 0, 1] (by simp [const_args_shape]) (by decide) (by decide) (by decide)
      (by decide) (by decide) (by decide) (by decide)).2.2⟩

/-! ## Discarding an image -/

theorem elem_get_natCast {α : Type} (a : List α) (i : Nat) : elem_get a (i : Int) = a.get? i := by
  unfold elem_get
  rw [if_pos (Int.ofNat_nonneg i), Int.toNat_ofNat]

theorem elem_get_of_lt {α : Type} (a : List α) (i : Nat) (h : i < a.length) :
    elem_get a (i : Int) = some (a.get ⟨i, h⟩) := by
  rw [elem_get_natCast, List.get?_eq_get h]

theorem image_discard_count_eq (K : talsh_h) (av : List Int) (image_id : Int) :
    ∀ (rem i : Nat) (n : Int), i + rem ≤ av.length →
      talsh_tensor_image_discard_count K av image_id rem i n =
        exec.ret (n + ((List.range' i rem).countP
          (fun j : Nat => decide ((j : Int) ≠ image_id ∧ image_avail K av j)) : Nat)) := by
  intro rem
  induction rem with
  | zero => intro i n _; simp [talsh_tensor_image_discard_count]
  | succ rem ih =>
    intro i n hlen
    have hi : i < av.length := by omega
    rw [talsh_tensor_image_discard_count, List.range'_succ, List.countP_cons]
    have hcast : ((i : Int) + 1) = ((i + 1 : Nat) : Int) := by push_cast; rfl
    by_cases hne : (i : Int) ≠ image_id
    · rw [if_pos hne, elem_get_of_lt av i hi]
      simp only
      rw [hcast, ih (i + 1) _ (by omega)]
      by_cases hy : av.get ⟨i, hi⟩ = K.YEP
      · have : image_avail K av i := by
          unfold image_avail; rw [List.get?_eq_get hi, hy]
        simp only [hy, if_true, hne, this, ne_eq, not_false_eq_true, and_self, decide_True]
        congr 1; push_cast; ring
      · have : ¬ image_avail K av i := by
          unfold image_avail; rw [List.get?_eq_get hi]
          intro h; exact hy (Option.some.inj h)
        simp only [hy, if_false, this, and_false, decide_False]
        congr 1
    · rw [if_neg hne, hcast, ih (i + 1) _ (by omega)]
      have hne1 : ¬ ((i : Int) ≠ image_id ∧ image_avail K av i) := fun h => hne h.1
      simp only [hne1, decide_False]
      congr 1

theorem exec_ret_inj3 {α β γ : Type} {a a1 : α} {b b1 : β} {c c1 : γ}
    (h : exec.ret (a, b, c) = exec.ret (a1, b1, c1)) : a = a1 ∧ b = b1 ∧ c = c1 := by
  have := exec.ret.inj h
  simp only [Prod.mk.injEq] at this
  exact this

/-- Without another available image, `talsh_tensor_image_discard` refuses to discard
the image and changes nothing. -/
theorem image_discard_not_allowed {W : Type} (K : talsh_h) (E : nvtal W) (w : W)
    (t : talsh_tens_t) (rsc : List talsh_dev_rsc_t) (dk av : List Int) (i : Int)
    (hshape : t.shape_p ≠ none) (htable : image_table_ok t rsc dk av)
    (hlo : 0 ≤ i) (hhi : i < t.ndev)
    (hlast : ∀ j : Nat, (j : Int) < t.ndev → (j : Int) ≠ i → ¬ image_avail K av j) :
    talsh_tensor_image_discard K E w (some t) i =
      exec.ret (K.TALSH_NOT_ALLOWED, some t, w) := by
  obtain ⟨h1, h2, h3, h4, h5, h6, h7, h8⟩ := htable
  unfold talsh_tensor_image_discard
  have hemp : talshTensorIsEmpty K (some t) = K.NOPE := by
    cases hs : t.shape_p with
    | none => exact absurd hs hshape
    | some s => simp [talshTensorIsEmpty, hs]
  simp only [hemp, ne_eq, not_true_eq_false, if_false, h1, h2, h3]
  rw [if_neg (by omega), if_neg (by omega)]
  have hcnt := image_discard_count_eq K av i t.ndev.toNat 0 0 (by omega)
  have hzero : (List.range' 0 t.ndev.toNat).countP
      (fun j : Nat => decide ((j : Int) ≠ i ∧ image_avail K av j)) = 0 := by
    rw [List.countP_eq_zero]
    intro j hj
    rw [List.mem_range'_1] at hj
    have := hlast j (by omega)
    simp only [decide_eq_true_eq, not_and]
    exact this
  rw [hzero] at hcnt
  simp only [Nat.cast_zero] at hcnt
  rw [hcnt]
  simp

/-- C12 (last-image protection): for a non-empty tensor block with a consistent image
table and an image index `i` in `[0, ndev)` such that no other image is available,
`talsh_tensor_image_discard(tens, i)` returns `TALSH_NOT_ALLOWED`, calls no function of
the lower-level runtime (the outside state is the one before the call) and leaves the
tensor block, with `ndev` and every device resource, data kind and availability flag,
as it was. -/
theorem image_discard_last_available {W : Type} (K : talsh_h) (E : nvtal W) (w : W)
    (t : talsh_tens_t) (rsc : List talsh_dev_rsc_t) (dk av : List Int) (i : Int)
    (hshape : t.shape_p ≠ none) (htable : image_table_ok t rsc dk av)
    (hlo : 0 ≤ i) (hhi : i < t.ndev)
    (hlast : ∀ j : Nat, (j : Int) < t.ndev → (j : Int) ≠ i → ¬ image_avail K av j) :
    talsh_tensor_image_discard K E w (some t) i =
      exec.ret (K.TALSH_NOT_ALLOWED, some t, w) :=
  image_discard_not_allowed K E w t rsc dk av i hshape htable hlo hhi hlast

/-- Instance of `image_discard_last_available`: a tensor block with two images, the
first one marked unavailable; discarding the second one is refused. -/
theorem image_discard_last_available_witness :
    talsh_tensor_image_discard talsh_h_values (nvtal_values 0 5) []
      (some ⟨some ⟨1, [5], [], []⟩, some [⟨1, some 64, 3⟩, ⟨0, some 128, -1⟩], some [8, 8],
        some [0, 1], 2, 2⟩) 1 =
      exec.ret (talsh_h_values.TALSH_NOT_ALLOWED,
        some ⟨some ⟨1, [5], [], []⟩, some [⟨1, some 64, 3⟩, ⟨0, some 128, -1⟩], some [8, 8],
          some [0, 1], 2, 2⟩, []) :=
  image_discard_last_available talsh_h_values (nvtal_values 0 5) []
    ⟨some ⟨1, [5], [], []⟩, some [⟨1, some 64, 3⟩, ⟨0, some 128, -1⟩], some [8, 8],
      some [0, 1], 2, 2⟩ [⟨1, some 64, 3⟩, ⟨0, some 128, -1⟩] [8, 8] [0, 1] 1
    (by decide) (by simp [image_table_ok]) (by decide) (by decide)
    (by
      intro j hj hne
      have : j = 0 := by
        simp only at hj
        omega
      subst this
      decide)

theorem talshTensorIsEmpty_nonempty (K : talsh_h) (t : talsh_tens_t) (h : t.shape_p ≠ none) :
    talshTensorIsEmpty K (some t) = K.NOPE := by
  cases hs : t.shape_p with
  | none => exact absurd hs h
  | some s => simp [talshTensorIsEmpty, hs]

theorem elem_get_int {α : Type} (a : List α) (i : Int) (h0 : 0 ≤ i) (h1 : i < a.length) :
    elem_get a i = some (a.get ⟨i.toNat, by omega⟩) := by
  obtain ⟨n, rfl⟩ := Int.eq_ofNat_of_zero_le h0
  rw [elem_get_of_lt a n (by omega)]
  simp

/-- What `talsh_tensor_image_discard` does to a non-empty tensor block with a
consistent image table when another image is available: the resource of image `i` is
released, the last image takes its place and `ndev` decreases by one. -/
theorem image_discard_removes {W : Type} (K : talsh_h) (E : nvtal W) (w : W)
    (t : talsh_tens_t) (rsc : List talsh_dev_rsc_t) (dk av : List Int) (i : Nat)
    (hshape : t.shape_p ≠ none) (htable : image_table_ok t rsc dk av)
    (hhi : (i : Int) < t.ndev)
    (hother : ∃ j : Nat, (j : Int) < t.ndev ∧ j ≠ i ∧ image_avail K av j) :
    ∃ (hi : i < rsc.length) (hn1 : t.ndev.toNat - 1 < rsc.length)
      (hn2 : t.ndev.toNat - 1 < dk.length) (hn3 : t.ndev.toNat - 1 < av.length),
    talsh_tensor_image_discard K E w (some t) i =
      exec.ret
        (if (E.tensDevRsc_release_all w (rsc.get ⟨i, hi⟩)).1 ≠ 0 ∧
            (E.tensDevRsc_release_all w (rsc.get ⟨i, hi⟩)).1 ≠ K.NOT_CLEAN
          then K.TALSH_FAILURE else (E.tensDevRsc_release_all w (rsc.get ⟨i, hi⟩)).1,
         some (if (i : Int) < t.ndev - 1 then
           { t with
             dev_rsc := some (((rsc.set i (E.tensDevRsc_release_all w (rsc.get ⟨i, hi⟩)).2.1).set i
               (rsc.get ⟨t.ndev.toNat - 1, hn1⟩)))
             data_kind := some (dk.set i (dk.get ⟨t.ndev.toNat - 1, hn2⟩))
             avail := some (av.set i (av.get ⟨t.ndev.toNat - 1, hn3⟩))
             ndev := t.ndev - 1 }
           else
           { t with
             dev_rsc := some (rsc.set i (E.tensDevRsc_release_all w (rsc.get ⟨i, hi⟩)).2.1)
             ndev := t.ndev - 1 }),
         (E.tensDevRsc_release_all w (rsc.get ⟨i, hi⟩)).2.2) := by
  obtain ⟨h1, h2, h3, h4, h5, h6, h7, h8⟩ := htable
  have hi : i < rsc.length := by omega
  have hn1 : t.ndev.toNat - 1 < rsc.length := by omega
  have hn2 : t.ndev.toNat - 1 < dk.length := by omega
  have hn3 : t.ndev.toNat - 1 < av.length := by omega
  refine ⟨hi, hn1, hn2, hn3, ?_⟩
  unfold talsh_tensor_image_discard
  simp only [talshTensorIsEmpty_nonempty K t hshape, ne_eq, not_true_eq_false, if_false,
    h1, h2, h3]
  rw [if_neg (by omega), if_neg (by omega)]
  have hcnt := image_discard_count_eq K av i t.ndev.toNat 0 0 (by omega)
  simp only [Nat.cast_zero, zero_add] at hcnt
  rw [hcnt]
  have hpos : 0 < (List.range' 0 t.ndev.toNat).countP
      (fun j : Nat => decide ((j : Int) ≠ (i : Int) ∧ image_avail K av j)) := by
    rw [List.countP_pos_iff]
    obtain ⟨j, hj1, hj2, hj3⟩ := hother
    refine ⟨j, ?_, ?_⟩
    · rw [List.mem_range'_1]; omega
    · simp only [decide_eq_true_eq]
      exact ⟨by exact_mod_cast hj2, hj3⟩
  simp only
  rw [if_neg (by omega)]
  rw [elem_get_of_lt rsc i hi]
  simp only [Int.toNat_ofNat]
  by_cases hlt : (i : Int) < t.ndev - 1
  · rw [if_pos hlt, if_pos hlt]
    have hc : t.ndev - 1 = ((t.ndev.toNat - 1 : Nat) : Int) := by omega
    rw [hc, elem_get_of_lt _ _ (by rw [List.length_set]; exact hn1), elem_get_of_lt dk _ hn2,
      elem_get_of_lt av _ hn3]
    simp only
    have hne : i ≠ t.ndev.toNat - 1 := by omega
    have hget : (rsc.set i (E.tensDevRsc_release_all w (rsc.get ⟨i, hi⟩)).2.1).get
        ⟨t.ndev.toNat - 1, by rw [List.length_set]; exact hn1⟩ =
        rsc.get ⟨t.ndev.toNat - 1, hn1⟩ := by
      simp only [List.get_eq_getElem]
      rw [List.getElem_set_ne hne]
    rw [hget, ← hc]
  · rw [if_neg hlt, if_neg hlt]

/-- The image-removing operation `talsh_tensor_image_discard` keeps an available image:
on a non-empty tensor block with a consistent image table and an available image it
returns, whatever the index, with a non-empty tensor block that has an available
image. -/
theorem image_discard_keeps_available {W : Type} (K : talsh_h) (E : nvtal W) (w : W)
    (t : talsh_tens_t) (rsc : List talsh_dev_rsc_t) (dk av : List Int) (i : Int)
    (hshape : t.shape_p ≠ none) (htable : image_table_ok t rsc dk av)
    (havail : has_avail_image K t) :
    ∃ s t1 w1, talsh_tensor_image_discard K E w (some t) i = exec.ret (s, some t1, w1) ∧
      t1.shape_p ≠ none ∧ has_avail_image K t1 := by
  by_cases hrange : 0 ≤ i ∧ i < t.ndev
  · obtain ⟨n, rfl⟩ := Int.eq_ofNat_of_zero_le hrange.1
    by_cases hother : ∃ j : Nat, (j : Int) < t.ndev ∧ j ≠ n ∧ image_avail K av j
    · obtain ⟨hi, hn1, hn2, hn3, e⟩ :=
        image_discard_removes K E w t rsc dk av n hshape htable hrange.2 hother
      refine ⟨_, _, _, e, ?_, ?_⟩
      · split <;> exact hshape
      · obtain ⟨j, hj1, hj2, hj3⟩ := hother
        obtain ⟨h1, h2, h3, h4, h5, h6, h7, h8⟩ := htable
        by_cases hlt : (n : Int) < t.ndev - 1
        · rw [if_pos hlt]
          refine ⟨_, rfl, ?_⟩
          by_cases hj : j = t.ndev.toNat - 1
          · refine ⟨n, hlt, ?_⟩
            unfold image_avail at hj3 ⊢
            rw [List.get?_eq_get (by rw [List.length_set]; omega)]
            simp only [List.get_eq_getElem, List.getElem_set_self]
            rw [List.get?_eq_get (by omega)] at hj3
            simp only [List.get_eq_getElem] at hj3
            subst hj
            exact hj3
          · refine ⟨j, by simp only; omega, ?_⟩
            unfold image_avail at hj3 ⊢
            rw [List.get?_eq_getElem?, List.getElem?_set_ne (by omega),
              ← List.get?_eq_getElem?]
            exact hj3
        · rw [if_neg hlt]
          refine ⟨av, h3, j, by simp only; omega, hj3⟩
    · refine ⟨K.TALSH_NOT_ALLOWED, t, w, ?_, hshape, havail⟩
      apply image_discard_not_allowed K E w t rsc dk av n hshape htable hrange.1 hrange.2
      intro j hj hne hav
      exact hother ⟨j, hj, by exact_mod_cast hne, hav⟩
  · refine ⟨K.TALSH_INVALID_ARGS, t, w, ?_, hshape, havail⟩
    obtain ⟨h1, h2, h3, h4, h5, h6, h7, h8⟩ := htable
    unfold talsh_tensor_image_discard
    simp only [talshTensorIsEmpty_nonempty K t hshape, ne_eq, not_true_eq_false, if_false,
      h1, h2, h3]
    rw [if_neg (by omega), if_pos (by omega)]

/-- C13 (at least one available image) does not hold for `talshTensorDiscard`: a
non-empty tensor block whose only image is available and resides on the Host (flat
device id 0) is given to `talshTensorDiscard(tens, 0, DEV_NULL)`. The call releases the
image and returns `TALSH_SUCCESS`; afterwards the tensor block is still non-empty, has
`ndev = 0` and no available image. -/
theorem tensor_discard_last_image :
    has_avail_image talsh_h_values
      ⟨some ⟨1, [5], [], []⟩, some [⟨0, some 128, -1⟩, ⟨-1, none, -1⟩], some [8, 0],
        some [1, 0], 2, 1⟩ ∧
    talshTensorDiscard talsh_h_values (nvtal_values 0 5) 1 []
      (some ⟨some ⟨1, [5], [], []⟩, some [⟨0, some 128, -1⟩, ⟨-1, none, -1⟩], some [8, 0],
        some [1, 0], 2, 1⟩) 0 talsh_h_values.DEV_NULL =
      exec.ret (talsh_h_values.TALSH_SUCCESS,
        some ⟨some ⟨1, [5], [], []⟩, some [⟨-1, none, -1⟩, ⟨-1, none, -1⟩], some [8, 0],
          some [1, 0], 2, 0⟩, [⟨0, some 128, -1⟩]) ∧
    ¬ has_avail_image talsh_h_values
      ⟨some ⟨1, [5], [], []⟩, some [⟨-1, none, -1⟩, ⟨-1, none, -1⟩], some [8, 0],
        some [1, 0], 2, 0⟩ := by
  refine ⟨⟨[1, 0], rfl, 0, by decide, by decide⟩, by decide, ?_⟩
  rintro ⟨av, _, j, hj, _⟩
  simp only at hj
  omega

/-! ## Destructing a tensor block -/

/-- The status that `talshTensorDestruct` makes of a list of release statuses. -/
theorem destruct_errc_foldl (K : talsh_h) (hK : aggregate_codes K) (xs : List Int) :
    xs.foldl (talshTensorDestruct_errc K) 0 =
      if xs.any (fun x => decide (x ≠ 0 ∧ x ≠ K.NOT_CLEAN)) then K.TALSH_FAILURE
      else if xs.any (fun x => decide (x = K.NOT_CLEAN)) then K.NOT_CLEAN else 0 := by
  obtain ⟨_, hnc, hf, hfn⟩ := hK
  induction xs using List.reverseRecOn with
  | nil => simp
  | append_singleton xs x ih =>
    rw [List.foldl_append, ih]
    simp only [List.foldl_cons, List.foldl_nil, List.any_append, List.any_cons, List.any_nil,
      Bool.or_false]
    have h1 : ¬ ((0 : Int) = K.NOT_CLEAN) := fun h => hnc h.symm
    generalize (xs.any fun x => decide (x ≠ 0 ∧ x ≠ K.NOT_CLEAN)) = A
    generalize (xs.any fun x => decide (x = K.NOT_CLEAN)) = B
    cases A <;> cases B <;> by_cases hx0 : x = 0 <;> by_cases hxn : x = K.NOT_CLEAN <;>
      simp [talshTensorDestruct_errc, hx0, hxn, hnc, hf, hfn, h1]

theorem destruct_loop_eq {W : Type} (K : talsh_h) (E : nvtal W) :
    ∀ (rem j : Nat) (errc : Int) (rsc : List talsh_dev_rsc_t) (w : W),
      j + rem ≤ rsc.length →
      ∃ rsc1, talshTensorDestruct_loop K E rem j errc rsc w =
        exec.ret ((release_images E ((rsc.drop j).take rem) w).1.foldl
            (talshTensorDestruct_errc K) errc, rsc1,
          (release_images E ((rsc.drop j).take rem) w).2) ∧
        rsc1.length = rsc.length ∧ rsc1.drop (j + rem) = rsc.drop (j + rem) := by
  intro rem
  induction rem with
  | zero =>
    intro j errc rsc w _
    exact ⟨rsc, by simp [talshTensorDestruct_loop, release_images], rfl, rfl⟩
  | succ rem ih =>
    intro j errc rsc w hlen
    have hj : j < rsc.length := by omega
    rw [talshTensorDestruct_loop, elem_get_of_lt rsc j hj]
    simp only [Int.toNat_ofNat]
    have hcast : ((j : Int) + 1) = ((j + 1 : Nat) : Int) := by push_cast; rfl
    rw [hcast]
    obtain ⟨rsc1, e1, l1, d1⟩ := ih (j + 1) (talshTensorDestruct_errc K errc
      (E.tensDevRsc_release_all w (rsc.get ⟨j, hj⟩)).1)
      (rsc.set j (E.tensDevRsc_release_all w (rsc.get ⟨j, hj⟩)).2.1)
      (E.tensDevRsc_release_all w (rsc.get ⟨j, hj⟩)).2.2 (by rw [List.length_set]; omega)
    refine ⟨rsc1, ?_, by rw [l1, List.length_set], ?_⟩
    · rw [e1]
      have hdrop : (rsc.set j (E.tensDevRsc_release_all w (rsc.get ⟨j, hj⟩)).2.1).drop (j + 1) =
          rsc.drop (j + 1) := by
        rw [List.drop_set_of_lt _ _ (by omega)]
      have hsplit : rsc.drop j = rsc.get ⟨j, hj⟩ :: rsc.drop (j + 1) := by
        rw [List.get_eq_getElem]; exact List.drop_eq_getElem_cons hj
      rw [hdrop, hsplit, List.take_succ_cons]
      simp only [release_images, List.foldl_cons]
    · have e : j + (rem + 1) = j + 1 + rem := by omega
      rw [e, d1, List.drop_set_of_lt _ _ (by omega)]

theorem destruct_status_iff (K : talsh_h) (hK : aggregate_codes K) (xs : List Int) :
    (xs.foldl (talshTensorDestruct_errc K) 0 = K.TALSH_SUCCESS ↔ ∀ x ∈ xs, x = 0) ∧
    (xs.foldl (talshTensorDestruct_errc K) 0 = K.NOT_CLEAN ↔
      (∀ x ∈ xs, x = 0 ∨ x = K.NOT_CLEAN) ∧ ∃ x ∈ xs, x = K.NOT_CLEAN) ∧
    (xs.foldl (talshTensorDestruct_errc K) 0 = K.TALSH_FAILURE ↔
      ∃ x ∈ xs, x ≠ 0 ∧ x ≠ K.NOT_CLEAN) := by
  rw [destruct_errc_foldl K hK xs]
  obtain ⟨hs, hnc, hf, hfn⟩ := hK
  rw [hs]
  have hA : (xs.any (fun x => decide (x ≠ 0 ∧ x ≠ K.NOT_CLEAN)) = true) ↔
      ∃ x ∈ xs, x ≠ 0 ∧ x ≠ K.NOT_CLEAN := by
    simp [List.any_eq_true]
  have hB : (xs.any (fun x => decide (x = K.NOT_CLEAN)) = true) ↔
      ∃ x ∈ xs, x = K.NOT_CLEAN := by
    simp [List.any_eq_true]
  by_cases ha : ∃ x ∈ xs, x ≠ 0 ∧ x ≠ K.NOT_CLEAN
  · rw [if_pos (hA.mpr ha)]
    obtain ⟨x, hx, hx0, hxn⟩ := ha
    refine ⟨⟨fun h => absurd h hf, fun h => absurd (h x hx) hx0⟩,
      ⟨fun h => absurd h hfn, fun h => ?_⟩, ⟨fun _ => ⟨x, hx, hx0, hxn⟩, fun _ => rfl⟩⟩
    rcases h.1 x hx with h0 | h0
    · exact absurd h0 hx0
    · exact absurd h0 hxn
  · rw [if_neg (fun h => ha (hA.mp h))]
    have hall : ∀ x ∈ xs, x = 0 ∨ x = K.NOT_CLEAN := by
      intro x hx
      by_contra hcon
      push_neg at hcon
      exact ha ⟨x, hx, hcon.1, hcon.2⟩
    by_cases hb : ∃ x ∈ xs, x = K.NOT_CLEAN
    · rw [if_pos (hB.mpr hb)]
      obtain ⟨x, hx, hxn⟩ := hb
      refine ⟨⟨fun h => absurd h hnc, fun h => ?_⟩, ⟨fun _ => ⟨hall, x, hx, hxn⟩, fun _ => rfl⟩,
        ⟨fun h => absurd h.symm hfn, fun h => absurd h ha⟩⟩
      exact absurd ((h x hx).symm.trans hxn).symm hnc
    · rw [if_neg (fun h => hb (hB.mp h))]
      refine ⟨⟨fun _ => ?_, fun _ => rfl⟩, ⟨fun h => absurd h.symm hnc, fun h => absurd h.2 hb⟩,
        ⟨fun h => absurd h.symm hf, fun h => absurd h ha⟩⟩
      intro x hx
      rcases hall x hx with h0 | h0
      · exact h0
      · exact absurd ⟨x, hx, h0⟩ hb

/-- C15 (destruct releases everything and aggregates the status): in an initialized
runtime, for a tensor block with `ndev <= dev_rsc_len`, `talshTensorDestruct` performs
the release of the shape and of each of the `ndev` images, whatever the earlier
releases returned (the outside state after the call is the one after all of these
releases), leaves the tensor block empty (no shape, no arrays, `ndev = 0`,
`dev_rsc_len = 0`), and returns `TALSH_SUCCESS` iff every release returned 0,
`NOT_CLEAN` iff every release returned 0 or `NOT_CLEAN` and at least one `NOT_CLEAN`,
and `TALSH_FAILURE` iff some release returned a status other than 0 and `NOT_CLEAN`. -/
theorem tensor_destruct_releases_all {W : Type} (K : talsh_h) (E : nvtal W) (talsh_on : Int)
    (w : W) (t : talsh_tens_t) (rsc : List talsh_dev_rsc_t)
    (hon : talsh_on ≠ 0) (hK : aggregate_codes K) (hstorage : image_storage t rsc)
    (hcap : t.ndev ≤ t.dev_rsc_len) :
    ∃ s, talshTensorDestruct K E talsh_on w (some t) =
        exec.ret (s, some ⟨none, none, none, none, 0, 0⟩, (release_everything E t rsc w).2) ∧
      (s = K.TALSH_SUCCESS ↔ ∀ x ∈ (release_everything E t rsc w).1, x = 0) ∧
      (s = K.NOT_CLEAN ↔
        (∀ x ∈ (release_everything E t rsc w).1, x = 0 ∨ x = K.NOT_CLEAN) ∧
        ∃ x ∈ (release_everything E t rsc w).1, x = K.NOT_CLEAN) ∧
      (s = K.TALSH_FAILURE ↔
        ∃ x ∈ (release_everything E t rsc w).1, x ≠ 0 ∧ x ≠ K.NOT_CLEAN) := by
  refine ⟨(release_everything E t rsc w).1.foldl (talshTensorDestruct_errc K) 0, ?_,
    destruct_status_iff K hK _⟩
  have hs0 : K.TALSH_SUCCESS = 0 := hK.1
  unfold talshTensorDestruct release_everything
  rw [if_neg hon]
  cases hsh : t.shape_p with
  | none =>
    simp only [talshTensorClean, if_neg (not_lt.mpr hcap), hsh]
    rcases hstorage with ⟨hr, hl⟩ | ⟨hr, he, hl⟩
    · simp only [hr]
      obtain ⟨rsc1, e1, _, _⟩ := destruct_loop_eq K E t.ndev.toNat 0 K.TALSH_SUCCESS rsc w
        (by omega)
      simp only [Nat.cast_zero, List.drop_zero] at e1
      rw [e1, hs0]
    · simp only [hr]
      subst he
      simp [release_images, hs0]
  | some sh =>
    simp only [talshTensorClean, if_neg (not_lt.mpr hcap), hsh]
    rcases hstorage with ⟨hr, hl⟩ | ⟨hr, he, hl⟩
    · simp only [hr]
      obtain ⟨rsc1, e1, _, _⟩ := destruct_loop_eq K E t.ndev.toNat 0
        (talshTensorDestruct_errc K K.TALSH_SUCCESS (E.tensShape_destroy w sh).1) rsc
        (E.tensShape_destroy w sh).2 (by omega)
      simp only [Nat.cast_zero, List.drop_zero] at e1
      rw [e1, hs0]
      simp only [List.foldl_cons]
    · simp only [hr]
      subst he
      simp [release_images, hs0]

/-- Instance of `tensor_destruct_releases_all`: a tensor block with three images of
which the second one is not available; every release returns `NOT_CLEAN`, the shape
and all three device resources are released and the call returns `NOT_CLEAN`. -/
theorem tensor_destruct_releases_all_witness :
    ∃ s, talshTensorDestruct talsh_h_values (nvtal_values (-192837465) 5) 1 []
        (some ⟨some ⟨1, [5], [], []⟩,
          some [⟨1, some 64, 3⟩, ⟨0, some 128, -1⟩, ⟨2, some 32, 7⟩, ⟨-1, none, -1⟩],
          some [8, 8, 8, 0], some [1, 0, 1, 0], 4, 3⟩) =
        exec.ret (s, some ⟨none, none, none, none, 0, 0⟩,
          [⟨2, some 32, 7⟩, ⟨0, some 128, -1⟩, ⟨1, some 64, 3⟩]) ∧
      s = talsh_h_values.NOT_CLEAN := by
  obtain ⟨s, h1, _, h3, _⟩ := tensor_destruct_releases_all talsh_h_values
    (nvtal_values (-192837465) 5) 1 []
    ⟨some ⟨1, [5], [], []⟩,
      some [⟨1, some 64, 3⟩, ⟨0, some 128, -1⟩, ⟨2, some 32, 7⟩, ⟨-1, none, -1⟩],
      some [8, 8, 8, 0], some [1, 0, 1, 0], 4, 3⟩
    [⟨1, some 64, 3⟩, ⟨0, some 128, -1⟩, ⟨2, some 32, 7⟩, ⟨-1, none, -1⟩]
    (by decide) (by decide) (Or.inl ⟨rfl, rfl⟩) (by decide)
  exact ⟨s, h1, h3.mpr (by decide)⟩

/-! ## Constructing a tensor block -/

theorem construct_abort_status {W : Type} (K : talsh_h) (E : nvtal W) (talsh_on : Int) (w : W)
    (t : talsh_tens_t) (errc s : Int) (t1 : Option talsh_tens_t) (w1 : W)
    (h : talshTensorConstruct_abort K E talsh_on w t errc = exec.ret (s, t1, w1)) :
    s = errc := by
  unfold talshTensorConstruct_abort at h
  split at h
  · cases h; rfl
  · cases h

theorem elem_set_zero_get {α : Type} (a a1 : List α) (v : α) (h : elem_set a 0 v = some a1) :
    a1.get? 0 = some v := by
  unfold elem_set at h
  split at h
  · rename_i hc
    cases h
    have hlen : 0 < a.length := by simpa using hc.2
    simp only [Int.toNat_zero, List.get?_eq_getElem?]
    rw [List.getElem?_set_self hlen]
  · cases h

theorem construct_image_one {K : talsh_h} (t t1 : talsh_tens_t) (rsc : List talsh_dev_rsc_t)
    (r : talsh_dev_rsc_t) (data_kind : Int)
    (hshape : t.shape_p ≠ none) (hcap : t.dev_rsc_len = K.TALSH_MAX_DEV_PRESENT)
    (h : talshTensorConstruct_image K t rsc r data_kind = some t1) :
    one_image K t1 data_kind r.dev_id := by
  unfold talshTensorConstruct_image at h
  split at h
  · split at h
    · rename_i dk av hdk hav rsc1 dk1 av1 e1 e2 e3
      cases h
      exact ⟨hshape, hcap, rfl, rsc1, dk1, av1, r, rfl, rfl, rfl, elem_set_zero_get _ _ _ e3,
        elem_set_zero_get _ _ _ e2, elem_set_zero_get _ _ _ e1, rfl⟩
    · cases h
  · cases h

theorem construct_body_success {W : Type} (K : talsh_h) (E : nvtal W) (talsh_on : Int) (w : W)
    (t : talsh_tens_t) (data_kind dksize tens_rank : Int) (tens_dims : List Int)
    (dev_id dev_kind : Int) (ext_mem : Option Nat) (in_hab use_hab : Int)
    (init_method : Option (W → Option Nat → Int → Int → List Int → Int → Int × W))
    (t1 : Option talsh_tens_t) (w1 : W)
    (hK : construct_codes K) (hbind : rsc_binds_device E)
    (hshape : t.shape_p ≠ none) (hcap : t.dev_rsc_len = K.TALSH_MAX_DEV_PRESENT)
    (hbody : data_kind ≠ K.NO_TYPE ∨ ext_mem ≠ none)
    (h : talshTensorConstruct_body K E talsh_on w t data_kind dksize tens_rank tens_dims dev_id
      dev_kind ext_mem in_hab use_hab init_method = exec.ret (K.TALSH_SUCCESS, t1, w1)) :
    ∃ t2, t1 = some t2 ∧ one_image K t2 data_kind dev_id := by
  obtain ⟨hs0, _, _, _, htl, hdu, hf, hov⟩ := hK
  unfold talshTensorConstruct_body at h
  split at h
  · cases h
  · split at h
    · cases h
    · rename_i rsc hrsc x0 r0 hr0
      split at h
      · -- external memory
        simp only at h
        split at h
        · have := construct_abort_status _ _ _ _ _ _ _ _ _ h
          exact absurd (hs0 ▸ this).symm hf
        · rename_i ha
          push_neg at ha
          split at h
          · rename_i t2 ht2
            obtain ⟨_, rfl, _⟩ := exec_ret_inj3 h
            have hone := construct_image_one t t2 _ _ data_kind hshape hcap ht2
            rw [hbind.1 _ _ _ _ _ ha] at hone
            exact ⟨t2, rfl, hone⟩
          · cases h
      · -- no external memory
        have hdk : data_kind ≠ K.NO_TYPE := by
          rcases hbody with h1 | h1
          · exact h1
          · exact absurd rfl h1
        rw [if_pos hdk] at h
        simp only at h
        generalize size_t_mul (talshTensorVolume K E (some t)) (size_t_of_int dksize) = tsize
          at h
        generalize talshTensorVolume K E (some t) = tvol at h
        split at h
        · split at h
          · have := construct_abort_status _ _ _ _ _ _ _ _ _ h
            exact absurd (hs0 ▸ this).symm hov
          · generalize hadef : E.tensDevRsc_allocate_mem w r0 dev_id tsize use_hab = a at h
            by_cases herr : (if a.1 ≠ 0 ∧ a.1 ≠ K.TRY_LATER ∧ a.1 ≠ K.DEVICE_UNABLE
                then K.TALSH_FAILURE else a.1) ≠ 0
            · rw [if_pos herr] at h
              have := construct_abort_status _ _ _ _ _ _ _ _ _ h
              exact absurd (hs0 ▸ this).symm herr
            · rw [if_neg herr] at h
              push_neg at herr
              have ha : a.1 = 0 := by
                by_contra hne
                split at herr
                · exact hf herr
                · exact hne herr
              cases himg : talshTensorConstruct_image K t rsc a.2.1 data_kind with
              | none => rw [himg] at h; cases h
              | some t2 =>
                rw [himg] at h
                simp only at h
                have hone := construct_image_one t t2 _ _ data_kind hshape hcap himg
                have hb := hbind.2 w r0 dev_id tsize use_hab
                rw [hadef] at hb
                rw [hb ha] at hone
                refine ⟨t2, ?_, hone⟩
                by_cases hnd : t2.ndev > 0
                · rw [if_pos hnd] at h
                  by_cases hh : dev_kind = K.DEV_HOST
                  · rw [if_pos hh] at h
                    cases init_method with
                    | some f => exact (exec_ret_inj3 h).2.1.symm
                    | none =>
                      simp only at h
                      by_cases h4 : data_kind = K.R4
                      · rw [if_pos h4] at h; exact (exec_ret_inj3 h).2.1.symm
                      · rw [if_neg h4] at h
                        by_cases h8 : data_kind = K.R8
                        · rw [if_pos h8] at h; exact (exec_ret_inj3 h).2.1.symm
                        · rw [if_neg h8] at h; exact (exec_ret_inj3 h).2.1.symm
                  · rw [if_neg hh] at h; exact (exec_ret_inj3 h).2.1.symm
                · rw [if_neg hnd] at h; exact (exec_ret_inj3 h).2.1.symm
        · have := construct_abort_status _ _ _ _ _ _ _ _ _ h
          exact absurd (hs0 ▸ this).symm hf


theorem construct_storage_success {W : Type} (K : talsh_h) (E : nvtal W) (talsh_on : Int)
    (w : W) (t : talsh_tens_t) (data_kind dksize tens_rank : Int) (tens_dims : List Int)
    (dev_id dev_kind : Int) (ext_mem : Option Nat) (in_hab use_hab : Int)
    (init_method : Option (W → Option Nat → Int → Int → List Int → Int → Int × W))
    (t1 : Option talsh_tens_t) (w1 : W)
    (hK : construct_codes K) (hbind : rsc_binds_device E)
    (hshape : t.shape_p ≠ none)
    (hbody : data_kind ≠ K.NO_TYPE ∨ ext_mem ≠ none)
    (h : talshTensorConstruct_storage K E talsh_on w t data_kind dksize tens_rank tens_dims
      dev_id dev_kind ext_mem in_hab use_hab init_method = exec.ret (K.TALSH_SUCCESS, t1, w1)) :
    ∃ t2, t1 = some t2 ∧ one_image K t2 data_kind dev_id := by
  have hs0 := hK.1
  have htl : K.TRY_LATER ≠ 0 := hK.2.2.2.2.1
  have hia : K.TALSH_INVALID_ARGS ≠ 0 := hK.2.2.1
  unfold talshTensorConstruct_storage at h
  split at h
  · by_cases hlen : t.dev_rsc_len = 0
    · rw [if_pos hlen] at h
      simp only at h
      by_cases hm1 : (E.malloc w).1 = true
      · rw [if_pos hm1] at h
        by_cases hm2 : (E.malloc (E.malloc w).2).1 = true
        · rw [if_pos hm2] at h
          by_cases hm3 : (E.malloc (E.malloc (E.malloc w).2).2).1 = true
          · rw [if_pos hm3] at h
            exact construct_body_success K E talsh_on _ _ data_kind dksize tens_rank tens_dims
              dev_id dev_kind ext_mem in_hab use_hab init_method t1 w1 hK hbind
              (by exact hshape) (by rfl) hbody h
          · rw [if_neg hm3] at h
            have := construct_abort_status _ _ _ _ _ _ _ _ _ h
            exact absurd (hs0 ▸ this).symm htl
        · rw [if_neg hm2] at h
          have := construct_abort_status _ _ _ _ _ _ _ _ _ h
          exact absurd (hs0 ▸ this).symm htl
      · rw [if_neg hm1] at h
        have := construct_abort_status _ _ _ _ _ _ _ _ _ h
        exact absurd (hs0 ▸ this).symm htl
    · rw [if_neg hlen] at h
      have := construct_abort_status _ _ _ _ _ _ _ _ _ h
      exact absurd (hs0 ▸ this).symm hia
  · have := construct_abort_status _ _ _ _ _ _ _ _ _ h
    exact absurd (hs0 ▸ this).symm hia

/-- With the data kind `NO_TYPE` and no externally supplied memory the tensor body
part does nothing: a successful call leaves the tensor block with its shape, an image
table of capacity `TALSH_MAX_DEV_PRESENT` and no image. -/
theorem construct_storage_shape_only {W : Type} (K : talsh_h) (E : nvtal W)
    (talsh_on : Int) (w : W) (t : talsh_tens_t) (dksize tens_rank : Int)
    (tens_dims : List Int) (dev_id dev_kind : Int) (in_hab use_hab : Int)
    (init_method : Option (W → Option Nat → Int → Int → List Int → Int → Int × W))
    (t1 : Option talsh_tens_t) (w1 : W)
    (hK : construct_codes K) (hshape : t.shape_p ≠ none)
    (h : talshTensorConstruct_storage K E talsh_on w t K.NO_TYPE dksize tens_rank tens_dims
      dev_id dev_kind none in_hab use_hab init_method = exec.ret (K.TALSH_SUCCESS, t1, w1)) :
    ∃ t2, t1 = some t2 ∧ t2.shape_p ≠ none ∧ t2.dev_rsc_len = K.TALSH_MAX_DEV_PRESENT ∧
      t2.ndev = 0 ∧ images t2 = [] := by
  have hs0 := hK.1
  have htl : K.TRY_LATER ≠ 0 := hK.2.2.2.2.1
  have hia : K.TALSH_INVALID_ARGS ≠ 0 := hK.2.2.1
  unfold talshTensorConstruct_storage at h
  split at h
  · by_cases hlen : t.dev_rsc_len = 0
    · rw [if_pos hlen] at h
      simp only at h
      by_cases hm1 : (E.malloc w).1 = true
      · rw [if_pos hm1] at h
        by_cases hm2 : (E.malloc (E.malloc w).2).1 = true
        · rw [if_pos hm2] at h
          by_cases hm3 : (E.malloc (E.malloc (E.malloc w).2).2).1 = true
          · rw [if_pos hm3] at h
            unfold talshTensorConstruct_body at h
            simp only at h
            split at h
            · cases h
            · rw [if_neg (by simp)] at h
              obtain ⟨_, rfl, _⟩ := exec_ret_inj3 h
              refine ⟨_, rfl, hshape, rfl, rfl, ?_⟩
              simp [images]
          · rw [if_neg hm3] at h
            have := construct_abort_status _ _ _ _ _ _ _ _ _ h
            exact absurd (hs0 ▸ this).symm htl
        · rw [if_neg hm2] at h
          have := construct_abort_status _ _ _ _ _ _ _ _ _ h
          exact absurd (hs0 ▸ this).symm htl
      · rw [if_neg hm1] at h
        have := construct_abort_status _ _ _ _ _ _ _ _ _ h
        exact absurd (hs0 ▸ this).symm htl
    · rw [if_neg hlen] at h
      have := construct_abort_status _ _ _ _ _ _ _ _ _ h
      exact absurd (hs0 ▸ this).symm hia
  · have := construct_abort_status _ _ _ _ _ _ _ _ _ h
    exact absurd (hs0 ▸ this).symm hia

/-- C14, amended (construct materializes one image unless it is asked for a shape
only): whenever `talshTensorConstruct` returns `TALSH_SUCCESS` for a tensor block, the
call leaves a tensor block; if the data kind is not `NO_TYPE` or memory was supplied
from outside, that tensor block is non-empty, has capacity `TALSH_MAX_DEV_PRESENT`
and `ndev = 1`, and image 0 is marked available, carries the requested data kind and
resides on the requested device; if the data kind is `NO_TYPE` and no memory was
supplied, the tensor block has its shape and an image table of capacity
`TALSH_MAX_DEV_PRESENT`, `ndev = 0` and no image. -/
theorem tensor_construct_one_image {W : Type} (K : talsh_h) (E : nvtal W) (talsh_on : Int)
    (w : W) (t : talsh_tens_t) (data_kind tens_rank : Int) (tens_dims : List Int)
    (dev_id : Int) (ext_mem : Option Nat) (in_hab : Int)
    (init_method : Option (W → Option Nat → Int → Int → List Int → Int → Int × W))
    (t1 : Option talsh_tens_t) (w1 : W)
    (hK : construct_codes K) (hbind : rsc_binds_device E)
    (hret : talshTensorConstruct K E talsh_on w (some t) data_kind tens_rank tens_dims dev_id
      ext_mem in_hab init_method = exec.ret (K.TALSH_SUCCESS, t1, w1)) :
    ∃ t2, t1 = some t2 ∧
      (data_kind ≠ K.NO_TYPE ∨ ext_mem ≠ none → one_image K t2 data_kind dev_id) ∧
      (data_kind = K.NO_TYPE → ext_mem = none →
        t2.shape_p ≠ none ∧ t2.dev_rsc_len = K.TALSH_MAX_DEV_PRESENT ∧ t2.ndev = 0 ∧
          images t2 = []) := by
  obtain ⟨hs0, hni, hia, hone, htl, hdu, hf, hov⟩ := hK
  have hK : construct_codes K := ⟨hs0, hni, hia, hone, htl, hdu, hf, hov⟩
  unfold talshTensorConstruct at hret
  by_cases hon : talsh_on = 0
  · rw [if_pos hon] at hret
    exact absurd (hs0 ▸ (exec_ret_inj3 hret).1) hni
  · rw [if_neg hon] at hret
    simp only at hret
    by_cases he : talshTensorIsEmpty K (some t) ≠ K.YEP
    · rw [if_pos he] at hret
      exact absurd (hs0 ▸ (exec_ret_inj3 hret).1) hone
    · rw [if_neg he] at hret
      by_cases hv : (E.tens_valid_data_kind data_kind).1 ≠ K.YEP
      · rw [if_pos hv] at hret
        exact absurd (hs0 ▸ (exec_ret_inj3 hret).1) hia
      · rw [if_neg hv] at hret
        by_cases hd : (talshKindDevId E dev_id).1 < 0
        · rw [if_pos hd] at hret
          exact absurd (hs0 ▸ (exec_ret_inj3 hret).1) hia
        · rw [if_neg hd] at hret
          generalize hcdef : E.tensShape_create w = c at hret
          by_cases hc : c.1 = K.TRY_LATER ∨ c.1 = K.DEVICE_UNABLE
          · rw [if_pos hc] at hret
            have := (exec_ret_inj3 hret).1
            rcases hc with hc | hc
            · exact absurd (hs0 ▸ (hc ▸ this)) htl
            · exact absurd (hs0 ▸ (hc ▸ this)) hdu
          · rw [if_neg hc] at hret
            cases hsh : c.2.1 with
            | none =>
              rw [hsh] at hret
              exact absurd (hs0 ▸ (exec_ret_inj3 hret).1) hf
            | some sh =>
              rw [hsh] at hret
              simp only at hret
              by_cases hc0 : c.1 ≠ 0
              · rw [if_pos hc0] at hret
                exact absurd (hs0 ▸ (exec_ret_inj3 hret).1) hf
              · rw [if_neg hc0] at hret
                generalize hsdef : E.tensShape_construct c.2.2 sh K.NOPE tens_rank tens_dims = s
                  at hret
                by_cases herr : (if s.1 ≠ 0 ∧ s.1 ≠ K.TRY_LATER ∧ s.1 ≠ K.DEVICE_UNABLE
                    then K.TALSH_FAILURE else s.1) ≠ 0
                · rw [if_pos herr] at hret
                  have := construct_abort_status _ _ _ _ _ _ _ _ _ hret
                  exact absurd (hs0 ▸ this).symm herr
                · rw [if_neg herr] at hret
                  by_cases hbody : data_kind ≠ K.NO_TYPE ∨ ext_mem ≠ none
                  · obtain ⟨t2, ht2, himg⟩ := construct_storage_success K E talsh_on _ _
                      data_kind _ tens_rank tens_dims dev_id _ ext_mem _ _ init_method t1 w1
                      hK hbind (by simp) hbody hret
                    refine ⟨t2, ht2, fun _ => himg, fun hk hm => ?_⟩
                    rcases hbody with hb | hb
                    · exact absurd hk hb
                    · exact absurd hm hb
                  · push_neg at hbody
                    obtain ⟨hk, hm⟩ := hbody
                    subst hk
                    subst hm
                    obtain ⟨t2, ht2, hrest⟩ := construct_storage_shape_only K E talsh_on _ _
                      _ tens_rank tens_dims dev_id _ _ _ init_method t1 w1 hK (by simp) hret
                    exact ⟨t2, ht2, fun hb => by simp at hb, fun _ _ => hrest⟩

/-- Instance of `tensor_construct_one_image`: a tensor block of five `R8` elements is
constructed on the Host, without externally supplied memory. -/
theorem tensor_construct_one_image_witness :
    talshTensorConstruct talsh_h_values (nvtal_values 0 5) 1 []
      (some ⟨none, none, none, none, 0, 0⟩) 8 1 [5] 0 none (-1) none =
      exec.ret (talsh_h_values.TALSH_SUCCESS,
        some ⟨some ⟨1, [5], [], []⟩,
          some (⟨0, some 4096, -1⟩ :: List.replicate 15 ⟨-1, none, -1⟩),
          some (8 :: List.replicate 15 0), some (1 :: List.replicate 15 0), 16, 1⟩, []) ∧
    ∃ t2, some (⟨some ⟨1, [5], [], []⟩,
          some (⟨0, some 4096, -1⟩ :: List.replicate 15 ⟨-1, none, -1⟩),
          some (8 :: List.replicate 15 0), some (1 :: List.replicate 15 0), 16, 1⟩ :
          talsh_tens_t) = some t2 ∧
      ((8 : Int) ≠ talsh_h_values.NO_TYPE ∨ (none : Option Nat) ≠ none →
        one_image talsh_h_values t2 8 0) ∧
      ((8 : Int) = talsh_h_values.NO_TYPE → (none : Option Nat) = none →
        t2.shape_p ≠ none ∧ t2.dev_rsc_len = talsh_h_values.TALSH_MAX_DEV_PRESENT ∧
          t2.ndev = 0 ∧ images t2 = []) :=
  ⟨by decide,
   tensor_construct_one_image talsh_h_values (nvtal_values 0 5) 1 []
    ⟨none, none, none, none, 0, 0⟩ 8 1 [5] 0 none (-1) none _ [] (by decide)
    ⟨fun _ _ _ _ _ _ => rfl, fun _ _ _ _ _ _ => rfl⟩ (by decide)⟩

/-- C14 as stated fails for the data kind `NO_TYPE` without externally supplied
memory: `talshTensorConstruct` returns `TALSH_SUCCESS` and leaves a non-empty tensor
block of capacity `TALSH_MAX_DEV_PRESENT` with `ndev = 0`, without any image. -/
theorem tensor_construct_no_type_counterexample :
    talshTensorConstruct talsh_h_values (nvtal_values 0 5) 1 []
      (some ⟨none, none, none, none, 0, 0⟩) talsh_h_values.NO_TYPE 1 [5] 0 none (-1) none =
      exec.ret (talsh_h_values.TALSH_SUCCESS,
        some ⟨some ⟨1, [5], [], []⟩, some (List.replicate 16 ⟨-1, none, -1⟩),
          some (List.replicate 16 0), some (List.replicate 16 0), 16, 0⟩, []) ∧
    ¬ one_image talsh_h_values
      ⟨some ⟨1, [5], [], []⟩, some (List.replicate 16 ⟨-1, none, -1⟩),
        some (List.replicate 16 0), some (List.replicate 16 0), 16, 0⟩
      talsh_h_values.NO_TYPE 0 := by
  refine ⟨by decide, ?_⟩
  rintro ⟨_, _, h, _⟩
  exact absurd h (by decide)

/-! ## Presence of a tensor block on devices -/

/-- C16 (presence lists the matching images) does not hold for the code: for a
non-empty tensor block whose only image is available, resides on the Host (flat device
id 0) and has data kind 8, `talshTensorPresence` without a filter (`dev_kind =
DEV_NULL`, `dev_id = -1`) returns `TALSH_SUCCESS` with `ncopies = 1`, but it writes the
device id and the data kind to `copies[1]` and `data_kinds[1]` and leaves `copies[0]`
and `data_kinds[0]` as they were (here -7); with output arrays of one element the
write is outside of the arrays. -/
theorem tensor_presence_off_by_one :
    talshTensorPresence talsh_h_values (nvtal_values 0 5) 1
      (some ⟨some ⟨1, [5], [], []⟩, some [⟨0, some 128, -1⟩, ⟨-1, none, -1⟩], some [8, 0],
        some [1, 0], 2, 1⟩) 0 [-7, -7, -7] [-7, -7, -7] talsh_h_values.DEV_NULL (-1) =
      exec.ret (talsh_h_values.TALSH_SUCCESS, 1, [-7, 0, -7], [-7, 8, -7]) ∧
    talshTensorPresence talsh_h_values (nvtal_values 0 5) 1
      (some ⟨some ⟨1, [5], [], []⟩, some [⟨0, some 128, -1⟩, ⟨-1, none, -1⟩], some [8, 0],
        some [1, 0], 2, 1⟩) 0 [-7] [-7] talsh_h_values.DEV_NULL (-1) = exec.undef := by
  constructor <;> decide

/-! ## Arguments of a task -/

/-- C17, amended (SetArgument appends in order and rejects overflow in an initialized
runtime): for a task whose array `tens_args` has `MAX_TENSOR_OPERANDS` entries and a
tensor block `tens` at `talsh_tens_p`, when the runtime is initialized
(`talsh_on != 0`): if `0 <= num_args < MAX_TENSOR_OPERANDS` and the image index is in
`[0, ndev)`, `talshTaskSetArg` returns `TALSH_SUCCESS` and the task differs from the
one before the call only in `tens_args[num_args]`, which holds the tensor block and
the image index, and in `num_args`, which is one more; if
`num_args = MAX_TENSOR_OPERANDS` or the image index is out of range, it returns a status
that is not 0 and the task is the one before the call. When the runtime is not
initialized (`talsh_on = 0`), it returns `TALSH_NOT_INITIALIZED` and the task is the
one before the call. -/
theorem task_set_arg_appends (K : talsh_h) (talsh_on : Int) (store : List talsh_tens_t)
    (task : talsh_task_t) (p : Nat) (tens : talsh_tens_t) (image_id : Int)
    (hfail : K.TALSH_FAILURE ≠ 0) (hinv : K.TALSH_INVALID_ARGS ≠ 0)
    (hargs : (task.tens_args.length : Int) = K.MAX_TENSOR_OPERANDS)
    (htens : store.get? p = some tens) :
    (talsh_on ≠ 0 → 0 ≤ task.num_args → task.num_args < K.MAX_TENSOR_OPERANDS →
      0 ≤ image_id → image_id < tens.ndev →
      talshTaskSetArg K talsh_on store (some task) (some p) image_id =
        exec.ret (K.TALSH_SUCCESS, some { task with
          tens_args := task.tens_args.set task.num_args.toNat ⟨some p, image_id⟩
          num_args := task.num_args + 1 })) ∧
    (talsh_on ≠ 0 →
      task.num_args = K.MAX_TENSOR_OPERANDS ∨ image_id < 0 ∨ image_id ≥ tens.ndev →
      ∃ s, s ≠ 0 ∧
        talshTaskSetArg K talsh_on store (some task) (some p) image_id =
          exec.ret (s, some task)) ∧
    (talsh_on = 0 →
      talshTaskSetArg K talsh_on store (some task) (some p) image_id =
        exec.ret (K.TALSH_NOT_INITIALIZED, some task)) := by
  refine ⟨?_, ?_, ?_⟩
  · intro hon h1 h2 h3 h4
    unfold talshTaskSetArg
    rw [if_neg hon]
    simp only [htens]
    rw [if_neg (by omega), if_neg (by omega)]
    unfold elem_set
    rw [if_pos ⟨h1, by omega⟩]
  · intro hon h
    unfold talshTaskSetArg
    rw [if_neg hon]
    simp only [htens]
    by_cases himg : image_id < 0 ∨ image_id ≥ tens.ndev
    · rw [if_pos himg]
      exact ⟨_, hinv, rfl⟩
    · rw [if_neg himg]
      have hn : task.num_args = K.MAX_TENSOR_OPERANDS := by
        rcases h with h | h | h
        · exact h
        · exact absurd (Or.inl h) himg
        · exact absurd (Or.inr h) himg
      rw [if_pos (Or.inr (by omega))]
      exact ⟨_, hfail, rfl⟩
  · intro hoff
    unfold talshTaskSetArg
    rw [if_pos hoff]

/-- Instance of `task_set_arg_appends`: a clean task bound to the GPU kind gets its
first argument, the image 1 of the tensor block at address 0. -/
theorem task_set_arg_appends_witness :
    talshTaskSetArg talsh_h_values 1
      [⟨some ⟨1, [5], [], []⟩, some [⟨1, some 64, 3⟩, ⟨0, some 128, -1⟩], some [8, 8],
        some [1, 1], 2, 2⟩]
      (some ⟨some (task_ref.cuda 0), 1, 8, 1, 0,
        [⟨none, -1⟩, ⟨none, -1⟩, ⟨none, -1⟩, ⟨none, -1⟩], 0, 0, 0⟩) (some 0) 1 =
      exec.ret (talsh_h_values.TALSH_SUCCESS,
        some ⟨some (task_ref.cuda 0), 1, 8, 1, 1,
          [⟨some 0, 1⟩, ⟨none, -1⟩, ⟨none, -1⟩, ⟨none, -1⟩], 0, 0, 0⟩) :=
  (task_set_arg_appends talsh_h_values 1
    [⟨some ⟨1, [5], [], []⟩, some [⟨1, some 64, 3⟩, ⟨0, some 128, -1⟩], some [8, 8],
      some [1, 1], 2, 2⟩]
    ⟨some (task_ref.cuda 0), 1, 8, 1, 0,
      [⟨none, -1⟩, ⟨none, -1⟩, ⟨none, -1⟩, ⟨none, -1⟩], 0, 0, 0⟩ 0
    ⟨some ⟨1, [5], [], []⟩, some [⟨1, some 64, 3⟩, ⟨0, some 128, -1⟩], some [8, 8],
      some [1, 1], 2, 2⟩ 1
    (by decide) (by decide) (by decide) rfl).1
    (by decide) (by decide) (by decide) (by decide) (by decide)

/-- C17 as stated fails before the runtime is initialized: with `talsh_on = 0`, a task
with no argument yet, a tensor block with two images and the image index 1,
`talshTaskSetArg` returns `TALSH_NOT_INITIALIZED`, which is not `TALSH_SUCCESS`, and
stores nothing in the task. -/
theorem task_set_arg_not_initialized_counterexample :
    talshTaskSetArg talsh_h_values 0
      [⟨some ⟨1, [5], [], []⟩, some [⟨1, some 64, 3⟩, ⟨0, some 128, -1⟩], some [8, 8],
        some [1, 1], 2, 2⟩]
      (some ⟨some (task_ref.cuda 0), 1, 8, 1, 0,
        [⟨none, -1⟩, ⟨none, -1⟩, ⟨none, -1⟩, ⟨none, -1⟩], 0, 0, 0⟩) (some 0) 1 =
      exec.ret (talsh_h_values.TALSH_NOT_INITIALIZED,
        some ⟨some (task_ref.cuda 0), 1, 8, 1, 0,
          [⟨none, -1⟩, ⟨none, -1⟩, ⟨none, -1⟩, ⟨none, -1⟩], 0, 0, 0⟩) ∧
    talsh_h_values.TALSH_NOT_INITIALIZED ≠ talsh_h_values.TALSH_SUCCESS := by
  decide

/-! ## Coherence control: one argument -/

theorem perm_move_last {α : Type} (z : α) : ∀ (i : Nat) (L : List α), i < L.length - 1 →
    L.getLast? = some z → ((L.set i z).take (L.length - 1)).Perm (L.eraseIdx i) := by
  intro i
  induction i with
  | zero =>
    intro L h hz
    match L, h, hz with
    | x :: L1, h, hz =>
      simp only [List.length_cons, Nat.add_sub_cancel] at h ⊢
      have hne : L1 ≠ [] := by
        intro e; subst e; simp at h
      obtain ⟨y, L2, rfl⟩ := List.exists_cons_of_ne_nil hne
      rw [List.getLast?_cons_cons] at hz
      simp only [List.set_cons_zero, List.eraseIdx_cons_zero, List.length_cons,
        List.take_succ_cons]
      have hd : (y :: L2).take L2.length = (y :: L2).dropLast := by
        rw [List.dropLast_eq_take]; simp
      rw [hd]
      have hl : (y :: L2).getLast (by simp) = z := by
        rw [List.getLast?_eq_getLast _ (by simp)] at hz
        exact Option.some.inj hz
      have := List.dropLast_append_getLast (show (y :: L2) ≠ [] by simp)
      rw [hl] at this
      conv_rhs => rw [← this]
      exact (List.perm_append_singleton _ _).symm
  | succ i ih =>
    intro L h hz
    match L, h, hz with
    | x :: L1, h, hz =>
      simp only [List.length_cons, Nat.add_sub_cancel] at h ⊢
      have hne : L1 ≠ [] := by
        intro e; subst e; simp at h
      obtain ⟨y, L2, rfl⟩ := List.exists_cons_of_ne_nil hne
      rw [List.getLast?_cons_cons] at hz
      have hi : i < (y :: L2).length - 1 := by simp only [List.length_cons] at h ⊢; omega
      have := ih (y :: L2) hi hz
      simp only [List.length_cons, Nat.add_sub_cancel] at this
      simp only [List.set_cons_succ, List.eraseIdx_cons_succ, List.length_cons]
      rw [List.take_succ_cons]
      exact List.Perm.cons x this


theorem zip_set {α β : Type} (a : α) (b : β) : ∀ (l1 : List α) (l2 : List β) (i : Nat),
    (l1.set i a).zip (l2.set i b) = (l1.zip l2).set i (a, b) := by
  intro l1
  induction l1 with
  | nil => intro l2 i; simp
  | cons x xs ih =>
    intro l2 i
    cases l2 with
    | nil => simp
    | cons y ys =>
      cases i with
      | zero => simp
      | succ i => simp [ih]

theorem take_zip_set {α β : Type} (a : α) : ∀ (l1 : List α) (l2 : List β) (i : Nat),
    ((l1.set i a).zip l2).take i = (l1.zip l2).take i := by
  intro l1
  induction l1 with
  | nil => intro l2 i; simp
  | cons x xs ih =>
    intro l2 i
    cases l2 with
    | nil => simp
    | cons y ys =>
      cases i with
      | zero => simp
      | succ i => simp [ih]

/-- The images of a tensor block after `talsh_tensor_image_discard` has removed the
image `i`: the other images, up to their order. -/
theorem images_after_discard (t : talsh_tens_t) (rsc : List talsh_dev_rsc_t) (dk av : List Int)
    (i : Nat) (r1 : talsh_dev_rsc_t) (htable : image_table_ok t rsc dk av)
    (hhi : (i : Int) < t.ndev)
    (hn1 : t.ndev.toNat - 1 < rsc.length) (hn2 : t.ndev.toNat - 1 < dk.length)
    (hn3 : t.ndev.toNat - 1 < av.length) :
    (images (if (i : Int) < t.ndev - 1 then
        { t with
          dev_rsc := some ((rsc.set i r1).set i (rsc.get ⟨t.ndev.toNat - 1, hn1⟩))
          data_kind := some (dk.set i (dk.get ⟨t.ndev.toNat - 1, hn2⟩))
          avail := some (av.set i (av.get ⟨t.ndev.toNat - 1, hn3⟩))
          ndev := t.ndev - 1 }
      else { t with dev_rsc := some (rsc.set i r1), ndev := t.ndev - 1 })).Perm
      ((images t).eraseIdx i) := by
  obtain ⟨h1, h2, h3, h4, h5, h6, h7, h8⟩ := htable
  obtain ⟨n, hn⟩ : ∃ n : Nat, t.ndev = ((n + 1 : Nat) : Int) :=
    ⟨t.ndev.toNat - 1, by omega⟩
  have hZ : n + 1 ≤ (rsc.zip (dk.zip av)).length := by
    simp only [List.length_zip]; omega
  have himg : images t = (rsc.zip (dk.zip av)).take (n + 1) := by
    unfold images; simp only [h1, h2, h3, hn, Int.toNat_ofNat]
  have hn' : t.ndev.toNat - 1 = n := by omega
  have hm1 : (t.ndev - 1).toNat = n := by omega
  by_cases hlt : (i : Int) < t.ndev - 1
  · rw [if_pos hlt]
    have hin : i < n := by omega
    rw [himg]
    unfold images
    simp only [hm1]
    rw [List.set_set, zip_set, zip_set]
    have hlen : ((rsc.zip (dk.zip av)).take (n + 1)).length = n + 1 := by
      rw [List.length_take]; omega
    have hlast : ((rsc.zip (dk.zip av)).take (n + 1)).getLast? =
        some (rsc.get ⟨t.ndev.toNat - 1, hn1⟩, dk.get ⟨t.ndev.toNat - 1, hn2⟩,
          av.get ⟨t.ndev.toNat - 1, hn3⟩) := by
      rw [List.getLast?_eq_getElem?, hlen]
      simp only [Nat.add_sub_cancel]
      rw [List.getElem?_take_of_lt (by omega)]
      rw [List.getElem?_eq_getElem (by omega)]
      simp only [List.getElem_zip, List.get_eq_getElem, hn']
    have := perm_move_last _ i ((rsc.zip (dk.zip av)).take (n + 1)) (by omega) hlast
    rw [hlen] at this
    simp only [Nat.add_sub_cancel] at this
    refine List.Perm.trans (List.Perm.of_eq ?_) this
    rw [List.set_take, List.set_take, List.take_take]
    simp
  · rw [if_neg hlt]
    have hin : i = n := by omega
    rw [himg]
    unfold images
    simp only [hm1, h2, h3]
    subst hin
    rw [take_zip_set]
    refine List.Perm.of_eq ?_
    rw [List.eraseIdx_eq_take_drop_succ, List.take_take, List.drop_take]
    simp


/-- C18, amended (coherence round trip): for a GPU task of a build with GPU support,
with a backend handle and one argument (tensor block `t`, image `i`) whose 2-bit
coherence field is `COPY_M` or `COPY_D`, where `t` is non-empty with a consistent image
table, image `i` is marked unavailable (`NOPE`) and another image of `t` is
available: `talshTaskFinalize` with `TALSH_TASK_COMPLETED` releases the device resource
`r` of image `i` and removes the image from `t` (`ndev` decreases by one, the other
images are the same up to their order), and it returns the status of that release (the
status itself when it is 0 or `NOT_CLEAN`, `TALSH_FAILURE` otherwise), hence
`TALSH_SUCCESS` when the release returns 0; `talshTaskFinalize` with `TALSH_TASK_ERROR`
returns `TALSH_SUCCESS`, calls no function of the lower-level runtime and changes
nothing in `t` but the availability flag of image `i`, which becomes `YEP`. -/
theorem task_finalize_round_trip {W : Type} (K : talsh_h) (E : nvtal W) (w : W)
    (store : List talsh_tens_t) (task : talsh_task_t) (ref : task_ref) (p : Nat)
    (t : talsh_tens_t) (rsc : List talsh_dev_rsc_t) (dk av : List Int) (i : Nat)
    (hK : finalize_codes K) (hbuild : K.NO_GPU = false)
    (hgpu : task.dev_kind = K.DEV_NVIDIA_GPU) (hhandle : task.task_p = some ref)
    (hnum : task.num_args = 1) (harg : task.tens_args.get? 0 = some ⟨some p, (i : Int)⟩)
    (hcode : discard_code K (coherence_field task.coherence task.num_args 0))
    (hstore : store.get? p = some t) (hshape : t.shape_p ≠ none)
    (htable : image_table_ok t rsc dk av) (hhi : (i : Int) < t.ndev)
    (hmarked : av.get? i = some K.NOPE)
    (hother : ∃ j : Nat, (j : Int) < t.ndev ∧ j ≠ i ∧ image_avail K av j) :
    (∃ r t1, rsc.get? i = some r ∧
      talshTaskFinalize K E w store (some task) K.TALSH_TASK_COMPLETED =
        exec.ret
          (if (E.tensDevRsc_release_all w r).1 ≠ 0 ∧
              (E.tensDevRsc_release_all w r).1 ≠ K.NOT_CLEAN
            then K.TALSH_FAILURE else (E.tensDevRsc_release_all w r).1,
           store.set p t1, (E.tensDevRsc_release_all w r).2.2) ∧
      ((E.tensDevRsc_release_all w r).1 = 0 →
        talshTaskFinalize K E w store (some task) K.TALSH_TASK_COMPLETED =
          exec.ret (K.TALSH_SUCCESS, store.set p t1, (E.tensDevRsc_release_all w r).2.2)) ∧
      t1.ndev = t.ndev - 1 ∧ (images t1).Perm ((images t).eraseIdx i)) ∧
    talshTaskFinalize K E w store (some task) K.TALSH_TASK_ERROR =
      exec.ret (K.TALSH_SUCCESS, store.set p { t with avail := some (av.set i K.YEP) }, w) := by
  obtain ⟨hk1, hk2, hk3, hk4, hk5⟩ := hK
  have hcc : uint_of_int task.coherence % 4 = uint_of_int K.COPY_D ∨
      uint_of_int task.coherence % 4 = uint_of_int K.COPY_M := by
    unfold discard_code coherence_field at hcode
    rw [hnum] at hcode
    simpa using hcode
  have hargs : elem_get task.tens_args 0 = some ⟨some p, (i : Int)⟩ := by
    unfold elem_get; simpa using harg
  have hav : elem_get av (i : Int) = some K.NOPE := by
    rw [elem_get_natCast]; exact hmarked
  have hhost : ¬ K.DEV_NVIDIA_GPU = K.DEV_HOST := hk1
  constructor
  · obtain ⟨hi, hn1, hn2, hn3, e⟩ :=
      image_discard_removes K E w t rsc dk av i hshape htable hhi hother
    refine ⟨rsc.get ⟨i, hi⟩, _, List.get?_eq_get hi, ?_, ?_, ?_,
      images_after_discard t rsc dk av i (E.tensDevRsc_release_all w (rsc.get ⟨i, hi⟩)).2.1
        htable hhi hn1 hn2 hn3⟩
    · unfold talshTaskFinalize
      simp only [ne_eq, not_true_eq_false, false_and, if_false, hgpu, hhost, if_true, hbuild,
        hhandle, hnum]
      simp only [show (1 : Int).toNat = 1 from rfl, show (1 : Int) - 1 = 0 from rfl,
        talshTaskFinalize_loop, hargs, hstore, hcc, if_true, htable.2.2.1, hav, e,
        Option.getD_some, Bool.false_eq_true, if_false]
    · intro h0
      unfold talshTaskFinalize
      simp only [ne_eq, not_true_eq_false, false_and, if_false, hgpu, hhost, if_true, hbuild,
        hhandle, hnum]
      simp only [show (1 : Int).toNat = 1 from rfl, show (1 : Int) - 1 = 0 from rfl,
        talshTaskFinalize_loop, hargs, hstore, hcc, if_true, htable.2.2.1, hav, e,
        Option.getD_some, Bool.false_eq_true, if_false, h0, hk5]
      simp
    · split <;> rfl
  · unfold talshTaskFinalize
    have hne : ¬ K.TALSH_TASK_ERROR = K.TALSH_TASK_COMPLETED := fun h => hk3 h.symm
    simp only [ne_eq, not_true_eq_false, and_false, if_false, hgpu, hhost, if_true, hbuild,
      hhandle, hnum]
    simp only [show (1 : Int).toNat = 1 from rfl, show (1 : Int) - 1 = 0 from rfl,
      talshTaskFinalize_loop, hargs, hstore, hcc, if_true, htable.2.2.1, hav, hne, if_false,
      Int.toNat_ofNat, Bool.false_eq_true]

/-! ## Coherence control: looking at a finished task twice -/

theorem finalize_loop_no_codes {W : Type} (K : talsh_h) (E : nvtal W) (st : Int)
    (args : List talsh_tens_arg_t) :
    ∀ (rem : Nat) (i : Int) (coh : Nat) (errc : Int) (s : List talsh_tens_t),
      (∀ k < rem, ¬ discard_code K (coh / 4 ^ k % 4)) →
      (∀ w : W, talshTaskFinalize_loop K E st args rem i coh errc s w = exec.undef) ∨
      (∃ e, ∀ w : W, talshTaskFinalize_loop K E st args rem i coh errc s w =
        exec.ret (e, s, w)) := by
  intro rem
  induction rem with
  | zero =>
    intro i coh errc s _
    exact Or.inr ⟨errc, fun w => rfl⟩
  | succ rem ih =>
    intro i coh errc s hno
    have h0 : ¬ (coh % 4 = uint_of_int K.COPY_D ∨ coh % 4 = uint_of_int K.COPY_M) := by
      have := hno 0 (Nat.succ_pos rem)
      simpa [discard_code] using this
    have hrest : ∀ k < rem, ¬ discard_code K (coh / 4 / 4 ^ k % 4) := by
      intro k hk
      have := hno (k + 1) (by omega)
      rw [pow_succ, mul_comm, ← Nat.div_div_eq_div_mul] at this
      exact this
    cases ha : elem_get args i with
    | none => exact Or.inl fun w => by rw [talshTaskFinalize_loop, ha]
    | some a =>
      cases hp : a.tens_p with
      | none =>
        exact Or.inr ⟨K.TALSH_FAILURE, fun w => by rw [talshTaskFinalize_loop, ha]; simp only [hp]⟩
      | some p =>
        cases ht : s.get? p with
        | none => exact Or.inl fun w => by rw [talshTaskFinalize_loop, ha]; simp only [hp, ht]
        | some t =>
          rcases ih (i - 1) (coh / 4) errc s hrest with h | ⟨e, h⟩
          · exact Or.inl fun w => by
              rw [talshTaskFinalize_loop, ha]; simp only [hp, ht, h0, if_false, h w]
          · exact Or.inr ⟨e, fun w => by
              rw [talshTaskFinalize_loop, ha]; simp only [hp, ht, h0, if_false, h w]⟩

theorem flags_raised_refl (K : talsh_h) (s : List talsh_tens_t) : flags_raised K s s :=
  fun _ t ht => ⟨t, ht, fun av hav => ⟨av, hav, fun _ => Or.inl rfl⟩⟩

theorem flags_raised_trans (K : talsh_h) (hyn : K.YEP ≠ K.NOPE) (s s1 s2 : List talsh_tens_t)
    (h1 : flags_raised K s s1) (h2 : flags_raised K s1 s2) : flags_raised K s s2 := by
  intro p t ht
  obtain ⟨t1, ht1, ha1⟩ := h1 p t ht
  obtain ⟨t2, ht2, ha2⟩ := h2 p t1 ht1
  refine ⟨t2, ht2, ?_⟩
  intro av hav
  obtain ⟨av1, hav1, hj1⟩ := ha1 av hav
  obtain ⟨av2, hav2, hj2⟩ := ha2 av1 hav1
  refine ⟨av2, hav2, ?_⟩
  intro j
  rcases hj1 j with a | ⟨a, b⟩
  · rcases hj2 j with c | ⟨c, d⟩
    · exact Or.inl (c.trans a)
    · exact Or.inr ⟨a ▸ c, d⟩
  · rcases hj2 j with c | ⟨c, d⟩
    · exact Or.inr ⟨a, c.trans b⟩
    · rw [b] at c
      exact absurd (Option.some.inj c) hyn

theorem flags_raised_set (K : talsh_h) (s : List talsh_tens_t) (p : Nat) (t : talsh_tens_t)
    (av : List Int) (n : Nat) (ht : s.get? p = some t) (hav : t.avail = some av)
    (hn : av.get? n = some K.NOPE) :
    flags_raised K s (s.set p { t with avail := some (av.set n K.YEP) }) := by
  intro q u hu
  have hp : p < s.length := by
    rw [List.get?_eq_getElem?] at ht
    exact (List.getElem?_eq_some_iff.mp ht).1
  have hnl : n < av.length := by
    rw [List.get?_eq_getElem?] at hn
    exact (List.getElem?_eq_some_iff.mp hn).1
  by_cases hq : q = p
  · subst hq
    rw [ht] at hu
    cases hu
    refine ⟨_, by rw [List.get?_eq_getElem?, List.getElem?_set_self hp], ?_⟩
    intro av0 hav0
    rw [hav] at hav0
    cases hav0
    refine ⟨_, rfl, ?_⟩
    intro j
    by_cases hj : j = n
    · subst hj
      right
      exact ⟨hn, by rw [List.get?_eq_getElem?, List.getElem?_set_self hnl]⟩
    · left
      rw [List.get?_eq_getElem?, List.get?_eq_getElem?, List.getElem?_set_ne (Ne.symm hj)]
  · refine ⟨u, ?_, fun av0 hav0 => ⟨av0, hav0, fun _ => Or.inl rfl⟩⟩
    rw [List.get?_eq_getElem?, List.getElem?_set_ne (Ne.symm hq), ← List.get?_eq_getElem?]
    exact hu


theorem elem_get_some_nat {α : Type} (a : List α) (i : Int) (v : α)
    (h : elem_get a i = some v) : a.get? i.toNat = some v := by
  unfold elem_get at h
  split at h
  · exact h
  · cases h

theorem finalize_loop_error_raises {W : Type} (K : talsh_h) (E : nvtal W) (st : Int)
    (args : List talsh_tens_arg_t) (hst : st ≠ K.TALSH_TASK_COMPLETED) (hyn : K.YEP ≠ K.NOPE) :
    ∀ (rem : Nat) (i : Int) (coh : Nat) (errc : Int) (s : List talsh_tens_t) (w : W)
      (e : Int) (s1 : List talsh_tens_t) (w1 : W),
      talshTaskFinalize_loop K E st args rem i coh errc s w = exec.ret (e, s1, w1) →
      flags_raised K s s1 ∧ w1 = w := by
  intro rem
  induction rem with
  | zero =>
    intro i coh errc s w e s1 w1 h
    rw [talshTaskFinalize_loop] at h
    obtain ⟨_, rfl, rfl⟩ := exec_ret_inj3 h
    exact ⟨flags_raised_refl K s, rfl⟩
  | succ rem ih =>
    intro i coh errc s w e s1 w1 h
    rw [talshTaskFinalize_loop] at h
    cases ha : elem_get args i with
    | none => rw [ha] at h; cases h
    | some a =>
      rw [ha] at h
      cases hp : a.tens_p with
      | none =>
        simp only [hp] at h
        obtain ⟨_, rfl, rfl⟩ := exec_ret_inj3 h
        exact ⟨flags_raised_refl K s, rfl⟩
      | some p =>
        simp only [hp] at h
        cases ht : s.get? p with
        | none => simp only [ht] at h; cases h
        | some t =>
          simp only [ht] at h
          by_cases hcc : coh % 4 = uint_of_int K.COPY_D ∨ coh % 4 = uint_of_int K.COPY_M
          · rw [if_pos hcc] at h
            cases hav : t.avail with
            | none => simp only [hav] at h; cases h
            | some av =>
              simp only [hav] at h
              cases hv : elem_get av a.source_image with
              | none => simp only [hv] at h; cases h
              | some v =>
                simp only [hv] at h
                by_cases hn : v = K.NOPE
                · rw [if_pos hn, if_neg hst] at h
                  obtain ⟨h1, h2⟩ := ih _ _ _ _ _ _ _ _ h
                  refine ⟨flags_raised_trans K hyn _ _ _ ?_ h1, h2⟩
                  exact flags_raised_set K s p t av _ ht hav
                    (hn ▸ elem_get_some_nat _ _ _ hv)
                · rw [if_neg hn] at h
                  obtain ⟨_, rfl, rfl⟩ := exec_ret_inj3 h
                  exact ⟨flags_raised_refl K s, rfl⟩
          · rw [if_neg hcc] at h
            exact ih _ _ _ _ _ _ _ _ h

theorem finalize_loop_error_again {W : Type} (K : talsh_h) (E : nvtal W) (st : Int)
    (args : List talsh_tens_arg_t) (hst : st ≠ K.TALSH_TASK_COMPLETED) (hyn : K.YEP ≠ K.NOPE) :
    ∀ (rem : Nat) (i : Int) (coh : Nat) (errc : Int) (s : List talsh_tens_t) (w : W)
      (e : Int) (s1 : List talsh_tens_t) (w1 : W),
      talshTaskFinalize_loop K E st args rem i coh errc s w = exec.ret (e, s1, w1) →
      ∀ (s2 : List talsh_tens_t) (errc2 : Int) (w2 : W), flags_raised K s1 s2 →
        ∃ e2, talshTaskFinalize_loop K E st args rem i coh errc2 s2 w2 =
          exec.ret (e2, s2, w2) := by
  intro rem
  induction rem with
  | zero =>
    intro i coh errc s w e s1 w1 _ s2 errc2 w2 _
    exact ⟨errc2, rfl⟩
  | succ rem ih =>
    intro i coh errc s w e s1 w1 h s2 errc2 w2 hr
    have hfirst := finalize_loop_error_raises K E st args hst hyn _ _ _ _ _ _ _ _ _ h
    rw [talshTaskFinalize_loop] at h
    rw [talshTaskFinalize_loop]
    cases ha : elem_get args i with
    | none => rw [ha] at h; cases h
    | some a =>
      rw [ha] at h
      simp only
      cases hp : a.tens_p with
      | none => exact ⟨K.TALSH_FAILURE, rfl⟩
      | some p =>
        simp only [hp] at h
        cases ht : s.get? p with
        | none => simp only [ht] at h; cases h
        | some t =>
          simp only [ht] at h
          obtain ⟨t1, ht1, ha1⟩ := hfirst.1 p t ht
          obtain ⟨t2, ht2, ha2⟩ := hr p t1 ht1
          simp only [ht2]
          by_cases hcc : coh % 4 = uint_of_int K.COPY_D ∨ coh % 4 = uint_of_int K.COPY_M
          · rw [if_pos hcc] at h
            rw [if_pos hcc]
            cases hav : t.avail with
            | none => simp only [hav] at h; cases h
            | some av =>
              simp only [hav] at h
              obtain ⟨av1, hav1, hj1⟩ := ha1 av hav
              obtain ⟨av2, hav2, hj2⟩ := ha2 av1 hav1
              simp only [hav2]
              cases hv : elem_get av a.source_image with
              | none => simp only [hv] at h; cases h
              | some v =>
                simp only [hv] at h
                have hnn : 0 ≤ a.source_image := by
                  unfold elem_get at hv
                  by_contra hneg
                  rw [if_neg hneg] at hv
                  cases hv
                have hvn := elem_get_some_nat _ _ _ hv
                have hget : ∀ l : List Int, elem_get l a.source_image =
                    l.get? a.source_image.toNat := by
                  intro l; unfold elem_get; rw [if_pos hnn]
                by_cases hn : v = K.NOPE
                · -- the first run has set the flag, which stays set
                  rw [if_pos hn, if_neg hst] at h
                  have hrest := finalize_loop_error_raises K E st args hst hyn _ _ _ _ _ _ _ _ _ h
                  have hset : (s.set p { t with
                      avail := some (av.set a.source_image.toNat K.YEP) }).get? p =
                      some { t with avail := some (av.set a.source_image.toNat K.YEP) } := by
                    have hpl : p < s.length := by
                      rw [List.get?_eq_getElem?] at ht
                      exact (List.getElem?_eq_some_iff.mp ht).1
                    rw [List.get?_eq_getElem?, List.getElem?_set_self hpl]
                  obtain ⟨u1, hu1, hb1⟩ := hrest.1 p _ hset
                  rw [ht1] at hu1
                  cases hu1
                  obtain ⟨bv1, hbv1, hk1⟩ := hb1 _ rfl
                  rw [hav1] at hbv1
                  cases hbv1
                  have hnl : a.source_image.toNat < av.length := by
                    rw [List.get?_eq_getElem?] at hvn
                    exact (List.getElem?_eq_some_iff.mp hvn).1
                  have hy1 : av1.get? a.source_image.toNat = some K.YEP := by
                    rcases hk1 a.source_image.toNat with c | ⟨c, _⟩
                    · rw [c, List.get?_eq_getElem?, List.getElem?_set_self hnl]
                    · rw [List.get?_eq_getElem?, List.getElem?_set_self hnl] at c
                      exact absurd (Option.some.inj c) hyn
                  have hy2 : av2.get? a.source_image.toNat = some K.YEP := by
                    rcases hj2 a.source_image.toNat with c | ⟨c, _⟩
                    · rw [c, hy1]
                    · rw [hy1] at c
                      exact absurd (Option.some.inj c) hyn
                  rw [hget av2, hy2]
                  simp only
                  rw [if_neg hyn]
                  exact ⟨K.TALSH_FAILURE, rfl⟩
                · -- the flag was not `NOPE` and is what it was
                  rw [if_neg hn] at h
                  obtain ⟨_, hs1, _⟩ := exec_ret_inj3 h
                  have hv1 : av1.get? a.source_image.toNat = some v := by
                    rcases hj1 a.source_image.toNat with c | ⟨c, _⟩
                    · rw [c, hvn]
                    · rw [hvn] at c
                      exact absurd (Option.some.inj c) hn
                  have hv2 : av2.get? a.source_image.toNat = some v := by
                    rcases hj2 a.source_image.toNat with c | ⟨c, _⟩
                    · rw [c, hv1]
                    · rw [hv1] at c
                      exact absurd (Option.some.inj c) hn
                  rw [hget av2, hv2]
                  simp only
                  rw [if_neg hn]
                  exact ⟨K.TALSH_FAILURE, rfl⟩
          · rw [if_neg hcc] at h
            rw [if_neg hcc]
            exact ih _ _ _ _ _ _ _ _ h s2 errc2 w2 hr


theorem finalize_gpu_eq {W : Type} (K : talsh_h) (E : nvtal W) (w : W)
    (store : List talsh_tens_t) (task : talsh_task_t) (ref : task_ref) (st : Int)
    (hhost : K.DEV_NVIDIA_GPU ≠ K.DEV_HOST) (hbuild : K.NO_GPU = false)
    (hgpu : task.dev_kind = K.DEV_NVIDIA_GPU) (hhandle : task.task_p = some ref)
    (hst : st = K.TALSH_TASK_COMPLETED ∨ st = K.TALSH_TASK_ERROR) :
    talshTaskFinalize K E w store (some task) st =
      talshTaskFinalize_loop K E st task.tens_args task.num_args.toNat (task.num_args - 1)
        (uint_of_int task.coherence) K.TALSH_SUCCESS store w := by
  unfold talshTaskFinalize
  have h1 : ¬ (st ≠ K.TALSH_TASK_COMPLETED ∧ st ≠ K.TALSH_TASK_ERROR) := by
    rcases hst with h | h
    · exact fun hc => hc.1 h
    · exact fun hc => hc.2 h
  simp only
  rw [if_neg h1, hgpu, if_neg hhost, if_pos rfl, hbuild]
  simp only [Bool.false_eq_true, if_false, hhandle]

/-- Applying coherence control a second time changes nothing when the task is in error,
or when it has completed and no argument carries a discard code. -/
theorem finalize_settled {W : Type} (K : talsh_h) (E : nvtal W) (w : W)
    (store : List talsh_tens_t) (task : talsh_task_t) (ref : task_ref) (st : Int)
    (hK : finalize_codes K) (hbuild : K.NO_GPU = false)
    (hgpu : task.dev_kind = K.DEV_NVIDIA_GPU) (hhandle : task.task_p = some ref)
    (hst : st = K.TALSH_TASK_ERROR ∨ (st = K.TALSH_TASK_COMPLETED ∧ no_discard_codes K task))
    (f : Int) (store1 : List talsh_tens_t) (w1 : W)
    (h : talshTaskFinalize K E w store (some task) st = exec.ret (f, store1, w1)) :
    ∀ w2 : W, ∃ f2, talshTaskFinalize K E w2 store1 (some task) st =
        exec.ret (f2, store1, w2) ∧ (st = K.TALSH_TASK_COMPLETED → f2 = f) := by
  obtain ⟨hk1, hk2, hk3, hk4, hk5⟩ := hK
  intro w2
  have hst2 : st = K.TALSH_TASK_COMPLETED ∨ st = K.TALSH_TASK_ERROR := by
    rcases hst with h1 | ⟨h1, _⟩
    · exact Or.inr h1
    · exact Or.inl h1
  rw [finalize_gpu_eq K E w store task ref st hk1 hbuild hgpu hhandle hst2] at h
  rw [finalize_gpu_eq K E w2 store1 task ref st hk1 hbuild hgpu hhandle hst2]
  rcases hst with h1 | ⟨h1, hno⟩
  · have hne : st ≠ K.TALSH_TASK_COMPLETED := by
      rw [h1]; exact fun hc => hk3 hc.symm
    obtain ⟨e2, he2⟩ := finalize_loop_error_again K E st task.tens_args hne hk4 _ _ _ _ _ _ _ _ _
      h store1 K.TALSH_SUCCESS w2 (flags_raised_refl K store1)
    exact ⟨e2, he2, fun hc => absurd hc hne⟩
  · have hcodes : ∀ k < task.num_args.toNat,
        ¬ discard_code K (uint_of_int task.coherence / 4 ^ k % 4) := by
      intro k hk
      have := hno (task.num_args.toNat - 1 - k) (by omega)
      unfold coherence_field at this
      have e : task.num_args.toNat - 1 - (task.num_args.toNat - 1 - k) = k := by omega
      rw [e] at this
      exact this
    rcases finalize_loop_no_codes K E st task.tens_args task.num_args.toNat
      (task.num_args - 1) (uint_of_int task.coherence) K.TALSH_SUCCESS store hcodes with
      hu | ⟨e, he⟩
    · rw [hu w] at h; cases h
    · rw [he w] at h
      obtain ⟨rfl, rfl, _⟩ := exec_ret_inj3 h
      exact ⟨e, he w2, fun _ => rfl⟩

theorem status_cuda_settled (K : talsh_h) (task : talsh_task_t) (x : Int)
    (h : settled_state K task x) :
    (x = K.CUDA_TASK_ERROR ∧ talshTaskStatus_cuda K x = K.TALSH_TASK_ERROR ∧
      talshTaskCompleted_cuda K x K.NOPE K.TALSH_SUCCESS =
        (K.TALSH_TASK_ERROR, K.YEP, K.TALSH_SUCCESS)) ∨
    (no_discard_codes K task ∧ talshTaskStatus_cuda K x = K.TALSH_TASK_COMPLETED ∧
      talshTaskCompleted_cuda K x K.NOPE K.TALSH_SUCCESS =
        (K.TALSH_TASK_COMPLETED, K.YEP, K.TALSH_SUCCESS)) := by
  rcases h with h | ⟨h, ⟨a1, a2, a3, a4, a5, a6⟩, hno⟩
  · left
    subst h
    simp [talshTaskStatus_cuda, talshTaskCompleted_cuda]
  · right
    subst h
    simp [talshTaskStatus_cuda, talshTaskCompleted_cuda, a1, a2, a3, a4, a5, a6, hno]


theorem status_finish_settled {W : Type} (K : talsh_h) (E : nvtal W) (wa : W)
    (store : List talsh_tens_t) (task : talsh_task_t) (ref : task_ref) (st : Int)
    (hK : finalize_codes K) (hbuild : K.NO_GPU = false)
    (hgpu : task.dev_kind = K.DEV_NVIDIA_GPU) (hhandle : task.task_p = some ref)
    (hst : st = K.TALSH_TASK_ERROR ∨ (st = K.TALSH_TASK_COMPLETED ∧ no_discard_codes K task))
    (s1 : Int) (store1 : List talsh_tens_t) (w1 : W)
    (h : talshTaskStatus_finish K E wa store task st = exec.ret (s1, store1, w1)) :
    ∀ wb : W, talshTaskStatus_finish K E wb store1 task st = exec.ret (s1, store1, wb) := by
  intro wb
  have hterm : st = K.TALSH_TASK_COMPLETED ∨ st = K.TALSH_TASK_ERROR := by
    rcases hst with h1 | ⟨h1, _⟩
    · exact Or.inr h1
    · exact Or.inl h1
  unfold talshTaskStatus_finish at h ⊢
  rw [if_pos hterm] at h
  rw [if_pos hterm]
  cases hf : talshTaskFinalize K E wa store (some task) st with
  | undef => rw [hf] at h; cases h
  | timeout => rw [hf] at h; cases h
  | ret f =>
    rw [hf] at h
    simp only at h
    obtain ⟨hs, hstore, hw⟩ := exec_ret_inj3 h
    obtain ⟨f1, fs, fw⟩ := f
    simp only at hs hstore hw
    subst hstore
    obtain ⟨f2, hf2, heq⟩ := finalize_settled K E wa store task ref st hK hbuild hgpu hhandle
      hst f1 fs fw hf wb
    rw [hf2]
    simp only
    rcases hst with h1 | ⟨h1, _⟩
    · subst hs
      rw [h1]
      simp
    · rw [heq h1, hs]

theorem completed_finish_settled {W : Type} (K : talsh_h) (E : nvtal W) (wa : W)
    (store : List talsh_tens_t) (task : talsh_task_t) (ref : task_ref) (st ierr0 : Int)
    (hK : finalize_codes K) (hbuild : K.NO_GPU = false)
    (hgpu : task.dev_kind = K.DEV_NVIDIA_GPU) (hhandle : task.task_p = some ref)
    (hst : st = K.TALSH_TASK_ERROR ∨ (st = K.TALSH_TASK_COMPLETED ∧ no_discard_codes K task))
    (r1 : completed_t W)
    (h : talshTaskCompleted_finish K E wa store task K.YEP st ierr0 = exec.ret r1) :
    r1.stats = some st ∧ (∃ v, r1.ierr = some v) ∧
    ∀ (wb : W) (ierr1 : Int), ∃ r2,
      talshTaskCompleted_finish K E wb r1.store task K.YEP st ierr1 = exec.ret r2 ∧
      r2.value = r1.value ∧ r2.stats = r1.stats ∧ r2.store = r1.store := by
  unfold talshTaskCompleted_finish at h
  rw [if_pos rfl] at h
  cases hf : talshTaskFinalize K E wa store (some task) st with
  | undef => rw [hf] at h; cases h
  | timeout => rw [hf] at h; cases h
  | ret f =>
    rw [hf] at h
    simp only at h
    obtain ⟨f1, fs, fw⟩ := f
    have hr := exec.ret.inj h
    subst hr
    refine ⟨rfl, ⟨_, rfl⟩, ?_⟩
    intro wb ierr1
    obtain ⟨f2, hf2, _⟩ := finalize_settled K E wa store task ref st hK hbuild hgpu hhandle
      hst f1 fs fw hf wb
    unfold talshTaskCompleted_finish
    rw [if_pos rfl]
    simp only
    rw [hf2]
    exact ⟨_, rfl, rfl, rfl, rfl⟩

/-- C19, amended (looking at a finished task twice): for a GPU task of a build with GPU
support whose backend reports, on two consecutive looks, that the task is in error,
or that it has completed while no argument carries a discard code (`COPY_D` or
`COPY_M`): when the first call of `talshTaskStatus` returns, the second call returns
the same status and leaves the store of tensor blocks (`ndev`, device resources, data
kinds and availability flags of every tensor block) exactly as the first call left it;
likewise the second call of `talshTaskCompleted` returns the same value and the same
task status in `stats` as the first and leaves the store as the first call left it. -/
theorem task_poll_settled {W : Type} (K : talsh_h) (E : nvtal W) (talsh_on : Int) (w : W)
    (store : List talsh_tens_t) (task : talsh_task_t) (c : Nat) (x : Int)
    (hK : finalize_codes K) (hbuild : K.NO_GPU = false)
    (hgpu : task.dev_kind = K.DEV_NVIDIA_GPU)
    (hhandle : task.task_p = some (task_ref.cuda c))
    (hstate : settled_state K task x) :
    (∀ (s1 : Int) (store1 : List talsh_tens_t) (w1 : W),
      (E.cuda_task_status w c).1 = x → (E.cuda_task_status w1 c).1 = x →
      talshTaskStatus K E talsh_on w store (some task) = exec.ret (s1, store1, w1) →
      ∃ w2, talshTaskStatus K E talsh_on w1 store1 (some task) =
        exec.ret (s1, store1, w2)) ∧
    (∀ (stats ierr : Option Int) (r1 : completed_t W),
      (E.cuda_task_completed w c).1 = x → (E.cuda_task_completed r1.world c).1 = x →
      talshTaskCompleted K E talsh_on w store (some task) stats ierr = exec.ret r1 →
      ∃ r2, talshTaskCompleted K E talsh_on r1.world r1.store (some task) r1.stats r1.ierr =
          exec.ret r2 ∧
        r2.value = r1.value ∧ r2.stats = r1.stats ∧ r2.store = r1.store) := by
  have hk1 : ¬ K.DEV_NVIDIA_GPU = K.DEV_HOST := hK.1
  have hk2 : ¬ K.DEV_NVIDIA_GPU = K.DEV_NULL := hK.2.1
  have hst : talshTaskStatus_cuda K x = K.TALSH_TASK_ERROR ∨
      (talshTaskStatus_cuda K x = K.TALSH_TASK_COMPLETED ∧ no_discard_codes K task) := by
    rcases status_cuda_settled K task x hstate with ⟨_, h, _⟩ | ⟨hno, h, _⟩
    · exact Or.inl h
    · exact Or.inr ⟨h, hno⟩
  constructor
  · intro s1 store1 w1 hp1 hp2 h
    unfold talshTaskStatus at h ⊢
    by_cases hon : talsh_on = 0
    · rw [if_pos hon] at h
      rw [if_pos hon]
      obtain ⟨rfl, rfl, rfl⟩ := exec_ret_inj3 h
      exact ⟨_, rfl⟩
    · rw [if_neg hon] at h
      rw [if_neg hon]
      simp only [hgpu, hk2, if_false, hhandle, hk1, if_true, hbuild, Bool.false_eq_true,
        hp1, hp2] at h ⊢
      exact ⟨_, status_finish_settled K E _ store task _ _ hK hbuild hgpu hhandle hst
        s1 store1 w1 h _⟩
  · intro stats ierr r1 hp1 hp2 h
    unfold talshTaskCompleted at h ⊢
    by_cases hon : talsh_on = 0
    · rw [if_pos hon] at h
      rw [if_pos hon]
      cases ierr with
      | none => cases h
      | some v =>
        simp only at h
        have hr := exec.ret.inj h
        subst hr
        exact ⟨_, rfl, rfl, rfl, rfl⟩
    · rw [if_neg hon] at h
      rw [if_neg hon]
      cases ierr with
      | none =>
        simp only at h
        have hr := exec.ret.inj h
        subst hr
        exact ⟨_, rfl, rfl, rfl, rfl⟩
      | some v =>
        cases stats with
        | none =>
          simp only at h
          have hr := exec.ret.inj h
          subst hr
          exact ⟨_, rfl, rfl, rfl, rfl⟩
        | some st0 =>
          have hc : talshTaskCompleted_cuda K x K.NOPE K.TALSH_SUCCESS =
              (talshTaskStatus_cuda K x, K.YEP, K.TALSH_SUCCESS) := by
            rcases status_cuda_settled K task x hstate with ⟨_, h1, h2⟩ | ⟨_, h1, h2⟩
            · rw [h2, h1]
            · rw [h2, h1]
          simp only [hhandle, hgpu, hk1, if_false, if_true, hbuild, Bool.false_eq_true,
            hp1, hc] at h
          obtain ⟨hs1, ⟨v1, hv1⟩, hagain⟩ := completed_finish_settled K E _ store task _ _ _ hK
            hbuild hgpu hhandle hst r1 h
          rw [hs1, hv1]
          simp only [hhandle, hgpu, hk1, if_false, if_true, hbuild, Bool.false_eq_true,
            hp2, hc]
          obtain ⟨r2, a, b, c2, d⟩ := hagain (E.cuda_task_completed r1.world c).2 K.TALSH_SUCCESS
          exact ⟨r2, a, b, by rw [c2, hs1], d⟩

/-! ## Coherence control on concrete tasks -/

/-- Instance of `task_finalize_round_trip`: a tensor block with an available image on
the Host and an image on GPU 0 that is marked unavailable, and a GPU task with this
second image as its argument and the code `COPY_M`. For a task in error the flag of the
image is set and nothing else changes. -/
theorem task_finalize_round_trip_witness :
    talshTaskFinalize talsh_h_values (nvtal_values 0 5) []
      [⟨some ⟨1, [5], [], []⟩, some [⟨0, some 128, -1⟩, ⟨1, some 64, 3⟩], some [8, 8],
        some [1, 0], 2, 2⟩]
      (some ⟨some (task_ref.cuda 0), 1, 8, 1, 1,
        [⟨some 0, 1⟩, ⟨none, -1⟩, ⟨none, -1⟩, ⟨none, -1⟩], 0, 0, 0⟩)
      talsh_h_values.TALSH_TASK_ERROR =
    exec.ret (talsh_h_values.TALSH_SUCCESS,
      [⟨some ⟨1, [5], [], []⟩, some [⟨0, some 128, -1⟩, ⟨1, some 64, 3⟩], some [8, 8],
        some [1, 1], 2, 2⟩], []) :=
  (task_finalize_round_trip talsh_h_values (nvtal_values 0 5) []
    [⟨some ⟨1, [5], [], []⟩, some [⟨0, some 128, -1⟩, ⟨1, some 64, 3⟩], some [8, 8],
      some [1, 0], 2, 2⟩]
    ⟨some (task_ref.cuda 0), 1, 8, 1, 1,
      [⟨some 0, 1⟩, ⟨none, -1⟩, ⟨none, -1⟩, ⟨none, -1⟩], 0, 0, 0⟩ (task_ref.cuda 0) 0
    ⟨some ⟨1, [5], [], []⟩, some [⟨0, some 128, -1⟩, ⟨1, some 64, 3⟩], some [8, 8],
      some [1, 0], 2, 2⟩ [⟨0, some 128, -1⟩, ⟨1, some 64, 3⟩] [8, 8] [1, 0] 1
    (by decide) rfl rfl rfl rfl rfl (by decide) rfl (by decide)
    (by simp [image_table_ok]) (by decide) rfl ⟨0, by decide, by decide, by decide⟩).2

/-- C18 as stated fails when the release of the image's device resource is not clean:
with the tensor block and the task of the witness and a lower-level runtime whose
release returns `NOT_CLEAN`, `talshTaskFinalize` with `TALSH_TASK_COMPLETED` removes the
image (`ndev` goes from 2 to 1) and returns `NOT_CLEAN`, which is not `TALSH_SUCCESS`. -/
theorem task_finalize_not_clean_counterexample :
    talshTaskFinalize talsh_h_values (nvtal_values talsh_h_values.NOT_CLEAN 5) []
      [⟨some ⟨1, [5], [], []⟩, some [⟨0, some 128, -1⟩, ⟨1, some 64, 3⟩], some [8, 8],
        some [1, 0], 2, 2⟩]
      (some ⟨some (task_ref.cuda 0), 1, 8, 1, 1,
        [⟨some 0, 1⟩, ⟨none, -1⟩, ⟨none, -1⟩, ⟨none, -1⟩], 0, 0, 0⟩)
      talsh_h_values.TALSH_TASK_COMPLETED =
    exec.ret (talsh_h_values.NOT_CLEAN,
      [⟨some ⟨1, [5], [], []⟩, some [⟨0, some 128, -1⟩, ⟨-1, none, -1⟩], some [8, 8],
        some [1, 0], 2, 1⟩], [⟨1, some 64, 3⟩]) ∧
    talsh_h_values.NOT_CLEAN ≠ talsh_h_values.TALSH_SUCCESS := by
  constructor <;> decide

/-- Instance of `task_poll_settled`: the backend reports the task of
`task_finalize_round_trip_witness` to be in error. The first call of `talshTaskStatus`
returns `TALSH_TASK_ERROR` and sets the flag of the image; the second call returns
`TALSH_TASK_ERROR` and leaves the tensor block as it is. -/
theorem task_poll_settled_witness :
    talshTaskStatus talsh_h_values (nvtal_values 0 (-1)) 1 []
      [⟨some ⟨1, [5], [], []⟩, some [⟨0, some 128, -1⟩, ⟨1, some 64, 3⟩], some [8, 8],
        some [1, 0], 2, 2⟩]
      (some ⟨some (task_ref.cuda 0), 1, 8, 1, 1,
        [⟨some 0, 1⟩, ⟨none, -1⟩, ⟨none, -1⟩, ⟨none, -1⟩], 0, 0, 0⟩) =
      exec.ret (talsh_h_values.TALSH_TASK_ERROR,
        [⟨some ⟨1, [5], [], []⟩, some [⟨0, some 128, -1⟩, ⟨1, some 64, 3⟩], some [8, 8],
          some [1, 1], 2, 2⟩], []) ∧
    ∃ w2, talshTaskStatus talsh_h_values (nvtal_values 0 (-1)) 1 []
      [⟨some ⟨1, [5], [], []⟩, some [⟨0, some 128, -1⟩, ⟨1, some 64, 3⟩], some [8, 8],
        some [1, 1], 2, 2⟩]
      (some ⟨some (task_ref.cuda 0), 1, 8, 1, 1,
        [⟨some 0, 1⟩, ⟨none, -1⟩, ⟨none, -1⟩, ⟨none, -1⟩], 0, 0, 0⟩) =
      exec.ret (talsh_h_values.TALSH_TASK_ERROR,
        [⟨some ⟨1, [5], [], []⟩, some [⟨0, some 128, -1⟩, ⟨1, some 64, 3⟩], some [8, 8],
          some [1, 1], 2, 2⟩], w2) :=
  ⟨by decide,
   (task_poll_settled talsh_h_values (nvtal_values 0 (-1)) 1 []
    [⟨some ⟨1, [5], [], []⟩, some [⟨0, some 128, -1⟩, ⟨1, some 64, 3⟩], some [8, 8],
      some [1, 0], 2, 2⟩]
    ⟨some (task_ref.cuda 0), 1, 8, 1, 1,
      [⟨some 0, 1⟩, ⟨none, -1⟩, ⟨none, -1⟩, ⟨none, -1⟩], 0, 0, 0⟩ 0 (-1)
    (by decide) rfl rfl rfl (Or.inl rfl)).1 _ _ [] rfl rfl (by decide)⟩

/-- C19 as stated fails for a completed task with a discard code. The backend reports
the task as completed on both looks. With the tensor block of the witness, the first
call of `talshTaskStatus` discards the image and returns `TALSH_TASK_COMPLETED`, and the
second call returns `TALSH_TASK_ERROR`. With a tensor block that has a third image,
also marked unavailable, the first call discards the image of the task and the second
call discards the third image: coherence control is applied a second time. -/
theorem task_poll_twice_counterexample :
    talshTaskStatus talsh_h_values (nvtal_values 0 5) 1 []
      [⟨some ⟨1, [5], [], []⟩, some [⟨0, some 128, -1⟩, ⟨1, some 64, 3⟩], some [8, 8],
        some [1, 0], 2, 2⟩]
      (some ⟨some (task_ref.cuda 0), 1, 8, 1, 1,
        [⟨some 0, 1⟩, ⟨none, -1⟩, ⟨none, -1⟩, ⟨none, -1⟩], 0, 0, 0⟩) =
      exec.ret (talsh_h_values.TALSH_TASK_COMPLETED,
        [⟨some ⟨1, [5], [], []⟩, some [⟨0, some 128, -1⟩, ⟨-1, none, -1⟩], some [8, 8],
          some [1, 0], 2, 1⟩], [⟨1, some 64, 3⟩]) ∧
    talshTaskStatus talsh_h_values (nvtal_values 0 5) 1 [⟨1, some 64, 3⟩]
      [⟨some ⟨1, [5], [], []⟩, some [⟨0, some 128, -1⟩, ⟨-1, none, -1⟩], some [8, 8],
        some [1, 0], 2, 1⟩]
      (some ⟨some (task_ref.cuda 0), 1, 8, 1, 1,
        [⟨some 0, 1⟩, ⟨none, -1⟩, ⟨none, -1⟩, ⟨none, -1⟩], 0, 0, 0⟩) =
      exec.ret (talsh_h_values.TALSH_TASK_ERROR,
        [⟨some ⟨1, [5], [], []⟩, some [⟨0, some 128, -1⟩, ⟨-1, none, -1⟩], some [8, 8],
          some [1, 0], 2, 1⟩], [⟨1, some 64, 3⟩]) ∧
    talshTaskStatus talsh_h_values (nvtal_values 0 5) 1 []
      [⟨some ⟨1, [5], [], []⟩,
        some [⟨0, some 128, -1⟩, ⟨1, some 64, 3⟩, ⟨2, some 32, 4⟩], some [8, 8, 8],
        some [1, 0, 0], 3, 3⟩]
      (some ⟨some (task_ref.cuda 0), 1, 8, 1, 1,
        [⟨some 0, 1⟩, ⟨none, -1⟩, ⟨none, -1⟩, ⟨none, -1⟩], 0, 0, 0⟩) =
      exec.ret (talsh_h_values.TALSH_TASK_COMPLETED,
        [⟨some ⟨1, [5], [], []⟩,
          some [⟨0, some 128, -1⟩, ⟨2, some 32, 4⟩, ⟨2, some 32, 4⟩], some [8, 8, 8],
          some [1, 0, 0], 3, 2⟩], [⟨1, some 64, 3⟩]) ∧
    talshTaskStatus talsh_h_values (nvtal_values 0 5) 1 [⟨1, some 64, 3⟩]
      [⟨some ⟨1, [5], [], []⟩,
        some [⟨0, some 128, -1⟩, ⟨2, some 32, 4⟩, ⟨2, some 32, 4⟩], some [8, 8, 8],
        some [1, 0, 0], 3, 2⟩]
      (some ⟨some (task_ref.cuda 0), 1, 8, 1, 1,
        [⟨some 0, 1⟩, ⟨none, -1⟩, ⟨none, -1⟩, ⟨none, -1⟩], 0, 0, 0⟩) =
      exec.ret (talsh_h_values.TALSH_TASK_COMPLETED,
        [⟨some ⟨1, [5], [], []⟩,
          some [⟨0, some 128, -1⟩, ⟨-1, none, -1⟩, ⟨2, some 32, 4⟩], some [8, 8, 8],
          some [1, 0, 0], 3, 1⟩], [⟨2, some 32, 4⟩, ⟨1, some 64, 3⟩]) := by
  refine ⟨by decide, by decide, by decide, by decide⟩

/-- C20 (coherence failures are reported by finalization) does not hold for the code: a
completed GPU task has two arguments with the code `COPY_M`, the image 1 of a first
tensor block (marked unavailable, the image 0 is available) and the only image of a
second tensor block (marked unavailable). Coherence control starts with the last
argument, for which `talsh_tensor_image_discard` returns `TALSH_NOT_ALLOWED`; the
status is then overwritten by the 0 of the first argument, so that `talshTaskFinalize`
returns 0 and `talshTaskStatus` returns `TALSH_TASK_COMPLETED`. -/
theorem task_finalize_masks_failure :
    talsh_tensor_image_discard talsh_h_values (nvtal_values 0 5) []
      (some ⟨some ⟨1, [5], [], []⟩, some [⟨1, some 32, 4⟩, ⟨-1, none, -1⟩], some [8, 0],
        some [0, 0], 2, 1⟩) 0 =
      exec.ret (talsh_h_values.TALSH_NOT_ALLOWED,
        some ⟨some ⟨1, [5], [], []⟩, some [⟨1, some 32, 4⟩, ⟨-1, none, -1⟩], some [8, 0],
          some [0, 0], 2, 1⟩, []) ∧
    talshTaskFinalize talsh_h_values (nvtal_values 0 5) []
      [⟨some ⟨1, [5], [], []⟩, some [⟨0, some 128, -1⟩, ⟨1, some 64, 3⟩], some [8, 8],
        some [1, 0], 2, 2⟩,
       ⟨some ⟨1, [5], [], []⟩, some [⟨1, some 32, 4⟩, ⟨-1, none, -1⟩], some [8, 0],
        some [0, 0], 2, 1⟩]
      (some ⟨some (task_ref.cuda 0), 1, 8, 5, 2,
        [⟨some 0, 1⟩, ⟨some 1, 0⟩, ⟨none, -1⟩, ⟨none, -1⟩], 0, 0, 0⟩)
      talsh_h_values.TALSH_TASK_COMPLETED =
      exec.ret (0,
        [⟨some ⟨1, [5], [], []⟩, some [⟨0, some 128, -1⟩, ⟨-1, none, -1⟩], some [8, 8],
          some [1, 0], 2, 1⟩,
         ⟨some ⟨1, [5], [], []⟩, some [⟨1, some 32, 4⟩, ⟨-1, none, -1⟩], some [8, 0],
          some [0, 0], 2, 1⟩], [⟨1, some 64, 3⟩]) ∧
    talshTaskStatus talsh_h_values (nvtal_values 0 5) 1 []
      [⟨some ⟨1, [5], [], []⟩, some [⟨0, some 128, -1⟩, ⟨1, some 64, 3⟩], some [8, 8],
        some [1, 0], 2, 2⟩,
       ⟨some ⟨1, [5], [], []⟩, some [⟨1, some 32, 4⟩, ⟨-1, none, -1⟩], some [8, 0],
        some [0, 0], 2, 1⟩]
      (some ⟨some (task_ref.cuda 0), 1, 8, 5, 2,
        [⟨some 0, 1⟩, ⟨some 1, 0⟩, ⟨none, -1⟩, ⟨none, -1⟩], 0, 0, 0⟩) =
      exec.ret (talsh_h_values.TALSH_TASK_COMPLETED,
        [⟨some ⟨1, [5], [], []⟩, some [⟨0, some 128, -1⟩, ⟨-1, none, -1⟩], some [8, 8],
          some [1, 0], 2, 1⟩,
         ⟨some ⟨1, [5], [], []⟩, some [⟨1, some 32, 4⟩, ⟨-1, none, -1⟩], some [8, 0],
          some [0, 0], 2, 1⟩], [⟨1, some 64, 3⟩]) := by
  refine ⟨by decide, by decide, by decide⟩

/-! ## Coherence control: host tasks and the order of the 2-bit fields -/

/-- C23 (host tasks apply no coherence control): for every task with `dev_kind =
DEV_HOST`, whatever its coherence control value and its arguments, `talshTaskFinalize`
with either terminal status returns `TALSH_SUCCESS` and hands back the store of tensor
blocks and the outside state as they were: no field of any tensor block has changed.
The function has no access to the task other than reading it. -/
theorem host_task_no_coherence_control {W : Type} (K : talsh_h) (E : nvtal W) (w : W)
    (store : List talsh_tens_t) (task : talsh_task_t) (task_status : Int)
    (hk : task.dev_kind = K.DEV_HOST)
    (hs : task_status = K.TALSH_TASK_COMPLETED ∨ task_status = K.TALSH_TASK_ERROR) :
    talshTaskFinalize K E w store (some task) task_status =
      exec.ret (K.TALSH_SUCCESS, store, w) := by
  unfold talshTaskFinalize
  simp only
  rw [if_neg (by rcases hs with h | h <;> simp [h]), if_pos hk]

/-- The loop of `talshTaskFinalize`, entered with `k` arguments left and with the
coherence control value shifted to the right by two bits for each of the arguments
that have been looked at, does what `coherence_by_position` describes. -/
theorem finalize_loop_by_position {W : Type} (K : talsh_h) (E : nvtal W) (task_status : Int)
    (task : talsh_task_t) :
    ∀ (k : Nat) (errc : Int) (store : List talsh_tens_t) (w : W),
      k ≤ task.num_args.toNat →
      talshTaskFinalize_loop K E task_status task.tens_args k ((k : Int) - 1)
        (uint_of_int task.coherence / 4 ^ (task.num_args.toNat - k)) errc store w =
      coherence_by_position K E task_status task k errc store w := by
  intro k
  induction k with
  | zero => intro errc store w _; rfl
  | succ k ih =>
    intro errc store w hk
    have hidx : ((k + 1 : Nat) : Int) - 1 = (k : Int) := by push_cast; ring
    have hnext : uint_of_int task.coherence / 4 ^ (task.num_args.toNat - (k + 1)) / 4 =
        uint_of_int task.coherence / 4 ^ (task.num_args.toNat - k) := by
      rw [Nat.div_div_eq_div_mul, ← pow_succ]
      congr 2
      omega
    have hfield : uint_of_int task.coherence / 4 ^ (task.num_args.toNat - (k + 1)) % 4 =
        coherence_field task.coherence task.num_args k := by
      unfold coherence_field
      congr 3
      omega
    unfold talshTaskFinalize_loop coherence_by_position
    rw [hidx, elem_get_natCast]
    cases ha : task.tens_args.get? k with
    | none => rfl
    | some a =>
      simp only
      cases hp : a.tens_p with
      | none => rfl
      | some p =>
        simp only
        cases ht : store.get? p with
        | none => rfl
        | some tens =>
          simp only
          rw [hnext, hfield]
          have hdc : (coherence_field task.coherence task.num_args k = uint_of_int K.COPY_D ∨
              coherence_field task.coherence task.num_args k = uint_of_int K.COPY_M) ↔
              discard_code K (coherence_field task.coherence task.num_args k) := Iff.rfl
          by_cases hc : discard_code K (coherence_field task.coherence task.num_args k)
          · rw [if_pos (hdc.2 hc), if_pos hc]
            cases hav : tens.avail with
            | none => rfl
            | some av =>
              simp only
              cases hv : elem_get av a.source_image with
              | none => rfl
              | some v =>
                simp only
                by_cases hn : v = K.NOPE
                · rw [if_pos hn, if_pos hn]
                  have hk1 : (k : Int) - 1 = ((k : Nat) : Int) - 1 := rfl
                  by_cases hst : task_status = K.TALSH_TASK_COMPLETED
                  · rw [if_pos hst, if_pos hst]
                    cases hd : talsh_tensor_image_discard K E w (some tens) a.source_image with
                    | ret d => exact ih _ _ _ (by omega)
                    | undef => rfl
                    | timeout => rfl
                  · rw [if_neg hst, if_neg hst]
                    exact ih _ _ _ (by omega)
                · rw [if_neg hn, if_neg hn]
          · rw [if_neg (fun h => hc (hdc.1 h)), if_neg hc]
            exact ih _ _ _ (by omega)

/-- C22 (coherence code consumption order): for a task of the kind `DEV_NVIDIA_GPU`
with a CUDA task behind it, `talshTaskFinalize` is coherence control argument by
argument, the argument attached last first, in which the argument at the position `k`
(0 is the destination) is governed by the 2-bit field
`(c >> 2*(n-1-k)) & 3 = coherence_field c n k` of the coherence control value `c`
(converted to `unsigned int`), `n` being the number of arguments. Only a field that is
`COPY_D` or `COPY_M` has an effect: for any other field the argument at the position
`k` is passed over with the status, the tensor blocks and the outside state as they
are. -/
theorem coherence_consumption_order {W : Type} (K : talsh_h) (E : nvtal W) (w : W)
    (store : List talsh_tens_t) (task : talsh_task_t) (ref : task_ref) (task_status : Int)
    (hgpu : task.dev_kind = K.DEV_NVIDIA_GPU) (hne : K.DEV_NVIDIA_GPU ≠ K.DEV_HOST)
    (hno : K.NO_GPU = false) (hp : task.task_p = some ref)
    (hs : task_status = K.TALSH_TASK_COMPLETED ∨ task_status = K.TALSH_TASK_ERROR) :
    talshTaskFinalize K E w store (some task) task_status =
      coherence_by_position K E task_status task task.num_args.toNat K.TALSH_SUCCESS store w ∧
    ∀ (k : Nat) (errc : Int) (store1 : List talsh_tens_t) (w1 : W) (a : talsh_tens_arg_t)
      (p : Nat) (tens : talsh_tens_t),
      task.tens_args.get? k = some a → a.tens_p = some p → store1.get? p = some tens →
      ¬ discard_code K (coherence_field task.coherence task.num_args k) →
      coherence_by_position K E task_status task (k + 1) errc store1 w1 =
        coherence_by_position K E task_status task k errc store1 w1 := by
  constructor
  · unfold talshTaskFinalize
    simp only
    rw [if_neg (by rcases hs with h | h <;> simp [h]), if_neg (by rw [hgpu]; exact hne),
      if_pos hgpu, hno, hp]
    simp only [Bool.false_eq_true, if_false]
    have h := finalize_loop_by_position K E task_status task task.num_args.toNat
      K.TALSH_SUCCESS store w (le_refl _)
    rw [Nat.sub_self, pow_zero, Nat.div_one] at h
    by_cases h0 : 0 ≤ task.num_args
    · rw [Int.toNat_of_nonneg h0] at h
      exact h
    · have hz : task.num_args.toNat = 0 := by omega
      rw [hz]
      rw [hz] at h
      unfold talshTaskFinalize_loop
      unfold coherence_by_position
      rfl
  · intro k errc store1 w1 a p tens ha hp1 ht hc
    conv_lhs => unfold coherence_by_position
    simp only [ha, hp1, ht]
    rw [if_neg hc]

/-! ## Coherence control on concrete tasks: host tasks, field order, polled status -/

/-- Instance of `host_task_no_coherence_control`: a completed host task with the code
`COPY_M` for its argument, the image 1 of a tensor block that is marked unavailable.
`talshTaskFinalize` returns `TALSH_SUCCESS` and the tensor block is as before. -/
theorem host_task_no_coherence_control_witness :
    talshTaskFinalize talsh_h_values (nvtal_values 0 5) []
      [⟨some ⟨1, [5], [], []⟩, some [⟨0, some 128, -1⟩, ⟨1, some 64, 3⟩], some [8, 8],
        some [1, 0], 2, 2⟩]
      (some ⟨some (task_ref.host ⟨0, 0, 1⟩), 0, 8, 1, 1,
        [⟨some 0, 1⟩, ⟨none, -1⟩, ⟨none, -1⟩, ⟨none, -1⟩], 0, 0, 0⟩)
      talsh_h_values.TALSH_TASK_COMPLETED =
    exec.ret (talsh_h_values.TALSH_SUCCESS,
      [⟨some ⟨1, [5], [], []⟩, some [⟨0, some 128, -1⟩, ⟨1, some 64, 3⟩], some [8, 8],
        some [1, 0], 2, 2⟩], []) :=
  host_task_no_coherence_control talsh_h_values (nvtal_values 0 5) []
    [⟨some ⟨1, [5], [], []⟩, some [⟨0, some 128, -1⟩, ⟨1, some 64, 3⟩], some [8, 8],
      some [1, 0], 2, 2⟩]
    ⟨some (task_ref.host ⟨0, 0, 1⟩), 0, 8, 1, 1,
      [⟨some 0, 1⟩, ⟨none, -1⟩, ⟨none, -1⟩, ⟨none, -1⟩], 0, 0, 0⟩
    talsh_h_values.TALSH_TASK_COMPLETED rfl (Or.inl rfl)

/-- Instance of `coherence_consumption_order`: a GPU task in error with two arguments
and the coherence control value 7 = 01 11 (binary). The field of the argument at the
position 1, attached last, is the two lowest bits, 3, which is not a discard code; the
field of the argument at the position 0 is 1 = `COPY_M`. Coherence control passes over
the argument 1 and marks the image of the argument 0 available again. -/
theorem coherence_consumption_order_witness :
    coherence_field 7 2 1 = 3 ∧ coherence_field 7 2 0 = 1 ∧
    talshTaskFinalize talsh_h_values (nvtal_values 0 (-1)) []
      [⟨some ⟨1, [5], [], []⟩, some [⟨0, some 128, -1⟩, ⟨1, some 64, 3⟩], some [8, 8],
        some [1, 0], 2, 2⟩,
       ⟨some ⟨1, [5], [], []⟩, some [⟨0, some 256, -1⟩, ⟨2, some 32, 4⟩], some [8, 8],
        some [1, 0], 2, 2⟩]
      (some ⟨some (task_ref.cuda 0), 1, 8, 7, 2,
        [⟨some 0, 1⟩, ⟨some 1, 1⟩, ⟨none, -1⟩, ⟨none, -1⟩], 0, 0, 0⟩)
      talsh_h_values.TALSH_TASK_ERROR =
    exec.ret (talsh_h_values.TALSH_SUCCESS,
      [⟨some ⟨1, [5], [], []⟩, some [⟨0, some 128, -1⟩, ⟨1, some 64, 3⟩], some [8, 8],
        some [1, 1], 2, 2⟩,
       ⟨some ⟨1, [5], [], []⟩, some [⟨0, some 256, -1⟩, ⟨2, some 32, 4⟩], some [8, 8],
        some [1, 0], 2, 2⟩], []) := by
  refine ⟨by decide, by decide, ?_⟩
  rw [(coherence_consumption_order talsh_h_values (nvtal_values 0 (-1)) []
    [⟨some ⟨1, [5], [], []⟩, some [⟨0, some 128, -1⟩, ⟨1, some 64, 3⟩], some [8, 8],
      some [1, 0], 2, 2⟩,
     ⟨some ⟨1, [5], [], []⟩, some [⟨0, some 256, -1⟩, ⟨2, some 32, 4⟩], some [8, 8],
      some [1, 0], 2, 2⟩]
    ⟨some (task_ref.cuda 0), 1, 8, 7, 2,
      [⟨some 0, 1⟩, ⟨some 1, 1⟩, ⟨none, -1⟩, ⟨none, -1⟩], 0, 0, 0⟩ (task_ref.cuda 0)
    talsh_h_values.TALSH_TASK_ERROR rfl (by decide) rfl rfl (Or.inr rfl)).1]
  decide

/-- C21 (a coherence failure turns the polled status into an error) does not hold for
`talshTaskCompleted`. A GPU task has the only image of a tensor block as its argument,
marked unavailable, with the code `COPY_M`; the backend reports the task as completed.
`talshTaskFinalize` returns `TALSH_NOT_ALLOWED`, which is not 0. `talshTaskCompleted`
returns `YEP` with `TALSH_TASK_COMPLETED` in `*stats` and `NOT_CLEAN` in `*ierr`, and
`talshTaskWait` returns `NOT_CLEAN` with `TALSH_TASK_COMPLETED` in `*stats`;
`talshTaskStatus` returns `TALSH_TASK_ERROR` for the same task. -/
theorem task_completed_keeps_status :
    talshTaskFinalize talsh_h_values (nvtal_values 0 5) []
      [⟨some ⟨1, [5], [], []⟩, some [⟨1, some 64, 3⟩], some [8], some [0], 1, 1⟩]
      (some ⟨some (task_ref.cuda 0), 1, 8, 1, 1,
        [⟨some 0, 0⟩, ⟨none, -1⟩, ⟨none, -1⟩, ⟨none, -1⟩], 0, 0, 0⟩)
      talsh_h_values.TALSH_TASK_COMPLETED =
      exec.ret (talsh_h_values.TALSH_NOT_ALLOWED,
        [⟨some ⟨1, [5], [], []⟩, some [⟨1, some 64, 3⟩], some [8], some [0], 1, 1⟩], []) ∧
    talshTaskCompleted talsh_h_values (nvtal_values 0 5) 1 []
      [⟨some ⟨1, [5], [], []⟩, some [⟨1, some 64, 3⟩], some [8], some [0], 1, 1⟩]
      (some ⟨some (task_ref.cuda 0), 1, 8, 1, 1,
        [⟨some 0, 0⟩, ⟨none, -1⟩, ⟨none, -1⟩, ⟨none, -1⟩], 0, 0, 0⟩) (some 0) (some 0) =
      exec.ret ⟨talsh_h_values.YEP, some talsh_h_values.TALSH_TASK_COMPLETED,
        some talsh_h_values.NOT_CLEAN,
        [⟨some ⟨1, [5], [], []⟩, some [⟨1, some 64, 3⟩], some [8], some [0], 1, 1⟩], []⟩ ∧
    talshTaskWait talsh_h_values (nvtal_values 0 5) 1 1 []
      [⟨some ⟨1, [5], [], []⟩, some [⟨1, some 64, 3⟩], some [8], some [0], 1, 1⟩]
      (some ⟨some (task_ref.cuda 0), 1, 8, 1, 1,
        [⟨some 0, 0⟩, ⟨none, -1⟩, ⟨none, -1⟩, ⟨none, -1⟩], 0, 0, 0⟩) (some 0) =
      exec.ret (talsh_h_values.NOT_CLEAN, some talsh_h_values.TALSH_TASK_COMPLETED,
        [⟨some ⟨1, [5], [], []⟩, some [⟨1, some 64, 3⟩], some [8], some [0], 1, 1⟩], []) ∧
    talshTaskStatus talsh_h_values (nvtal_values 0 5) 1 []
      [⟨some ⟨1, [5], [], []⟩, some [⟨1, some 64, 3⟩], some [8], some [0], 1, 1⟩]
      (some ⟨some (task_ref.cuda 0), 1, 8, 1, 1,
        [⟨some 0, 0⟩, ⟨none, -1⟩, ⟨none, -1⟩, ⟨none, -1⟩], 0, 0, 0⟩) =
      exec.ret (talsh_h_values.TALSH_TASK_ERROR,
        [⟨some ⟨1, [5], [], []⟩, some [⟨1, some 64, 3⟩], some [8], some [0], 1, 1⟩], []) := by
  refine ⟨by decide, by decide, by decide, by decide⟩

/-! ## Waiting for a batch of tasks -/

/-- The loop of `talshTasksWait` does not end when a pass leaves the state as it is,
with tasks outstanding and without a `return`. -/
theorem tasks_wait_loop_stuck {W : Type} (K : talsh_h) (E : nvtal W) (talsh_on ntasks : Int)
    (tasks : List talsh_task_t) (s : tasks_wait_t W) (htc : s.tc > 0)
    (hret : s.returned = none)
    (hpass : talshTasksWait_pass K E talsh_on tasks ntasks.toNat 0 s = exec.ret s) :
    ∀ fuel, talshTasksWait_loop K E talsh_on ntasks tasks fuel s = exec.timeout := by
  intro fuel
  induction fuel with
  | zero => rfl
  | succ n ih =>
    unfold talshTasksWait_loop
    rw [if_pos htc, hpass]
    simp only [hret]
    exact ih

/-- C28 (batch wait polls until every task is terminal) does not hold for the code. A
batch of one GPU task, whose backend reports `CUDA_TASK_SCHEDULED` on the first look
and `CUDA_TASK_COMPLETED` on every later look (`nvtal_polling`): the first call of
`talshTaskCompleted` stores `TALSH_TASK_SCHEDULED` in `stats[0]` and a second call
would return `YEP`. But a pass of `talshTasksWait` over the task with `stats[0] =
TALSH_TASK_SCHEDULED` does not look at the task (the number of looks stays 1) and
leaves one task outstanding, so that `talshTasksWait` does not return, however many
passes it is given. -/
theorem tasks_wait_never_returns :
    talshTaskCompleted talsh_h_values nvtal_polling 1 0
      [⟨some ⟨1, [5], [], []⟩, some [⟨1, some 64, 3⟩], some [8], some [1], 1, 1⟩]
      (some ⟨some (task_ref.cuda 0), 1, 8, 3, 1,
        [⟨some 0, 0⟩, ⟨none, -1⟩, ⟨none, -1⟩, ⟨none, -1⟩], 0, 0, 0⟩)
      (some talsh_h_values.TALSH_TASK_EMPTY) (some 0) =
      exec.ret ⟨talsh_h_values.NOPE, some talsh_h_values.TALSH_TASK_SCHEDULED, some 0,
        [⟨some ⟨1, [5], [], []⟩, some [⟨1, some 64, 3⟩], some [8], some [1], 1, 1⟩], 1⟩ ∧
    talshTaskCompleted talsh_h_values nvtal_polling 1 1
      [⟨some ⟨1, [5], [], []⟩, some [⟨1, some 64, 3⟩], some [8], some [1], 1, 1⟩]
      (some ⟨some (task_ref.cuda 0), 1, 8, 3, 1,
        [⟨some 0, 0⟩, ⟨none, -1⟩, ⟨none, -1⟩, ⟨none, -1⟩], 0, 0, 0⟩)
      (some talsh_h_values.TALSH_TASK_SCHEDULED) (some 0) =
      exec.ret ⟨talsh_h_values.YEP, some talsh_h_values.TALSH_TASK_COMPLETED, some 0,
        [⟨some ⟨1, [5], [], []⟩, some [⟨1, some 64, 3⟩], some [8], some [1], 1, 1⟩], 2⟩ ∧
    talshTasksWait_pass talsh_h_values nvtal_polling 1
      [⟨some (task_ref.cuda 0), 1, 8, 3, 1,
        [⟨some 0, 0⟩, ⟨none, -1⟩, ⟨none, -1⟩, ⟨none, -1⟩], 0, 0, 0⟩] 1 0
      ⟨none, 1, 0, [talsh_h_values.TALSH_TASK_SCHEDULED],
        [⟨some ⟨1, [5], [], []⟩, some [⟨1, some 64, 3⟩], some [8], some [1], 1, 1⟩], 1⟩ =
      exec.ret ⟨none, 1, 0, [talsh_h_values.TALSH_TASK_SCHEDULED],
        [⟨some ⟨1, [5], [], []⟩, some [⟨1, some 64, 3⟩], some [8], some [1], 1, 1⟩], 1⟩ ∧
    ∀ fuel : Nat,
      talshTasksWait talsh_h_values nvtal_polling 1 fuel 0
        [⟨some ⟨1, [5], [], []⟩, some [⟨1, some 64, 3⟩], some [8], some [1], 1, 1⟩] 1
        (some [⟨some (task_ref.cuda 0), 1, 8, 3, 1,
          [⟨some 0, 0⟩, ⟨none, -1⟩, ⟨none, -1⟩, ⟨none, -1⟩], 0, 0, 0⟩]) (some [0]) =
      exec.timeout := by
  have hp1 : talshTasksWait_pass talsh_h_values nvtal_polling 1
      [⟨some (task_ref.cuda 0), 1, 8, 3, 1,
        [⟨some 0, 0⟩, ⟨none, -1⟩, ⟨none, -1⟩, ⟨none, -1⟩], 0, 0, 0⟩] (1 : Int).toNat 0
      ⟨none, 1, 0, [talsh_h_values.TALSH_TASK_SCHEDULED],
        [⟨some ⟨1, [5], [], []⟩, some [⟨1, some 64, 3⟩], some [8], some [1], 1, 1⟩], 1⟩ =
      exec.ret ⟨none, 1, 0, [talsh_h_values.TALSH_TASK_SCHEDULED],
        [⟨some ⟨1, [5], [], []⟩, some [⟨1, some 64, 3⟩], some [8], some [1], 1, 1⟩], 1⟩ := by
    decide
  have hp0 : talshTasksWait_pass talsh_h_values nvtal_polling 1
      [⟨some (task_ref.cuda 0), 1, 8, 3, 1,
        [⟨some 0, 0⟩, ⟨none, -1⟩, ⟨none, -1⟩, ⟨none, -1⟩], 0, 0, 0⟩] (1 : Int).toNat 0
      ⟨none, 1, talsh_h_values.TALSH_SUCCESS, [talsh_h_values.TALSH_TASK_EMPTY],
        [⟨some ⟨1, [5], [], []⟩, some [⟨1, some 64, 3⟩], some [8], some [1], 1, 1⟩], 0⟩ =
      exec.ret ⟨none, 1, 0, [talsh_h_values.TALSH_TASK_SCHEDULED],
        [⟨some ⟨1, [5], [], []⟩, some [⟨1, some 64, 3⟩], some [8], some [1], 1, 1⟩], 1⟩ := by
    decide
  refine ⟨by decide, by decide, by decide, ?_⟩
  intro fuel
  have hstuck := tasks_wait_loop_stuck talsh_h_values nvtal_polling 1 1 _ _ (by decide) rfl hp1
  have hinit : talshTasksWait_init talsh_h_values (1 : Int).toNat 0 [0] =
      some [talsh_h_values.TALSH_TASK_EMPTY] := by decide
  unfold talshTasksWait
  rw [if_neg (by decide)]
  simp only
  rw [if_neg (by decide), hinit]
  simp only
  cases fuel with
  | zero => rfl
  | succ n =>
    unfold talshTasksWait_loop
    rw [if_pos (by decide), hp0]
    simp only
    rw [hstuck n]

/-! ## The image that `talshTensorPlace` clones -/

theorem last_image_none (P : Nat → Bool) :
    ∀ (rem i : Nat) (cur : Int), (∀ j, i ≤ j → j < i + rem → P j = false) →
      last_image P rem i cur = cur := by
  intro rem
  induction rem with
  | zero => intro i cur _; rfl
  | succ rem ih =>
    intro i cur h
    unfold last_image
    rw [h i (le_refl _) (by omega)]
    simp only [Bool.false_eq_true, if_false]
    exact ih (i + 1) cur (fun j h1 h2 => h j (by omega) (by omega))

theorem last_image_last (P : Nat → Bool) :
    ∀ (rem i : Nat) (cur : Int) (j : Nat), i ≤ j → j < i + rem → P j = true →
      (∀ j1, j < j1 → j1 < i + rem → P j1 = false) →
      last_image P rem i cur = (j : Int) := by
  intro rem
  induction rem with
  | zero => intro i cur j h1 h2; omega
  | succ rem ih =>
    intro i cur j h1 h2 hP hlast
    unfold last_image
    by_cases hij : i = j
    · subst hij
      rw [hP]
      simp only [if_true]
      exact last_image_none P rem (i + 1) _ (fun j1 h3 h4 => hlast j1 (by omega) (by omega))
    · exact ih (i + 1) _ j (by omega) (by omega) hP
        (fun j1 h3 h4 => hlast j1 h3 (by omega))

/-- The search of `talshTensorPlace` stops at the first available image that is on the
destination device `[dvk,dvn]`, with this image as `image_id`. -/
theorem place_find_exact {W : Type} (K : talsh_h) (E : nvtal W) (rsc : List talsh_dev_rsc_t)
    (av : List Int) (dvk dvn : Int) (n j : Nat)
    (hav : n ≤ av.length) (hrsc : n ≤ rsc.length) (hj : j < n)
    (hvalid : avail_ids_valid K E rsc av n) (hex : avail_at K E rsc av dvk dvn j) :
    ∀ (rem i : Nat) (image_id host_image : Int), i + rem = n → i ≤ j →
      (∀ i1, i ≤ i1 → i1 < j → ¬ avail_at K E rsc av dvk dvn i1) →
      ∃ h, talshTensorPlace_find K E rsc av dvk dvn rem i image_id host_image =
        exec.ret (some ((j : Int), h)) := by
  intro rem
  induction rem with
  | zero => intro i image_id host_image h1 h2; omega
  | succ rem ih =>
    intro i image_id host_image h1 h2 hfirst
    unfold talshTensorPlace_find
    rw [elem_get_of_lt av i (by omega)]
    simp only
    have hgav : av.get? i = some (av.get ⟨i, by omega⟩) := List.get?_eq_get _
    have hgrsc : rsc.get? i = some (rsc.get ⟨i, by omega⟩) := List.get?_eq_get _
    by_cases ha : av.get ⟨i, by omega⟩ = K.YEP
    · rw [if_pos ha, elem_get_of_lt rsc i (by omega)]
      simp only
      have hv := hvalid i (by omega) (by rw [hgav, ha]) _ hgrsc
      rw [if_neg (by omega)]
      by_cases hij : i = j
      · subst hij
        obtain ⟨_, h4⟩ := hex
        rw [hgrsc] at h4
        simp only [Option.map_some', Option.some.injEq] at h4
        rw [h4]
        simp only [if_true]
        exact ⟨_, rfl⟩
      · have hne : ¬ avail_at K E rsc av dvk dvn i := hfirst i (le_refl _) (by omega)
        by_cases hk : (talshKindDevId E (rsc.get ⟨i, by omega⟩).dev_id).2 = dvk
        · rw [if_pos hk]
          have hn : (talshKindDevId E (rsc.get ⟨i, by omega⟩).dev_id).1 ≠ dvn := by
            intro hn
            apply hne
            refine ⟨by rw [hgav, ha], ?_⟩
            rw [hgrsc]
            simp only [Option.map_some', Option.some.injEq]
            exact Prod.ext hn hk
          rw [if_neg hn]
          exact ih (i + 1) _ _ (by omega) (by omega) (fun i1 h3 h4 => hfirst i1 (by omega) h4)
        · rw [if_neg hk]
          exact ih (i + 1) _ _ (by omega) (by omega) (fun i1 h3 h4 => hfirst i1 (by omega) h4)
    · rw [if_neg ha]
      by_cases hij : i = j
      · subst hij
        exfalso
        apply ha
        have := hex.1
        rw [hgav] at this
        exact Option.some.inj this
      · exact ih (i + 1) _ _ (by omega) (by omega) (fun i1 h3 h4 => hfirst i1 (by omega) h4)

set_option maxHeartbeats 1000000 in
/-- Without an available image on the destination device `[dvk,dvn]`, the search of
`talshTensorPlace` looks at all the images: `image_id` is the last available image on a
device of the kind `dvk` and `host_image` the last available image on the Host. -/
theorem place_find_all {W : Type} (K : talsh_h) (E : nvtal W) (rsc : List talsh_dev_rsc_t)
    (av : List Int) (dvk dvn : Int) (n : Nat)
    (hav : n ≤ av.length) (hrsc : n ≤ rsc.length)
    (hvalid : avail_ids_valid K E rsc av n) :
    ∀ (rem i : Nat) (image_id host_image : Int), i + rem = n →
      (∀ i1, i ≤ i1 → i1 < n → ¬ avail_at K E rsc av dvk dvn i1) →
      talshTensorPlace_find K E rsc av dvk dvn rem i image_id host_image =
        exec.ret (some
          (last_image (fun j => decide (avail_on K E rsc av dvk j)) rem i image_id,
           last_image (fun j => decide (avail_on K E rsc av K.DEV_HOST j)) rem i
             host_image)) := by
  intro rem
  induction rem with
  | zero => intro i image_id host_image _ _; rfl
  | succ rem ih =>
    intro i image_id host_image h1 hno
    unfold talshTensorPlace_find last_image
    rw [elem_get_of_lt av i (by omega)]
    simp only
    have hgav : av.get? i = some (av.get ⟨i, by omega⟩) := List.get?_eq_get _
    have hgrsc : rsc.get? i = some (rsc.get ⟨i, by omega⟩) := List.get?_eq_get _
    have hne : ¬ avail_at K E rsc av dvk dvn i := hno i (le_refl _) (by omega)
    have hc : (i : Int) + 1 = ((i + 1 : Nat) : Int) := by push_cast; rfl
    rw [hc]
    have hrest : ∀ i1, i + 1 ≤ i1 → i1 < n → ¬ avail_at K E rsc av dvk dvn i1 :=
      fun i1 h3 h4 => hno i1 (by omega) h4
    have hon : ∀ kind, avail_on K E rsc av kind i ↔
        (av.get ⟨i, by omega⟩ = K.YEP ∧
          (talshKindDevId E (rsc.get ⟨i, by omega⟩).dev_id).2 = kind) := by
      intro kind
      unfold avail_on
      rw [hgav, hgrsc]
      simp
    by_cases ha : av.get ⟨i, by omega⟩ = K.YEP
    · rw [if_pos ha, elem_get_of_lt rsc i (by omega)]
      simp only
      have hv := hvalid i (by omega) (by rw [hgav, ha]) _ hgrsc
      rw [if_neg (by omega)]
      have hh : decide (avail_on K E rsc av K.DEV_HOST i) =
          decide ((talshKindDevId E (rsc.get ⟨i, by omega⟩).dev_id).2 = K.DEV_HOST) := by
        apply decide_eq_decide.2
        rw [hon]
        exact ⟨fun h => h.2, fun h => ⟨ha, h⟩⟩
      rw [hh]
      by_cases hk : (talshKindDevId E (rsc.get ⟨i, by omega⟩).dev_id).2 = dvk
      · rw [if_pos hk]
        have hn : (talshKindDevId E (rsc.get ⟨i, by omega⟩).dev_id).1 ≠ dvn := by
          intro hn
          apply hne
          refine ⟨by rw [hgav, ha], ?_⟩
          rw [hgrsc]
          simp only [Option.map_some', Option.some.injEq]
          exact Prod.ext hn hk
        rw [if_neg hn, ih (i + 1) _ _ (by omega) hrest]
        have hd : decide (avail_on K E rsc av dvk i) = true :=
          decide_eq_true ((hon dvk).2 ⟨ha, hk⟩)
        rw [hd]
        simp only [if_true, decide_eq_true_eq]
      · rw [if_neg hk, ih (i + 1) _ _ (by omega) hrest]
        have hd : decide (avail_on K E rsc av dvk i) = false :=
          decide_eq_false (fun h => hk ((hon dvk).1 h).2)
        rw [hd]
        simp only [Bool.false_eq_true, if_false, decide_eq_true_eq]
    · rw [if_neg ha, ih (i + 1) _ _ (by omega) hrest]
      have hd : ∀ kind, decide (avail_on K E rsc av kind i) = false :=
        fun kind => decide_eq_false (fun h => ha ((hon kind).1 h).1)
      rw [hd, hd]
      simp only [Bool.false_eq_true, if_false]

theorem avail_at_on {W : Type} (K : talsh_h) (E : nvtal W) (rsc : List talsh_dev_rsc_t)
    (av : List Int) (kind num : Int) (j : Nat) (h : avail_at K E rsc av kind num j) :
    avail_on K E rsc av kind j := by
  obtain ⟨h1, h2⟩ := h
  refine ⟨h1, ?_⟩
  cases hr : rsc.get? j with
  | none => rw [hr] at h2; cases h2
  | some r =>
    rw [hr] at h2
    simp only [Option.map_some', Option.some.injEq] at h2
    simp only [Option.map_some', Option.some.injEq]
    rw [h2]

/-- What `talshTensorPlace` does once its arguments have passed the checks: the search
for the image to clone and, depending on the destination `[dvk,dvn]`, the choice
between `image_id`, `host_image`, the image 0 and a placement on the Host first. -/
theorem place_fuel_eq {W : Type} (K : talsh_h) (E : nvtal W) (T : nvtal_task W)
    (COPY_T COPY_K talsh_on : Int) (wait_fuel depth : Nat) (ctens : Nat → Option Nat) (w : W)
    (store : List talsh_tens_t) (p : Nat) (t : talsh_tens_t) (sh : talsh_tens_shape_t)
    (rsc : List talsh_dev_rsc_t) (dk av : List Int) (dev_id dev_kind copy_ctrl : Int)
    (talsh_task : Option talsh_task_t) (dvk dvn : Int)
    (hon : talsh_on ≠ 0) (hst : store.get? p = some t) (hsh : t.shape_p = some sh)
    (htab : image_table_ok t rsc dk av)
    (hdec : talshKindDevId E (if dev_kind = K.DEV_NULL then dev_id
      else talshFlatDevId E dev_kind dev_id) = (dvn, dvk))
    (hdvn : 0 ≤ dvn)
    (hcc : 0 ≤ copy_ctrl ∧ copy_ctrl ≠ K.COPY_D ∧ copy_ctrl ≠ COPY_T) :
    talshTensorPlace_fuel K E T COPY_T COPY_K talsh_on wait_fuel (depth + 1) ctens w store
        (some p) dev_id dev_kind copy_ctrl talsh_task =
      match talshTensorPlace_find K E rsc av dvk dvn t.ndev.toNat 0 (-1) (-1) with
      | exec.ret none => exec.ret ⟨K.TALSH_FAILURE, store, talsh_task, w⟩
      | exec.ret (some f) =>
        if dvk ≠ K.DEV_HOST then
          if f.1 < 0 then
            if f.2 < 0 then
              talshTensorPlace_via_host K E T COPY_K talsh_on (ctens 0) wait_fuel
                (talshTensorPlace_fuel K E T COPY_T COPY_K talsh_on wait_fuel depth
                  (fun k => ctens (k + 1)) w store (some p) 0 K.DEV_HOST copy_ctrl none)
                p dvk dvn copy_ctrl talsh_task
            else
              talshTensorPlace_transfer K E T talsh_on (ctens 0) wait_fuel w store p dvk dvn
                f.2 copy_ctrl talsh_task
          else
            talshTensorPlace_transfer K E T talsh_on (ctens 0) wait_fuel w store p dvk dvn
              f.1 copy_ctrl talsh_task
        else
          talshTensorPlace_transfer K E T talsh_on (ctens 0) wait_fuel w store p dvk dvn
            (if f.2 < 0 then 0 else f.2) copy_ctrl talsh_task
      | exec.undef => exec.undef
      | exec.timeout => exec.timeout := by
  obtain ⟨h1, h2, h3, _, _, _, h7, h8⟩ := htab
  have hemp : talshTensorIsEmpty K (some t) = K.NOPE := by
    simp [talshTensorIsEmpty, hsh]
  rw [talshTensorPlace_fuel, if_neg hon]
  simp only [hst, hemp, h1, h2, h3, hdec]
  rewrite [if_neg (by simp), if_neg (by omega), if_neg (by omega),
    if_neg (by rintro (h | h | h) <;> [omega; exact hcc.2.1 h; exact hcc.2.2 h])]
  rfl

/-- C24 (placement source priority for an accelerator target): for a non-empty tensor
block with a consistent image table, whose available images carry valid device ids, a
destination device `[dvk,dvn]` that is not of the kind `DEV_HOST` and a valid
`copy_ctrl`, `talshTensorPlace` goes on (`talshTensorPlace_transfer`) with the following
image as the image to clone: the first available image on the device `[dvk,dvn]` if
there is one; otherwise the last available image on a device of the kind `dvk` if
there is one; otherwise the last available image on the Host if there is one. Only
when there is none of these does it call itself for the Host
(`talshTensorPlace_via_host`), a call without a task, which blocks. -/
theorem place_source_priority {W : Type} (K : talsh_h) (E : nvtal W) (T : nvtal_task W)
    (COPY_T COPY_K talsh_on : Int) (wait_fuel : Nat) (ctens : Nat → Option Nat) (w : W)
    (store : List talsh_tens_t) (p : Nat) (t : talsh_tens_t) (sh : talsh_tens_shape_t)
    (rsc : List talsh_dev_rsc_t) (dk av : List Int) (dev_id dev_kind copy_ctrl : Int)
    (talsh_task : Option talsh_task_t) (dvk dvn : Int)
    (hon : talsh_on ≠ 0) (hst : store.get? p = some t) (hsh : t.shape_p = some sh)
    (htab : image_table_ok t rsc dk av)
    (hdec : talshKindDevId E (if dev_kind = K.DEV_NULL then dev_id
      else talshFlatDevId E dev_kind dev_id) = (dvn, dvk))
    (hdvn : 0 ≤ dvn) (haccel : dvk ≠ K.DEV_HOST)
    (hcc : 0 ≤ copy_ctrl ∧ copy_ctrl ≠ K.COPY_D ∧ copy_ctrl ≠ COPY_T)
    (hvalid : avail_ids_valid K E rsc av t.ndev.toNat) :
    (∀ j : Nat, (j : Int) < t.ndev → avail_at K E rsc av dvk dvn j →
      (∀ i < j, ¬ avail_at K E rsc av dvk dvn i) →
      talshTensorPlace K E T COPY_T COPY_K talsh_on ctens wait_fuel w store (some p) dev_id
          dev_kind copy_ctrl talsh_task =
        talshTensorPlace_transfer K E T talsh_on (ctens 0) wait_fuel w store p dvk dvn j
          copy_ctrl talsh_task) ∧
    ((∀ i : Nat, (i : Int) < t.ndev → ¬ avail_at K E rsc av dvk dvn i) →
      ∀ j : Nat, (j : Int) < t.ndev → avail_on K E rsc av dvk j →
      (∀ i : Nat, j < i → (i : Int) < t.ndev → ¬ avail_on K E rsc av dvk i) →
      talshTensorPlace K E T COPY_T COPY_K talsh_on ctens wait_fuel w store (some p) dev_id
          dev_kind copy_ctrl talsh_task =
        talshTensorPlace_transfer K E T talsh_on (ctens 0) wait_fuel w store p dvk dvn j
          copy_ctrl talsh_task) ∧
    ((∀ i : Nat, (i : Int) < t.ndev → ¬ avail_on K E rsc av dvk i) →
      ∀ j : Nat, (j : Int) < t.ndev → avail_on K E rsc av K.DEV_HOST j →
      (∀ i : Nat, j < i → (i : Int) < t.ndev → ¬ avail_on K E rsc av K.DEV_HOST i) →
      talshTensorPlace K E T COPY_T COPY_K talsh_on ctens wait_fuel w store (some p) dev_id
          dev_kind copy_ctrl talsh_task =
        talshTensorPlace_transfer K E T talsh_on (ctens 0) wait_fuel w store p dvk dvn j
          copy_ctrl talsh_task) ∧
    ((∀ i : Nat, (i : Int) < t.ndev → ¬ avail_on K E rsc av dvk i) →
      (∀ i : Nat, (i : Int) < t.ndev → ¬ avail_on K E rsc av K.DEV_HOST i) →
      talshTensorPlace K E T COPY_T COPY_K talsh_on ctens wait_fuel w store (some p) dev_id
          dev_kind copy_ctrl talsh_task =
        talshTensorPlace_via_host K E T COPY_K talsh_on (ctens 0) wait_fuel
          (talshTensorPlace_fuel K E T COPY_T COPY_K talsh_on wait_fuel 1
            (fun k => ctens (k + 1)) w store (some p) 0 K.DEV_HOST copy_ctrl none)
          p dvk dvn copy_ctrl talsh_task) := by
  have hbody := place_fuel_eq K E T COPY_T COPY_K talsh_on wait_fuel 1 ctens w store p t sh rsc
    dk av dev_id dev_kind copy_ctrl talsh_task dvk dvn hon hst hsh htab hdec hdvn hcc
  obtain ⟨_, _, _, h4, _, h6, h7, h8⟩ := htab
  have hn : ((t.ndev.toNat : Nat) : Int) = t.ndev := Int.toNat_of_nonneg (by omega)
  have hlav : t.ndev.toNat ≤ av.length := by omega
  have hlrsc : t.ndev.toNat ≤ rsc.length := by omega
  have hall : (∀ i : Nat, (i : Int) < t.ndev → ¬ avail_at K E rsc av dvk dvn i) →
      talshTensorPlace_find K E rsc av dvk dvn t.ndev.toNat 0 (-1) (-1) =
        exec.ret (some
          (last_image (fun j => decide (avail_on K E rsc av dvk j)) t.ndev.toNat 0 (-1),
           last_image (fun j => decide (avail_on K E rsc av K.DEV_HOST j)) t.ndev.toNat 0
             (-1))) := by
    intro hno
    have h := place_find_all K E rsc av dvk dvn t.ndev.toNat hlav hlrsc hvalid t.ndev.toNat 0
      (-1) (-1) (by omega) (fun i1 _ h2 => hno i1 (by omega))
    simpa using h
  have hnone : ∀ kind, (∀ i : Nat, (i : Int) < t.ndev → ¬ avail_on K E rsc av kind i) →
      last_image (fun j => decide (avail_on K E rsc av kind j)) t.ndev.toNat 0 (-1) = -1 := by
    intro kind hno
    exact last_image_none _ _ _ _ (fun j _ h2 => decide_eq_false (hno j (by omega)))
  have hlast : ∀ kind (j : Nat), (j : Int) < t.ndev → avail_on K E rsc av kind j →
      (∀ i : Nat, j < i → (i : Int) < t.ndev → ¬ avail_on K E rsc av kind i) →
      last_image (fun j => decide (avail_on K E rsc av kind j)) t.ndev.toNat 0 (-1) =
        (j : Int) := by
    intro kind j hj hav hno
    exact last_image_last _ _ _ _ j (Nat.zero_le _) (by omega) (decide_eq_true hav)
      (fun j1 h1 h2 => decide_eq_false (hno j1 h1 (by omega)))
  unfold talshTensorPlace
  rw [hbody]
  refine ⟨?_, ?_, ?_, ?_⟩
  · intro j hj hex hfirst
    obtain ⟨h, hf⟩ := place_find_exact K E rsc av dvk dvn t.ndev.toNat j hlav hlrsc (by omega)
      hvalid hex t.ndev.toNat 0 (-1) (-1) (by omega) (Nat.zero_le _)
      (fun i1 _ h2 => hfirst i1 h2)
    have hf1 : talshTensorPlace_find K E rsc av dvk dvn t.ndev.toNat 0 (-1) (-1) =
        exec.ret (some ((j : Int), h)) := by simpa using hf
    rw [hf1]
    simp only
    rw [if_pos haccel, if_neg (by omega)]
  · intro hno j hj hav hlst
    rw [hall hno]
    simp only
    rw [hlast dvk j hj hav hlst, if_pos haccel, if_neg (by omega)]
  · intro hno j hj hav hlst
    rw [hall (fun i hi h => hno i hi (avail_at_on K E rsc av dvk dvn i h))]
    simp only
    rw [hnone dvk hno, hlast K.DEV_HOST j hj hav hlst, if_pos haccel, if_pos (by omega),
      if_neg (by omega)]
  · intro hno hnoh
    rw [hall (fun i hi h => hno i hi (avail_at_on K E rsc av dvk dvn i h))]
    simp only
    rw [hnone dvk hno, hnone K.DEV_HOST hnoh, if_pos haccel, if_pos (by omega),
      if_pos (by omega)]

/-- A call of `talshTensorPlace` for the Host does not call the function again, provided
that the flat device id of the Host is a device of the kind `DEV_HOST`: one level of
calls gives the result. -/
theorem place_host_depth {W : Type} (K : talsh_h) (E : nvtal W) (T : nvtal_task W)
    (COPY_T COPY_K talsh_on : Int) (wait_fuel : Nat)
    (hhost : (talshKindDevId E (if K.DEV_HOST = K.DEV_NULL then 0
      else talshFlatDevId E K.DEV_HOST 0)).2 = K.DEV_HOST)
    (d : Nat) (ctens : Nat → Option Nat) (w : W) (store : List talsh_tens_t)
    (tens : Option Nat) (copy_ctrl : Int) (talsh_task : Option talsh_task_t) :
    talshTensorPlace_fuel K E T COPY_T COPY_K talsh_on wait_fuel (d + 1) ctens w store tens 0
        K.DEV_HOST copy_ctrl talsh_task =
      talshTensorPlace_fuel K E T COPY_T COPY_K talsh_on wait_fuel 1 ctens w store tens 0
        K.DEV_HOST copy_ctrl talsh_task := by
  cases tens with
  | none => rw [talshTensorPlace_fuel, talshTensorPlace_fuel]
  | some p =>
    rw [talshTensorPlace_fuel, talshTensorPlace_fuel]
    simp only [hhost, ne_eq, not_true_eq_false, if_false]

/-- Two levels of calls are enough for `talshTensorPlace` (`talshTensorPlace_depth`):
with any larger bound on the depth of the calls the result is the same. -/
theorem talshTensorPlace_depth {W : Type} (K : talsh_h) (E : nvtal W) (T : nvtal_task W)
    (COPY_T COPY_K talsh_on : Int) (wait_fuel : Nat)
    (hhost : (talshKindDevId E (if K.DEV_HOST = K.DEV_NULL then 0
      else talshFlatDevId E K.DEV_HOST 0)).2 = K.DEV_HOST)
    (d : Nat) (ctens : Nat → Option Nat) (w : W) (store : List talsh_tens_t)
    (tens : Option Nat) (dev_id dev_kind copy_ctrl : Int) (talsh_task : Option talsh_task_t) :
    talshTensorPlace_fuel K E T COPY_T COPY_K talsh_on wait_fuel (d + 2) ctens w store tens
        dev_id dev_kind copy_ctrl talsh_task =
      talshTensorPlace K E T COPY_T COPY_K talsh_on ctens wait_fuel w store tens dev_id
        dev_kind copy_ctrl talsh_task := by
  unfold talshTensorPlace
  cases tens with
  | none => rw [talshTensorPlace_fuel, talshTensorPlace_fuel]
  | some p =>
    conv_lhs => rw [talshTensorPlace_fuel]
    conv_rhs => rw [talshTensorPlace_fuel]
    simp only [place_host_depth K E T COPY_T COPY_K talsh_on wait_fuel hhost d]

/-! ## Placement on concrete tensor blocks -/

/-- Instance of `place_source_priority`: a tensor block with an available image on the
Host (image 0), an available image on GPU 1 (image 1) and an image on GPU 0 that is
marked unavailable (image 2), to be placed on GPU 0. No available image is on GPU 0,
the last available image on a GPU is the image 1: `talshTensorPlace` goes on with the
image 1 as the image to clone. -/
theorem place_source_priority_witness :
    talshTensorPlace talsh_h_values (nvtal_values 0 5) nvtal_task_values COPY_T_value
        COPY_K_value 1 (fun _ => some 1) 0 []
        [⟨some ⟨1, [5], [], []⟩,
          some [⟨0, some 128, -1⟩, ⟨2, some 64, 3⟩, ⟨1, some 32, 4⟩], some [8, 8, 8],
          some [1, 1, 0], 3, 3⟩]
        (some 0) 0 talsh_h_values.DEV_NVIDIA_GPU COPY_K_value (some (talsh_task_empty talsh_h_values)) =
      talshTensorPlace_transfer talsh_h_values (nvtal_values 0 5) nvtal_task_values 1 (some 1) 0
        []
        [⟨some ⟨1, [5], [], []⟩,
          some [⟨0, some 128, -1⟩, ⟨2, some 64, 3⟩, ⟨1, some 32, 4⟩], some [8, 8, 8],
          some [1, 1, 0], 3, 3⟩]
        0 talsh_h_values.DEV_NVIDIA_GPU 0 ((1 : Nat) : Int) COPY_K_value
        (some (talsh_task_empty talsh_h_values)) :=
  (place_source_priority talsh_h_values (nvtal_values 0 5) nvtal_task_values COPY_T_value
    COPY_K_value 1 0 (fun _ => some 1) []
    [⟨some ⟨1, [5], [], []⟩,
      some [⟨0, some 128, -1⟩, ⟨2, some 64, 3⟩, ⟨1, some 32, 4⟩], some [8, 8, 8],
      some [1, 1, 0], 3, 3⟩]
    0
    ⟨some ⟨1, [5], [], []⟩,
      some [⟨0, some 128, -1⟩, ⟨2, some 64, 3⟩, ⟨1, some 32, 4⟩], some [8, 8, 8],
      some [1, 1, 0], 3, 3⟩
    ⟨1, [5], [], []⟩ [⟨0, some 128, -1⟩, ⟨2, some 64, 3⟩, ⟨1, some 32, 4⟩] [8, 8, 8] [1, 1, 0]
    0 talsh_h_values.DEV_NVIDIA_GPU COPY_K_value (some (talsh_task_empty talsh_h_values))
    talsh_h_values.DEV_NVIDIA_GPU 0 (by decide) rfl rfl (by simp [image_table_ok]) (by decide)
    (by decide) (by decide) (by decide)
    (by
      intro j hj h1 r hr
      have hj3 : j < 3 := hj
      interval_cases j <;> simp at hr <;> subst hr <;> decide)).2.1
    (by
      intro i hi
      have hi3 : i < 3 := by
        have : (i : Int) < 3 := hi
        omega
      interval_cases i <;> decide)
    1 (by decide) (by decide)
    (by
      intro i h1 hi
      have hi3 : i < 3 := by
        have : (i : Int) < 3 := hi
        omega
      interval_cases i
      decide)

/-- C25 (placement onto the host prefers a host image) does not hold for the code. A
tensor block has an available image on GPU 0 (image 0) and an available image on the
Host (image 1), and is to be placed on the Host with a clean task. The search stops at
the image 1 with `image_id = 1`, before `host_image` is set, and `host_image = -1` makes
`talshTensorPlace` take the image 0, on GPU 0, as the image to clone: the data
transferring runtime is `DEV_NVIDIA_GPU`, not `DEV_HOST`. No host task is recorded as
completed: the call returns `TALSH_FAILURE` when `ctens` holds `NULL`, with the image 0
set as the argument of the task, and has no defined result when `ctens` holds
anything else. -/
theorem place_host_skips_host_image :
    avail_on talsh_h_values (nvtal_values 0 5) [⟨1, some 64, 3⟩, ⟨0, some 128, -1⟩] [1, 1]
      talsh_h_values.DEV_HOST 1 ∧
    talshTensorPlace_find talsh_h_values (nvtal_values 0 5)
      [⟨1, some 64, 3⟩, ⟨0, some 128, -1⟩] [1, 1] talsh_h_values.DEV_HOST 0 2 0 (-1) (-1) =
      exec.ret (some (1, -1)) ∧
    talshTensorPlace_runtime talsh_h_values talsh_h_values.DEV_HOST
      (talshKindDevId (nvtal_values 0 5) 1).2 = talsh_h_values.DEV_NVIDIA_GPU ∧
    talshTensorPlace talsh_h_values (nvtal_values 0 5) nvtal_task_values COPY_T_value
        COPY_K_value 1 (fun _ => none) 0 []
        [⟨some ⟨1, [5], [], []⟩, some [⟨1, some 64, 3⟩, ⟨0, some 128, -1⟩], some [8, 8],
          some [1, 1], 2, 2⟩]
        (some 0) 0 talsh_h_values.DEV_HOST COPY_K_value
        (some (talsh_task_empty talsh_h_values)) =
      exec.ret ⟨talsh_h_values.TALSH_FAILURE,
        [⟨some ⟨1, [5], [], []⟩, some [⟨1, some 64, 3⟩, ⟨0, some 128, -1⟩], some [8, 8],
          some [1, 1], 2, 2⟩],
        some ⟨some (task_ref.host ⟨-1, -1, 0⟩), talsh_h_values.DEV_HOST, 8, COPY_K_value, 1,
          [⟨some 0, 0⟩, ⟨none, -1⟩, ⟨none, -1⟩, ⟨none, -1⟩], 0, 0, 0⟩, []⟩ ∧
    talshTensorPlace talsh_h_values (nvtal_values 0 5) nvtal_task_values COPY_T_value
        COPY_K_value 1 (fun _ => some 1) 0 []
        [⟨some ⟨1, [5], [], []⟩, some [⟨1, some 64, 3⟩, ⟨0, some 128, -1⟩], some [8, 8],
          some [1, 1], 2, 2⟩]
        (some 0) 0 talsh_h_values.DEV_HOST COPY_K_value
        (some (talsh_task_empty talsh_h_values)) = exec.undef := by
  refine ⟨by decide, by decide, by decide, by decide, by decide⟩

/-- C26 (the placement task is bound to the chosen runtime) does not hold for the code.
A tensor block has one image, available, on GPU 0 and is to be placed on the Host with
a clean task. The data transferring runtime is that of the source, `DEV_NVIDIA_GPU`,
but the task is constructed for the kind of the destination: after the call the task
has `dev_kind = DEV_HOST` and a host task behind it. The branch of the runtime
`DEV_NVIDIA_GPU` then takes `task_p` for a CUDA task: the call has no defined result,
unless `ctens` holds `NULL`, in which case the branch is left with `TALSH_FAILURE`
before it uses the task. -/
theorem place_task_kind_mismatch :
    talshTensorPlace_runtime talsh_h_values talsh_h_values.DEV_HOST
      (talshKindDevId (nvtal_values 0 5) 1).2 = talsh_h_values.DEV_NVIDIA_GPU ∧
    talsh_h_values.DEV_NVIDIA_GPU ≠ talsh_h_values.DEV_HOST ∧
    talshTensorPlace talsh_h_values (nvtal_values 0 5) nvtal_task_values COPY_T_value
        COPY_K_value 1 (fun _ => none) 0 []
        [⟨some ⟨1, [5], [], []⟩, some [⟨1, some 64, 3⟩], some [8], some [1], 1, 1⟩]
        (some 0) 0 talsh_h_values.DEV_HOST COPY_K_value
        (some (talsh_task_empty talsh_h_values)) =
      exec.ret ⟨talsh_h_values.TALSH_FAILURE,
        [⟨some ⟨1, [5], [], []⟩, some [⟨1, some 64, 3⟩], some [8], some [1], 1, 1⟩],
        some ⟨some (task_ref.host ⟨-1, -1, 0⟩), talsh_h_values.DEV_HOST, 8, COPY_K_value, 1,
          [⟨some 0, 0⟩, ⟨none, -1⟩, ⟨none, -1⟩, ⟨none, -1⟩], 0, 0, 0⟩, []⟩ ∧
    talshTensorPlace talsh_h_values (nvtal_values 0 5) nvtal_task_values COPY_T_value
        COPY_K_value 1 (fun _ => some 1) 0 []
        [⟨some ⟨1, [5], [], []⟩, some [⟨1, some 64, 3⟩], some [8], some [1], 1, 1⟩]
        (some 0) 0 talsh_h_values.DEV_HOST COPY_K_value
        (some (talsh_task_empty talsh_h_values)) = exec.undef := by
  refine ⟨by decide, by decide, by decide, by decide⟩

/-- C27 (only available images serve as a source) does not hold for the code. A tensor
block has an image on the Host that is marked unavailable (image 0) and an available
image on GPU 0 (image 1), and is to be placed on the Host with a clean task. The
search finds no available image on the Host, and `talshTensorPlace` takes the image 0
as the image to clone, whatever its flag: the image 0 is set as the argument of the
task, the host task is recorded as completed and the call returns `TALSH_SUCCESS`. -/
theorem place_unavailable_source :
    has_avail_image talsh_h_values
      ⟨some ⟨1, [5], [], []⟩, some [⟨0, some 128, -1⟩, ⟨1, some 64, 3⟩], some [8, 8],
        some [0, 1], 2, 2⟩ ∧
    ¬ image_avail talsh_h_values [0, 1] 0 ∧
    talshTensorPlace talsh_h_values (nvtal_values 0 5) nvtal_task_values COPY_T_value
        COPY_K_value 1 (fun _ => none) 0 []
        [⟨some ⟨1, [5], [], []⟩, some [⟨0, some 128, -1⟩, ⟨1, some 64, 3⟩], some [8, 8],
          some [0, 1], 2, 2⟩]
        (some 0) 0 talsh_h_values.DEV_HOST COPY_K_value
        (some (talsh_task_empty talsh_h_values)) =
      exec.ret ⟨talsh_h_values.TALSH_SUCCESS,
        [⟨some ⟨1, [5], [], []⟩, some [⟨0, some 128, -1⟩, ⟨1, some 64, 3⟩], some [8, 8],
          some [0, 1], 2, 2⟩],
        some ⟨some (task_ref.host ⟨0, 0, 3⟩), talsh_h_values.DEV_HOST, 8, COPY_K_value, 1,
          [⟨some 0, 0⟩, ⟨none, -1⟩, ⟨none, -1⟩, ⟨none, -1⟩], 0, 0, 0⟩, []⟩ ∧
    host_task_status talsh_h_values (some ⟨0, 0, 3⟩) = talsh_h_values.TALSH_TASK_COMPLETED := by
  refine ⟨⟨[0, 1], rfl, 1, by decide, by decide⟩, by decide, by decide, by decide⟩

/-! ## Usage statistics of the Host argument buffer -/

/-- Adding `delta` along the path from an entry to the top adds `delta` to the sum of
the counters of level 0. -/
theorem level0_sum_path_add (T T1 : List Nat) (t o delta : Nat)
    (ho : o < level_width host_conf t)
    (h : path_add host_conf T T1 t o delta) :
    level0_sum T1 = level0_sum T + delta := by
  have hc : conf_ok host_conf := by decide
  have hanc := anc_lt_width host_conf hc t o t (le_refl _) ho
  rw [Nat.sub_self] at hanc
  have hw0 : level_width host_conf 0 = host_conf.buf_top.toNat := by
    unfold level_width
    simp
  rw [hw0] at hanc
  unfold level0_sum
  have hterm : ∀ x ∈ Finset.range host_conf.buf_top.toNat,
      occ_at host_conf T1 0 x = occ_at host_conf T 0 x +
        (if x = o / host_conf.buf_branch.toNat ^ t then delta else 0) := by
    intro x hx
    have hx1 : x < level_width host_conf 0 := by rw [hw0]; exact Finset.mem_range.1 hx
    rw [h 0 (by decide) x hx1]
    congr 1
    unfold on_path
    simp
  rw [Finset.sum_congr rfl hterm, Finset.sum_add_distrib, Finset.sum_ite_eq',
    if_pos (Finset.mem_range.2 hanc)]

/-- The sum of the counters of level 0 is at most the size of the pool. -/
theorem level0_sum_le (pool_size : Nat) (sizes T : List Nat)
    (h : well_formed host_conf pool_size sizes)
    (hinv : occupancy_invariant host_conf sizes T) : level0_sum T ≤ pool_size := by
  have h : pool_ok host_conf pool_size sizes := ⟨h, by decide⟩
  have hle := inv_le host_conf pool_size sizes T h hinv 0 (by decide)
  have htop := wf_top_mul_le host_conf pool_size sizes h
  have hw0 : level_width host_conf 0 = host_conf.buf_top.toNat := by
    unfold level_width
    simp
  unfold level0_sum
  calc ∑ off ∈ Finset.range host_conf.buf_top.toNat, occ_at host_conf T 0 off
      ≤ ∑ _off ∈ Finset.range host_conf.buf_top.toNat, blck_size sizes 0 :=
        Finset.sum_le_sum (fun x hx => hle x (by rw [hw0]; exact Finset.mem_range.1 hx))
    _ = host_conf.buf_top.toNat * blck_size sizes 0 := by simp
    _ ≤ pool_size := htop

theorem entry_size_class_eq (sizes : List Nat) (t o : Nat)
    (ht : t < host_conf.buf_depth.toNat) (ho : o < level_width host_conf t) :
    entry_size_class sizes ((entry_index host_conf t o : Nat) : Int) = blck_size sizes t := by
  unfold entry_size_class
  rw [ab_get_2d_pos_eq host_conf (by decide) t o ht ho]
  simp

theorem sum_map_erase_add (f : Int → Nat) (l : List Int) (e : Int) (he : e ∈ l) :
    ((l.erase e).map f).sum + f e = (l.map f).sum := by
  induction l with
  | nil => cases he
  | cons a l ih =>
    by_cases hae : a = e
    · subst hae
      simp [add_comm]
    · have he1 : e ∈ l := by
        rcases List.mem_cons.1 he with h | h
        · exact absurd h.symm hae
        · exact h
      rw [List.erase_cons_tail (by simpa using hae)]
      simp only [List.map_cons, List.sum_cons]
      have := ih he1
      omega

/-- What `get_buf_entry` does with a request of at least one byte on a pool that
satisfies the invariant: `DEVICE_UNABLE` or `TRY_LATER` with the table as it is, or
status 0 with a free entry of some level which has been occupied. -/
theorem get_buf_entry_cases (TL DU : Int) (c : ab_conf_t) (pool_size : Nat)
    (sizes T : List Nat) (bsize : Nat) (h : pool_ok c pool_size sizes)
    (hT : T.length = total_entries c) (hinv : occupancy_invariant c sizes T)
    (hb : 1 ≤ bsize) :
    get_buf_entry TL DU c bsize T (total_entries c) sizes = exec.ret ⟨DU, T, none, -1⟩ ∨
    get_buf_entry TL DU c bsize T (total_entries c) sizes = exec.ret ⟨TL, T, none, -1⟩ ∨
    ∃ t o, t < c.buf_depth.toNat ∧ o < level_width c t ∧ occ_at c T t o = 0 ∧
      get_buf_entry TL DU c bsize T (total_entries c) sizes =
        exec.ret ⟨0, table_after_get c sizes T t o, some (entry_start c sizes t o),
          ((entry_index c t o : Nat) : Int)⟩ := by
  have hle := inv_le c pool_size sizes T h hinv
  by_cases hbig : blck_size sizes 0 < bsize
  · exact Or.inl (get_buf_entry_beyond_top TL DU c pool_size sizes T bsize h.1 hT hle hbig)
  · obtain ⟨t, ht⟩ := target_level_exists c pool_size sizes bsize h (by omega)
    have hdeep := inv_deep c pool_size sizes T bsize t h hinv hb ht.1
    rcases get_buf_entry_spec TL DU c pool_size sizes T bsize t h hT ht hdeep with
      ⟨o, ho, hav, _, hr⟩ | ⟨_, hr⟩
    · exact Or.inr (Or.inr ⟨t, o, ht.1, ho, hav.1, hr⟩)
    · exact Or.inr (Or.inl hr)

/-- A call of `get_buf_entry_host` with a request of at least one byte keeps
`host_stats_inv`. -/
theorem host_step_get (TL DU : Int) (pool_size : Nat) (sizes : List Nat) (s : host_run_t)
    (bsize : Nat) (h : well_formed host_conf pool_size sizes) (hTL : TL ≠ 0) (hDU : DU ≠ 0)
    (hinv : host_stats_inv pool_size sizes s) (hb : 1 ≤ bsize) :
    ∃ s1, host_step TL DU s (pool_op.get bsize) = exec.ret s1 ∧
      host_stats_inv pool_size sizes s1 := by
  have h : pool_ok host_conf pool_size sizes := ⟨h, by decide⟩
  obtain ⟨hready, hsize, hsz, hosz, T, hocc, hpool, hnum, hsum, hl0⟩ := hinv
  have hlen : T.length = total_entries host_conf := hpool.1
  have hc : conf_ok host_conf := by decide
  have hs : sizes.length = host_conf.buf_depth.toNat := h.1.2.2.2.2.1
  have hle := inv_le host_conf pool_size sizes T h hpool.2.1
  have hstep := pool_step_get_ok TL DU host_conf pool_size sizes ⟨T, s.live⟩ bsize h hTL hDU
    hpool hb
  simp only [pool_step] at hstep
  rw [hlen] at hstep
  simp only [host_step, get_buf_entry_host]
  rw [if_neg hready]
  simp only [hocc]
  rw [hosz, hsz]
  rcases get_buf_entry_cases TL DU host_conf pool_size sizes T bsize h hlen hpool.2.1 hb with
    hr | hr | ⟨t, o, ht, ho, hz, hr⟩
  · rw [hr]
    simp only [hDU, if_false]
    exact ⟨_, rfl, hready, hsize, rfl, rfl, T, rfl, hpool, hnum, hsum, hl0⟩
  · rw [hr]
    simp only [hTL, if_false]
    exact ⟨_, rfl, hready, hsize, rfl, rfl, T, rfl, hpool, hnum, hsum, hl0⟩
  · rw [hr] at hstep
    simp only [if_true] at hstep
    obtain ⟨st1, hst1, hinv1⟩ := hstep
    have hst1e : st1 = ⟨table_after_get host_conf sizes T t o,
        ((entry_index host_conf t o : Nat) : Int) :: s.live⟩ := (exec.ret.inj hst1).symm
    rw [hst1e] at hinv1
    have hpa := table_after_get_path_add host_conf pool_size sizes T h hlen hle t o ht ho hz
    have hl1 := level0_sum_path_add T _ t o _ ho hpa
    have hbound := level0_sum_le pool_size sizes _ h.1 hinv1.2.1
    have hpool_lt : pool_size < 2 ^ 64 := h.1.2.2.2.1
    rw [hr]
    simp only [if_true]
    rw [ab_get_2d_pos_eq host_conf hc t o ht ho]
    simp only
    rw [arr_get_sizes sizes t (by omega)]
    simp only
    refine ⟨_, rfl, hready, hsize, rfl, rfl, _, rfl, hinv1, ?_, ?_, ?_⟩
    · show s.state.num_args_host + 1 =
        (((((entry_index host_conf t o : Nat) : Int) :: s.live).length : Nat) : Int)
      rw [List.length_cons, hnum]
      push_cast
      rfl
    · show size_t_add s.state.occ_size_host (blck_size sizes t) =
        (((((entry_index host_conf t o : Nat) : Int) :: s.live).map
          (entry_size_class sizes)).sum)
      rw [List.map_cons, List.sum_cons, entry_size_class_eq sizes t o ht ho,
        size_t_add_of_lt _ _ (by have := hbound; simp only at this; omega), hsum]
      ring
    · show size_t_add s.state.occ_size_host (blck_size sizes t) =
        level0_sum (table_after_get host_conf sizes T t o)
      rw [size_t_add_of_lt _ _ (by have := hbound; simp only at this; omega), hl1, hl0]

/-- A call of `free_buf_entry_host` for a live entry keeps `host_stats_inv`. -/
theorem host_step_free (TL DU : Int) (pool_size : Nat) (sizes : List Nat) (s : host_run_t)
    (e : Int) (h : well_formed host_conf pool_size sizes)
    (hinv : host_stats_inv pool_size sizes s) (he : e ∈ s.live) :
    ∃ s1, host_step TL DU s (pool_op.free e) = exec.ret s1 ∧
      host_stats_inv pool_size sizes s1 := by
  have h : pool_ok host_conf pool_size sizes := ⟨h, by decide⟩
  obtain ⟨hready, hsize, hsz, hosz, T, hocc, hpool, hnum, hsum, hl0⟩ := hinv
  have hlen : T.length = total_entries host_conf := hpool.1
  have hc : conf_ok host_conf := by decide
  have hs : sizes.length = host_conf.buf_depth.toNat := h.1.2.2.2.2.1
  have hstep := pool_step_free_ok TL DU host_conf pool_size sizes ⟨T, s.live⟩ e h hpool he
  simp only [pool_step] at hstep
  rw [hlen] at hstep
  obtain ⟨t, o, ht, ho, rfl, hw⟩ := hpool.2.2.1 e he
  rw [free_buf_entry_eq host_conf hc sizes T hs hlen t o ht ho, if_pos hw.1] at hstep
  simp only [if_true] at hstep
  obtain ⟨st1, hst1, hinv1, _⟩ := hstep
  have hst1e : st1 = ⟨table_after_free host_conf sizes T t o,
      s.live.erase ((entry_index host_conf t o : Nat) : Int)⟩ := (exec.ret.inj hst1).symm
  rw [hst1e] at hinv1
  have hpa := table_after_free_path_add host_conf pool_size sizes T h hlen hpool.2.1 t o ht ho hw
  have hl1 := level0_sum_path_add _ T t o _ ho hpa
  have hbound := level0_sum_le pool_size sizes T h.1 hpool.2.1
  have hpool_lt : pool_size < 2 ^ 64 := h.1.2.2.2.1
  simp only [host_step, free_buf_entry_host]
  rw [if_neg hready]
  simp only [hocc]
  rw [hosz, hsz, free_buf_entry_eq host_conf hc sizes T hs hlen t o ht ho, if_pos hw.1]
  simp only [if_true]
  rw [ab_get_2d_pos_eq host_conf hc t o ht ho]
  simp only
  rw [arr_get_sizes sizes t (by omega)]
  simp only
  have hsume := sum_map_erase_add (entry_size_class sizes) s.live _ he
  rw [entry_size_class_eq sizes t o ht ho] at hsume
  refine ⟨_, rfl, hready, hsize, rfl, rfl, _, rfl, hinv1, ?_, ?_, ?_⟩
  · show s.state.num_args_host - 1 =
      (((s.live.erase ((entry_index host_conf t o : Nat) : Int)).length : Nat) : Int)
    rw [List.length_erase_of_mem he, hnum]
    have : 0 < s.live.length := List.length_pos_of_mem he
    omega
  · show size_t_sub s.state.occ_size_host (blck_size sizes t) =
      ((s.live.erase ((entry_index host_conf t o : Nat) : Int)).map
        (entry_size_class sizes)).sum
    rw [size_t_sub_of_le _ _ (by omega) (by omega), hsum]
    omega
  · show size_t_sub s.state.occ_size_host (blck_size sizes t) =
      level0_sum (table_after_free host_conf sizes T t o)
    rw [size_t_sub_of_le _ _ (by omega) (by omega), hl0]
    omega

/-- A sequence of calls that respects the contract runs to its end and keeps
`host_stats_inv`. -/
theorem host_run_inv (TL DU : Int) (pool_size : Nat) (sizes : List Nat)
    (h : well_formed host_conf pool_size sizes) (hTL : TL ≠ 0) (hDU : DU ≠ 0) :
    ∀ (ops : List pool_op) (s : host_run_t), host_stats_inv pool_size sizes s →
      host_respects TL DU ops s →
      ∃ s1, host_run TL DU ops s = exec.ret s1 ∧ host_stats_inv pool_size sizes s1 := by
  intro ops
  induction ops with
  | nil => intro s hinv _; exact ⟨s, rfl, hinv⟩
  | cons op ops ih =>
    intro s hinv hresp
    obtain ⟨hallow, hrest⟩ := hresp
    have hstep : ∃ s1, host_step TL DU s op = exec.ret s1 ∧
        host_stats_inv pool_size sizes s1 := by
      cases op with
      | get bsize => exact host_step_get TL DU pool_size sizes s bsize h hTL hDU hinv hallow
      | free e => exact host_step_free TL DU pool_size sizes s e h hinv hallow
    obtain ⟨s1, hs1, hinv1⟩ := hstep
    rw [hs1] at hrest
    simp only [host_run]
    rw [hs1]
    exact ih s1 hinv1 hrest

/-- The Host argument buffer right after its allocation satisfies `host_stats_inv`. -/
theorem host_pool_ready_inv (pool_size : Nat) (st : mem_manager_t)
    (hready : host_pool_ready st pool_size) :
    host_stats_inv pool_size st.blck_sizes_host ⟨st, []⟩ := by
  obtain ⟨h1, h2, h3, h4, h5, h6⟩ := hready
  refine ⟨h1, h2, rfl, h4, _, h3, pool_init_inv host_conf st.blck_sizes_host, ?_, ?_, ?_⟩
  · simp [h5]
  · simp [h6]
  · rw [h6]
    decide

/-- In a state that satisfies `host_stats_inv`, a call of `get_buf_entry_host` with a
request of at least one byte that does not return 0 leaves the module data as it
is. -/
theorem get_host_failed (TL DU : Int) (pool_size : Nat) (sizes : List Nat) (s : host_run_t)
    (h : well_formed host_conf pool_size sizes) (hinv : host_stats_inv pool_size sizes s)
    (bsize : Nat) (ptr : Option Nat) (num : Int) (r : get_host_t) (hb : 1 ≤ bsize)
    (hr : get_buf_entry_host TL DU s.state bsize ptr num = exec.ret r) (hne : r.status ≠ 0) :
    r.state = s.state := by
  have h : pool_ok host_conf pool_size sizes := ⟨h, by decide⟩
  obtain ⟨hready, hsize, hsz, hosz, T, hocc, hpool, hnum, hsum, hl0⟩ := hinv
  have hlen : T.length = total_entries host_conf := hpool.1
  have hc : conf_ok host_conf := by decide
  have hs : sizes.length = host_conf.buf_depth.toNat := h.1.2.2.2.2.1
  simp only [get_buf_entry_host] at hr
  rw [if_neg hready] at hr
  simp only [hocc] at hr
  rw [hosz, hsz] at hr
  rcases get_buf_entry_cases TL DU host_conf pool_size sizes T bsize h hlen hpool.2.1 hb with
    hg | hg | ⟨t, o, ht, ho, hz, hg⟩
  · rw [hg] at hr
    simp only at hr
    by_cases hDU : DU = 0
    · rw [if_pos hDU] at hr
      have h2 : ab_get_2d_pos host_conf (-1) = (2, none) := by decide
      rw [h2] at hr
      simp only at hr
      rw [← exec.ret.inj hr]
      dsimp only
      rw [← hsz, ← hosz, ← hocc]
    · rw [if_neg hDU] at hr
      rw [← exec.ret.inj hr]
      dsimp only
      rw [← hsz, ← hosz, ← hocc]
  · rw [hg] at hr
    simp only at hr
    by_cases hTL : TL = 0
    · rw [if_pos hTL] at hr
      have h2 : ab_get_2d_pos host_conf (-1) = (2, none) := by decide
      rw [h2] at hr
      simp only at hr
      rw [← exec.ret.inj hr]
      dsimp only
      rw [← hsz, ← hosz, ← hocc]
    · rw [if_neg hTL] at hr
      rw [← exec.ret.inj hr]
      dsimp only
      rw [← hsz, ← hosz, ← hocc]
  · rw [hg] at hr
    simp only [if_true] at hr
    rw [ab_get_2d_pos_eq host_conf hc t o ht ho] at hr
    simp only at hr
    rw [arr_get_sizes sizes t (by omega)] at hr
    simp only at hr
    rw [← exec.ret.inj hr] at hne
    exact absurd rfl hne

/-- In a state that satisfies `host_stats_inv`, a call of `free_buf_entry_host` that
does not return 0 leaves the module data as it is. -/
theorem free_host_failed (pool_size : Nat) (sizes : List Nat) (s : host_run_t)
    (h : well_formed host_conf pool_size sizes) (hinv : host_stats_inv pool_size sizes s)
    (e : Int) (r : Int × mem_manager_t)
    (hr : free_buf_entry_host s.state e = exec.ret r) (hne : r.1 ≠ 0) :
    r.2 = s.state := by
  have h : pool_ok host_conf pool_size sizes := ⟨h, by decide⟩
  obtain ⟨hready, hsize, hsz, hosz, T, hocc, hpool, hnum, hsum, hl0⟩ := hinv
  have hlen : T.length = total_entries host_conf := hpool.1
  have hc : conf_ok host_conf := by decide
  have hs : sizes.length = host_conf.buf_depth.toNat := h.1.2.2.2.2.1
  simp only [free_buf_entry_host] at hr
  rw [if_neg hready] at hr
  simp only [hocc] at hr
  rw [hosz, hsz] at hr
  by_cases hrange : e < 0 ∨ ((total_entries host_conf : Nat) : Int) ≤ e
  · rw [free_buf_entry_out_of_range host_conf hc sizes T _ e hrange] at hr
    simp only at hr
    rw [if_neg (by decide)] at hr
    rw [← exec.ret.inj hr]
    dsimp only
    rw [← hsz, ← hosz, ← hocc]
  · obtain ⟨n, rfl⟩ := Int.eq_ofNat_of_zero_le (show 0 ≤ e by omega)
    obtain ⟨t, o, ht, ho, rfl⟩ := entry_index_surj host_conf n (by omega)
    rw [free_buf_entry_eq host_conf hc sizes T hs hlen t o ht ho] at hr
    by_cases hw : occ_at host_conf T t o = blck_size sizes t
    · rw [if_pos hw] at hr
      simp only [if_true] at hr
      rw [ab_get_2d_pos_eq host_conf hc t o ht ho] at hr
      simp only at hr
      rw [arr_get_sizes sizes t (by omega)] at hr
      simp only at hr
      rw [← exec.ret.inj hr] at hne
      exact absurd rfl hne
    · rw [if_neg hw] at hr
      simp only at hr
      rw [if_neg (by decide)] at hr
      rw [← exec.ret.inj hr]
      dsimp only
      rw [← hsz, ← hosz, ← hocc]

/-- C29 (usage statistics match the table): for a Host argument buffer of `pool_size`
bytes whose size classes are well formed (between 1 and `2^31`), as `arg_buf_allocate`
leaves it, every sequence of calls of `get_buf_entry_host` with sizes of at least 1 and
of `free_buf_entry_host` for live entries runs to its end, and after it
`num_args_host` is the number of live entries, `occ_size_host` is the sum of the size
classes of the live entries, which is the sum of the occupancy counters of level 0
and at most `arg_buf_host_size`, and `mem_free_left` for a device id of the Host
returns 0 with `arg_buf_host_size - occ_size_host` as the free memory. A call of
`get_buf_entry_host` (size at least 1) or of `free_buf_entry_host` that does not
return 0 leaves the module data, all counters included, as it is. -/
theorem host_usage_statistics (TRY_LATER DEVICE_UNABLE : Int) (K : talsh_h)
    (A : tensor_algebra_h) (decode : Int → Int × Int) (pool_size : Nat) (st : mem_manager_t)
    (ops : List pool_op) (h : well_formed host_conf pool_size st.blck_sizes_host)
    (hTL : TRY_LATER ≠ 0) (hDU : DEVICE_UNABLE ≠ 0) (hready : host_pool_ready st pool_size)
    (hresp : host_respects TRY_LATER DEVICE_UNABLE ops ⟨st, []⟩) :
    ∃ s T, host_run TRY_LATER DEVICE_UNABLE ops ⟨st, []⟩ = exec.ret s ∧
      s.state.abh_occ = some T ∧
      s.state.num_args_host = (s.live.length : Int) ∧
      s.state.occ_size_host = (s.live.map (entry_size_class st.blck_sizes_host)).sum ∧
      s.state.occ_size_host = level0_sum T ∧
      s.state.arg_buf_host_size = pool_size ∧ s.state.occ_size_host ≤ pool_size ∧
      (∀ dev_id, 0 ≤ (decode dev_id).1 → (decode dev_id).2 = K.DEV_HOST →
        mem_free_left K A decode s.state dev_id =
          exec.ret (0, s.state.arg_buf_host_size - s.state.occ_size_host)) ∧
      (∀ bsize ptr num r, 1 ≤ bsize →
        get_buf_entry_host TRY_LATER DEVICE_UNABLE s.state bsize ptr num = exec.ret r →
        r.status ≠ 0 → r.state = s.state) ∧
      (∀ e r, free_buf_entry_host s.state e = exec.ret r → r.1 ≠ 0 → r.2 = s.state) := by
  obtain ⟨s, hrun, hinv⟩ := host_run_inv TRY_LATER DEVICE_UNABLE pool_size st.blck_sizes_host h
    hTL hDU ops ⟨st, []⟩ (host_pool_ready_inv pool_size st hready) hresp
  have hinv0 := hinv
  obtain ⟨hrdy, hsize, hsz, hosz, T, hocc, hpool, hnum, hsum, hl0⟩ := hinv
  have hbound := level0_sum_le pool_size st.blck_sizes_host T h hpool.2.1
  have hpool_lt : pool_size < 2 ^ 64 := h.2.2.2.1
  refine ⟨s, T, hrun, hocc, hnum, hsum, hl0, hsize, by omega, ?_, ?_, ?_⟩
  · intro dev_id h1 h2
    unfold mem_free_left
    rw [if_neg hrdy, if_pos (by omega), if_pos h2, size_t_sub_of_le _ _ (by omega) (by omega)]
  · intro bsize ptr num r hb hr hne
    exact get_host_failed TRY_LATER DEVICE_UNABLE pool_size st.blck_sizes_host s h hinv0 bsize
      ptr num r hb hr hne
  · intro e r hr hne
    exact free_host_failed pool_size st.blck_sizes_host s h hinv0 e r hr hne

/-! ## Occupied entries at the deallocation of the argument buffers -/

/-- The loop of `arg_buf_clean_host` over a table of less than `2^31` counters returns
a positive value exactly when one of the counters that it looks at is not 0. -/
theorem arg_buf_clean_host_loop_spec (T : List Nat) (hlen : T.length < 2 ^ 31) :
    ∀ (rem i : Nat), i + rem = T.length →
      ∃ r, arg_buf_clean_host_loop T rem i = some r ∧
        (0 < r ↔ ∃ j, i ≤ j ∧ j < T.length ∧ T.get? j ≠ some 0) := by
  intro rem
  induction rem with
  | zero =>
    intro i hi
    refine ⟨0, rfl, ?_⟩
    constructor
    · intro h; omega
    · rintro ⟨j, h1, h2, _⟩; omega
  | succ rem ih =>
    intro i hi
    unfold arg_buf_clean_host_loop
    have hg : T.get? i = some (T.get ⟨i, by omega⟩) := List.get?_eq_get _
    rw [hg]
    simp only
    by_cases hv : T.get ⟨i, by omega⟩ ≠ 0
    · rw [if_pos hv]
      refine ⟨_, rfl, ?_⟩
      have e1 : size_t_add i 1 = i + 1 := by
        unfold size_t_add SIZE_T_RANGE
        exact Nat.mod_eq_of_lt (by omega)
      have e2 : int_of_size_t (i + 1) = ((i + 1 : Nat) : Int) := by
        unfold int_of_size_t
        rw [Nat.mod_eq_of_lt (by omega)]
        push_cast
        ring
      rw [e1, e2]
      constructor
      · intro _
        refine ⟨i, le_refl _, by omega, ?_⟩
        rw [hg]
        intro h
        exact hv (Option.some.inj h)
      · intro _
        push_cast
        omega
    · rw [if_neg hv]
      obtain ⟨r, hr, hiff⟩ := ih (i + 1) (by omega)
      refine ⟨r, hr, ?_⟩
      rw [hiff]
      constructor
      · rintro ⟨j, h1, h2, h3⟩
        exact ⟨j, by omega, h2, h3⟩
      · rintro ⟨j, h1, h2, h3⟩
        refine ⟨j, ?_, h2, h3⟩
        by_contra hlt
        have hji : j = i := by omega
        subst hji
        rw [hg] at h3
        apply h3
        congr 1
        exact not_not.1 hv

/-- C30, amended: the deallocation does not look at the occupancy table. For an
initialized TAL-SH runtime and Host argument buffer with the occupancy table `T`,
`arg_buf_clean_host`
returns a positive value exactly when some counter of `T` is not 0. But
`arg_buf_deallocate` and `talshShutdown` return the same status and leave the same
state whatever the table holds: the result is that for any other table `T1`, the
all-free table included. In a build with `NO_GPU` the status of `arg_buf_deallocate`
is 0 in any case. -/
theorem deallocate_ignores_occupancy {W : Type} (K : talsh_h) (A : tensor_algebra_h)
    (X : cuda_rt W) (w : W) (ts : talsh_t) (st : mem_manager_t) (T : List Nat)
    (gpu_beg gpu_end : Int) (hon : ts.talsh_on ≠ 0) (hready : st.bufs_ready ≠ 0)
    (hocc : st.abh_occ = some T) (hsize : st.abh_occ_size = T.length)
    (hlen : T.length < 2 ^ 31) :
    (∃ r, arg_buf_clean_host st = exec.ret r ∧
      (0 < r ↔ ∃ j, j < T.length ∧ T.get? j ≠ some 0)) ∧
    (∀ T1 : List Nat,
      arg_buf_deallocate K A X w st gpu_beg gpu_end =
        arg_buf_deallocate K A X w { st with abh_occ := some T1 } gpu_beg gpu_end) ∧
    (∀ T1 : List Nat,
      talshShutdown K A X w ts st = talshShutdown K A X w ts { st with abh_occ := some T1 }) ∧
    (K.NO_GPU = true → ∀ d, arg_buf_deallocate K A X w st gpu_beg gpu_end = exec.ret d →
      d.1 = 0) := by
  have hdealloc : ∀ (T1 : List Nat) (b e : Int),
      arg_buf_deallocate K A X w st b e =
        arg_buf_deallocate K A X w { st with abh_occ := some T1 } b e := by
    intro T1 b e
    unfold arg_buf_deallocate
    simp only [hocc, hready, if_false]
  refine ⟨?_, fun T1 => hdealloc T1 gpu_beg gpu_end, ?_, ?_⟩
  · obtain ⟨r, hr, hiff⟩ := arg_buf_clean_host_loop_spec T hlen T.length 0 (by omega)
    refine ⟨r, ?_, ?_⟩
    · unfold arg_buf_clean_host
      rw [if_neg hready, hocc, hsize]
      simp only [Option.getD_some]
      rw [hr]
    · rw [hiff]
      constructor
      · rintro ⟨j, _, h2, h3⟩; exact ⟨j, h2, h3⟩
      · rintro ⟨j, h2, h3⟩; exact ⟨j, Nat.zero_le _, h2, h3⟩
  · intro T1
    unfold talshShutdown
    rw [if_neg hon, if_neg hon, hdealloc T1]
  · intro hno d hd
    unfold arg_buf_deallocate at hd
    rw [if_neg hready] at hd
    split at hd
    · cases hd
    · simp only [hno, if_true] at hd
      rw [← exec.ret.inj hd]

/-! ## The Host argument buffer on concrete states -/

set_option maxRecDepth 100000 in
/-- Instance of `host_usage_statistics`: a Host argument buffer of 2457600 bytes, with
the size classes 819200, ..., 12800, right after its allocation. Two requests of
300000 and of 20000 bytes are served, the first entry (entry 3) is freed and a
request of 900000 bytes, more than the largest size class, is refused. After these
calls `num_args_host` is the number of live entries, `occ_size_host` is the sum of the
counters of level 0 and `mem_free_left` returns what is left of the 2457600 bytes. -/
theorem host_usage_statistics_witness :
    ∃ s T, host_run talsh_h_values.TRY_LATER talsh_h_values.DEVICE_UNABLE
        [pool_op.get 300000, pool_op.get 20000, pool_op.free 3, pool_op.get 900000]
        ⟨⟨1, some 0, List.replicate 8 none, 2457600, List.replicate 8 0, 192,
          List.replicate 8 0, [819200, 409600, 204800, 102400, 51200, 25600, 12800],
          some (List.replicate 381 0), List.replicate 8 none, 381, List.replicate 8 0, 0,
          List.replicate 8 0, 0, List.replicate 8 0, 0, List.replicate 8 0⟩, []⟩ = exec.ret s ∧
      s.state.abh_occ = some T ∧
      s.state.num_args_host = (s.live.length : Int) ∧
      s.state.occ_size_host = level0_sum T ∧
      mem_free_left talsh_h_values tensor_algebra_h_values
        (nvtal_values 0 5).decode_device_id s.state 0 =
        exec.ret (0, s.state.arg_buf_host_size - s.state.occ_size_host) := by
  obtain ⟨s, T, h1, h2, h3, _, h5, _, _, h8, _, _⟩ :=
    host_usage_statistics talsh_h_values.TRY_LATER talsh_h_values.DEVICE_UNABLE talsh_h_values
      tensor_algebra_h_values (nvtal_values 0 5).decode_device_id 2457600
      ⟨1, some 0, List.replicate 8 none, 2457600, List.replicate 8 0, 192,
        List.replicate 8 0, [819200, 409600, 204800, 102400, 51200, 25600, 12800],
        some (List.replicate 381 0), List.replicate 8 none, 381, List.replicate 8 0, 0,
        List.replicate 8 0, 0, List.replicate 8 0, 0, List.replicate 8 0⟩
      [pool_op.get 300000, pool_op.get 20000, pool_op.free 3, pool_op.get 900000]
      (by decide) (by decide) (by decide) (by decide) (by decide)
  exact ⟨s, T, h1, h2, h3, h5, h8 0 (by decide) (by decide)⟩

set_option maxRecDepth 100000 in
/-- C30 as stated fails: a Host argument buffer of 2457600 bytes in which the entry 0,
of 819200 bytes, is still occupied, in an initialized TAL-SH runtime without GPUs and
with a CUDA runtime in which every call succeeds. `arg_buf_clean_host` returns 1, a
positive value, but `arg_buf_deallocate` returns 0 and `talshShutdown` returns
`TALSH_SUCCESS`: the occupancy table is released with the entry in it. -/
theorem shutdown_occupied_counterexample :
    arg_buf_clean_host
      ⟨1, some 0, List.replicate 8 none, 2457600, List.replicate 8 0, 192,
        List.replicate 8 0, [819200, 409600, 204800, 102400, 51200, 25600, 12800],
        some (819200 :: List.replicate 380 0), List.replicate 8 none, 381,
        List.replicate 8 0, 1, List.replicate 8 0, 819200, List.replicate 8 0, 800000,
        List.replicate 8 0⟩ = exec.ret 1 ∧
    arg_buf_deallocate talsh_h_values tensor_algebra_h_values cuda_rt_values 0
      ⟨1, some 0, List.replicate 8 none, 2457600, List.replicate 8 0, 192,
        List.replicate 8 0, [819200, 409600, 204800, 102400, 51200, 25600, 12800],
        some (819200 :: List.replicate 380 0), List.replicate 8 none, 381,
        List.replicate 8 0, 1, List.replicate 8 0, 819200, List.replicate 8 0, 800000,
        List.replicate 8 0⟩ 0 (-1) =
      exec.ret (0,
        ⟨0, some 0, List.replicate 8 none, 0, List.replicate 8 0, 0,
          List.replicate 8 0, [819200, 409600, 204800, 102400, 51200, 25600, 12800], none,
          List.replicate 8 none, 0, List.replicate 8 0, 0, List.replicate 8 0, 0,
          List.replicate 8 0, 0, List.replicate 8 0⟩, 2) ∧
    talshShutdown talsh_h_values tensor_algebra_h_values cuda_rt_values 0
      ⟨1, 0, -1, 1, List.replicate 8 0, List.replicate 8 0, List.replicate 8 0⟩
      ⟨1, some 0, List.replicate 8 none, 2457600, List.replicate 8 0, 192,
        List.replicate 8 0, [819200, 409600, 204800, 102400, 51200, 25600, 12800],
        some (819200 :: List.replicate 380 0), List.replicate 8 none, 381,
        List.replicate 8 0, 1, List.replicate 8 0, 819200, List.replicate 8 0, 800000,
        List.replicate 8 0⟩ =
      exec.ret (talsh_h_values.TALSH_SUCCESS,
        ⟨0, 0, -1, 0, List.replicate 8 0, List.replicate 8 0, List.replicate 8 0⟩,
        ⟨0, some 0, List.replicate 8 none, 0, List.replicate 8 0, 0,
          List.replicate 8 0, [819200, 409600, 204800, 102400, 51200, 25600, 12800], none,
          List.replicate 8 none, 0, List.replicate 8 0, 0, List.replicate 8 0, 0,
          List.replicate 8 0, 0, List.replicate 8 0⟩, 2) := by
  refine ⟨by decide, by decide, by decide⟩

set_option maxRecDepth 100000 in
/-- Instance of `deallocate_ignores_occupancy`: for the Host argument buffer of
`shutdown_occupied_counterexample`, with the entry 0 still occupied,
`arg_buf_deallocate` and `talshShutdown` give the same result as for the buffer with
the all-free table. -/
theorem deallocate_ignores_occupancy_witness :
    arg_buf_deallocate talsh_h_values tensor_algebra_h_values cuda_rt_values 0
      ⟨1, some 0, List.replicate 8 none, 2457600, List.replicate 8 0, 192,
        List.replicate 8 0, [819200, 409600, 204800, 102400, 51200, 25600, 12800],
        some (819200 :: List.replicate 380 0), List.replicate 8 none, 381,
        List.replicate 8 0, 1, List.replicate 8 0, 819200, List.replicate 8 0, 800000,
        List.replicate 8 0⟩ 0 (-1) =
    arg_buf_deallocate talsh_h_values tensor_algebra_h_values cuda_rt_values 0
      { (⟨1, some 0, List.replicate 8 none, 2457600, List.replicate 8 0, 192,
        List.replicate 8 0, [819200, 409600, 204800, 102400, 51200, 25600, 12800],
        some (819200 :: List.replicate 380 0), List.replicate 8 none, 381,
        List.replicate 8 0, 1, List.replicate 8 0, 819200, List.replicate 8 0, 800000,
        List.replicate 8 0⟩ : mem_manager_t) with
        abh_occ := some (List.replicate 381 0) } 0 (-1) ∧
    talshShutdown talsh_h_values tensor_algebra_h_values cuda_rt_values 0
      ⟨1, 0, -1, 1, List.replicate 8 0, List.replicate 8 0, List.replicate 8 0⟩
      ⟨1, some 0, List.replicate 8 none, 2457600, List.replicate 8 0, 192,
        List.replicate 8 0, [819200, 409600, 204800, 102400, 51200, 25600, 12800],
        some (819200 :: List.replicate 380 0), List.replicate 8 none, 381,
        List.replicate 8 0, 1, List.replicate 8 0, 819200, List.replicate 8 0, 800000,
        List.replicate 8 0⟩ =
    talshShutdown talsh_h_values tensor_algebra_h_values cuda_rt_values 0
      ⟨1, 0, -1, 1, List.replicate 8 0, List.replicate 8 0, List.replicate 8 0⟩
      { (⟨1, some 0, List.replicate 8 none, 2457600, List.replicate 8 0, 192,
        List.replicate 8 0, [819200, 409600, 204800, 102400, 51200, 25600, 12800],
        some (819200 :: List.replicate 380 0), List.replicate 8 none, 381,
        List.replicate 8 0, 1, List.replicate 8 0, 819200, List.replicate 8 0, 800000,
        List.replicate 8 0⟩ : mem_manager_t) with
        abh_occ := some (List.replicate 381 0) } :=
  ⟨(deallocate_ignores_occupancy talsh_h_values tensor_algebra_h_values cuda_rt_values 0
      ⟨1, 0, -1, 1, List.replicate 8 0, List.replicate 8 0, List.replicate 8 0⟩
      ⟨1, some 0, List.replicate 8 none, 2457600, List.replicate 8 0, 192,
        List.replicate 8 0, [819200, 409600, 204800, 102400, 51200, 25600, 12800],
        some (819200 :: List.replicate 380 0), List.replicate 8 none, 381,
        List.replicate 8 0, 1, List.replicate 8 0, 819200, List.replicate 8 0, 800000,
        List.replicate 8 0⟩
      (819200 :: List.replicate 380 0) 0 (-1) (by decide) (by decide) rfl rfl
      (by decide)).2.1 (List.replicate 381 0),
   (deallocate_ignores_occupancy talsh_h_values tensor_algebra_h_values cuda_rt_values 0
      ⟨1, 0, -1, 1, List.replicate 8 0, List.replicate 8 0, List.replicate 8 0⟩
      ⟨1, some 0, List.replicate 8 none, 2457600, List.replicate 8 0, 192,
        List.replicate 8 0, [819200, 409600, 204800, 102400, 51200, 25600, 12800],
        some (819200 :: List.replicate 380 0), List.replicate 8 none, 381,
        List.replicate 8 0, 1, List.replicate 8 0, 819200, List.replicate 8 0, 800000,
        List.replicate 8 0⟩
      (819200 :: List.replicate 380 0) 0 (-1) (by decide) (by decide) rfl rfl
      (by decide)).2.2.1 (List.replicate 381 0)⟩

/-! ## Discarding images: what happens to the other images -/

/-- C31 (discard compacts by moving the last image): for a non-empty tensor block with
a consistent image table and an image `i < ndev` besides which some other image is
available, `talsh_tensor_image_discard(tens,i)` calls `tensDevRsc_release_all` on the
record `r` of image `i` (the outside state after the call is the one this release
leaves), decrements `ndev` by one, puts the record, the data kind and the availability
flag of the former last image at position `i` when `i < ndev-1`, and leaves the three
entries of every other image below the new `ndev` as they were. This is so whatever the
release returns: the status is 0 when it returns 0, `NOT_CLEAN` when it returns
`NOT_CLEAN`, and `TALSH_FAILURE` otherwise. -/
theorem image_discard_compacts {W : Type} (K : talsh_h) (E : nvtal W) (w : W)
    (t : talsh_tens_t) (rsc : List talsh_dev_rsc_t) (dk av : List Int) (i : Nat)
    (hshape : t.shape_p ≠ none) (htable : image_table_ok t rsc dk av)
    (hhi : (i : Int) < t.ndev)
    (hother : ∃ j : Nat, (j : Int) < t.ndev ∧ j ≠ i ∧ image_avail K av j) :
    ∃ r s t1 rsc1 dk1 av1,
      rsc.get? i = some r ∧
      talsh_tensor_image_discard K E w (some t) i =
        exec.ret (s, some t1, (E.tensDevRsc_release_all w r).2.2) ∧
      ((E.tensDevRsc_release_all w r).1 = 0 → s = 0) ∧
      ((E.tensDevRsc_release_all w r).1 = K.NOT_CLEAN → s = K.NOT_CLEAN) ∧
      ((E.tensDevRsc_release_all w r).1 ≠ 0 →
        (E.tensDevRsc_release_all w r).1 ≠ K.NOT_CLEAN → s = K.TALSH_FAILURE) ∧
      t1.shape_p = t.shape_p ∧ t1.dev_rsc_len = t.dev_rsc_len ∧
      t1.dev_rsc = some rsc1 ∧ t1.data_kind = some dk1 ∧ t1.avail = some av1 ∧
      t1.ndev = t.ndev - 1 ∧
      ((i : Int) < t.ndev - 1 →
        rsc1.get? i = rsc.get? (t.ndev.toNat - 1) ∧
        dk1.get? i = dk.get? (t.ndev.toNat - 1) ∧
        av1.get? i = av.get? (t.ndev.toNat - 1)) ∧
      (∀ j : Nat, (j : Int) < t.ndev - 1 → j ≠ i →
        rsc1.get? j = rsc.get? j ∧ dk1.get? j = dk.get? j ∧ av1.get? j = av.get? j) := by
  obtain ⟨hi, hn1, hn2, hn3, heq⟩ := image_discard_removes K E w t rsc dk av i hshape htable
    hhi hother
  obtain ⟨h1, h2, h3, h4, h5, h6, h7, h8⟩ := htable
  have hr : rsc.get? i = some (rsc.get ⟨i, hi⟩) := by
    simp [List.getElem?_eq_getElem hi]
  have hstat : ∀ x : Int,
      ((x = 0 → (if x ≠ 0 ∧ x ≠ K.NOT_CLEAN then K.TALSH_FAILURE else x) = 0) ∧
      (x = K.NOT_CLEAN → (if x ≠ 0 ∧ x ≠ K.NOT_CLEAN then K.TALSH_FAILURE else x) =
        K.NOT_CLEAN) ∧
      (x ≠ 0 → x ≠ K.NOT_CLEAN →
        (if x ≠ 0 ∧ x ≠ K.NOT_CLEAN then K.TALSH_FAILURE else x) = K.TALSH_FAILURE)) := by
    intro x
    refine ⟨fun h => ?_, fun h => ?_, fun h h' => ?_⟩
    · rw [if_neg (fun hh => hh.1 h)]; exact h
    · rw [if_neg (fun hh => hh.2 h)]; exact h
    · rw [if_pos ⟨h, h'⟩]
  obtain ⟨hs1, hs2, hs3⟩ := hstat (E.tensDevRsc_release_all w (rsc.get ⟨i, hi⟩)).1
  by_cases hlt : (i : Int) < t.ndev - 1
  · rw [if_pos hlt] at heq
    refine ⟨rsc.get ⟨i, hi⟩, _, _, _, _, _, hr, heq, hs1, hs2, hs3, rfl, rfl, rfl, rfl, rfl,
      rfl, ?_, ?_⟩
    · intro _
      have hi2 : i < dk.length := by omega
      have hi3 : i < av.length := by omega
      refine ⟨?_, ?_, ?_⟩
      · simp [List.getElem?_set, hi, List.getElem?_eq_getElem hn1]
      · simp [List.getElem?_set, hi2, List.getElem?_eq_getElem hn2]
      · simp [List.getElem?_set, hi3, List.getElem?_eq_getElem hn3]
    · intro j _ hne
      have hne' : i ≠ j := fun h => hne h.symm
      refine ⟨?_, ?_, ?_⟩ <;> simp [List.getElem?_set, hne']
  · rw [if_neg hlt] at heq
    refine ⟨rsc.get ⟨i, hi⟩, _, _, _, dk, av, hr, heq, hs1, hs2, hs3, rfl, rfl, rfl, h2, h3,
      rfl, ?_, ?_⟩
    · intro h; exact absurd h hlt
    · intro j _ hne
      have hne' : i ≠ j := fun h => hne h.symm
      refine ⟨?_, rfl, rfl⟩
      simp [List.getElem?_set, hne']

/-- Instance of `image_discard_compacts`: a tensor block with three images, on GPU 0
(available), on the Host (not available) and on GPU 1 (available); image 0 is
discarded and the release returns `NOT_CLEAN`. -/
theorem image_discard_compacts_witness :
    ∃ r s t1 rsc1 dk1 av1,
      [(⟨1, some 64, 3⟩ : talsh_dev_rsc_t), ⟨0, some 128, -1⟩, ⟨2, some 256, 5⟩].get? 0 =
        some r ∧
      talsh_tensor_image_discard talsh_h_values (nvtal_values talsh_h_values.NOT_CLEAN 5) []
        (some ⟨some ⟨1, [5], [], []⟩,
          some [⟨1, some 64, 3⟩, ⟨0, some 128, -1⟩, ⟨2, some 256, 5⟩],
          some [8, 4, 8], some [1, 0, 1], 3, 3⟩) (0 : Nat) =
        exec.ret (s, some t1,
          ((nvtal_values talsh_h_values.NOT_CLEAN 5).tensDevRsc_release_all [] r).2.2) ∧
      s = talsh_h_values.NOT_CLEAN ∧
      t1.dev_rsc = some rsc1 ∧ t1.data_kind = some dk1 ∧ t1.avail = some av1 ∧
      t1.ndev = 2 ∧
      rsc1.get? 0 = some ⟨2, some 256, 5⟩ ∧ dk1.get? 0 = some 8 ∧ av1.get? 0 = some 1 ∧
      rsc1.get? 1 = some ⟨0, some 128, -1⟩ ∧ dk1.get? 1 = some 4 ∧ av1.get? 1 = some 0 := by
  obtain ⟨r, s, t1, rsc1, dk1, av1, h1, h2, _, h4, _, _, _, h8, h9, h10, h11, h12, h13⟩ :=
    image_discard_compacts talsh_h_values (nvtal_values talsh_h_values.NOT_CLEAN 5) []
      ⟨some ⟨1, [5], [], []⟩, some [⟨1, some 64, 3⟩, ⟨0, some 128, -1⟩, ⟨2, some 256, 5⟩],
        some [8, 4, 8], some [1, 0, 1], 3, 3⟩
      [⟨1, some 64, 3⟩, ⟨0, some 128, -1⟩, ⟨2, some 256, 5⟩] [8, 4, 8] [1, 0, 1] 0
      (by decide) (by simp [image_table_ok]) (by decide) ⟨2, by decide, by decide, by decide⟩
  have ha := h12 (by decide)
  have hb := h13 1 (by decide) (by decide)
  exact ⟨r, s, t1, rsc1, dk1, av1, h1, h2, h4 rfl, h8, h9, h10, h11, ha.1, ha.2.1, ha.2.2,
    hb.1, hb.2.1, hb.2.2⟩

/-- C36 evaluated: a tensor block with three images, image 0 on GPU 0 (flat device id
1, available), image 1 on the Host (data kind 4, marked unavailable) and image 2 on
GPU 1 (flat device id 2, available). `talshTensorDiscard(tens,1,DEV_NULL)` returns
`TALSH_SUCCESS` with `ndev = 2`, but the two images that are left are not the images 1
and 2 of the original list: position 0 still holds the released record of the
discarded image, flagged as available, the image of GPU 1 is at position 1, and the
Host image is gone although its resource was never released (only the record of GPU 0
was handed to `tensDevRsc_release_all`). The images of the original list that are not
(available and resident on device 1) are the Host image and the image of GPU 1. -/
theorem tensor_discard_loses_unavailable :
    images ⟨some ⟨1, [5], [], []⟩,
        some [⟨1, some 64, 3⟩, ⟨0, some 128, -1⟩, ⟨2, some 256, 5⟩],
        some [8, 4, 8], some [1, 0, 1], 3, 3⟩ =
      [(⟨1, some 64, 3⟩, 8, 1), (⟨0, some 128, -1⟩, 4, 0), (⟨2, some 256, 5⟩, 8, 1)] ∧
    talshTensorDiscard talsh_h_values (nvtal_values 0 5) 1 []
      (some ⟨some ⟨1, [5], [], []⟩,
        some [⟨1, some 64, 3⟩, ⟨0, some 128, -1⟩, ⟨2, some 256, 5⟩],
        some [8, 4, 8], some [1, 0, 1], 3, 3⟩) 1 talsh_h_values.DEV_NULL =
      exec.ret (talsh_h_values.TALSH_SUCCESS,
        some ⟨some ⟨1, [5], [], []⟩,
          some [⟨-1, none, -1⟩, ⟨2, some 256, 5⟩, ⟨2, some 256, 5⟩],
          some [8, 8, 8], some [1, 1, 1], 3, 2⟩, [⟨1, some 64, 3⟩]) ∧
    images ⟨some ⟨1, [5], [], []⟩,
        some [⟨-1, none, -1⟩, ⟨2, some 256, 5⟩, ⟨2, some 256, 5⟩],
        some [8, 8, 8], some [1, 1, 1], 3, 2⟩ =
      [(⟨-1, none, -1⟩, 8, 1), (⟨2, some 256, 5⟩, 8, 1)] ∧
    (images ⟨some ⟨1, [5], [], []⟩,
        some [⟨1, some 64, 3⟩, ⟨0, some 128, -1⟩, ⟨2, some 256, 5⟩],
        some [8, 4, 8], some [1, 0, 1], 3, 3⟩).filter
        (fun x => decide (¬ (x.2.2 = talsh_h_values.YEP ∧ x.1.dev_id = 1))) =
      [(⟨0, some 128, -1⟩, 4, 0), (⟨2, some 256, 5⟩, 8, 1)] ∧
    [((⟨-1, none, -1⟩ : talsh_dev_rsc_t), (8 : Int), (1 : Int)), (⟨2, some 256, 5⟩, 8, 1)] ≠
      [(⟨0, some 128, -1⟩, 4, 0), (⟨2, some 256, 5⟩, 8, 1)] := by
  decide

/-! ## The bijection between (level, offset) and the plain entry number -/

theorem total_entries_eq_sum (c : ab_conf_t) :
    ∀ d : Nat, level_base c d = ∑ l ∈ Finset.range d, level_width c l := by
  intro d
  induction d with
  | zero => simp [level_base]
  | succ n ih => rw [Finset.sum_range_succ, ← ih]; rfl

theorem ab_get_1d_pos_beyond (c : ab_conf_t) (hc : conf_ok c) (lev : Nat) (off : Int)
    (h1 : 1 ≤ lev) (hl : lev < c.buf_depth.toNat)
    (ho : ((level_width c lev : Nat) : Int) ≤ off) :
    ab_get_1d_pos c (lev : Int) off = -1 := by
  unfold ab_get_1d_pos
  have hd : (lev : Int) < c.buf_depth := by omega
  rw [if_pos ⟨by omega, hd, by omega⟩, if_neg (by omega)]
  have hrem : (c.buf_depth - 1).toNat = c.buf_depth.toNat - 1 := by omega
  have hs := ab_get_1d_pos_loop_spec c hc lev hl (c.buf_depth.toNat - 1) 1 (le_refl _)
    (by omega) (by omega)
  have htop : ((c.buf_top.toNat : Nat) : Int) = c.buf_top :=
    Int.toNat_of_nonneg (by have := hc.1; omega)
  simp only [level_base, level_width, Nat.sub_self, pow_zero, mul_one, zero_add,
    Nat.cast_one, htop] at hs
  rw [hrem]
  simp only [hs]
  rw [if_neg (by unfold level_width at ho; omega)]

/-- C32, amended (index bijection): for a configuration with `top >= 1`, `branch >= 1`
and `depth >= 1` whose total number of entries is below `2^31`, the total
number of entries is the sum of `top*branch^l` over the
levels `l < depth`; for every plain entry number `e` below the total,
`ab_get_2d_pos(e)` succeeds with a level `l < depth` and an offset `o < top*branch^l`
such that `ab_get_1d_pos(l,o) = e`; for every such `(l,o)`,
`ab_get_2d_pos(ab_get_1d_pos(l,o))` is `(l,o)`; `ab_get_2d_pos` rejects every negative
`e` and every `e` that is not below the total; `ab_get_1d_pos` returns a negative
value (-1) for every offset `o >= top*branch^l` at every level `1 <= l < depth`. At
level 0 it returns every offset `o >= 0` as it is, `o >= top` included. -/
theorem index_bijection (c : ab_conf_t) (hT : 1 ≤ c.buf_top) (hB : 1 ≤ c.buf_branch)
    (hD : 1 ≤ c.buf_depth) (hint : total_entries c < 2 ^ 31) :
    total_entries c = ∑ l ∈ Finset.range c.buf_depth.toNat, level_width c l ∧
    (∀ e : Nat, e < total_entries c →
      ∃ l o : Nat, l < c.buf_depth.toNat ∧ o < level_width c l ∧
        ab_get_2d_pos c (e : Int) = (0, some ((l : Int), (o : Int))) ∧
        ab_get_1d_pos c (l : Int) (o : Int) = (e : Int)) ∧
    (∀ l o : Nat, l < c.buf_depth.toNat → o < level_width c l →
      ab_get_2d_pos c (ab_get_1d_pos c (l : Int) (o : Int)) =
        (0, some ((l : Int), (o : Int)))) ∧
    (∀ e : Int, e < 0 ∨ ((total_entries c : Nat) : Int) ≤ e →
      (ab_get_2d_pos c e).1 ≠ 0 ∧ (ab_get_2d_pos c e).2 = none) ∧
    (∀ (l : Nat) (o : Int), 1 ≤ l → l < c.buf_depth.toNat →
      ((level_width c l : Nat) : Int) ≤ o → ab_get_1d_pos c (l : Int) o < 0) ∧
    (∀ o : Int, 0 ≤ o → ab_get_1d_pos c 0 o = o) := by
  have hc : conf_ok c := ⟨hT, hB, hD, hint⟩
  refine ⟨total_entries_eq_sum c _, ?_, ?_, ab_get_2d_pos_out_of_range c hc, ?_, ?_⟩
  · intro e he
    obtain ⟨l, o, hl, ho, rfl⟩ := entry_index_surj c e he
    exact ⟨l, o, hl, ho, ab_get_2d_pos_eq c hc l o hl ho, ab_get_1d_pos_eq c hc l o hl ho⟩
  · intro l o hl ho
    rw [ab_get_1d_pos_eq c hc l o hl ho]
    exact ab_get_2d_pos_eq c hc l o hl ho
  · intro l o h1 hl ho
    rw [ab_get_1d_pos_beyond c hc l o h1 hl ho]
    decide
  · intro o ho
    unfold ab_get_1d_pos
    have hd := hc.2.2.1
    rw [if_pos ⟨le_refl _, by omega, ho⟩, if_pos rfl]

/-- Instance of `index_bijection`: the configuration `top = 3`, `depth = 4`,
`branch = 2` with 45 entries; entry 9 is the first entry of level 2. -/
theorem index_bijection_witness :
    total_entries ⟨3, 4, 2⟩ = 45 ∧
    ab_get_2d_pos ⟨3, 4, 2⟩ (ab_get_1d_pos ⟨3, 4, 2⟩ ((2 : Nat) : Int) ((0 : Nat) : Int)) =
      (0, some (((2 : Nat) : Int), ((0 : Nat) : Int))) ∧
    ab_get_1d_pos ⟨3, 4, 2⟩ ((2 : Nat) : Int) 12 < 0 :=
  ⟨by decide,
    (index_bijection ⟨3, 4, 2⟩ (by decide) (by decide) (by decide) (by decide)).2.2.1 2 0 (by decide) (by decide),
    (index_bijection ⟨3, 4, 2⟩ (by decide) (by decide) (by decide) (by decide)).2.2.2.2.1 2 12 (by decide) (by decide)
      (by decide)⟩

set_option maxRecDepth 100000 in
/-- C32 as stated fails at level 0: the configuration `top = 3`, `depth = 4`,
`branch = 2` has 3 entries at level 0, so the offset 3 is not below `top*branch^0`, but
`ab_get_1d_pos(0,3)` returns 3, which is not negative; 3 is the plain entry number of
the first entry of level 1. It also fails where the entry numbers leave the range of
an `int`: with `top = 3`, `depth = 31`, `branch = 2` there are 6442450941 entries, the
first entry of level 29 has the plain entry number 1610612733 and `ab_get_1d_pos(29,0)`
returns it, but `ab_get_2d_pos(1610612733)` returns level 30 and the offset
-1610612736. -/
theorem index_bijection_counterexample :
    (1 ≤ (3 : Int) ∧ 1 ≤ (2 : Int) ∧ 1 ≤ (4 : Int) ∧ level_width ⟨3, 4, 2⟩ 0 = 3 ∧
      ab_get_1d_pos ⟨3, 4, 2⟩ 0 3 = 3 ∧ ¬ ab_get_1d_pos ⟨3, 4, 2⟩ 0 3 < 0 ∧
      ab_get_2d_pos ⟨3, 4, 2⟩ 3 = (0, some (1, 0))) ∧
    (total_entries ⟨3, 31, 2⟩ = 6442450941 ∧ entry_index ⟨3, 31, 2⟩ 29 0 = 1610612733 ∧
      0 < level_width ⟨3, 31, 2⟩ 29 ∧
      ab_get_1d_pos ⟨3, 31, 2⟩ 29 0 = 1610612733 ∧
      ab_get_2d_pos ⟨3, 31, 2⟩ 1610612733 = (0, some (30, -1610612736))) := by
  decide

/-! ## The free list of constant memory entries after exhaustion -/

/-- When no entry is free (`const_args_ffe[gpu_num]` is outside of
`[0, MAX_GPU_ARGS)`), `const_args_entry_free` makes the freed entry the first free
entry and leaves the link of the freed entry as it was. -/
theorem const_args_entry_free_exhausted (MAXG MAXA : Int) (mine : Int → Int) (g : Nat)
    (st : const_args_t) (e : Int)
    (hs : const_args_shape MAXG MAXA st) (hr : st.bufs_ready ≠ 0)
    (hg : (g : Int) < MAXG) (hm : mine g ≠ 0)
    (hf : ¬ (st.const_args_ffe.getD g 0 < MAXA ∧ st.const_args_ffe.getD g 0 ≥ 0))
    (he : 0 ≤ e ∧ e < MAXA) :
    ∃ st1, const_args_entry_free MAXG MAXA mine st g e = (0, st1) ∧
      const_args_shape MAXG MAXA st1 ∧ st1.bufs_ready = st.bufs_ready ∧
      st1.const_args_ffe.getD g 0 = e ∧ st1.const_args_link = st.const_args_link := by
  have hg0 : (0 : Int) ≤ (g : Int) := Int.ofNat_nonneg g
  obtain ⟨hs1, hs2, hs3⟩ := hs
  have hgf : g < st.const_args_ffe.length := by rw [hs1]; omega
  refine ⟨{ st with const_args_ffe := st.const_args_ffe.set g e }, ?_,
    ⟨by simp [hs1], hs2, hs3⟩, rfl, ?_, rfl⟩
  · unfold const_args_entry_free
    rw [if_neg hr, if_pos ⟨hg0, hg⟩, if_pos hm, if_pos he]
    simp only [Int.toNat_ofNat]
    rw [if_neg hf]
  · simp only
    rw [List.getD_eq_getElem _ _ (by simp; exact hgf)]
    simp

/-- C33 evaluated for every capacity `MAX_GPU_ARGS >= 2`: after
`const_args_link_init`, on an owned GPU with the buffers ready, the first
`MAX_GPU_ARGS` calls of `const_args_entry_get` return the slots `0, 1, ...` in this
order and the next call returns `TRY_LATER`: all the slots are held. Then
`const_args_entry_free(0)` returns 0 (slot 0 is held, so the call respects the
contract), the next `const_args_entry_get` returns slot 0 again, so that all the slots
are held once more, and the `const_args_entry_get` after it returns status 0 with slot
1, which has been held since the second call and was never freed, where `TRY_LATER`
is due. -/
theorem const_args_slot_handed_out_twice (TRY_LATER MAX_GPUS_PER_NODE MAX_GPU_ARGS : Int)
    (gpu_is_mine : Int → Int) (st : const_args_t) (gpu_beg gpu_end gpu_num : Int)
    (hN : 2 ≤ MAX_GPU_ARGS)
    (hshape : const_args_shape MAX_GPUS_PER_NODE MAX_GPU_ARGS st)
    (hready : st.bufs_ready ≠ 0)
    (hbeg : 0 ≤ gpu_beg) (hlo : gpu_beg ≤ gpu_num) (hhi : gpu_num ≤ gpu_end)
    (hnode : gpu_num < MAX_GPUS_PER_NODE) (hmine : gpu_is_mine gpu_num ≠ 0) :
    (∀ k : Nat, (k : Int) < MAX_GPU_ARGS →
      ∃ st1, const_args_entry_get TRY_LATER MAX_GPUS_PER_NODE MAX_GPU_ARGS gpu_is_mine
        (const_args_get_n TRY_LATER MAX_GPUS_PER_NODE MAX_GPU_ARGS gpu_is_mine gpu_num k
          (const_args_link_init MAX_GPUS_PER_NODE MAX_GPU_ARGS gpu_beg gpu_end st).2)
        gpu_num = (0, (k : Int), st1)) ∧
    const_args_entry_get TRY_LATER MAX_GPUS_PER_NODE MAX_GPU_ARGS gpu_is_mine
        (const_args_get_n TRY_LATER MAX_GPUS_PER_NODE MAX_GPU_ARGS gpu_is_mine gpu_num
          MAX_GPU_ARGS.toNat
          (const_args_link_init MAX_GPUS_PER_NODE MAX_GPU_ARGS gpu_beg gpu_end st).2)
        gpu_num =
      (TRY_LATER, -1,
        const_args_get_n TRY_LATER MAX_GPUS_PER_NODE MAX_GPU_ARGS gpu_is_mine gpu_num
          MAX_GPU_ARGS.toNat
          (const_args_link_init MAX_GPUS_PER_NODE MAX_GPU_ARGS gpu_beg gpu_end st).2) ∧
    ∃ s1 s2 s3 : const_args_t,
      const_args_entry_free MAX_GPUS_PER_NODE MAX_GPU_ARGS gpu_is_mine
        (const_args_get_n TRY_LATER MAX_GPUS_PER_NODE MAX_GPU_ARGS gpu_is_mine gpu_num
          MAX_GPU_ARGS.toNat
          (const_args_link_init MAX_GPUS_PER_NODE MAX_GPU_ARGS gpu_beg gpu_end st).2)
        gpu_num 0 = (0, s1) ∧
      const_args_entry_get TRY_LATER MAX_GPUS_PER_NODE MAX_GPU_ARGS gpu_is_mine s1 gpu_num =
        (0, 0, s2) ∧
      const_args_entry_get TRY_LATER MAX_GPUS_PER_NODE MAX_GPU_ARGS gpu_is_mine s2 gpu_num =
        (0, 1, s3) := by
  have hnum0 : 0 ≤ gpu_num := by omega
  obtain ⟨g, rfl⟩ := Int.eq_ofNat_of_zero_le hnum0
  obtain ⟨g0, rfl⟩ := Int.eq_ofNat_of_zero_le hbeg
  have hinit := const_args_link_init_loop_spec MAX_GPUS_PER_NODE MAX_GPU_ARGS
    (gpu_end - (g0 : Int) + 1).toNat g0 st hshape
  have hdef : const_args_link_init MAX_GPUS_PER_NODE MAX_GPU_ARGS (g0 : Int) gpu_end st =
      const_args_link_init_loop MAX_GPUS_PER_NODE MAX_GPU_ARGS
        (gpu_end - (g0 : Int) + 1).toNat (g0 : Int) st := by
    unfold const_args_link_init
    rw [if_pos ⟨by omega, by omega⟩]
  rw [hdef]
  have hcast : ((0 + MAX_GPU_ARGS.toNat : Nat) : Int) = MAX_GPU_ARGS := by
    have := Int.toNat_of_nonneg (by omega : 0 ≤ MAX_GPU_ARGS)
    push_cast; omega
  obtain ⟨hs0, hr0, hfr⟩ := hinit
  obtain ⟨hfresh, _⟩ := hfr g hnode (by omega)
  obtain ⟨hf0, hl0⟩ := hfresh (by omega)
  have hr0' : (const_args_link_init_loop MAX_GPUS_PER_NODE MAX_GPU_ARGS
      (gpu_end - (g0 : Int) + 1).toNat (g0 : Int) st).2.bufs_ready ≠ 0 := by
    rw [hr0]; exact hready
  obtain ⟨a, b, c, d⟩ := const_args_get_n_spec TRY_LATER MAX_GPUS_PER_NODE MAX_GPU_ARGS
    gpu_is_mine g MAX_GPU_ARGS.toNat _ 0 hs0 hr0' hnode hmine (by simpa using hf0) hl0
    (le_of_eq hcast)
  refine ⟨?_, ?_, ?_⟩
  · intro k hk
    obtain ⟨a, b, c, d⟩ := const_args_get_n_spec TRY_LATER MAX_GPUS_PER_NODE MAX_GPU_ARGS
      gpu_is_mine g k _ 0 hs0 hr0' hnode hmine (by simpa using hf0) hl0
      (by push_cast; omega)
    obtain ⟨h1, _⟩ := const_args_entry_get_step TRY_LATER MAX_GPUS_PER_NODE MAX_GPU_ARGS
      gpu_is_mine g _ (0 + k) a b hnode hmine c (by rw [d]; exact hl0)
    obtain ⟨st1, e1, _⟩ := h1 (by push_cast; omega)
    exact ⟨st1, by simpa using e1⟩
  · obtain ⟨_, h2⟩ := const_args_entry_get_step TRY_LATER MAX_GPUS_PER_NODE MAX_GPU_ARGS
      gpu_is_mine g _ (0 + MAX_GPU_ARGS.toNat) a b hnode hmine c (by rw [d]; exact hl0)
    exact h2 (by rw [hcast]; exact lt_irrefl _)
  · rw [hcast] at c
    obtain ⟨s1, e1, hs1, hr1, hf1, hl1⟩ := const_args_entry_free_exhausted MAX_GPUS_PER_NODE
      MAX_GPU_ARGS gpu_is_mine g _ 0 a b hnode hmine (by rw [c]; omega) ⟨le_refl _, by omega⟩
    have hlink1 : ∀ j : Nat, (j : Int) < MAX_GPU_ARGS →
        (s1.const_args_link.getD g []).getD j 0 = (j : Int) + 1 := by
      rw [hl1, d]; exact hl0
    obtain ⟨h2, _⟩ := const_args_entry_get_step TRY_LATER MAX_GPUS_PER_NODE MAX_GPU_ARGS
      gpu_is_mine g s1 0 hs1 (by rw [hr1]; exact b) hnode hmine (by simpa using hf1) hlink1
    obtain ⟨s2, e2, hs2, hr2, hl2, hf2⟩ := h2 (by push_cast; omega)
    obtain ⟨h3, _⟩ := const_args_entry_get_step TRY_LATER MAX_GPUS_PER_NODE MAX_GPU_ARGS
      gpu_is_mine g s2 1 hs2 (by rw [hr2, hr1]; exact b) hnode hmine (by simpa using hf2)
      (by rw [hl2]; exact hlink1)
    obtain ⟨s3, e3, _⟩ := h3 (by push_cast; omega)
    exact ⟨s1, s2, s3, e1, by simpa using e2, by simpa using e3⟩

/-- Instance of `const_args_slot_handed_out_twice`: one GPU, capacity 4. After the
four slots were handed out and slot 0 was freed and handed out again, slot 1 is
handed out a second time. -/
theorem const_args_slot_handed_out_twice_witness :
    ∃ s1 s2 s3 : const_args_t,
      const_args_entry_free 1 4 (fun _ => 1)
        (const_args_get_n (-5) 1 4 (fun _ => 1) 0 (4 : Int).toNat
          (const_args_link_init 1 4 0 0 ⟨1, [[7, 7, 7, 7]], [9]⟩).2) 0 0 = (0, s1) ∧
      const_args_entry_get (-5) 1 4 (fun _ => 1) s1 0 = (0, 0, s2) ∧
      const_args_entry_get (-5) 1 4 (fun _ => 1) s2 0 = (0, 1, s3) :=
  (const_args_slot_handed_out_twice (-5) 1 4 (fun _ => 1) ⟨1, [[7, 7, 7, 7]], [9]⟩ 0 0 0
    (by decide) (by simp [const_args_shape]) (by decide) (by decide) (by decide)
    (by decide) (by decide) (by decide)).2.2

/-! ## The internal error branches of the allocator -/

/-- C38, amended (internal error branches are unreachable): in a well-formed pool with
fewer than `2^31` entries whose occupancy table has one counter per entry and satisfies the occupancy invariant, for
every request of `bsize >= 1` bytes `get_buf_entry` returns, and its status is 0,
`TRY_LATER` or `DEVICE_UNABLE`: none of the statements `return 1`, ..., `return 4` is
reached, and no array is indexed outside of its bounds (the table has as many counters
as there are entries and the level-size array one size per level; an index outside of
them would make the call end as `exec.undef`). Likewise `free_buf_entry` on a valid
entry index returns 0 or 3, never 2, without indexing outside of the arrays. -/
theorem no_internal_errors (TRY_LATER DEVICE_UNABLE : Int) (c : ab_conf_t)
    (pool_size : Nat) (sizes T : List Nat) (bsize : Nat)
    (hwf : well_formed c pool_size sizes) (hint : total_entries c < 2 ^ 31)
    (hT : T.length = total_entries c)
    (hinv : occupancy_invariant c sizes T) (hb : 1 ≤ bsize) :
    sizes.length = c.buf_depth.toNat ∧
    (∃ r, get_buf_entry TRY_LATER DEVICE_UNABLE c bsize T (total_entries c) sizes =
        exec.ret r ∧
      (r.status = 0 ∨ r.status = TRY_LATER ∨ r.status = DEVICE_UNABLE)) ∧
    (∀ e : Nat, e < total_entries c →
      (∃ T1, free_buf_entry c T (total_entries c) sizes (e : Int) = some (0, T1)) ∨
      free_buf_entry c T (total_entries c) sizes (e : Int) = some (3, T)) := by
  have h : pool_ok c pool_size sizes := ⟨hwf, hint⟩
  have hc := pool_ok_conf_ok c pool_size sizes h
  have hs : sizes.length = c.buf_depth.toNat := hwf.2.2.2.2.1
  refine ⟨hs, ?_, ?_⟩
  · rcases get_buf_entry_cases TRY_LATER DEVICE_UNABLE c pool_size sizes T bsize h hT hinv hb
      with hg | hg | ⟨t, o, ht, ho, _, hg⟩
    · exact ⟨_, hg, Or.inr (Or.inr rfl)⟩
    · exact ⟨_, hg, Or.inr (Or.inl rfl)⟩
    · exact ⟨_, hg, Or.inl rfl⟩
  · intro e he
    obtain ⟨lev, off, hl, ho, rfl⟩ := entry_index_surj c e he
    rw [free_buf_entry_eq c hc sizes T hs hT lev off hl ho]
    by_cases hq : occ_at c T lev off = blck_size sizes lev
    · rw [if_pos hq]; exact Or.inl ⟨_, rfl⟩
    · rw [if_neg hq]; exact Or.inr rfl

/-- Instance of `no_internal_errors`: the pool of 5,760,000 bytes with `top = 3`,
`depth = 4`, `branch = 2`, in which the first entry of level 2 is occupied, and a
request of 100 bytes. -/
theorem no_internal_errors_witness :
    ∃ r, get_buf_entry (-1) (-2) ⟨3, 4, 2⟩ 100
        ((((List.replicate 45 0).set 9 480000).set 3 480000).set 0 480000)
        (total_entries ⟨3, 4, 2⟩) [1920000, 960000, 480000, 240000] = exec.ret r ∧
      (r.status = 0 ∨ r.status = -1 ∨ r.status = -2) :=
  (no_internal_errors (-1) (-2) ⟨3, 4, 2⟩ 5760000 [1920000, 960000, 480000, 240000]
    ((((List.replicate 45 0).set 9 480000).set 3 480000).set 0 480000) 100
    (by decide) (by decide) (by decide) (by decide) (by decide)).2.1

/-- C38 as stated fails in a well-formed pool with `2^31` entries or more. In the pool
of 4294967296 bytes with `top = 2^30`, `depth = 3`, `branch = 2` (size classes 4, 2, 1;
7516192768 entries) a request of one byte on the empty table, which has one counter
per entry and satisfies the occupancy invariant, returns the internal error code 1:
in `ab_get_1d_pos` the number `2^31` of entries of level 1 leaves the range of `int`
and the position of the entry `(1, 0)` is refused. -/
theorem no_internal_errors_counterexample :
    well_formed ⟨1073741824, 3, 2⟩ 4294967296 [4, 2, 1] ∧
    total_entries ⟨1073741824, 3, 2⟩ = 7516192768 ∧
    (table_of 7516192768 []).length = total_entries ⟨1073741824, 3, 2⟩ ∧
    occupancy_invariant ⟨1073741824, 3, 2⟩ [4, 2, 1] (table_of 7516192768 []) ∧
    ab_get_1d_pos ⟨1073741824, 3, 2⟩ 1 0 = -1 ∧
    get_buf_entry talsh_h_values.TRY_LATER talsh_h_values.DEVICE_UNABLE ⟨1073741824, 3, 2⟩ 1
        (table_of 7516192768 []) (total_entries ⟨1073741824, 3, 2⟩) [4, 2, 1] =
      exec.ret ⟨1, table_of 7516192768 [], none, -1⟩ ∧
    (1 : Int) ≠ 0 ∧ (1 : Int) ≠ talsh_h_values.TRY_LATER ∧ (1 : Int) ≠ talsh_h_values.DEVICE_UNABLE := by
  refine ⟨by decide, by decide, ?_, table_of_nil_invariant _ _ _, by decide,
    get_error_one _ _, by decide, by decide, by decide⟩
  rw [table_of_length]
  decide

/-! ## The Host argument buffer: a request of 0 bytes, and freeing an interior entry -/

set_option maxRecDepth 100000 in
/-- C34 evaluated on the Host argument buffer of 2457600 bytes (`top = 3`,
`depth = 7`, `branch = 2`), right after its allocation. `get_buf_entry_host(819200)`
returns the entry 0 of level 0, at byte offset 0; the table satisfies the occupancy
invariant and the entry 0 is occupied as a whole. Then `get_buf_entry_host(0)` returns
status 0 with the entry 189, the first entry of the deepest level, at byte offset 0:
its ancestor of level 0 is the entry 0, which was occupied as a whole before the call.
After the call the counter of the entry 0 is 832000, more than its size class, and the
table does not satisfy the occupancy invariant. What follows from it:
`get_buf_entry_host(100)` then returns the entry 190, the bytes `[12800, 25600)` of the
entry 0 that is still live, and `free_buf_entry_host(0)` on the live entry 0 returns
3.
The last part is a request of one byte in a well-formed pool with `2^31` entries or
more: in the pool of 17600777027584 bytes with `top = 2^20`, `depth = 3`,
`branch = 4097` (size classes 16785409, 4097, 1; 17605074092032 entries) the empty
table satisfies the occupancy invariant, the request succeeds with the entry number
2097152, and the table after the call does not satisfy the occupancy invariant. -/
theorem zero_size_request_below_occupied :
    well_formed host_conf 2457600 host_pool_values.blck_sizes_host ∧
    host_pool_ready host_pool_values 2457600 ∧
    get_buf_entry_host talsh_h_values.TRY_LATER talsh_h_values.DEVICE_UNABLE
        host_pool_values 819200 none (-1) =
      exec.ret ⟨0,
        { host_pool_values with
          abh_occ := some ((List.replicate 381 0).set 0 819200)
          num_args_host := 1
          occ_size_host := 819200
          args_size_host := 819200 }, some 0, 0⟩ ∧
    occupancy_invariant host_conf host_pool_values.blck_sizes_host
      ((List.replicate 381 0).set 0 819200) ∧
    whole_occupied host_conf host_pool_values.blck_sizes_host
      ((List.replicate 381 0).set 0 819200) 0 0 ∧
    get_buf_entry_host talsh_h_values.TRY_LATER talsh_h_values.DEVICE_UNABLE
        { host_pool_values with
          abh_occ := some ((List.replicate 381 0).set 0 819200)
          num_args_host := 1
          occ_size_host := 819200
          args_size_host := 819200 } 0 none (-1) =
      exec.ret ⟨0,
        { host_pool_values with
          abh_occ := some ((((((((List.replicate 381 0).set 0 832000).set 3 12800).set 9
            12800).set 21 12800).set 45 12800).set 93 12800).set 189 12800)
          num_args_host := 2
          occ_size_host := 832000
          args_size_host := 819200 }, some 0, 189⟩ ∧
    ab_get_2d_pos host_conf 189 = (0, some (6, 0)) ∧
    ¬ occupancy_invariant host_conf host_pool_values.blck_sizes_host
      ((((((((List.replicate 381 0).set 0 832000).set 3 12800).set 9 12800).set 21
        12800).set 45 12800).set 93 12800).set 189 12800) ∧
    get_buf_entry_host talsh_h_values.TRY_LATER talsh_h_values.DEVICE_UNABLE
        { host_pool_values with
          abh_occ := some ((((((((List.replicate 381 0).set 0 832000).set 3 12800).set 9
            12800).set 21 12800).set 45 12800).set 93 12800).set 189 12800)
          num_args_host := 2
          occ_size_host := 832000
          args_size_host := 819200 } 100 none (-1) =
      exec.ret ⟨0,
        { host_pool_values with
          abh_occ := some (((((((((List.replicate 381 0).set 0 844800).set 3 25600).set 9
            25600).set 21 25600).set 45 25600).set 93 25600).set 189 12800).set 190 12800)
          num_args_host := 3
          occ_size_host := 844800
          args_size_host := 819300 }, some 12800, 190⟩ ∧
    free_buf_entry_host
        { host_pool_values with
          abh_occ := some ((((((((List.replicate 381 0).set 0 832000).set 3 12800).set 9
            12800).set 21 12800).set 45 12800).set 93 12800).set 189 12800)
          num_args_host := 2
          occ_size_host := 832000
          args_size_host := 819200 } 0 =
      exec.ret (3,
        { host_pool_values with
          abh_occ := some ((((((((List.replicate 381 0).set 0 832000).set 3 12800).set 9
            12800).set 21 12800).set 45 12800).set 93 12800).set 189 12800)
          num_args_host := 2
          occ_size_host := 832000
          args_size_host := 819200 }) ∧
    (well_formed ⟨1048576, 3, 4097⟩ 17600777027584 [16785409, 4097, 1] ∧
      total_entries ⟨1048576, 3, 4097⟩ = 17605074092032 ∧
      (table_of 17605074092032 []).length = total_entries ⟨1048576, 3, 4097⟩ ∧
      occupancy_invariant ⟨1048576, 3, 4097⟩ [16785409, 4097, 1] (table_of 17605074092032 []) ∧
      get_buf_entry talsh_h_values.TRY_LATER talsh_h_values.DEVICE_UNABLE ⟨1048576, 3, 4097⟩ 1
          (table_of 17605074092032 []) (total_entries ⟨1048576, 3, 4097⟩) [16785409, 4097, 1] =
        exec.ret ⟨0, table_of 17605074092032 [(0, 1), (1048576, 1), (2097152, 1)], some 0,
          2097152⟩ ∧
      ¬ occupancy_invariant ⟨1048576, 3, 4097⟩ [16785409, 4097, 1]
        (table_of 17605074092032 [(0, 1), (1048576, 1), (2097152, 1)])) := by
  refine ⟨by decide, by decide, by decide, by decide, by decide, by decide, by decide, ?_,
    by decide, by decide, by decide, by decide, ?_, table_of_nil_invariant _ _ _,
    get_one_wrapped_level _ _, wrapped_level_not_invariant⟩
  · intro hinv
    have h0 := hinv 0 (by decide) 0 (by decide)
    revert h0
    decide
  · rw [table_of_length]
    decide

set_option maxRecDepth 100000 in
/-- C35 evaluated on the Host argument buffer of 2457600 bytes (`top = 3`,
`depth = 7`, `branch = 2`), whose size classes divide exactly (819200 = 2 * 409600),
right after its allocation. Two calls `get_buf_entry_host(409600)` return the entries
3 and 4, the two children of the entry 0; these calls respect the contract and the
live entries are 3 and 4. The entry 0 was never returned by `get_buf_entry_host`, but
its counter is 409600 + 409600 = 819200, its size class, and
`free_buf_entry_host(0)` returns 0: it sets the counter of the entry 0 to 0, leaves the
counters of the entries 3 and 4 as they are and decrements `num_args_host`. The next
`get_buf_entry_host(819200)` returns the entry 0, the bytes `[0, 819200)`, which
contain the bytes of the live entries 3 (byte offset 0) and 4 (byte offset 409600). -/
theorem free_interior_entry_accepted :
    well_formed host_conf 2457600 host_pool_values.blck_sizes_host ∧
    host_pool_ready host_pool_values 2457600 ∧
    host_respects talsh_h_values.TRY_LATER talsh_h_values.DEVICE_UNABLE
      [pool_op.get 409600, pool_op.get 409600] ⟨host_pool_values, []⟩ ∧
    host_run talsh_h_values.TRY_LATER talsh_h_values.DEVICE_UNABLE
        [pool_op.get 409600, pool_op.get 409600] ⟨host_pool_values, []⟩ =
      exec.ret ⟨
        { host_pool_values with
          abh_occ := some ((((List.replicate 381 0).set 0 819200).set 3 409600).set 4 409600)
          num_args_host := 2
          occ_size_host := 819200
          args_size_host := 819200 }, [4, 3]⟩ ∧
    (0 : Int) ∉ [(4 : Int), 3] ∧
    free_buf_entry_host
        { host_pool_values with
          abh_occ := some ((((List.replicate 381 0).set 0 819200).set 3 409600).set 4 409600)
          num_args_host := 2
          occ_size_host := 819200
          args_size_host := 819200 } 0 =
      exec.ret (0,
        { host_pool_values with
          abh_occ := some (((List.replicate 381 0).set 3 409600).set 4 409600)
          num_args_host := 1
          occ_size_host := 0
          args_size_host := 0 }) ∧
    get_buf_entry_host talsh_h_values.TRY_LATER talsh_h_values.DEVICE_UNABLE
        { host_pool_values with
          abh_occ := some (((List.replicate 381 0).set 3 409600).set 4 409600)
          num_args_host := 1
          occ_size_host := 0
          args_size_host := 0 } 819200 none (-1) =
      exec.ret ⟨0,
        { host_pool_values with
          abh_occ := some ((((List.replicate 381 0).set 0 819200).set 3 409600).set 4 409600)
          num_args_host := 2
          occ_size_host := 819200
          args_size_host := 819200 }, some 0, 0⟩ ∧
    ab_get_offset host_conf 1 0 host_pool_values.blck_sizes_host = some 0 ∧
    ab_get_offset host_conf 1 1 host_pool_values.blck_sizes_host = some 409600 ∧
    ab_get_2d_pos host_conf 3 = (0, some (1, 0)) ∧
    ab_get_2d_pos host_conf 4 = (0, some (1, 1)) := by
  decide

/-! ## Byte offsets of the entries when the level sizes are obtained by division -/

theorem ab_get_parent_nat (c : ab_conf_t) (hB : 1 ≤ c.buf_branch) (lev off : Nat)
    (hl : lev < c.buf_depth.toNat) :
    ab_get_parent c (lev : Int) (off : Int) = ((off / c.buf_branch.toNat : Nat) : Int) := by
  have hb : ((c.buf_branch.toNat : Nat) : Int) = c.buf_branch :=
    Int.toNat_of_nonneg (by omega)
  unfold ab_get_parent
  rw [if_pos ⟨by omega, by omega, by omega, by omega⟩]
  rw [Int.tdiv_eq_ediv (by omega) (by omega)]
  rw [← hb]; norm_cast

/-- The loop of `ab_get_offset` adds `parent_sum` to the offset it starts with, modulo
`2^64`. -/
theorem ab_get_offset_loop_mod (c : ab_conf_t) (hB : 1 ≤ c.buf_branch)
    (hB64 : c.buf_branch < 2 ^ 31) (sizes : List Nat)
    (hs : sizes.length = c.buf_depth.toNat) :
    ∀ i j acc : Nat, i < c.buf_depth.toNat → acc < 2 ^ 64 →
      ab_get_offset_loop c sizes i (i : Int) (j : Int) acc =
        some ((acc + parent_sum c sizes i j) % 2 ^ 64) := by
  have hBcast : ((c.buf_branch.toNat : Nat) : Int) = c.buf_branch :=
    Int.toNat_of_nonneg (by omega)
  intro i
  induction i with
  | zero =>
    intro j acc _ hacc
    simp only [ab_get_offset_loop, parent_sum, add_zero]
    rw [Nat.mod_eq_of_lt hacc]
  | succ n ih =>
    intro j acc hi hacc
    simp only [ab_get_offset_loop, parent_sum]
    have e1 : ((n + 1 : Nat) : Int) - 1 = (n : Int) := by push_cast; omega
    rw [e1, arr_get_sizes sizes n (by omega)]
    simp only
    rw [ab_get_parent_nat c hB (n + 1) j hi]
    rw [ih (j / c.buf_branch.toNat) _ (by omega)
      (by unfold size_t_add SIZE_T_RANGE; exact Nat.mod_lt _ (by norm_num))]
    have hsz : size_t_of_int c.buf_branch = c.buf_branch.toNat := by
      conv_lhs => rw [← hBcast]
      exact size_t_of_int_of_lt _ (by omega)
    rw [hsz, size_t_of_int_natCast]
    unfold size_t_add size_t_mul SIZE_T_RANGE
    have hxy : (blck_size sizes n % c.buf_branch.toNat * (j / c.buf_branch.toNat % 2 ^ 64)) %
        2 ^ 64 = (blck_size sizes n % c.buf_branch.toNat * (j / c.buf_branch.toNat)) %
        2 ^ 64 := by
      rw [Nat.mul_mod, Nat.mod_mod, ← Nat.mul_mod]
    generalize blck_size sizes n % c.buf_branch.toNat * (j / c.buf_branch.toNat % 2 ^ 64) = x
      at hxy ⊢
    generalize blck_size sizes n % c.buf_branch.toNat * (j / c.buf_branch.toNat) = y at hxy ⊢
    generalize parent_sum c sizes n (j / c.buf_branch.toNat) = z
    congr 1
    omega

theorem parent_sum_entry_start_div (c : ab_conf_t) (sizes : List Nat)
    (hdiv : sizes_divide c sizes) :
    ∀ lev off, lev < c.buf_depth.toNat →
      off * blck_size sizes lev + parent_sum c sizes lev off = entry_start c sizes lev off := by
  intro lev
  induction lev with
  | zero => intro off _; simp [parent_sum, entry_start]
  | succ n ih =>
    intro off hl
    simp only [parent_sum, entry_start]
    rw [← ih (off / c.buf_branch.toNat) (by omega)]
    have hq := hdiv.2 n (by omega) hl
    have h1 := Nat.div_add_mod (blck_size sizes n) c.buf_branch.toNat
    have h2 := Nat.div_add_mod off c.buf_branch.toNat
    rw [← hq] at h1
    generalize blck_size sizes (n + 1) = q at *
    generalize blck_size sizes n % c.buf_branch.toNat = r at *
    generalize off / c.buf_branch.toNat = p at *
    generalize off % c.buf_branch.toNat = o at *
    generalize parent_sum c sizes n p = ps at *
    rw [← h1]
    nth_rewrite 1 [← h2]
    ring

theorem entry_start_child_upper_div (c : ab_conf_t) (hB : 1 ≤ c.buf_branch)
    (sizes : List Nat) (hdiv : sizes_divide c sizes) (l x : Nat)
    (hl : l + 1 < c.buf_depth.toNat) :
    entry_start c sizes (l + 1) x + blck_size sizes (l + 1) ≤
      entry_start c sizes l (x / c.buf_branch.toNat) + blck_size sizes l := by
  have hBp : 0 < c.buf_branch.toNat := by omega
  rw [entry_start_succ]
  have h2 : c.buf_branch.toNat * blck_size sizes (l + 1) ≤ blck_size sizes l := by
    rw [hdiv.2 l (by omega) hl]
    exact Nat.mul_div_le _ _
  have h3 : x % c.buf_branch.toNat < c.buf_branch.toNat := Nat.mod_lt _ hBp
  have h4 : (x % c.buf_branch.toNat + 1) * blck_size sizes (l + 1) ≤
      c.buf_branch.toNat * blck_size sizes (l + 1) := Nat.mul_le_mul_right _ h3
  have h6 : (x % c.buf_branch.toNat + 1) * blck_size sizes (l + 1) =
      x % c.buf_branch.toNat * blck_size sizes (l + 1) + blck_size sizes (l + 1) := by ring
  omega

theorem entry_start_bound_div (c : ab_conf_t) (hB : 1 ≤ c.buf_branch) (sizes : List Nat)
    (hdiv : sizes_divide c sizes) :
    ∀ lev off, lev < c.buf_depth.toNat →
      entry_start c sizes lev off + blck_size sizes lev ≤
        (off / c.buf_branch.toNat ^ lev + 1) * blck_size sizes 0 := by
  intro lev
  induction lev with
  | zero =>
    intro off _
    simp only [entry_start, pow_zero, Nat.div_one]
    ring_nf; exact le_refl _
  | succ n ih =>
    intro off hl
    have h1 := ih (off / c.buf_branch.toNat) (by omega)
    have h2 := entry_start_child_upper_div c hB sizes hdiv n off hl
    have h5 : off / c.buf_branch.toNat / c.buf_branch.toNat ^ n =
        off / c.buf_branch.toNat ^ (n + 1) := by
      rw [Nat.div_div_eq_div_mul, pow_succ, mul_comm]
    rw [h5] at h1
    omega

theorem entry_start_in_buffer (c : ab_conf_t) (hB : 1 ≤ c.buf_branch) (sizes : List Nat)
    (hdiv : sizes_divide c sizes) (lev off : Nat) (hl : lev < c.buf_depth.toNat)
    (ho : off < level_width c lev) :
    entry_start c sizes lev off + blck_size sizes lev ≤
      c.buf_top.toNat * blck_size sizes 0 := by
  have hBp : 0 < c.buf_branch.toNat := by omega
  have h1 := entry_start_bound_div c hB sizes hdiv lev off hl
  have h2 : off / c.buf_branch.toNat ^ lev < c.buf_top.toNat := by
    apply Nat.div_lt_of_lt_mul
    unfold level_width at ho
    rw [mul_comm]; exact ho
  have h3 : (off / c.buf_branch.toNat ^ lev + 1) * blck_size sizes 0 ≤
      c.buf_top.toNat * blck_size sizes 0 := Nat.mul_le_mul_right _ h2
  omega

theorem entry_start_ordered_div (c : ab_conf_t) (hB : 1 ≤ c.buf_branch) (sizes : List Nat)
    (hdiv : sizes_divide c sizes) :
    ∀ l, l < c.buf_depth.toNat → ∀ x y, x < y →
      entry_start c sizes l x + blck_size sizes l ≤ entry_start c sizes l y := by
  have hBp : 0 < c.buf_branch.toNat := by omega
  intro l
  induction l with
  | zero =>
    intro _ x y hxy
    simp only [entry_start]
    calc x * blck_size sizes 0 + blck_size sizes 0 = (x + 1) * blck_size sizes 0 := by ring
      _ ≤ y * blck_size sizes 0 := Nat.mul_le_mul_right _ hxy
  | succ n ih =>
    intro hl x y hxy
    have hdv : x / c.buf_branch.toNat ≤ y / c.buf_branch.toNat :=
      Nat.div_le_div_right (le_of_lt hxy)
    rcases Nat.lt_or_eq_of_le hdv with hlt | heq
    · have h1 := entry_start_child_upper_div c hB sizes hdiv n x hl
      have h2 := ih (by omega) _ _ hlt
      have h3 : entry_start c sizes n (y / c.buf_branch.toNat) ≤
          entry_start c sizes (n + 1) y := by
        rw [entry_start_succ]; omega
      omega
    · rw [entry_start_succ, entry_start_succ, heq]
      have hx := Nat.div_add_mod x c.buf_branch.toNat
      have hy := Nat.div_add_mod y c.buf_branch.toNat
      have hmod : x % c.buf_branch.toNat + 1 ≤ y % c.buf_branch.toNat := by
        rw [heq] at hx
        omega
      have := Nat.mul_le_mul_right (blck_size sizes (n + 1)) hmod
      have e : (x % c.buf_branch.toNat + 1) * blck_size sizes (n + 1) =
          x % c.buf_branch.toNat * blck_size sizes (n + 1) + blck_size sizes (n + 1) := by ring
      omega

/-- What `ab_get_offset` returns when the level sizes are obtained by division and the
buffer of `top * s[0]` bytes is addressable. -/
theorem ab_get_offset_div (c : ab_conf_t) (hB : 1 ≤ c.buf_branch)
    (hB31 : c.buf_branch < 2 ^ 31) (sizes : List Nat) (hdiv : sizes_divide c sizes)
    (haddr : c.buf_top.toNat * blck_size sizes 0 < SIZE_T_RANGE) (lev off : Nat)
    (hl : lev < c.buf_depth.toNat) (ho : off < level_width c lev) :
    ab_get_offset c (lev : Int) (off : Int) sizes = some (entry_start c sizes lev off) := by
  have hs := hdiv.1
  have hin := entry_start_in_buffer c hB sizes hdiv lev off hl ho
  have hps := parent_sum_entry_start_div c sizes hdiv lev off hl
  unfold SIZE_T_RANGE at haddr
  unfold ab_get_offset
  rw [arr_get_sizes sizes lev (by omega)]
  simp only [Int.toNat_ofNat]
  rw [ab_get_offset_loop_mod c hB hB31 sizes hs lev off _ hl
    (by unfold size_t_mul SIZE_T_RANGE; exact Nat.mod_lt _ (by norm_num))]
  rw [size_t_of_int_natCast]
  unfold size_t_mul SIZE_T_RANGE
  congr 1
  rw [Nat.mod_mul_mod, Nat.mod_add_mod, hps]
  exact Nat.mod_eq_of_lt (by omega)

/-- C39 (byte layout of the entries): for a configuration whose branching factor is
an `int` of at least 1 and a level-size array with `s[i+1] = s[i] / branch` (integer
division, remainders allowed) that describes an addressable buffer (`top * s[0]`
is a `size_t` value), `ab_get_offset(l,o)` of every entry (`l < depth`,
`o < top*branch^l`) is `start(l,o)`, where `start(0,o) = o*s[0]` and
`start(l+1,o) = start(l, o/branch) + (o mod branch)*s[l+1]`, and the entry ends inside
the buffer. Consequently the byte range of a child lies inside the byte range of its
parent, and of two entries of the same level the one with the smaller offset ends
before the other one starts. -/
theorem byte_layout (c : ab_conf_t) (sizes : List Nat) (hB : 1 ≤ c.buf_branch)
    (hB31 : c.buf_branch < 2 ^ 31) (hdiv : sizes_divide c sizes)
    (haddr : c.buf_top.toNat * blck_size sizes 0 < SIZE_T_RANGE) :
    (∀ o, entry_start c sizes 0 o = o * blck_size sizes 0) ∧
    (∀ l o, entry_start c sizes (l + 1) o =
      entry_start c sizes l (o / c.buf_branch.toNat) +
        (o % c.buf_branch.toNat) * blck_size sizes (l + 1)) ∧
    (∀ l o : Nat, l < c.buf_depth.toNat → o < level_width c l →
      ab_get_offset c (l : Int) (o : Int) sizes = some (entry_start c sizes l o) ∧
      entry_start c sizes l o + blck_size sizes l ≤ c.buf_top.toNat * blck_size sizes 0) ∧
    (∀ l x : Nat, l + 1 < c.buf_depth.toNat → x < level_width c (l + 1) →
      ∃ p q, ab_get_offset c ((l + 1 : Nat) : Int) (x : Int) sizes = some p ∧
        ab_get_offset c (l : Int) ((x / c.buf_branch.toNat : Nat) : Int) sizes = some q ∧
        q ≤ p ∧ p + blck_size sizes (l + 1) ≤ q + blck_size sizes l) ∧
    (∀ l x y : Nat, l < c.buf_depth.toNat → x < y → y < level_width c l →
      ∃ p q, ab_get_offset c (l : Int) (x : Int) sizes = some p ∧
        ab_get_offset c (l : Int) (y : Int) sizes = some q ∧
        p + blck_size sizes l ≤ q) := by
  refine ⟨fun _ => rfl, fun _ _ => rfl, ?_, ?_, ?_⟩
  · intro l o hl ho
    exact ⟨ab_get_offset_div c hB hB31 sizes hdiv haddr l o hl ho,
      entry_start_in_buffer c hB sizes hdiv l o hl ho⟩
  · intro l x hl hx
    refine ⟨_, _, ab_get_offset_div c hB hB31 sizes hdiv haddr (l + 1) x hl hx,
      ab_get_offset_div c hB hB31 sizes hdiv haddr l (x / c.buf_branch.toNat) (by omega)
        (parent_lt_width c l x hx), ?_,
      entry_start_child_upper_div c hB sizes hdiv l x hl⟩
    rw [entry_start_succ]; omega
  · intro l x y hl hxy hy
    exact ⟨_, _, ab_get_offset_div c hB hB31 sizes hdiv haddr l x hl (by omega),
      ab_get_offset_div c hB hB31 sizes hdiv haddr l y hl hy,
      entry_start_ordered_div c hB sizes hdiv l hl x y hxy⟩

/-- Instance of `byte_layout`: a buffer of 3000 bytes with `top = 3`, `depth = 3` and
`branch = 3`, whose level sizes 1000, 333 and 111 leave remainders. The entry 7 of
level 1 starts at byte 2333, inside its parent, the entry 2 of level 0. -/
theorem byte_layout_witness :
    ab_get_offset ⟨3, 3, 3⟩ ((1 : Nat) : Int) ((7 : Nat) : Int) [1000, 333, 111] =
      some (entry_start ⟨3, 3, 3⟩ [1000, 333, 111] 1 7) ∧
    entry_start ⟨3, 3, 3⟩ [1000, 333, 111] 1 7 = 2333 ∧
    entry_start ⟨3, 3, 3⟩ [1000, 333, 111] 1 7 + blck_size [1000, 333, 111] 1 ≤
      (3 : Int).toNat * blck_size [1000, 333, 111] 0 :=
  ⟨((byte_layout ⟨3, 3, 3⟩ [1000, 333, 111] (by decide) (by decide) (by decide)
      (by decide)).2.2.1 1 7 (by decide) (by decide)).1,
    by decide,
    ((byte_layout ⟨3, 3, 3⟩ [1000, 333, 111] (by decide) (by decide) (by decide)
      (by decide)).2.2.1 1 7 (by decide) (by decide)).2⟩

/-! ## The search of `get_buf_entry` visits every entry at most once -/

theorem search_visits_succ (c : ab_conf_t) (bsize : Nat) (occ : List Nat) (size : Nat)
    (sizes : List Nat) (fuel : Nat) (i l n : Int) :
    search_visits c bsize occ size sizes (fuel + 1) i l n =
      if i < c.buf_depth then
        scan_visits c bsize occ size sizes i
            (l - l.tmod (if i > 0 then c.buf_branch else c.buf_top))
            (if i > 0 then c.buf_branch else c.buf_top)
            ((if i > 0 then c.buf_branch else c.buf_top) -
              (l.tmod (if i > 0 then c.buf_branch else c.buf_top) + n)).toNat
            (l.tmod (if i > 0 then c.buf_branch else c.buf_top) + n) ++
          after_scan_visits c bsize occ size sizes fuel i
            (l - l.tmod (if i > 0 then c.buf_branch else c.buf_top))
            (if i > 0 then c.buf_branch else c.buf_top)
            (scan c bsize occ size sizes i
              (l - l.tmod (if i > 0 then c.buf_branch else c.buf_top))
              (if i > 0 then c.buf_branch else c.buf_top)
              ((if i > 0 then c.buf_branch else c.buf_top) -
                (l.tmod (if i > 0 then c.buf_branch else c.buf_top) + n)).toNat
              (l.tmod (if i > 0 then c.buf_branch else c.buf_top) + n))
      else [] := by
  rw [search_visits]
  split
  · rfl
  · rfl

theorem search_visits_head (c : ab_conf_t) (hc : conf_ok c) (bsize : Nat) (occ : List Nat)
    (size : Nat) (sizes : List Nat) (fuel lev base j0 n : Nat)
    (hl : lev < c.buf_depth.toNat) (hdiv : group_size c lev ∣ base)
    (hj : j0 < group_size c lev) :
    search_visits c bsize occ size sizes (fuel + 1) (lev : Int) ((base : Int) + (j0 : Int))
        (n : Int) =
      scan_visits c bsize occ size sizes (lev : Int) (base : Int)
          ((group_size c lev : Nat) : Int) (group_size c lev - (j0 + n))
          (((j0 + n : Nat)) : Int) ++
        after_scan_visits c bsize occ size sizes fuel (lev : Int) (base : Int)
          ((group_size c lev : Nat) : Int)
          (scan c bsize occ size sizes (lev : Int) (base : Int)
            ((group_size c lev : Nat) : Int) (group_size c lev - (j0 + n))
            (((j0 + n : Nat)) : Int)) := by
  rw [search_visits_succ, if_pos (by omega), ← group_size_cast c hc lev]
  have hmod : ((base : Int) + (j0 : Int)).tmod ((group_size c lev : Nat) : Int) = (j0 : Int) := by
    rw [Int.tmod_eq_emod (by omega) (by omega)]
    obtain ⟨q, hq⟩ := hdiv
    rw [hq]
    push_cast
    rw [add_comm, Int.add_mul_emod_self_left]
    exact Int.emod_eq_of_lt (by omega) (by exact_mod_cast hj)
  rw [hmod]
  have e1 : (base : Int) + (j0 : Int) - (j0 : Int) = (base : Int) := by omega
  have e2 : (((group_size c lev : Nat) : Int) - ((j0 : Int) + (n : Int))).toNat =
      group_size c lev - (j0 + n) := by omega
  have e3 : (j0 : Int) + (n : Int) = ((j0 + n : Nat) : Int) := by push_cast; rfl
  rw [e1, e2, e3]

/-! ### The entries below a group of siblings -/

theorem in_subtrees_node (c : ab_conf_t) (lev a n : Nat) (hl : lev < c.buf_depth.toNat)
    (hn : 0 < n) : in_subtrees c lev a n ((lev : Int), (a : Int)) :=
  ⟨0, a, by simp, by omega, by simp, by simp; omega⟩

theorem in_subtrees_mono (c : ab_conf_t) (lev a n a1 n1 : Nat) (x : Int × Int)
    (h : in_subtrees c lev a n x) (h1 : a1 ≤ a) (h2 : a + n ≤ a1 + n1) :
    in_subtrees c lev a1 n1 x := by
  obtain ⟨e, o, hx, hl, hlo, hhi⟩ := h
  refine ⟨e, o, hx, hl, ?_, ?_⟩
  · exact le_trans (Nat.mul_le_mul_right _ h1) hlo
  · exact lt_of_lt_of_le hhi (Nat.mul_le_mul_right _ h2)

theorem in_subtrees_child (c : ab_conf_t) (lev a : Nat) (x : Int × Int)
    (h : in_subtrees c (lev + 1) (a * c.buf_branch.toNat) c.buf_branch.toNat x) :
    in_subtrees c lev a 1 x := by
  obtain ⟨e, o, hx, hl, hlo, hhi⟩ := h
  refine ⟨e + 1, o, ?_, by omega, ?_, ?_⟩
  · rw [hx]; congr 1; push_cast; ring
  · rw [pow_succ]
    calc a * (c.buf_branch.toNat ^ e * c.buf_branch.toNat)
        = a * c.buf_branch.toNat * c.buf_branch.toNat ^ e := by ring
      _ ≤ o := hlo
  · rw [pow_succ]
    calc o < (a * c.buf_branch.toNat + c.buf_branch.toNat) * c.buf_branch.toNat ^ e := hhi
      _ = (a + 1) * (c.buf_branch.toNat ^ e * c.buf_branch.toNat) := by ring

theorem in_subtrees_disjoint (c : ab_conf_t) (lev a n a1 n1 : Nat) (x : Int × Int)
    (h : in_subtrees c lev a n x) (h1 : in_subtrees c lev a1 n1 x) (hle : a + n ≤ a1) :
    False := by
  obtain ⟨e, o, hx, _, _, hhi⟩ := h
  obtain ⟨e1, o1, hx1, _, hlo1, _⟩ := h1
  rw [hx] at hx1
  have he : e = e1 := by
    have := congrArg Prod.fst hx1
    simp only at this
    omega
  have ho : o = o1 := by
    have := congrArg Prod.snd hx1
    simp only at this
    omega
  subst he ho
  have := Nat.mul_le_mul_right (c.buf_branch.toNat ^ e) hle
  omega

theorem in_subtrees_level (c : ab_conf_t) (lev a n : Nat) (x : Int × Int)
    (h : in_subtrees c lev a n x) : (lev : Int) ≤ x.1 := by
  obtain ⟨e, o, hx, _, _, _⟩ := h
  rw [hx]; simp

/-- The entries visited from the entry `j` of a group on are distinct entries of the
subtrees below the rest of the group; the loop then goes on as the recursive
description says. -/
theorem scan_visits_dfs (c : ab_conf_t) (hc : conf_ok c) (bsize : Nat) (occ : List Nat)
    (size : Nat) (sizes : List Nat) :
    ∀ d rem lev base j : Nat, lev + d + 1 = c.buf_depth.toNat →
      j + rem = group_size c lev → group_size c lev ∣ base →
      base + group_size c lev ≤ level_width c lev →
      ∃ cst L, cst ≤ rem * (1 + group_iters c.buf_branch.toNat d) ∧ L.Nodup ∧
        (∀ x ∈ L, in_subtrees c lev (base + j) rem x) ∧ ∀ fuel,
        scan_visits c bsize occ size sizes (lev : Int) (base : Int)
            ((group_size c lev : Nat) : Int) rem (j : Int) ++
          after_scan_visits c bsize occ size sizes (fuel + cst) (lev : Int) (base : Int)
            ((group_size c lev : Nat) : Int)
            (scan c bsize occ size sizes (lev : Int) (base : Int)
              ((group_size c lev : Nat) : Int) rem (j : Int)) =
        L ++ finish_visits c bsize occ size sizes fuel lev base
          (dfs_group c bsize occ size sizes (dfs_child c bsize occ size sizes d) lev base
            rem j) := by
  have hB : ((c.buf_branch.toNat : Nat) : Int) = c.buf_branch :=
    Int.toNat_of_nonneg (by have := hc.2.1; omega)
  have hBpos : 0 < c.buf_branch := by have := hc.2.1; omega
  intro d
  induction d using Nat.strong_induction_on with
  | _ d ihd =>
  intro rem
  induction rem with
  | zero =>
    intro lev base j hd hj _ _
    refine ⟨0, [], Nat.zero_le _, List.nodup_nil, by simp, ?_⟩
    intro fuel
    have hjk : ¬ ((j : Int) < ((group_size c lev : Nat) : Int)) := by omega
    simp only [scan_visits, scan, if_neg hjk, after_scan_visits, dfs_group, finish_visits,
      add_zero, List.nil_append]
    rfl
  | succ r ihr =>
    intro lev base j hd hj hdiv hwid
    have hjk : (j : Int) < ((group_size c lev : Nat) : Int) := by omega
    have hlev : lev < c.buf_depth.toNat := by omega
    have hnode : in_subtrees c lev (base + j) (r + 1) ((lev : Int), (base : Int) + (j : Int)) := by
      have := in_subtrees_node c lev (base + j) (r + 1) hlev (by omega)
      push_cast at this
      exact this
    have hnext := ihr lev base (j + 1) hd (by omega) hdiv hwid
    have hone : ∃ cst L, cst ≤ (r + 1) * (1 + group_iters c.buf_branch.toNat d) ∧ L.Nodup ∧
        (∀ x ∈ L, in_subtrees c lev (base + j) (r + 1) x) ∧
        L = [((lev : Int), (base : Int) + (j : Int))] ∧ cst = 0 :=
      ⟨0, _, Nat.zero_le _, List.nodup_singleton _, by
        intro x hx
        rw [List.mem_singleton] at hx
        rw [hx]; exact hnode, rfl, rfl⟩
    simp only [scan_visits, scan, if_pos hjk, dfs_group]
    cases hp : probe c bsize occ size sizes (lev : Int) ((base : Int) + (j : Int)) with
    | fail =>
      obtain ⟨cst, L, h1, h2, h3, rfl, rfl⟩ := hone
      exact ⟨0, _, h1, h2, h3, fun fuel => by simp [after_scan_visits, finish_visits]⟩
    | undef =>
      obtain ⟨cst, L, h1, h2, h3, rfl, rfl⟩ := hone
      exact ⟨0, _, h1, h2, h3, fun fuel => by simp [after_scan_visits, finish_visits]⟩
    | found m p =>
      obtain ⟨_, hm0, _⟩ := probe_found_range c bsize occ size sizes _ _ m p hp
      obtain ⟨cst, L, h1, h2, h3, rfl, rfl⟩ := hone
      refine ⟨0, _, h1, h2, h3, fun fuel => ?_⟩
      simp only [after_scan_visits, finish_visits]
      rw [if_pos (by omega)]
    | shift =>
      obtain ⟨cst, L2, hcst, hnd, hreg, h⟩ := hnext
      refine ⟨cst, ((lev : Int), (base : Int) + (j : Int)) :: L2,
        le_trans hcst (Nat.mul_le_mul_right _ (by omega)), ?_, ?_, fun fuel => ?_⟩
      · refine List.nodup_cons.2 ⟨fun hmem => ?_, hnd⟩
        have h1 := hreg _ hmem
        have h2 := in_subtrees_node c lev (base + j) 1 hlev (by omega)
        push_cast at h2
        exact in_subtrees_disjoint c lev (base + j) 1 (base + (j + 1)) r _ h2 h1 (by omega)
      · intro x hx
        rcases List.mem_cons.1 hx with hx | hx
        · rw [hx]; exact hnode
        · exact in_subtrees_mono c lev _ _ _ _ x (hreg x hx) (by omega) (by omega)
      · have := h fuel
        push_cast at this
        simp only [List.cons_append]
        rw [this]
    | descend =>
      have hlevd := probe_descend_level c bsize occ size sizes _ _ hp
      obtain ⟨d1, rfl⟩ : ∃ d1, d = d1 + 1 := ⟨d - 1, by omega⟩
      simp only
      by_cases hchk : ab_get_1st_child c (lev : Int) ((base : Int) + (j : Int)) < 0 ∨
          ab_get_1st_child c (lev : Int) ((base : Int) + (j : Int)) ≥ (size : Int)
      · obtain ⟨cst, L, h1, h2, h3, rfl, rfl⟩ := hone
        refine ⟨0, _, h1, h2, h3, fun fuel => ?_⟩
        simp only [after_scan_visits, finish_visits]
        rw [if_neg (by omega), if_pos hjk, if_pos hchk, if_pos hchk]
      · rw [if_neg hchk]
        have hchild_val : ab_get_1st_child c (lev : Int) ((base : Int) + (j : Int)) =
            ((((base + j) * c.buf_branch.toNat : Nat) : Int)) + ((0 : Nat) : Int) := by
          unfold ab_get_1st_child
          rw [if_pos ⟨by omega, by omega, by omega, hBpos⟩]
          have hcw := child_lt_width c lev (base + j) 0 (by omega) (by omega)
          have hw31 := level_width_lt_int c hc (lev + 1) (by omega)
          have e : ((base : Int) + (j : Int)) * c.buf_branch =
              (((base + j) * c.buf_branch.toNat : Nat) : Int) := by
            push_cast; rw [hB]
          rw [e, int_wrap_natCast _ (by omega)]
          simp
        have hgs1 : group_size c (lev + 1) = c.buf_branch.toNat := by
          unfold group_size; rw [if_neg (by omega)]
        have hchild := ihd d1 (by omega) c.buf_branch.toNat (lev + 1)
          ((base + j) * c.buf_branch.toNat) 0 (by omega) (by rw [hgs1]; omega)
          (by rw [hgs1]; exact Dvd.intro_left _ rfl)
          (by
            rw [hgs1, level_width_succ]
            calc (base + j) * c.buf_branch.toNat + c.buf_branch.toNat
                = (base + j + 1) * c.buf_branch.toNat := by ring
              _ ≤ level_width c lev * c.buf_branch.toNat :=
                Nat.mul_le_mul_right _ (by omega))
        obtain ⟨c1, L1, hc1, hnd1, hreg1, h1⟩ := hchild
        have hdesc : ∀ f, after_scan_visits c bsize occ size sizes (f + 1) (lev : Int)
            (base : Int) ((group_size c lev : Nat) : Int) (scan_t.exit (j : Int) (-1) none) =
            scan_visits c bsize occ size sizes ((lev + 1 : Nat) : Int)
                ((((base + j) * c.buf_branch.toNat : Nat)) : Int)
                ((group_size c (lev + 1) : Nat) : Int) c.buf_branch.toNat ((0 : Nat) : Int) ++
              after_scan_visits c bsize occ size sizes f ((lev + 1 : Nat) : Int)
                ((((base + j) * c.buf_branch.toNat : Nat)) : Int)
                ((group_size c (lev + 1) : Nat) : Int)
                (scan c bsize occ size sizes ((lev + 1 : Nat) : Int)
                  ((((base + j) * c.buf_branch.toNat : Nat)) : Int)
                  ((group_size c (lev + 1) : Nat) : Int) c.buf_branch.toNat
                  ((0 : Nat) : Int)) := by
          intro f
          simp only [after_scan_visits]
          rw [if_neg (by omega), if_pos hjk, if_neg hchk, hchild_val]
          have := search_visits_head c hc bsize occ size sizes f (lev + 1)
            ((base + j) * c.buf_branch.toNat) 0 0 (by omega)
            (by rw [hgs1]; exact Dvd.intro_left _ rfl) (by rw [hgs1]; omega)
          rw [hgs1] at this ⊢
          simp only [add_zero, Nat.sub_zero] at this
          push_cast at this ⊢
          exact this
        have hchild_def : dfs_child c bsize occ size sizes (d1 + 1) (lev + 1)
            ((base + j) * c.buf_branch.toNat) =
            dfs_group c bsize occ size sizes (dfs_child c bsize occ size sizes d1) (lev + 1)
              ((base + j) * c.buf_branch.toNat) c.buf_branch.toNat 0 := rfl
        rw [← hchild_def] at h1
        have hbound1 : c1 + 2 ≤ 1 + group_iters c.buf_branch.toNat (d1 + 1) := by
          rw [group_iters_succ]; omega
        have hreg1' : ∀ x ∈ L1, in_subtrees c lev (base + j) 1 x := by
          intro x hx
          have := hreg1 x hx
          simp only [add_zero] at this
          exact in_subtrees_child c lev (base + j) x this
        have hnot1 : ((lev : Int), (base : Int) + (j : Int)) ∉ L1 := by
          intro hmem
          have := in_subtrees_level c _ _ _ _ (hreg1 _ hmem)
          simp only at this
          push_cast at this
          omega
        have hnd_one : (((lev : Int), (base : Int) + (j : Int)) :: L1).Nodup :=
          List.nodup_cons.2 ⟨hnot1, hnd1⟩
        have hreg_one : ∀ x ∈ ((lev : Int), (base : Int) + (j : Int)) :: L1,
            in_subtrees c lev (base + j) (r + 1) x := by
          intro x hx
          rcases List.mem_cons.1 hx with hx | hx
          · rw [hx]; exact hnode
          · exact in_subtrees_mono c lev _ _ _ _ x (hreg1' x hx) (le_refl _) (by omega)
        cases hr : dfs_child c bsize occ size sizes (d1 + 1) (lev + 1)
            ((base + j) * c.buf_branch.toNat) with
        | none =>
          rw [hr] at h1
          simp only
          by_cases hchk2 : ab_get_parent c ((lev : Int) + 1)
              (((base + j) * c.buf_branch.toNat : Nat) : Int) < 0 ∨
              ab_get_parent c ((lev : Int) + 1)
                (((base + j) * c.buf_branch.toNat : Nat) : Int) ≥ (size : Int)
          · refine ⟨c1 + 1, _, ?_, hnd_one, hreg_one, fun fuel => ?_⟩
            · rw [Nat.succ_mul]; omega
            · rw [if_pos hchk2, ← add_assoc, hdesc, h1]
              have hfin : finish_visits c bsize occ size sizes fuel (lev + 1)
                  ((base + j) * c.buf_branch.toNat) dfs_t.none = [] := by
                simp only [finish_visits]
                push_cast at hchk2 ⊢
                rw [if_pos (by omega), if_pos hchk2]
              rw [hfin]
              simp [finish_visits]
          · rw [if_neg hchk2]
            obtain ⟨c2, L2, hc2, hnd2, hreg2, h2⟩ := hnext
            refine ⟨c2 + 1 + c1 + 1, ((lev : Int), (base : Int) + (j : Int)) :: (L1 ++ L2),
              ?_, ?_, ?_, fun fuel => ?_⟩
            · rw [Nat.succ_mul]; omega
            · refine List.nodup_cons.2 ⟨?_, List.nodup_append.2 ⟨hnd1, hnd2, ?_⟩⟩
              · intro hmem
                rcases List.mem_append.1 hmem with hm | hm
                · exact hnot1 hm
                · have h3 := hreg2 _ hm
                  have h4 := in_subtrees_node c lev (base + j) 1 hlev (by omega)
                  push_cast at h4
                  exact in_subtrees_disjoint c lev (base + j) 1 (base + (j + 1)) r _ h4 h3
                    (by omega)
              · intro x hx1 hx2
                exact in_subtrees_disjoint c lev (base + j) 1 (base + (j + 1)) r x
                  (hreg1' x hx1) (hreg2 x hx2) (by omega)
            · intro x hx
              rcases List.mem_cons.1 hx with hx | hx
              · rw [hx]; exact hnode
              · rcases List.mem_append.1 hx with hm | hm
                · exact in_subtrees_mono c lev _ _ _ _ x (hreg1' x hm) (le_refl _) (by omega)
                · exact in_subtrees_mono c lev _ _ _ _ x (hreg2 x hm) (by omega) (by omega)
            · have hfin : finish_visits c bsize occ size sizes (fuel + c2 + 1) (lev + 1)
                  ((base + j) * c.buf_branch.toNat) dfs_t.none =
                  scan_visits c bsize occ size sizes (lev : Int) (base : Int)
                      ((group_size c lev : Nat) : Int) r ((j + 1 : Nat) : Int) ++
                    after_scan_visits c bsize occ size sizes (fuel + c2) (lev : Int)
                      (base : Int) ((group_size c lev : Nat) : Int)
                      (scan c bsize occ size sizes (lev : Int) (base : Int)
                        ((group_size c lev : Nat) : Int) r ((j + 1 : Nat) : Int)) := by
                simp only [finish_visits]
                push_cast at hchk2 ⊢
                rw [if_pos (by omega), if_neg hchk2]
                have hpar : ab_get_parent c ((lev : Int) + 1)
                    (((base : Int) + (j : Int)) * (c.buf_branch.toNat : Int)) =
                    (base : Int) + (j : Int) := by
                  unfold ab_get_parent
                  rw [if_pos ⟨by omega, by omega, by rw [hB]; positivity, hBpos⟩, hB]
                  exact Int.mul_tdiv_cancel _ (by omega)
                rw [hpar]
                have hh := search_visits_head c hc bsize occ size sizes (fuel + c2) lev base j 1
                  (by omega) hdiv (by omega)
                have e : (lev : Int) + 1 - 1 = (lev : Int) := by omega
                have e2 : group_size c lev - (j + 1) = r := by omega
                rw [e]
                rw [e2] at hh
                push_cast at hh
                exact hh
              have ef : fuel + (c2 + 1 + c1 + 1) = (fuel + c2 + 1 + c1) + 1 := by omega
              rw [ef, hdesc, h1, hfin, h2 fuel]
              simp only [List.cons_append, List.nil_append, List.append_assoc]
        | fail code =>
          rw [hr] at h1
          refine ⟨c1 + 1, _, by rw [Nat.succ_mul]; omega, hnd_one, hreg_one, fun fuel => ?_⟩
          rw [← add_assoc, hdesc, h1]
          simp [finish_visits]
        | undef =>
          rw [hr] at h1
          refine ⟨c1 + 1, _, by rw [Nat.succ_mul]; omega, hnd_one, hreg_one, fun fuel => ?_⟩
          rw [← add_assoc, hdesc, h1]
          simp [finish_visits]
        | found l1 b1 m1 p1 =>
          rw [hr] at h1
          refine ⟨c1 + 1, _, by rw [Nat.succ_mul]; omega, hnd_one, hreg_one, fun fuel => ?_⟩
          rw [← add_assoc, hdesc, h1]
          simp [finish_visits]

theorem get_buf_finish_returns (TL DU : Int) (c : ab_conf_t) (bsize : Nat) (occ : List Nat)
    (size : Nat) (sizes : List Nat) (i l m : Int) (p : Option Nat) :
    get_buf_finish TL DU c bsize occ size sizes i l m p ≠ exec.timeout := by
  unfold get_buf_finish
  split
  · split
    · simp
    · split
      · simp
      · split <;> simp
  · split
    · simp
    · split <;> simp

/-- With `search_fuel` iterations or more, the entries that the search visits are
distinct entries of the tree. -/
theorem search_visits_nodup (c : ab_conf_t) (hc : conf_ok c) (bsize : Nat) (occ : List Nat)
    (size : Nat) (sizes : List Nat) (fuel : Nat) (hf : search_fuel c ≤ fuel) :
    (search_visits c bsize occ size sizes fuel 0 0 0).Nodup ∧
    ∀ x ∈ search_visits c bsize occ size sizes fuel 0 0 0,
      in_subtrees c 0 0 c.buf_top.toNat x := by
  have hd : 1 ≤ c.buf_depth := hc.2.2.1
  obtain ⟨cst, L, hcst, hnd, hreg, h⟩ := scan_visits_dfs c hc bsize occ size sizes
    (c.buf_depth.toNat - 1) c.buf_top.toNat 0 0 0 (by omega)
    (by rw [group_size_zero]; omega) (dvd_zero _)
    (by rw [group_size_zero]; simp [level_width])
  unfold search_fuel at hf
  obtain ⟨f1, rfl⟩ : ∃ f1, fuel = (f1 + cst) + 1 := ⟨fuel - cst - 1, by omega⟩
  have hh := search_visits_head c hc bsize occ size sizes (f1 + cst) 0 0 0 0 (by omega)
    (dvd_zero _) (group_size_pos c hc 0)
  simp only [Nat.cast_zero, add_zero, Nat.sub_zero] at hh
  rw [hh]
  have h2 := h f1
  simp only [Nat.cast_zero] at h2
  rw [group_size_zero] at h2 ⊢
  rw [h2]
  have hfin : finish_visits c bsize occ size sizes f1 0 0
      (dfs_group c bsize occ size sizes
        (dfs_child c bsize occ size sizes (c.buf_depth.toNat - 1)) 0 0 c.buf_top.toNat 0) =
      [] := by
    cases dfs_group c bsize occ size sizes
      (dfs_child c bsize occ size sizes (c.buf_depth.toNat - 1)) 0 0 c.buf_top.toNat 0 <;>
      simp [finish_visits]
  rw [hfin, List.append_nil]
  refine ⟨hnd, fun x hx => ?_⟩
  have := hreg x hx
  simpa using this

/-! ### The search returns when the arrays can be read -/

theorem arr_get_some (a : List Nat) (i : Int) (h0 : 0 ≤ i) (h1 : i.toNat < a.length) :
    ∃ v, arr_get a i = some v := by
  unfold arr_get
  rw [if_pos h0]
  exact ⟨a.get ⟨i.toNat, h1⟩, List.get?_eq_get h1⟩

theorem arr_set_some (a : List Nat) (i : Int) (v : Nat) (h0 : 0 ≤ i)
    (h1 : i.toNat < a.length) :
    ∃ b, arr_set a i v = some b ∧ b.length = a.length := by
  unfold arr_set
  rw [if_pos ⟨h0, h1⟩]
  exact ⟨_, rfl, List.length_set _ _ _⟩

theorem ab_get_offset_loop_some (c : ab_conf_t) (sizes : List Nat) :
    ∀ (rem : Nat) (j : Int) (acc : Nat), rem ≤ sizes.length →
      ∃ p, ab_get_offset_loop c sizes rem (rem : Int) j acc = some p := by
  intro rem
  induction rem with
  | zero => intro j acc _; exact ⟨acc, rfl⟩
  | succ rem ih =>
    intro j acc hr
    obtain ⟨s, hs⟩ := arr_get_some sizes (((rem + 1 : Nat) : Int) - 1) (by omega) (by omega)
    have e : ((rem + 1 : Nat) : Int) - 1 = (rem : Int) := by omega
    unfold ab_get_offset_loop
    simp only [hs]
    rw [e]
    exact ih _ _ (by omega)

theorem ab_get_offset_some (c : ab_conf_t) (sizes : List Nat) (level off : Int)
    (h0 : 0 ≤ level) (h1 : level.toNat < sizes.length) :
    ∃ p, ab_get_offset c level off sizes = some p := by
  obtain ⟨s, hs⟩ := arr_get_some sizes level h0 h1
  unfold ab_get_offset
  simp only [hs]
  have e : level = ((level.toNat : Nat) : Int) := by omega
  rw [e]
  simp only [Int.toNat_ofNat]
  exact ab_get_offset_loop_some c sizes _ _ _ (by omega)

/-- The body of the inner loop indexes no array outside of its bounds when the
occupancy table has `size` counters or more and the level-size array is followed by a
word that can be read. -/
theorem probe_not_undef (c : ab_conf_t) (bsize : Nat) (occ : List Nat) (size : Nat)
    (sizes : List Nat) (i off : Int) (hi0 : 0 ≤ i) (hi : i < c.buf_depth)
    (hocc : size ≤ occ.length) (hs : c.buf_depth.toNat + 1 ≤ sizes.length) :
    probe c bsize occ size sizes i off ≠ probe_t.undef := by
  unfold probe
  simp only
  split
  · simp
  · rename_i hm
    obtain ⟨s, hs1⟩ := arr_get_some sizes i hi0 (by omega)
    obtain ⟨o, ho⟩ := arr_get_some occ (ab_get_1d_pos c i off) (by omega) (by omega)
    obtain ⟨s1, hs2⟩ := arr_get_some sizes (i + 1) (by omega) (by omega)
    obtain ⟨p, hp⟩ := ab_get_offset_some c sizes i off hi0 (by omega)
    simp only [hs1, ho, hs2, hp]
    split
    · split
      · simp
      · split
        · simp
        · split
          · split <;> simp
          · simp
    · simp

/-- The recursive description of the search of a group indexes no array outside of
its bounds, and an entry that it finds has a level below `buf_depth` and a number
inside the table, when this holds of the search of the groups of children. -/
theorem dfs_group_returns (c : ab_conf_t) (bsize : Nat) (occ : List Nat) (size : Nat)
    (sizes : List Nat) (child : Nat → Nat → dfs_t) (lev base : Nat)
    (hl : lev < c.buf_depth.toNat)
    (hocc : size ≤ occ.length) (hs : c.buf_depth.toNat + 1 ≤ sizes.length)
    (hchild : ∀ b, child (lev + 1) b ≠ dfs_t.undef ∧
      ∀ lev1 b1 m p, child (lev + 1) b = dfs_t.found lev1 b1 m p →
        lev1 < c.buf_depth.toNat ∧ 0 ≤ m ∧ m < (size : Int)) :
    ∀ rem j, dfs_group c bsize occ size sizes child lev base rem j ≠ dfs_t.undef ∧
      ∀ lev1 b1 m p, dfs_group c bsize occ size sizes child lev base rem j =
          dfs_t.found lev1 b1 m p →
        lev1 < c.buf_depth.toNat ∧ 0 ≤ m ∧ m < (size : Int) := by
  intro rem
  induction rem with
  | zero =>
    intro j
    simp [dfs_group]
  | succ rem ih =>
    intro j
    have hp := probe_not_undef c bsize occ size sizes (lev : Int) ((base : Int) + (j : Int))
      (by omega) (by omega) hocc hs
    unfold dfs_group
    cases hpr : probe c bsize occ size sizes (lev : Int) ((base : Int) + (j : Int)) with
    | fail => simp
    | undef => exact absurd hpr hp
    | found m p =>
      have hr := probe_found_range c bsize occ size sizes _ _ m p hpr
      simp only
      refine ⟨by simp, ?_⟩
      intro lev1 b1 m1 p1 h
      cases h
      exact ⟨hl, hr.2.1, hr.2.2⟩
    | shift => exact ih (j + 1)
    | descend =>
      simp only
      split
      · simp
      · have hc1 := hchild ((base + j) * c.buf_branch.toNat)
        cases hch : child (lev + 1) ((base + j) * c.buf_branch.toNat) with
        | undef => exact absurd hch hc1.1
        | fail code => simp
        | found lev2 b2 m2 p2 =>
          simp only
          refine ⟨by simp, ?_⟩
          intro lev1 b1 m p h
          cases h
          exact hc1.2 _ _ _ _ hch
        | none =>
          simp only
          split
          · simp
          · exact ih (j + 1)

theorem dfs_child_returns (c : ab_conf_t) (bsize : Nat) (occ : List Nat) (size : Nat)
    (sizes : List Nat) (hocc : size ≤ occ.length)
    (hs : c.buf_depth.toNat + 1 ≤ sizes.length) :
    ∀ d lev base, lev + d ≤ c.buf_depth.toNat →
      dfs_child c bsize occ size sizes d lev base ≠ dfs_t.undef ∧
      ∀ lev1 b1 m p, dfs_child c bsize occ size sizes d lev base = dfs_t.found lev1 b1 m p →
        lev1 < c.buf_depth.toNat ∧ 0 ≤ m ∧ m < (size : Int) := by
  intro d
  induction d with
  | zero =>
    intro lev base _
    simp [dfs_child]
  | succ d ih =>
    intro lev base hl
    unfold dfs_child
    exact dfs_group_returns c bsize occ size sizes _ lev base (by omega) hocc hs
      (fun b => ih (lev + 1) b (by omega)) _ _

theorem dfs_top_returns (c : ab_conf_t) (bsize : Nat) (occ : List Nat) (size : Nat)
    (sizes : List Nat) (hd : 1 ≤ c.buf_depth) (hocc : size ≤ occ.length)
    (hs : c.buf_depth.toNat + 1 ≤ sizes.length) :
    dfs_top c bsize occ size sizes ≠ dfs_t.undef ∧
      ∀ lev1 b1 m p, dfs_top c bsize occ size sizes = dfs_t.found lev1 b1 m p →
        lev1 < c.buf_depth.toNat ∧ 0 ≤ m ∧ m < (size : Int) := by
  unfold dfs_top
  exact dfs_group_returns c bsize occ size sizes _ 0 0 (by omega) hocc hs
    (fun b => dfs_child_returns c bsize occ size sizes hocc hs _ _ b (by omega)) _ _

theorem occupy_parents_some (c : ab_conf_t) (size : Nat) (k : Int) :
    ∀ (rem : Nat) (i l : Int) (occ : List Nat), size ≤ occ.length →
      ∃ r, occupy_parents c size k rem i l occ = some r := by
  intro rem
  induction rem with
  | zero => intro i l occ _; exact ⟨_, rfl⟩
  | succ rem ih =>
    intro i l occ hocc
    unfold occupy_parents
    simp only
    split
    · exact ⟨_, rfl⟩
    · rename_i hm
      obtain ⟨o, ho⟩ := arr_get_some occ (ab_get_1d_pos c (i - 1) (ab_get_parent c i l))
        (by omega) (by omega)
      obtain ⟨occ1, h1, h2⟩ := arr_set_some occ (ab_get_1d_pos c (i - 1) (ab_get_parent c i l))
        (size_t_add o (size_t_of_int k)) (by omega) (by omega)
      simp only [ho, h1]
      exact ih _ _ _ (by omega)

theorem get_buf_finish_ret (TL DU : Int) (c : ab_conf_t) (bsize : Nat) (occ : List Nat)
    (size : Nat) (sizes : List Nat) (i l m : Int) (p : Option Nat)
    (hocc : size ≤ occ.length) (hs : c.buf_depth.toNat + 1 ≤ sizes.length)
    (hi : m ≥ 0 ∧ m < (size : Int) → 0 ≤ i ∧ i < c.buf_depth) :
    ∃ r, get_buf_finish TL DU c bsize occ size sizes i l m p = exec.ret r := by
  unfold get_buf_finish
  split
  · rename_i hm
    have hi1 := hi hm
    obtain ⟨s, hs1⟩ := arr_get_some sizes i hi1.1 (by omega)
    obtain ⟨occ1, h1, h2⟩ := arr_set_some occ m (size_t_of_int (int_of_size_t s)) (by omega)
      (by omega)
    obtain ⟨r, hr⟩ := occupy_parents_some c size (int_of_size_t s) i.toNat i l occ1 (by omega)
    simp only [hs1, h1, hr]
    exact ⟨_, rfl⟩
  · obtain ⟨s, hs1⟩ := arr_get_some sizes 0 (by omega) (by simp; omega)
    simp only [hs1]
    split <;> exact ⟨_, rfl⟩

/-! ### The loops with a log are the loops -/

theorem scan_traced_fst (c : ab_conf_t) (bsize : Nat) (occ : List Nat) (size : Nat)
    (sizes : List Nat) (i l k : Int) :
    ∀ rem j, (scan_traced c bsize occ size sizes i l k rem j).1 =
      scan c bsize occ size sizes i l k rem j := by
  intro rem
  induction rem with
  | zero => intro j; rfl
  | succ rem ih =>
    intro j
    unfold scan_traced scan
    split
    · cases probe c bsize occ size sizes i (l + j) <;> simp only
      exact ih (j + 1)
    · rfl

theorem scan_traced_snd (c : ab_conf_t) (bsize : Nat) (occ : List Nat) (size : Nat)
    (sizes : List Nat) (i l k : Int) :
    ∀ rem j, (scan_traced c bsize occ size sizes i l k rem j).2 =
      scan_visits c bsize occ size sizes i l k rem j := by
  intro rem
  induction rem with
  | zero => intro j; rfl
  | succ rem ih =>
    intro j
    unfold scan_traced scan_visits
    split
    · cases probe c bsize occ size sizes i (l + j) <;> simp only
      rw [ih (j + 1)]
    · rfl

theorem search_traced_fst (c : ab_conf_t) (bsize : Nat) (occ : List Nat) (size : Nat)
    (sizes : List Nat) :
    ∀ fuel i l n, (search_traced c bsize occ size sizes fuel i l n).1 =
      search c bsize occ size sizes fuel i l n := by
  intro fuel
  induction fuel with
  | zero => intro i l n; rfl
  | succ fuel ih =>
    intro i l n
    unfold search_traced search
    simp only [scan_traced_fst]
    split
    · split
      · rename_i h; simp only [h]
      · rename_i h; simp only [h]
      · rename_i h; simp only [h]
      · rename_i h
        try simp only [h]
        split_ifs <;> first | rfl | exact ih _ _ _
    · rfl

theorem search_traced_snd (c : ab_conf_t) (bsize : Nat) (occ : List Nat) (size : Nat)
    (sizes : List Nat) :
    ∀ fuel i l n, (search_traced c bsize occ size sizes fuel i l n).2 =
      search_visits c bsize occ size sizes fuel i l n := by
  intro fuel
  induction fuel with
  | zero => intro i l n; rfl
  | succ fuel ih =>
    intro i l n
    unfold search_traced search_visits
    simp only [scan_traced_fst, scan_traced_snd]
    split
    · split
      · rename_i h; first | rfl | simp only [h, List.append_nil]
      · rename_i h; first | rfl | simp only [h, List.append_nil]
      · rename_i h; first | rfl | simp only [h, List.append_nil]
      · rename_i h
        try simp only [h]
        split_ifs <;> first | rfl | simp only [List.append_nil, ih]
    · rfl

/-- C37, amended (the allocator search terminates): for a configuration with
`top >= 1`, `branch >= 1`, `depth >= 1` and fewer than `2^31` entries, whatever the
occupancy table, its declared size, the level-size array and the request size are,
the search loop of `get_buf_entry` does not run out of fuel when it is given
`search_fuel` iterations or more, and its result does not depend on the amount of
fuel. When the occupancy table holds `size` counters or more and the level-size array
is followed by one more word that can be read (the loop reads `blck_sizes[i+1]` at the
deepest level too, for an entry whose counter is not 0), the loop returns, and so does
`get_buf_entry`. `search_traced` is the loop with a log of the entries for which the
body of the inner loop runs: its first component is the result of the loop, and the
logged entries are distinct entries `(l, o)` of the tree (`l < depth`,
`o < top*branch^l`), so each entry is visited at most once per call. -/
theorem search_terminates (TRY_LATER DEVICE_UNABLE : Int) (c : ab_conf_t)
    (hT : 1 ≤ c.buf_top) (hB : 1 ≤ c.buf_branch) (hD : 1 ≤ c.buf_depth)
    (hint : total_entries c < 2 ^ 31)
    (bsize : Nat) (occ : List Nat) (size : Nat) (sizes : List Nat) (fuel : Nat)
    (hf : search_fuel c ≤ fuel) :
    search c bsize occ size sizes fuel 0 0 0 ≠ exec.timeout ∧
    search c bsize occ size sizes fuel 0 0 0 =
      search c bsize occ size sizes (search_fuel c) 0 0 0 ∧
    get_buf_entry_fuel TRY_LATER DEVICE_UNABLE fuel c bsize occ size sizes =
      get_buf_entry TRY_LATER DEVICE_UNABLE c bsize occ size sizes ∧
    get_buf_entry TRY_LATER DEVICE_UNABLE c bsize occ size sizes ≠ exec.timeout ∧
    (size ≤ occ.length → c.buf_depth.toNat + 1 ≤ sizes.length →
      (∃ r, search c bsize occ size sizes fuel 0 0 0 = exec.ret r) ∧
      ∃ r, get_buf_entry TRY_LATER DEVICE_UNABLE c bsize occ size sizes = exec.ret r) ∧
    (∀ f i l n, (search_traced c bsize occ size sizes f i l n).1 =
      search c bsize occ size sizes f i l n) ∧
    (search_traced c bsize occ size sizes fuel 0 0 0).2.Nodup ∧
    (∀ x ∈ (search_traced c bsize occ size sizes fuel 0 0 0).2,
      ∃ l o : Nat, x = ((l : Int), (o : Int)) ∧ l < c.buf_depth.toNat ∧
        o < level_width c l) := by
  have hc : conf_ok c := ⟨hT, hB, hD, hint⟩
  refine ⟨?_, ?_, get_buf_entry_fuel_enough TRY_LATER DEVICE_UNABLE c hc bsize occ size sizes
    fuel hf, ?_, ?_, search_traced_fst c bsize occ size sizes, ?_, ?_⟩
  · rw [search_eq_dfs c hc bsize occ size sizes fuel hf]
    cases dfs_top c bsize occ size sizes <;> simp
  · rw [search_eq_dfs c hc bsize occ size sizes fuel hf,
      search_eq_dfs c hc bsize occ size sizes _ (le_refl _)]
  · rw [get_buf_entry_eq TRY_LATER DEVICE_UNABLE c hc bsize occ size sizes]
    cases dfs_top c bsize occ size sizes with
    | fail code => simp
    | undef => simp
    | found lev base m p => exact get_buf_finish_returns _ _ _ _ _ _ _ _ _ _ _
    | none => exact get_buf_finish_returns _ _ _ _ _ _ _ _ _ _ _
  · intro hocc hs
    have hret := dfs_top_returns c bsize occ size sizes hD hocc hs
    rw [search_eq_dfs c hc bsize occ size sizes fuel hf,
      get_buf_entry_eq TRY_LATER DEVICE_UNABLE c hc bsize occ size sizes]
    cases hd : dfs_top c bsize occ size sizes with
    | fail code => exact ⟨⟨_, rfl⟩, ⟨_, rfl⟩⟩
    | undef => exact absurd hd hret.1
    | found lev base m p =>
      have h1 := hret.2 lev base m p hd
      exact ⟨⟨_, rfl⟩, get_buf_finish_ret _ _ _ _ _ _ _ _ _ _ _ hocc hs
        (fun _ => ⟨by omega, by omega⟩)⟩
    | none =>
      exact ⟨⟨_, rfl⟩, get_buf_finish_ret _ _ _ _ _ _ _ _ _ _ _ hocc hs
        (fun _ => ⟨by omega, by omega⟩)⟩
  · rw [search_traced_snd]
    exact (search_visits_nodup c hc bsize occ size sizes fuel hf).1
  · intro x hx
    rw [search_traced_snd] at hx
    obtain ⟨e, o, hxe, hl, _, hhi⟩ :=
      (search_visits_nodup c hc bsize occ size sizes fuel hf).2 x hx
    refine ⟨0 + e, o, hxe, hl, ?_⟩
    unfold level_width
    simpa using hhi

/-- Instance of `search_terminates`: the configuration `top = 3`, `depth = 4`,
`branch = 2` with an occupancy table that does not satisfy the occupancy invariant
(the counter of the entry 0 is more than its size class), a level-size array that is
followed by the word 7, and a request of 0 bytes. -/
theorem search_terminates_witness :
    (∃ r, search ⟨3, 4, 2⟩ 0 ((List.replicate 45 0).set 0 2160000) 45
        [1920000, 960000, 480000, 240000, 7] (search_fuel ⟨3, 4, 2⟩) 0 0 0 = exec.ret r) ∧
    (search_traced ⟨3, 4, 2⟩ 0 ((List.replicate 45 0).set 0 2160000) 45
        [1920000, 960000, 480000, 240000, 7] (search_fuel ⟨3, 4, 2⟩) 0 0 0).2.Nodup :=
  ⟨((search_terminates (-1) (-2) ⟨3, 4, 2⟩ (by decide) (by decide) (by decide) (by decide) 0
      ((List.replicate 45 0).set 0 2160000) 45 [1920000, 960000, 480000, 240000, 7]
      (search_fuel ⟨3, 4, 2⟩) (le_refl _)).2.2.2.2.1 (by decide) (by decide)).1,
    (search_terminates (-1) (-2) ⟨3, 4, 2⟩ (by decide) (by decide) (by decide) (by decide) 0
      ((List.replicate 45 0).set 0 2160000) 45 [1920000, 960000, 480000, 240000, 7]
      (search_fuel ⟨3, 4, 2⟩) (le_refl _)).2.2.2.2.2.2.1⟩

/-- C37 as stated fails for a configuration with `2^31` entries or more. With `top = 1`,
`depth = 3`, `branch = 65537` (4295163907 entries) the first child of the entry
`(1, 65536)` has the offset `65536 * 65537 = 2^32 + 65536`, which `ab_get_1st_child`
returns as 65536, an offset inside the group of the children of the entry `(1, 0)`. On
`looping_table`, for a request of one byte and the size classes 3, 2, 1, the search
goes down from the entry `(1, 65536)`, finds the entry `(2, 65536)` occupied, goes
up to the entry `(1, 0)` and on to the entry `(1, 65536)` again: the loop runs out of
every amount of fuel. -/
theorem search_terminates_counterexample :
    (1 : Int) ≤ (⟨1, 3, 65537⟩ : ab_conf_t).buf_top ∧
    (1 : Int) ≤ (⟨1, 3, 65537⟩ : ab_conf_t).buf_branch ∧
    (1 : Int) ≤ (⟨1, 3, 65537⟩ : ab_conf_t).buf_depth ∧
    total_entries ⟨1, 3, 65537⟩ = 4295163907 ∧
    looping_table.length = 4295163907 ∧
    ab_get_1st_child ⟨1, 3, 65537⟩ 1 65536 = 65536 ∧
    (∀ fuel : Nat, search ⟨1, 3, 65537⟩ 1 looping_table 4295163907 [3, 2, 1] fuel 0 0 0 =
      exec.timeout) ∧
    (∀ fuel : Nat, get_buf_entry_fuel talsh_h_values.TRY_LATER talsh_h_values.DEVICE_UNABLE
      fuel ⟨1, 3, 65537⟩ 1 looping_table 4295163907 [3, 2, 1] = exec.timeout) := by
  refine ⟨by decide, by decide, by decide, by decide, looping_table_length, by decide,
    looping_search, ?_⟩
  intro fuel
  unfold get_buf_entry_fuel
  rewrite [looping_search fuel]
  rfl

/-! ## What a successful `get_buf_entry` returns -/

/-- C34, amended (requests of at least one byte): in a well-formed pool with fewer
than `2^31` entries whose table has one counter per entry and satisfies the occupancy invariant, for every request of
`bsize >= 1` bytes `get_buf_entry` returns, and when its status is 0 the entry it
returns had counter 0 before the call, none of its ancestors was occupied as a whole
before the call, and the table after the call satisfies the occupancy invariant
again. A request of 0 bytes is left out: it is also served below an entry that is
occupied as a whole. A pool with `2^31` entries or more is left out: there the entry
numbers leave the range of `int`. -/
theorem get_buf_entry_free_entry (TRY_LATER DEVICE_UNABLE : Int) (c : ab_conf_t)
    (pool_size : Nat) (sizes T : List Nat) (bsize : Nat)
    (hwf : well_formed c pool_size sizes) (hint : total_entries c < 2 ^ 31)
    (hT : T.length = total_entries c)
    (hinv : occupancy_invariant c sizes T) (hb : 1 ≤ bsize)
    (hTL : TRY_LATER ≠ 0) (hDU : DEVICE_UNABLE ≠ 0) :
    ∃ r, get_buf_entry TRY_LATER DEVICE_UNABLE c bsize T (total_entries c) sizes =
        exec.ret r ∧
      (r.status = 0 →
        ∃ t o, t < c.buf_depth.toNat ∧ o < level_width c t ∧
          r.entry_num = ((entry_index c t o : Nat) : Int) ∧
          occ_at c T t o = 0 ∧
          (∀ l < t, ¬ whole_occupied c sizes T l (o / c.buf_branch.toNat ^ (t - l))) ∧
          occupancy_invariant c sizes r.ab_occ) := by
  have h : pool_ok c pool_size sizes := ⟨hwf, hint⟩
  have hle := inv_le c pool_size sizes T h hinv
  by_cases hbig : blck_size sizes 0 < bsize
  · rw [get_buf_entry_beyond_top TRY_LATER DEVICE_UNABLE c pool_size sizes T bsize hwf hT hle
      hbig]
    exact ⟨_, rfl, fun h0 => absurd h0 hDU⟩
  · obtain ⟨t, ht⟩ := target_level_exists c pool_size sizes bsize h (by omega)
    have hdeep := inv_deep c pool_size sizes T bsize t h hinv hb ht.1
    rcases get_buf_entry_spec TRY_LATER DEVICE_UNABLE c pool_size sizes T bsize t h hT ht
      hdeep with ⟨o, ho, hav, _, hr⟩ | ⟨_, hr⟩
    · rw [hr]
      refine ⟨_, rfl, fun _ => ⟨t, o, ht.1, ho, rfl, ?_, ?_, ?_⟩⟩
      · exact hav.1
      · exact ((avail_iff_reachable_free c pool_size sizes T bsize t o h hinv hb ht ho).1
          hav).2
      · have hanc := avail_anc_lt c pool_size sizes T bsize t o h hle hb ht.1 ho hav
        have hpa := table_after_get_path_add c pool_size sizes T h hT hle t o ht.1 ho hav.1
        exact (inv_after_get c pool_size sizes T _ h hinv t o ht.1 ho hav.1 hanc hpa).1
    · rw [hr]
      exact ⟨_, rfl, fun h0 => absurd h0 hTL⟩

/-- Instance of `get_buf_entry_free_entry`: the pool of 5,760,000 bytes with `top = 3`,
`depth = 4`, `branch = 2`, in which the first entry of level 2 is occupied, and a
request of 100 bytes. -/
theorem get_buf_entry_free_entry_witness :
    ∃ r, get_buf_entry (-1) (-2) ⟨3, 4, 2⟩ 100
        ((((List.replicate 45 0).set 9 480000).set 3 480000).set 0 480000)
        (total_entries ⟨3, 4, 2⟩) [1920000, 960000, 480000, 240000] = exec.ret r ∧
      (r.status = 0 →
        ∃ t o, t < (4 : Int).toNat ∧ o < level_width ⟨3, 4, 2⟩ t ∧
          r.entry_num = ((entry_index ⟨3, 4, 2⟩ t o : Nat) : Int) ∧
          occ_at ⟨3, 4, 2⟩
            ((((List.replicate 45 0).set 9 480000).set 3 480000).set 0 480000) t o = 0 ∧
          (∀ l < t, ¬ whole_occupied ⟨3, 4, 2⟩ [1920000, 960000, 480000, 240000]
            ((((List.replicate 45 0).set 9 480000).set 3 480000).set 0 480000) l
            (o / (2 : Int).toNat ^ (t - l))) ∧
          occupancy_invariant ⟨3, 4, 2⟩ [1920000, 960000, 480000, 240000] r.ab_occ) :=
  get_buf_entry_free_entry (-1) (-2) ⟨3, 4, 2⟩ 5760000 [1920000, 960000, 480000, 240000]
    ((((List.replicate 45 0).set 9 480000).set 3 480000).set 0 480000) 100
    (by decide) (by decide) (by decide) (by decide) (by decide) (by decide) (by decide)

end TALSH
